import Mathlib

/-! # Modbus serial analyzer: checksum engine and message decoder

A shallow embedding of `ModbusAnalyzer.cpp` (saleae/modbus-analyzer).

Machine integers are natural numbers; every place where the C++ truncates
(a `U16`/`U8` parameter, a `U64` sum) carries an explicit `%`.
-/

namespace ModbusAnalyzer

/-! ## Checksum engine -/

/-- One pass of the inner `j` loop of `init_crc16_tab`, on the pair `(crc, c)`. -/
def init_crc16_tab_step (p : Nat × Nat) : Nat × Nat :=
  let crc := p.1
  let c := p.2
  let crc := if (crc ^^^ c) &&& 0x0001 ≠ 0 then (crc >>> 1) ^^^ 0xA001 else crc >>> 1
  (crc, c >>> 1)

/-- The value `init_crc16_tab` stores in `crc_tab16[i]`: `crc = 0`, `c = (U16) i`,
eight passes of the inner loop. -/
def init_crc16_tab_entry (i : Nat) : Nat :=
  (init_crc16_tab_step^[8] (0, i % 65536)).1

/-- The table `init_crc16_tab` fills in, entries `0 .. 255` in order. -/
def init_crc16_tab : List Nat :=
  (List.range 256).map init_crc16_tab_entry

/-- The member `crc_tab16`, as left by the constructor's call of `init_crc16_tab`. -/
def crc_tab16 : List Nat := init_crc16_tab

/-- Source: `U16 update_CRC( U16 crc, U8 c )`: the arguments are truncated to their
parameter types on entry. -/
def update_CRC (crc c : Nat) : Nat :=
  let crc := crc % 65536
  let c := c % 256
  let short_c := 0x00ff &&& c
  let tmp := crc ^^^ short_c
  (crc >>> 8) ^^^ crc_tab16.getD (tmp &&& 0xff) 0

/-- Source: `Checksum = Checksum + b` on the `U64` register of the ASCII branches. -/
def LRC_add (Checksum b : Nat) : Nat :=
  (Checksum + b) % 2 ^ 64

/-- Source: `Checksum = ~Checksum + 1; Checksum = Checksum & 0x00FF;` on the `U64`
register of the ASCII branches. -/
def LRC_finish (Checksum : Nat) : Nat :=
  let Checksum := ((2 ^ 64 - 1 - Checksum % 2 ^ 64) + 1) % 2 ^ 64
  Checksum &&& 0x00FF

/-- The ASCII checksum of a byte list as the parsers compute it: start from
`0x0000`, add every byte, finish. -/
def LRC (bytes : List Nat) : Nat :=
  LRC_finish (bytes.foldl LRC_add 0x0000)

/-- The RTU checksum of a byte list as the parsers compute it: start from
`0xFFFF`, run `update_CRC` over every byte. -/
def CRC (bytes : List Nat) : Nat :=
  bytes.foldl update_CRC 0xFFFF

/-! ### Reference CRC-16/Modbus, bit by bit -/

/-- Reference bit step: shift right by one, XOR `0xA001` when the bit shifted
out is 1. -/
def crc16_bit (x : Nat) : Nat :=
  if x % 2 = 1 then (x >>> 1) ^^^ 0xA001 else x >>> 1

/-- Reference byte step: XOR the byte into the low byte, then eight bit steps. -/
def crc16_byte (crc b : Nat) : Nat :=
  crc16_bit^[8] (crc ^^^ b)

/-- Reference CRC-16/Modbus of a byte list (initial value `0xFFFF`). -/
def crc16_modbus (bytes : List Nat) : Nat :=
  bytes.foldl crc16_byte 0xFFFF

/-! ## Settings, frames and the analyzer state -/

/-- Source: `ModbusAnalyzerEnums::Mode`. -/
inductive Mode where
  | ModbusRTUClient
  | ModbusRTUServer
  | ModbusASCIIClient
  | ModbusASCIIServer
  | ModbusRTUBoth
  | ModbusASCIIBoth
  | Normal
  | MpModeMsbZeroMeansAddress
  | MpModeMsbOneMeansAddress
  deriving DecidableEq, Repr

/-- Source: `ModbusAnalyzerEnums::ParityAndStopbits`. -/
inductive ParityAndStopbits where
  | NoneTwo
  | EvenOne
  | OddOne
  | NoneOne
  deriving DecidableEq, Repr

/-- Source: `AnalyzerEnums::ShiftOrder`. -/
inductive ShiftOrder where
  | MsbFirst
  | LsbFirst
  deriving DecidableEq, Repr

/-- The user-modifiable fields of `ModbusAnalyzerSettings`. -/
structure ModbusAnalyzerSettings where
  mInputChannel : Nat
  mBitRate : Nat
  mBitsPerTransfer : Nat
  mShiftOrder : ShiftOrder
  mParity : ParityAndStopbits
  mInverted : Bool
  mAssumeDataStartsWithResponse : Bool
  mUseAutobaud : Bool
  mModbusMode : Mode
  deriving DecidableEq, Repr

/-- The `FLAG_*` constants the worker ORs into `Frame::mFlags`. The header that
defines them is not among the sources, so their values are a parameter of the
embedding. -/
structure FlagBits where
  FLAG_REQUEST_FRAME : Nat
  FLAG_RESPONSE_FRAME : Nat
  FLAG_EXCEPTION_FRAME : Nat
  FLAG_FILE_SUBREQ : Nat
  FLAG_DATA_FRAME : Nat
  FLAG_END_FRAME : Nat
  FLAG_CHECKSUM_ERROR : Nat
  deriving DecidableEq, Repr

/-- Modelled from the spec: `FUNCCODE_READ_COILS` of the absent header, Read Coils (0x01). -/
abbrev FUNCCODE_READ_COILS : Nat := 0x01
/-- Modelled from the spec: `FUNCCODE_READ_DISCRETE_INPUTS` of the absent header, Read Discrete Inputs (0x02). -/
abbrev FUNCCODE_READ_DISCRETE_INPUTS : Nat := 0x02
/-- Modelled from the spec: `FUNCCODE_READ_HOLDING_REGISTERS` of the absent header, Read Holding Registers (0x03). -/
abbrev FUNCCODE_READ_HOLDING_REGISTERS : Nat := 0x03
/-- Modelled from the spec: `FUNCCODE_READ_INPUT_REGISTER` of the absent header, Read Input Registers (0x04). -/
abbrev FUNCCODE_READ_INPUT_REGISTER : Nat := 0x04
/-- Modelled from the spec: `FUNCCODE_WRITE_SINGLE_COIL` of the absent header, Write Single Coil (0x05). -/
abbrev FUNCCODE_WRITE_SINGLE_COIL : Nat := 0x05
/-- Modelled from the spec: `FUNCCODE_WRITE_SINGLE_REGISTER` of the absent header, Write Single Register (0x06). -/
abbrev FUNCCODE_WRITE_SINGLE_REGISTER : Nat := 0x06
/-- Modelled from the spec: `FUNCCODE_READ_EXCEPTION_STATUS` of the absent header, Read Exception Status (0x07). -/
abbrev FUNCCODE_READ_EXCEPTION_STATUS : Nat := 0x07
/-- Modelled from the spec: `FUNCCODE_DIAGNOSTIC` of the absent header, Diagnostic (0x08). -/
abbrev FUNCCODE_DIAGNOSTIC : Nat := 0x08
/-- Modelled from the spec: `FUNCCODE_GET_COM_EVENT_COUNTER` of the absent header, Get Com Event Counter (0x0B). -/
abbrev FUNCCODE_GET_COM_EVENT_COUNTER : Nat := 0x0B
/-- Modelled from the spec: `FUNCCODE_GET_COM_EVENT_LOG` of the absent header, Get Com Event Log (0x0C). -/
abbrev FUNCCODE_GET_COM_EVENT_LOG : Nat := 0x0C
/-- Modelled from the spec: `FUNCCODE_WRITE_MULTIPLE_COILS` of the absent header, Write Multiple Coils (0x0F). -/
abbrev FUNCCODE_WRITE_MULTIPLE_COILS : Nat := 0x0F
/-- Modelled from the spec: `FUNCCODE_WRITE_MULTIPLE_REGISTERS` of the absent header, Write Multiple Registers (0x10). -/
abbrev FUNCCODE_WRITE_MULTIPLE_REGISTERS : Nat := 0x10
/-- Modelled from the spec: `FUNCCODE_REPORT_SERVER_ID` of the absent header, Report Server ID (0x11). -/
abbrev FUNCCODE_REPORT_SERVER_ID : Nat := 0x11
/-- Modelled from the spec: `FUNCCODE_READ_FILE_RECORD` of the absent header, Read File Record (0x14). -/
abbrev FUNCCODE_READ_FILE_RECORD : Nat := 0x14
/-- Modelled from the spec: `FUNCCODE_WRITE_FILE_RECORD` of the absent header, Write File Record (0x15). -/
abbrev FUNCCODE_WRITE_FILE_RECORD : Nat := 0x15
/-- Modelled from the spec: `FUNCCODE_MASK_WRITE_REGISTER` of the absent header, Mask Write Register (0x16). -/
abbrev FUNCCODE_MASK_WRITE_REGISTER : Nat := 0x16
/-- Modelled from the spec: `FUNCCODE_READWRITE_MULTIPLE_REGISTERS` of the absent header, Read/Write Multiple Registers (0x17). -/
abbrev FUNCCODE_READWRITE_MULTIPLE_REGISTERS : Nat := 0x17
/-- Modelled from the spec: `FUNCCODE_READ_FIFO_QUEUE` of the absent header, Read FIFO Queue (0x18). -/
abbrev FUNCCODE_READ_FIFO_QUEUE : Nat := 0x18

/-- The SDK `Frame` record; `Frame frame;` starts with every field zero. -/
structure Frame where
  mStartingSampleInclusive : Nat := 0
  mEndingSampleInclusive : Nat := 0
  mData1 : Nat := 0
  mData2 : Nat := 0
  mFlags : Nat := 0
  deriving DecidableEq, Repr

/-- One serial character as the bit-level reader delivers it: the sampled data
bits, the sample number of the start-bit edge, and the sample number of the
last stop-bit probe. -/
structure SerialChar where
  data : Nat
  start : Nat
  stop : Nat
  deriving DecidableEq, Repr

/-- The mutable state the worker threads through one run: the characters still
to come on the channel, the two `U64` locals `starting_frame` / `ending_frame`
that `GetNextByteModbus` writes through its reference parameters, and the frames
committed to `mResults` so far (oldest first). -/
structure Analyzer where
  mModbus : List SerialChar
  starting_frame : Nat
  ending_frame : Nat
  mResults : List Frame
  deriving DecidableEq, Repr

/-- Result of running a piece of the worker: it returns a value, or it is left
waiting in `AdvanceToNextEdge` because the channel has no further character. -/
inductive Outcome (α : Type) where
  | ret (a : α) (s : Analyzer)
  | blocked (s : Analyzer)
  deriving Repr

/-- A piece of the worker: a function of the analyzer state. -/
def Worker (α : Type) : Type := Analyzer → Outcome α

/-- Sequencing of worker pieces; a blocked piece blocks the whole. -/
def Worker.bind {α β : Type} (m : Worker α) (f : α → Worker β) : Worker β :=
  fun s =>
    match m s with
    | .ret a s1 => f a s1
    | .blocked s1 => .blocked s1

instance : Monad Worker where
  pure a := fun s => .ret a s
  bind := Worker.bind

/-- Truncation of an arithmetic result to `U64`. -/
def U64 (x : Nat) : Nat := x % 2 ^ 64

/-- Source: `AdvanceToNextEdge` followed by the sampling of one character. -/
def nextChar : Worker SerialChar := fun s =>
  match s.mModbus with
  | [] => .blocked s
  | c :: rest => .ret c { s with mModbus := rest }

/-- Assignment to the reference parameter `frame_starting_sample`. -/
def set_starting_frame (n : Nat) : Worker Unit := fun s =>
  .ret () { s with starting_frame := n }

/-- Assignment to the reference parameter `frame_ending_sample`. -/
def set_ending_frame (n : Nat) : Worker Unit := fun s =>
  .ret () { s with ending_frame := n }

/-- Read of the local `starting_frame`. -/
def get_starting_frame : Worker Nat := fun s => .ret s.starting_frame s

/-- Read of the local `ending_frame`. -/
def get_ending_frame : Worker Nat := fun s => .ret s.ending_frame s

/-- Source: `mResults->AddFrame( f ); mResults->CommitResults();` -/
def AddFrame (f : Frame) : Worker Unit := fun s =>
  .ret () { s with mResults := s.mResults ++ [f] }

/-- The number of characters still to come on the channel (used only to bound
loops of the embedding, never by the analyzer). -/
def chars_left : Worker Nat := fun s => .ret s.mModbus.length s

/-- Conversion of a `U64` to `char` (8 bits, signed). -/
def toChar (x : Nat) : Int :=
  if x % 256 < 128 then (x % 256 : Nat) else ((x % 256 : Nat) : Int) - 256

/-- Source: `int ASCII2INT( char value )`. -/
def ASCII2INT (value : Int) : Int :=
  if value ≥ 0x30 ∧ value ≤ 0x39 then value - 0x30
  else if value ≥ 0x41 ∧ value ≤ 0x46 then value - 0x37
  else if value ≥ 0x61 ∧ value ≤ 0x66 then value - 0x57
  else 0

/-- Conversion of an `int` to `U8`. -/
def toU8 (x : Int) : Nat := (x % 256).toNat

/-- Source: `U64 GetNextByteModbus(...)` at character level. In the three RTU modes one
character is one byte. Otherwise the first character is returned as is when it
is `':'`, `'\n'` or `'\r'` (and `frame_ending_sample` is left untouched), else
it is paired with a second character through `ASCII2INT` (the `<< 4` of a
non-negative `int` is written as a multiplication by `2 ^ 4`). -/
def GetNextByteModbus (mode : Mode) : Worker Nat :=
  if mode = .ModbusRTUClient ∨ mode = .ModbusRTUServer ∨ mode = .ModbusRTUBoth then do
    let c ← nextChar
    set_starting_frame c.start
    let data := c.data
    set_ending_frame c.stop
    return data
  else do
    let c ← nextChar
    set_starting_frame c.start
    let data := c.data
    if data = 0x3A ∨ data = 0x0A ∨ data = 0x0D then
      return data
    else do
      let value : Nat := toU8 (ASCII2INT (toChar data) * 2 ^ 4)
      let c2 ← nextChar
      let data := c2.data
      set_ending_frame c2.stop
      let value : Nat := toU8 ((value : Int) + ASCII2INT (toChar data))
      return value

/-! ## The message parsers of `WorkerThread`

Every `case` group of the two `switch( funccode )` statements is one definition,
with its RTU branch and its ASCII branch written out separately as in the source.
The loop helpers below are shared only between loops whose bodies are the same
statements. -/

/-- The eight-term sum `( b7 << 56 ) + ( b6 << 48 ) + ... + ( b1 << 8 ) + b0` in `U64`. -/
def pack8 (b7 b6 b5 b4 b3 b2 b1 b0 : Nat) : Nat :=
  U64 ((b7 <<< 56) + (b6 <<< 48) + (b5 <<< 40) + (b4 <<< 32) +
       (b3 <<< 24) + (b2 <<< 16) + (b1 <<< 8) + b0)

/-- The test `( ( ( Checksum & 0xFF00 ) >> 8 ) != RecChecksum[ 1 ] ) ||
( ( Checksum & 0x00FF ) != RecChecksum[ 0 ] )` of the RTU branches. -/
def crc_mismatch (Checksum RecChecksum0 RecChecksum1 : Nat) : Bool :=
  (decide (((Checksum &&& 0xFF00) >>> 8) ≠ RecChecksum1)) ||
    (decide ((Checksum &&& 0x00FF) ≠ RecChecksum0))

/-- Source: `frame.mFlags = frame.mFlags | FLAG_CHECKSUM_ERROR` when `bad` holds. -/
def flag_if (K : FlagBits) (bad : Bool) (frame : Frame) : Frame :=
  { frame with mFlags := if bad then frame.mFlags ||| K.FLAG_CHECKSUM_ERROR else frame.mFlags }

/-- The RTU ending of a single-frame message: read `RecChecksum[0]`,
`RecChecksum[1]`, compare with the CRC of `covered`, and return both bytes and
the (possibly flagged) frame. -/
def single_frame_CRC (K : FlagBits) (mode : Mode) (covered : List Nat) (frame : Frame) :
    Worker (Nat × Nat × Frame) := do
  let RecChecksum0 ← GetNextByteModbus mode
  let RecChecksum1 ← GetNextByteModbus mode
  let Checksum := covered.foldl update_CRC 0xFFFF
  let frame := flag_if K (crc_mismatch Checksum RecChecksum0 RecChecksum1) frame
  return (RecChecksum0, RecChecksum1, frame)

/-- The ASCII ending of a single-frame message: `RecChecksum[1] = 0`, read
`RecChecksum[0]`, compare with the LRC of `covered`. -/
def single_frame_LRC (K : FlagBits) (mode : Mode) (covered : List Nat) (frame : Frame) :
    Worker (Nat × Nat × Frame) := do
  let RecChecksum1 := 0x00
  let RecChecksum0 ← GetNextByteModbus mode
  let Checksum := LRC_finish (covered.foldl LRC_add 0x0000)
  let frame := flag_if K (decide (Checksum ≠ RecChecksum0)) frame
  return (RecChecksum0, RecChecksum1, frame)

/-- The RTU ending of a multi-frame message: read `RecChecksum[0]`, turn `frame`
into the END frame starting there, read `RecChecksum[1]`, compare, store the
received checksum in `mData1`. -/
def end_frame_CRC (K : FlagBits) (mode : Mode) (Checksum : Nat) (frame : Frame) :
    Worker Frame := do
  let RecChecksum0 ← GetNextByteModbus mode
  let frame := { frame with mFlags := K.FLAG_END_FRAME }
  let frame := { frame with mStartingSampleInclusive := (← get_starting_frame) }
  let RecChecksum1 ← GetNextByteModbus mode
  let frame := flag_if K (crc_mismatch Checksum RecChecksum0 RecChecksum1) frame
  return { frame with mData1 := U64 ((RecChecksum1 <<< 8) + RecChecksum0) }

/-- The ASCII ending of a multi-frame message: finish the LRC, read
`RecChecksum[0]`, turn `frame` into the END frame, compare, store. -/
def end_frame_LRC (K : FlagBits) (mode : Mode) (Checksum : Nat) (frame : Frame) :
    Worker Frame := do
  let Checksum := LRC_finish Checksum
  let RecChecksum1 := 0x00
  let RecChecksum0 ← GetNextByteModbus mode
  let frame := { frame with mFlags := K.FLAG_END_FRAME }
  let frame := { frame with mStartingSampleInclusive := (← get_starting_frame) }
  let frame := flag_if K (decide (Checksum ≠ RecChecksum0)) frame
  return { frame with mData1 := U64 ((RecChecksum1 <<< 8) + RecChecksum0) }

/-- Source: `frame.mData1 = d; frame.mEndingSampleInclusive = ending_frame;
mResults->AddFrame( frame ); mResults->CommitResults();` of a header frame. -/
def emit_header (frame : Frame) (d : Nat) : Worker Frame := do
  let frame := { frame with mData1 := d }
  let frame := { frame with mEndingSampleInclusive := (← get_ending_frame) }
  AddFrame frame
  return frame

/-- A loop `for( i = 0; i < n; i++ )` that reads one byte per pass and emits it
as a DATA frame (`mData1 = ( 0 << 40 ) + ( byte << 32 )`), updating the checksum
with `upd`; `n` passes, returns the checksum. -/
def data_bytes (K : FlagBits) (mode : Mode) (upd : Nat → Nat → Nat) :
    Nat → Nat → Worker Nat
  | 0, Checksum => pure Checksum
  | n + 1, Checksum => do
    let Payload1_0 ← GetNextByteModbus mode
    let Payload1_1 := 0x00
    let DataFrame : Frame :=
      { mFlags := K.FLAG_DATA_FRAME
        mData1 := U64 ((Payload1_1 <<< 40) + (Payload1_0 <<< 32))
        mStartingSampleInclusive := (← get_starting_frame)
        mEndingSampleInclusive := (← get_ending_frame) }
    let Checksum := upd Checksum Payload1_0
    AddFrame DataFrame
    data_bytes K mode upd n Checksum

/-- One pass of a word loop: read two bytes and emit them as a DATA frame
(`mData1 = ( hi << 40 ) + ( lo << 32 )`, starting at the first byte and ending at
the second), updating the checksum with `upd`. -/
def data_word (K : FlagBits) (mode : Mode) (upd : Nat → Nat → Nat) (Checksum : Nat) :
    Worker Nat := do
  let Payload1_0 ← GetNextByteModbus mode
  let start ← get_starting_frame
  let Payload1_1 ← GetNextByteModbus mode
  let DataFrame : Frame :=
    { mFlags := K.FLAG_DATA_FRAME
      mStartingSampleInclusive := start
      mEndingSampleInclusive := (← get_ending_frame)
      mData1 := U64 ((Payload1_0 <<< 40) + (Payload1_1 <<< 32)) }
  let Checksum := upd (upd Checksum Payload1_0) Payload1_1
  AddFrame DataFrame
  return Checksum

/-- A loop `for( i = 0; i < n; i++ )` whose body is `data_word`; `n` passes,
returns the checksum. -/
def data_words (K : FlagBits) (mode : Mode) (upd : Nat → Nat → Nat) :
    Nat → Nat → Worker Nat
  | 0, Checksum => pure Checksum
  | n + 1, Checksum => do
    let Checksum ← data_word K mode upd Checksum
    data_words K mode upd n Checksum

/-! ### Client side: `switch( funccode )` of the request branch -/

/-- Source: `case FUNCCODE_READ_COILS: ... case FUNCCODE_DIAGNOSTIC:` of the request
switch: four payload bytes, then the checksum; the frame is left for the
dispatcher to commit. -/
def request_READ_COILS (K : FlagBits) (mode : Mode) (devaddr funccode : Nat) (frame : Frame) :
    Worker Frame := do
  let Payload1_0 ← GetNextByteModbus mode
  let Payload1_1 ← GetNextByteModbus mode
  let Payload2_0 ← GetNextByteModbus mode
  let Payload2_1 ← GetNextByteModbus mode
  if mode = .ModbusRTUClient ∨ mode = .ModbusRTUBoth then do
    let (RecChecksum0, RecChecksum1, frame) ← single_frame_CRC K mode
      [devaddr, funccode, Payload1_0, Payload1_1, Payload2_0, Payload2_1] frame
    let d := pack8 devaddr funccode Payload1_0 Payload1_1 Payload2_0 Payload2_1 RecChecksum1 RecChecksum0
    return { frame with mData1 := d }
  else do
    let (RecChecksum0, RecChecksum1, frame) ← single_frame_LRC K mode
      [devaddr, funccode, Payload1_0, Payload1_1, Payload2_0, Payload2_1] frame
    let d := pack8 devaddr funccode Payload1_0 Payload1_1 Payload2_0 Payload2_1 RecChecksum1 RecChecksum0
    return { frame with mData1 := d }

/-- Source: `case FUNCCODE_READ_EXCEPTION_STATUS: ... case FUNCCODE_REPORT_SERVER_ID:` of
the request switch: no payload, only the checksum. -/
def request_READ_EXCEPTION_STATUS (K : FlagBits) (mode : Mode) (devaddr funccode : Nat)
    (frame : Frame) : Worker Frame := do
  let Payload1_0 := 0x00
  let Payload1_1 := 0x00
  let Payload2_0 := 0x00
  let Payload2_1 := 0x00
  if mode = .ModbusRTUClient ∨ mode = .ModbusRTUBoth then do
    let (RecChecksum0, RecChecksum1, frame) ← single_frame_CRC K mode [devaddr, funccode] frame
    let d := pack8 devaddr funccode Payload1_1 Payload1_0 Payload2_1 Payload2_0 RecChecksum1 RecChecksum0
    return { frame with mData1 := d }
  else do
    let (RecChecksum0, RecChecksum1, frame) ← single_frame_LRC K mode [devaddr, funccode] frame
    let d := pack8 devaddr funccode Payload1_0 Payload1_1 Payload2_0 Payload2_1 RecChecksum1 RecChecksum0
    return { frame with mData1 := d }

/-- Source: `case FUNCCODE_WRITE_MULTIPLE_COILS:` of the request switch: four payload
bytes, a byte count, a header frame, `ByteCount[0]` one-byte DATA frames, END. -/
def request_WRITE_MULTIPLE_COILS (K : FlagBits) (mode : Mode) (devaddr funccode : Nat)
    (frame : Frame) : Worker Frame := do
  let Payload1_0 ← GetNextByteModbus mode
  let Payload1_1 ← GetNextByteModbus mode
  let Payload2_0 ← GetNextByteModbus mode
  let Payload2_1 ← GetNextByteModbus mode
  let ByteCount0 ← GetNextByteModbus mode
  let ByteCount1 := 0x00
  if mode = .ModbusRTUClient ∨ mode = .ModbusRTUBoth then do
    let frame ← emit_header frame
      (pack8 devaddr funccode Payload1_0 Payload1_1 Payload2_0 Payload2_1 ByteCount1 ByteCount0)
    let Checksum := [devaddr, funccode, Payload1_0, Payload1_1, Payload2_0, Payload2_1,
      ByteCount0].foldl update_CRC 0xFFFF
    let Checksum ← data_bytes K mode update_CRC ByteCount0 Checksum
    end_frame_CRC K mode Checksum frame
  else do
    let frame ← emit_header frame
      (pack8 devaddr funccode Payload1_0 Payload1_1 Payload2_0 Payload2_1 ByteCount1 ByteCount0)
    let Checksum := [devaddr, funccode, Payload1_0, Payload1_1, Payload2_0, Payload2_1,
      ByteCount0].foldl LRC_add 0x0000
    let Checksum ← data_bytes K mode LRC_add ByteCount0 Checksum
    end_frame_LRC K mode Checksum frame

/-- Source: `case FUNCCODE_WRITE_MULTIPLE_REGISTERS:` of the request switch: as Write
Multiple Coils, with `ByteCount[0] / 2` two-byte DATA frames. -/
def request_WRITE_MULTIPLE_REGISTERS (K : FlagBits) (mode : Mode) (devaddr funccode : Nat)
    (frame : Frame) : Worker Frame := do
  let Payload1_0 ← GetNextByteModbus mode
  let Payload1_1 ← GetNextByteModbus mode
  let Payload2_0 ← GetNextByteModbus mode
  let Payload2_1 ← GetNextByteModbus mode
  let ByteCount0 ← GetNextByteModbus mode
  let ByteCount1 := 0x00
  if mode = .ModbusRTUClient ∨ mode = .ModbusRTUBoth then do
    let frame ← emit_header frame
      (pack8 devaddr funccode Payload1_0 Payload1_1 Payload2_0 Payload2_1 ByteCount1 ByteCount0)
    let Checksum := [devaddr, funccode, Payload1_0, Payload1_1, Payload2_0, Payload2_1,
      ByteCount0].foldl update_CRC 0xFFFF
    let Checksum ← data_words K mode update_CRC (ByteCount0 / 2) Checksum
    end_frame_CRC K mode Checksum frame
  else do
    let frame ← emit_header frame
      (pack8 devaddr funccode Payload1_0 Payload1_1 Payload2_0 Payload2_1 ByteCount1 ByteCount0)
    let Checksum := [devaddr, funccode, Payload1_0, Payload1_1, Payload2_0, Payload2_1,
      ByteCount0].foldl LRC_add 0x0000
    let Checksum ← data_words K mode LRC_add (ByteCount0 / 2) Checksum
    end_frame_LRC K mode Checksum frame

/-- The sub-request header the file-record loops read in every pass: reference
type, file number, record number and record length (seven bytes), emitted as one
FILE_SUBREQ frame. Returns the checksum and `Payload4[0]`, `Payload4[1]`. -/
def file_subreq (K : FlagBits) (mode : Mode) (upd : Nat → Nat → Nat) (Checksum : Nat) :
    Worker (Nat × Nat × Nat) := do
  let Payload1_0 ← GetNextByteModbus mode
  let start ← get_starting_frame
  let Payload1_1 := 0x00
  let Payload2_0 ← GetNextByteModbus mode
  let Payload2_1 ← GetNextByteModbus mode
  let Payload3_0 ← GetNextByteModbus mode
  let Payload3_1 ← GetNextByteModbus mode
  let Payload4_0 ← GetNextByteModbus mode
  let Payload4_1 ← GetNextByteModbus mode
  let DataFrame : Frame :=
    { mFlags := K.FLAG_FILE_SUBREQ
      mStartingSampleInclusive := start
      mEndingSampleInclusive := (← get_ending_frame)
      mData1 := pack8 Payload1_1 Payload1_0 Payload2_0 Payload2_1
                  Payload3_0 Payload3_1 Payload4_0 Payload4_1 }
  let Checksum := [Payload1_0, Payload2_0, Payload2_1, Payload3_0, Payload3_1,
    Payload4_0, Payload4_1].foldl upd Checksum
  AddFrame DataFrame
  return (Checksum, Payload4_0, Payload4_1)

/-- The loop `for( int i = 0; i < n; i = i + 7 )` of the Read File Record
request: one sub-request per pass. The first argument bounds the number of
passes (`n` is always enough). -/
def read_file_request_loop (K : FlagBits) (mode : Mode) (upd : Nat → Nat → Nat) (n : Nat) :
    Nat → Nat → Nat → Worker Nat
  | 0, _, Checksum => pure Checksum
  | fuel + 1, i, Checksum =>
    if i < n then do
      let (Checksum, _, _) ← file_subreq K mode upd Checksum
      read_file_request_loop K mode upd n fuel (i + 7) Checksum
    else
      pure Checksum

/-- The loop `for( int i = 0; i < n; i = i + 9 )` of Write File Record (request
and response): a sub-request header, then `k = reclen Payload4[0] Payload4[1]`
two-byte DATA frames, then `i = i + ( k * 2 )`. The first argument bounds the
number of passes (`n` is always enough). -/
def write_file_loop (K : FlagBits) (mode : Mode) (upd : Nat → Nat → Nat)
    (reclen : Nat → Nat → Nat) (n : Nat) : Nat → Nat → Nat → Worker Nat
  | 0, _, Checksum => pure Checksum
  | fuel + 1, i, Checksum =>
    if i < n then do
      let (Checksum, Payload4_0, Payload4_1) ← file_subreq K mode upd Checksum
      let k := reclen Payload4_0 Payload4_1
      let Checksum ← data_words K mode upd k Checksum
      let i := i + (k * 2)
      write_file_loop K mode upd reclen n fuel (i + 9) Checksum
    else
      pure Checksum

/-- Source: `case FUNCCODE_READ_FILE_RECORD:` of the request switch. -/
def request_READ_FILE_RECORD (K : FlagBits) (mode : Mode) (devaddr funccode : Nat)
    (frame : Frame) : Worker Frame := do
  let Payload1_0 := 0x00
  let Payload1_1 := 0x00
  let Payload2_0 := 0x00
  let Payload2_1 := 0x00
  let ByteCount0 ← GetNextByteModbus mode
  let ByteCount1 := 0x00
  let n := U64 ((ByteCount1 <<< 8) + ByteCount0)
  if mode = .ModbusRTUClient ∨ mode = .ModbusRTUBoth then do
    let frame ← emit_header frame
      (pack8 devaddr funccode Payload1_1 Payload1_0 Payload2_1 Payload2_0 ByteCount1 ByteCount0)
    let Checksum := [devaddr, funccode, ByteCount0].foldl update_CRC 0xFFFF
    let Checksum ← read_file_request_loop K mode update_CRC n n 0 Checksum
    end_frame_CRC K mode Checksum frame
  else do
    let frame ← emit_header frame
      (pack8 devaddr funccode Payload1_0 Payload1_1 Payload2_0 Payload2_1 ByteCount1 ByteCount0)
    let Checksum := [devaddr, funccode, ByteCount0].foldl LRC_add 0x0000
    let Checksum ← read_file_request_loop K mode LRC_add n n 0 Checksum
    end_frame_LRC K mode Checksum frame

/-- Source: `case FUNCCODE_WRITE_FILE_RECORD:` of the request switch. The inner loop
bound is `( Payload4[ 1 ] << 8 ) + Payload4[ 0 ]` in the RTU branch and
`( Payload4[ 0 ] << 8 ) + Payload4[ 1 ]` in the ASCII branch. -/
def request_WRITE_FILE_RECORD (K : FlagBits) (mode : Mode) (devaddr funccode : Nat)
    (frame : Frame) : Worker Frame := do
  let Payload1_0 := 0x00
  let Payload1_1 := 0x00
  let Payload2_0 := 0x00
  let Payload2_1 := 0x00
  let ByteCount0 ← GetNextByteModbus mode
  let ByteCount1 := 0x00
  if mode = .ModbusRTUClient ∨ mode = .ModbusRTUBoth then do
    let frame ← emit_header frame
      (pack8 devaddr funccode Payload1_1 Payload1_0 Payload2_1 Payload2_0 ByteCount1 ByteCount0)
    let Checksum := [devaddr, funccode, ByteCount0].foldl update_CRC 0xFFFF
    let Checksum ← write_file_loop K mode update_CRC
      (fun Payload4_0 Payload4_1 => U64 ((Payload4_1 <<< 8) + Payload4_0))
      ByteCount0 ByteCount0 0 Checksum
    end_frame_CRC K mode Checksum frame
  else do
    let frame ← emit_header frame
      (pack8 devaddr funccode Payload1_0 Payload1_1 Payload2_0 Payload2_1 ByteCount1 ByteCount0)
    let Checksum := [devaddr, funccode, ByteCount0].foldl LRC_add 0x0000
    let Checksum ← write_file_loop K mode LRC_add
      (fun Payload4_0 Payload4_1 => U64 ((Payload4_0 <<< 8) + Payload4_1))
      ByteCount0 ByteCount0 0 Checksum
    end_frame_LRC K mode Checksum frame

/-- Source: `case FUNCCODE_MASK_WRITE_REGISTER:` of the request switch: six payload
bytes, the checksum, a single frame with the OR mask in `mData2`. -/
def request_MASK_WRITE_REGISTER (K : FlagBits) (mode : Mode) (devaddr funccode : Nat)
    (frame : Frame) : Worker Frame := do
  let Payload1_0 ← GetNextByteModbus mode
  let Payload1_1 ← GetNextByteModbus mode
  let Payload2_0 ← GetNextByteModbus mode
  let Payload2_1 ← GetNextByteModbus mode
  let Payload3_0 ← GetNextByteModbus mode
  let Payload3_1 ← GetNextByteModbus mode
  if mode = .ModbusRTUClient ∨ mode = .ModbusRTUBoth then do
    let (RecChecksum0, RecChecksum1, frame) ← single_frame_CRC K mode
      [devaddr, funccode, Payload1_0, Payload1_1, Payload2_0, Payload2_1, Payload3_0, Payload3_1]
      frame
    let d := pack8 devaddr funccode Payload1_0 Payload1_1 Payload2_0 Payload2_1 RecChecksum1 RecChecksum0
    return { frame with mData1 := d, mData2 := U64 ((Payload3_0 <<< 8) + Payload3_1) }
  else do
    let (RecChecksum0, RecChecksum1, frame) ← single_frame_LRC K mode
      [devaddr, funccode, Payload1_0, Payload1_1, Payload2_0, Payload2_1, Payload3_0, Payload3_1]
      frame
    let d := pack8 devaddr funccode Payload1_0 Payload1_1 Payload2_0 Payload2_1 RecChecksum1 RecChecksum0
    return { frame with mData1 := d, mData2 := U64 ((Payload3_0 <<< 8) + Payload3_1) }

/-- Source: `case FUNCCODE_READWRITE_MULTIPLE_REGISTERS:` of the request switch: nine
header bytes, a header frame carrying the write address and quantity in `mData2`,
`ByteCount[0] / 2` two-byte DATA frames, END (the END frame is the same `frame`
object, so it keeps the header's `mData2`). -/
def request_READWRITE_MULTIPLE_REGISTERS (K : FlagBits) (mode : Mode) (devaddr funccode : Nat)
    (frame : Frame) : Worker Frame := do
  let Payload1_0 ← GetNextByteModbus mode
  let Payload1_1 ← GetNextByteModbus mode
  let Payload2_0 ← GetNextByteModbus mode
  let Payload2_1 ← GetNextByteModbus mode
  let Payload3_0 ← GetNextByteModbus mode
  let Payload3_1 ← GetNextByteModbus mode
  let Payload4_0 ← GetNextByteModbus mode
  let Payload4_1 ← GetNextByteModbus mode
  let ByteCount0 ← GetNextByteModbus mode
  let ByteCount1 := 0x00
  if mode = .ModbusRTUClient ∨ mode = .ModbusRTUBoth then do
    let d2 := U64 ((Payload3_0 <<< 24) + (Payload3_1 <<< 16) + (Payload4_0 <<< 8) + Payload4_1)
    let frame := { frame with mData2 := d2 }
    let frame ← emit_header frame
      (pack8 devaddr funccode Payload1_0 Payload1_1 Payload2_0 Payload2_1 ByteCount1 ByteCount0)
    let Checksum := [devaddr, funccode, Payload1_0, Payload1_1, Payload2_0, Payload2_1,
      Payload3_0, Payload3_1, Payload4_0, Payload4_1, ByteCount0].foldl update_CRC 0xFFFF
    let Checksum ← data_words K mode update_CRC (ByteCount0 / 2) Checksum
    end_frame_CRC K mode Checksum frame
  else do
    let d2 := U64 ((Payload3_0 <<< 24) + (Payload3_1 <<< 16) + (Payload4_0 <<< 8) + Payload4_1)
    let frame := { frame with mData2 := d2 }
    let frame ← emit_header frame
      (pack8 devaddr funccode Payload1_0 Payload1_1 Payload2_0 Payload2_1 ByteCount1 ByteCount0)
    let Checksum := [devaddr, funccode, Payload1_0, Payload1_1, Payload2_0, Payload2_1,
      Payload3_0, Payload3_1, Payload4_0, Payload4_1, ByteCount0].foldl LRC_add 0x0000
    let Checksum ← data_words K mode LRC_add (ByteCount0 / 2) Checksum
    end_frame_LRC K mode Checksum frame

/-- Source: `case FUNCCODE_READ_FIFO_QUEUE:` of the request switch: two payload bytes
(`Payload2` is zeroed), the checksum, a single frame. -/
def request_READ_FIFO_QUEUE (K : FlagBits) (mode : Mode) (devaddr funccode : Nat)
    (frame : Frame) : Worker Frame := do
  let Payload1_0 ← GetNextByteModbus mode
  let Payload1_1 ← GetNextByteModbus mode
  let Payload2_0 := 0x00
  let Payload2_1 := 0x00
  if mode = .ModbusRTUClient ∨ mode = .ModbusRTUBoth then do
    let (RecChecksum0, RecChecksum1, frame) ← single_frame_CRC K mode
      [devaddr, funccode, Payload1_0, Payload1_1] frame
    let d := pack8 devaddr funccode Payload1_0 Payload1_1 Payload2_0 Payload2_1 RecChecksum1 RecChecksum0
    return { frame with mData1 := d }
  else do
    let (RecChecksum0, RecChecksum1, frame) ← single_frame_LRC K mode
      [devaddr, funccode, Payload1_0, Payload1_1] frame
    let d := pack8 devaddr funccode Payload1_0 Payload1_1 Payload2_0 Payload2_1 RecChecksum1 RecChecksum0
    return { frame with mData1 := d }

/-- The request `switch( funccode )`; an unlisted code falls to `default: break;`. -/
def request_switch (K : FlagBits) (mode : Mode) (devaddr funccode : Nat) (frame : Frame) :
    Worker Frame :=
  if funccode = FUNCCODE_READ_COILS ∨ funccode = FUNCCODE_READ_DISCRETE_INPUTS ∨
      funccode = FUNCCODE_READ_HOLDING_REGISTERS ∨ funccode = FUNCCODE_READ_INPUT_REGISTER ∨
      funccode = FUNCCODE_WRITE_SINGLE_COIL ∨ funccode = FUNCCODE_WRITE_SINGLE_REGISTER ∨
      funccode = FUNCCODE_DIAGNOSTIC then
    request_READ_COILS K mode devaddr funccode frame
  else if funccode = FUNCCODE_READ_EXCEPTION_STATUS ∨ funccode = FUNCCODE_GET_COM_EVENT_COUNTER ∨
      funccode = FUNCCODE_GET_COM_EVENT_LOG ∨ funccode = FUNCCODE_REPORT_SERVER_ID then
    request_READ_EXCEPTION_STATUS K mode devaddr funccode frame
  else if funccode = FUNCCODE_WRITE_MULTIPLE_COILS then
    request_WRITE_MULTIPLE_COILS K mode devaddr funccode frame
  else if funccode = FUNCCODE_WRITE_MULTIPLE_REGISTERS then
    request_WRITE_MULTIPLE_REGISTERS K mode devaddr funccode frame
  else if funccode = FUNCCODE_READ_FILE_RECORD then
    request_READ_FILE_RECORD K mode devaddr funccode frame
  else if funccode = FUNCCODE_WRITE_FILE_RECORD then
    request_WRITE_FILE_RECORD K mode devaddr funccode frame
  else if funccode = FUNCCODE_MASK_WRITE_REGISTER then
    request_MASK_WRITE_REGISTER K mode devaddr funccode frame
  else if funccode = FUNCCODE_READWRITE_MULTIPLE_REGISTERS then
    request_READWRITE_MULTIPLE_REGISTERS K mode devaddr funccode frame
  else if funccode = FUNCCODE_READ_FIFO_QUEUE then
    request_READ_FIFO_QUEUE K mode devaddr funccode frame
  else
    pure frame

/-! ### Server side: exception and the response `switch( funccode )` -/

/-- The branch `if( funccode & 0x80 )` of the server side: one exception-code
byte, the checksum, a single EXCEPTION frame. -/
def response_exception (K : FlagBits) (mode : Mode) (devaddr funccode : Nat) (frame : Frame) :
    Worker Frame := do
  let frame := { frame with mFlags := K.FLAG_EXCEPTION_FRAME }
  let Payload1_0 ← GetNextByteModbus mode
  let Payload1_1 := 0x00
  let Payload2_0 := 0x00
  let Payload2_1 := 0x00
  if mode = .ModbusRTUServer ∨ mode = .ModbusRTUBoth then do
    let (RecChecksum0, RecChecksum1, frame) ← single_frame_CRC K mode
      [devaddr, funccode, Payload1_0] frame
    let d := pack8 devaddr funccode Payload1_1 Payload1_0 Payload2_1 Payload2_0 RecChecksum1 RecChecksum0
    return { frame with mData1 := d }
  else do
    let (RecChecksum0, RecChecksum1, frame) ← single_frame_LRC K mode
      [devaddr, funccode, Payload1_0] frame
    let d := pack8 devaddr funccode Payload1_1 Payload1_0 Payload2_0 Payload2_1 RecChecksum1 RecChecksum0
    return { frame with mData1 := d }

/-- Source: `case FUNCCODE_READ_COILS: case FUNCCODE_READ_DISCRETE_INPUTS:` of the
response switch, and likewise `case FUNCCODE_REPORT_SERVER_ID:` (the same
statements): a byte count, a header, `ByteCount[0]` one-byte DATA frames, END. -/
def response_READ_COILS (K : FlagBits) (mode : Mode) (devaddr funccode : Nat) (frame : Frame) :
    Worker Frame := do
  let Payload1_0 := 0x00
  let Payload1_1 := 0x00
  let Payload2_0 := 0x00
  let Payload2_1 := 0x00
  let ByteCount0 ← GetNextByteModbus mode
  let ByteCount1 := 0x00
  if mode = .ModbusRTUServer ∨ mode = .ModbusRTUBoth then do
    let frame ← emit_header frame
      (pack8 devaddr funccode Payload1_1 Payload1_0 Payload2_1 Payload2_0 ByteCount1 ByteCount0)
    let Checksum := [devaddr, funccode, ByteCount0].foldl update_CRC 0xFFFF
    let Checksum ← data_bytes K mode update_CRC ByteCount0 Checksum
    end_frame_CRC K mode Checksum frame
  else do
    let frame ← emit_header frame
      (pack8 devaddr funccode Payload1_0 Payload1_1 Payload2_0 Payload2_1 ByteCount1 ByteCount0)
    let Checksum := [devaddr, funccode, ByteCount0].foldl LRC_add 0x0000
    let Checksum ← data_bytes K mode LRC_add ByteCount0 Checksum
    end_frame_LRC K mode Checksum frame

/-- Source: `case FUNCCODE_READ_HOLDING_REGISTERS: case FUNCCODE_READ_INPUT_REGISTER:
case FUNCCODE_READWRITE_MULTIPLE_REGISTERS:` of the response switch: a byte
count, a header, `ByteCount[0] / 2` two-byte DATA frames, END. -/
def response_READ_HOLDING_REGISTERS (K : FlagBits) (mode : Mode) (devaddr funccode : Nat)
    (frame : Frame) : Worker Frame := do
  let Payload1_0 := 0x00
  let Payload1_1 := 0x00
  let Payload2_0 := 0x00
  let Payload2_1 := 0x00
  let ByteCount0 ← GetNextByteModbus mode
  let ByteCount1 := 0x00
  if mode = .ModbusRTUServer ∨ mode = .ModbusRTUBoth then do
    let frame ← emit_header frame
      (pack8 devaddr funccode Payload1_1 Payload1_0 Payload2_1 Payload2_0 ByteCount1 ByteCount0)
    let Checksum := [devaddr, funccode, ByteCount0].foldl update_CRC 0xFFFF
    let Checksum ← data_words K mode update_CRC (ByteCount0 / 2) Checksum
    end_frame_CRC K mode Checksum frame
  else do
    let frame ← emit_header frame
      (pack8 devaddr funccode Payload1_0 Payload1_1 Payload2_0 Payload2_1 ByteCount1 ByteCount0)
    let Checksum := [devaddr, funccode, ByteCount0].foldl LRC_add 0x0000
    let Checksum ← data_words K mode LRC_add (ByteCount0 / 2) Checksum
    end_frame_LRC K mode Checksum frame

/-- Source: `case FUNCCODE_WRITE_SINGLE_COIL: ... case FUNCCODE_WRITE_MULTIPLE_REGISTERS:`
of the response switch: four payload bytes, the checksum, a single frame. -/
def response_WRITE_SINGLE_COIL (K : FlagBits) (mode : Mode) (devaddr funccode : Nat)
    (frame : Frame) : Worker Frame := do
  let Payload1_0 ← GetNextByteModbus mode
  let Payload1_1 ← GetNextByteModbus mode
  let Payload2_0 ← GetNextByteModbus mode
  let Payload2_1 ← GetNextByteModbus mode
  if mode = .ModbusRTUServer ∨ mode = .ModbusRTUBoth then do
    let (RecChecksum0, RecChecksum1, frame) ← single_frame_CRC K mode
      [devaddr, funccode, Payload1_0, Payload1_1, Payload2_0, Payload2_1] frame
    let d := pack8 devaddr funccode Payload1_0 Payload1_1 Payload2_0 Payload2_1 RecChecksum1 RecChecksum0
    return { frame with mData1 := d }
  else do
    let (RecChecksum0, RecChecksum1, frame) ← single_frame_LRC K mode
      [devaddr, funccode, Payload1_0, Payload1_1, Payload2_0, Payload2_1] frame
    let d := pack8 devaddr funccode Payload1_0 Payload1_1 Payload2_0 Payload2_1 RecChecksum1 RecChecksum0
    return { frame with mData1 := d }

/-- Source: `case FUNCCODE_READ_EXCEPTION_STATUS:` of the response switch: one status
byte, the checksum, a single frame. -/
def response_READ_EXCEPTION_STATUS (K : FlagBits) (mode : Mode) (devaddr funccode : Nat)
    (frame : Frame) : Worker Frame := do
  let Payload1_0 ← GetNextByteModbus mode
  let Payload1_1 := 0x00
  let Payload2_0 := 0x00
  let Payload2_1 := 0x00
  if mode = .ModbusRTUServer ∨ mode = .ModbusRTUBoth then do
    let (RecChecksum0, RecChecksum1, frame) ← single_frame_CRC K mode
      [devaddr, funccode, Payload1_0] frame
    let d := pack8 devaddr funccode Payload1_1 Payload1_0 Payload2_1 Payload2_0 RecChecksum1 RecChecksum0
    return { frame with mData1 := d }
  else do
    let (RecChecksum0, RecChecksum1, frame) ← single_frame_LRC K mode
      [devaddr, funccode, Payload1_0] frame
    let d := pack8 devaddr funccode Payload1_1 Payload1_0 Payload2_0 Payload2_1 RecChecksum1 RecChecksum0
    return { frame with mData1 := d }

/-- The value of a loop counter `int i` (32 bits, two's complement) after `n`
increments from 0: the increment of `2 ^ 31 - 1` overflows, and is taken to wrap
to `- 2 ^ 31`. -/
def int_counter (n : Nat) : Int :=
  (((n + 2 ^ 31) % 2 ^ 32 : Nat) : Int) - 2 ^ 31

/-- Conversion of an `int` to `U64`, as the comparison `i < bound` of an `int`
with a `U64` makes it. -/
def int_to_U64 (i : Int) : Nat :=
  (i % 2 ^ 64).toNat

/-- The number of passes of a loop `for( int i = 0; i < bound; i++ )` whose
`bound` is a `U64`: the test compares `i` converted to `U64`. While `i` is not
negative that is `i` itself, so a bound up to `2 ^ 31` gives `bound` passes; a
larger bound lets `i` reach `2 ^ 31 - 1` and wrap to `- 2 ^ 31`, which converts
to `2 ^ 64 - 2 ^ 31`, and the loop ends there unless the bound is larger still
(`int_passes_first_failure` relates this to `int_counter`). -/
def int_passes (bound : Nat) : Nat :=
  if bound ≤ 2 ^ 31 then bound
  else if bound ≤ 2 ^ 64 - 2 ^ 31 then 2 ^ 31
  else bound + 2 ^ 32 - 2 ^ 64

/-- Source: `case FUNCCODE_GET_COM_EVENT_LOG:` of the response switch: a byte count, six
fixed bytes, a header with `mData2`, then the loop
`for( int i = 0; i < ( ByteCount[ 0 ] - 6 ); i++ )` of one-byte DATA frames (the
subtraction is a `U64` subtraction, the counter an `int`: `int_passes`), END.
The RTU branch packs `mData2` as `( Payload3[ 1 ] << 24 ) + ( Payload3[ 0 ] << 16 ) +
( Payload4[ 1 ] << 8 ) + Payload4[ 0 ]`, the ASCII branch with the indices the other
way round. -/
def response_GET_COM_EVENT_LOG (K : FlagBits) (mode : Mode) (devaddr funccode : Nat)
    (frame : Frame) : Worker Frame := do
  let ByteCount0 ← GetNextByteModbus mode
  let ByteCount1 := 0x00
  let Payload1_0 ← GetNextByteModbus mode
  let Payload1_1 ← GetNextByteModbus mode
  let Payload2_0 := 0x00
  let Payload2_1 := 0x00
  let Payload3_0 ← GetNextByteModbus mode
  let Payload3_1 ← GetNextByteModbus mode
  let Payload4_0 ← GetNextByteModbus mode
  let Payload4_1 ← GetNextByteModbus mode
  if mode = .ModbusRTUServer ∨ mode = .ModbusRTUBoth then do
    let d2 := U64 ((Payload3_1 <<< 24) + (Payload3_0 <<< 16) + (Payload4_1 <<< 8) + Payload4_0)
    let frame := { frame with mData2 := d2 }
    let frame ← emit_header frame
      (pack8 devaddr funccode Payload1_0 Payload1_1 Payload2_0 Payload2_1 ByteCount1 ByteCount0)
    let Checksum := [devaddr, funccode, ByteCount0, Payload1_0, Payload1_1,
      Payload3_0, Payload3_1, Payload4_0, Payload4_1].foldl update_CRC 0xFFFF
    let Checksum ← data_bytes K mode update_CRC (int_passes (U64 (ByteCount0 + 2 ^ 64 - 6))) Checksum
    end_frame_CRC K mode Checksum frame
  else do
    let d2 := U64 ((Payload3_0 <<< 24) + (Payload3_1 <<< 16) + (Payload4_0 <<< 8) + Payload4_1)
    let frame := { frame with mData2 := d2 }
    let frame ← emit_header frame
      (pack8 devaddr funccode Payload1_0 Payload1_1 Payload2_0 Payload2_1 ByteCount1 ByteCount0)
    let Checksum := [devaddr, funccode, ByteCount0, Payload1_0, Payload1_1,
      Payload3_0, Payload3_1, Payload4_0, Payload4_1].foldl LRC_add 0x0000
    let Checksum ← data_bytes K mode LRC_add (int_passes (U64 (ByteCount0 + 2 ^ 64 - 6))) Checksum
    end_frame_LRC K mode Checksum frame

/-- The inner loop `for( k = 0; k < m; k = k + 2 )` of the Read File Record
response: one `data_word` per pass; returns the final `k` and the checksum. The
first argument bounds the number of passes (`m` is always enough). The source
declares `k` as `int`; the model counts in `Nat`, which is the same as long as
`k` stays below `2 ^ 31`, that is on every channel with fewer than `2 ^ 31`
characters. -/
def read_file_response_words (K : FlagBits) (mode : Mode) (upd : Nat → Nat → Nat) (m : Nat) :
    Nat → Nat → Nat → Worker (Nat × Nat)
  | 0, k, Checksum => pure (k, Checksum)
  | fuel + 1, k, Checksum =>
    if k < m then do
      let Checksum ← data_word K mode upd Checksum
      read_file_response_words K mode upd m fuel (k + 2) Checksum
    else
      pure (k, Checksum)

/-- The loop `for( int i = 0; i < n; i = i + step )` of the Read File Record
response (`step` is 4 in the RTU branch and 2 in the ASCII branch): a length
byte `Payload4[0]` and a reference type `Payload1[0]`, emitted as a FILE_SUBREQ
frame with `mData1 = mk Payload1[0] Payload4[0]`; then the inner loop with bound
`Payload4[ 0 ] - 1` (a `U64` subtraction); then `i = i + k`. The first argument
bounds the number of passes (`n` is always enough). -/
def read_file_response_loop (K : FlagBits) (mode : Mode) (upd : Nat → Nat → Nat)
    (mk : Nat → Nat → Nat) (step n : Nat) : Nat → Nat → Nat → Worker Nat
  | 0, _, Checksum => pure Checksum
  | fuel + 1, i, Checksum =>
    if i < n then do
      let Payload4_0 ← GetNextByteModbus mode
      let start ← get_starting_frame
      let Payload1_0 ← GetNextByteModbus mode
      let DataFrame : Frame :=
        { mFlags := K.FLAG_FILE_SUBREQ
          mStartingSampleInclusive := start
          mEndingSampleInclusive := (← get_ending_frame)
          mData1 := mk Payload1_0 Payload4_0 }
      let Checksum := upd (upd Checksum Payload4_0) Payload1_0
      AddFrame DataFrame
      let m := U64 (Payload4_0 + 2 ^ 64 - 1)
      let (k, Checksum) ← read_file_response_words K mode upd m m 0 Checksum
      let i := i + k
      read_file_response_loop K mode upd mk step n fuel (i + step) Checksum
    else
      pure Checksum

/-- Source: `case FUNCCODE_READ_FILE_RECORD:` of the response switch. -/
def response_READ_FILE_RECORD (K : FlagBits) (mode : Mode) (devaddr funccode : Nat)
    (frame : Frame) : Worker Frame := do
  let Payload1_0 := 0x00
  let Payload1_1 := 0x00
  let Payload2_0 := 0x00
  let Payload2_1 := 0x00
  let ByteCount0 ← GetNextByteModbus mode
  let ByteCount1 := 0x00
  if mode = .ModbusRTUServer ∨ mode = .ModbusRTUBoth then do
    let frame ← emit_header frame
      (pack8 devaddr funccode Payload1_1 Payload1_0 Payload2_1 Payload2_0 ByteCount1 ByteCount0)
    let Checksum := [devaddr, funccode, ByteCount0].foldl update_CRC 0xFFFF
    let Checksum ← read_file_response_loop K mode update_CRC
      (fun Payload1_0 Payload4_0 => pack8 0x00 Payload1_0 0x00 0x00 0x00 0x00 0x00 Payload4_0)
      4 ByteCount0 ByteCount0 0 Checksum
    end_frame_CRC K mode Checksum frame
  else do
    let frame ← emit_header frame
      (pack8 devaddr funccode Payload1_0 Payload1_1 Payload2_0 Payload2_1 ByteCount1 ByteCount0)
    let Checksum := [devaddr, funccode, ByteCount0].foldl LRC_add 0x0000
    let Checksum ← read_file_response_loop K mode LRC_add
      (fun Payload1_0 Payload4_0 => pack8 0x00 Payload1_0 0x00 0x00 0x00 0x00 0x00 Payload4_0)
      2 ByteCount0 ByteCount0 0 Checksum
    end_frame_LRC K mode Checksum frame

/-- Source: `case FUNCCODE_WRITE_FILE_RECORD:` of the response switch (the statements of
the request case, under the server-side mode test). -/
def response_WRITE_FILE_RECORD (K : FlagBits) (mode : Mode) (devaddr funccode : Nat)
    (frame : Frame) : Worker Frame := do
  let Payload1_0 := 0x00
  let Payload1_1 := 0x00
  let Payload2_0 := 0x00
  let Payload2_1 := 0x00
  let ByteCount0 ← GetNextByteModbus mode
  let ByteCount1 := 0x00
  if mode = .ModbusRTUServer ∨ mode = .ModbusRTUBoth then do
    let frame ← emit_header frame
      (pack8 devaddr funccode Payload1_1 Payload1_0 Payload2_1 Payload2_0 ByteCount1 ByteCount0)
    let Checksum := [devaddr, funccode, ByteCount0].foldl update_CRC 0xFFFF
    let Checksum ← write_file_loop K mode update_CRC
      (fun Payload4_0 Payload4_1 => U64 ((Payload4_1 <<< 8) + Payload4_0))
      ByteCount0 ByteCount0 0 Checksum
    end_frame_CRC K mode Checksum frame
  else do
    let frame ← emit_header frame
      (pack8 devaddr funccode Payload1_0 Payload1_1 Payload2_0 Payload2_1 ByteCount1 ByteCount0)
    let Checksum := [devaddr, funccode, ByteCount0].foldl LRC_add 0x0000
    let Checksum ← write_file_loop K mode LRC_add
      (fun Payload4_0 Payload4_1 => U64 ((Payload4_0 <<< 8) + Payload4_1))
      ByteCount0 ByteCount0 0 Checksum
    end_frame_LRC K mode Checksum frame

/-- Source: `case FUNCCODE_MASK_WRITE_REGISTER:` of the response switch (the statements
of the request case, under the server-side mode test). -/
def response_MASK_WRITE_REGISTER (K : FlagBits) (mode : Mode) (devaddr funccode : Nat)
    (frame : Frame) : Worker Frame := do
  let Payload1_0 ← GetNextByteModbus mode
  let Payload1_1 ← GetNextByteModbus mode
  let Payload2_0 ← GetNextByteModbus mode
  let Payload2_1 ← GetNextByteModbus mode
  let Payload3_0 ← GetNextByteModbus mode
  let Payload3_1 ← GetNextByteModbus mode
  if mode = .ModbusRTUServer ∨ mode = .ModbusRTUBoth then do
    let (RecChecksum0, RecChecksum1, frame) ← single_frame_CRC K mode
      [devaddr, funccode, Payload1_0, Payload1_1, Payload2_0, Payload2_1, Payload3_0, Payload3_1]
      frame
    let d := pack8 devaddr funccode Payload1_0 Payload1_1 Payload2_0 Payload2_1 RecChecksum1 RecChecksum0
    return { frame with mData1 := d, mData2 := U64 ((Payload3_0 <<< 8) + Payload3_1) }
  else do
    let (RecChecksum0, RecChecksum1, frame) ← single_frame_LRC K mode
      [devaddr, funccode, Payload1_0, Payload1_1, Payload2_0, Payload2_1, Payload3_0, Payload3_1]
      frame
    let d := pack8 devaddr funccode Payload1_0 Payload1_1 Payload2_0 Payload2_1 RecChecksum1 RecChecksum0
    return { frame with mData1 := d, mData2 := U64 ((Payload3_0 <<< 8) + Payload3_1) }

/-- Source: `case FUNCCODE_READ_FIFO_QUEUE:` of the response switch: two byte-count
bytes, two FIFO-count bytes, a header, the data words, END. The RTU branch loops
`( Payload2[ 1 ] << 8 ) + Payload2[ 0 ]` times and packs the byte count as
`( ByteCount[ 1 ] << 8 ) + ByteCount[ 0 ]`; the ASCII branch uses
`( Payload2[ 0 ] << 8 ) + Payload2[ 1 ]` and `( ByteCount[ 0 ] << 8 ) + ByteCount[ 1 ]`. -/
def response_READ_FIFO_QUEUE (K : FlagBits) (mode : Mode) (devaddr funccode : Nat)
    (frame : Frame) : Worker Frame := do
  let ByteCount0 ← GetNextByteModbus mode
  let ByteCount1 ← GetNextByteModbus mode
  let Payload2_0 ← GetNextByteModbus mode
  let Payload2_1 ← GetNextByteModbus mode
  let Payload1_0 := 0x00
  let Payload1_1 := 0x00
  if mode = .ModbusRTUServer ∨ mode = .ModbusRTUBoth then do
    let frame ← emit_header frame
      (pack8 devaddr funccode Payload1_1 Payload1_0 Payload2_1 Payload2_0 ByteCount1 ByteCount0)
    let Checksum := [devaddr, funccode, ByteCount0, ByteCount1, Payload2_0,
      Payload2_1].foldl update_CRC 0xFFFF
    let Checksum ← data_words K mode update_CRC (U64 ((Payload2_1 <<< 8) + Payload2_0)) Checksum
    end_frame_CRC K mode Checksum frame
  else do
    let frame ← emit_header frame
      (pack8 devaddr funccode Payload1_0 Payload1_1 Payload2_0 Payload2_1 ByteCount0 ByteCount1)
    let Checksum := [devaddr, funccode, ByteCount0, ByteCount1, Payload2_0,
      Payload2_1].foldl LRC_add 0x0000
    let Checksum ← data_words K mode LRC_add (U64 ((Payload2_0 <<< 8) + Payload2_1)) Checksum
    end_frame_LRC K mode Checksum frame

/-- The response `switch( funccode )`; an unlisted code falls to `default: break;`. -/
def response_switch (K : FlagBits) (mode : Mode) (devaddr funccode : Nat) (frame : Frame) :
    Worker Frame :=
  if funccode = FUNCCODE_READ_COILS ∨ funccode = FUNCCODE_READ_DISCRETE_INPUTS then
    response_READ_COILS K mode devaddr funccode frame
  else if funccode = FUNCCODE_READ_HOLDING_REGISTERS ∨ funccode = FUNCCODE_READ_INPUT_REGISTER ∨
      funccode = FUNCCODE_READWRITE_MULTIPLE_REGISTERS then
    response_READ_HOLDING_REGISTERS K mode devaddr funccode frame
  else if funccode = FUNCCODE_WRITE_SINGLE_COIL ∨ funccode = FUNCCODE_WRITE_SINGLE_REGISTER ∨
      funccode = FUNCCODE_DIAGNOSTIC ∨ funccode = FUNCCODE_GET_COM_EVENT_COUNTER ∨
      funccode = FUNCCODE_WRITE_MULTIPLE_COILS ∨ funccode = FUNCCODE_WRITE_MULTIPLE_REGISTERS then
    response_WRITE_SINGLE_COIL K mode devaddr funccode frame
  else if funccode = FUNCCODE_READ_EXCEPTION_STATUS then
    response_READ_EXCEPTION_STATUS K mode devaddr funccode frame
  else if funccode = FUNCCODE_REPORT_SERVER_ID then
    response_READ_COILS K mode devaddr funccode frame
  else if funccode = FUNCCODE_GET_COM_EVENT_LOG then
    response_GET_COM_EVENT_LOG K mode devaddr funccode frame
  else if funccode = FUNCCODE_READ_FILE_RECORD then
    response_READ_FILE_RECORD K mode devaddr funccode frame
  else if funccode = FUNCCODE_WRITE_FILE_RECORD then
    response_WRITE_FILE_RECORD K mode devaddr funccode frame
  else if funccode = FUNCCODE_MASK_WRITE_REGISTER then
    response_MASK_WRITE_REGISTER K mode devaddr funccode frame
  else if funccode = FUNCCODE_READ_FIFO_QUEUE then
    response_READ_FIFO_QUEUE K mode devaddr funccode frame
  else
    pure frame

/-! ## The dispatcher loop of `WorkerThread` -/

/-- The ASCII start-of-frame search `do { rawdata = GetNextByteModbus( ... );
frame.mStartingSampleInclusive = starting_frame; } while( rawdata != ':' );`
(`rawdata` is a `char`). The first argument bounds the number of passes; every
pass consumes a character, so the number of characters left plus one is always
enough. -/
def find_start_of_frame (mode : Mode) : Nat → Frame → Worker Frame
  | 0, frame => pure frame
  | fuel + 1, frame => do
    let rawdata := toChar (← GetNextByteModbus mode)
    let frame := { frame with mStartingSampleInclusive := (← get_starting_frame) }
    if rawdata ≠ 0x3A then
      find_start_of_frame mode fuel frame
    else
      pure frame

/-- The first role test of the dispatcher: the message is parsed by the request
switch. -/
abbrev request_role (mode : Mode) (processingResponse : Bool) : Prop :=
  mode = .ModbusRTUClient ∨ mode = .ModbusASCIIClient ∨
    ((mode = .ModbusRTUBoth ∨ mode = .ModbusASCIIBoth) ∧ ¬ processingResponse)

/-- The second role test of the dispatcher: the message is parsed by the server
side (exception or response switch). -/
abbrev response_role (mode : Mode) (processingResponse : Bool) : Prop :=
  mode = .ModbusRTUServer ∨ mode = .ModbusASCIIServer ∨
    ((mode = .ModbusRTUBoth ∨ mode = .ModbusASCIIBoth) ∧ processingResponse)

/-- One pass of the `for( ;; )` loop of `WorkerThread` up to and including the
ASCII trailer: start-of-frame search (ASCII), address, function code, the request
or the response parser, the two trailer characters (ASCII). Returns the local
`frame`, not yet committed. -/
def WorkerThread_parse (K : FlagBits) (mode : Mode) (processingResponse : Bool) :
    Worker Frame := do
  let mut frame : Frame := {}
  if mode = .ModbusASCIIClient ∨ mode = .ModbusASCIIServer ∨ mode = .ModbusASCIIBoth then
    frame ← find_start_of_frame mode ((← chars_left) + 1) frame
  let devaddr ← GetNextByteModbus mode
  frame := { frame with mStartingSampleInclusive := (← get_starting_frame) }
  let funccode ← GetNextByteModbus mode
  if request_role mode processingResponse then
    frame := { frame with mFlags := K.FLAG_REQUEST_FRAME }
    frame ← request_switch K mode devaddr funccode frame
  if response_role mode processingResponse then
    frame := { frame with mFlags := 0, mData1 := 0, mData2 := 0 }
    if funccode &&& 0x80 ≠ 0 then
      frame ← response_exception K mode devaddr funccode frame
    else
      frame := { frame with mFlags := K.FLAG_RESPONSE_FRAME }
      frame ← response_switch K mode devaddr funccode frame
  if mode = .ModbusASCIIClient ∨ mode = .ModbusASCIIServer ∨ mode = .ModbusASCIIBoth then
    let _StopFrame0 ← GetNextByteModbus mode
    let _StopFrame1 ← GetNextByteModbus mode
  return frame

/-- One whole pass of the `for( ;; )` loop of `WorkerThread`: `WorkerThread_parse`,
then the toggle of `processingResponse` and the commit of the terminal frame.
Returns the new `processingResponse`. -/
def WorkerThread_message (K : FlagBits) (mode : Mode) (processingResponse : Bool) :
    Worker Bool := do
  let frame ← WorkerThread_parse K mode processingResponse
  let processingResponse := !processingResponse
  let frame := { frame with mEndingSampleInclusive := (← get_ending_frame) }
  AddFrame frame
  return processingResponse

/-- The `for( ;; )` loop of `WorkerThread`: messages are decoded until the
channel has no further character. The first argument bounds the number of
passes; every pass consumes a character, so the number of characters plus one
is always enough. -/
def WorkerThread_loop (K : FlagBits) (mode : Mode) : Nat → Bool → Analyzer → Analyzer
  | 0, _, s => s
  | fuel + 1, processingResponse, s =>
    match WorkerThread_message K mode processingResponse s with
    | .ret processingResponse s1 => WorkerThread_loop K mode fuel processingResponse s1
    | .blocked s1 => s1

/-- Source: `WorkerThread` at character level. The statement
`if( mModbus->GetBitState() == mBitLow ) mModbus->AdvanceToNextEdge();` that
comes before the mode test acts below character level: `aligned` says whether it
returns (the line is idle at the start, or has a later edge;
`WorkerThread_samples` computes this from the capture). When it does not return
the worker is left waiting there, with the state unchanged. Otherwise `none` is
the fatal `AnalyzerHelpers::Assert` of a non-Modbus mode, and in a Modbus mode the
result is the analyzer state when the channel is exhausted. -/
def WorkerThread (K : FlagBits) (mSettings : ModbusAnalyzerSettings) (aligned : Bool)
    (s : Analyzer) : Option Analyzer :=
  if aligned = false then
    some s
  else if mSettings.mModbusMode ≠ .ModbusRTUClient ∧ mSettings.mModbusMode ≠ .ModbusRTUServer ∧
      mSettings.mModbusMode ≠ .ModbusRTUBoth ∧ mSettings.mModbusMode ≠ .ModbusASCIIClient ∧
      mSettings.mModbusMode ≠ .ModbusASCIIServer ∧ mSettings.mModbusMode ≠ .ModbusASCIIBoth then
    none
  else
    let processingResponse := mSettings.mAssumeDataStartsWithResponse
    some (WorkerThread_loop K mSettings.mModbusMode (s.mModbus.length + 1) processingResponse s)


/-- A sample assignment of the flag constants (distinct bits), used where a
theorem is instantiated at a concrete input. -/
def sampleFlags : FlagBits :=
  { FLAG_REQUEST_FRAME := 0x01
    FLAG_RESPONSE_FRAME := 0x02
    FLAG_EXCEPTION_FRAME := 0x04
    FLAG_FILE_SUBREQ := 0x08
    FLAG_DATA_FRAME := 0x10
    FLAG_END_FRAME := 0x20
    FLAG_CHECKSUM_ERROR := 0x40 }

/-- The characters of a capture that carries the byte values `bytes`, one
character per value, the `i`-th sampled from `100 * i + 10` to `100 * i + 90`. -/
def sampleWire (bytes : List Nat) : List SerialChar :=
  bytes.enum.map fun p => { data := p.2, start := 100 * p.1 + 10, stop := 100 * p.1 + 90 }

/-- The uppercase hexadecimal digit character of a nibble, as a sender writes it. -/
def hexDigit (n : Nat) : Nat :=
  if n < 10 then 0x30 + n else 0x37 + n

/-- The two hexadecimal characters of a byte, high nibble first. -/
def hexChars (b : Nat) : List Nat :=
  [hexDigit (b / 16), hexDigit (b % 16)]

/-- An ASCII message as a sender writes it: `':'`, the hexadecimal characters of
every byte of `bytes` and of their LRC, then CR and LF. -/
def asciiMessage (bytes : List Nat) : List Nat :=
  0x3A :: ((bytes ++ [LRC bytes]).flatMap hexChars ++ [0x0D, 0x0A])

/-- The nibble the ASCII byte reader decodes from one character. -/
def nib (c : Nat) : Nat :=
  (ASCII2INT (toChar c)).toNat

/-- The first `k` passes of the `for( ;; )` loop, when all of them complete:
the value of `processingResponse` and the analyzer state at the start of pass
number `k` (counting from 0); `none` when the channel runs out before. -/
def WorkerThread_passes (K : FlagBits) (mode : Mode) :
    Nat → Bool → Analyzer → Option (Bool × Analyzer)
  | 0, processingResponse, s => some (processingResponse, s)
  | k + 1, processingResponse, s =>
    match WorkerThread_message K mode processingResponse s with
    | .ret processingResponse s1 => WorkerThread_passes K mode k processingResponse s1
    | .blocked _ => none

/-- The byte the ASCII path of `GetNextByteModbus` builds from two characters. -/
def ascii_pair (C1 C2 : Nat) : Nat :=
  toU8 ((toU8 (ASCII2INT (toChar C1) * 2 ^ 4) : Int) + ASCII2INT (toChar C2))

/-- A character with bit `k` flipped. -/
def flipBit (c k : Nat) : Nat :=
  c ^^^ (1 <<< k)

/-- The consecutive pairs of a byte list, in order (a trailing single byte is
dropped). -/
def word_pairs : List Nat → List (Nat × Nat)
  | hi :: lo :: t => (hi, lo) :: word_pairs t
  | _ => []

/-- The DATA frames expected of a word loop that reads the characters `cs`. -/
def word_frames (K : FlagBits) : List SerialChar → List Frame
  | c1 :: c2 :: t =>
    { mFlags := K.FLAG_DATA_FRAME
      mStartingSampleInclusive := c1.start
      mEndingSampleInclusive := c2.stop
      mData1 := U64 ((c1.data <<< 40) + (c2.data <<< 32)) } :: word_frames K t
  | _ => []

/-- The values of `starting_frame` and `ending_frame` after a word loop has read
the characters `cs`, starting from the pair `p`. -/
def after_words : List SerialChar → Nat × Nat → Nat × Nat
  | _ :: c2 :: t, _ => after_words t (c2.start, c2.stop)
  | _, p => p

/-- The DATA frames expected of a byte loop that reads the characters `cs`. -/
def byte_frames (K : FlagBits) : List SerialChar → List Frame
  | c :: t =>
    { mFlags := K.FLAG_DATA_FRAME
      mStartingSampleInclusive := c.start
      mEndingSampleInclusive := c.stop
      mData1 := U64 ((0 <<< 40) + (c.data <<< 32)) } :: byte_frames K t
  | [] => []

/-- The values of `starting_frame` and `ending_frame` after a byte loop has read
the characters `cs`, starting from the pair `p`. -/
def after_bytes : List SerialChar → Nat × Nat → Nat × Nat
  | c :: t, _ => after_bytes t (c.start, c.stop)
  | [], p => p

/-- The function codes that have a case in the request switch and in the
response switch of `WorkerThread` (the two lists of case labels name the same
eighteen codes). -/
def known_funccodes : List Nat :=
  [FUNCCODE_READ_COILS, FUNCCODE_READ_DISCRETE_INPUTS, FUNCCODE_READ_HOLDING_REGISTERS,
   FUNCCODE_READ_INPUT_REGISTER, FUNCCODE_WRITE_SINGLE_COIL, FUNCCODE_WRITE_SINGLE_REGISTER,
   FUNCCODE_READ_EXCEPTION_STATUS, FUNCCODE_DIAGNOSTIC, FUNCCODE_GET_COM_EVENT_COUNTER,
   FUNCCODE_GET_COM_EVENT_LOG, FUNCCODE_WRITE_MULTIPLE_COILS, FUNCCODE_WRITE_MULTIPLE_REGISTERS,
   FUNCCODE_REPORT_SERVER_ID, FUNCCODE_READ_FILE_RECORD, FUNCCODE_WRITE_FILE_RECORD,
   FUNCCODE_MASK_WRITE_REGISTER, FUNCCODE_READWRITE_MULTIPLE_REGISTERS,
   FUNCCODE_READ_FIFO_QUEUE]

/-- The nibble of a character as the specification words it (`hex_nibble`):
`c - 0x30` for `'0'..'9'`, `c - 0x37` for `'A'..'F'`, `c - 0x57` for `'a'..'f'`,
and 0 for every other character. -/
def hex_nibble (c : Nat) : Nat :=
  if 0x30 ≤ c ∧ c ≤ 0x39 then c - 0x30
  else if 0x41 ≤ c ∧ c ≤ 0x46 then c - 0x37
  else if 0x61 ≤ c ∧ c ≤ 0x66 then c - 0x57
  else 0

/-- The lowercase hexadecimal digit character of a nibble. -/
def hexDigitLower (n : Nat) : Nat :=
  if n < 10 then 0x30 + n else 0x57 + n

/-- The characters left on the wire after one logical byte read of the ASCII
modes: one character is consumed when it is `':'`, `'\n'` or `'\r'`, two
otherwise; `none` when the wire runs out. -/
def skip_byte : List SerialChar → Option (List SerialChar)
  | [] => none
  | c :: w =>
    if c.data = 0x3A ∨ c.data = 0x0A ∨ c.data = 0x0D then some w
    else match w with
      | [] => none
      | _ :: w1 => some w1

/-- The characters left on the wire after the two logical byte reads of the
ASCII trailer. -/
def trailer_rest (w : List SerialChar) : Option (List SerialChar) :=
  (skip_byte w).bind skip_byte

/-- The end of one pass of the dispatcher in the ASCII modes once the parser
has returned `frame` in state `s`: the two trailer reads, then the commit of
`frame` with the current end sample. -/
def trailer_commit (mode : Mode) (pr : Bool) (frame : Frame) (s : Analyzer) : Outcome Bool :=
  match GetNextByteModbus mode s with
  | .ret _ s1 =>
    match GetNextByteModbus mode s1 with
    | .ret _ s2 =>
      .ret (!pr) { s2 with mResults := s2.mResults ++
        [{ frame with mEndingSampleInclusive := s2.ending_frame }] }
    | .blocked s2 => .blocked s2
  | .blocked s1 => .blocked s1

/-- The condition a piece of the worker establishes: `Q a s1` when it returns
`a` in state `s1`, `B s1` when it is left waiting for a character in state
`s1`. -/
@[irreducible] def wp {α : Type} (m : Worker α) (Q : α → Analyzer → Prop) (B : Analyzer → Prop)
    (s : Analyzer) : Prop :=
  match m s with
  | .ret a s1 => Q a s1
  | .blocked s1 => B s1

/-- The history of a stretch of the worker that started in `s0`: the values
returned by its calls of `GetNextByteModbus`, in order, the frames it handed to
`AddFrame`, in order, and the state it has reached. -/
inductive Run (mode : Mode) (s0 : Analyzer) : List Nat → List Frame → Analyzer → Prop
  | start : Run mode s0 [] [] s0
  | read {bs : List Nat} {fs : List Frame} {s s1 : Analyzer} {v : Nat} :
      Run mode s0 bs fs s → GetNextByteModbus mode s = .ret v s1 →
      Run mode s0 (bs ++ [v]) fs s1
  | emit {bs : List Nat} {fs : List Frame} {s : Analyzer} (f : Frame) :
      Run mode s0 bs fs s →
      Run mode s0 bs (fs ++ [f]) { s with mResults := s.mResults ++ [f] }

/-- The state in which a stretch of the worker that started in `s0` is left
waiting for a further character: the frames handed over so far satisfy `P`, and
the channel has no character left. -/
def Waiting (s0 : Analyzer) (P : List Frame → Prop) (s1 : Analyzer) : Prop :=
  (∃ fs, s1.mResults = s0.mResults ++ fs ∧ P fs) ∧ s1.mModbus = []

/-- The flags of a terminal frame built from the kind flag `x`: with
`FLAG_CHECKSUM_ERROR` or'ed in when `bad` holds (the effect of `flag_if`). -/
def flagged (K : FlagBits) (x : Nat) (bad : Bool) : Nat :=
  if bad then x ||| K.FLAG_CHECKSUM_ERROR else x

/-- An intermediate frame: its flags are exactly DATA or exactly FILE_SUBREQ. -/
def is_mid (K : FlagBits) (f : Frame) : Prop :=
  f.mFlags = K.FLAG_DATA_FRAME ∨ f.mFlags = K.FLAG_FILE_SUBREQ

/-- The frames a message has handed over while it is still being parsed: none,
or one header whose flags are exactly `h`, followed by intermediate frames. -/
def emitted_so_far (K : FlagBits) (h : Nat) (fs : List Frame) : Prop :=
  fs = [] ∨ ∃ hdr mids, fs = hdr :: mids ∧ hdr.mFlags = h ∧ ∀ m ∈ mids, is_mid K m

/-- The comparison a parser makes between the checksum it computed over
`covered` and the received checksum bytes `ck`: the CRC test on two bytes in the
RTU branches (`crc`), the LRC test on one byte in the ASCII branches. -/
def received_bad (crc : Bool) (covered ck : List Nat) : Bool :=
  if crc then crc_mismatch (CRC covered) (ck.getD 0 0) (ck.getD 1 0)
  else decide (LRC covered ≠ ck.getD 0 0)

/-- What a case of the request or response switch has done when it returns the
frame `fr`, given the header flags `h` and the result `bad` of its checksum
comparison: either it has handed over no frame and `fr` carries `h` (with
CHECKSUM_ERROR iff `bad`), or it has handed over a header with flags exactly `h`
and intermediate frames, and `fr` is the END frame (with CHECKSUM_ERROR iff
`bad`). -/
def case_frames (K : FlagBits) (h : Nat) (bad : Bool) (fs : List Frame) (fr : Frame) : Prop :=
  (fs = [] ∧ fr.mFlags = flagged K h bad)
    ∨ (∃ hdr mids, fs = hdr :: mids ∧ hdr.mFlags = h ∧ (∀ m ∈ mids, is_mid K m)
        ∧ fr.mFlags = flagged K K.FLAG_END_FRAME bad)

/-- The postcondition of a case of the request or response switch entered after
the bytes `bs` (address `a` and function code `f` last): it has read the message
bytes `msg` and the checksum bytes `ck` (two in a CRC branch, one in an LRC
branch), and its frames are as `case_frames` says for the comparison of the
checksum of `a, f, msg` with `ck`. -/
def case_post (K : FlagBits) (mode : Mode) (crc : Bool) (s0 : Analyzer) (bs : List Nat)
    (a f h : Nat) (fr : Frame) (s1 : Analyzer) : Prop :=
  ∃ msg ck fs, Run mode s0 (bs ++ (msg ++ ck)) fs s1
    ∧ ck.length = (if crc then 2 else 1)
    ∧ case_frames K h (received_bad crc (a :: f :: msg) ck) fs fr

/-- The postcondition of a `switch( funccode )` entered after the bytes `bs`
(address `a` and function code `f` last) with a frame whose flags are `h`: for a
function code with a `case` the postcondition `case_post` of that case; for any
other function code nothing was read or handed over and the frame still has the
flags `h`. -/
def switch_post (K : FlagBits) (mode : Mode) (crc : Bool) (s0 : Analyzer) (bs : List Nat)
    (a f h : Nat) (fr : Frame) (s1 : Analyzer) : Prop :=
  (f ∈ known_funccodes ∧ case_post K mode crc s0 bs a f h fr s1)
    ∨ (f ∉ known_funccodes ∧ Run mode s0 bs [] s1 ∧ fr.mFlags = h)

/-- The three RTU modes. -/
def is_rtu : Mode → Bool
  | .ModbusRTUClient => true
  | .ModbusRTUServer => true
  | .ModbusRTUBoth => true
  | _ => false

/-- Whether a pass of the dispatcher entered with `processingResponse` parses its
message on the server side (`response_role`), for the six Modbus modes. -/
def is_response (mode : Mode) (processingResponse : Bool) : Bool :=
  match mode with
  | .ModbusRTUServer => true
  | .ModbusASCIIServer => true
  | .ModbusRTUBoth => processingResponse
  | .ModbusASCIIBoth => processingResponse
  | _ => false

/-- The six Modbus modes, the ones `WorkerThread` does not reject. -/
def is_modbus (mode : Mode) : Prop :=
  mode = .ModbusRTUClient ∨ mode = .ModbusRTUServer ∨ mode = .ModbusRTUBoth ∨
    mode = .ModbusASCIIClient ∨ mode = .ModbusASCIIServer ∨ mode = .ModbusASCIIBoth

/-- Whether the parser of the role reads and compares a checksum for the function
code `f`: the function codes with a `case`, and on the server side also every
function code with bit 7 set (exception). -/
def checked (resp : Bool) (f : Nat) : Bool :=
  decide (f ∈ known_funccodes) || (resp && decide (f &&& 0x80 ≠ 0))

/-- The kind flag the role gives the header frame of a message with function code
`f`. -/
def header_kind (K : FlagBits) (resp : Bool) (f : Nat) : Nat :=
  if resp then (if f &&& 0x80 ≠ 0 then K.FLAG_EXCEPTION_FRAME else K.FLAG_RESPONSE_FRAME)
  else K.FLAG_REQUEST_FRAME

/-- The bytes the ASCII start-of-frame search reads: bytes that are not `':'` as a
`char`, then one that is. -/
def start_of_frame (pre : List Nat) : Prop :=
  ∃ junk c, pre = junk ++ [c] ∧ toChar c = 0x3A ∧ ∀ j ∈ junk, toChar j ≠ 0x3A

/-- The frames a pass has handed over while it is still parsing: none, or a
header whose flags are exactly REQUEST or exactly RESPONSE followed by DATA and
FILE_SUBREQ frames. -/
def message_unfinished (K : FlagBits) (fs : List Frame) : Prop :=
  fs = [] ∨ ∃ hdr mids, fs = hdr :: mids
    ∧ (hdr.mFlags = K.FLAG_REQUEST_FRAME ∨ hdr.mFlags = K.FLAG_RESPONSE_FRAME)
    ∧ ∀ m ∈ mids, is_mid K m

/-- What the role parser has done when it returns the frame `fr`, after the bytes
`pre` of the start-of-frame search, the address `a` and the function code `f`:
it has read the message bytes `msg` and the checksum bytes `ck` (none for a
function code without a `case`), and `fr` and the frames handed over are as
`case_frames` says; an exception hands over no frame. -/
def body_post (K : FlagBits) (mode : Mode) (rtu resp : Bool) (s0 : Analyzer) (pre : List Nat)
    (a f : Nat) (fr : Frame) (s1 : Analyzer) : Prop :=
  ∃ msg ck fs, Run mode s0 (pre ++ a :: f :: (msg ++ ck)) fs s1
    ∧ ck.length = (if checked resp f then (if rtu then 2 else 1) else 0)
    ∧ (checked resp f = false → msg = [])
    ∧ case_frames K (header_kind K resp f)
        (checked resp f && received_bad rtu (a :: f :: msg) ck) fs fr
    ∧ (header_kind K resp f = K.FLAG_REQUEST_FRAME ∨ header_kind K resp f = K.FLAG_RESPONSE_FRAME
        ∨ fs = [])

/-- What `WorkerThread_parse` has done when it returns the frame `fr`: the bytes
read are those of the start-of-frame search (`pre`, ASCII only), the address, the
function code, the message bytes, the checksum bytes and the two trailer bytes
(`post`, ASCII only). -/
def parse_post (K : FlagBits) (mode : Mode) (rtu resp : Bool) (s0 : Analyzer)
    (fr : Frame) (s1 : Analyzer) : Prop :=
  ∃ pre a f msg ck post fs,
    Run mode s0 (pre ++ a :: f :: (msg ++ ck) ++ post) fs s1
    ∧ (if rtu then pre = [] ∧ post = [] else start_of_frame pre ∧ post.length = 2)
    ∧ ck.length = (if checked resp f then (if rtu then 2 else 1) else 0)
    ∧ (checked resp f = false → msg = [])
    ∧ case_frames K (header_kind K resp f)
        (checked resp f && received_bad rtu (a :: f :: msg) ck) fs fr
    ∧ (header_kind K resp f = K.FLAG_REQUEST_FRAME ∨ header_kind K resp f = K.FLAG_RESPONSE_FRAME
        ∨ fs = [])


/-- What one whole pass of the dispatcher loop has done when it returns: the
bytes it read are the start-of-frame bytes `pre` (ASCII only), the address `a`,
the function code `f`, the message bytes `msg`, the checksum bytes `ck` and the
trailer bytes `post` (ASCII only); it handed over the frames `fs` and then the
terminal frame `last`, related as `case_frames` says. -/
def message_post (K : FlagBits) (mode : Mode) (rtu resp : Bool) (s0 s1 : Analyzer) : Prop :=
  ∃ pre a f msg ck post fs last,
    Run mode s0 (pre ++ a :: f :: (msg ++ ck) ++ post) (fs ++ [last]) s1
    ∧ (if rtu then pre = [] ∧ post = [] else start_of_frame pre ∧ post.length = 2)
    ∧ ck.length = (if checked resp f then (if rtu then 2 else 1) else 0)
    ∧ (checked resp f = false → msg = [])
    ∧ case_frames K (header_kind K resp f)
        (checked resp f && received_bad rtu (a :: f :: msg) ck) fs last
    ∧ (header_kind K resp f = K.FLAG_REQUEST_FRAME ∨ header_kind K resp f = K.FLAG_RESPONSE_FRAME
        ∨ fs = [])

/-- A frame of kind `x`: its flags are `x`, alone or with CHECKSUM_ERROR. -/
def is_kind (K : FlagBits) (x : Nat) (fr : Frame) : Prop :=
  fr.mFlags = x ∨ fr.mFlags = x ||| K.FLAG_CHECKSUM_ERROR

/-- The frames of one message: a single REQUEST, RESPONSE or EXCEPTION frame, or
a header (exactly REQUEST or exactly RESPONSE), DATA and FILE_SUBREQ frames, and
an END frame. -/
def message_shape (K : FlagBits) (fs : List Frame) : Prop :=
  (∃ x, fs = [x] ∧ (is_kind K K.FLAG_REQUEST_FRAME x ∨ is_kind K K.FLAG_RESPONSE_FRAME x
      ∨ is_kind K K.FLAG_EXCEPTION_FRAME x))
    ∨ (∃ hdr mids e, fs = hdr :: (mids ++ [e])
        ∧ (hdr.mFlags = K.FLAG_REQUEST_FRAME ∨ hdr.mFlags = K.FLAG_RESPONSE_FRAME)
        ∧ (∀ m ∈ mids, is_mid K m) ∧ is_kind K K.FLAG_END_FRAME e)

/-- CHECKSUM_ERROR is set in the flags of the frame. -/
def has_checksum_error (K : FlagBits) (fr : Frame) : Prop :=
  fr.mFlags &&& K.FLAG_CHECKSUM_ERROR ≠ 0

/-- The CHECKSUM_ERROR constant is not zero and shares no bit with any of the six
kind constants. -/
def checksum_bit_apart (K : FlagBits) : Prop :=
  K.FLAG_CHECKSUM_ERROR ≠ 0
    ∧ K.FLAG_REQUEST_FRAME &&& K.FLAG_CHECKSUM_ERROR = 0
    ∧ K.FLAG_RESPONSE_FRAME &&& K.FLAG_CHECKSUM_ERROR = 0
    ∧ K.FLAG_EXCEPTION_FRAME &&& K.FLAG_CHECKSUM_ERROR = 0
    ∧ K.FLAG_FILE_SUBREQ &&& K.FLAG_CHECKSUM_ERROR = 0
    ∧ K.FLAG_DATA_FRAME &&& K.FLAG_CHECKSUM_ERROR = 0
    ∧ K.FLAG_END_FRAME &&& K.FLAG_CHECKSUM_ERROR = 0

/-- The `U32` value of a `ModbusAnalyzerEnums::Mode` enumerator (declaration order). -/
def Mode.toU32 : Mode → Nat
  | .ModbusRTUClient => 0
  | .ModbusRTUServer => 1
  | .ModbusASCIIClient => 2
  | .ModbusASCIIServer => 3
  | .ModbusRTUBoth => 4
  | .ModbusASCIIBoth => 5
  | .Normal => 6
  | .MpModeMsbZeroMeansAddress => 7
  | .MpModeMsbOneMeansAddress => 8

/-- The `U32` value of a `ModbusAnalyzerEnums::ParityAndStopbits` enumerator:
`NoneTwo`, `EvenOne`, `OddOne` are `AnalyzerEnums::Parity::None`, `Even`, `Odd` (0, 1,
2), and `NoneOne` follows. -/
def ParityAndStopbits.toU32 : ParityAndStopbits → Nat
  | .NoneTwo => 0
  | .EvenOne => 1
  | .OddOne => 2
  | .NoneOne => 3

/-- The `SimpleArchive` of the SDK as the settings code uses it: the name string
written first, then the ordered list of the values written with `<<` (a `bool` is
written as 0 or 1), read back in the same order with `>>`. -/
structure SimpleArchive where
  name : String
  values : List Nat
  deriving DecidableEq, Repr

/-- The fields `LoadSettings` assigns, the two enumerations as the `U32` it stores
into them through `*( U32* )&mode` and `*( U32* )&parity`. -/
structure LoadedSettings where
  mInputChannel : Nat
  mBitRate : Nat
  mInverted : Bool
  mModbusMode : Nat
  mParity : Nat
  deriving DecidableEq, Repr

/-- Source: `ModbusAnalyzerSettings::SaveSettings`: the name, then `mInputChannel`,
`mBitRate`, `mInverted`, `mAssumeDataStartsWithResponse`, `mModbusMode`, `mParity`. -/
def SaveSettings (s : ModbusAnalyzerSettings) : SimpleArchive :=
  { name := "ModbusAnalyzerSettings"
    values := [s.mInputChannel, s.mBitRate, if s.mInverted then 1 else 0,
      if s.mAssumeDataStartsWithResponse then 1 else 0, s.mModbusMode.toU32, s.mParity.toU32] }

/-- One `text_archive >> x`: the next value and the rest of the archive, `none`
when the archive is exhausted. -/
def SimpleArchive.read (a : SimpleArchive) : Option (Nat × SimpleArchive) :=
  match a.values with
  | [] => none
  | v :: rest => some (v, { a with values := rest })

/-- Source: `ModbusAnalyzerSettings::LoadSettings` on the current fields `cur`:
`none` is the fatal `AnalyzerHelpers::Assert` on a foreign name; otherwise
`mInputChannel`, `mBitRate`, `mInverted` are read, then one value into
`mModbusMode` and one into `mParity` (each assigned only if the read succeeds; a
failed unchecked read leaves the field as it was). -/
def LoadSettings (settings : SimpleArchive) (cur : LoadedSettings) : Option LoadedSettings :=
  if settings.name ≠ "ModbusAnalyzerSettings" ∧ settings.name ≠ "SaleaeAsyncModbusAnalyzer" then
    none
  else
    let step (a : SimpleArchive) (old : Nat) : Nat × SimpleArchive :=
      match a.read with
      | some (v, a1) => (v, a1)
      | none => (old, a)
    let (mInputChannel, a1) := step settings cur.mInputChannel
    let (mBitRate, a2) := step a1 cur.mBitRate
    let (inv, a3) := step a2 (if cur.mInverted then 1 else 0)
    let (mode, a4) := step a3 cur.mModbusMode
    let (parity, _) := step a4 cur.mParity
    some { mInputChannel := mInputChannel, mBitRate := mBitRate, mInverted := decide (inv ≠ 0),
           mModbusMode := mode, mParity := parity }

/-- No condition on the frames handed over so far. -/
def any_frames : List Frame → Prop := fun _ => True

/-- What a role parser has to satisfy for the relation `R` to hold of a pass of the
dispatcher: entered after the bytes `pre ++ [a, f]` with a frame that carries the
kind flag of the role and no data, each of the request switch, the response
switch and the exception branch reads some bytes `body`, hands over some frames
`fs` and returns a frame `fr` with `R resp a f body fs fr`. -/
def parser_rel (K : FlagBits) (mode : Mode) (s : Analyzer)
    (R : Bool → Nat → Nat → List Nat → List Frame → Frame → Prop) : Prop :=
  (∀ (pre : List Nat) (a f : Nat) (frame : Frame) (s2 : Analyzer),
      Run mode s (pre ++ [a, f]) [] s2 → frame.mFlags = K.FLAG_REQUEST_FRAME →
      frame.mData1 = 0 → frame.mData2 = 0 →
      wp (request_switch K mode a f frame)
        (fun fr s3 => ∃ body fs, Run mode s (pre ++ a :: f :: body) fs s3 ∧ R false a f body fs fr)
        (Waiting s any_frames) s2)
  ∧ (∀ (pre : List Nat) (a f : Nat) (frame : Frame) (s2 : Analyzer),
      Run mode s (pre ++ [a, f]) [] s2 → f &&& 0x80 = 0 →
      frame.mFlags = K.FLAG_RESPONSE_FRAME → frame.mData1 = 0 → frame.mData2 = 0 →
      wp (response_switch K mode a f frame)
        (fun fr s3 => ∃ body fs, Run mode s (pre ++ a :: f :: body) fs s3 ∧ R true a f body fs fr)
        (Waiting s any_frames) s2)
  ∧ (∀ (pre : List Nat) (a f : Nat) (frame : Frame) (s2 : Analyzer),
      Run mode s (pre ++ [a, f]) [] s2 → ¬ f &&& 0x80 = 0 →
      frame.mData1 = 0 → frame.mData2 = 0 →
      wp (response_exception K mode a f frame)
        (fun fr s3 => ∃ body fs, Run mode s (pre ++ a :: f :: body) fs s3 ∧ R true a f body fs fr)
        (Waiting s any_frames) s2)

/-- What a pass of the dispatcher has done when it returns, for a relation `R`
that its role parser satisfies: it has read the start-of-frame bytes `pre` (ASCII
only), the address `a`, the function code `f`, the bytes `body` of the role
parser and the two trailer bytes `post` (ASCII only); it has handed over the
frames `fs` of the role parser and then the frame `fr` the parser returned, with
its end sample set (`last`). -/
def message_rel (mode : Mode) (resp : Bool) (s : Analyzer)
    (R : Bool → Nat → Nat → List Nat → List Frame → Frame → Prop) (s1 : Analyzer) : Prop :=
  ∃ pre a f body post fs fr last,
    Run mode s (pre ++ a :: f :: body ++ post) (fs ++ [last]) s1
    ∧ last = { fr with mEndingSampleInclusive := last.mEndingSampleInclusive }
    ∧ (if is_rtu mode then pre = [] ∧ post = [] else start_of_frame pre ∧ post.length = 2)
    ∧ R resp a f body fs fr

/-- What `WorkerThread_parse` has done when it returns the frame `fr`, for a
relation `R` that its role parser satisfies. -/
def parse_rel (mode : Mode) (resp : Bool) (s : Analyzer)
    (R : Bool → Nat → Nat → List Nat → List Frame → Frame → Prop) (fr : Frame)
    (s1 : Analyzer) : Prop :=
  ∃ pre a f body post fs,
    Run mode s (pre ++ a :: f :: body ++ post) fs s1
    ∧ (if is_rtu mode then pre = [] ∧ post = [] else start_of_frame pre ∧ post.length = 2)
    ∧ R resp a f body fs fr

/-- The relation of a claim about one function code `f0`: `Rq` in the request
role, `Rs` in the response role, nothing for any other function code. -/
def code_rel (f0 : Nat) (Rq Rs : Nat → List Nat → List Frame → Frame → Prop)
    (resp : Bool) (a f : Nat) (body : List Nat) (fs : List Frame) (fr : Frame) : Prop :=
  f = f0 → if resp then Rs a body fs fr else Rq a body fs fr

/-- No claim: the relation that holds of everything. -/
def no_rel : Nat → List Nat → List Frame → Frame → Prop := fun _ _ _ _ => True

/-- A pass of the dispatcher that started in `s` and returned in `s1` has read the
address `a`, the function code `f` and the bytes `body` of the role parser, and
has handed over the frames `frames`: the logical bytes read are the start-of-frame
bytes `pre` (ASCII only: bytes that are not `':'`, then `':'`), `a`, `f`, `body`
and the two trailer bytes `post` (ASCII only), and the result sink has been
extended by `frames`. -/
def pass_reads (mode : Mode) (s s1 : Analyzer) (a f : Nat) (body : List Nat)
    (frames : List Frame) : Prop :=
  ∃ pre post, Run mode s (pre ++ a :: f :: body ++ post) frames s1
    ∧ s1.mResults = s.mResults ++ frames
    ∧ (if is_rtu mode then pre = [] ∧ post = [] else start_of_frame pre ∧ post.length = 2)

/-- What the Mask Write Register case (request or response) does, `crc` telling
the RTU branch from the ASCII branch and `h` being the kind flag of the role: six
payload bytes and the checksum are read, no frame is handed over, and the frame
returned carries the first four payload bytes and the checksum in `mData1`, the
last two payload bytes in `mData2`, and `h` with CHECKSUM_ERROR iff the
comparison fails. -/
def mask_write_rel (K : FlagBits) (crc : Bool) (h : Nat) (a : Nat) (body : List Nat)
    (fs : List Frame) (fr : Frame) : Prop :=
  ∃ p1 p2 p3 p4 p5 p6 ck, body = [p1, p2, p3, p4, p5, p6] ++ ck
    ∧ ck.length = (if crc then 2 else 1) ∧ fs = []
    ∧ fr.mData1 = pack8 a 0x16 p1 p2 p3 p4 (ck.getD 1 0) (ck.getD 0 0)
    ∧ fr.mData2 = U64 ((p5 <<< 8) + p6)
    ∧ fr.mFlags = flagged K h (received_bad crc [a, 0x16, p1, p2, p3, p4, p5, p6] ck)

/-- The flags, `mData1` and `mData2` of a frame. -/
def frame_info (f : Frame) : Nat × Nat × Nat := (f.mFlags, f.mData1, f.mData2)

/-- The DATA frame of one byte: `mData1 = ( 0 << 40 ) + ( b << 32 )`, `mData2 = 0`. -/
def byte_info (K : FlagBits) (b : Nat) : Nat × Nat × Nat :=
  (K.FLAG_DATA_FRAME, U64 ((0 <<< 40) + (b <<< 32)), 0)

/-- The DATA frame of one two-byte word: `mData1 = ( hi << 40 ) + ( lo << 32 )`. -/
def word_info (K : FlagBits) (p : Nat × Nat) : Nat × Nat × Nat :=
  (K.FLAG_DATA_FRAME, U64 ((p.1 <<< 40) + (p.2 <<< 32)), 0)

/-- A relation that holds of everything, for the role a claim says nothing about. -/
def no_rel_crc : Nat → Bool → Nat → List Nat → List Frame → Frame → Prop :=
  fun _ _ _ _ _ _ => True

/-- The relation of a claim about the function codes `C`: `Rq f` in the request
role and `Rs f` in the response role, each given the branch (`true` for the RTU
branch) the role parser takes in the mode. -/
def codes_rel (mode : Mode) (C : Nat → Prop)
    (Rq Rs : Nat → Bool → Nat → List Nat → List Frame → Frame → Prop)
    (resp : Bool) (a f : Nat) (body : List Nat) (fs : List Frame) (fr : Frame) : Prop :=
  C f → if resp then Rs f (decide (mode = .ModbusRTUServer ∨ mode = .ModbusRTUBoth)) a body fs fr
    else Rq f (decide (mode = .ModbusRTUClient ∨ mode = .ModbusRTUBoth)) a body fs fr

/-- A statement `P` about one pass of the dispatcher from the state `s`: a pass
that returns has read an address `a`, a function code `f` and bytes `body` and has
handed over the frames `frames` (see `pass_reads`), and `P a f body frames` holds;
a pass that does not return has run out of characters. -/
@[irreducible] def pass_claim (K : FlagBits) (mode : Mode) (pr : Bool) (s : Analyzer)
    (P : Nat → Nat → List Nat → List Frame → Prop) : Prop :=
  match WorkerThread_message K mode pr s with
  | .ret _ s1 => ∃ a f body frames, pass_reads mode s s1 a f body frames ∧ P a f body frames
  | .blocked s1 => s1.mModbus = []

/-- What a multi-frame case does, in terms of the bytes `hb` it reads before the
header, the header words `d1`, `d2`, the data bytes `data` of its loop and the
expected flags and data words `infos` of the loop frames: the bytes read are
`hb`, `data` and the checksum bytes `ck` (two in the RTU branch, one in the ASCII
branch); the frames handed over are the header (flags exactly `h`) and the loop
frames; the frame returned is the END frame, with CHECKSUM_ERROR iff the
comparison of `ck` with the checksum of `a, f, hb, data` fails, the received
checksum in `mData1` and the header's `mData2`. -/
def multi_rel (K : FlagBits) (crc : Bool) (h a f : Nat) (hb : List Nat) (d1 d2 : Nat)
    (data : List Nat) (infos : List (Nat × Nat × Nat)) (body : List Nat) (fs : List Frame)
    (fr : Frame) : Prop :=
  ∃ ck hdr mids, body = hb ++ data ++ ck ∧ ck.length = (if crc then 2 else 1)
    ∧ fs = hdr :: mids ∧ frame_info hdr = (h, d1, d2) ∧ mids.map frame_info = infos
    ∧ fr.mFlags = flagged K K.FLAG_END_FRAME (received_bad crc (a :: f :: (hb ++ data)) ck)
    ∧ fr.mData1 = U64 ((ck.getD 1 0 <<< 8) + ck.getD 0 0) ∧ fr.mData2 = d2

/-- Read FIFO Queue request (0x18): two payload bytes and the checksum, one frame. -/
def fifo_request_rel (K : FlagBits) (crc : Bool) (a : Nat) (body : List Nat)
    (fs : List Frame) (fr : Frame) : Prop :=
  ∃ p1 p2 ck, body = [p1, p2] ++ ck ∧ ck.length = (if crc then 2 else 1) ∧ fs = []
    ∧ fr.mData1 = pack8 a 0x18 p1 p2 0 0 (ck.getD 1 0) (ck.getD 0 0)
    ∧ fr.mData2 = 0
    ∧ fr.mFlags = flagged K K.FLAG_REQUEST_FRAME (received_bad crc [a, 0x18, p1, p2] ck)

/-- Read/Write Multiple Registers request (0x17): nine header bytes, then
`bc / 2` data words. -/
def readwrite_request_rel (K : FlagBits) (crc : Bool) (a : Nat) (body : List Nat)
    (fs : List Frame) (fr : Frame) : Prop :=
  ∃ p1 p2 p3 p4 p5 p6 p7 p8 bc data, data.length = 2 * (bc / 2)
    ∧ multi_rel K crc K.FLAG_REQUEST_FRAME a 0x17 [p1, p2, p3, p4, p5, p6, p7, p8, bc]
        (pack8 a 0x17 p1 p2 p3 p4 0 bc)
        (U64 ((p5 <<< 24) + (p6 <<< 16) + (p7 <<< 8) + p8))
        data ((word_pairs data).map (word_info K)) body fs fr

/-- Read Coils, Read Discrete Inputs and Report Server ID responses (function code
`f`): a byte count `bc`, then `bc` data bytes. -/
def byte_response_rel (K : FlagBits) (f : Nat) (crc : Bool) (a : Nat) (body : List Nat)
    (fs : List Frame) (fr : Frame) : Prop :=
  ∃ bc data, data.length = bc
    ∧ multi_rel K crc K.FLAG_RESPONSE_FRAME a f [bc] (pack8 a f 0 0 0 0 0 bc) 0
        data (data.map (byte_info K)) body fs fr

/-- Get Com Event Log response (0x0C): a byte count `bc`, two status bytes, two
event-count bytes, two message-count bytes, then one event byte per pass of the
loop with the bound `U64 ( bc - 6 )` and the counter `int i`; the
header's `mData2` packs the event count and the message count, second byte first
in the RTU branch and first byte first in the ASCII branch. -/
def com_event_log_rel (K : FlagBits) (crc : Bool) (a : Nat) (body : List Nat)
    (fs : List Frame) (fr : Frame) : Prop :=
  ∃ bc s0 s1 e0 e1 m0 m1 data, data.length = int_passes (U64 (bc + 2 ^ 64 - 6))
    ∧ multi_rel K crc K.FLAG_RESPONSE_FRAME a 0x0C [bc, s0, s1, e0, e1, m0, m1]
        (pack8 a 0x0C s0 s1 0 0 0 bc)
        (if crc then U64 ((e1 <<< 24) + (e0 <<< 16) + (m1 <<< 8) + m0)
          else U64 ((e0 <<< 24) + (e1 <<< 16) + (m0 <<< 8) + m1))
        data (data.map (byte_info K)) body fs fr

/-- Read FIFO Queue response (0x18): two byte-count bytes, two FIFO-count bytes
`c0`, `c1` (in wire order), then the data words; the RTU branch reads
`( c1 << 8 ) + c0` words, the ASCII branch `( c0 << 8 ) + c1`. -/
def fifo_response_rel (K : FlagBits) (crc : Bool) (a : Nat) (body : List Nat)
    (fs : List Frame) (fr : Frame) : Prop :=
  ∃ b0 b1 c0 c1 data,
    data.length = 2 * (if crc then U64 ((c1 <<< 8) + c0) else U64 ((c0 <<< 8) + c1))
    ∧ multi_rel K crc K.FLAG_RESPONSE_FRAME a 0x18 [b0, b1, c0, c1]
        (if crc then pack8 a 0x18 0 0 c1 c0 b1 b0 else pack8 a 0x18 0 0 c0 c1 b0 b1) 0
        data ((word_pairs data).map (word_info K)) body fs fr

/-- An RTU request of one of the two single-frame shapes, as characters on the
wire, with a correct CRC: address, function code 0x01..0x06 or 0x08, four payload
bytes and the two CRC bytes; or address, function code 0x07, 0x0B, 0x0C or 0x11
and the two CRC bytes. -/
def rtu_single_request (m : List SerialChar) : Prop :=
  (∃ a f p1 p2 p3 p4 c0 c1, m = [a, f, p1, p2, p3, p4, c0, c1]
      ∧ f.data ∈ [0x01, 0x02, 0x03, 0x04, 0x05, 0x06, 0x08]
      ∧ crc_mismatch (CRC [a.data, f.data, p1.data, p2.data, p3.data, p4.data])
          c0.data c1.data = false)
  ∨ (∃ a f c0 c1, m = [a, f, c0, c1]
      ∧ f.data ∈ [0x07, 0x0B, 0x0C, 0x11]
      ∧ crc_mismatch (CRC [a.data, f.data]) c0.data c1.data = false)

/-! ## The character reader at sample level

`GetNextByteModbus` reads the channel through the SDK object
`AnalyzerChannelData` and reports markers to the results object. The block that
samples one character occurs three times in the source (the RTU branch, and the
first and second character of the ASCII branch); it is `sample_character`. -/

/-- Source: `AnalyzerResults::MarkerType`, the three values the reader uses. -/
inductive MarkerType where
  | Dot
  | ErrorDot
  | Square
  deriving DecidableEq, Repr

/-- One call `mResults->AddMarker( sample, type, channel )`. -/
structure Marker where
  sample : Nat
  type : MarkerType
  channel : Nat
  deriving DecidableEq, Repr

/-- The SDK object `AnalyzerChannelData` behind `mModbus`, at sample level: the
captured bit states, one per sample (`true` is `BIT_HIGH`, `false` is `BIT_LOW`),
and the current sample number. -/
structure ChannelData where
  samples : List Bool
  sample_number : Nat
  deriving DecidableEq, Repr

/-- SDK call `GetBitState()`: the bit state at the current sample. -/
def ChannelData.GetBitState (c : ChannelData) : Bool :=
  c.samples.getD c.sample_number false

/-- SDK call `GetSampleNumber()`. -/
def ChannelData.GetSampleNumber (c : ChannelData) : Nat :=
  c.sample_number

/-- SDK call `Advance( num_samples )`: move forward by `num_samples`; `none`
when the capture ends before that sample (the call then waits for data that
never comes). -/
def ChannelData.Advance (c : ChannelData) (num_samples : Nat) : Option ChannelData :=
  if c.sample_number + num_samples < c.samples.length then
    some { c with sample_number := c.sample_number + num_samples }
  else none

/-- The number of the first sample of `rest` (whose first sample has number `i`)
whose bit state differs from `state`. -/
def find_edge (state : Bool) : List Bool → Nat → Option Nat
  | [], _ => none
  | b :: rest, i => if b ≠ state then some i else find_edge state rest (i + 1)

/-- SDK call `AdvanceToNextEdge()`: move to the first later sample whose bit
state differs from the current one; `none` when the capture has no further
edge. -/
def ChannelData.AdvanceToNextEdge (c : ChannelData) : Option ChannelData :=
  (find_edge c.GetBitState (c.samples.drop (c.sample_number + 1)) (c.sample_number + 1)).map
    fun i => { c with sample_number := i }

/-- The channel and the markers reported so far. -/
structure Sampler where
  mModbus : ChannelData
  markers : List Marker
  deriving DecidableEq, Repr

/-- The outcome of a piece of the character reader: it returns `a` in state
`s`, or the capture ends while it is advancing, in state `s`. -/
inductive Sampled (α : Type) where
  | ret (a : α) (s : Sampler)
  | ended (s : Sampler)
  deriving Repr

/-- The members of the analyzer that the character reader uses besides the
channel: the settings, the offsets left by `ComputeSampleOffsets` and the levels
`mBitHigh`, `mBitLow` chosen by `WorkerThread`. -/
structure ReaderMembers where
  mSettings : ModbusAnalyzerSettings
  mSampleOffsets : List Nat
  mParityBitOffset : Nat
  mStartOfStopBitOffset : Nat
  mBitHigh : Bool
  mBitLow : Bool
  deriving DecidableEq, Repr

/-- The value `~data` of a `U64`. -/
def U64_not (data : Nat) : Nat :=
  2 ^ 64 - 1 - data % 2 ^ 64

/-- SDK call `DataBuilder::Reset( &data, shift_order, num_bits )` with `data = 0`:
the data and the first mask, `1 << ( num_bits - 1 )` for `MsbFirst` and `1` for
`LsbFirst`. -/
def DataBuilder_Reset (shift_order : ShiftOrder) (num_bits : Nat) : Nat × Nat :=
  (0, if shift_order = .MsbFirst then U64 (1 <<< (num_bits - 1)) else 1)

/-- SDK call `DataBuilder::AddBit( bit )` on the pair of the data and the mask:
the mask is or'ed into the data when the bit is `BIT_HIGH`, then shifted right
(`MsbFirst`) or left (`LsbFirst`). -/
def DataBuilder_AddBit (shift_order : ShiftOrder) (p : Nat × Nat) (bit : Bool) : Nat × Nat :=
  (if bit = true then p.1 ||| p.2 else p.1,
    if shift_order = .MsbFirst then p.2 >>> 1 else U64 (p.2 <<< 1))

/-- SDK call `AnalyzerHelpers::GetOnesCount( data )` on a `U64`. -/
def GetOnesCount (data : Nat) : Nat :=
  ((List.range 64).filter fun i => data.testBit i).length

/-- SDK call `AnalyzerHelpers::IsEven`. -/
def IsEven (n : Nat) : Bool :=
  n % 2 = 0

/-- Source: the loop `for( U32 i = 0; i < num_bits; i++ )` of the character
block, at pass `i` with `k` passes left: advance by `mSampleOffsets[ i ]`, add
the bit state to the data, report a `Dot` marker. Returns the data and
`marker_location`. -/
def sample_bits (m : ReaderMembers) :
    Nat → Nat → Nat × Nat → Nat → Sampler → Sampled (Nat × Nat)
  | 0, _, builder, marker_location, s => .ret (builder.1, marker_location) s
  | k + 1, i, builder, marker_location, s =>
    match s.mModbus.Advance (m.mSampleOffsets.getD i 0) with
    | none => .ended s
    | some c =>
      let builder := DataBuilder_AddBit m.mSettings.mShiftOrder builder c.GetBitState
      let marker_location := U64 (marker_location + m.mSampleOffsets.getD i 0)
      sample_bits m k (i + 1) builder marker_location
        ⟨c, s.markers ++ [⟨marker_location, .Dot, m.mSettings.mInputChannel⟩]⟩

/-- Source: the value of `parity_error` after the nested tests of the parity
bit's state against `mBitLow` and `mBitHigh`. -/
def parity_error (m : ReaderMembers) (data : Nat) (state : Bool) : Bool :=
  let is_even := IsEven (GetOnesCount data)
  if m.mSettings.mParity = .EvenOne then
    if is_even = true then decide (state ≠ m.mBitLow) else decide (state ≠ m.mBitHigh)
  else
    if is_even = false then decide (state ≠ m.mBitLow) else decide (state ≠ m.mBitHigh)

/-- Source: `if( mSettings->mParity != NoneOne && mSettings->mParity != NoneTwo )
{ ... } else if( mSettings->mParity == NoneTwo ) { ... }` of the character block:
the parity probe, or the probe of the first of two stop bits. -/
def parity_block (m : ReaderMembers) (data marker_location : Nat) (s : Sampler) :
    Sampled Unit :=
  if m.mSettings.mParity ≠ .NoneOne ∧ m.mSettings.mParity ≠ .NoneTwo then
    match s.mModbus.Advance m.mParityBitOffset with
    | none => .ended s
    | some c =>
      let marker_location := U64 (marker_location + m.mParityBitOffset)
      if !(parity_error m data c.GetBitState) then
        .ret () ⟨c, s.markers ++ [⟨marker_location, .Square, m.mSettings.mInputChannel⟩]⟩
      else
        .ret () ⟨c, s.markers ++ [⟨marker_location, .ErrorDot, m.mSettings.mInputChannel⟩]⟩
  else if m.mSettings.mParity = .NoneTwo then
    match s.mModbus.Advance m.mStartOfStopBitOffset with
    | none => .ended s
    | some c =>
      if c.GetBitState ≠ m.mBitHigh then
        .ret () ⟨c, s.markers ++ [⟨c.GetSampleNumber, .ErrorDot, m.mSettings.mInputChannel⟩]⟩
      else
        .ret () ⟨c, s.markers⟩
  else
    .ret () s

/-- Source: the probe of the (last) stop bit that ends the character block. -/
def stop_bit_block (m : ReaderMembers) (s : Sampler) : Sampled Unit :=
  match s.mModbus.Advance m.mStartOfStopBitOffset with
  | none => .ended s
  | some c =>
    if c.GetBitState ≠ m.mBitHigh then
      .ret () ⟨c, s.markers ++ [⟨c.GetSampleNumber, .ErrorDot, m.mSettings.mInputChannel⟩]⟩
    else
      .ret () ⟨c, s.markers ++ [⟨c.GetSampleNumber, .Square, m.mSettings.mInputChannel⟩]⟩

/-- Source: the block of `GetNextByteModbus` that samples one character:
`AdvanceToNextEdge`, the data bits, the inversion, the parity block and the stop
bit probe. Returns the data and the sample number of the start bit's edge; the
end of the character is the sample number the channel is left at. -/
def sample_character (m : ReaderMembers) (num_bits bit_mask : Nat) (s : Sampler) :
    Sampled (Nat × Nat) :=
  match s.mModbus.AdvanceToNextEdge with
  | none => .ended s
  | some c =>
    let start := c.GetSampleNumber
    match sample_bits m num_bits 0 (DataBuilder_Reset m.mSettings.mShiftOrder num_bits)
        start ⟨c, s.markers⟩ with
    | .ended s => .ended s
    | .ret (data, marker_location) s =>
      let data := if m.mSettings.mInverted = true then (U64_not data) &&& bit_mask else data
      match parity_block m data marker_location s with
      | .ended s => .ended s
      | .ret _ s =>
        match stop_bit_block m s with
        | .ended s => .ended s
        | .ret _ s => .ret (data, start) s

/-- Source: `U64 GetNextByteModbus( num_bits, bit_mask, frame_starting_sample,
frame_ending_sample )` at sample level. Returns the byte and the new values of
the two reference parameters. -/
def GetNextByteModbus_samples (m : ReaderMembers) (num_bits bit_mask : Nat)
    (frame_ending_sample : Nat) (s : Sampler) : Sampled (Nat × Nat × Nat) :=
  if m.mSettings.mModbusMode = .ModbusRTUClient ∨ m.mSettings.mModbusMode = .ModbusRTUServer ∨
      m.mSettings.mModbusMode = .ModbusRTUBoth then
    match sample_character m num_bits bit_mask s with
    | .ended s => .ended s
    | .ret (data, frame_starting_sample) s =>
      .ret (data, frame_starting_sample, s.mModbus.GetSampleNumber) s
  else
    match sample_character m num_bits bit_mask s with
    | .ended s => .ended s
    | .ret (data, frame_starting_sample) s =>
      if data = 0x3A ∨ data = 0x0A ∨ data = 0x0D then
        .ret (data, frame_starting_sample, frame_ending_sample) s
      else
        let value : Nat := toU8 (ASCII2INT (toChar data) * 2 ^ 4)
        match sample_character m num_bits bit_mask s with
        | .ended s => .ended s
        | .ret (data, _) s =>
          let value : Nat := toU8 ((value : Int) + ASCII2INT (toChar data))
          .ret (value, frame_starting_sample, s.mModbus.GetSampleNumber) s

/-- Source: the loop of `WorkerThread` that builds `bit_mask`: `num_bits` passes
of `bit_mask |= mask; mask <<= 1;` on `U64` values. -/
def bit_mask_loop : Nat → Nat × Nat → Nat × Nat
  | 0, p => p
  | k + 1, p => bit_mask_loop k (p.1 ||| p.2, U64 (p.2 <<< 1))

/-- The characters the reader finds on the channel, in order, with the markers
it reports: the character block is run until the capture ends (at most `fuel`
times; every run moves the channel forward, so the number of samples is always
enough). -/
def sample_characters (m : ReaderMembers) (num_bits bit_mask : Nat) :
    Nat → Sampler → List SerialChar × Sampler
  | 0, s => ([], s)
  | fuel + 1, s =>
    match sample_character m num_bits bit_mask s with
    | .ended s1 => ([], s1)
    | .ret (data, start) s1 =>
      let r := sample_characters m num_bits bit_mask fuel s1
      (⟨data, start, s1.mModbus.GetSampleNumber⟩ :: r.1, r.2)

/-- Source: `U32 GetMinimumSampleRateHz()`. -/
def GetMinimumSampleRateHz (mSettings : ModbusAnalyzerSettings) : Nat :=
  (mSettings.mBitRate * 4) % 2 ^ 32

/-- Source: `void ComputeSampleOffsets()`. The SDK object `ClockGenerator` is a
parameter: `clock bit_rate sample_rate calls` is the value returned by the last
of the calls `AdvanceByHalfPeriod( multiple )` made since
`Init( bit_rate, sample_rate )`, where `calls` lists twice the multiples (3 for
`1.5`, 2 for the default `1.0`). Returns `mSampleOffsets`, `mParityBitOffset`
(0 when it is not assigned) and `mStartOfStopBitOffset`. -/
def ComputeSampleOffsets (clock : Nat → Nat → List Nat → Nat)
    (mSettings : ModbusAnalyzerSettings) (mSampleRateHz : Nat) : List Nat × Nat × Nat :=
  let advance := clock mSettings.mBitRate mSampleRateHz
  let num_bits := mSettings.mBitsPerTransfer
  let num_bits := if mSettings.mModbusMode ≠ .Normal then num_bits + 1 else num_bits
  let num_bits := (num_bits + 2 ^ 32 - 1) % 2 ^ 32
  let calls := 3 :: List.replicate num_bits 2
  let mSampleOffsets := (List.range (num_bits + 1)).map fun i => advance (calls.take (i + 1))
  if mSettings.mParity ≠ .NoneOne ∧ mSettings.mParity ≠ .NoneTwo then
    (mSampleOffsets, advance (calls ++ [2]), advance (calls ++ [2, 2]))
  else
    (mSampleOffsets, 0, advance (calls ++ [2]))

/-- Source: the members `WorkerThread` sets before it reads the channel: the
offsets (through `ComputeSampleOffsets`) and the levels `mBitHigh`, `mBitLow`,
which are `BIT_HIGH`, `BIT_LOW` unless the signal is inverted. -/
def WorkerThread_members (clock : Nat → Nat → List Nat → Nat)
    (mSettings : ModbusAnalyzerSettings) (mSampleRateHz : Nat) : ReaderMembers :=
  let offsets := ComputeSampleOffsets clock mSettings mSampleRateHz
  { mSettings := mSettings
    mSampleOffsets := offsets.1
    mParityBitOffset := offsets.2.1
    mStartOfStopBitOffset := offsets.2.2
    mBitHigh := if mSettings.mInverted = false then true else false
    mBitLow := if mSettings.mInverted = false then false else true }

/-- Source: the local `num_bits` of `WorkerThread`. -/
def WorkerThread_num_bits (mSettings : ModbusAnalyzerSettings) : Nat :=
  if mSettings.mModbusMode = .MpModeMsbOneMeansAddress ∨
      mSettings.mModbusMode = .MpModeMsbZeroMeansAddress then mSettings.mBitsPerTransfer + 1
  else mSettings.mBitsPerTransfer

/-- Source: the local `bit_mask` of `WorkerThread`. -/
def WorkerThread_bit_mask (mSettings : ModbusAnalyzerSettings) : Nat :=
  (bit_mask_loop (WorkerThread_num_bits mSettings) (0, 1)).1

/-- Source: the `for( ;; )` loop of `WorkerThread` with its locals
`U64 starting_frame; U64 ending_frame;`, which are declared in the loop body
without an initial value: `locals k` are the values they hold when pass `k`
begins. The first argument bounds the number of passes, as in
`WorkerThread_loop`. -/
def WorkerThread_loop_locals (K : FlagBits) (mode : Mode) (locals : Nat → Nat × Nat) :
    Nat → Nat → Bool → Analyzer → Analyzer
  | 0, _, _, s => s
  | fuel + 1, k, processingResponse, s =>
    match WorkerThread_message K mode processingResponse
        { s with starting_frame := (locals k).1, ending_frame := (locals k).2 } with
    | .ret processingResponse s1 =>
      WorkerThread_loop_locals K mode locals fuel (k + 1) processingResponse s1
    | .blocked s1 => s1

/-- Source: the `for( ;; )` loop of `WorkerThread` at sample level: the
dispatcher runs on the characters the reader finds on the channel, `locals`
giving the values of the uninitialised locals `starting_frame`, `ending_frame`
at the start of every pass. Returns the frames handed over and the markers
reported when the capture is exhausted. -/
def WorkerThread_decode (K : FlagBits) (mSettings : ModbusAnalyzerSettings) (m : ReaderMembers)
    (num_bits bit_mask : Nat) (locals : Nat → Nat × Nat) (mModbus : ChannelData) :
    List Frame × List Marker :=
  let r := sample_characters m num_bits bit_mask mModbus.samples.length ⟨mModbus, []⟩
  let processingResponse := mSettings.mAssumeDataStartsWithResponse
  ((WorkerThread_loop_locals K mSettings.mModbusMode locals (r.1.length + 1) 0
    processingResponse ⟨r.1, 0, 0, []⟩).mResults, r.2.markers)

/-- Source: `if( mModbus->GetBitState() == mBitLow ) mModbus->AdvanceToNextEdge();`
at the start of `WorkerThread`: the channel after the statement, `none` when the
call of `AdvanceToNextEdge` finds no further edge in the capture and the worker
is left waiting in it. -/
def WorkerThread_align (m : ReaderMembers) (mModbus : ChannelData) : Option ChannelData :=
  if mModbus.GetBitState = m.mBitLow then mModbus.AdvanceToNextEdge else some mModbus

/-- Source: `WorkerThread` at sample level, from the call of `GetSampleRate` on
(`clock` is the SDK `ClockGenerator`, see `ComputeSampleOffsets`; `locals` are
the values of the uninitialised locals, see `WorkerThread_loop_locals`). First
the alignment `WorkerThread_align`: a worker left waiting there has handed over
nothing (`some ( [], [] )`). Then the mode test: the result is `none` for the
fatal `AnalyzerHelpers::Assert` of a non-Modbus mode, and otherwise the frames
handed over and the markers reported when the capture is exhausted. -/
def WorkerThread_samples (K : FlagBits) (mSettings : ModbusAnalyzerSettings)
    (GetSampleRate : Nat) (clock : Nat → Nat → List Nat → Nat) (locals : Nat → Nat × Nat)
    (mModbus : ChannelData) : Option (List Frame × List Marker) :=
  let mSampleRateHz := GetSampleRate
  let m := WorkerThread_members clock mSettings mSampleRateHz
  let num_bits := WorkerThread_num_bits mSettings
  let bit_mask := WorkerThread_bit_mask mSettings
  match WorkerThread_align m mModbus with
  | none => some ([], [])
  | some mModbus =>
    if mSettings.mModbusMode ≠ .ModbusRTUClient ∧ mSettings.mModbusMode ≠ .ModbusRTUServer ∧
        mSettings.mModbusMode ≠ .ModbusRTUBoth ∧ mSettings.mModbusMode ≠ .ModbusASCIIClient ∧
        mSettings.mModbusMode ≠ .ModbusASCIIServer ∧ mSettings.mModbusMode ≠ .ModbusASCIIBoth then
      none
    else
      some (WorkerThread_decode K mSettings m num_bits bit_mask locals mModbus)

/-- The capture with every bit state complemented, at the same sample. -/
def ChannelData.complement (c : ChannelData) : ChannelData :=
  { c with samples := c.samples.map not }

/-- The reader state on the complemented capture, with the same markers. -/
def Sampler.complement (s : Sampler) : Sampler :=
  { s with mModbus := s.mModbus.complement }

/-- The same outcome on the complemented capture. -/
def Sampled.complement {α : Type} : Sampled α → Sampled α
  | .ret a s => .ret a s.complement
  | .ended s => .ended s.complement

/-- The bit states the data-bit loop reads when it starts at sample `pos` with
pass `i` and has `k` passes to make: the states at the data-bit sample points. -/
def data_bit_states (offsets : List Nat) (samples : List Bool) : Nat → Nat → Nat → List Bool
  | 0, _, _ => []
  | k + 1, i, pos =>
    samples.getD (pos + offsets.getD i 0) false ::
      data_bit_states offsets samples k (i + 1) (pos + offsets.getD i 0)

/-- The sum of the offsets `offsets[ i ], ..., offsets[ i + k - 1 ]`. -/
def offsets_sum (offsets : List Nat) : Nat → Nat → Nat
  | 0, _ => 0
  | k + 1, i => offsets.getD i 0 + offsets_sum offsets k (i + 1)

/-- The `Dot` markers of the data-bit loop and the final `marker_location`. -/
def data_bit_markers (offsets : List Nat) (channel : Nat) : Nat → Nat → Nat → List Marker × Nat
  | 0, _, marker_location => ([], marker_location)
  | k + 1, i, marker_location =>
    let r := data_bit_markers offsets channel k (i + 1) (U64 (marker_location + offsets.getD i 0))
    (⟨U64 (marker_location + offsets.getD i 0), .Dot, channel⟩ :: r.1, r.2)

/-- The number of samples from the start edge of a character to the sample of
its last stop-bit probe. -/
def character_span (m : ReaderMembers) (num_bits : Nat) : Nat :=
  offsets_sum m.mSampleOffsets num_bits 0
    + (if m.mSettings.mParity ≠ .NoneOne ∧ m.mSettings.mParity ≠ .NoneTwo then m.mParityBitOffset
        else if m.mSettings.mParity = .NoneTwo then m.mStartOfStopBitOffset else 0)
    + m.mStartOfStopBitOffset

/-- The data of a character whose data-bit samples are `states`: the bits added
by the `DataBuilder`, then the inversion. -/
def character_data (m : ReaderMembers) (num_bits bit_mask : Nat) (states : List Bool) : Nat :=
  let data := (states.foldl (DataBuilder_AddBit m.mSettings.mShiftOrder)
    (DataBuilder_Reset m.mSettings.mShiftOrder num_bits)).1
  if m.mSettings.mInverted = true then (U64_not data) &&& bit_mask else data

/-- A capture at one sample per bit: idle high for two samples, then the two
characters 0x01 and 0x64 (start bit, eight data bits least significant first,
stop bit), then idle high. -/
def sampleCapture : ChannelData :=
  { samples := [true, true,
      false, true, false, false, false, false, false, false, false, true,
      false, false, false, true, false, false, true, true, false, true,
      true, true]
    sample_number := 0 }

/-- RTU-Client settings at 9600 bit/s, eight bits, least significant bit first,
no parity, one stop bit. -/
def sampleSettings : ModbusAnalyzerSettings :=
  { mInputChannel := 0
    mBitRate := 9600
    mBitsPerTransfer := 8
    mShiftOrder := .LsbFirst
    mParity := .NoneOne
    mInverted := false
    mAssumeDataStartsWithResponse := false
    mUseAutobaud := false
    mModbusMode := .ModbusRTUClient }

/-- The members `WorkerThread` sets for `sampleSettings` with the parity and
stop-bit setting `parity`, when every offset is one sample. -/
def sampleMembers (parity : ParityAndStopbits) : ReaderMembers :=
  WorkerThread_members (fun _ _ _ => 1) { sampleSettings with mParity := parity } 9600

/-- The capture `sampleCapture` with the stop bit of the first character and the
sample after it pulled low. -/
def sampleCaptureLowStop : ChannelData :=
  { samples := [true, true,
      false, true, false, false, false, false, false, false, false, false,
      false, false, false, true, false, false, true, true, false, true,
      true, true]
    sample_number := 0 }

/-- The FILE_SUBREQ frames of a run of seven-byte sub-request headers: flags
exactly FILE_SUBREQ, `mData1 = ( 0 << 56 ) + ( v1 << 48 ) + ... + ( v6 << 8 ) + v7`,
`mData2 = 0` (a trailing incomplete header is dropped). -/
def subreq_infos (K : FlagBits) : List Nat → List (Nat × Nat × Nat)
  | v1 :: v2 :: v3 :: v4 :: v5 :: v6 :: v7 :: t =>
    (K.FLAG_FILE_SUBREQ, pack8 0x00 v1 v2 v3 v4 v5 v6 v7, 0) :: subreq_infos K t
  | _ => []

/-- Read File Record request (0x14): a byte count `bc`, then one seven-byte
sub-request per pass of the loop `for( i = 0; i < bc; i = i + 7 )`. -/
def read_file_request_rel (K : FlagBits) (crc : Bool) (a : Nat) (body : List Nat)
    (fs : List Frame) (fr : Frame) : Prop :=
  ∃ bc data, data.length = 7 * ((U64 ((0 <<< 8) + bc) + 6) / 7)
    ∧ multi_rel K crc K.FLAG_REQUEST_FRAME a 0x14 [bc] (pack8 a 0x14 0 0 0 0 0 bc) 0
        data (subreq_infos K data) body fs fr

/-- The loop bound the Write File Record loop computes from the two
record-length bytes `Payload4[ 0 ]`, `Payload4[ 1 ]` (wire order):
`( Payload4[ 1 ] << 8 ) + Payload4[ 0 ]` in the RTU branch and
`( Payload4[ 0 ] << 8 ) + Payload4[ 1 ]` in the ASCII branch. -/
def write_file_reclen (crc : Bool) (Payload4_0 Payload4_1 : Nat) : Nat :=
  if crc then U64 ((Payload4_1 <<< 8) + Payload4_0) else U64 ((Payload4_0 <<< 8) + Payload4_1)

/-- The passes of the Write File Record loop from counter `i` with bound `n`:
every pass is made while `i < n`, reads a seven-byte header `p.1` and the data
bytes `p.2` of `k` words, where `k` is the loop bound computed from the last two
header bytes, and adds `9 + 2 * k` to the counter. -/
def write_file_passes (crc : Bool) (n : Nat) : Nat → List (List Nat × List Nat) → Prop
  | i, [] => ¬ i < n
  | i, p :: rest =>
    i < n ∧ p.1.length = 7
      ∧ p.2.length = 2 * write_file_reclen crc (p.1.getD 5 0) (p.1.getD 6 0)
      ∧ write_file_passes crc n
          (i + write_file_reclen crc (p.1.getD 5 0) (p.1.getD 6 0) * 2 + 9) rest

/-- The bytes read by passes of a file-record loop, in order. -/
def passes_bytes (passes : List (List Nat × List Nat)) : List Nat :=
  passes.flatMap fun p => p.1 ++ p.2

/-- The frames of passes of the Write File Record loop: per pass one FILE_SUBREQ
frame built from the header and one DATA frame per data word. -/
def write_file_infos (K : FlagBits) (passes : List (List Nat × List Nat)) :
    List (Nat × Nat × Nat) :=
  passes.flatMap fun p => subreq_infos K p.1 ++ (word_pairs p.2).map (word_info K)

/-- Write File Record (0x15), request (`h` is REQUEST) or response (`h` is
RESPONSE): a byte count `bc`, then the passes of the loop with bound `bc`. -/
def write_file_rel (K : FlagBits) (h : Nat) (crc : Bool) (a : Nat) (body : List Nat)
    (fs : List Frame) (fr : Frame) : Prop :=
  ∃ bc passes, write_file_passes crc bc 0 passes
    ∧ multi_rel K crc h a 0x15 [bc] (pack8 a 0x15 0 0 0 0 0 bc) 0
        (passes_bytes passes) (write_file_infos K passes) body fs fr

/-- The number of words the inner loop of the Read File Record response reads
after a length byte `L`: the loop `for( k = 0; k < L - 1; k = k + 2 )` with the
bound computed in `U64`. -/
def read_file_words (L : Nat) : Nat :=
  (U64 (L + 2 ^ 64 - 1) + 1) / 2

/-- The passes of the Read File Record response loop from counter `i` with
bound `n`: every pass is made while `i < n`, reads the length byte and the
reference type (`p.1`) and the data bytes `p.2` of `read_file_words L` words,
and adds twice that number of words plus `step` to the counter. -/
def read_file_passes (step n : Nat) : Nat → List (List Nat × List Nat) → Prop
  | i, [] => ¬ i < n
  | i, p :: rest =>
    i < n ∧ p.1.length = 2
      ∧ p.2.length = 2 * read_file_words (p.1.getD 0 0)
      ∧ read_file_passes step n (i + 2 * read_file_words (p.1.getD 0 0) + step) rest

/-- The frames of passes of the Read File Record response loop: per pass one
FILE_SUBREQ frame with `mData1 = ( reference type << 48 ) + length` and one DATA
frame per data word. -/
def read_file_infos (K : FlagBits) (passes : List (List Nat × List Nat)) :
    List (Nat × Nat × Nat) :=
  passes.flatMap fun p =>
    (K.FLAG_FILE_SUBREQ, pack8 0x00 (p.1.getD 1 0) 0x00 0x00 0x00 0x00 0x00 (p.1.getD 0 0), 0) ::
      (word_pairs p.2).map (word_info K)

/-- Read File Record response (0x14): a byte count `bc`, then the passes of the
loop with bound `bc`, whose counter grows by 4 more than the data bytes read in
the RTU branch and by 2 more in the ASCII branch. -/
def read_file_response_rel (K : FlagBits) (crc : Bool) (a : Nat) (body : List Nat)
    (fs : List Frame) (fr : Frame) : Prop :=
  ∃ bc passes, read_file_passes (if crc then 4 else 2) bc 0 passes
    ∧ multi_rel K crc K.FLAG_RESPONSE_FRAME a 0x14 [bc] (pack8 a 0x14 0 0 0 0 0 bc) 0
        (passes_bytes passes) (read_file_infos K passes) body fs fr

/-- A channel whose characters come in sample order, none before the sample
`e`: every character ends no earlier than it starts, and starts no earlier than
the previous one ends. -/
def chars_ordered : Nat → List SerialChar → Prop
  | _, [] => True
  | e, c :: w => e ≤ c.start ∧ c.start ≤ c.stop ∧ chars_ordered c.stop w

/-- Every frame of the list has `mStartingSampleInclusive ≤ mEndingSampleInclusive`. -/
def frames_ordered (fs : List Frame) : Prop :=
  ∀ f ∈ fs, f.mStartingSampleInclusive ≤ f.mEndingSampleInclusive

/-- The state of the worker after a character has been read in an RTU mode, with
a sample `e` that lies no later than `ending_frame`: `starting_frame ≤
ending_frame`, the characters still to come are in sample order after
`ending_frame`, and every frame handed over so far is ordered. -/
def Later (e : Nat) (s : Analyzer) : Prop :=
  e ≤ s.ending_frame ∧ s.starting_frame ≤ s.ending_frame
    ∧ chars_ordered s.ending_frame s.mModbus ∧ frames_ordered s.mResults

/-- The state in which the worker is left waiting for a character: every frame
handed over so far is ordered. -/
def Stuck (s : Analyzer) : Prop := frames_ordered s.mResults

/-- The logical bytes that successive calls of `GetNextByteModbus` read from the
characters `cs` when they use up `cs` exactly: in the RTU modes one byte per
character; otherwise `':'`, `'\n'` and `'\r'` are one byte each and any other
character is paired with the next one through `ASCII2INT`. `none` when the last
character is left without the second character of its pair. -/
def wire_bytes (mode : Mode) : List SerialChar → Option (List Nat)
  | [] => some []
  | [c] =>
    if mode = .ModbusRTUClient ∨ mode = .ModbusRTUServer ∨ mode = .ModbusRTUBoth then
      some [c.data]
    else if c.data = 0x3A ∨ c.data = 0x0A ∨ c.data = 0x0D then some [c.data]
    else none
  | c :: c2 :: w =>
    if mode = .ModbusRTUClient ∨ mode = .ModbusRTUServer ∨ mode = .ModbusRTUBoth then
      (wire_bytes mode (c2 :: w)).map (c.data :: ·)
    else if c.data = 0x3A ∨ c.data = 0x0A ∨ c.data = 0x0D then
      (wire_bytes mode (c2 :: w)).map (c.data :: ·)
    else
      (wire_bytes mode w).map
        (toU8 ((toU8 (ASCII2INT (toChar c.data) * 2 ^ 4) : Int) + ASCII2INT (toChar c2.data)) :: ·)

/-- The channel of `s` holds characters that read as the logical bytes `bs`,
followed by the characters `rest`. -/
def Supplies (mode : Mode) (bs : List Nat) (rest : List SerialChar) (s : Analyzer) : Prop :=
  ∃ cs, s.mModbus = cs ++ rest ∧ wire_bytes mode cs = some bs

/-- The condition on the state in which a piece of the worker is left waiting
that no state meets: with it `wp` says that the piece returns. -/
def Never : Analyzer → Prop := fun _ => False

/-- The beginning of one pass of the `for( ;; )` loop of `WorkerThread`, up to
the read of the function code: the start-of-frame search (ASCII), the address,
the function code. Returns both and the local `frame`. The three pieces
`pass_head`, `pass_body` and `pass_end` are the statements of
`WorkerThread_message` taken in the same order; `message_pieces` proves that a
pass is the three in sequence. -/
def pass_head (mode : Mode) : Worker (Nat × Nat × Frame) := do
  let mut frame : Frame := {}
  if mode = .ModbusASCIIClient ∨ mode = .ModbusASCIIServer ∨ mode = .ModbusASCIIBoth then
    frame ← find_start_of_frame mode ((← chars_left) + 1) frame
  let devaddr ← GetNextByteModbus mode
  frame := { frame with mStartingSampleInclusive := (← get_starting_frame) }
  let funccode ← GetNextByteModbus mode
  return (devaddr, funccode, frame)

/-- The middle of one pass: the two role tests with the request switch, the
exception branch and the response switch. -/
def pass_body (K : FlagBits) (mode : Mode) (processingResponse : Bool)
    (devaddr funccode : Nat) (frame : Frame) : Worker Frame := do
  let mut frame := frame
  if request_role mode processingResponse then
    frame := { frame with mFlags := K.FLAG_REQUEST_FRAME }
    frame ← request_switch K mode devaddr funccode frame
  if response_role mode processingResponse then
    frame := { frame with mFlags := 0, mData1 := 0, mData2 := 0 }
    if funccode &&& 0x80 ≠ 0 then
      frame ← response_exception K mode devaddr funccode frame
    else
      frame := { frame with mFlags := K.FLAG_RESPONSE_FRAME }
      frame ← response_switch K mode devaddr funccode frame
  return frame

/-- The end of one pass: the two trailer reads (ASCII), the toggle of
`processingResponse`, the commit of the terminal frame. -/
def pass_end (mode : Mode) (processingResponse : Bool) (frame : Frame) : Worker Bool := do
  if mode = .ModbusASCIIClient ∨ mode = .ModbusASCIIServer ∨ mode = .ModbusASCIIBoth then
    let _StopFrame0 ← GetNextByteModbus mode
    let _StopFrame1 ← GetNextByteModbus mode
  let processingResponse := !processingResponse
  let frame := { frame with mEndingSampleInclusive := (← get_ending_frame) }
  AddFrame frame
  return processingResponse

/-- The state in which a piece of the worker has returned or is left waiting. -/
def Outcome.state {α : Type} : Outcome α → Analyzer
  | .ret _ s => s
  | .blocked s => s

/-! ## Theorems -/

/-! ### CRC-16/Modbus: the table-driven step against the bit-by-bit reference -/

theorem shiftRight_xor (a b i : Nat) : (a ^^^ b) >>> i = a >>> i ^^^ b >>> i :=
  Nat.eq_of_testBit_eq (by simp)

theorem xor_left_comm (a b c : Nat) : a ^^^ (b ^^^ c) = b ^^^ (a ^^^ c) := by
  rw [← Nat.xor_assoc, ← Nat.xor_assoc, Nat.xor_comm a b]

theorem crc16_bit_eq (x : Nat) :
    crc16_bit x = (x >>> 1) ^^^ (if x % 2 = 1 then 0xA001 else 0) := by
  unfold crc16_bit
  split <;> simp

theorem xor_mod_two (x y : Nat) : (x ^^^ y) % 2 = (x % 2 + y % 2) % 2 := by
  have h := Nat.testBit_xor x y 0
  simp only [Nat.testBit_zero] at h
  rcases Nat.mod_two_eq_zero_or_one x with hx | hx <;>
  rcases Nat.mod_two_eq_zero_or_one y with hy | hy <;>
  rcases Nat.mod_two_eq_zero_or_one (x ^^^ y) with hz | hz <;>
  simp [hx, hy, hz] at h ⊢

theorem crc16_bit_xor (x y : Nat) :
    crc16_bit (x ^^^ y) = crc16_bit x ^^^ crc16_bit y := by
  rw [crc16_bit_eq, crc16_bit_eq x, crc16_bit_eq y, shiftRight_xor, xor_mod_two]
  rcases Nat.mod_two_eq_zero_or_one x with hx | hx <;>
  rcases Nat.mod_two_eq_zero_or_one y with hy | hy <;>
  simp [hx, hy, Nat.xor_assoc, Nat.xor_comm, xor_left_comm]

theorem crc16_bit_iterate_xor (n x y : Nat) :
    crc16_bit^[n] (x ^^^ y) = crc16_bit^[n] x ^^^ crc16_bit^[n] y := by
  induction n generalizing x y with
  | zero => rfl
  | succ n ih => simp only [Function.iterate_succ, Function.comp_apply, crc16_bit_xor, ih]

theorem crc16_bit_iterate_shiftLeft (n h : Nat) :
    crc16_bit^[n] (h <<< n) = h := by
  induction n with
  | zero => simp
  | succ n ih =>
    have h2 : crc16_bit (h <<< (n + 1)) = h <<< n := by
      have e : h <<< (n + 1) = 2 * (h <<< n) := by
        rw [Nat.shiftLeft_eq, Nat.shiftLeft_eq, Nat.pow_succ]; ring
      unfold crc16_bit
      rw [e, if_neg (by omega), Nat.shiftRight_eq_div_pow]
      omega
    rw [Function.iterate_succ, Function.comp_apply, h2, ih]

theorem init_crc16_tab_step_xor (p : Nat × Nat) :
    (init_crc16_tab_step p).1 ^^^ (init_crc16_tab_step p).2 = crc16_bit (p.1 ^^^ p.2) := by
  obtain ⟨crc, c⟩ := p
  simp only [init_crc16_tab_step, Nat.and_one_is_mod, crc16_bit, shiftRight_xor]
  rcases Nat.mod_two_eq_zero_or_one (crc ^^^ c) with h | h
  · simp [h]
  · simp [h, Nat.xor_assoc, Nat.xor_comm, xor_left_comm]

theorem init_crc16_tab_step_snd (p : Nat × Nat) :
    (init_crc16_tab_step p).2 = p.2 >>> 1 := rfl

theorem init_crc16_tab_iterate (n : Nat) (p : Nat × Nat) :
    (init_crc16_tab_step^[n] p).1 ^^^ (init_crc16_tab_step^[n] p).2 = crc16_bit^[n] (p.1 ^^^ p.2)
      ∧ (init_crc16_tab_step^[n] p).2 = p.2 >>> n := by
  induction n generalizing p with
  | zero => simp
  | succ n ih =>
    rw [Function.iterate_succ, Function.comp_apply, Function.iterate_succ, Function.comp_apply]
    refine ⟨?_, ?_⟩
    · rw [(ih _).1, init_crc16_tab_step_xor]
    · rw [(ih _).2, init_crc16_tab_step_snd, ← Nat.shiftRight_add, Nat.add_comm]

theorem init_crc16_tab_entry_eq (i : Nat) (hi : i < 256) :
    init_crc16_tab_entry i = crc16_bit^[8] i := by
  have h := init_crc16_tab_iterate 8 (0, i % 65536)
  have hi2 : i % 65536 = i := Nat.mod_eq_of_lt (by omega)
  simp only [hi2, Nat.zero_xor] at h
  have h0 : i >>> 8 = 0 := by
    rw [Nat.shiftRight_eq_div_pow]; exact Nat.div_eq_of_lt (by norm_num; omega)
  unfold init_crc16_tab_entry
  rw [hi2, ← h.1, h.2, h0, Nat.xor_zero]

theorem crc_tab16_getD (i : Nat) (hi : i < 256) :
    crc_tab16.getD i 0 = crc16_bit^[8] i := by
  unfold crc_tab16 init_crc16_tab
  rw [List.getD_eq_getElem _ _ (by simpa using hi)]
  simp [init_crc16_tab_entry_eq i hi]

theorem split_low_byte (x : Nat) : x = ((x >>> 8) <<< 8) ^^^ (x % 256) := by
  apply Nat.eq_of_testBit_eq
  intro i
  have e : (256 : Nat) = 2 ^ 8 := by norm_num
  rw [e, Nat.testBit_xor, Nat.testBit_shiftLeft, Nat.testBit_shiftRight, Nat.testBit_mod_two_pow]
  by_cases h : i < 8
  · simp [h, Nat.not_le.mpr h]
  · have h' : 8 ≤ i := Nat.le_of_not_lt h
    simp [h, h', Nat.add_sub_cancel' h']

theorem xor_mod_256 (x b : Nat) (hb : b < 256) : (x ^^^ b) % 256 = (x % 256) ^^^ b := by
  apply Nat.eq_of_testBit_eq
  intro i
  have e : (256 : Nat) = 2 ^ 8 := by norm_num
  rw [e, Nat.testBit_mod_two_pow, Nat.testBit_xor, Nat.testBit_xor, Nat.testBit_mod_two_pow]
  by_cases h : i < 8
  · simp [h]
  · have : b.testBit i = false :=
      Nat.testBit_lt_two_pow (lt_of_lt_of_le hb (by
        rw [e]; exact Nat.pow_le_pow_right (by norm_num) (Nat.le_of_not_lt h)))
    simp [h, this]

theorem update_CRC_eq (crc b : Nat) (hcrc : crc < 65536) (hb : b < 256) :
    update_CRC crc b = crc16_byte crc b := by
  have hb' : b % 256 = b := Nat.mod_eq_of_lt hb
  have hand : 255 &&& b = b := by
    rw [Nat.and_comm]; exact (Nat.and_pow_two_sub_one_eq_mod b 8).trans hb'
  have hlo : (crc % 256 ^^^ b) < 256 :=
    Nat.xor_lt_two_pow (n := 8) (Nat.mod_lt _ (by norm_num)) hb
  have hidx : (crc ^^^ b) &&& 255 = crc % 256 ^^^ b :=
    (Nat.and_pow_two_sub_one_eq_mod (crc ^^^ b) 8).trans (xor_mod_256 _ _ hb)
  unfold update_CRC crc16_byte
  simp only [Nat.mod_eq_of_lt hcrc, hb', hand, hidx]
  rw [crc_tab16_getD _ hlo]
  conv_rhs => rw [split_low_byte crc, Nat.xor_assoc, crc16_bit_iterate_xor,
    crc16_bit_iterate_shiftLeft]

theorem crc16_bit_lt (x : Nat) (hx : x < 65536) : crc16_bit x < 65536 := by
  have h1 : x >>> 1 < 2 ^ 16 := by
    rw [Nat.shiftRight_eq_div_pow]; norm_num; omega
  unfold crc16_bit
  split
  · exact Nat.xor_lt_two_pow h1 (by norm_num)
  · exact h1

theorem crc16_bit_iterate_lt (n x : Nat) (hx : x < 65536) : crc16_bit^[n] x < 65536 := by
  induction n generalizing x with
  | zero => exact hx
  | succ n ih => exact ih _ (crc16_bit_lt x hx)

theorem update_CRC_lt (crc b : Nat) : update_CRC crc b < 65536 := by
  have h1 : crc % 65536 < 65536 := Nat.mod_lt _ (by norm_num)
  have h2 : b % 256 < 256 := Nat.mod_lt _ (by norm_num)
  have e : update_CRC crc b = update_CRC (crc % 65536) (b % 256) := by
    simp [update_CRC]
  rw [e, update_CRC_eq _ _ h1 h2]
  exact crc16_bit_iterate_lt 8 _
    (Nat.xor_lt_two_pow (n := 16) h1 (lt_trans h2 (by norm_num)))

theorem foldl_update_CRC_eq (bs : List Nat) (crc : Nat) (hcrc : crc < 65536)
    (hbs : ∀ x ∈ bs, x < 256) :
    bs.foldl update_CRC crc = bs.foldl crc16_byte crc := by
  induction bs generalizing crc with
  | nil => rfl
  | cons b bs ih =>
    have hb : b < 256 := hbs b (List.mem_cons_self _ _)
    rw [List.foldl_cons, List.foldl_cons, ← update_CRC_eq crc b hcrc hb]
    exact ih _ (update_CRC_lt crc b) (fun x hx => hbs x (List.mem_cons_of_mem _ hx))

theorem foldl_update_CRC_lt (bs : List Nat) (crc : Nat) (hcrc : crc < 65536) :
    bs.foldl update_CRC crc < 65536 := by
  induction bs generalizing crc with
  | nil => exact hcrc
  | cons b bs ih => exact ih _ (update_CRC_lt crc b)

/-- C1: for a 16-bit register value and a byte, the table-driven `update_CRC`
equals the bit-by-bit reflected CRC-16/Modbus step; hence folding `update_CRC`
from `0xFFFF` over a byte list gives the reference CRC-16/Modbus of the list, and
the empty list gives `0xFFFF`. -/
theorem update_CRC_correct (crc b : Nat) (bs : List Nat)
    (hcrc : crc < 65536) (hb : b < 256) (hbs : ∀ x ∈ bs, x < 256) :
    update_CRC crc b = crc16_byte crc b
      ∧ bs.foldl update_CRC 0xFFFF = crc16_modbus bs
      ∧ ([] : List Nat).foldl update_CRC 0xFFFF = 0xFFFF :=
  ⟨update_CRC_eq crc b hcrc hb, foldl_update_CRC_eq bs 0xFFFF (by norm_num) hbs, rfl⟩

/-- Witness of C1 at `crc = 0xFFFF`, `b = 0x01`, `bs = [0x01, 0x03]`. -/
theorem update_CRC_correct_witness :
    (0xFFFF : Nat) < 65536 ∧ (0x01 : Nat) < 256 ∧ (∀ x ∈ [0x01, 0x03], x < 256)
      ∧ update_CRC 0xFFFF 0x01 = crc16_byte 0xFFFF 0x01
      ∧ [0x01, 0x03].foldl update_CRC 0xFFFF = crc16_modbus [0x01, 0x03]
      ∧ ([] : List Nat).foldl update_CRC 0xFFFF = 0xFFFF :=
  ⟨by decide, by decide, by decide,
    update_CRC_correct 0xFFFF 0x01 [0x01, 0x03] (by decide) (by decide) (by decide)⟩

set_option maxRecDepth 100000 in
/-- C2 (as stated, refuted): the fold over `01 03 00 00 00 0A` is not `0xC5CD`. -/
theorem CRC_vector_not_C5CD :
    ¬ ([0x01, 0x03, 0x00, 0x00, 0x00, 0x0A].foldl update_CRC 0xFFFF = 0xC5CD) := by
  decide

set_option maxRecDepth 100000 in
/-- C2 (amended): folding `update_CRC` from `0xFFFF` over `01 03 00 00 00 0A`
yields `0xCDC5`; its low byte `0xC5` is the first checksum byte on the wire and
its high byte `0xCD` the second (no CHECKSUM_ERROR for `C5 CD`). -/
theorem CRC_test_vector :
    [0x01, 0x03, 0x00, 0x00, 0x00, 0x0A].foldl update_CRC 0xFFFF = 0xCDC5
      ∧ (0xCDC5 &&& 0x00FF) = 0xC5 ∧ ((0xCDC5 &&& 0xFF00) >>> 8) = 0xCD
      ∧ crc_mismatch ([0x01, 0x03, 0x00, 0x00, 0x00, 0x0A].foldl update_CRC 0xFFFF) 0xC5 0xCD
          = false
      ∧ crc_mismatch ([0x01, 0x03, 0x00, 0x00, 0x00, 0x0A].foldl update_CRC 0xFFFF) 0xCD 0xC5
          = true := by
  decide

/-! ### LRC -/

theorem foldl_LRC_add (bs : List Nat) (acc : Nat) :
    bs.foldl LRC_add acc % 2 ^ 64 = (acc + bs.sum) % 2 ^ 64 := by
  induction bs generalizing acc with
  | nil => simp
  | cons b bs ih =>
    rw [List.foldl_cons, ih, List.sum_cons, LRC_add]
    omega

theorem LRC_finish_eq (ck : Nat) : LRC_finish ck = (256 - ck % 256) % 256 := by
  unfold LRC_finish
  have h := Nat.and_pow_two_sub_one_eq_mod (((2 ^ 64 - 1 - ck % 2 ^ 64) + 1) % 2 ^ 64) 8
  have e : (2 : Nat) ^ 8 - 1 = 0x00FF := by norm_num
  rw [e] at h
  simp only [h]
  omega

theorem LRC_finish_mod (ck : Nat) : LRC_finish (ck % 2 ^ 64) = LRC_finish ck := by
  rw [LRC_finish_eq, LRC_finish_eq]; omega

theorem LRC_closed_form (bytes : List Nat) : LRC bytes = (256 - bytes.sum % 256) % 256 := by
  unfold LRC
  rw [← LRC_finish_mod, foldl_LRC_add, LRC_finish_mod, LRC_finish_eq]; simp

/-- C3: for every byte list the ASCII checksum the parsers compute equals
`(256 - (sum mod 256)) mod 256`; it is below 256 and adding it to the byte sum
gives 0 modulo 256; it is `0x00` for the empty list and `0xF2` for
`01 03 00 00 00 0A`. -/
theorem LRC_correct (bytes : List Nat) :
    LRC bytes = (256 - bytes.sum % 256) % 256
      ∧ LRC bytes < 256
      ∧ (bytes.sum + LRC bytes) % 256 = 0
      ∧ LRC [] = 0x00
      ∧ LRC [0x01, 0x03, 0x00, 0x00, 0x00, 0x0A] = 0xF2 := by
  have h : LRC bytes = (256 - bytes.sum % 256) % 256 := LRC_closed_form bytes
  refine ⟨h, ?_, ?_, by decide, by decide⟩
  · rw [h]; omega
  · rw [h]; omega

/-! ### Running the worker on a given wire -/

@[simp] theorem Worker.bind_apply {α β : Type} (m : Worker α) (f : α → Worker β) (s : Analyzer) :
    (m >>= f) s = match m s with
      | .ret a s1 => f a s1
      | .blocked s1 => .blocked s1 := rfl

@[simp] theorem Worker.pure_apply {α : Type} (a : α) (s : Analyzer) :
    (pure a : Worker α) s = .ret a s := rfl

theorem GetNextByteModbus_rtu (mode : Mode)
    (h : mode = .ModbusRTUClient ∨ mode = .ModbusRTUServer ∨ mode = .ModbusRTUBoth)
    (c : SerialChar) (w : List SerialChar) (sf ef : Nat) (res : List Frame) :
    GetNextByteModbus mode ⟨c :: w, sf, ef, res⟩ = .ret c.data ⟨w, c.start, c.stop, res⟩ := by
  simp [GetNextByteModbus, h, nextChar, set_starting_frame, set_ending_frame]

theorem pack8_eq_or (b7 b6 b5 b4 b3 b2 b1 b0 : Nat) (h7 : b7 < 256) (h6 : b6 < 256)
    (h5 : b5 < 256) (h4 : b4 < 256) (h3 : b3 < 256) (h2 : b2 < 256) (h1 : b1 < 256)
    (h0 : b0 < 256) :
    pack8 b7 b6 b5 b4 b3 b2 b1 b0 =
      b7 <<< 56 ||| b6 <<< 48 ||| b5 <<< 40 ||| b4 <<< 32 ||| b3 <<< 24 ||| b2 <<< 16 |||
        b1 <<< 8 ||| b0 := by
  have or_add : ∀ (i a b : Nat), b < 2 ^ i → a * 2 ^ i ||| b = a * 2 ^ i + b := by
    intro i a b hb
    rw [Nat.mul_comm]; exact (Nat.mul_add_lt_is_or hb a).symm
  have t1 := or_add 8 b1 b0 (by omega)
  have t2 := or_add 16 b2 (b1 * 2 ^ 8 + b0) (by omega)
  have t3 := or_add 24 b3 (b2 * 2 ^ 16 + (b1 * 2 ^ 8 + b0)) (by omega)
  have t4 := or_add 32 b4 (b3 * 2 ^ 24 + (b2 * 2 ^ 16 + (b1 * 2 ^ 8 + b0))) (by omega)
  have t5 := or_add 40 b5 (b4 * 2 ^ 32 + (b3 * 2 ^ 24 + (b2 * 2 ^ 16 + (b1 * 2 ^ 8 + b0))))
    (by omega)
  have t6 := or_add 48 b6
    (b5 * 2 ^ 40 + (b4 * 2 ^ 32 + (b3 * 2 ^ 24 + (b2 * 2 ^ 16 + (b1 * 2 ^ 8 + b0))))) (by omega)
  have t7 := or_add 56 b7
    (b6 * 2 ^ 48 + (b5 * 2 ^ 40 + (b4 * 2 ^ 32 + (b3 * 2 ^ 24 + (b2 * 2 ^ 16 +
      (b1 * 2 ^ 8 + b0)))))) (by omega)
  unfold pack8 U64
  simp only [Nat.shiftLeft_eq, Nat.or_assoc]
  rw [t1, t2, t3, t4, t5, t6, t7]
  omega

theorem crc_mismatch_iff (ck c0 c1 : Nat) (hck : ck < 65536) :
    crc_mismatch ck c0 c1 = true ↔ (c0 ≠ ck % 256 ∨ c1 ≠ ck / 256) := by
  have e1 : ck &&& 0x00FF = ck % 256 := Nat.and_pow_two_sub_one_eq_mod ck 8
  have e2 : (ck &&& 0xFF00) >>> 8 = ck / 256 := by
    apply Nat.eq_of_testBit_eq
    intro i
    have e : ck / 256 = ck >>> 8 := by rw [Nat.shiftRight_eq_div_pow]
    rw [e, Nat.testBit_shiftRight, Nat.testBit_shiftRight, Nat.testBit_and]
    by_cases h : 8 + i < 16
    · have : Nat.testBit 0xFF00 (8 + i) = true := by
        have : i < 8 := by omega
        interval_cases i <;> decide
      simp [this]
    · have h1 : ck.testBit (8 + i) = false :=
        Nat.testBit_lt_two_pow (lt_of_lt_of_le hck (by
          have : (65536 : Nat) = 2 ^ 16 := by norm_num
          rw [this]; exact Nat.pow_le_pow_right (by norm_num) (by omega)))
      simp [h1]
  unfold crc_mismatch
  rw [e1, e2]
  simp only [Bool.or_eq_true, decide_eq_true_eq, ne_eq]
  constructor
  · rintro (h | h)
    · right; exact fun h' => h h'.symm
    · left; exact fun h' => h h'.symm
  · rintro (h | h)
    · right; exact fun h' => h h'.symm
    · left; exact fun h' => h h'.symm

theorem shapeA_rtu_request (K : FlagBits) (mode : Mode) (pr : Bool)
    (hmode : mode = .ModbusRTUClient ∨ (mode = .ModbusRTUBoth ∧ pr = false))
    (a f p1 p2 p3 p4 c0 c1 : SerialChar) (rest : List SerialChar)
    (sf ef : Nat) (res : List Frame)
    (hf : f.data ∈ [0x01, 0x02, 0x03, 0x04, 0x05, 0x06, 0x08]) :
    WorkerThread_message K mode pr
        ⟨a :: f :: p1 :: p2 :: p3 :: p4 :: c0 :: c1 :: rest, sf, ef, res⟩
      = .ret (!pr) ⟨rest, c1.start, c1.stop, res ++ [
          { mStartingSampleInclusive := a.start
            mEndingSampleInclusive := c1.stop
            mData1 := pack8 a.data f.data p1.data p2.data p3.data p4.data c1.data c0.data
            mData2 := 0
            mFlags :=
              if crc_mismatch (CRC [a.data, f.data, p1.data, p2.data, p3.data, p4.data])
                  c0.data c1.data
              then K.FLAG_REQUEST_FRAME ||| K.FLAG_CHECKSUM_ERROR
              else K.FLAG_REQUEST_FRAME }]⟩ := by
  have hrtu : mode = .ModbusRTUClient ∨ mode = .ModbusRTUServer ∨ mode = .ModbusRTUBoth := by
    rcases hmode with h | ⟨h, _⟩ <;> simp [h]
  have hf' : f.data = 1 ∨ f.data = 2 ∨ f.data = 3 ∨ f.data = 4 ∨ f.data = 5 ∨ f.data = 6 ∨
      f.data = 8 := by simpa using hf
  rcases hmode with h | ⟨h, hpr⟩
  · subst h
    simp [WorkerThread_message, WorkerThread_parse, request_role, response_role, request_switch, request_READ_COILS, single_frame_CRC,
      GetNextByteModbus_rtu, get_starting_frame, get_ending_frame, AddFrame, hf', CRC, flag_if]
  · subst h; subst hpr
    simp [WorkerThread_message, WorkerThread_parse, request_role, response_role, request_switch, request_READ_COILS, single_frame_CRC,
      GetNextByteModbus_rtu, get_starting_frame, get_ending_frame, AddFrame, hf', CRC, flag_if]

theorem xor_one_shiftLeft_ne (x k : Nat) : x ^^^ (1 <<< k) ≠ x := by
  intro h
  have h2 : x ^^^ (x ^^^ (1 <<< k)) = x ^^^ x := by rw [h]
  rw [← Nat.xor_assoc, Nat.xor_self, Nat.zero_xor] at h2
  have : 0 < 1 <<< k := by rw [Nat.shiftLeft_eq]; positivity
  omega

theorem crc16_modbus_eq_CRC (bs : List Nat) (hbs : ∀ x ∈ bs, x < 256) :
    crc16_modbus bs = CRC bs :=
  (foldl_update_CRC_eq bs 0xFFFF (by norm_num) hbs).symm

theorem CRC_lt (bs : List Nat) : CRC bs < 65536 :=
  foldl_update_CRC_lt bs 0xFFFF (by norm_num)

/-- C4: in RTU-Client mode the eight bytes `a, f, p1, p2, p3, p4, crc_lo, crc_hi`
of a request of the 4-payload-byte shape, with the CRC-16/Modbus of the first six
bytes, are consumed exactly and give exactly one frame, with flags exactly REQUEST
and `data1 = a<<56 | f<<48 | p1<<40 | p2<<32 | p3<<24 | p4<<16 | crc_hi<<8 | crc_lo`. -/
theorem rtu_request_roundtrip (K : FlagBits) (a f p1 p2 p3 p4 : Nat)
    (cs rest : List SerialChar) (sf ef : Nat) (res : List Frame) (pr : Bool)
    (ha : a < 256) (hf : f ∈ [0x01, 0x02, 0x03, 0x04, 0x05, 0x06, 0x08])
    (hp1 : p1 < 256) (hp2 : p2 < 256) (hp3 : p3 < 256) (hp4 : p4 < 256)
    (hcs : cs.map SerialChar.data =
      [a, f, p1, p2, p3, p4, crc16_modbus [a, f, p1, p2, p3, p4] % 256,
        crc16_modbus [a, f, p1, p2, p3, p4] / 256]) :
    ∃ fr s1,
      WorkerThread_message K .ModbusRTUClient pr ⟨cs ++ rest, sf, ef, res⟩ = .ret (!pr) s1
        ∧ s1.mModbus = rest ∧ s1.mResults = res ++ [fr]
        ∧ fr.mFlags = K.FLAG_REQUEST_FRAME
        ∧ fr.mData1 = a <<< 56 ||| f <<< 48 ||| p1 <<< 40 ||| p2 <<< 32 ||| p3 <<< 24 |||
            p4 <<< 16 ||| (crc16_modbus [a, f, p1, p2, p3, p4] / 256) <<< 8 |||
            (crc16_modbus [a, f, p1, p2, p3, p4] % 256) := by
  have hf256 : f < 256 := by
    simp only [List.mem_cons, List.mem_singleton, List.not_mem_nil, or_false] at hf
    omega
  have hb : ∀ x ∈ [a, f, p1, p2, p3, p4], x < 256 := by
    intro x hx
    simp only [List.mem_cons, List.mem_singleton, List.not_mem_nil, or_false] at hx
    rcases hx with rfl | rfl | rfl | rfl | rfl | rfl <;> assumption
  rw [crc16_modbus_eq_CRC _ hb] at hcs ⊢
  have hlt := CRC_lt [a, f, p1, p2, p3, p4]
  simp only [List.map_eq_cons_iff, List.map_eq_nil_iff] at hcs
  obtain ⟨ca, _, rfl, rfl, cf, _, rfl, rfl, c1, _, rfl, rfl, c2, _, rfl, rfl, c3, _, rfl, rfl,
    c4, _, rfl, rfl, c5, _, rfl, h5, c6, _, rfl, h6, rfl⟩ := hcs
  refine ⟨_, _, shapeA_rtu_request K .ModbusRTUClient pr (Or.inl rfl) ca cf c1 c2 c3 c4 c5 c6
    rest sf ef res hf, rfl, rfl, ?_, ?_⟩
  · have hm : crc_mismatch (CRC [ca.data, cf.data, c1.data, c2.data, c3.data, c4.data])
        c5.data c6.data = false := by
      rw [Bool.eq_false_iff, ne_eq, crc_mismatch_iff _ _ _ hlt]
      simp [h5, h6]
    simp [hm]
  · show pack8 _ _ _ _ _ _ _ _ = _
    rw [h5, h6]
    exact pack8_eq_or _ _ _ _ _ _ _ _ ha hf256 hp1 hp2 hp3 hp4
      (Nat.div_lt_of_lt_mul (by omega)) (Nat.mod_lt _ (by norm_num))

set_option maxRecDepth 100000 in
/-- Witness of C4: `01 03 00 6B 00 03 74 17` gives one REQUEST frame with
`data1 = 0x0103006B00031774`. -/
theorem rtu_request_roundtrip_witness :
    ∃ fr s1,
      WorkerThread_message sampleFlags .ModbusRTUClient false
          ⟨sampleWire [0x01, 0x03, 0x00, 0x6B, 0x00, 0x03, 0x74, 0x17] ++ [], 0, 0, []⟩
        = .ret true s1
        ∧ s1.mModbus = [] ∧ s1.mResults = [] ++ [fr]
        ∧ fr.mFlags = sampleFlags.FLAG_REQUEST_FRAME
        ∧ fr.mData1 = 0x0103006B00031774 := by
  obtain ⟨fr, s1, h1, h2, h3, h4, h5⟩ :=
    rtu_request_roundtrip sampleFlags 0x01 0x03 0x00 0x6B 0x00 0x03
      (sampleWire [0x01, 0x03, 0x00, 0x6B, 0x00, 0x03, 0x74, 0x17]) [] 0 0 [] false
      (by decide) (by decide) (by decide) (by decide) (by decide) (by decide) (by decide)
  refine ⟨fr, s1, h1, h2, h3, h4, ?_⟩
  rw [h5]
  decide

/-- C5: for an RTU request of the 4-payload-byte shape received with checksum
bytes `c0`, `c1`, the single emitted frame has flags REQUEST | CHECKSUM_ERROR when
`c0` differs from the low byte of the CRC-16/Modbus of the six message bytes or
`c1` from its high byte, and flags exactly REQUEST otherwise; in particular the
correct checksum with exactly one bit flipped in either byte gives
REQUEST | CHECKSUM_ERROR. -/
theorem rtu_request_checksum_error (K : FlagBits) (mode : Mode) (pr : Bool)
    (a f p1 p2 p3 p4 c0 c1 : Nat)
    (cs rest : List SerialChar) (sf ef : Nat) (res : List Frame)
    (hmode : mode = .ModbusRTUClient ∨ (mode = .ModbusRTUBoth ∧ pr = false))
    (ha : a < 256) (hf : f ∈ [0x01, 0x02, 0x03, 0x04, 0x05, 0x06, 0x08])
    (hp1 : p1 < 256) (hp2 : p2 < 256) (hp3 : p3 < 256) (hp4 : p4 < 256)
    (hcs : cs.map SerialChar.data = [a, f, p1, p2, p3, p4, c0, c1]) :
    ∃ fr s1,
      WorkerThread_message K mode pr ⟨cs ++ rest, sf, ef, res⟩ = .ret (!pr) s1
        ∧ s1.mModbus = rest ∧ s1.mResults = res ++ [fr]
        ∧ fr.mFlags =
            (if c0 ≠ crc16_modbus [a, f, p1, p2, p3, p4] % 256
                ∨ c1 ≠ crc16_modbus [a, f, p1, p2, p3, p4] / 256
              then K.FLAG_REQUEST_FRAME ||| K.FLAG_CHECKSUM_ERROR
              else K.FLAG_REQUEST_FRAME)
        ∧ ∀ k, k < 8 →
            ((c0 = (crc16_modbus [a, f, p1, p2, p3, p4] % 256) ^^^ (1 <<< k)
                ∧ c1 = crc16_modbus [a, f, p1, p2, p3, p4] / 256)
              ∨ (c0 = crc16_modbus [a, f, p1, p2, p3, p4] % 256
                ∧ c1 = (crc16_modbus [a, f, p1, p2, p3, p4] / 256) ^^^ (1 <<< k))) →
            fr.mFlags = K.FLAG_REQUEST_FRAME ||| K.FLAG_CHECKSUM_ERROR := by
  have hf256 : f < 256 := by
    simp only [List.mem_cons, List.mem_singleton, List.not_mem_nil, or_false] at hf
    omega
  have hb : ∀ x ∈ [a, f, p1, p2, p3, p4], x < 256 := by
    intro x hx
    simp only [List.mem_cons, List.mem_singleton, List.not_mem_nil, or_false] at hx
    rcases hx with rfl | rfl | rfl | rfl | rfl | rfl <;> assumption
  rw [crc16_modbus_eq_CRC _ hb]
  have hlt := CRC_lt [a, f, p1, p2, p3, p4]
  simp only [List.map_eq_cons_iff, List.map_eq_nil_iff] at hcs
  obtain ⟨ca, _, rfl, rfl, cf, _, rfl, rfl, c1', _, rfl, rfl, c2, _, rfl, rfl, c3, _, rfl, rfl,
    c4, _, rfl, rfl, c5, _, rfl, rfl, c6, _, rfl, rfl, rfl⟩ := hcs
  have hflags : (if crc_mismatch (CRC [ca.data, cf.data, c1'.data, c2.data, c3.data, c4.data])
        c5.data c6.data = true
      then K.FLAG_REQUEST_FRAME ||| K.FLAG_CHECKSUM_ERROR else K.FLAG_REQUEST_FRAME) =
      (if c5.data ≠ CRC [ca.data, cf.data, c1'.data, c2.data, c3.data, c4.data] % 256
          ∨ c6.data ≠ CRC [ca.data, cf.data, c1'.data, c2.data, c3.data, c4.data] / 256
        then K.FLAG_REQUEST_FRAME ||| K.FLAG_CHECKSUM_ERROR else K.FLAG_REQUEST_FRAME) := by
    simp only [crc_mismatch_iff _ _ _ hlt]
  refine ⟨_, _, shapeA_rtu_request K mode pr hmode ca cf c1' c2 c3 c4 c5 c6
    rest sf ef res hf, rfl, rfl, hflags, ?_⟩
  intro k _ hk
  show (if _ then _ else _) = _
  rw [hflags, if_pos]
  rcases hk with ⟨h0, _⟩ | ⟨_, h1⟩
  · left; rw [h0]; exact xor_one_shiftLeft_ne _ _
  · right; rw [h1]; exact xor_one_shiftLeft_ne _ _

set_option maxRecDepth 100000 in
/-- Witness of C5: `01 03 00 6B 00 03 75 17` (bit 0 of the first checksum byte
flipped) gives one frame with flags REQUEST | CHECKSUM_ERROR. -/
theorem rtu_request_checksum_error_witness :
    ∃ fr s1,
      WorkerThread_message sampleFlags .ModbusRTUClient false
          ⟨sampleWire [0x01, 0x03, 0x00, 0x6B, 0x00, 0x03, 0x75, 0x17] ++ [], 0, 0, []⟩
        = .ret true s1
        ∧ s1.mModbus = [] ∧ s1.mResults = [] ++ [fr]
        ∧ fr.mFlags = sampleFlags.FLAG_REQUEST_FRAME ||| sampleFlags.FLAG_CHECKSUM_ERROR := by
  obtain ⟨fr, s1, h1, h2, h3, _, h5⟩ :=
    rtu_request_checksum_error sampleFlags .ModbusRTUClient false
      0x01 0x03 0x00 0x6B 0x00 0x03 0x75 0x17
      (sampleWire [0x01, 0x03, 0x00, 0x6B, 0x00, 0x03, 0x75, 0x17]) [] 0 0 []
      (Or.inl rfl) (by decide) (by decide) (by decide) (by decide) (by decide) (by decide)
      (by decide)
  exact ⟨fr, s1, h1, h2, h3, h5 0 (by decide) (Or.inl (by decide))⟩

/-! ### ASCII requests -/

theorem GetNextByteModbus_ascii_delim (mode : Mode)
    (h : mode = .ModbusASCIIClient ∨ mode = .ModbusASCIIServer ∨ mode = .ModbusASCIIBoth)
    (c : SerialChar) (w : List SerialChar) (sf ef : Nat) (res : List Frame)
    (hc : c.data = 0x3A ∨ c.data = 0x0A ∨ c.data = 0x0D) :
    GetNextByteModbus mode ⟨c :: w, sf, ef, res⟩ = .ret c.data ⟨w, c.start, ef, res⟩ := by
  rcases h with h | h | h <;> subst h <;>
    simp [GetNextByteModbus, nextChar, set_starting_frame, set_ending_frame, hc]

theorem GetNextByteModbus_ascii_pair (mode : Mode)
    (h : mode = .ModbusASCIIClient ∨ mode = .ModbusASCIIServer ∨ mode = .ModbusASCIIBoth)
    (c1 c2 : SerialChar) (w : List SerialChar) (sf ef : Nat) (res : List Frame)
    (hc : ¬ (c1.data = 0x3A ∨ c1.data = 0x0A ∨ c1.data = 0x0D)) :
    GetNextByteModbus mode ⟨c1 :: c2 :: w, sf, ef, res⟩
      = .ret (ascii_pair c1.data c2.data) ⟨w, c1.start, c2.stop, res⟩ := by
  rcases h with h | h | h <;> subst h <;>
    simp [GetNextByteModbus, nextChar, set_starting_frame, set_ending_frame, hc, ascii_pair]

theorem ASCII2INT_range (v : Int) : 0 ≤ ASCII2INT v ∧ ASCII2INT v ≤ 15 := by
  unfold ASCII2INT
  split_ifs <;> omega

theorem ascii_pair_eq (x y : Nat) : ascii_pair x y = nib x * 16 + nib y := by
  have hx := ASCII2INT_range (toChar x)
  have hy := ASCII2INT_range (toChar y)
  unfold ascii_pair nib toU8
  omega

theorem nib_lt (c : Nat) : nib c < 16 := by
  have h := ASCII2INT_range (toChar c)
  unfold nib
  omega

theorem nib_hexDigit (n : Nat) (h : n < 16) : nib (hexDigit n) = n := by
  interval_cases n <;> decide

theorem hexDigit_not_delim (n : Nat) :
    ¬ (hexDigit n = 0x3A ∨ hexDigit n = 0x0A ∨ hexDigit n = 0x0D) := by
  unfold hexDigit
  split_ifs <;> omega

theorem ascii_pair_hexChars (b : Nat) (h : b < 256) :
    ascii_pair (hexDigit (b / 16)) (hexDigit (b % 16)) = b := by
  rw [ascii_pair_eq, nib_hexDigit _ (by omega), nib_hexDigit _ (by omega)]
  omega

theorem ascii_shapeA_request (K : FlagBits) (mode : Mode) (pr : Bool)
    (hmode : mode = .ModbusASCIIClient ∨ (mode = .ModbusASCIIBoth ∧ pr = false))
    (c0 a1 a2 f1 f2 p11 p12 p21 p22 p31 p32 p41 p42 l1 l2 t1 t2 : SerialChar)
    (rest : List SerialChar) (sf ef : Nat) (res : List Frame)
    (h0 : c0.data = 0x3A)
    (ha : ¬ (a1.data = 0x3A ∨ a1.data = 0x0A ∨ a1.data = 0x0D))
    (hf : ¬ (f1.data = 0x3A ∨ f1.data = 0x0A ∨ f1.data = 0x0D))
    (hp1 : ¬ (p11.data = 0x3A ∨ p11.data = 0x0A ∨ p11.data = 0x0D))
    (hp2 : ¬ (p21.data = 0x3A ∨ p21.data = 0x0A ∨ p21.data = 0x0D))
    (hp3 : ¬ (p31.data = 0x3A ∨ p31.data = 0x0A ∨ p31.data = 0x0D))
    (hp4 : ¬ (p41.data = 0x3A ∨ p41.data = 0x0A ∨ p41.data = 0x0D))
    (hl : ¬ (l1.data = 0x3A ∨ l1.data = 0x0A ∨ l1.data = 0x0D))
    (ht1 : t1.data = 0x3A ∨ t1.data = 0x0A ∨ t1.data = 0x0D)
    (ht2 : t2.data = 0x3A ∨ t2.data = 0x0A ∨ t2.data = 0x0D)
    (hfc : ascii_pair f1.data f2.data ∈ [0x01, 0x02, 0x03, 0x04, 0x05, 0x06, 0x08]) :
    WorkerThread_message K mode pr
        ⟨c0 :: a1 :: a2 :: f1 :: f2 :: p11 :: p12 :: p21 :: p22 :: p31 :: p32 :: p41 :: p42 ::
          l1 :: l2 :: t1 :: t2 :: rest, sf, ef, res⟩
      = .ret (!pr) ⟨rest, t2.start, l2.stop, res ++ [
          { mStartingSampleInclusive := a1.start
            mEndingSampleInclusive := l2.stop
            mData1 := pack8 (ascii_pair a1.data a2.data) (ascii_pair f1.data f2.data)
              (ascii_pair p11.data p12.data) (ascii_pair p21.data p22.data)
              (ascii_pair p31.data p32.data) (ascii_pair p41.data p42.data)
              0 (ascii_pair l1.data l2.data)
            mData2 := 0
            mFlags :=
              if LRC [ascii_pair a1.data a2.data, ascii_pair f1.data f2.data,
                  ascii_pair p11.data p12.data, ascii_pair p21.data p22.data,
                  ascii_pair p31.data p32.data, ascii_pair p41.data p42.data]
                  ≠ ascii_pair l1.data l2.data
              then K.FLAG_REQUEST_FRAME ||| K.FLAG_CHECKSUM_ERROR
              else K.FLAG_REQUEST_FRAME }]⟩ := by
  have hasc : mode = .ModbusASCIIClient ∨ mode = .ModbusASCIIServer ∨ mode = .ModbusASCIIBoth := by
    rcases hmode with h | ⟨h, _⟩ <;> simp [h]
  have hfc' : ascii_pair f1.data f2.data = 1 ∨ ascii_pair f1.data f2.data = 2 ∨
      ascii_pair f1.data f2.data = 3 ∨ ascii_pair f1.data f2.data = 4 ∨
      ascii_pair f1.data f2.data = 5 ∨ ascii_pair f1.data f2.data = 6 ∨
      ascii_pair f1.data f2.data = 8 := by simpa using hfc
  have e0 := GetNextByteModbus_ascii_delim mode hasc c0
  have ep := GetNextByteModbus_ascii_pair mode hasc
  have ed := GetNextByteModbus_ascii_delim mode hasc
  rcases hmode with h | ⟨h, hpr⟩
  · subst h
    simp [WorkerThread_message, WorkerThread_parse, request_role, response_role, request_switch,
      request_READ_COILS, single_frame_LRC, find_start_of_frame, chars_left,
      get_starting_frame, get_ending_frame, AddFrame, hfc', LRC, flag_if,
      e0, ep, ed, h0, ha, hf, hp1, hp2, hp3, hp4, hl, ht1, ht2, toChar]
  · subst h; subst hpr
    simp [WorkerThread_message, WorkerThread_parse, request_role, response_role, request_switch,
      request_READ_COILS, single_frame_LRC, find_start_of_frame, chars_left,
      get_starting_frame, get_ending_frame, AddFrame, hfc', LRC, flag_if,
      e0, ep, ed, h0, ha, hf, hp1, hp2, hp3, hp4, hl, ht1, ht2, toChar]

theorem ascii_shapeB_request (K : FlagBits) (mode : Mode) (pr : Bool)
    (hmode : mode = .ModbusASCIIClient ∨ (mode = .ModbusASCIIBoth ∧ pr = false))
    (c0 a1 a2 f1 f2 l1 l2 t1 t2 : SerialChar)
    (rest : List SerialChar) (sf ef : Nat) (res : List Frame)
    (h0 : c0.data = 0x3A)
    (ha : ¬ (a1.data = 0x3A ∨ a1.data = 0x0A ∨ a1.data = 0x0D))
    (hf : ¬ (f1.data = 0x3A ∨ f1.data = 0x0A ∨ f1.data = 0x0D))
    (hl : ¬ (l1.data = 0x3A ∨ l1.data = 0x0A ∨ l1.data = 0x0D))
    (ht1 : t1.data = 0x3A ∨ t1.data = 0x0A ∨ t1.data = 0x0D)
    (ht2 : t2.data = 0x3A ∨ t2.data = 0x0A ∨ t2.data = 0x0D)
    (hfc : ascii_pair f1.data f2.data ∈ [0x07, 0x0B, 0x0C, 0x11]) :
    WorkerThread_message K mode pr
        ⟨c0 :: a1 :: a2 :: f1 :: f2 :: l1 :: l2 :: t1 :: t2 :: rest, sf, ef, res⟩
      = .ret (!pr) ⟨rest, t2.start, l2.stop, res ++ [
          { mStartingSampleInclusive := a1.start
            mEndingSampleInclusive := l2.stop
            mData1 := pack8 (ascii_pair a1.data a2.data) (ascii_pair f1.data f2.data)
              0 0 0 0 0 (ascii_pair l1.data l2.data)
            mData2 := 0
            mFlags :=
              if LRC [ascii_pair a1.data a2.data, ascii_pair f1.data f2.data]
                  ≠ ascii_pair l1.data l2.data
              then K.FLAG_REQUEST_FRAME ||| K.FLAG_CHECKSUM_ERROR
              else K.FLAG_REQUEST_FRAME }]⟩ := by
  have hasc : mode = .ModbusASCIIClient ∨ mode = .ModbusASCIIServer ∨ mode = .ModbusASCIIBoth := by
    rcases hmode with h | ⟨h, _⟩ <;> simp [h]
  have hfc' : ascii_pair f1.data f2.data = 7 ∨ ascii_pair f1.data f2.data = 11 ∨
      ascii_pair f1.data f2.data = 12 ∨ ascii_pair f1.data f2.data = 17 := by simpa using hfc
  have e0 := GetNextByteModbus_ascii_delim mode hasc c0
  have ep := GetNextByteModbus_ascii_pair mode hasc
  have ed := GetNextByteModbus_ascii_delim mode hasc
  rcases hmode with h | ⟨h, hpr⟩
  · subst h
    rcases hfc' with h' | h' | h' | h' <;>
    simp [WorkerThread_message, WorkerThread_parse, request_role, response_role, request_switch,
      request_READ_EXCEPTION_STATUS, single_frame_LRC, find_start_of_frame, chars_left,
      get_starting_frame, get_ending_frame, AddFrame, h', LRC, flag_if,
      e0, ep, ed, h0, ha, hf, hl, ht1, ht2, toChar]
  · subst h; subst hpr
    rcases hfc' with h' | h' | h' | h' <;>
    simp [WorkerThread_message, WorkerThread_parse, request_role, response_role, request_switch,
      request_READ_EXCEPTION_STATUS, single_frame_LRC, find_start_of_frame, chars_left,
      get_starting_frame, get_ending_frame, AddFrame, h', LRC, flag_if,
      e0, ep, ed, h0, ha, hf, hl, ht1, ht2, toChar]

theorem ascii_shapeA_request_colon (K : FlagBits) (mode : Mode) (pr : Bool)
    (hmode : mode = .ModbusASCIIClient ∨ (mode = .ModbusASCIIBoth ∧ pr = false))
    (c0 a1 a2 f1 f2 p11 p12 p21 p22 p31 p32 p41 p42 l1 l2 t1 t2 : SerialChar)
    (rest : List SerialChar) (sf ef : Nat) (res : List Frame)
    (h0 : c0.data = 0x3A)
    (ha : ¬ (a1.data = 0x3A ∨ a1.data = 0x0A ∨ a1.data = 0x0D))
    (hf : ¬ (f1.data = 0x3A ∨ f1.data = 0x0A ∨ f1.data = 0x0D))
    (hp1 : ¬ (p11.data = 0x3A ∨ p11.data = 0x0A ∨ p11.data = 0x0D))
    (hp2 : ¬ (p21.data = 0x3A ∨ p21.data = 0x0A ∨ p21.data = 0x0D))
    (hp3 : ¬ (p31.data = 0x3A ∨ p31.data = 0x0A ∨ p31.data = 0x0D))
    (hp4 : ¬ (p41.data = 0x3A ∨ p41.data = 0x0A ∨ p41.data = 0x0D))
    (hl1 : l1.data = 0x3A)
    (hl2 : ¬ (l2.data = 0x3A ∨ l2.data = 0x0A ∨ l2.data = 0x0D))
    (ht2 : t2.data = 0x3A ∨ t2.data = 0x0A ∨ t2.data = 0x0D)
    (hfc : ascii_pair f1.data f2.data ∈ [0x01, 0x02, 0x03, 0x04, 0x05, 0x06, 0x08]) :
    WorkerThread_message K mode pr
        ⟨c0 :: a1 :: a2 :: f1 :: f2 :: p11 :: p12 :: p21 :: p22 :: p31 :: p32 :: p41 :: p42 ::
          l1 :: l2 :: t1 :: t2 :: rest, sf, ef, res⟩
      = .ret (!pr) ⟨rest, t2.start, t1.stop, res ++ [
          { mStartingSampleInclusive := a1.start
            mEndingSampleInclusive := t1.stop
            mData1 := pack8 (ascii_pair a1.data a2.data) (ascii_pair f1.data f2.data)
              (ascii_pair p11.data p12.data) (ascii_pair p21.data p22.data)
              (ascii_pair p31.data p32.data) (ascii_pair p41.data p42.data)
              0 0x3A
            mData2 := 0
            mFlags :=
              if LRC [ascii_pair a1.data a2.data, ascii_pair f1.data f2.data,
                  ascii_pair p11.data p12.data, ascii_pair p21.data p22.data,
                  ascii_pair p31.data p32.data, ascii_pair p41.data p42.data]
                  ≠ 0x3A
              then K.FLAG_REQUEST_FRAME ||| K.FLAG_CHECKSUM_ERROR
              else K.FLAG_REQUEST_FRAME }]⟩ := by
  have hasc : mode = .ModbusASCIIClient ∨ mode = .ModbusASCIIServer ∨ mode = .ModbusASCIIBoth := by
    rcases hmode with h | ⟨h, _⟩ <;> simp [h]
  have hfc' : ascii_pair f1.data f2.data = 1 ∨ ascii_pair f1.data f2.data = 2 ∨
      ascii_pair f1.data f2.data = 3 ∨ ascii_pair f1.data f2.data = 4 ∨
      ascii_pair f1.data f2.data = 5 ∨ ascii_pair f1.data f2.data = 6 ∨
      ascii_pair f1.data f2.data = 8 := by simpa using hfc
  have e0 := GetNextByteModbus_ascii_delim mode hasc c0
  have ep := GetNextByteModbus_ascii_pair mode hasc
  have ed := GetNextByteModbus_ascii_delim mode hasc
  rcases hmode with h | ⟨h, hpr⟩
  · subst h
    simp [WorkerThread_message, WorkerThread_parse, request_role, response_role, request_switch,
      request_READ_COILS, single_frame_LRC, find_start_of_frame, chars_left,
      get_starting_frame, get_ending_frame, AddFrame, hfc', LRC, flag_if,
      e0, ep, ed, h0, ha, hf, hp1, hp2, hp3, hp4, hl1, hl2, ht2, toChar]
  · subst h; subst hpr
    simp [WorkerThread_message, WorkerThread_parse, request_role, response_role, request_switch,
      request_READ_COILS, single_frame_LRC, find_start_of_frame, chars_left,
      get_starting_frame, get_ending_frame, AddFrame, hfc', LRC, flag_if,
      e0, ep, ed, h0, ha, hf, hp1, hp2, hp3, hp4, hl1, hl2, ht2, toChar]

theorem ascii_shapeB_request_colon (K : FlagBits) (mode : Mode) (pr : Bool)
    (hmode : mode = .ModbusASCIIClient ∨ (mode = .ModbusASCIIBoth ∧ pr = false))
    (c0 a1 a2 f1 f2 l1 l2 t1 t2 : SerialChar)
    (rest : List SerialChar) (sf ef : Nat) (res : List Frame)
    (h0 : c0.data = 0x3A)
    (ha : ¬ (a1.data = 0x3A ∨ a1.data = 0x0A ∨ a1.data = 0x0D))
    (hf : ¬ (f1.data = 0x3A ∨ f1.data = 0x0A ∨ f1.data = 0x0D))
    (hl1 : l1.data = 0x3A)
    (hl2 : ¬ (l2.data = 0x3A ∨ l2.data = 0x0A ∨ l2.data = 0x0D))
    (ht2 : t2.data = 0x3A ∨ t2.data = 0x0A ∨ t2.data = 0x0D)
    (hfc : ascii_pair f1.data f2.data ∈ [0x07, 0x0B, 0x0C, 0x11]) :
    WorkerThread_message K mode pr
        ⟨c0 :: a1 :: a2 :: f1 :: f2 :: l1 :: l2 :: t1 :: t2 :: rest, sf, ef, res⟩
      = .ret (!pr) ⟨rest, t2.start, t1.stop, res ++ [
          { mStartingSampleInclusive := a1.start
            mEndingSampleInclusive := t1.stop
            mData1 := pack8 (ascii_pair a1.data a2.data) (ascii_pair f1.data f2.data)
              0 0 0 0 0 0x3A
            mData2 := 0
            mFlags :=
              if LRC [ascii_pair a1.data a2.data, ascii_pair f1.data f2.data] ≠ 0x3A
              then K.FLAG_REQUEST_FRAME ||| K.FLAG_CHECKSUM_ERROR
              else K.FLAG_REQUEST_FRAME }]⟩ := by
  have hasc : mode = .ModbusASCIIClient ∨ mode = .ModbusASCIIServer ∨ mode = .ModbusASCIIBoth := by
    rcases hmode with h | ⟨h, _⟩ <;> simp [h]
  have hfc' : ascii_pair f1.data f2.data = 7 ∨ ascii_pair f1.data f2.data = 11 ∨
      ascii_pair f1.data f2.data = 12 ∨ ascii_pair f1.data f2.data = 17 := by simpa using hfc
  have e0 := GetNextByteModbus_ascii_delim mode hasc c0
  have ep := GetNextByteModbus_ascii_pair mode hasc
  have ed := GetNextByteModbus_ascii_delim mode hasc
  rcases hmode with h | ⟨h, hpr⟩
  · subst h
    rcases hfc' with h' | h' | h' | h' <;>
    simp [WorkerThread_message, WorkerThread_parse, request_role, response_role, request_switch,
      request_READ_EXCEPTION_STATUS, single_frame_LRC, find_start_of_frame, chars_left,
      get_starting_frame, get_ending_frame, AddFrame, h', LRC, flag_if,
      e0, ep, ed, h0, ha, hf, hl1, hl2, ht2, toChar]
  · subst h; subst hpr
    rcases hfc' with h' | h' | h' | h' <;>
    simp [WorkerThread_message, WorkerThread_parse, request_role, response_role, request_switch,
      request_READ_EXCEPTION_STATUS, single_frame_LRC, find_start_of_frame, chars_left,
      get_starting_frame, get_ending_frame, AddFrame, h', LRC, flag_if,
      e0, ep, ed, h0, ha, hf, hl1, hl2, ht2, toChar]

theorem pack8_low16 (b7 b6 b5 b4 b3 b2 b0 : Nat) (h0 : b0 < 256) :
    pack8 b7 b6 b5 b4 b3 b2 0 b0 % 65536 = b0 := by
  unfold pack8 U64
  simp only [Nat.shiftLeft_eq]
  norm_num
  omega

theorem ascii_pair_lt (x y : Nat) : ascii_pair x y < 256 := by
  have h1 := nib_lt x
  have h2 := nib_lt y
  rw [ascii_pair_eq]; omega

theorem list_length_four {α : Type} (ps : List α) (h : ps.length = 4) :
    ∃ p1 p2 p3 p4, ps = [p1, p2, p3, p4] := by
  match ps, h with
  | [p1, p2, p3, p4], _ => exact ⟨p1, p2, p3, p4, rfl⟩

theorem ascii_request_received (K : FlagBits) (mode : Mode) (pr : Bool)
    (a f : Nat) (ps : List Nat) (x y : Nat)
    (cs rest : List SerialChar) (sf ef : Nat) (res : List Frame)
    (hmode : mode = .ModbusASCIIClient ∨ (mode = .ModbusASCIIBoth ∧ pr = false))
    (ha : a < 256) (hps : ∀ p ∈ ps, p < 256)
    (hshape : (f ∈ [0x01, 0x02, 0x03, 0x04, 0x05, 0x06, 0x08] ∧ ps.length = 4)
      ∨ (f ∈ [0x07, 0x0B, 0x0C, 0x11] ∧ ps = []))
    (hx : ¬ (x = 0x3A ∨ x = 0x0A ∨ x = 0x0D))
    (hcs : cs.map SerialChar.data =
      0x3A :: ((a :: f :: ps).flatMap hexChars ++ [x, y, 0x0D, 0x0A])) :
    ∃ fr s1,
      WorkerThread_message K mode pr ⟨cs ++ rest, sf, ef, res⟩ = .ret (!pr) s1
        ∧ s1.mModbus = rest ∧ s1.mResults = res ++ [fr]
        ∧ fr.mFlags = (if LRC (a :: f :: ps) ≠ ascii_pair x y
            then K.FLAG_REQUEST_FRAME ||| K.FLAG_CHECKSUM_ERROR else K.FLAG_REQUEST_FRAME)
        ∧ fr.mData1 % 65536 = ascii_pair x y := by
  rcases hshape with ⟨hf, hlen⟩ | ⟨hf, rfl⟩
  · obtain ⟨p1, p2, p3, p4, rfl⟩ := list_length_four ps hlen
    have hf256 : f < 256 := by
      simp only [List.mem_cons, List.mem_singleton, List.not_mem_nil, or_false] at hf
      omega
    have hp1 : p1 < 256 := hps p1 (by simp)
    have hp2 : p2 < 256 := hps p2 (by simp)
    have hp3 : p3 < 256 := hps p3 (by simp)
    have hp4 : p4 < 256 := hps p4 (by simp)
    simp only [List.flatMap_cons, List.flatMap_nil, hexChars, List.cons_append, List.nil_append,
      List.append_nil, List.map_eq_cons_iff, List.map_eq_nil_iff] at hcs
    obtain ⟨c0, _, rfl, h0, a1, _, rfl, ha1, a2, _, rfl, ha2, f1, _, rfl, hf1, f2, _, rfl, hf2,
      p11, _, rfl, hp11, p12, _, rfl, hp12, p21, _, rfl, hp21, p22, _, rfl, hp22,
      p31, _, rfl, hp31, p32, _, rfl, hp32, p41, _, rfl, hp41, p42, _, rfl, hp42,
      l1, _, rfl, hl1, l2, _, rfl, hl2, t1, _, rfl, ht1, t2, _, rfl, ht2, rfl⟩ := hcs
    refine ⟨_, _, ascii_shapeA_request K mode pr hmode c0 a1 a2 f1 f2 p11 p12 p21 p22 p31 p32
      p41 p42 l1 l2 t1 t2 rest sf ef res h0
      (by rw [ha1]; exact hexDigit_not_delim _) (by rw [hf1]; exact hexDigit_not_delim _)
      (by rw [hp11]; exact hexDigit_not_delim _) (by rw [hp21]; exact hexDigit_not_delim _)
      (by rw [hp31]; exact hexDigit_not_delim _) (by rw [hp41]; exact hexDigit_not_delim _)
      (by rw [hl1]; exact hx) (by simp [ht1]) (by simp [ht2])
      (by rw [hf1, hf2, ascii_pair_hexChars f hf256]; exact hf), rfl, rfl, ?_, ?_⟩
    · simp only [ha1, ha2, hf1, hf2, hp11, hp12, hp21, hp22, hp31, hp32, hp41, hp42, hl1, hl2,
        ascii_pair_hexChars _ ha, ascii_pair_hexChars _ hf256, ascii_pair_hexChars _ hp1,
        ascii_pair_hexChars _ hp2, ascii_pair_hexChars _ hp3, ascii_pair_hexChars _ hp4]
    · show pack8 _ _ _ _ _ _ _ _ % 65536 = _
      rw [hl1, hl2]
      exact pack8_low16 _ _ _ _ _ _ _ (ascii_pair_lt _ _)
  · have hf256 : f < 256 := by
      simp only [List.mem_cons, List.mem_singleton, List.not_mem_nil, or_false] at hf
      omega
    simp only [List.flatMap_cons, List.flatMap_nil, hexChars, List.cons_append, List.nil_append,
      List.append_nil, List.map_eq_cons_iff, List.map_eq_nil_iff] at hcs
    obtain ⟨c0, _, rfl, h0, a1, _, rfl, ha1, a2, _, rfl, ha2, f1, _, rfl, hf1, f2, _, rfl, hf2,
      l1, _, rfl, hl1, l2, _, rfl, hl2, t1, _, rfl, ht1, t2, _, rfl, ht2, rfl⟩ := hcs
    refine ⟨_, _, ascii_shapeB_request K mode pr hmode c0 a1 a2 f1 f2 l1 l2 t1 t2 rest sf ef res
      h0 (by rw [ha1]; exact hexDigit_not_delim _) (by rw [hf1]; exact hexDigit_not_delim _)
      (by rw [hl1]; exact hx) (by simp [ht1]) (by simp [ht2])
      (by rw [hf1, hf2, ascii_pair_hexChars f hf256]; exact hf), rfl, rfl, ?_, ?_⟩
    · simp only [ha1, ha2, hf1, hf2, hl1, hl2,
        ascii_pair_hexChars _ ha, ascii_pair_hexChars _ hf256]
    · show pack8 _ _ _ _ _ _ _ _ % 65536 = _
      rw [hl1, hl2]
      exact pack8_low16 _ _ _ _ _ _ _ (ascii_pair_lt _ _)

theorem ascii_request_received_colon (K : FlagBits) (mode : Mode) (pr : Bool)
    (a f : Nat) (ps : List Nat) (y : Nat)
    (cs rest : List SerialChar) (sf ef : Nat) (res : List Frame)
    (hmode : mode = .ModbusASCIIClient ∨ (mode = .ModbusASCIIBoth ∧ pr = false))
    (ha : a < 256) (hps : ∀ p ∈ ps, p < 256)
    (hshape : (f ∈ [0x01, 0x02, 0x03, 0x04, 0x05, 0x06, 0x08] ∧ ps.length = 4)
      ∨ (f ∈ [0x07, 0x0B, 0x0C, 0x11] ∧ ps = []))
    (hy : ¬ (y = 0x3A ∨ y = 0x0A ∨ y = 0x0D))
    (hcs : cs.map SerialChar.data =
      0x3A :: ((a :: f :: ps).flatMap hexChars ++ [0x3A, y, 0x0D, 0x0A])) :
    ∃ fr s1,
      WorkerThread_message K mode pr ⟨cs ++ rest, sf, ef, res⟩ = .ret (!pr) s1
        ∧ s1.mModbus = rest ∧ s1.mResults = res ++ [fr]
        ∧ fr.mFlags = (if LRC (a :: f :: ps) ≠ 0x3A
            then K.FLAG_REQUEST_FRAME ||| K.FLAG_CHECKSUM_ERROR else K.FLAG_REQUEST_FRAME) := by
  rcases hshape with ⟨hf, hlen⟩ | ⟨hf, rfl⟩
  · obtain ⟨p1, p2, p3, p4, rfl⟩ := list_length_four ps hlen
    have hf256 : f < 256 := by
      simp only [List.mem_cons, List.mem_singleton, List.not_mem_nil, or_false] at hf
      omega
    have hp1 : p1 < 256 := hps p1 (by simp)
    have hp2 : p2 < 256 := hps p2 (by simp)
    have hp3 : p3 < 256 := hps p3 (by simp)
    have hp4 : p4 < 256 := hps p4 (by simp)
    simp only [List.flatMap_cons, List.flatMap_nil, hexChars, List.cons_append, List.nil_append,
      List.append_nil, List.map_eq_cons_iff, List.map_eq_nil_iff] at hcs
    obtain ⟨c0, _, rfl, h0, a1, _, rfl, ha1, a2, _, rfl, ha2, f1, _, rfl, hf1, f2, _, rfl, hf2,
      p11, _, rfl, hp11, p12, _, rfl, hp12, p21, _, rfl, hp21, p22, _, rfl, hp22,
      p31, _, rfl, hp31, p32, _, rfl, hp32, p41, _, rfl, hp41, p42, _, rfl, hp42,
      l1, _, rfl, hl1, l2, _, rfl, hl2, t1, _, rfl, ht1, t2, _, rfl, ht2, rfl⟩ := hcs
    refine ⟨_, _, ascii_shapeA_request_colon K mode pr hmode c0 a1 a2 f1 f2 p11 p12 p21 p22
      p31 p32 p41 p42 l1 l2 t1 t2 rest sf ef res h0
      (by rw [ha1]; exact hexDigit_not_delim _) (by rw [hf1]; exact hexDigit_not_delim _)
      (by rw [hp11]; exact hexDigit_not_delim _) (by rw [hp21]; exact hexDigit_not_delim _)
      (by rw [hp31]; exact hexDigit_not_delim _) (by rw [hp41]; exact hexDigit_not_delim _)
      hl1 (by rw [hl2]; exact hy) (by simp [ht2])
      (by rw [hf1, hf2, ascii_pair_hexChars f hf256]; exact hf), rfl, rfl, ?_⟩
    simp only [ha1, ha2, hf1, hf2, hp11, hp12, hp21, hp22, hp31, hp32, hp41, hp42,
      ascii_pair_hexChars _ ha, ascii_pair_hexChars _ hf256, ascii_pair_hexChars _ hp1,
      ascii_pair_hexChars _ hp2, ascii_pair_hexChars _ hp3, ascii_pair_hexChars _ hp4]
  · have hf256 : f < 256 := by
      simp only [List.mem_cons, List.mem_singleton, List.not_mem_nil, or_false] at hf
      omega
    simp only [List.flatMap_cons, List.flatMap_nil, hexChars, List.cons_append, List.nil_append,
      List.append_nil, List.map_eq_cons_iff, List.map_eq_nil_iff] at hcs
    obtain ⟨c0, _, rfl, h0, a1, _, rfl, ha1, a2, _, rfl, ha2, f1, _, rfl, hf1, f2, _, rfl, hf2,
      l1, _, rfl, hl1, l2, _, rfl, hl2, t1, _, rfl, ht1, t2, _, rfl, ht2, rfl⟩ := hcs
    refine ⟨_, _, ascii_shapeB_request_colon K mode pr hmode c0 a1 a2 f1 f2 l1 l2 t1 t2 rest
      sf ef res h0 (by rw [ha1]; exact hexDigit_not_delim _)
      (by rw [hf1]; exact hexDigit_not_delim _)
      hl1 (by rw [hl2]; exact hy) (by simp [ht2])
      (by rw [hf1, hf2, ascii_pair_hexChars f hf256]; exact hf), rfl, rfl, ?_⟩
    simp only [ha1, ha2, hf1, hf2, ascii_pair_hexChars _ ha, ascii_pair_hexChars _ hf256]

theorem LRC_lt (bytes : List Nat) : LRC bytes < 256 := by
  rw [(LRC_closed_form bytes)]; omega

set_option maxRecDepth 100000 in
theorem flipBit_hexDigit_facts :
    ∀ n < 16, ∀ k < 8,
      (nib (flipBit (hexDigit n) k) = n ↔ ((n = 0 ∧ 4 ≤ k) ∨ (10 ≤ n ∧ k = 5)))
        ∧ flipBit (hexDigit n) k ≠ 0x0A ∧ flipBit (hexDigit n) k ≠ 0x0D
        ∧ (flipBit (hexDigit n) k = 0x3A → (n = 2 ∨ n = 8)) := by
  decide

/-- C6: in ASCII-Client mode the characters `':'`, the uppercase hex digits of
`a`, `f`, the payload bytes and their LRC, CR, LF of a single-frame request
(4-payload-byte shape with four payload bytes, 0-payload shape with none) are
consumed exactly and give exactly one frame, with flags exactly REQUEST and the
low 16 bits of `data1` equal to the LRC. -/
theorem ascii_request_roundtrip (K : FlagBits) (a f : Nat) (ps : List Nat)
    (cs rest : List SerialChar) (sf ef : Nat) (res : List Frame) (pr : Bool)
    (ha : a < 256) (hps : ∀ p ∈ ps, p < 256)
    (hshape : (f ∈ [0x01, 0x02, 0x03, 0x04, 0x05, 0x06, 0x08] ∧ ps.length = 4)
      ∨ (f ∈ [0x07, 0x0B, 0x0C, 0x11] ∧ ps = []))
    (hcs : cs.map SerialChar.data = asciiMessage (a :: f :: ps)) :
    ∃ fr s1,
      WorkerThread_message K .ModbusASCIIClient pr ⟨cs ++ rest, sf, ef, res⟩ = .ret (!pr) s1
        ∧ s1.mModbus = rest ∧ s1.mResults = res ++ [fr]
        ∧ fr.mFlags = K.FLAG_REQUEST_FRAME
        ∧ fr.mData1 % 65536 = LRC (a :: f :: ps) := by
  have hL := LRC_lt (a :: f :: ps)
  have hcs' : cs.map SerialChar.data = 0x3A :: ((a :: f :: ps).flatMap hexChars ++
      [hexDigit (LRC (a :: f :: ps) / 16), hexDigit (LRC (a :: f :: ps) % 16), 0x0D, 0x0A]) := by
    rw [hcs]
    simp [asciiMessage, List.flatMap_append, hexChars]
  obtain ⟨fr, s1, h1, h2, h3, h4, h5⟩ :=
    ascii_request_received K .ModbusASCIIClient pr a f ps _ _ cs rest sf ef res (Or.inl rfl)
      ha hps hshape (hexDigit_not_delim _) hcs'
  rw [ascii_pair_hexChars _ hL] at h4 h5
  exact ⟨fr, s1, h1, h2, h3, by simpa using h4, h5⟩

set_option maxRecDepth 100000 in
/-- Witness of C6: `":010300000001FB"` CR LF gives one REQUEST frame without
error flags. -/
theorem ascii_request_roundtrip_witness :
    ∃ fr s1,
      WorkerThread_message sampleFlags .ModbusASCIIClient false
          ⟨sampleWire [0x3A, 0x30, 0x31, 0x30, 0x33, 0x30, 0x30, 0x30, 0x30, 0x30, 0x30, 0x30,
            0x31, 0x46, 0x42, 0x0D, 0x0A] ++ [], 0, 0, []⟩ = .ret true s1
        ∧ s1.mModbus = [] ∧ s1.mResults = [] ++ [fr]
        ∧ fr.mFlags = sampleFlags.FLAG_REQUEST_FRAME
        ∧ fr.mData1 % 65536 = 0xFB := by
  obtain ⟨fr, s1, h1, h2, h3, h4, h5⟩ :=
    ascii_request_roundtrip sampleFlags 0x01 0x03 [0x00, 0x00, 0x00, 0x01]
      (sampleWire [0x3A, 0x30, 0x31, 0x30, 0x33, 0x30, 0x30, 0x30, 0x30, 0x30, 0x30, 0x30,
        0x31, 0x46, 0x42, 0x0D, 0x0A]) [] 0 0 [] false
      (by decide) (by decide) (Or.inl (by decide)) (by decide)
  exact ⟨fr, s1, h1, h2, h3, h4, by rw [h5]; decide⟩

set_option maxRecDepth 100000 in
/-- C7 (as stated, refuted): in `":010300000001FB"` CR LF the first LRC character
`'F'` with bit 5 flipped is `'f'`; the decoder still reads `0xFB` and emits the
frame with flags exactly REQUEST, not REQUEST | CHECKSUM_ERROR. -/
theorem ascii_lrc_bit_flip_not_flagged :
    flipBit (hexDigit (LRC [0x01, 0x03, 0x00, 0x00, 0x00, 0x01] / 16)) 5 = 0x66
      ∧ ∃ fr s1,
        WorkerThread_message sampleFlags .ModbusASCIIClient false
            ⟨sampleWire [0x3A, 0x30, 0x31, 0x30, 0x33, 0x30, 0x30, 0x30, 0x30, 0x30, 0x30,
              0x30, 0x31, 0x66, 0x42, 0x0D, 0x0A], 0, 0, []⟩ = .ret true s1
          ∧ s1.mModbus = [] ∧ s1.mResults = [fr]
          ∧ fr.mFlags = sampleFlags.FLAG_REQUEST_FRAME
          ∧ fr.mFlags ≠ sampleFlags.FLAG_REQUEST_FRAME ||| sampleFlags.FLAG_CHECKSUM_ERROR := by
  refine ⟨by decide, ?_⟩
  obtain ⟨fr, s1, h1, h2, h3, h4, _⟩ :=
    ascii_request_received sampleFlags .ModbusASCIIClient false 0x01 0x03
      [0x00, 0x00, 0x00, 0x01] 0x66 0x42
      (sampleWire [0x3A, 0x30, 0x31, 0x30, 0x33, 0x30, 0x30, 0x30, 0x30, 0x30, 0x30, 0x30,
        0x31, 0x66, 0x42, 0x0D, 0x0A]) [] 0 0 [] (Or.inl rfl)
      (by decide) (by decide) (Or.inl (by decide)) (by decide) (by decide)
  have h4' : fr.mFlags = sampleFlags.FLAG_REQUEST_FRAME := by
    rw [h4]; decide
  refine ⟨fr, s1, by simpa using h1, h2, by simpa using h3, h4', ?_⟩
  rw [h4']; decide

/-- C7 (amended): for a well-formed ASCII single-frame request, flipping bit `k`
of the first (`first = true`) or the second LRC character makes the decoder emit
the terminal frame with flags exactly REQUEST | CHECKSUM_ERROR, except when the
flip leaves the decoded nibble unchanged (bits 4..7 of the digit `'0'`, bit 5 of
a letter digit `'A'..'F'`), where the flags are exactly REQUEST. -/
theorem ascii_request_lrc_bit_flip (K : FlagBits) (mode : Mode) (pr : Bool)
    (a f : Nat) (ps : List Nat) (first : Bool) (k : Nat)
    (cs rest : List SerialChar) (sf ef : Nat) (res : List Frame)
    (hmode : mode = .ModbusASCIIClient ∨ (mode = .ModbusASCIIBoth ∧ pr = false))
    (ha : a < 256) (hps : ∀ p ∈ ps, p < 256)
    (hshape : (f ∈ [0x01, 0x02, 0x03, 0x04, 0x05, 0x06, 0x08] ∧ ps.length = 4)
      ∨ (f ∈ [0x07, 0x0B, 0x0C, 0x11] ∧ ps = []))
    (hk : k < 8)
    (hcs : cs.map SerialChar.data = 0x3A :: ((a :: f :: ps).flatMap hexChars ++
      [if first then flipBit (hexDigit (LRC (a :: f :: ps) / 16)) k
        else hexDigit (LRC (a :: f :: ps) / 16),
       if first then hexDigit (LRC (a :: f :: ps) % 16)
        else flipBit (hexDigit (LRC (a :: f :: ps) % 16)) k,
       0x0D, 0x0A])) :
    ∃ fr s1,
      WorkerThread_message K mode pr ⟨cs ++ rest, sf, ef, res⟩ = .ret (!pr) s1
        ∧ s1.mModbus = rest ∧ s1.mResults = res ++ [fr]
        ∧ fr.mFlags =
            (if ((if first then LRC (a :: f :: ps) / 16 else LRC (a :: f :: ps) % 16) = 0
                  ∧ 4 ≤ k)
                ∨ (10 ≤ (if first then LRC (a :: f :: ps) / 16 else LRC (a :: f :: ps) % 16)
                  ∧ k = 5)
              then K.FLAG_REQUEST_FRAME
              else K.FLAG_REQUEST_FRAME ||| K.FLAG_CHECKSUM_ERROR) := by
  have hL := LRC_lt (a :: f :: ps)
  generalize hLdef : LRC (a :: f :: ps) = L at hcs hL ⊢
  have hhi : L / 16 < 16 := by omega
  have hlo : L % 16 < 16 := by omega
  cases first
  · -- the second LRC character is flipped
    simp only [Bool.false_eq_true, if_false] at hcs ⊢
    obtain ⟨hfact, _, _, _⟩ := flipBit_hexDigit_facts (L % 16) hlo k hk
    obtain ⟨fr, s1, h1, h2, h3, h4, _⟩ :=
      ascii_request_received K mode pr a f ps _ _ cs rest sf ef res hmode
        ha hps hshape (hexDigit_not_delim _) hcs
    refine ⟨fr, s1, h1, h2, h3, ?_⟩
    rw [h4, hLdef, ascii_pair_eq, nib_hexDigit _ hhi]
    have hn := nib_lt (flipBit (hexDigit (L % 16)) k)
    by_cases hc : (L % 16 = 0 ∧ 4 ≤ k) ∨ (10 ≤ L % 16 ∧ k = 5)
    · have := hfact.mpr hc
      rw [if_pos hc, if_neg (by omega)]
    · have : nib (flipBit (hexDigit (L % 16)) k) ≠ L % 16 := fun h => hc (hfact.mp h)
      rw [if_neg hc, if_pos (by omega)]
  · -- the first LRC character is flipped
    simp only [if_true] at hcs ⊢
    obtain ⟨hfact, h0A, h0D, h3A⟩ := flipBit_hexDigit_facts (L / 16) hhi k hk
    by_cases hcol : flipBit (hexDigit (L / 16)) k = 0x3A
    · rw [hcol] at hcs
      obtain ⟨fr, s1, h1, h2, h3, h4⟩ :=
        ascii_request_received_colon K mode pr a f ps _ cs rest sf ef res hmode
          ha hps hshape (hexDigit_not_delim _) hcs
      refine ⟨fr, s1, h1, h2, h3, ?_⟩
      have hn := h3A hcol
      rw [h4, hLdef, if_pos (by omega), if_neg (by omega)]
    · obtain ⟨fr, s1, h1, h2, h3, h4, _⟩ :=
        ascii_request_received K mode pr a f ps _ _ cs rest sf ef res hmode
          ha hps hshape (by
            rintro (h | h | h)
            · exact hcol h
            · exact h0A h
            · exact h0D h) hcs
      refine ⟨fr, s1, h1, h2, h3, ?_⟩
      rw [h4, hLdef, ascii_pair_eq, nib_hexDigit _ hlo]
      have hn := nib_lt (flipBit (hexDigit (L / 16)) k)
      by_cases hc : (L / 16 = 0 ∧ 4 ≤ k) ∨ (10 ≤ L / 16 ∧ k = 5)
      · have := hfact.mpr hc
        rw [if_pos hc, if_neg (by omega)]
      · have : nib (flipBit (hexDigit (L / 16)) k) ≠ L / 16 := fun h => hc (hfact.mp h)
        rw [if_neg hc, if_pos (by omega)]

set_option maxRecDepth 100000 in
/-- Witness of the amended C7: in `":010300000001FB"` CR LF, bit 0 of the second
LRC character flipped (`'B'` becomes `'C'`) gives REQUEST | CHECKSUM_ERROR. -/
theorem ascii_request_lrc_bit_flip_witness :
    ∃ fr s1,
      WorkerThread_message sampleFlags .ModbusASCIIClient false
          ⟨sampleWire [0x3A, 0x30, 0x31, 0x30, 0x33, 0x30, 0x30, 0x30, 0x30, 0x30, 0x30, 0x30,
            0x31, 0x46, 0x43, 0x0D, 0x0A] ++ [], 0, 0, []⟩ = .ret true s1
        ∧ s1.mModbus = [] ∧ s1.mResults = [] ++ [fr]
        ∧ fr.mFlags = sampleFlags.FLAG_REQUEST_FRAME ||| sampleFlags.FLAG_CHECKSUM_ERROR := by
  obtain ⟨fr, s1, h1, h2, h3, h4⟩ :=
    ascii_request_lrc_bit_flip sampleFlags .ModbusASCIIClient false 0x01 0x03
      [0x00, 0x00, 0x00, 0x01] false 0
      (sampleWire [0x3A, 0x30, 0x31, 0x30, 0x33, 0x30, 0x30, 0x30, 0x30, 0x30, 0x30, 0x30,
        0x31, 0x46, 0x43, 0x0D, 0x0A]) [] 0 0 [] (Or.inl rfl)
      (by decide) (by decide) (Or.inl (by decide)) (by decide) (by decide)
  exact ⟨fr, s1, h1, h2, h3, by rw [h4]; decide⟩

/-! ### RTU responses -/

theorem data_words_rtu (K : FlagBits) (mode : Mode)
    (hrtu : mode = .ModbusRTUClient ∨ mode = .ModbusRTUServer ∨ mode = .ModbusRTUBoth)
    (n : Nat) (ws : List SerialChar) (hlen : ws.length = 2 * n)
    (ck : Nat) (tail : List SerialChar) (sf ef : Nat) (res : List Frame) :
    data_words K mode update_CRC n ck ⟨ws ++ tail, sf, ef, res⟩
      = .ret ((ws.map SerialChar.data).foldl update_CRC ck)
          ⟨tail, (after_words ws (sf, ef)).1, (after_words ws (sf, ef)).2,
            res ++ word_frames K ws⟩ := by
  induction n generalizing ws ck sf ef res with
  | zero =>
    have : ws = [] := List.length_eq_zero.mp (by omega)
    subst this
    simp [data_words, after_words, word_frames]
  | succ n ih =>
    match ws, hlen with
    | c1 :: c2 :: ws', hlen =>
      have hlen' : ws'.length = 2 * n := by simp only [List.length_cons] at hlen; omega
      simp only [data_words, data_word, List.cons_append, Worker.bind_apply,
        GetNextByteModbus_rtu mode hrtu, get_starting_frame, get_ending_frame, AddFrame,
        Worker.pure_apply, ih ws' hlen', List.map_cons, List.foldl_cons, after_words,
        word_frames, List.append_assoc, List.singleton_append, List.nil_append]

theorem response_registers_rtu (K : FlagBits) (mode : Mode) (pr : Bool)
    (hmode : mode = .ModbusRTUServer ∨ (mode = .ModbusRTUBoth ∧ pr = true))
    (a f b c0 c1 : SerialChar) (ws rest : List SerialChar)
    (sf ef : Nat) (res : List Frame)
    (hf : f.data ∈ [0x03, 0x04, 0x17]) (hlen : ws.length = 2 * (b.data / 2)) :
    WorkerThread_message K mode pr ⟨a :: f :: b :: (ws ++ c0 :: c1 :: rest), sf, ef, res⟩
      = .ret (!pr) ⟨rest, c1.start, c1.stop, res ++
          { mStartingSampleInclusive := a.start
            mEndingSampleInclusive := b.stop
            mData1 := pack8 a.data f.data 0 0 0 0 0 b.data
            mData2 := 0
            mFlags := K.FLAG_RESPONSE_FRAME } ::
          (word_frames K ws ++ [
          { mStartingSampleInclusive := c0.start
            mEndingSampleInclusive := c1.stop
            mData1 := U64 ((c1.data <<< 8) + c0.data)
            mData2 := 0
            mFlags :=
              if crc_mismatch (CRC (a.data :: f.data :: b.data :: ws.map SerialChar.data))
                  c0.data c1.data
              then K.FLAG_END_FRAME ||| K.FLAG_CHECKSUM_ERROR
              else K.FLAG_END_FRAME }])⟩ := by
  have hrtu : mode = .ModbusRTUClient ∨ mode = .ModbusRTUServer ∨ mode = .ModbusRTUBoth := by
    rcases hmode with h | ⟨h, _⟩ <;> simp [h]
  have hdw := data_words_rtu K mode hrtu (b.data / 2) ws hlen
  have hf' : f.data = 3 ∨ f.data = 4 ∨ f.data = 23 := by simpa using hf
  have e3 : (3 &&& 128 : Nat) = 0 := by decide
  have e4 : (4 &&& 128 : Nat) = 0 := by decide
  have e23 : (23 &&& 128 : Nat) = 0 := by decide
  rcases hmode with h | ⟨h, hpr⟩
  · subst h
    rcases hf' with h' | h' | h' <;>
    simp [WorkerThread_message, WorkerThread_parse, request_role, response_role,
      response_switch, response_READ_HOLDING_REGISTERS, emit_header, end_frame_CRC,
      GetNextByteModbus_rtu, get_starting_frame, get_ending_frame, AddFrame, h', CRC,
      flag_if, hdw, e3, e4, e23]
  · subst h; subst hpr
    rcases hf' with h' | h' | h' <;>
    simp [WorkerThread_message, WorkerThread_parse, request_role, response_role,
      response_switch, response_READ_HOLDING_REGISTERS, emit_header, end_frame_CRC,
      GetNextByteModbus_rtu, get_starting_frame, get_ending_frame, AddFrame, h', CRC,
      flag_if, hdw, e3, e4, e23]

theorem word_frames_length (K : FlagBits) :
    ∀ ws : List SerialChar, (word_frames K ws).length = ws.length / 2
  | [] => rfl
  | [_] => by simp [word_frames]
  | _ :: _ :: t => by
    simp only [word_frames, List.length_cons, word_frames_length K t]
    omega

theorem word_or (hi lo : Nat) (hhi : hi < 256) (hlo : lo < 256) :
    U64 ((hi <<< 40) + (lo <<< 32)) = hi <<< 40 ||| lo <<< 32 := by
  have h := pack8_eq_or 0 0 hi lo 0 0 0 0 (by norm_num) (by norm_num) hhi hlo (by norm_num)
    (by norm_num) (by norm_num) (by norm_num)
  simp only [pack8, Nat.zero_shiftLeft, Nat.zero_add, Nat.add_zero, Nat.zero_or,
    Nat.or_zero] at h
  exact h

theorem checksum_or (c1 c0 : Nat) (h1 : c1 < 256) (h0 : c0 < 256) :
    U64 ((c1 <<< 8) + c0) = c1 <<< 8 ||| c0 := by
  have h := pack8_eq_or 0 0 0 0 0 0 c1 c0 (by norm_num) (by norm_num) (by norm_num)
    (by norm_num) (by norm_num) (by norm_num) h1 h0
  simp only [pack8, Nat.zero_shiftLeft, Nat.zero_add, Nat.add_zero, Nat.zero_or,
    Nat.or_zero] at h
  exact h

theorem word_frames_map (K : FlagBits) :
    ∀ ws : List SerialChar, (∀ c ∈ ws, c.data < 256) →
      (word_frames K ws).map (fun d => (d.mFlags, d.mData1))
        = (word_pairs (ws.map SerialChar.data)).map
            (fun p => (K.FLAG_DATA_FRAME, p.1 <<< 40 ||| p.2 <<< 32))
  | [], _ => rfl
  | [_], _ => rfl
  | c1 :: c2 :: t, h => by
    have h1 : c1.data < 256 := h c1 (by simp)
    have h2 : c2.data < 256 := h c2 (by simp)
    have ht : ∀ c ∈ t, c.data < 256 := fun c hc => h c (by simp [hc])
    simp only [word_frames, List.map_cons, word_pairs, word_frames_map K t ht,
      word_or _ _ h1 h2]

/-- C10: in an RTU server role, for function code 0x03, 0x04 or 0x17 and byte
count `B`, the response parser emits in order one RESPONSE header with
`data1 = addr<<56 | func<<48 | B`, exactly `B / 2` DATA frames (flags exactly
DATA, `data1 = hi<<40 | lo<<32` for the successive payload pairs) and one END
frame with `data1 = c1<<8 | c0`, flagged CHECKSUM_ERROR iff `(c0, c1)` is not the
little-endian CRC-16/Modbus of address, function, byte count and payload. -/
theorem rtu_register_response (K : FlagBits) (mode : Mode) (pr : Bool)
    (a f B c0 c1 : Nat) (pl : List Nat)
    (cs rest : List SerialChar) (sf ef : Nat) (res : List Frame)
    (hmode : mode = .ModbusRTUServer ∨ (mode = .ModbusRTUBoth ∧ pr = true))
    (ha : a < 256) (hf : f ∈ [0x03, 0x04, 0x17]) (hB : B < 256)
    (hpl : ∀ x ∈ pl, x < 256) (hlen : pl.length = 2 * (B / 2))
    (hc0 : c0 < 256) (hc1 : c1 < 256)
    (hcs : cs.map SerialChar.data = a :: f :: B :: (pl ++ [c0, c1])) :
    ∃ hdr ds en s1,
      WorkerThread_message K mode pr ⟨cs ++ rest, sf, ef, res⟩ = .ret (!pr) s1
        ∧ s1.mModbus = rest ∧ s1.mResults = res ++ hdr :: (ds ++ [en])
        ∧ hdr.mFlags = K.FLAG_RESPONSE_FRAME
        ∧ hdr.mData1 = a <<< 56 ||| f <<< 48 ||| B
        ∧ ds.length = B / 2
        ∧ ds.map (fun d => (d.mFlags, d.mData1))
            = (word_pairs pl).map (fun p => (K.FLAG_DATA_FRAME, p.1 <<< 40 ||| p.2 <<< 32))
        ∧ en.mData1 = c1 <<< 8 ||| c0
        ∧ en.mFlags =
            (if c0 ≠ crc16_modbus (a :: f :: B :: pl) % 256
                ∨ c1 ≠ crc16_modbus (a :: f :: B :: pl) / 256
              then K.FLAG_END_FRAME ||| K.FLAG_CHECKSUM_ERROR
              else K.FLAG_END_FRAME) := by
  have hf256 : f < 256 := by
    simp only [List.mem_cons, List.mem_singleton, List.not_mem_nil, or_false] at hf
    omega
  have hb : ∀ x ∈ a :: f :: B :: pl, x < 256 := by
    intro x hx
    simp only [List.mem_cons] at hx
    rcases hx with rfl | rfl | rfl | hx
    · exact ha
    · exact hf256
    · exact hB
    · exact hpl x hx
  rw [crc16_modbus_eq_CRC _ hb]
  have hlt := CRC_lt (a :: f :: B :: pl)
  simp only [List.map_eq_cons_iff, List.map_eq_append_iff, List.map_eq_nil_iff] at hcs
  obtain ⟨ca, _, rfl, rfl, cf, _, rfl, rfl, cb, _, rfl, rfl, ws, l2, rfl, rfl,
    cc0, _, rfl, rfl, cc1, _, rfl, rfl, rfl⟩ := hcs
  have hlen' : ws.length = 2 * (cb.data / 2) := by simpa using hlen
  have hws : ∀ c ∈ ws, c.data < 256 := fun c hc => hpl c.data (List.mem_map_of_mem _ hc)
  have hrun := response_registers_rtu K mode pr hmode ca cf cb cc0 cc1 ws rest sf ef res hf hlen'
  have hwire : ca :: cf :: cb :: (ws ++ [cc0, cc1]) ++ rest
      = ca :: cf :: cb :: (ws ++ cc0 :: cc1 :: rest) := by simp
  rw [hwire]
  refine ⟨_, _, _, _, hrun, rfl, rfl, rfl, ?_, ?_, word_frames_map K ws hws,
    checksum_or _ _ hc1 hc0, ?_⟩
  · show pack8 _ _ _ _ _ _ _ _ = _
    rw [pack8_eq_or _ _ _ _ _ _ _ _ ha hf256 (by norm_num) (by norm_num) (by norm_num)
      (by norm_num) (by norm_num) hB]
    simp only [Nat.zero_shiftLeft, Nat.or_zero]
  · rw [word_frames_length, hlen']
    omega
  · show (if _ then _ else _) = _
    simp only [crc_mismatch_iff _ _ _ hlt]

set_option maxRecDepth 100000 in
/-- Witness of C10: `01 03 06 02 2B 00 00 00 64 05 7A` in RTU-Server mode gives a
RESPONSE header, three DATA frames and an END frame without CHECKSUM_ERROR. -/
theorem rtu_register_response_witness :
    ∃ hdr ds en s1,
      WorkerThread_message sampleFlags .ModbusRTUServer false
          ⟨sampleWire [0x01, 0x03, 0x06, 0x02, 0x2B, 0x00, 0x00, 0x00, 0x64, 0x05, 0x7A] ++ [],
            0, 0, []⟩ = .ret true s1
        ∧ s1.mModbus = [] ∧ s1.mResults = [] ++ hdr :: (ds ++ [en])
        ∧ hdr.mFlags = sampleFlags.FLAG_RESPONSE_FRAME
        ∧ hdr.mData1 = 0x0103000000000006
        ∧ ds.map (fun d => (d.mFlags, d.mData1))
            = [(sampleFlags.FLAG_DATA_FRAME, 0x022B00000000),
               (sampleFlags.FLAG_DATA_FRAME, 0x000000000000),
               (sampleFlags.FLAG_DATA_FRAME, 0x006400000000)]
        ∧ en.mData1 = 0x7A05
        ∧ en.mFlags = sampleFlags.FLAG_END_FRAME := by
  obtain ⟨hdr, ds, en, s1, h1, h2, h3, h4, h5, _, h7, h8, h9⟩ :=
    rtu_register_response sampleFlags .ModbusRTUServer false 0x01 0x03 0x06 0x05 0x7A
      [0x02, 0x2B, 0x00, 0x00, 0x00, 0x64]
      (sampleWire [0x01, 0x03, 0x06, 0x02, 0x2B, 0x00, 0x00, 0x00, 0x64, 0x05, 0x7A]) [] 0 0 []
      (Or.inl rfl) (by decide) (by decide) (by decide) (by decide) (by decide) (by decide)
      (by decide) (by decide)
  refine ⟨hdr, ds, en, s1, h1, h2, h3, h4, ?_, ?_, ?_, ?_⟩
  · rw [h5]; decide
  · rw [h7]; decide
  · rw [h8]; decide
  · rw [h9]; decide

theorem exception_rtu (K : FlagBits) (mode : Mode) (pr : Bool)
    (hmode : mode = .ModbusRTUServer ∨ (mode = .ModbusRTUBoth ∧ pr = true))
    (a f e c0 c1 : SerialChar) (rest : List SerialChar)
    (sf ef : Nat) (res : List Frame)
    (hf : f.data &&& 0x80 ≠ 0) :
    WorkerThread_message K mode pr ⟨a :: f :: e :: c0 :: c1 :: rest, sf, ef, res⟩
      = .ret (!pr) ⟨rest, c1.start, c1.stop, res ++ [
          { mStartingSampleInclusive := a.start
            mEndingSampleInclusive := c1.stop
            mData1 := pack8 a.data f.data 0 e.data 0 0 c1.data c0.data
            mData2 := 0
            mFlags :=
              if crc_mismatch (CRC [a.data, f.data, e.data]) c0.data c1.data
              then K.FLAG_EXCEPTION_FRAME ||| K.FLAG_CHECKSUM_ERROR
              else K.FLAG_EXCEPTION_FRAME }]⟩ := by
  have hrtu : mode = .ModbusRTUClient ∨ mode = .ModbusRTUServer ∨ mode = .ModbusRTUBoth := by
    rcases hmode with h | ⟨h, _⟩ <;> simp [h]
  have hf' : ¬ (f.data &&& 128 = 0) := hf
  rcases hmode with h | ⟨h, hpr⟩
  · subst h
    simp [WorkerThread_message, WorkerThread_parse, request_role, response_role,
      response_exception, single_frame_CRC,
      GetNextByteModbus_rtu, get_starting_frame, get_ending_frame, AddFrame, CRC,
      flag_if, hf']
  · subst h; subst hpr
    simp [WorkerThread_message, WorkerThread_parse, request_role, response_role,
      response_exception, single_frame_CRC,
      GetNextByteModbus_rtu, get_starting_frame, get_ending_frame, AddFrame, CRC,
      flag_if, hf']

theorem or_and_self_left (x y : Nat) : (x ||| y) &&& x = x := by
  apply Nat.eq_of_testBit_eq
  intro i
  simp only [Nat.testBit_and, Nat.testBit_or]
  cases x.testBit i <;> cases y.testBit i <;> rfl

theorem or_and_eq_zero (x y z : Nat) (hx : x &&& z = 0) (hy : y &&& z = 0) :
    (x ||| y) &&& z = 0 := by
  apply Nat.eq_of_testBit_eq
  intro i
  have h1 := congrArg (fun n => n.testBit i) hx
  have h2 := congrArg (fun n => n.testBit i) hy
  simp only [Nat.testBit_and, Nat.zero_testBit] at h1 h2
  simp only [Nat.testBit_and, Nat.testBit_or, Nat.zero_testBit]
  cases hxi : x.testBit i <;> cases hyi : y.testBit i <;> cases hzi : z.testBit i <;>
    simp_all

/-- C9: in an RTU server role, for a function code with bit 7 set, the five
bytes `a, f, e, c0, c1` are consumed exactly and give exactly one frame, built
from the EXCEPTION flag (never the RESPONSE flag), with
`data1 = a<<56 | f<<48 | e<<32 | c1<<8 | c0`, and with CHECKSUM_ERROR iff
`(c0, c1)` is not the little-endian CRC-16/Modbus of `a, f, e`. -/
theorem rtu_exception_response (K : FlagBits) (mode : Mode) (pr : Bool)
    (a f e c0 c1 : Nat)
    (cs rest : List SerialChar) (sf ef : Nat) (res : List Frame)
    (hmode : mode = .ModbusRTUServer ∨ (mode = .ModbusRTUBoth ∧ pr = true))
    (ha : a < 256) (hf : f < 256) (hbit : f &&& 0x80 ≠ 0) (he : e < 256)
    (hc0 : c0 < 256) (hc1 : c1 < 256)
    (hcs : cs.map SerialChar.data = [a, f, e, c0, c1]) :
    ∃ fr s1,
      WorkerThread_message K mode pr ⟨cs ++ rest, sf, ef, res⟩ = .ret (!pr) s1
        ∧ s1.mModbus = rest ∧ s1.mResults = res ++ [fr]
        ∧ fr.mFlags =
            (if c0 ≠ crc16_modbus [a, f, e] % 256 ∨ c1 ≠ crc16_modbus [a, f, e] / 256
              then K.FLAG_EXCEPTION_FRAME ||| K.FLAG_CHECKSUM_ERROR
              else K.FLAG_EXCEPTION_FRAME)
        ∧ fr.mFlags &&& K.FLAG_EXCEPTION_FRAME = K.FLAG_EXCEPTION_FRAME
        ∧ (K.FLAG_EXCEPTION_FRAME &&& K.FLAG_RESPONSE_FRAME = 0 →
            K.FLAG_CHECKSUM_ERROR &&& K.FLAG_RESPONSE_FRAME = 0 →
            fr.mFlags &&& K.FLAG_RESPONSE_FRAME = 0)
        ∧ fr.mData1 = a <<< 56 ||| f <<< 48 ||| e <<< 32 ||| c1 <<< 8 ||| c0 := by
  have hb : ∀ x ∈ [a, f, e], x < 256 := by
    intro x hx
    simp only [List.mem_cons, List.mem_singleton, List.not_mem_nil, or_false] at hx
    rcases hx with rfl | rfl | rfl <;> assumption
  rw [crc16_modbus_eq_CRC _ hb]
  have hlt := CRC_lt [a, f, e]
  simp only [List.map_eq_cons_iff, List.map_eq_nil_iff] at hcs
  obtain ⟨ca, _, rfl, rfl, cf, _, rfl, rfl, ce, _, rfl, rfl, cc0, _, rfl, rfl,
    cc1, _, rfl, rfl, rfl⟩ := hcs
  have hflags : (if crc_mismatch (CRC [ca.data, cf.data, ce.data]) cc0.data cc1.data = true
      then K.FLAG_EXCEPTION_FRAME ||| K.FLAG_CHECKSUM_ERROR else K.FLAG_EXCEPTION_FRAME) =
      (if cc0.data ≠ CRC [ca.data, cf.data, ce.data] % 256
          ∨ cc1.data ≠ CRC [ca.data, cf.data, ce.data] / 256
        then K.FLAG_EXCEPTION_FRAME ||| K.FLAG_CHECKSUM_ERROR else K.FLAG_EXCEPTION_FRAME) := by
    simp only [crc_mismatch_iff _ _ _ hlt]
  refine ⟨_, _, exception_rtu K mode pr hmode ca cf ce cc0 cc1 rest sf ef res hbit, rfl, rfl,
    hflags, ?_, ?_, ?_⟩
  · show (if _ then _ else _) &&& _ = _
    split
    · exact or_and_self_left _ _
    · exact Nat.and_self _
  · intro h1 h2
    show (if _ then _ else _) &&& _ = _
    split
    · exact or_and_eq_zero _ _ _ h1 h2
    · exact h1
  · show pack8 _ _ _ _ _ _ _ _ = _
    rw [pack8_eq_or _ _ _ _ _ _ _ _ ha hf (by norm_num) he (by norm_num) (by norm_num) hc1 hc0]
    simp only [Nat.zero_shiftLeft, Nat.or_zero]

set_option maxRecDepth 100000 in
/-- Witness of C9: `01 83 02 C0 F1` gives an EXCEPTION frame without
CHECKSUM_ERROR. -/
theorem rtu_exception_response_witness :
    ∃ fr s1,
      WorkerThread_message sampleFlags .ModbusRTUServer false
          ⟨sampleWire [0x01, 0x83, 0x02, 0xC0, 0xF1] ++ [], 0, 0, []⟩ = .ret true s1
        ∧ s1.mModbus = [] ∧ s1.mResults = [] ++ [fr]
        ∧ fr.mFlags = sampleFlags.FLAG_EXCEPTION_FRAME
        ∧ fr.mData1 = 0x018300020000F1C0 := by
  obtain ⟨fr, s1, h1, h2, h3, h4, _, _, h7⟩ :=
    rtu_exception_response sampleFlags .ModbusRTUServer false 0x01 0x83 0x02 0xC0 0xF1
      (sampleWire [0x01, 0x83, 0x02, 0xC0, 0xF1]) [] 0 0 []
      (Or.inl rfl) (by decide) (by decide) (by decide) (by decide) (by decide) (by decide)
      (by decide)
  refine ⟨fr, s1, h1, h2, h3, ?_, ?_⟩
  · rw [h4]; decide
  · rw [h7]; decide

/-! ### Role alternation -/

theorem WorkerThread_message_toggle (K : FlagBits) (mode : Mode) (pr pr' : Bool)
    (s s' : Analyzer) (h : WorkerThread_message K mode pr s = .ret pr' s') : pr' = !pr := by
  unfold WorkerThread_message at h
  simp only [Worker.bind_apply, Worker.pure_apply, get_ending_frame, AddFrame] at h
  split at h
  · injection h with h1 _
    exact h1.symm
  · cases h

theorem WorkerThread_passes_flag (K : FlagBits) (mode : Mode) (k : Nat) (r : Bool)
    (s sk : Analyzer) (prk : Bool)
    (h : WorkerThread_passes K mode k r s = some (prk, sk)) :
    prk = xor r (decide (k % 2 = 1)) := by
  induction k generalizing r s with
  | zero =>
    simp only [WorkerThread_passes, Option.some.injEq, Prod.mk.injEq] at h
    simp [← h.1]
  | succ k ih =>
    simp only [WorkerThread_passes] at h
    split at h
    · rename_i pr' s1 hm
      have ht := WorkerThread_message_toggle K mode r pr' s s1 hm
      have := ih _ _ h
      subst ht
      rw [this]
      rcases Nat.mod_two_eq_zero_or_one k with hk | hk <;>
        cases r <;> simp [hk, Nat.succ_mod_two_eq_zero_iff, Nat.succ_mod_two_eq_one_iff]
    · cases h

theorem WorkerThread_loop_passes (K : FlagBits) (mode : Mode) (k : Nat) (r : Bool)
    (s sk : Analyzer) (prk : Bool)
    (h : WorkerThread_passes K mode k r s = some (prk, sk)) (fuel : Nat) (hfuel : k ≤ fuel) :
    WorkerThread_loop K mode fuel r s = WorkerThread_loop K mode (fuel - k) prk sk := by
  induction k generalizing r s fuel with
  | zero =>
    simp only [WorkerThread_passes, Option.some.injEq, Prod.mk.injEq] at h
    simp [h.1, h.2]
  | succ k ih =>
    simp only [WorkerThread_passes] at h
    split at h
    · rename_i pr' s1 hm
      obtain ⟨fuel', rfl⟩ : ∃ fuel', fuel = fuel' + 1 := ⟨fuel - 1, by omega⟩
      rw [WorkerThread_loop, hm]
      simp only
      rw [ih _ _ h fuel' (by omega)]
      congr 1
      omega
    · cases h


theorem both_request_then_response (K : FlagBits)
    (a f p1 p2 p3 p4 c0 c1 a' f' b' c0' c1' : SerialChar) (ws rest : List SerialChar)
    (sf ef : Nat) (res : List Frame)
    (hf : f.data ∈ [0x01, 0x02, 0x03, 0x04, 0x05, 0x06, 0x08])
    (hf' : f'.data ∈ [0x03, 0x04, 0x17]) (hlen : ws.length = 2 * (b'.data / 2)) :
    WorkerThread_passes K .ModbusRTUBoth 2 false
        ⟨a :: f :: p1 :: p2 :: p3 :: p4 :: c0 :: c1 ::
          a' :: f' :: b' :: (ws ++ c0' :: c1' :: rest), sf, ef, res⟩
      = some (false, ⟨rest, c1'.start, c1'.stop,
          (res ++ [
          { mStartingSampleInclusive := a.start
            mEndingSampleInclusive := c1.stop
            mData1 := pack8 a.data f.data p1.data p2.data p3.data p4.data c1.data c0.data
            mData2 := 0
            mFlags :=
              if crc_mismatch (CRC [a.data, f.data, p1.data, p2.data, p3.data, p4.data])
                  c0.data c1.data
              then K.FLAG_REQUEST_FRAME ||| K.FLAG_CHECKSUM_ERROR
              else K.FLAG_REQUEST_FRAME }]) ++
          { mStartingSampleInclusive := a'.start
            mEndingSampleInclusive := b'.stop
            mData1 := pack8 a'.data f'.data 0 0 0 0 0 b'.data
            mData2 := 0
            mFlags := K.FLAG_RESPONSE_FRAME } ::
          (word_frames K ws ++ [
          { mStartingSampleInclusive := c0'.start
            mEndingSampleInclusive := c1'.stop
            mData1 := U64 ((c1'.data <<< 8) + c0'.data)
            mData2 := 0
            mFlags :=
              if crc_mismatch (CRC (a'.data :: f'.data :: b'.data :: ws.map SerialChar.data))
                  c0'.data c1'.data
              then K.FLAG_END_FRAME ||| K.FLAG_CHECKSUM_ERROR
              else K.FLAG_END_FRAME }])⟩) := by
  simp only [WorkerThread_passes,
    shapeA_rtu_request K .ModbusRTUBoth false (Or.inr ⟨rfl, rfl⟩) a f p1 p2 p3 p4 c0 c1 _ sf ef
      res hf,
    response_registers_rtu K .ModbusRTUBoth true (Or.inr ⟨rfl, rfl⟩) a' f' b' c0' c1' ws rest
      _ _ _ hf' hlen, Bool.not_false, Bool.not_true]

theorem both_response_then_request (K : FlagBits)
    (a f p1 p2 p3 p4 c0 c1 a' f' b' c0' c1' : SerialChar) (ws rest : List SerialChar)
    (sf ef : Nat) (res : List Frame)
    (hf : f.data ∈ [0x01, 0x02, 0x03, 0x04, 0x05, 0x06, 0x08])
    (hf' : f'.data ∈ [0x03, 0x04, 0x17]) (hlen : ws.length = 2 * (b'.data / 2)) :
    WorkerThread_passes K .ModbusRTUBoth 2 true
        ⟨a' :: f' :: b' :: (ws ++ c0' :: c1' ::
          a :: f :: p1 :: p2 :: p3 :: p4 :: c0 :: c1 :: rest), sf, ef, res⟩
      = some (true, ⟨rest, c1.start, c1.stop,
          (res ++
          { mStartingSampleInclusive := a'.start
            mEndingSampleInclusive := b'.stop
            mData1 := pack8 a'.data f'.data 0 0 0 0 0 b'.data
            mData2 := 0
            mFlags := K.FLAG_RESPONSE_FRAME } ::
          (word_frames K ws ++ [
          { mStartingSampleInclusive := c0'.start
            mEndingSampleInclusive := c1'.stop
            mData1 := U64 ((c1'.data <<< 8) + c0'.data)
            mData2 := 0
            mFlags :=
              if crc_mismatch (CRC (a'.data :: f'.data :: b'.data :: ws.map SerialChar.data))
                  c0'.data c1'.data
              then K.FLAG_END_FRAME ||| K.FLAG_CHECKSUM_ERROR
              else K.FLAG_END_FRAME }])) ++ [
          { mStartingSampleInclusive := a.start
            mEndingSampleInclusive := c1.stop
            mData1 := pack8 a.data f.data p1.data p2.data p3.data p4.data c1.data c0.data
            mData2 := 0
            mFlags :=
              if crc_mismatch (CRC [a.data, f.data, p1.data, p2.data, p3.data, p4.data])
                  c0.data c1.data
              then K.FLAG_REQUEST_FRAME ||| K.FLAG_CHECKSUM_ERROR
              else K.FLAG_REQUEST_FRAME }]⟩) := by
  simp only [WorkerThread_passes,
    response_registers_rtu K .ModbusRTUBoth true (Or.inr ⟨rfl, rfl⟩) a' f' b' c0' c1' ws _
      sf ef res hf' hlen,
    shapeA_rtu_request K .ModbusRTUBoth false (Or.inr ⟨rfl, rfl⟩) a f p1 p2 p3 p4 c0 c1 rest _ _
      _ hf, Bool.not_false, Bool.not_true]

/-- C8: when `k` messages have completed, message number `k` (counting from 0) is
parsed with `processingResponse = assume_starts_with_response XOR (k is odd)`,
the flag being toggled exactly once per completed message; the role tests then
select the request parser in the Client modes, the server side in the Server
modes, and in the Both modes the server side iff that flag is set. In particular
in RTU-Both, starting with the flag false, a request followed by a response are
parsed as request then response (frames built from REQUEST, then RESPONSE, DATA,
END); starting with the flag true the first message is parsed as a response and
the second as a request. -/
theorem role_alternation (K : FlagBits) (mode : Mode) (r : Bool) (k : Nat)
    (s sk : Analyzer) (prk : Bool)
    (hrun : WorkerThread_passes K mode k r s = some (prk, sk)) :
    prk = xor r (decide (k % 2 = 1))
      ∧ (∀ fuel, k ≤ fuel →
          WorkerThread_loop K mode fuel r s = WorkerThread_loop K mode (fuel - k) prk sk)
      ∧ (∀ pr pr' s0 s1, WorkerThread_message K mode pr s0 = .ret pr' s1 → pr' = !pr)
      ∧ (mode = .ModbusRTUClient ∨ mode = .ModbusASCIIClient →
          request_role mode prk ∧ ¬ response_role mode prk)
      ∧ (mode = .ModbusRTUServer ∨ mode = .ModbusASCIIServer →
          response_role mode prk ∧ ¬ request_role mode prk)
      ∧ (mode = .ModbusRTUBoth ∨ mode = .ModbusASCIIBoth →
          (response_role mode prk ↔ xor r (decide (k % 2 = 1)) = true)
            ∧ (request_role mode prk ↔ ¬ response_role mode prk))
      ∧ (∀ (a f p1 p2 p3 p4 c0 c1 a' f' b' c0' c1' : SerialChar) (ws rest : List SerialChar)
          (sf ef : Nat) (res : List Frame),
          f.data ∈ [0x01, 0x02, 0x03, 0x04, 0x05, 0x06, 0x08] →
          f'.data ∈ [0x03, 0x04, 0x17] → ws.length = 2 * (b'.data / 2) →
          ∃ req hdr en s2,
            WorkerThread_passes K .ModbusRTUBoth 2 false
                ⟨a :: f :: p1 :: p2 :: p3 :: p4 :: c0 :: c1 ::
                  a' :: f' :: b' :: (ws ++ c0' :: c1' :: rest), sf, ef, res⟩ = some (false, s2)
              ∧ s2.mModbus = rest
              ∧ s2.mResults = (res ++ [req]) ++ hdr :: (word_frames K ws ++ [en])
              ∧ (req.mFlags = K.FLAG_REQUEST_FRAME
                  ∨ req.mFlags = K.FLAG_REQUEST_FRAME ||| K.FLAG_CHECKSUM_ERROR)
              ∧ hdr.mFlags = K.FLAG_RESPONSE_FRAME
              ∧ (en.mFlags = K.FLAG_END_FRAME
                  ∨ en.mFlags = K.FLAG_END_FRAME ||| K.FLAG_CHECKSUM_ERROR))
      ∧ (∀ (a f p1 p2 p3 p4 c0 c1 a' f' b' c0' c1' : SerialChar) (ws rest : List SerialChar)
          (sf ef : Nat) (res : List Frame),
          f.data ∈ [0x01, 0x02, 0x03, 0x04, 0x05, 0x06, 0x08] →
          f'.data ∈ [0x03, 0x04, 0x17] → ws.length = 2 * (b'.data / 2) →
          ∃ req hdr en s2,
            WorkerThread_passes K .ModbusRTUBoth 2 true
                ⟨a' :: f' :: b' :: (ws ++ c0' :: c1' ::
                  a :: f :: p1 :: p2 :: p3 :: p4 :: c0 :: c1 :: rest), sf, ef, res⟩
                = some (true, s2)
              ∧ s2.mModbus = rest
              ∧ s2.mResults = (res ++ hdr :: (word_frames K ws ++ [en])) ++ [req]
              ∧ (req.mFlags = K.FLAG_REQUEST_FRAME
                  ∨ req.mFlags = K.FLAG_REQUEST_FRAME ||| K.FLAG_CHECKSUM_ERROR)
              ∧ hdr.mFlags = K.FLAG_RESPONSE_FRAME
              ∧ (en.mFlags = K.FLAG_END_FRAME
                  ∨ en.mFlags = K.FLAG_END_FRAME ||| K.FLAG_CHECKSUM_ERROR)) := by
  have hflag := WorkerThread_passes_flag K mode k r s sk prk hrun
  refine ⟨hflag, WorkerThread_loop_passes K mode k r s sk prk hrun,
    fun pr pr' s0 s1 h => WorkerThread_message_toggle K mode pr pr' s0 s1 h,
    ?_, ?_, ?_, ?_, ?_⟩
  · rintro (h | h) <;> subst h <;> simp [request_role, response_role]
  · rintro (h | h) <;> subst h <;> simp [request_role, response_role]
  · rw [← hflag]
    rintro (h | h) <;> subst h <;> cases prk <;> simp [request_role, response_role]
  · intro a f p1 p2 p3 p4 c0 c1 a' f' b' c0' c1' ws rest sf ef res hf hf' hlen
    refine ⟨_, _, _, _, both_request_then_response K a f p1 p2 p3 p4 c0 c1 a' f' b' c0' c1'
      ws rest sf ef res hf hf' hlen, rfl, rfl, ?_, rfl, ?_⟩
    · show (if _ then _ else _) = _ ∨ (if _ then _ else _) = _
      split <;> simp
    · show (if _ then _ else _) = _ ∨ (if _ then _ else _) = _
      split <;> simp
  · intro a f p1 p2 p3 p4 c0 c1 a' f' b' c0' c1' ws rest sf ef res hf hf' hlen
    refine ⟨_, _, _, _, both_response_then_request K a f p1 p2 p3 p4 c0 c1 a' f' b' c0' c1'
      ws rest sf ef res hf hf' hlen, rfl, rfl, ?_, rfl, ?_⟩
    · show (if _ then _ else _) = _ ∨ (if _ then _ else _) = _
      split <;> simp
    · show (if _ then _ else _) = _ ∨ (if _ then _ else _) = _
      split <;> simp

/-- Witness of C8: two completed messages in RTU-Both starting with the flag
false (the request `01 03 00 6B 00 03 74 17`, then the response
`01 03 00 .. ..` with byte count 0); the third message is again parsed as a
request. -/
theorem role_alternation_witness :
    ∃ s2,
      WorkerThread_passes sampleFlags .ModbusRTUBoth 2 false
          ⟨sampleWire [0x01, 0x03, 0x00, 0x6B, 0x00, 0x03, 0x74, 0x17,
            0x01, 0x03, 0x00, 0x20, 0xF0], 0, 0, []⟩ = some (false, s2)
        ∧ false = xor false (decide (2 % 2 = 1))
        ∧ request_role .ModbusRTUBoth false := by
  have h := both_request_then_response sampleFlags ⟨0x01, 10, 90⟩ ⟨0x03, 110, 190⟩
    ⟨0x00, 210, 290⟩ ⟨0x6B, 310, 390⟩ ⟨0x00, 410, 490⟩ ⟨0x03, 510, 590⟩ ⟨0x74, 610, 690⟩
    ⟨0x17, 710, 790⟩ ⟨0x01, 810, 890⟩ ⟨0x03, 910, 990⟩ ⟨0x00, 1010, 1090⟩ ⟨0x20, 1110, 1190⟩
    ⟨0xF0, 1210, 1290⟩ [] [] 0 0 [] (by decide) (by decide) (by decide)
  have hw : sampleWire [0x01, 0x03, 0x00, 0x6B, 0x00, 0x03, 0x74, 0x17,
      0x01, 0x03, 0x00, 0x20, 0xF0]
      = [⟨0x01, 10, 90⟩, ⟨0x03, 110, 190⟩, ⟨0x00, 210, 290⟩, ⟨0x6B, 310, 390⟩,
        ⟨0x00, 410, 490⟩, ⟨0x03, 510, 590⟩, ⟨0x74, 610, 690⟩, ⟨0x17, 710, 790⟩,
        ⟨0x01, 810, 890⟩, ⟨0x03, 910, 990⟩, ⟨0x00, 1010, 1090⟩, ⟨0x20, 1110, 1190⟩,
        ⟨0xF0, 1210, 1290⟩] := by decide
  rw [hw]
  have hr := role_alternation sampleFlags .ModbusRTUBoth false 2 _ _ _ h
  exact ⟨_, h, hr.1, by simp [request_role]⟩

/-! ### Multi-frame RTU requests, test vectors, unknown function codes -/

theorem data_bytes_rtu (K : FlagBits) (mode : Mode)
    (hrtu : mode = .ModbusRTUClient ∨ mode = .ModbusRTUServer ∨ mode = .ModbusRTUBoth)
    (n : Nat) (cs : List SerialChar) (hlen : cs.length = n)
    (ck : Nat) (tail : List SerialChar) (sf ef : Nat) (res : List Frame) :
    data_bytes K mode update_CRC n ck ⟨cs ++ tail, sf, ef, res⟩
      = .ret ((cs.map SerialChar.data).foldl update_CRC ck)
          ⟨tail, (after_bytes cs (sf, ef)).1, (after_bytes cs (sf, ef)).2,
            res ++ byte_frames K cs⟩ := by
  induction n generalizing cs ck sf ef res with
  | zero =>
    have : cs = [] := List.length_eq_zero.mp hlen
    subst this
    simp [data_bytes, after_bytes, byte_frames]
  | succ n ih =>
    match cs, hlen with
    | c :: cs', hlen =>
      have hlen' : cs'.length = n := by simp only [List.length_cons] at hlen; omega
      simp only [data_bytes, List.cons_append, Worker.bind_apply,
        GetNextByteModbus_rtu mode hrtu, get_starting_frame, get_ending_frame, AddFrame,
        Worker.pure_apply, ih cs' hlen', List.map_cons, List.foldl_cons, after_bytes,
        byte_frames, List.append_assoc, List.singleton_append, List.nil_append]

theorem request_write_coils_rtu (K : FlagBits) (mode : Mode) (pr : Bool)
    (hmode : mode = .ModbusRTUClient ∨ (mode = .ModbusRTUBoth ∧ pr = false))
    (a f p1 p2 p3 p4 b c0 c1 : SerialChar) (bs rest : List SerialChar)
    (sf ef : Nat) (res : List Frame)
    (hf : f.data = 0x0F) (hlen : bs.length = b.data) :
    WorkerThread_message K mode pr
        ⟨a :: f :: p1 :: p2 :: p3 :: p4 :: b :: (bs ++ c0 :: c1 :: rest), sf, ef, res⟩
      = .ret (!pr) ⟨rest, c1.start, c1.stop, res ++
          { mStartingSampleInclusive := a.start
            mEndingSampleInclusive := b.stop
            mData1 := pack8 a.data f.data p1.data p2.data p3.data p4.data 0 b.data
            mData2 := 0
            mFlags := K.FLAG_REQUEST_FRAME } ::
          (byte_frames K bs ++ [
          { mStartingSampleInclusive := c0.start
            mEndingSampleInclusive := c1.stop
            mData1 := U64 ((c1.data <<< 8) + c0.data)
            mData2 := 0
            mFlags :=
              if crc_mismatch (CRC (a.data :: f.data :: p1.data :: p2.data :: p3.data ::
                  p4.data :: b.data :: bs.map SerialChar.data)) c0.data c1.data
              then K.FLAG_END_FRAME ||| K.FLAG_CHECKSUM_ERROR
              else K.FLAG_END_FRAME }])⟩ := by
  have hrtu : mode = .ModbusRTUClient ∨ mode = .ModbusRTUServer ∨ mode = .ModbusRTUBoth := by
    rcases hmode with h | ⟨h, _⟩ <;> simp [h]
  have hdb := data_bytes_rtu K mode hrtu b.data bs hlen
  rcases hmode with h | ⟨h, hpr⟩
  · subst h
    simp [WorkerThread_message, WorkerThread_parse, request_role, response_role,
      request_switch, request_WRITE_MULTIPLE_COILS, emit_header, end_frame_CRC,
      GetNextByteModbus_rtu, get_starting_frame, get_ending_frame, AddFrame, hf, CRC,
      flag_if, hdb]
  · subst h; subst hpr
    simp [WorkerThread_message, WorkerThread_parse, request_role, response_role,
      request_switch, request_WRITE_MULTIPLE_COILS, emit_header, end_frame_CRC,
      GetNextByteModbus_rtu, get_starting_frame, get_ending_frame, AddFrame, hf, CRC,
      flag_if, hdb]

theorem request_write_registers_rtu (K : FlagBits) (mode : Mode) (pr : Bool)
    (hmode : mode = .ModbusRTUClient ∨ (mode = .ModbusRTUBoth ∧ pr = false))
    (a f p1 p2 p3 p4 b c0 c1 : SerialChar) (ws rest : List SerialChar)
    (sf ef : Nat) (res : List Frame)
    (hf : f.data = 0x10) (hlen : ws.length = 2 * (b.data / 2)) :
    WorkerThread_message K mode pr
        ⟨a :: f :: p1 :: p2 :: p3 :: p4 :: b :: (ws ++ c0 :: c1 :: rest), sf, ef, res⟩
      = .ret (!pr) ⟨rest, c1.start, c1.stop, res ++
          { mStartingSampleInclusive := a.start
            mEndingSampleInclusive := b.stop
            mData1 := pack8 a.data f.data p1.data p2.data p3.data p4.data 0 b.data
            mData2 := 0
            mFlags := K.FLAG_REQUEST_FRAME } ::
          (word_frames K ws ++ [
          { mStartingSampleInclusive := c0.start
            mEndingSampleInclusive := c1.stop
            mData1 := U64 ((c1.data <<< 8) + c0.data)
            mData2 := 0
            mFlags :=
              if crc_mismatch (CRC (a.data :: f.data :: p1.data :: p2.data :: p3.data ::
                  p4.data :: b.data :: ws.map SerialChar.data)) c0.data c1.data
              then K.FLAG_END_FRAME ||| K.FLAG_CHECKSUM_ERROR
              else K.FLAG_END_FRAME }])⟩ := by
  have hrtu : mode = .ModbusRTUClient ∨ mode = .ModbusRTUServer ∨ mode = .ModbusRTUBoth := by
    rcases hmode with h | ⟨h, _⟩ <;> simp [h]
  have hdw := data_words_rtu K mode hrtu (b.data / 2) ws hlen
  rcases hmode with h | ⟨h, hpr⟩
  · subst h
    simp [WorkerThread_message, WorkerThread_parse, request_role, response_role,
      request_switch, request_WRITE_MULTIPLE_REGISTERS, emit_header, end_frame_CRC,
      GetNextByteModbus_rtu, get_starting_frame, get_ending_frame, AddFrame, hf, CRC,
      flag_if, hdw]
  · subst h; subst hpr
    simp [WorkerThread_message, WorkerThread_parse, request_role, response_role,
      request_switch, request_WRITE_MULTIPLE_REGISTERS, emit_header, end_frame_CRC,
      GetNextByteModbus_rtu, get_starting_frame, get_ending_frame, AddFrame, hf, CRC,
      flag_if, hdw]

theorem byte_frames_length (K : FlagBits) :
    ∀ cs : List SerialChar, (byte_frames K cs).length = cs.length
  | [] => rfl
  | _ :: t => by simp only [byte_frames, List.length_cons, byte_frames_length K t]

theorem byte_frames_map (K : FlagBits) :
    ∀ cs : List SerialChar, (∀ c ∈ cs, c.data < 256) →
      (byte_frames K cs).map (fun d => (d.mFlags, d.mData1))
        = (cs.map SerialChar.data).map (fun b => (K.FLAG_DATA_FRAME, b <<< 32))
  | [], _ => rfl
  | c :: t, h => by
    have h1 : c.data < 256 := h c (by simp)
    have ht : ∀ c ∈ t, c.data < 256 := fun c hc => h c (by simp [hc])
    have hw := word_or 0 c.data (by norm_num) h1
    simp only [Nat.zero_shiftLeft, Nat.zero_or] at hw
    simp only [byte_frames, List.map_cons, byte_frames_map K t ht, Nat.zero_shiftLeft, hw]

/-- C12: in an RTU client role, for Write Multiple Coils (0x0F) and Write
Multiple Registers (0x10) requests with payload bytes `p1..p4` and byte count
`B`, the parser emits in order one REQUEST header with
`data1 = addr<<56 | func<<48 | p1<<40 | p2<<32 | p3<<24 | p4<<16 | B`, then for
0x0F exactly `B` DATA frames with `data1 = byte<<32` and for 0x10 exactly `B / 2`
DATA frames with `data1 = hi<<40 | lo<<32`, then one END frame with
`data1 = c1<<8 | c0`, flagged CHECKSUM_ERROR iff `(c0, c1)` is not the
little-endian CRC-16/Modbus of every byte of the message before the checksum. -/
theorem rtu_write_multiple_request (K : FlagBits) (mode : Mode) (pr : Bool)
    (a f p1 p2 p3 p4 B c0 c1 : Nat) (pl : List Nat)
    (cs rest : List SerialChar) (sf ef : Nat) (res : List Frame)
    (hmode : mode = .ModbusRTUClient ∨ (mode = .ModbusRTUBoth ∧ pr = false))
    (ha : a < 256) (hf : f = 0x0F ∨ f = 0x10)
    (hp1 : p1 < 256) (hp2 : p2 < 256) (hp3 : p3 < 256) (hp4 : p4 < 256) (hB : B < 256)
    (hpl : ∀ x ∈ pl, x < 256)
    (hlen : pl.length = if f = 0x0F then B else 2 * (B / 2))
    (hc0 : c0 < 256) (hc1 : c1 < 256)
    (hcs : cs.map SerialChar.data = a :: f :: p1 :: p2 :: p3 :: p4 :: B :: (pl ++ [c0, c1])) :
    ∃ hdr ds en s1,
      WorkerThread_message K mode pr ⟨cs ++ rest, sf, ef, res⟩ = .ret (!pr) s1
        ∧ s1.mModbus = rest ∧ s1.mResults = res ++ hdr :: (ds ++ [en])
        ∧ hdr.mFlags = K.FLAG_REQUEST_FRAME
        ∧ hdr.mData1 = a <<< 56 ||| f <<< 48 ||| p1 <<< 40 ||| p2 <<< 32 ||| p3 <<< 24 |||
            p4 <<< 16 ||| B
        ∧ ds.length = (if f = 0x0F then B else B / 2)
        ∧ ds.map (fun d => (d.mFlags, d.mData1))
            = (if f = 0x0F then pl.map (fun b => (K.FLAG_DATA_FRAME, b <<< 32))
               else (word_pairs pl).map
                 (fun p => (K.FLAG_DATA_FRAME, p.1 <<< 40 ||| p.2 <<< 32)))
        ∧ en.mData1 = c1 <<< 8 ||| c0
        ∧ en.mFlags =
            (if c0 ≠ crc16_modbus (a :: f :: p1 :: p2 :: p3 :: p4 :: B :: pl) % 256
                ∨ c1 ≠ crc16_modbus (a :: f :: p1 :: p2 :: p3 :: p4 :: B :: pl) / 256
              then K.FLAG_END_FRAME ||| K.FLAG_CHECKSUM_ERROR
              else K.FLAG_END_FRAME) := by
  have hf256 : f < 256 := by omega
  have hb : ∀ x ∈ a :: f :: p1 :: p2 :: p3 :: p4 :: B :: pl, x < 256 := by
    intro x hx
    simp only [List.mem_cons] at hx
    rcases hx with rfl | rfl | rfl | rfl | rfl | rfl | rfl | hx
    · exact ha
    · exact hf256
    · exact hp1
    · exact hp2
    · exact hp3
    · exact hp4
    · exact hB
    · exact hpl x hx
  rw [crc16_modbus_eq_CRC _ hb]
  have hlt := CRC_lt (a :: f :: p1 :: p2 :: p3 :: p4 :: B :: pl)
  simp only [List.map_eq_cons_iff, List.map_eq_append_iff, List.map_eq_nil_iff] at hcs
  obtain ⟨ca, _, rfl, rfl, cf, _, rfl, rfl, cp1, _, rfl, rfl, cp2, _, rfl, rfl,
    cp3, _, rfl, rfl, cp4, _, rfl, rfl, cb, _, rfl, rfl, ws, l2, rfl, rfl,
    cc0, _, rfl, rfl, cc1, _, rfl, rfl, rfl⟩ := hcs
  have hws : ∀ c ∈ ws, c.data < 256 := fun c hc => hpl c.data (List.mem_map_of_mem _ hc)
  have hwire : ca :: cf :: cp1 :: cp2 :: cp3 :: cp4 :: cb :: (ws ++ [cc0, cc1]) ++ rest
      = ca :: cf :: cp1 :: cp2 :: cp3 :: cp4 :: cb :: (ws ++ cc0 :: cc1 :: rest) := by simp
  rw [hwire]
  have hhdr : pack8 ca.data cf.data cp1.data cp2.data cp3.data cp4.data 0 cb.data
      = ca.data <<< 56 ||| cf.data <<< 48 ||| cp1.data <<< 40 ||| cp2.data <<< 32 |||
        cp3.data <<< 24 ||| cp4.data <<< 16 ||| cb.data := by
    rw [pack8_eq_or _ _ _ _ _ _ _ _ ha hf256 hp1 hp2 hp3 hp4 (by norm_num) hB]
    simp only [Nat.zero_shiftLeft, Nat.or_zero]
  rcases hf with h15 | h16
  · have hlen' : ws.length = cb.data := by simpa [h15] using hlen
    have hrun := request_write_coils_rtu K mode pr hmode ca cf cp1 cp2 cp3 cp4 cb cc0 cc1 ws
      rest sf ef res h15 hlen'
    refine ⟨_, _, _, _, hrun, rfl, rfl, rfl, hhdr, ?_, ?_, checksum_or _ _ hc1 hc0, ?_⟩
    · rw [byte_frames_length, hlen', if_pos h15]
    · rw [if_pos h15]
      exact byte_frames_map K ws hws
    · show (if _ then _ else _) = _
      simp only [crc_mismatch_iff _ _ _ hlt]
  · have hne : ¬ cf.data = 0x0F := by omega
    have hlen' : ws.length = 2 * (cb.data / 2) := by simpa [h16] using hlen
    have hrun := request_write_registers_rtu K mode pr hmode ca cf cp1 cp2 cp3 cp4 cb cc0 cc1
      ws rest sf ef res h16 hlen'
    refine ⟨_, _, _, _, hrun, rfl, rfl, rfl, hhdr, ?_, ?_, checksum_or _ _ hc1 hc0, ?_⟩
    · rw [word_frames_length, hlen', if_neg hne]
      omega
    · rw [if_neg hne]
      exact word_frames_map K ws hws
    · show (if _ then _ else _) = _
      simp only [crc_mismatch_iff _ _ _ hlt]

set_option maxRecDepth 100000 in
/-- Witness of C12: the Write Multiple Coils request `01 0F 00 13 00 0A 02 CD 01 72 CB`
gives a REQUEST header, two one-byte DATA frames and an END frame without
CHECKSUM_ERROR. -/
theorem rtu_write_multiple_request_witness :
    ∃ hdr ds en s1,
      WorkerThread_message sampleFlags .ModbusRTUClient false
          ⟨sampleWire [0x01, 0x0F, 0x00, 0x13, 0x00, 0x0A, 0x02, 0xCD, 0x01, 0x72, 0xCB] ++ [],
            0, 0, []⟩ = .ret true s1
        ∧ s1.mModbus = [] ∧ s1.mResults = [] ++ hdr :: (ds ++ [en])
        ∧ hdr.mFlags = sampleFlags.FLAG_REQUEST_FRAME
        ∧ hdr.mData1 = 0x010F0013000A0002
        ∧ ds.map (fun d => (d.mFlags, d.mData1))
            = [(sampleFlags.FLAG_DATA_FRAME, 0xCD00000000),
               (sampleFlags.FLAG_DATA_FRAME, 0x0100000000)]
        ∧ en.mData1 = 0xCB72
        ∧ en.mFlags = sampleFlags.FLAG_END_FRAME := by
  obtain ⟨hdr, ds, en, s1, h1, h2, h3, h4, h5, _, h7, h8, h9⟩ :=
    rtu_write_multiple_request sampleFlags .ModbusRTUClient false
      0x01 0x0F 0x00 0x13 0x00 0x0A 0x02 0x72 0xCB [0xCD, 0x01]
      (sampleWire [0x01, 0x0F, 0x00, 0x13, 0x00, 0x0A, 0x02, 0xCD, 0x01, 0x72, 0xCB]) [] 0 0 []
      (Or.inl rfl) (by decide) (Or.inl rfl) (by decide) (by decide) (by decide) (by decide)
      (by decide) (by decide) (by decide) (by decide) (by decide) (by decide)
  refine ⟨hdr, ds, en, s1, h1, h2, h3, h4, ?_, ?_, ?_, ?_⟩
  · rw [h5]; decide
  · rw [h7]; decide
  · rw [h8]; decide
  · rw [h9]; decide

set_option maxRecDepth 100000 in
/-- C11, counterexample: decoding `01 03 06 02 2B 00 00 00 64 AF 7B` in RTU-Server
mode emits five frames, and the last one (the END frame) carries
CHECKSUM_ERROR. -/
theorem register_vector_AF7B_flagged :
    ∃ hdr d1 d2 d3 en s1,
      WorkerThread_message sampleFlags .ModbusRTUServer false
          ⟨sampleWire [0x01, 0x03, 0x06, 0x02, 0x2B, 0x00, 0x00, 0x00, 0x64, 0xAF, 0x7B],
            0, 0, []⟩ = .ret true s1
        ∧ s1.mResults = [hdr, d1, d2, d3, en]
        ∧ en.mFlags &&& sampleFlags.FLAG_CHECKSUM_ERROR ≠ 0 := by
  have h := response_registers_rtu sampleFlags .ModbusRTUServer false (Or.inl rfl)
    ⟨0x01, 10, 90⟩ ⟨0x03, 110, 190⟩ ⟨0x06, 210, 290⟩ ⟨0xAF, 910, 990⟩ ⟨0x7B, 1010, 1090⟩
    [⟨0x02, 310, 390⟩, ⟨0x2B, 410, 490⟩, ⟨0x00, 510, 590⟩, ⟨0x00, 610, 690⟩,
      ⟨0x00, 710, 790⟩, ⟨0x64, 810, 890⟩] [] 0 0 [] (by decide) (by decide)
  have hw : sampleWire [0x01, 0x03, 0x06, 0x02, 0x2B, 0x00, 0x00, 0x00, 0x64, 0xAF, 0x7B]
      = ⟨0x01, 10, 90⟩ :: ⟨0x03, 110, 190⟩ :: ⟨0x06, 210, 290⟩ ::
        ([⟨0x02, 310, 390⟩, ⟨0x2B, 410, 490⟩, ⟨0x00, 510, 590⟩, ⟨0x00, 610, 690⟩,
          ⟨0x00, 710, 790⟩, ⟨0x64, 810, 890⟩] ++
          (⟨0xAF, 910, 990⟩ : SerialChar) :: ⟨0x7B, 1010, 1090⟩ :: []) := by decide
  rw [hw]
  exact ⟨_, _, _, _, _, _, h, rfl, by decide⟩

/-- C11 (amended): decoding the RTU bytes `01 03 06 02 2B 00 00 00 64 AF 7B` in
RTU-Server mode emits exactly five frames: a RESPONSE header with
`data1 = 0x0103000000000006`, three DATA frames carrying the words 0x022B, 0x0000
and 0x0064 (as `data1 = word<<32`), and an END frame with `data1 = 0x7BAF`; the
flags of the header are exactly RESPONSE, those of the DATA frames exactly DATA,
and the END frame carries CHECKSUM_ERROR, the CRC-16/Modbus of the first nine
bytes being 0x7A05 (checksum bytes `05 7A`). -/
theorem rtu_register_vector (K : FlagBits) (pr : Bool)
    (cs rest : List SerialChar) (sf ef : Nat) (res : List Frame)
    (hcs : cs.map SerialChar.data
      = [0x01, 0x03, 0x06, 0x02, 0x2B, 0x00, 0x00, 0x00, 0x64, 0xAF, 0x7B]) :
    ∃ hdr d1 d2 d3 en s1,
      WorkerThread_message K .ModbusRTUServer pr ⟨cs ++ rest, sf, ef, res⟩ = .ret (!pr) s1
        ∧ s1.mModbus = rest ∧ s1.mResults = res ++ [hdr, d1, d2, d3, en]
        ∧ hdr.mFlags = K.FLAG_RESPONSE_FRAME ∧ hdr.mData1 = 0x0103000000000006
        ∧ d1.mFlags = K.FLAG_DATA_FRAME ∧ d1.mData1 = 0x022B <<< 32
        ∧ d2.mFlags = K.FLAG_DATA_FRAME ∧ d2.mData1 = 0x0000 <<< 32
        ∧ d3.mFlags = K.FLAG_DATA_FRAME ∧ d3.mData1 = 0x0064 <<< 32
        ∧ en.mData1 = 0x7BAF
        ∧ en.mFlags = K.FLAG_END_FRAME ||| K.FLAG_CHECKSUM_ERROR
        ∧ crc16_modbus [0x01, 0x03, 0x06, 0x02, 0x2B, 0x00, 0x00, 0x00, 0x64] = 0x7A05 := by
  simp only [List.map_eq_cons_iff, List.map_eq_nil_iff] at hcs
  obtain ⟨ca, _, rfl, ha, cf, _, rfl, hf, cb, _, rfl, hb, w1, _, rfl, hw1, w2, _, rfl, hw2,
    w3, _, rfl, hw3, w4, _, rfl, hw4, w5, _, rfl, hw5, w6, _, rfl, hw6,
    c0, _, rfl, hc0, c1, _, rfl, hc1, rfl⟩ := hcs
  have hrun := response_registers_rtu K .ModbusRTUServer pr (Or.inl rfl) ca cf cb c0 c1
    [w1, w2, w3, w4, w5, w6] rest sf ef res (by simp [hf]) (by rw [hb]; rfl)
  have hcrc : crc_mismatch (CRC [0x01, 0x03, 0x06, 0x02, 0x2B, 0x00, 0x00, 0x00, 0x64])
      0xAF 0x7B = true := by
    set_option maxRecDepth 100000 in decide
  refine ⟨_, _, _, _, _, _, hrun, rfl, rfl, rfl, ?_, rfl, ?_, rfl, ?_, rfl, ?_, ?_, ?_, ?_⟩
  · show pack8 _ _ _ _ _ _ _ _ = _
    rw [ha, hf, hb]; decide
  · show U64 _ = _
    rw [hw1, hw2]; decide
  · show U64 _ = _
    rw [hw3, hw4]; decide
  · show U64 _ = _
    rw [hw5, hw6]; decide
  · show U64 _ = _
    rw [hc0, hc1]; decide
  · show (if _ then _ else _) = _
    simp only [List.map_cons, List.map_nil, ha, hf, hb, hw1, hw2, hw3, hw4, hw5, hw6, hc0, hc1,
      hcrc, if_true]
  · set_option maxRecDepth 100000 in decide

/-- Witness of C11 (amended): the vector on a concrete capture. -/
theorem rtu_register_vector_witness :
    ∃ hdr d1 d2 d3 en s1,
      WorkerThread_message sampleFlags .ModbusRTUServer false
          ⟨sampleWire [0x01, 0x03, 0x06, 0x02, 0x2B, 0x00, 0x00, 0x00, 0x64, 0xAF, 0x7B] ++ [],
            0, 0, []⟩ = .ret true s1
        ∧ s1.mResults = [] ++ [hdr, d1, d2, d3, en]
        ∧ en.mData1 = 0x7BAF
        ∧ en.mFlags = sampleFlags.FLAG_END_FRAME ||| sampleFlags.FLAG_CHECKSUM_ERROR := by
  obtain ⟨hdr, d1, d2, d3, en, s1, h1, _, h3, _, _, _, _, _, _, _, _, h12, h13, _⟩ :=
    rtu_register_vector sampleFlags false
      (sampleWire [0x01, 0x03, 0x06, 0x02, 0x2B, 0x00, 0x00, 0x00, 0x64, 0xAF, 0x7B]) [] 0 0 []
      (by decide)
  exact ⟨hdr, d1, d2, d3, en, s1, h1, h3, h12, h13⟩

set_option maxRecDepth 100000 in
/-- C13, counterexample: decoding `01 10 00 01 00 02 04 00 0A 01 02 C6 F0` in
RTU-Client mode emits four frames, and the last one (the END frame) carries
CHECKSUM_ERROR. -/
theorem write_registers_vector_C6F0_flagged :
    ∃ hdr d1 d2 en s1,
      WorkerThread_message sampleFlags .ModbusRTUClient false
          ⟨sampleWire [0x01, 0x10, 0x00, 0x01, 0x00, 0x02, 0x04, 0x00, 0x0A, 0x01, 0x02,
            0xC6, 0xF0], 0, 0, []⟩ = .ret true s1
        ∧ s1.mResults = [hdr, d1, d2, en]
        ∧ en.mFlags &&& sampleFlags.FLAG_CHECKSUM_ERROR ≠ 0 := by
  have h := request_write_registers_rtu sampleFlags .ModbusRTUClient false (Or.inl rfl)
    ⟨0x01, 10, 90⟩ ⟨0x10, 110, 190⟩ ⟨0x00, 210, 290⟩ ⟨0x01, 310, 390⟩ ⟨0x00, 410, 490⟩
    ⟨0x02, 510, 590⟩ ⟨0x04, 610, 690⟩ ⟨0xC6, 1110, 1190⟩ ⟨0xF0, 1210, 1290⟩
    [⟨0x00, 710, 790⟩, ⟨0x0A, 810, 890⟩, ⟨0x01, 910, 990⟩, ⟨0x02, 1010, 1090⟩] [] 0 0 []
    (by decide) (by decide)
  have hw : sampleWire [0x01, 0x10, 0x00, 0x01, 0x00, 0x02, 0x04, 0x00, 0x0A, 0x01, 0x02,
        0xC6, 0xF0]
      = ⟨0x01, 10, 90⟩ :: ⟨0x10, 110, 190⟩ :: ⟨0x00, 210, 290⟩ :: ⟨0x01, 310, 390⟩ ::
        ⟨0x00, 410, 490⟩ :: ⟨0x02, 510, 590⟩ :: ⟨0x04, 610, 690⟩ ::
        ([⟨0x00, 710, 790⟩, ⟨0x0A, 810, 890⟩, ⟨0x01, 910, 990⟩, ⟨0x02, 1010, 1090⟩] ++
          (⟨0xC6, 1110, 1190⟩ : SerialChar) :: ⟨0xF0, 1210, 1290⟩ :: []) := by decide
  rw [hw]
  exact ⟨_, _, _, _, _, h, rfl, by decide⟩

/-- C13 (amended): decoding the RTU bytes `01 10 00 01 00 02 04 00 0A 01 02 C6 F0`
in RTU-Client mode emits exactly four frames: a REQUEST header whose `data1` low
byte is 4, a DATA frame for the word 0x000A, a DATA frame for the word 0x0102,
and an END frame with `data1 = 0xF0C6`; the flags of the header are exactly
REQUEST, those of the DATA frames exactly DATA, and the END frame carries
CHECKSUM_ERROR, the CRC-16/Modbus of the first eleven bytes being 0x3092
(checksum bytes `92 30`). -/
theorem rtu_write_registers_vector (K : FlagBits) (pr : Bool)
    (cs rest : List SerialChar) (sf ef : Nat) (res : List Frame)
    (hcs : cs.map SerialChar.data
      = [0x01, 0x10, 0x00, 0x01, 0x00, 0x02, 0x04, 0x00, 0x0A, 0x01, 0x02, 0xC6, 0xF0]) :
    ∃ hdr d1 d2 en s1,
      WorkerThread_message K .ModbusRTUClient pr ⟨cs ++ rest, sf, ef, res⟩ = .ret (!pr) s1
        ∧ s1.mModbus = rest ∧ s1.mResults = res ++ [hdr, d1, d2, en]
        ∧ hdr.mFlags = K.FLAG_REQUEST_FRAME ∧ hdr.mData1 = 0x0110000100020004
        ∧ hdr.mData1 % 256 = 4
        ∧ d1.mFlags = K.FLAG_DATA_FRAME ∧ d1.mData1 = 0x000A <<< 32
        ∧ d2.mFlags = K.FLAG_DATA_FRAME ∧ d2.mData1 = 0x0102 <<< 32
        ∧ en.mData1 = 0xF0C6
        ∧ en.mFlags = K.FLAG_END_FRAME ||| K.FLAG_CHECKSUM_ERROR
        ∧ crc16_modbus [0x01, 0x10, 0x00, 0x01, 0x00, 0x02, 0x04, 0x00, 0x0A, 0x01, 0x02]
            = 0x3092 := by
  simp only [List.map_eq_cons_iff, List.map_eq_nil_iff] at hcs
  obtain ⟨ca, _, rfl, ha, cf, _, rfl, hf, cp1, _, rfl, hp1, cp2, _, rfl, hp2,
    cp3, _, rfl, hp3, cp4, _, rfl, hp4, cb, _, rfl, hb, w1, _, rfl, hw1, w2, _, rfl, hw2,
    w3, _, rfl, hw3, w4, _, rfl, hw4, c0, _, rfl, hc0, c1, _, rfl, hc1, rfl⟩ := hcs
  have hrun := request_write_registers_rtu K .ModbusRTUClient pr (Or.inl rfl) ca cf cp1 cp2
    cp3 cp4 cb c0 c1 [w1, w2, w3, w4] rest sf ef res hf (by rw [hb]; rfl)
  have hcrc : crc_mismatch
      (CRC [0x01, 0x10, 0x00, 0x01, 0x00, 0x02, 0x04, 0x00, 0x0A, 0x01, 0x02])
      0xC6 0xF0 = true := by
    set_option maxRecDepth 100000 in decide
  have hd : pack8 ca.data cf.data cp1.data cp2.data cp3.data cp4.data 0 cb.data
      = 0x0110000100020004 := by
    rw [ha, hf, hp1, hp2, hp3, hp4, hb]; decide
  refine ⟨_, _, _, _, _, hrun, rfl, rfl, rfl, hd, ?_, rfl, ?_, rfl, ?_, ?_, ?_, ?_⟩
  · show pack8 _ _ _ _ _ _ _ _ % 256 = _
    rw [hd]
  · show U64 _ = _
    rw [hw1, hw2]; decide
  · show U64 _ = _
    rw [hw3, hw4]; decide
  · show U64 _ = _
    rw [hc0, hc1]; decide
  · show (if _ then _ else _) = _
    simp only [List.map_cons, List.map_nil, ha, hf, hp1, hp2, hp3, hp4, hb, hw1, hw2, hw3, hw4,
      hc0, hc1, hcrc, if_true]
  · set_option maxRecDepth 100000 in decide

/-- Witness of C13 (amended): the vector on a concrete capture. -/
theorem rtu_write_registers_vector_witness :
    ∃ hdr d1 d2 en s1,
      WorkerThread_message sampleFlags .ModbusRTUClient false
          ⟨sampleWire [0x01, 0x10, 0x00, 0x01, 0x00, 0x02, 0x04, 0x00, 0x0A, 0x01, 0x02,
            0xC6, 0xF0] ++ [], 0, 0, []⟩ = .ret true s1
        ∧ s1.mResults = [] ++ [hdr, d1, d2, en]
        ∧ en.mData1 = 0xF0C6
        ∧ en.mFlags = sampleFlags.FLAG_END_FRAME ||| sampleFlags.FLAG_CHECKSUM_ERROR := by
  obtain ⟨hdr, d1, d2, en, s1, h1, _, h3, _, _, _, _, _, _, _, h11, h12, _⟩ :=
    rtu_write_registers_vector sampleFlags false
      (sampleWire [0x01, 0x10, 0x00, 0x01, 0x00, 0x02, 0x04, 0x00, 0x0A, 0x01, 0x02,
        0xC6, 0xF0]) [] 0 0 [] (by decide)
  exact ⟨hdr, d1, d2, en, s1, h1, h3, h11, h12⟩

theorem request_switch_unknown (K : FlagBits) (mode : Mode) (a f : Nat) (frame : Frame)
    (hf : f ∉ known_funccodes) : request_switch K mode a f frame = pure frame := by
  simp only [known_funccodes, List.mem_cons, List.mem_singleton, List.not_mem_nil, or_false,
    not_or] at hf
  obtain ⟨h1, h2, h3, h4, h5, h6, h7, h8, h9, h10, h11, h12, h13, h14, h15, h16, h17, h18⟩ := hf
  simp [request_switch, h1, h2, h3, h4, h5, h6, h7, h8, h9, h10, h11, h12, h13, h14, h15, h16,
    h17, h18]

theorem response_switch_unknown (K : FlagBits) (mode : Mode) (a f : Nat) (frame : Frame)
    (hf : f ∉ known_funccodes) : response_switch K mode a f frame = pure frame := by
  simp only [known_funccodes, List.mem_cons, List.mem_singleton, List.not_mem_nil, or_false,
    not_or] at hf
  obtain ⟨h1, h2, h3, h4, h5, h6, h7, h8, h9, h10, h11, h12, h13, h14, h15, h16, h17, h18⟩ := hf
  simp [response_switch, h1, h2, h3, h4, h5, h6, h7, h8, h9, h10, h11, h12, h13, h14, h15, h16,
    h17, h18]

theorem unknown_request_rtu (K : FlagBits) (mode : Mode) (pr : Bool)
    (hmode : mode = .ModbusRTUClient ∨ (mode = .ModbusRTUBoth ∧ pr = false))
    (a f : SerialChar) (rest : List SerialChar) (sf ef : Nat) (res : List Frame)
    (hf : f.data ∉ known_funccodes) :
    WorkerThread_message K mode pr ⟨a :: f :: rest, sf, ef, res⟩
      = .ret (!pr) ⟨rest, f.start, f.stop, res ++ [
          { mStartingSampleInclusive := a.start
            mEndingSampleInclusive := f.stop
            mData1 := 0
            mData2 := 0
            mFlags := K.FLAG_REQUEST_FRAME }]⟩ := by
  have hrtu : mode = .ModbusRTUClient ∨ mode = .ModbusRTUServer ∨ mode = .ModbusRTUBoth := by
    rcases hmode with h | ⟨h, _⟩ <;> simp [h]
  have hsw := fun fr => request_switch_unknown K mode a.data f.data fr hf
  rcases hmode with h | ⟨h, hpr⟩
  · subst h
    simp [WorkerThread_message, WorkerThread_parse, request_role, response_role, hsw,
      GetNextByteModbus_rtu, get_starting_frame, get_ending_frame, AddFrame]
  · subst h; subst hpr
    simp [WorkerThread_message, WorkerThread_parse, request_role, response_role, hsw,
      GetNextByteModbus_rtu, get_starting_frame, get_ending_frame, AddFrame]

theorem unknown_response_rtu (K : FlagBits) (mode : Mode) (pr : Bool)
    (hmode : mode = .ModbusRTUServer ∨ (mode = .ModbusRTUBoth ∧ pr = true))
    (a f : SerialChar) (rest : List SerialChar) (sf ef : Nat) (res : List Frame)
    (hbit : f.data &&& 0x80 = 0) (hf : f.data ∉ known_funccodes) :
    WorkerThread_message K mode pr ⟨a :: f :: rest, sf, ef, res⟩
      = .ret (!pr) ⟨rest, f.start, f.stop, res ++ [
          { mStartingSampleInclusive := a.start
            mEndingSampleInclusive := f.stop
            mData1 := 0
            mData2 := 0
            mFlags := K.FLAG_RESPONSE_FRAME }]⟩ := by
  have hrtu : mode = .ModbusRTUClient ∨ mode = .ModbusRTUServer ∨ mode = .ModbusRTUBoth := by
    rcases hmode with h | ⟨h, _⟩ <;> simp [h]
  have hsw := fun fr => response_switch_unknown K mode a.data f.data fr hf
  have hbit' : f.data &&& 128 = 0 := hbit
  rcases hmode with h | ⟨h, hpr⟩
  · subst h
    simp [WorkerThread_message, WorkerThread_parse, request_role, response_role, hsw,
      GetNextByteModbus_rtu, get_starting_frame, get_ending_frame, AddFrame, hbit']
  · subst h; subst hpr
    simp [WorkerThread_message, WorkerThread_parse, request_role, response_role, hsw,
      GetNextByteModbus_rtu, get_starting_frame, get_ending_frame, AddFrame, hbit']

theorem unknown_request_ascii (K : FlagBits) (mode : Mode) (pr : Bool)
    (hmode : mode = .ModbusASCIIClient ∨ (mode = .ModbusASCIIBoth ∧ pr = false))
    (c0 a1 a2 f1 f2 t1 t2 : SerialChar)
    (rest : List SerialChar) (sf ef : Nat) (res : List Frame)
    (h0 : c0.data = 0x3A)
    (ha : ¬ (a1.data = 0x3A ∨ a1.data = 0x0A ∨ a1.data = 0x0D))
    (hf : ¬ (f1.data = 0x3A ∨ f1.data = 0x0A ∨ f1.data = 0x0D))
    (ht1 : t1.data = 0x3A ∨ t1.data = 0x0A ∨ t1.data = 0x0D)
    (ht2 : t2.data = 0x3A ∨ t2.data = 0x0A ∨ t2.data = 0x0D)
    (hfc : ascii_pair f1.data f2.data ∉ known_funccodes) :
    WorkerThread_message K mode pr
        ⟨c0 :: a1 :: a2 :: f1 :: f2 :: t1 :: t2 :: rest, sf, ef, res⟩
      = .ret (!pr) ⟨rest, t2.start, f2.stop, res ++ [
          { mStartingSampleInclusive := a1.start
            mEndingSampleInclusive := f2.stop
            mData1 := 0
            mData2 := 0
            mFlags := K.FLAG_REQUEST_FRAME }]⟩ := by
  have hasc : mode = .ModbusASCIIClient ∨ mode = .ModbusASCIIServer ∨ mode = .ModbusASCIIBoth := by
    rcases hmode with h | ⟨h, _⟩ <;> simp [h]
  have hsw := fun a fr => request_switch_unknown K mode a (ascii_pair f1.data f2.data) fr hfc
  have e0 := GetNextByteModbus_ascii_delim mode hasc c0
  have ep := GetNextByteModbus_ascii_pair mode hasc
  have ed := GetNextByteModbus_ascii_delim mode hasc
  rcases hmode with h | ⟨h, hpr⟩
  · subst h
    simp [WorkerThread_message, WorkerThread_parse, request_role, response_role, hsw,
      find_start_of_frame, chars_left, get_starting_frame, get_ending_frame, AddFrame,
      e0, ep, ed, h0, ha, hf, ht1, ht2, toChar]
  · subst h; subst hpr
    simp [WorkerThread_message, WorkerThread_parse, request_role, response_role, hsw,
      find_start_of_frame, chars_left, get_starting_frame, get_ending_frame, AddFrame,
      e0, ep, ed, h0, ha, hf, ht1, ht2, toChar]

theorem unknown_response_ascii (K : FlagBits) (mode : Mode) (pr : Bool)
    (hmode : mode = .ModbusASCIIServer ∨ (mode = .ModbusASCIIBoth ∧ pr = true))
    (c0 a1 a2 f1 f2 t1 t2 : SerialChar)
    (rest : List SerialChar) (sf ef : Nat) (res : List Frame)
    (h0 : c0.data = 0x3A)
    (ha : ¬ (a1.data = 0x3A ∨ a1.data = 0x0A ∨ a1.data = 0x0D))
    (hf : ¬ (f1.data = 0x3A ∨ f1.data = 0x0A ∨ f1.data = 0x0D))
    (ht1 : t1.data = 0x3A ∨ t1.data = 0x0A ∨ t1.data = 0x0D)
    (ht2 : t2.data = 0x3A ∨ t2.data = 0x0A ∨ t2.data = 0x0D)
    (hbit : ascii_pair f1.data f2.data &&& 0x80 = 0)
    (hfc : ascii_pair f1.data f2.data ∉ known_funccodes) :
    WorkerThread_message K mode pr
        ⟨c0 :: a1 :: a2 :: f1 :: f2 :: t1 :: t2 :: rest, sf, ef, res⟩
      = .ret (!pr) ⟨rest, t2.start, f2.stop, res ++ [
          { mStartingSampleInclusive := a1.start
            mEndingSampleInclusive := f2.stop
            mData1 := 0
            mData2 := 0
            mFlags := K.FLAG_RESPONSE_FRAME }]⟩ := by
  have hasc : mode = .ModbusASCIIClient ∨ mode = .ModbusASCIIServer ∨ mode = .ModbusASCIIBoth := by
    rcases hmode with h | ⟨h, _⟩ <;> simp [h]
  have hsw := fun a fr => response_switch_unknown K mode a (ascii_pair f1.data f2.data) fr hfc
  have hbit' : ascii_pair f1.data f2.data &&& 128 = 0 := hbit
  have e0 := GetNextByteModbus_ascii_delim mode hasc c0
  have ep := GetNextByteModbus_ascii_pair mode hasc
  have ed := GetNextByteModbus_ascii_delim mode hasc
  rcases hmode with h | ⟨h, hpr⟩
  · subst h
    simp [WorkerThread_message, WorkerThread_parse, request_role, response_role, hsw,
      find_start_of_frame, chars_left, get_starting_frame, get_ending_frame, AddFrame,
      e0, ep, ed, h0, ha, hf, ht1, ht2, toChar, hbit']
  · subst h; subst hpr
    simp [WorkerThread_message, WorkerThread_parse, request_role, response_role, hsw,
      find_start_of_frame, chars_left, get_starting_frame, get_ending_frame, AddFrame,
      e0, ep, ed, h0, ha, hf, ht1, ht2, toChar, hbit']

theorem known_funccodes_eq : known_funccodes
    = [0x01, 0x02, 0x03, 0x04, 0x05, 0x06, 0x07, 0x08, 0x0B, 0x0C, 0x0F, 0x10, 0x11, 0x14,
       0x15, 0x16, 0x17, 0x18] := rfl

/-- C14: in the RTU modes, for a function code that is none of 0x01-0x08, 0x0B,
0x0C, 0x0F-0x11, 0x14-0x18 (and, in the response role, has bit 7 clear), the
decoder consumes the address and the function byte and nothing more, and emits
exactly one frame, spanning these two bytes, whose flags are exactly REQUEST in
the request role and exactly RESPONSE in the response role (hence without
CHECKSUM_ERROR when the flag bits are disjoint); the wire left to the next
message starts at the byte right after the function byte. -/
theorem rtu_unknown_function (K : FlagBits) (mode : Mode) (pr : Bool)
    (cs rest : List SerialChar) (a f : Nat) (sf ef : Nat) (res : List Frame)
    (hmode : mode = .ModbusRTUClient ∨ mode = .ModbusRTUServer ∨ mode = .ModbusRTUBoth)
    (hf : f ∉ [0x01, 0x02, 0x03, 0x04, 0x05, 0x06, 0x07, 0x08, 0x0B, 0x0C, 0x0F, 0x10, 0x11,
      0x14, 0x15, 0x16, 0x17, 0x18])
    (hbit : response_role mode pr → f &&& 0x80 = 0)
    (hcs : cs.map SerialChar.data = [a, f]) :
    ∃ ca cf fr s1,
      cs = [ca, cf]
        ∧ WorkerThread_message K mode pr ⟨cs ++ rest, sf, ef, res⟩ = .ret (!pr) s1
        ∧ s1.mModbus = rest ∧ s1.mResults = res ++ [fr]
        ∧ fr.mFlags = (if response_role mode pr then K.FLAG_RESPONSE_FRAME
            else K.FLAG_REQUEST_FRAME)
        ∧ (request_role mode pr ↔ ¬ response_role mode pr)
        ∧ (K.FLAG_REQUEST_FRAME &&& K.FLAG_CHECKSUM_ERROR = 0 →
            K.FLAG_RESPONSE_FRAME &&& K.FLAG_CHECKSUM_ERROR = 0 →
            fr.mFlags &&& K.FLAG_CHECKSUM_ERROR = 0)
        ∧ fr.mStartingSampleInclusive = ca.start
        ∧ fr.mEndingSampleInclusive = cf.stop := by
  rw [← known_funccodes_eq] at hf
  simp only [List.map_eq_cons_iff, List.map_eq_nil_iff] at hcs
  obtain ⟨ca, _, rfl, rfl, cf, _, rfl, rfl, rfl⟩ := hcs
  have hroles : request_role mode pr ↔ ¬ response_role mode pr := by
    rcases hmode with h | h | h <;> subst h <;> cases pr <;> simp [request_role, response_role]
  by_cases hr : response_role mode pr
  · have hm : mode = .ModbusRTUServer ∨ (mode = .ModbusRTUBoth ∧ pr = true) := by
      rcases hmode with h | h | h <;> subst h <;> cases pr <;>
        simp_all [request_role, response_role]
    refine ⟨ca, cf, _, _, rfl,
      unknown_response_rtu K mode pr hm ca cf rest sf ef res (hbit hr) hf, rfl, rfl, ?_,
      hroles, ?_, rfl, rfl⟩
    · rw [if_pos hr]
    · intro _ h2
      exact h2
  · have hm : mode = .ModbusRTUClient ∨ (mode = .ModbusRTUBoth ∧ pr = false) := by
      rcases hmode with h | h | h <;> subst h <;> cases pr <;>
        simp_all [request_role, response_role]
    refine ⟨ca, cf, _, _, rfl,
      unknown_request_rtu K mode pr hm ca cf rest sf ef res hf, rfl, rfl, ?_,
      hroles, ?_, rfl, rfl⟩
    · rw [if_neg hr]
    · intro h1 _
      exact h1

/-- Witness of C14: `01 41` followed by `09 09` in RTU-Client mode gives one
REQUEST frame over the first two bytes and leaves `09 09` on the wire. -/
theorem rtu_unknown_function_witness :
    ∃ fr s1,
      WorkerThread_message sampleFlags .ModbusRTUClient false
          ⟨sampleWire [0x01, 0x41] ++ [⟨0x09, 210, 290⟩, ⟨0x09, 310, 390⟩], 0, 0, []⟩
        = .ret true s1
        ∧ s1.mModbus = [⟨0x09, 210, 290⟩, ⟨0x09, 310, 390⟩] ∧ s1.mResults = [] ++ [fr]
        ∧ fr.mFlags = sampleFlags.FLAG_REQUEST_FRAME := by
  obtain ⟨_, _, fr, s1, _, h1, h2, h3, h4, _⟩ :=
    rtu_unknown_function sampleFlags .ModbusRTUClient false (sampleWire [0x01, 0x41])
      [⟨0x09, 210, 290⟩, ⟨0x09, 310, 390⟩] 0x01 0x41 0 0 [] (Or.inl rfl) (by decide)
      (by simp [response_role]) (by decide)
  refine ⟨fr, s1, h1, h2, h3, ?_⟩
  rw [h4]
  simp [response_role]

/-- C15, counterexample: for the unknown function code 0x41 from address 0x01
in RTU-Server mode, the single emitted frame has `data1 = 0` (the server side
clears it and the `default:` case leaves it), not `0x01<<56 | 0x41<<48`. -/
theorem unknown_function_data1_not_packed :
    ∃ fr s1,
      WorkerThread_message sampleFlags .ModbusRTUServer false
          ⟨sampleWire [0x01, 0x41], 0, 0, []⟩ = .ret true s1
        ∧ s1.mResults = [fr]
        ∧ fr.mData1 = 0
        ∧ fr.mData1 ≠ 0x01 <<< 56 ||| 0x41 <<< 48 := by
  have h := unknown_response_rtu sampleFlags .ModbusRTUServer false (Or.inl rfl)
    ⟨0x01, 10, 90⟩ ⟨0x41, 110, 190⟩ [] 0 0 [] (by decide) (by decide)
  have hw : sampleWire [0x01, 0x41] = [⟨0x01, 10, 90⟩, ⟨0x41, 110, 190⟩] := by decide
  rw [hw]
  exact ⟨_, _, h, rfl, rfl, by decide⟩

/-- C15 (amended): for every function code that is in neither parser table (in
the response role: with bit 7 clear), in both the request and the response role,
the single frame that is emitted does not carry the address and the function
code: its `data1` is 0 (and so is its `data2`). This holds for an RTU message
`a f` and for an ASCII message `':' a1 a2 f1 f2` followed by two delimiter
characters. -/
theorem unknown_function_data1 (K : FlagBits) (mode : Mode) (pr : Bool)
    (rest : List SerialChar) (sf ef : Nat) (res : List Frame) :
    (∀ a f : SerialChar,
        mode = .ModbusRTUClient ∨ mode = .ModbusRTUServer ∨ mode = .ModbusRTUBoth →
        f.data ∉ [0x01, 0x02, 0x03, 0x04, 0x05, 0x06, 0x07, 0x08, 0x0B, 0x0C, 0x0F, 0x10, 0x11,
          0x14, 0x15, 0x16, 0x17, 0x18] →
        (response_role mode pr → f.data &&& 0x80 = 0) →
        ∃ fr s1,
          WorkerThread_message K mode pr ⟨a :: f :: rest, sf, ef, res⟩ = .ret (!pr) s1
            ∧ s1.mModbus = rest ∧ s1.mResults = res ++ [fr]
            ∧ fr.mData1 = 0 ∧ fr.mData2 = 0)
    ∧ (∀ c0 a1 a2 f1 f2 t1 t2 : SerialChar,
        mode = .ModbusASCIIClient ∨ mode = .ModbusASCIIServer ∨ mode = .ModbusASCIIBoth →
        c0.data = 0x3A →
        ¬ (a1.data = 0x3A ∨ a1.data = 0x0A ∨ a1.data = 0x0D) →
        ¬ (f1.data = 0x3A ∨ f1.data = 0x0A ∨ f1.data = 0x0D) →
        (t1.data = 0x3A ∨ t1.data = 0x0A ∨ t1.data = 0x0D) →
        (t2.data = 0x3A ∨ t2.data = 0x0A ∨ t2.data = 0x0D) →
        ascii_pair f1.data f2.data ∉ [0x01, 0x02, 0x03, 0x04, 0x05, 0x06, 0x07, 0x08, 0x0B,
          0x0C, 0x0F, 0x10, 0x11, 0x14, 0x15, 0x16, 0x17, 0x18] →
        (response_role mode pr → ascii_pair f1.data f2.data &&& 0x80 = 0) →
        ∃ fr s1,
          WorkerThread_message K mode pr
              ⟨c0 :: a1 :: a2 :: f1 :: f2 :: t1 :: t2 :: rest, sf, ef, res⟩ = .ret (!pr) s1
            ∧ s1.mModbus = rest ∧ s1.mResults = res ++ [fr]
            ∧ fr.mData1 = 0 ∧ fr.mData2 = 0) := by
  constructor
  · intro a f hmode hf hbit
    rw [← known_funccodes_eq] at hf
    by_cases hr : response_role mode pr
    · have hm : mode = .ModbusRTUServer ∨ (mode = .ModbusRTUBoth ∧ pr = true) := by
        rcases hmode with h | h | h <;> subst h <;> cases pr <;>
          simp_all [request_role, response_role]
      exact ⟨_, _, unknown_response_rtu K mode pr hm a f rest sf ef res (hbit hr) hf,
        rfl, rfl, rfl, rfl⟩
    · have hm : mode = .ModbusRTUClient ∨ (mode = .ModbusRTUBoth ∧ pr = false) := by
        rcases hmode with h | h | h <;> subst h <;> cases pr <;>
          simp_all [request_role, response_role]
      exact ⟨_, _, unknown_request_rtu K mode pr hm a f rest sf ef res hf, rfl, rfl, rfl, rfl⟩
  · intro c0 a1 a2 f1 f2 t1 t2 hmode h0 ha hf1 ht1 ht2 hf hbit
    rw [← known_funccodes_eq] at hf
    by_cases hr : response_role mode pr
    · have hm : mode = .ModbusASCIIServer ∨ (mode = .ModbusASCIIBoth ∧ pr = true) := by
        rcases hmode with h | h | h <;> subst h <;> cases pr <;>
          simp_all [request_role, response_role]
      exact ⟨_, _, unknown_response_ascii K mode pr hm c0 a1 a2 f1 f2 t1 t2 rest sf ef res
        h0 ha hf1 ht1 ht2 (hbit hr) hf, rfl, rfl, rfl, rfl⟩
    · have hm : mode = .ModbusASCIIClient ∨ (mode = .ModbusASCIIBoth ∧ pr = false) := by
        rcases hmode with h | h | h <;> subst h <;> cases pr <;>
          simp_all [request_role, response_role]
      exact ⟨_, _, unknown_request_ascii K mode pr hm c0 a1 a2 f1 f2 t1 t2 rest sf ef res
        h0 ha hf1 ht1 ht2 hf, rfl, rfl, rfl, rfl⟩

/-- Witness of C15 (amended): the RTU response `01 41` in RTU-Server mode and the
ASCII request `:0141` CR LF in ASCII-Client mode each give one frame with
`data1 = 0`. -/
theorem unknown_function_data1_witness :
    (∃ fr s1,
      WorkerThread_message sampleFlags .ModbusRTUServer false
          ⟨[⟨0x01, 10, 90⟩, ⟨0x41, 110, 190⟩], 0, 0, []⟩ = .ret true s1
        ∧ s1.mModbus = [] ∧ s1.mResults = [] ++ [fr] ∧ fr.mData1 = 0 ∧ fr.mData2 = 0)
    ∧ (∃ fr s1,
      WorkerThread_message sampleFlags .ModbusASCIIClient false
          ⟨[⟨0x3A, 10, 90⟩, ⟨0x30, 110, 190⟩, ⟨0x31, 210, 290⟩, ⟨0x34, 310, 390⟩,
            ⟨0x31, 410, 490⟩, ⟨0x0D, 510, 590⟩, ⟨0x0A, 610, 690⟩], 0, 0, []⟩ = .ret true s1
        ∧ s1.mModbus = [] ∧ s1.mResults = [] ++ [fr] ∧ fr.mData1 = 0 ∧ fr.mData2 = 0) :=
  ⟨(unknown_function_data1 sampleFlags .ModbusRTUServer false [] 0 0 []).1
      ⟨0x01, 10, 90⟩ ⟨0x41, 110, 190⟩ (Or.inr (Or.inl rfl)) (by decide) (fun _ => by decide),
   (unknown_function_data1 sampleFlags .ModbusASCIIClient false [] 0 0 []).2
      ⟨0x3A, 10, 90⟩ ⟨0x30, 110, 190⟩ ⟨0x31, 210, 290⟩ ⟨0x34, 310, 390⟩ ⟨0x31, 410, 490⟩
      ⟨0x0D, 510, 590⟩ ⟨0x0A, 610, 690⟩ (Or.inl rfl) (by decide) (by decide) (by decide)
      (by decide) (by decide) (by decide) (fun h => by simp [response_role] at h)⟩

/-! ### ASCII byte reader and trailer -/

theorem nib_eq_hex_nibble (c : Nat) (h : c < 256) : nib c = hex_nibble c := by
  unfold nib ASCII2INT toChar hex_nibble
  split_ifs <;> omega

theorem hex_nibble_lt (c : Nat) : hex_nibble c < 16 := by
  unfold hex_nibble
  split_ifs <;> omega

theorem nibbles_or (x y : Nat) (hy : y < 16) : x * 16 + y = x <<< 4 ||| y := by
  have h := Nat.mul_add_lt_is_or (show y < 2 ^ 4 from hy) x
  rw [Nat.shiftLeft_eq, Nat.mul_comm x (2 ^ 4), ← h]
  omega

theorem hexDigit_lt (n : Nat) (h : n < 16) : hexDigit n < 256 := by
  unfold hexDigit
  split_ifs <;> omega

theorem hexDigitLower_facts (n : Nat) (h : n < 16) :
    hex_nibble (hexDigitLower n) = n
      ∧ ¬ (hexDigitLower n = 0x3A ∨ hexDigitLower n = 0x0A ∨ hexDigitLower n = 0x0D) := by
  unfold hex_nibble hexDigitLower
  split_ifs <;> omega

theorem hex_nibble_hexDigit (n : Nat) (h : n < 16) : hex_nibble (hexDigit n) = n := by
  unfold hex_nibble hexDigit
  split_ifs <;> omega

/-- C19: in the ASCII modes one logical byte read behaves as follows for all
8-bit characters `C1`, `C2`: if `C1` is 0x3A, 0x0A or 0x0D it returns `C1` and
consumes exactly one character (without touching the end sample); otherwise it
consumes exactly two characters and returns `(nib(C1) << 4) | nib(C2)`, where
`nib` is the nibble function of the specification (`hex_nibble`), which
`ASCII2INT` computes on 8-bit characters. `nib(c)` is always in 0..15 and, for
every byte `b`, reading the two uppercase (or lowercase) hex digits of `b`
returns `b`. -/
theorem ascii_logical_byte (mode : Mode) (c1 c2 : SerialChar) (w : List SerialChar)
    (sf ef : Nat) (res : List Frame)
    (hasc : mode = .ModbusASCIIClient ∨ mode = .ModbusASCIIServer ∨ mode = .ModbusASCIIBoth)
    (h1 : c1.data < 256) (h2 : c2.data < 256) :
    ((c1.data = 0x3A ∨ c1.data = 0x0A ∨ c1.data = 0x0D) →
        GetNextByteModbus mode ⟨c1 :: w, sf, ef, res⟩ = .ret c1.data ⟨w, c1.start, ef, res⟩)
      ∧ (¬ (c1.data = 0x3A ∨ c1.data = 0x0A ∨ c1.data = 0x0D) →
        GetNextByteModbus mode ⟨c1 :: c2 :: w, sf, ef, res⟩
          = .ret (hex_nibble c1.data <<< 4 ||| hex_nibble c2.data) ⟨w, c1.start, c2.stop, res⟩)
      ∧ (ASCII2INT (toChar c1.data)).toNat = hex_nibble c1.data
      ∧ hex_nibble c1.data < 16
      ∧ (∀ b, b < 256 → c1.data = hexDigit (b / 16) → c2.data = hexDigit (b % 16) →
          GetNextByteModbus mode ⟨c1 :: c2 :: w, sf, ef, res⟩ = .ret b ⟨w, c1.start, c2.stop, res⟩)
      ∧ (∀ b, b < 256 → c1.data = hexDigitLower (b / 16) → c2.data = hexDigitLower (b % 16) →
          GetNextByteModbus mode ⟨c1 :: c2 :: w, sf, ef, res⟩
            = .ret b ⟨w, c1.start, c2.stop, res⟩) := by
  have hpair : ¬ (c1.data = 0x3A ∨ c1.data = 0x0A ∨ c1.data = 0x0D) →
      GetNextByteModbus mode ⟨c1 :: c2 :: w, sf, ef, res⟩
        = .ret (hex_nibble c1.data <<< 4 ||| hex_nibble c2.data)
            ⟨w, c1.start, c2.stop, res⟩ := by
    intro hd
    rw [GetNextByteModbus_ascii_pair mode hasc c1 c2 w sf ef res hd, ascii_pair_eq,
      nib_eq_hex_nibble _ h1, nib_eq_hex_nibble _ h2, nibbles_or _ _ (hex_nibble_lt _)]
  refine ⟨GetNextByteModbus_ascii_delim mode hasc c1 w sf ef res, hpair,
    nib_eq_hex_nibble _ h1, hex_nibble_lt _, ?_, ?_⟩
  · intro b hb e1 e2
    have hd : ¬ (c1.data = 0x3A ∨ c1.data = 0x0A ∨ c1.data = 0x0D) := by
      rw [e1]; exact hexDigit_not_delim _
    rw [hpair hd, e1, e2, hex_nibble_hexDigit _ (by omega), hex_nibble_hexDigit _ (by omega),
      ← nibbles_or _ _ (by omega)]
    congr 1
    omega
  · intro b hb e1 e2
    have hd : ¬ (c1.data = 0x3A ∨ c1.data = 0x0A ∨ c1.data = 0x0D) := by
      rw [e1]; exact (hexDigitLower_facts _ (by omega)).2
    rw [hpair hd, e1, e2, (hexDigitLower_facts _ (by omega)).1,
      (hexDigitLower_facts _ (by omega)).1, ← nibbles_or _ _ (by omega)]
    congr 1
    omega

/-- Witness of C19: the characters `'4'`, `'b'` are read as the byte 0x4B. -/
theorem ascii_logical_byte_witness :
    GetNextByteModbus .ModbusASCIIClient ⟨[⟨0x34, 10, 90⟩, ⟨0x62, 110, 190⟩], 0, 0, []⟩
      = .ret 0x4B ⟨[], 10, 190, []⟩ :=
  (ascii_logical_byte .ModbusASCIIClient ⟨0x34, 10, 90⟩ ⟨0x62, 110, 190⟩ [] 0 0 []
    (Or.inl rfl) (by decide) (by decide)).2.2.2.2.2 0x4B (by decide) (by decide) (by decide)

theorem GetNextByteModbus_ascii_skip (mode : Mode)
    (hasc : mode = .ModbusASCIIClient ∨ mode = .ModbusASCIIServer ∨ mode = .ModbusASCIIBoth)
    (w : List SerialChar) (sf ef : Nat) (res : List Frame) :
    (∀ w1, skip_byte w = some w1 →
        ∃ v sf1 ef1, GetNextByteModbus mode ⟨w, sf, ef, res⟩ = .ret v ⟨w1, sf1, ef1, res⟩)
      ∧ (skip_byte w = none →
        ∃ s1, GetNextByteModbus mode ⟨w, sf, ef, res⟩ = .blocked s1 ∧ s1.mResults = res) := by
  have hm : ¬ (mode = .ModbusRTUClient ∨ mode = .ModbusRTUServer ∨ mode = .ModbusRTUBoth) := by
    rcases hasc with h | h | h <;> subst h <;> simp
  rcases w with _ | ⟨c, _ | ⟨c2, w⟩⟩
  · simp [skip_byte, GetNextByteModbus, nextChar, hm]
  · by_cases hd : c.data = 0x3A ∨ c.data = 0x0A ∨ c.data = 0x0D
    · simp [skip_byte, GetNextByteModbus, nextChar, set_starting_frame, set_ending_frame, hm, hd]
    · simp [skip_byte, GetNextByteModbus, nextChar, set_starting_frame, set_ending_frame, hm, hd]
  · by_cases hd : c.data = 0x3A ∨ c.data = 0x0A ∨ c.data = 0x0D
    · simp [skip_byte, GetNextByteModbus, nextChar, set_starting_frame, set_ending_frame, hm, hd]
    · simp [skip_byte, GetNextByteModbus, nextChar, set_starting_frame, set_ending_frame, hm, hd]

set_option maxHeartbeats 2000000 in
theorem ascii_shapeB_request_trailer (K : FlagBits) (mode : Mode) (pr : Bool)
    (hmode : mode = .ModbusASCIIClient ∨ (mode = .ModbusASCIIBoth ∧ pr = false))
    (c0 a1 a2 f1 f2 l1 l2 : SerialChar)
    (tw : List SerialChar) (sf ef : Nat) (res : List Frame)
    (h0 : c0.data = 0x3A)
    (ha : ¬ (a1.data = 0x3A ∨ a1.data = 0x0A ∨ a1.data = 0x0D))
    (hf : ¬ (f1.data = 0x3A ∨ f1.data = 0x0A ∨ f1.data = 0x0D))
    (hl : ¬ (l1.data = 0x3A ∨ l1.data = 0x0A ∨ l1.data = 0x0D))
    (hfc : ascii_pair f1.data f2.data ∈ [0x07, 0x0B, 0x0C, 0x11]) :
    WorkerThread_message K mode pr
        ⟨c0 :: a1 :: a2 :: f1 :: f2 :: l1 :: l2 :: tw, sf, ef, res⟩
      = trailer_commit mode pr
          { mStartingSampleInclusive := a1.start
            mEndingSampleInclusive := 0
            mData1 := pack8 (ascii_pair a1.data a2.data) (ascii_pair f1.data f2.data)
              0 0 0 0 0 (ascii_pair l1.data l2.data)
            mData2 := 0
            mFlags :=
              if LRC [ascii_pair a1.data a2.data, ascii_pair f1.data f2.data]
                  ≠ ascii_pair l1.data l2.data
              then K.FLAG_REQUEST_FRAME ||| K.FLAG_CHECKSUM_ERROR
              else K.FLAG_REQUEST_FRAME }
          ⟨tw, l1.start, l2.stop, res⟩ := by
  have hasc : mode = .ModbusASCIIClient ∨ mode = .ModbusASCIIServer ∨ mode = .ModbusASCIIBoth := by
    rcases hmode with h | ⟨h, _⟩ <;> simp [h]
  have hfc' : ascii_pair f1.data f2.data = 7 ∨ ascii_pair f1.data f2.data = 11 ∨
      ascii_pair f1.data f2.data = 12 ∨ ascii_pair f1.data f2.data = 17 := by simpa using hfc
  have e0 := GetNextByteModbus_ascii_delim mode hasc c0
  have ep := GetNextByteModbus_ascii_pair mode hasc
  unfold trailer_commit
  rcases hmode with h | ⟨h, hpr⟩
  · subst h
    cases h1 : GetNextByteModbus .ModbusASCIIClient ⟨tw, l1.start, l2.stop, res⟩ with
    | blocked s1 =>
      rcases hfc' with h' | h' | h' | h' <;>
      simp [WorkerThread_message, WorkerThread_parse, request_role, response_role, request_switch,
        request_READ_EXCEPTION_STATUS, single_frame_LRC, find_start_of_frame, chars_left,
        get_starting_frame, get_ending_frame, AddFrame, h', LRC, flag_if,
        e0, ep, h0, ha, hf, hl, toChar, h1]
    | ret v1 s1 =>
      obtain ⟨w1, sf1, ef1, r1⟩ := s1
      cases h2 : GetNextByteModbus .ModbusASCIIClient ⟨w1, sf1, ef1, r1⟩ with
      | blocked s2 =>
        rcases hfc' with h' | h' | h' | h' <;>
        simp [WorkerThread_message, WorkerThread_parse, request_role, response_role, request_switch,
        request_READ_EXCEPTION_STATUS, single_frame_LRC, find_start_of_frame, chars_left,
        get_starting_frame, get_ending_frame, AddFrame, h', LRC, flag_if,
        e0, ep, h0, ha, hf, hl, toChar, h1, h2]
      | ret v2 s2 =>
        obtain ⟨w2, sf2, ef2, r2⟩ := s2
        rcases hfc' with h' | h' | h' | h' <;>
        simp [WorkerThread_message, WorkerThread_parse, request_role, response_role, request_switch,
        request_READ_EXCEPTION_STATUS, single_frame_LRC, find_start_of_frame, chars_left,
        get_starting_frame, get_ending_frame, AddFrame, h', LRC, flag_if,
        e0, ep, h0, ha, hf, hl, toChar, h1, h2]
  · subst h; subst hpr
    cases h1 : GetNextByteModbus .ModbusASCIIBoth ⟨tw, l1.start, l2.stop, res⟩ with
    | blocked s1 =>
      rcases hfc' with h' | h' | h' | h' <;>
      simp [WorkerThread_message, WorkerThread_parse, request_role, response_role, request_switch,
        request_READ_EXCEPTION_STATUS, single_frame_LRC, find_start_of_frame, chars_left,
        get_starting_frame, get_ending_frame, AddFrame, h', LRC, flag_if,
        e0, ep, h0, ha, hf, hl, toChar, h1]
    | ret v1 s1 =>
      obtain ⟨w1, sf1, ef1, r1⟩ := s1
      cases h2 : GetNextByteModbus .ModbusASCIIBoth ⟨w1, sf1, ef1, r1⟩ with
      | blocked s2 =>
        rcases hfc' with h' | h' | h' | h' <;>
        simp [WorkerThread_message, WorkerThread_parse, request_role, response_role, request_switch,
        request_READ_EXCEPTION_STATUS, single_frame_LRC, find_start_of_frame, chars_left,
        get_starting_frame, get_ending_frame, AddFrame, h', LRC, flag_if,
        e0, ep, h0, ha, hf, hl, toChar, h1, h2]
      | ret v2 s2 =>
        obtain ⟨w2, sf2, ef2, r2⟩ := s2
        rcases hfc' with h' | h' | h' | h' <;>
        simp [WorkerThread_message, WorkerThread_parse, request_role, response_role, request_switch,
        request_READ_EXCEPTION_STATUS, single_frame_LRC, find_start_of_frame, chars_left,
        get_starting_frame, get_ending_frame, AddFrame, h', LRC, flag_if,
        e0, ep, h0, ha, hf, hl, toChar, h1, h2]

set_option maxHeartbeats 2000000 in
theorem ascii_exception_trailer (K : FlagBits) (mode : Mode) (pr : Bool)
    (hmode : mode = .ModbusASCIIServer ∨ (mode = .ModbusASCIIBoth ∧ pr = true))
    (c0 a1 a2 f1 f2 e1 e2 l1 l2 : SerialChar)
    (tw : List SerialChar) (sf ef : Nat) (res : List Frame)
    (h0 : c0.data = 0x3A)
    (ha : ¬ (a1.data = 0x3A ∨ a1.data = 0x0A ∨ a1.data = 0x0D))
    (hf : ¬ (f1.data = 0x3A ∨ f1.data = 0x0A ∨ f1.data = 0x0D))
    (he : ¬ (e1.data = 0x3A ∨ e1.data = 0x0A ∨ e1.data = 0x0D))
    (hl : ¬ (l1.data = 0x3A ∨ l1.data = 0x0A ∨ l1.data = 0x0D))
    (hbit : ascii_pair f1.data f2.data &&& 0x80 ≠ 0) :
    WorkerThread_message K mode pr
        ⟨c0 :: a1 :: a2 :: f1 :: f2 :: e1 :: e2 :: l1 :: l2 :: tw, sf, ef, res⟩
      = trailer_commit mode pr
          { mStartingSampleInclusive := a1.start
            mEndingSampleInclusive := 0
            mData1 := pack8 (ascii_pair a1.data a2.data) (ascii_pair f1.data f2.data)
              0 (ascii_pair e1.data e2.data) 0 0 0 (ascii_pair l1.data l2.data)
            mData2 := 0
            mFlags :=
              if LRC [ascii_pair a1.data a2.data, ascii_pair f1.data f2.data,
                  ascii_pair e1.data e2.data] ≠ ascii_pair l1.data l2.data
              then K.FLAG_EXCEPTION_FRAME ||| K.FLAG_CHECKSUM_ERROR
              else K.FLAG_EXCEPTION_FRAME }
          ⟨tw, l1.start, l2.stop, res⟩ := by
  have hasc : mode = .ModbusASCIIClient ∨ mode = .ModbusASCIIServer ∨ mode = .ModbusASCIIBoth := by
    rcases hmode with h | ⟨h, _⟩ <;> simp [h]
  have hbit' : ¬ (ascii_pair f1.data f2.data &&& 128 = 0) := hbit
  have e0 := GetNextByteModbus_ascii_delim mode hasc c0
  have ep := GetNextByteModbus_ascii_pair mode hasc
  unfold trailer_commit
  rcases hmode with h | ⟨h, hpr⟩
  · subst h
    cases h1 : GetNextByteModbus .ModbusASCIIServer ⟨tw, l1.start, l2.stop, res⟩ with
    | blocked s1 =>
      simp [WorkerThread_message, WorkerThread_parse, request_role, response_role,
        response_exception, single_frame_LRC, find_start_of_frame, chars_left,
        get_starting_frame, get_ending_frame, AddFrame, LRC, flag_if,
        e0, ep, h0, ha, hf, he, hl, toChar, hbit', h1]
    | ret v1 s1 =>
      obtain ⟨w1, sf1, ef1, r1⟩ := s1
      cases h2 : GetNextByteModbus .ModbusASCIIServer ⟨w1, sf1, ef1, r1⟩ with
      | blocked s2 =>
        simp [WorkerThread_message, WorkerThread_parse, request_role, response_role,
        response_exception, single_frame_LRC, find_start_of_frame, chars_left,
        get_starting_frame, get_ending_frame, AddFrame, LRC, flag_if,
        e0, ep, h0, ha, hf, he, hl, toChar, hbit', h1, h2]
      | ret v2 s2 =>
        obtain ⟨w2, sf2, ef2, r2⟩ := s2
        simp [WorkerThread_message, WorkerThread_parse, request_role, response_role,
        response_exception, single_frame_LRC, find_start_of_frame, chars_left,
        get_starting_frame, get_ending_frame, AddFrame, LRC, flag_if,
        e0, ep, h0, ha, hf, he, hl, toChar, hbit', h1, h2]
  · subst h; subst hpr
    cases h1 : GetNextByteModbus .ModbusASCIIBoth ⟨tw, l1.start, l2.stop, res⟩ with
    | blocked s1 =>
      simp [WorkerThread_message, WorkerThread_parse, request_role, response_role,
        response_exception, single_frame_LRC, find_start_of_frame, chars_left,
        get_starting_frame, get_ending_frame, AddFrame, LRC, flag_if,
        e0, ep, h0, ha, hf, he, hl, toChar, hbit', h1]
    | ret v1 s1 =>
      obtain ⟨w1, sf1, ef1, r1⟩ := s1
      cases h2 : GetNextByteModbus .ModbusASCIIBoth ⟨w1, sf1, ef1, r1⟩ with
      | blocked s2 =>
        simp [WorkerThread_message, WorkerThread_parse, request_role, response_role,
        response_exception, single_frame_LRC, find_start_of_frame, chars_left,
        get_starting_frame, get_ending_frame, AddFrame, LRC, flag_if,
        e0, ep, h0, ha, hf, he, hl, toChar, hbit', h1, h2]
      | ret v2 s2 =>
        obtain ⟨w2, sf2, ef2, r2⟩ := s2
        simp [WorkerThread_message, WorkerThread_parse, request_role, response_role,
        response_exception, single_frame_LRC, find_start_of_frame, chars_left,
        get_starting_frame, get_ending_frame, AddFrame, LRC, flag_if,
        e0, ep, h0, ha, hf, he, hl, toChar, hbit', h1, h2]

theorem trailer_commit_spec (mode : Mode) (pr : Bool) (frame : Frame)
    (hasc : mode = .ModbusASCIIClient ∨ mode = .ModbusASCIIServer ∨ mode = .ModbusASCIIBoth)
    (tw : List SerialChar) (sf ef : Nat) (res : List Frame) :
    (∀ rest, trailer_rest tw = some rest →
        ∃ sf2 ef2, trailer_commit mode pr frame ⟨tw, sf, ef, res⟩
          = .ret (!pr) ⟨rest, sf2, ef2,
              res ++ [{ frame with mEndingSampleInclusive := ef2 }]⟩)
      ∧ (trailer_rest tw = none →
        ∃ s1, trailer_commit mode pr frame ⟨tw, sf, ef, res⟩ = .blocked s1
          ∧ s1.mResults = res) := by
  have hs := GetNextByteModbus_ascii_skip mode hasc
  unfold trailer_rest trailer_commit
  cases h1 : skip_byte tw with
  | none =>
    obtain ⟨s1, e1, r1⟩ := (hs tw sf ef res).2 h1
    constructor
    · intro rest hr
      simp at hr
    · intro _
      exact ⟨s1, by rw [e1], r1⟩
  | some w1 =>
    obtain ⟨v1, sf1, ef1, e1⟩ := (hs tw sf ef res).1 w1 h1
    cases h2 : skip_byte w1 with
    | none =>
      obtain ⟨s2, e2, r2⟩ := (hs w1 sf1 ef1 res).2 h2
      constructor
      · intro rest hr
        simp [h2] at hr
      · intro _
        exact ⟨s2, by rw [e1]; simp only; rw [e2], r2⟩
    | some w2 =>
      obtain ⟨v2, sf2, ef2, e2⟩ := (hs w1 sf1 ef1 res).1 w2 h2
      constructor
      · intro rest hr
        simp [h2] at hr
        subst hr
        exact ⟨sf2, ef2, by rw [e1]; simp only; rw [e2]⟩
      · intro hn
        simp [h2] at hn

/-- C20, counterexample: in ASCII-Client mode the request `:0107F8` followed by
the characters `A B C D X` is committed after four trailer characters have been
consumed (`A B` and `C D` are read as two hex pairs): only `X` is left on the
wire, not `C D X`. -/
theorem ascii_trailer_four_characters :
    ∃ s1,
      WorkerThread_message sampleFlags .ModbusASCIIClient false
          ⟨[⟨0x3A, 10, 90⟩, ⟨0x30, 110, 190⟩, ⟨0x31, 210, 290⟩, ⟨0x30, 310, 390⟩,
            ⟨0x37, 410, 490⟩, ⟨0x46, 510, 590⟩, ⟨0x38, 610, 690⟩,
            ⟨0x41, 710, 790⟩, ⟨0x42, 810, 890⟩, ⟨0x43, 910, 990⟩, ⟨0x44, 1010, 1090⟩,
            ⟨0x58, 1110, 1190⟩], 0, 0, []⟩ = .ret true s1
        ∧ s1.mModbus = [⟨0x58, 1110, 1190⟩]
        ∧ s1.mModbus ≠ [⟨0x43, 910, 990⟩, ⟨0x44, 1010, 1090⟩, ⟨0x58, 1110, 1190⟩] := by
  have h := ascii_shapeB_request_trailer sampleFlags .ModbusASCIIClient false (Or.inl rfl)
    ⟨0x3A, 10, 90⟩ ⟨0x30, 110, 190⟩ ⟨0x31, 210, 290⟩ ⟨0x30, 310, 390⟩ ⟨0x37, 410, 490⟩
    ⟨0x46, 510, 590⟩ ⟨0x38, 610, 690⟩
    [⟨0x41, 710, 790⟩, ⟨0x42, 810, 890⟩, ⟨0x43, 910, 990⟩, ⟨0x44, 1010, 1090⟩,
      ⟨0x58, 1110, 1190⟩] 0 0 [] (by decide) (by decide) (by decide) (by decide) (by decide)
  obtain ⟨sf2, ef2, h2⟩ := (trailer_commit_spec .ModbusASCIIClient false _ (Or.inl rfl)
    [⟨0x41, 710, 790⟩, ⟨0x42, 810, 890⟩, ⟨0x43, 910, 990⟩, ⟨0x44, 1010, 1090⟩,
      ⟨0x58, 1110, 1190⟩] 510 690 []).1 [⟨0x58, 1110, 1190⟩] (by decide)
  rw [h2] at h
  refine ⟨_, h, rfl, ?_⟩
  show ([⟨0x58, 1110, 1190⟩] : List SerialChar) ≠ _
  decide

/-- C20 (amended): in every ASCII mode, after the parser of a message has
returned, the dispatcher performs exactly two more logical byte reads as the
trailer, whatever the values read, before committing the terminal frame; each
read consumes one character when that character is `':'`, CR or LF and two
characters otherwise, so the trailer takes two characters when both are
delimiters (the expected CR LF) and three or four otherwise. Stated for a
request without payload in the client role and for an exception response in the
server role, with an arbitrary wire `tw` after the checksum: when `tw` holds
the two reads the pass returns with the wire `trailer_rest tw` and commits its
one frame, whose flags and `data1` do not depend on `tw`; otherwise the pass is
left waiting and has committed nothing. -/
theorem ascii_trailer_reads (K : FlagBits) (mode : Mode) (pr : Bool)
    (c0 a1 a2 f1 f2 e1 e2 l1 l2 : SerialChar)
    (tw : List SerialChar) (sf ef : Nat) (res : List Frame)
    (hasc : mode = .ModbusASCIIClient ∨ mode = .ModbusASCIIServer ∨ mode = .ModbusASCIIBoth)
    (h0 : c0.data = 0x3A)
    (ha : ¬ (a1.data = 0x3A ∨ a1.data = 0x0A ∨ a1.data = 0x0D))
    (hf : ¬ (f1.data = 0x3A ∨ f1.data = 0x0A ∨ f1.data = 0x0D))
    (he : ¬ (e1.data = 0x3A ∨ e1.data = 0x0A ∨ e1.data = 0x0D))
    (hl : ¬ (l1.data = 0x3A ∨ l1.data = 0x0A ∨ l1.data = 0x0D)) :
    (request_role mode pr → ascii_pair f1.data f2.data ∈ [0x07, 0x0B, 0x0C, 0x11] →
      (∀ rest, trailer_rest tw = some rest →
        ∃ fr s1,
          WorkerThread_message K mode pr
              ⟨c0 :: a1 :: a2 :: f1 :: f2 :: l1 :: l2 :: tw, sf, ef, res⟩ = .ret (!pr) s1
            ∧ s1.mModbus = rest ∧ s1.mResults = res ++ [fr]
            ∧ fr.mData1 = pack8 (ascii_pair a1.data a2.data) (ascii_pair f1.data f2.data)
                0 0 0 0 0 (ascii_pair l1.data l2.data)
            ∧ fr.mFlags =
                (if LRC [ascii_pair a1.data a2.data, ascii_pair f1.data f2.data]
                    ≠ ascii_pair l1.data l2.data
                  then K.FLAG_REQUEST_FRAME ||| K.FLAG_CHECKSUM_ERROR
                  else K.FLAG_REQUEST_FRAME))
      ∧ (trailer_rest tw = none →
        ∃ s1,
          WorkerThread_message K mode pr
              ⟨c0 :: a1 :: a2 :: f1 :: f2 :: l1 :: l2 :: tw, sf, ef, res⟩ = .blocked s1
            ∧ s1.mResults = res))
    ∧ (response_role mode pr → ascii_pair f1.data f2.data &&& 0x80 ≠ 0 →
      (∀ rest, trailer_rest tw = some rest →
        ∃ fr s1,
          WorkerThread_message K mode pr
              ⟨c0 :: a1 :: a2 :: f1 :: f2 :: e1 :: e2 :: l1 :: l2 :: tw, sf, ef, res⟩
              = .ret (!pr) s1
            ∧ s1.mModbus = rest ∧ s1.mResults = res ++ [fr]
            ∧ fr.mData1 = pack8 (ascii_pair a1.data a2.data) (ascii_pair f1.data f2.data)
                0 (ascii_pair e1.data e2.data) 0 0 0 (ascii_pair l1.data l2.data)
            ∧ fr.mFlags =
                (if LRC [ascii_pair a1.data a2.data, ascii_pair f1.data f2.data,
                    ascii_pair e1.data e2.data] ≠ ascii_pair l1.data l2.data
                  then K.FLAG_EXCEPTION_FRAME ||| K.FLAG_CHECKSUM_ERROR
                  else K.FLAG_EXCEPTION_FRAME))
      ∧ (trailer_rest tw = none →
        ∃ s1,
          WorkerThread_message K mode pr
              ⟨c0 :: a1 :: a2 :: f1 :: f2 :: e1 :: e2 :: l1 :: l2 :: tw, sf, ef, res⟩
              = .blocked s1
            ∧ s1.mResults = res))
    ∧ (∀ (t1 t2 t3 t4 : SerialChar) (rest : List SerialChar),
        ((t1.data = 0x3A ∨ t1.data = 0x0A ∨ t1.data = 0x0D) →
          (t2.data = 0x3A ∨ t2.data = 0x0A ∨ t2.data = 0x0D) →
          trailer_rest (t1 :: t2 :: rest) = some rest)
        ∧ ((t1.data = 0x3A ∨ t1.data = 0x0A ∨ t1.data = 0x0D) →
          ¬ (t2.data = 0x3A ∨ t2.data = 0x0A ∨ t2.data = 0x0D) →
          trailer_rest (t1 :: t2 :: t3 :: rest) = some rest)
        ∧ (¬ (t1.data = 0x3A ∨ t1.data = 0x0A ∨ t1.data = 0x0D) →
          (t3.data = 0x3A ∨ t3.data = 0x0A ∨ t3.data = 0x0D) →
          trailer_rest (t1 :: t2 :: t3 :: rest) = some rest)
        ∧ (¬ (t1.data = 0x3A ∨ t1.data = 0x0A ∨ t1.data = 0x0D) →
          ¬ (t3.data = 0x3A ∨ t3.data = 0x0A ∨ t3.data = 0x0D) →
          trailer_rest (t1 :: t2 :: t3 :: t4 :: rest) = some rest)) := by
  refine ⟨?_, ?_, ?_⟩
  · intro hrole hfc
    have hm : mode = .ModbusASCIIClient ∨ (mode = .ModbusASCIIBoth ∧ pr = false) := by
      rcases hasc with h | h | h <;> subst h <;> cases pr <;>
        simp_all [request_role]
    have hrun := ascii_shapeB_request_trailer K mode pr hm c0 a1 a2 f1 f2 l1 l2 tw sf ef res
      h0 ha hf hl hfc
    have hsp := trailer_commit_spec mode pr
      { mStartingSampleInclusive := a1.start
        mEndingSampleInclusive := 0
        mData1 := pack8 (ascii_pair a1.data a2.data) (ascii_pair f1.data f2.data)
          0 0 0 0 0 (ascii_pair l1.data l2.data)
        mData2 := 0
        mFlags :=
          if LRC [ascii_pair a1.data a2.data, ascii_pair f1.data f2.data]
              ≠ ascii_pair l1.data l2.data
          then K.FLAG_REQUEST_FRAME ||| K.FLAG_CHECKSUM_ERROR
          else K.FLAG_REQUEST_FRAME } hasc tw l1.start l2.stop res
    constructor
    · intro rest hr
      obtain ⟨sf2, ef2, h2⟩ := hsp.1 rest hr
      exact ⟨_, _, hrun.trans h2, rfl, rfl, rfl, rfl⟩
    · intro hn
      obtain ⟨s1, h2, hres⟩ := hsp.2 hn
      exact ⟨s1, hrun.trans h2, hres⟩
  · intro hrole hbit
    have hm : mode = .ModbusASCIIServer ∨ (mode = .ModbusASCIIBoth ∧ pr = true) := by
      rcases hasc with h | h | h <;> subst h <;> cases pr <;>
        simp_all [response_role]
    have hrun := ascii_exception_trailer K mode pr hm c0 a1 a2 f1 f2 e1 e2 l1 l2 tw sf ef res
      h0 ha hf he hl hbit
    have hsp := trailer_commit_spec mode pr
      { mStartingSampleInclusive := a1.start
        mEndingSampleInclusive := 0
        mData1 := pack8 (ascii_pair a1.data a2.data) (ascii_pair f1.data f2.data)
          0 (ascii_pair e1.data e2.data) 0 0 0 (ascii_pair l1.data l2.data)
        mData2 := 0
        mFlags :=
          if LRC [ascii_pair a1.data a2.data, ascii_pair f1.data f2.data,
              ascii_pair e1.data e2.data] ≠ ascii_pair l1.data l2.data
          then K.FLAG_EXCEPTION_FRAME ||| K.FLAG_CHECKSUM_ERROR
          else K.FLAG_EXCEPTION_FRAME } hasc tw l1.start l2.stop res
    constructor
    · intro rest hr
      obtain ⟨sf2, ef2, h2⟩ := hsp.1 rest hr
      exact ⟨_, _, hrun.trans h2, rfl, rfl, rfl, rfl⟩
    · intro hn
      obtain ⟨s1, h2, hres⟩ := hsp.2 hn
      exact ⟨s1, hrun.trans h2, hres⟩
  · intro t1 t2 t3 t4 rest
    refine ⟨?_, ?_, ?_, ?_⟩ <;> intro h1 h2 <;> simp [trailer_rest, skip_byte, h1, h2]

/-- Witness of C20 (amended): the ASCII request `:0107F8` followed by CR LF is
committed after exactly these two characters. -/
theorem ascii_trailer_reads_witness :
    ∃ fr s1,
      WorkerThread_message sampleFlags .ModbusASCIIClient false
          ⟨[⟨0x3A, 10, 90⟩, ⟨0x30, 110, 190⟩, ⟨0x31, 210, 290⟩, ⟨0x30, 310, 390⟩,
            ⟨0x37, 410, 490⟩, ⟨0x46, 510, 590⟩, ⟨0x38, 610, 690⟩,
            ⟨0x0D, 710, 790⟩, ⟨0x0A, 810, 890⟩, ⟨0x3A, 910, 990⟩], 0, 0, []⟩ = .ret true s1
        ∧ s1.mModbus = [⟨0x3A, 910, 990⟩] ∧ s1.mResults = [] ++ [fr] := by
  obtain ⟨fr, s1, h1, h2, h3, _⟩ :=
    ((ascii_trailer_reads sampleFlags .ModbusASCIIClient false
      ⟨0x3A, 10, 90⟩ ⟨0x30, 110, 190⟩ ⟨0x31, 210, 290⟩ ⟨0x30, 310, 390⟩ ⟨0x37, 410, 490⟩
      ⟨0x30, 0, 0⟩ ⟨0x30, 0, 0⟩ ⟨0x46, 510, 590⟩ ⟨0x38, 610, 690⟩
      [⟨0x0D, 710, 790⟩, ⟨0x0A, 810, 890⟩, ⟨0x3A, 910, 990⟩] 0 0 [] (Or.inl rfl)
      (by decide) (by decide) (by decide) (by decide) (by decide)).1
        (by simp [request_role]) (by decide)).1 [⟨0x3A, 910, 990⟩] (by decide)
  exact ⟨fr, s1, h1, h2, h3⟩

/-! ### Weakest preconditions for the message parsers -/

theorem wp_bind {α β : Type} (m : Worker α) (f : α → Worker β) (Q : β → Analyzer → Prop)
    (B : Analyzer → Prop) :
    wp (m >>= f) Q B = wp m (fun a => wp (f a) Q B) B := by
  funext s
  show wp (Worker.bind m f) Q B s = _
  unfold wp Worker.bind
  cases m s <;> rfl

theorem wp_pure {α : Type} (a : α) (Q : α → Analyzer → Prop) (B : Analyzer → Prop) :
    wp (pure a : Worker α) Q B = Q a := by
  funext s
  unfold wp
  rfl

theorem wp_mono {α : Type} (m : Worker α) (Q Q' : α → Analyzer → Prop)
    (B B' : Analyzer → Prop) (s : Analyzer) (h : wp m Q B s)
    (hQ : ∀ a s1, Q a s1 → Q' a s1) (hB : ∀ s1, B s1 → B' s1) : wp m Q' B' s := by
  unfold wp at h ⊢
  cases hm : m s with
  | ret a s1 => rw [hm] at h; exact hQ a s1 h
  | blocked s1 => rw [hm] at h; exact hB s1 h

theorem wp_get_starting_frame (Q : Nat → Analyzer → Prop) (B : Analyzer → Prop) :
    wp get_starting_frame Q B = fun s => Q s.starting_frame s := by
  funext s
  unfold wp
  rfl

theorem wp_get_ending_frame (Q : Nat → Analyzer → Prop) (B : Analyzer → Prop) :
    wp get_ending_frame Q B = fun s => Q s.ending_frame s := by
  funext s
  unfold wp
  rfl

theorem GetNextByteModbus_cases (mode : Mode) (s : Analyzer) :
    (∃ v s1, GetNextByteModbus mode s = .ret v s1 ∧ s1.mResults = s.mResults)
      ∨ (∃ s1, GetNextByteModbus mode s = .blocked s1 ∧ s1.mResults = s.mResults) := by
  obtain ⟨w, sf, ef, res⟩ := s
  by_cases hm : mode = .ModbusRTUClient ∨ mode = .ModbusRTUServer ∨ mode = .ModbusRTUBoth
  · cases w <;> simp [GetNextByteModbus, nextChar, set_starting_frame, set_ending_frame, hm]
    exact ⟨_, _, ⟨rfl, rfl⟩, rfl⟩
  · rcases w with _ | ⟨c, _ | ⟨c2, w⟩⟩
    · simp [GetNextByteModbus, nextChar, set_starting_frame, set_ending_frame, hm]
    · by_cases hd : c.data = 0x3A ∨ c.data = 0x0A ∨ c.data = 0x0D <;>
        simp [GetNextByteModbus, nextChar, set_starting_frame, set_ending_frame, hm, hd] <;>
        exact ⟨_, _, ⟨rfl, rfl⟩, rfl⟩
    · by_cases hd : c.data = 0x3A ∨ c.data = 0x0A ∨ c.data = 0x0D <;>
        simp [GetNextByteModbus, nextChar, set_starting_frame, set_ending_frame, hm, hd] <;>
        exact ⟨_, _, ⟨rfl, rfl⟩, rfl⟩

theorem GetNextByteModbus_results (mode : Mode) (s : Analyzer) :
    (∀ v s1, GetNextByteModbus mode s = .ret v s1 → s1.mResults = s.mResults)
      ∧ (∀ s1, GetNextByteModbus mode s = .blocked s1 → s1.mResults = s.mResults) := by
  rcases GetNextByteModbus_cases mode s with ⟨v, s1, h, hr⟩ | ⟨s1, h, hr⟩
  · constructor
    · intro v' s1' h'
      rw [h] at h'
      injection h' with _ h2
      rw [← h2]; exact hr
    · intro s1' h'
      rw [h] at h'
      cases h'
  · constructor
    · intro v' s1' h'
      rw [h] at h'
      cases h'
    · intro s1' h'
      rw [h] at h'
      injection h' with h2
      rw [← h2]; exact hr

theorem Run.results {mode : Mode} {s0 s : Analyzer} {bs : List Nat} {fs : List Frame}
    (h : Run mode s0 bs fs s) : s.mResults = s0.mResults ++ fs := by
  induction h with
  | start => simp
  | read _ hr ih => rw [(GetNextByteModbus_results mode _).1 _ _ hr, ih]
  | emit f _ ih => simp [ih]

theorem GetNextByteModbus_blocked (mode : Mode) (s s1 : Analyzer)
    (h : GetNextByteModbus mode s = .blocked s1) : s1.mModbus = [] := by
  obtain ⟨w, sf, ef, res⟩ := s
  by_cases hm : mode = .ModbusRTUClient ∨ mode = .ModbusRTUServer ∨ mode = .ModbusRTUBoth
  · cases w with
    | nil =>
      simp [GetNextByteModbus, nextChar, set_starting_frame, set_ending_frame, hm] at h
      rw [← h]
    | cons c w =>
      simp [GetNextByteModbus, nextChar, set_starting_frame, set_ending_frame, hm] at h
  · rcases w with _ | ⟨c, _ | ⟨c2, w⟩⟩
    · simp [GetNextByteModbus, nextChar, set_starting_frame, set_ending_frame, hm] at h
      rw [← h]
    · by_cases hd : c.data = 0x3A ∨ c.data = 0x0A ∨ c.data = 0x0D
      · simp [GetNextByteModbus, nextChar, set_starting_frame, set_ending_frame, hm, hd] at h
      · simp [GetNextByteModbus, nextChar, set_starting_frame, set_ending_frame, hm, hd] at h
        rw [← h]
    · by_cases hd : c.data = 0x3A ∨ c.data = 0x0A ∨ c.data = 0x0D
      · simp [GetNextByteModbus, nextChar, set_starting_frame, set_ending_frame, hm, hd] at h
      · simp [GetNextByteModbus, nextChar, set_starting_frame, set_ending_frame, hm, hd] at h

theorem wp_read {mode : Mode} {s0 s : Analyzer} {bs : List Nat} {fs : List Frame}
    {P : List Frame → Prop} {Q : Nat → Analyzer → Prop}
    (hrun : Run mode s0 bs fs s) (hP : P fs)
    (hQ : ∀ v s1, Run mode s0 (bs ++ [v]) fs s1 → Q v s1) :
    wp (GetNextByteModbus mode) Q (Waiting s0 P) s := by
  unfold wp
  cases hm : GetNextByteModbus mode s with
  | ret v s1 => exact hQ v s1 (Run.read hrun hm)
  | blocked s1 =>
    exact ⟨⟨fs, by rw [(GetNextByteModbus_results mode s).2 s1 hm, hrun.results], hP⟩,
      GetNextByteModbus_blocked mode s s1 hm⟩

theorem wp_AddFrame {mode : Mode} {s0 s : Analyzer} {bs : List Nat} {fs : List Frame}
    {B : Analyzer → Prop} {Q : Unit → Analyzer → Prop} (f : Frame)
    (hrun : Run mode s0 bs fs s)
    (hQ : ∀ df s1, df = f → Run mode s0 bs (fs ++ [df]) s1 → Q () s1) :
    wp (AddFrame f) Q B s := by
  unfold wp
  exact hQ f _ rfl (Run.emit f hrun)

theorem emitted_nil (K : FlagBits) (h : Nat) : emitted_so_far K h [] := Or.inl rfl

theorem emitted_header (K : FlagBits) (hdr : Frame) :
    emitted_so_far K hdr.mFlags ([] ++ [hdr]) :=
  Or.inr ⟨hdr, [], rfl, rfl, fun _ hm => by cases hm⟩

theorem emitted_append (K : FlagBits) (h : Nat) (hdr : Frame) (mids fs : List Frame)
    (hh : hdr.mFlags = h) (hm : ∀ m ∈ mids, is_mid K m) (hfs : ∀ m ∈ fs, is_mid K m) :
    emitted_so_far K h (hdr :: mids ++ fs) :=
  Or.inr ⟨hdr, mids ++ fs, rfl, hh, fun m hmem => by
    rcases List.mem_append.mp hmem with h1 | h1
    · exact hm m h1
    · exact hfs m h1⟩

/-! ### Building blocks -/

theorem single_frame_CRC_wp {K : FlagBits} {mode : Mode} {s0 s : Analyzer} {bs : List Nat}
    {fs : List Frame} {P : List Frame → Prop} {Q : Nat × Nat × Frame → Analyzer → Prop}
    (covered : List Nat) (frame : Frame)
    (hrun : Run mode s0 bs fs s) (hP : P fs)
    (hQ : ∀ c0 c1 s1, Run mode s0 (bs ++ [c0, c1]) fs s1 →
      Q (c0, c1, flag_if K (crc_mismatch (CRC covered) c0 c1) frame) s1) :
    wp (single_frame_CRC K mode covered frame) Q (Waiting s0 P) s := by
  simp only [single_frame_CRC, wp_bind, wp_pure]
  refine wp_read hrun hP (fun c0 s1 h1 => ?_)
  refine wp_read h1 hP (fun c1 s2 h2 => ?_)
  rw [List.append_assoc] at h2
  exact hQ c0 c1 s2 h2

theorem single_frame_LRC_wp {K : FlagBits} {mode : Mode} {s0 s : Analyzer} {bs : List Nat}
    {fs : List Frame} {P : List Frame → Prop} {Q : Nat × Nat × Frame → Analyzer → Prop}
    (covered : List Nat) (frame : Frame)
    (hrun : Run mode s0 bs fs s) (hP : P fs)
    (hQ : ∀ c0 s1, Run mode s0 (bs ++ [c0]) fs s1 →
      Q (c0, 0, flag_if K (decide (LRC covered ≠ c0)) frame) s1) :
    wp (single_frame_LRC K mode covered frame) Q (Waiting s0 P) s := by
  simp only [single_frame_LRC, wp_bind, wp_pure]
  refine wp_read hrun hP (fun c0 s1 h1 => ?_)
  exact hQ c0 s1 h1

theorem end_frame_CRC_wp {K : FlagBits} {mode : Mode} {s0 s : Analyzer} {bs : List Nat}
    {fs : List Frame} {P : List Frame → Prop} {Q : Frame → Analyzer → Prop}
    (Checksum : Nat) (frame : Frame)
    (hrun : Run mode s0 bs fs s) (hP : P fs)
    (hQ : ∀ c0 c1 s1 fr, Run mode s0 (bs ++ [c0, c1]) fs s1 →
      fr.mFlags = flagged K K.FLAG_END_FRAME (crc_mismatch Checksum c0 c1) → Q fr s1) :
    wp (end_frame_CRC K mode Checksum frame) Q (Waiting s0 P) s := by
  simp only [end_frame_CRC, wp_bind, wp_pure, wp_get_starting_frame]
  refine wp_read hrun hP (fun c0 s1 h1 => ?_)
  refine wp_read h1 hP (fun c1 s2 h2 => ?_)
  rw [List.append_assoc] at h2
  refine hQ c0 c1 s2 _ h2 ?_
  simp only [flag_if, flagged]

theorem end_frame_LRC_wp {K : FlagBits} {mode : Mode} {s0 s : Analyzer} {bs : List Nat}
    {fs : List Frame} {P : List Frame → Prop} {Q : Frame → Analyzer → Prop}
    (Checksum : Nat) (frame : Frame)
    (hrun : Run mode s0 bs fs s) (hP : P fs)
    (hQ : ∀ c0 s1 fr, Run mode s0 (bs ++ [c0]) fs s1 →
      fr.mFlags = flagged K K.FLAG_END_FRAME (decide (LRC_finish Checksum ≠ c0)) → Q fr s1) :
    wp (end_frame_LRC K mode Checksum frame) Q (Waiting s0 P) s := by
  simp only [end_frame_LRC, wp_bind, wp_pure, wp_get_starting_frame]
  refine wp_read hrun hP (fun c0 s1 h1 => ?_)
  refine hQ c0 s1 _ h1 ?_
  simp only [flag_if, flagged]

theorem emit_header_wp {mode : Mode} {s0 s : Analyzer} {bs : List Nat}
    {fs : List Frame} {B : Analyzer → Prop} {Q : Frame → Analyzer → Prop}
    (frame : Frame) (d : Nat)
    (hrun : Run mode s0 bs fs s)
    (hQ : ∀ s1 hdr, Run mode s0 bs (fs ++ [hdr]) s1 → hdr.mFlags = frame.mFlags →
      hdr.mStartingSampleInclusive = frame.mStartingSampleInclusive → Q hdr s1) :
    wp (emit_header frame d) Q B s := by
  simp only [emit_header, wp_bind, wp_pure, wp_get_ending_frame]
  refine wp_AddFrame _ hrun (fun df s1 hdf h1 => ?_)
  subst hdf
  exact hQ s1 _ h1 rfl rfl

theorem data_bytes_wp {K : FlagBits} {mode : Mode} {s0 : Analyzer} {P : List Frame → Prop}
    {Q : Nat → Analyzer → Prop} (upd : Nat → Nat → Nat) :
    ∀ (n ck : Nat) (bs : List Nat) (fs : List Frame) (s : Analyzer),
      Run mode s0 bs fs s →
      (∀ fs1, (∀ m ∈ fs1, is_mid K m) → P (fs ++ fs1)) →
      (∀ bs1 fs1 s1, Run mode s0 (bs ++ bs1) (fs ++ fs1) s1 → (∀ m ∈ fs1, is_mid K m) →
        Q (bs1.foldl upd ck) s1) →
      wp (data_bytes K mode upd n ck) Q (Waiting s0 P) s := by
  intro n
  induction n with
  | zero =>
    intro ck bs fs s hrun _ hQ
    simp only [data_bytes, wp_pure]
    have := hQ [] [] s (by simpa using hrun) (fun _ hm => by cases hm)
    simpa using this
  | succ n ih =>
    intro ck bs fs s hrun hP hQ
    simp only [data_bytes, wp_bind, wp_get_starting_frame, wp_get_ending_frame]
    refine wp_read hrun (by simpa using hP [] (fun _ hm => by cases hm)) (fun v s1 h1 => ?_)
    refine wp_AddFrame _ h1 (fun df s2 hdf h2 => ?_)
    have hmid : is_mid K df := by rw [hdf]; exact Or.inl rfl
    refine ih _ _ _ s2 h2 ?_ ?_
    · intro fs1 hm
      have := hP (df :: fs1) (fun m hmem => by
        rcases List.mem_cons.mp hmem with rfl | h'
        · exact hmid
        · exact hm m h')
      simpa using this
    · intro bs1 fs1 s3 h3 hm
      have := hQ (v :: bs1) (df :: fs1) s3 (by simpa using h3) (fun m hmem => by
        rcases List.mem_cons.mp hmem with rfl | h'
        · exact hmid
        · exact hm m h')
      simpa using this

theorem data_word_wp {K : FlagBits} {mode : Mode} {s0 s : Analyzer} {P : List Frame → Prop}
    {Q : Nat → Analyzer → Prop} (upd : Nat → Nat → Nat) (ck : Nat) {bs : List Nat}
    {fs : List Frame}
    (hrun : Run mode s0 bs fs s) (hP : P fs)
    (hQ : ∀ v1 v2 df s1, Run mode s0 (bs ++ [v1, v2]) (fs ++ [df]) s1 → is_mid K df →
      Q (upd (upd ck v1) v2) s1) :
    wp (data_word K mode upd ck) Q (Waiting s0 P) s := by
  simp only [data_word, wp_bind, wp_pure, wp_get_starting_frame, wp_get_ending_frame]
  refine wp_read hrun hP (fun v1 s1 h1 => ?_)
  refine wp_read h1 hP (fun v2 s2 h2 => ?_)
  refine wp_AddFrame _ h2 (fun df s3 hdf h3 => ?_)
  rw [List.append_assoc] at h3
  exact hQ v1 v2 df s3 h3 (by rw [hdf]; exact Or.inl rfl)

theorem data_words_wp {K : FlagBits} {mode : Mode} {s0 : Analyzer} {P : List Frame → Prop}
    {Q : Nat → Analyzer → Prop} (upd : Nat → Nat → Nat) :
    ∀ (n ck : Nat) (bs : List Nat) (fs : List Frame) (s : Analyzer),
      Run mode s0 bs fs s →
      (∀ fs1, (∀ m ∈ fs1, is_mid K m) → P (fs ++ fs1)) →
      (∀ bs1 fs1 s1, Run mode s0 (bs ++ bs1) (fs ++ fs1) s1 → (∀ m ∈ fs1, is_mid K m) →
        Q (bs1.foldl upd ck) s1) →
      wp (data_words K mode upd n ck) Q (Waiting s0 P) s := by
  intro n
  induction n with
  | zero =>
    intro ck bs fs s hrun _ hQ
    simp only [data_words, wp_pure]
    have := hQ [] [] s (by simpa using hrun) (fun _ hm => by cases hm)
    simpa using this
  | succ n ih =>
    intro ck bs fs s hrun hP hQ
    simp only [data_words, wp_bind]
    refine data_word_wp upd ck hrun (by simpa using hP [] (fun _ hm => by cases hm))
      (fun v1 v2 df s1 h1 hdf => ?_)
    refine ih _ _ _ s1 h1 ?_ ?_
    · intro fs1 hm
      have := hP (df :: fs1) (fun m hmem => by
        rcases List.mem_cons.mp hmem with rfl | h'
        · exact hdf
        · exact hm m h')
      simpa using this
    · intro bs1 fs1 s3 h3 hm
      have := hQ (v1 :: v2 :: bs1) (df :: fs1) s3 (by simpa using h3) (fun m hmem => by
        rcases List.mem_cons.mp hmem with rfl | h'
        · exact hdf
        · exact hm m h')
      simpa using this

theorem mids_nil (K : FlagBits) : ∀ m ∈ ([] : List Frame), is_mid K m :=
  fun _ hm => by cases hm

theorem mids_cons (K : FlagBits) (df : Frame) (fs : List Frame) (hdf : is_mid K df)
    (hfs : ∀ m ∈ fs, is_mid K m) : ∀ m ∈ df :: fs, is_mid K m := by
  intro m hmem
  rcases List.mem_cons.mp hmem with rfl | h'
  · exact hdf
  · exact hfs m h'

theorem mids_append (K : FlagBits) (fs1 fs2 : List Frame) (h1 : ∀ m ∈ fs1, is_mid K m)
    (h2 : ∀ m ∈ fs2, is_mid K m) : ∀ m ∈ fs1 ++ fs2, is_mid K m := by
  intro m hmem
  rcases List.mem_append.mp hmem with h | h
  · exact h1 m h
  · exact h2 m h

theorem file_subreq_wp {K : FlagBits} {mode : Mode} {s0 s : Analyzer} {P : List Frame → Prop}
    {Q : Nat × Nat × Nat → Analyzer → Prop} (upd : Nat → Nat → Nat) (ck : Nat)
    {bs : List Nat} {fs : List Frame}
    (hrun : Run mode s0 bs fs s) (hP : P fs)
    (hQ : ∀ v1 v2 v3 v4 v5 v6 v7 df s1,
      Run mode s0 (bs ++ [v1, v2, v3, v4, v5, v6, v7]) (fs ++ [df]) s1 → is_mid K df →
      Q ([v1, v2, v3, v4, v5, v6, v7].foldl upd ck, v6, v7) s1) :
    wp (file_subreq K mode upd ck) Q (Waiting s0 P) s := by
  simp only [file_subreq, wp_bind, wp_pure, wp_get_starting_frame, wp_get_ending_frame]
  refine wp_read hrun hP (fun v1 s1 h1 => ?_)
  refine wp_read h1 hP (fun v2 s2 h2 => ?_)
  refine wp_read h2 hP (fun v3 s3 h3 => ?_)
  refine wp_read h3 hP (fun v4 s4 h4 => ?_)
  refine wp_read h4 hP (fun v5 s5 h5 => ?_)
  refine wp_read h5 hP (fun v6 s6 h6 => ?_)
  refine wp_read h6 hP (fun v7 s7 h7 => ?_)
  refine wp_AddFrame _ h7 (fun df s8 hdf h8 => ?_)
  simp only [List.append_assoc, List.singleton_append, List.cons_append, List.nil_append] at h8
  exact hQ v1 v2 v3 v4 v5 v6 v7 df s8 h8 (by rw [hdf]; exact Or.inr rfl)

theorem read_file_request_loop_wp {K : FlagBits} {mode : Mode} {s0 : Analyzer}
    {P : List Frame → Prop} {Q : Nat → Analyzer → Prop} (upd : Nat → Nat → Nat) (n : Nat) :
    ∀ (fuel i ck : Nat) (bs : List Nat) (fs : List Frame) (s : Analyzer),
      Run mode s0 bs fs s →
      (∀ fs1, (∀ m ∈ fs1, is_mid K m) → P (fs ++ fs1)) →
      (∀ bs1 fs1 s1, Run mode s0 (bs ++ bs1) (fs ++ fs1) s1 → (∀ m ∈ fs1, is_mid K m) →
        Q (bs1.foldl upd ck) s1) →
      wp (read_file_request_loop K mode upd n fuel i ck) Q (Waiting s0 P) s := by
  intro fuel
  induction fuel with
  | zero =>
    intro i ck bs fs s hrun _ hQ
    simp only [read_file_request_loop, wp_pure]
    have := hQ [] [] s (by simpa using hrun) (mids_nil K)
    simpa using this
  | succ fuel ih =>
    intro i ck bs fs s hrun hP hQ
    simp only [read_file_request_loop]
    split
    · simp only [wp_bind]
      refine file_subreq_wp upd ck hrun (by simpa using hP [] (mids_nil K))
        (fun v1 v2 v3 v4 v5 v6 v7 df s1 h1 hdf => ?_)
      refine ih _ _ _ _ s1 h1 ?_ ?_
      · intro fs1 hm
        have := hP (df :: fs1) (mids_cons K df fs1 hdf hm)
        simpa using this
      · intro bs1 fs1 s2 h2 hm
        have := hQ ([v1, v2, v3, v4, v5, v6, v7] ++ bs1) (df :: fs1) s2 (by simpa using h2)
          (mids_cons K df fs1 hdf hm)
        simpa using this
    · simp only [wp_pure]
      have := hQ [] [] s (by simpa using hrun) (mids_nil K)
      simpa using this

theorem write_file_loop_wp {K : FlagBits} {mode : Mode} {s0 : Analyzer}
    {P : List Frame → Prop} {Q : Nat → Analyzer → Prop} (upd : Nat → Nat → Nat)
    (reclen : Nat → Nat → Nat) (n : Nat) :
    ∀ (fuel i ck : Nat) (bs : List Nat) (fs : List Frame) (s : Analyzer),
      Run mode s0 bs fs s →
      (∀ fs1, (∀ m ∈ fs1, is_mid K m) → P (fs ++ fs1)) →
      (∀ bs1 fs1 s1, Run mode s0 (bs ++ bs1) (fs ++ fs1) s1 → (∀ m ∈ fs1, is_mid K m) →
        Q (bs1.foldl upd ck) s1) →
      wp (write_file_loop K mode upd reclen n fuel i ck) Q (Waiting s0 P) s := by
  intro fuel
  induction fuel with
  | zero =>
    intro i ck bs fs s hrun _ hQ
    simp only [write_file_loop, wp_pure]
    have := hQ [] [] s (by simpa using hrun) (mids_nil K)
    simpa using this
  | succ fuel ih =>
    intro i ck bs fs s hrun hP hQ
    simp only [write_file_loop]
    split
    · simp only [wp_bind]
      refine file_subreq_wp upd ck hrun (by simpa using hP [] (mids_nil K))
        (fun v1 v2 v3 v4 v5 v6 v7 df s1 h1 hdf => ?_)
      have hP1 : ∀ fs1, (∀ m ∈ fs1, is_mid K m) → P ((fs ++ [df]) ++ fs1) := by
        intro fs1 hm
        have := hP (df :: fs1) (mids_cons K df fs1 hdf hm)
        simpa using this
      refine data_words_wp upd _ _ _ _ s1 h1 hP1 (fun bs1 fs1 s2 h2 hm1 => ?_)
      refine ih _ _ _ _ s2 h2 ?_ ?_
      · intro fs2 hm
        have := hP (df :: (fs1 ++ fs2)) (mids_cons K df _ hdf (mids_append K fs1 fs2 hm1 hm))
        simpa using this
      · intro bs2 fs2 s3 h3 hm
        have := hQ ([v1, v2, v3, v4, v5, v6, v7] ++ (bs1 ++ bs2)) (df :: (fs1 ++ fs2)) s3
          (by simpa using h3) (mids_cons K df _ hdf (mids_append K fs1 fs2 hm1 hm))
        simpa [List.foldl_append] using this
    · simp only [wp_pure]
      have := hQ [] [] s (by simpa using hrun) (mids_nil K)
      simpa using this

theorem read_file_response_words_wp {K : FlagBits} {mode : Mode} {s0 : Analyzer}
    {P : List Frame → Prop} {Q : Nat × Nat → Analyzer → Prop} (upd : Nat → Nat → Nat)
    (m : Nat) :
    ∀ (fuel k ck : Nat) (bs : List Nat) (fs : List Frame) (s : Analyzer),
      Run mode s0 bs fs s →
      (∀ fs1, (∀ x ∈ fs1, is_mid K x) → P (fs ++ fs1)) →
      (∀ k1 bs1 fs1 s1, Run mode s0 (bs ++ bs1) (fs ++ fs1) s1 → (∀ x ∈ fs1, is_mid K x) →
        Q (k1, bs1.foldl upd ck) s1) →
      wp (read_file_response_words K mode upd m fuel k ck) Q (Waiting s0 P) s := by
  intro fuel
  induction fuel with
  | zero =>
    intro k ck bs fs s hrun _ hQ
    simp only [read_file_response_words, wp_pure]
    have := hQ k [] [] s (by simpa using hrun) (mids_nil K)
    simpa using this
  | succ fuel ih =>
    intro k ck bs fs s hrun hP hQ
    simp only [read_file_response_words]
    split
    · simp only [wp_bind]
      refine data_word_wp upd ck hrun (by simpa using hP [] (mids_nil K))
        (fun v1 v2 df s1 h1 hdf => ?_)
      refine ih _ _ _ _ s1 h1 ?_ ?_
      · intro fs1 hm
        have := hP (df :: fs1) (mids_cons K df fs1 hdf hm)
        simpa using this
      · intro k1 bs1 fs1 s2 h2 hm
        have := hQ k1 (v1 :: v2 :: bs1) (df :: fs1) s2 (by simpa using h2)
          (mids_cons K df fs1 hdf hm)
        simpa using this
    · simp only [wp_pure]
      have := hQ k [] [] s (by simpa using hrun) (mids_nil K)
      simpa using this

theorem read_file_response_loop_wp {K : FlagBits} {mode : Mode} {s0 : Analyzer}
    {P : List Frame → Prop} {Q : Nat → Analyzer → Prop} (upd : Nat → Nat → Nat)
    (mk : Nat → Nat → Nat) (step n : Nat) :
    ∀ (fuel i ck : Nat) (bs : List Nat) (fs : List Frame) (s : Analyzer),
      Run mode s0 bs fs s →
      (∀ fs1, (∀ m ∈ fs1, is_mid K m) → P (fs ++ fs1)) →
      (∀ bs1 fs1 s1, Run mode s0 (bs ++ bs1) (fs ++ fs1) s1 → (∀ m ∈ fs1, is_mid K m) →
        Q (bs1.foldl upd ck) s1) →
      wp (read_file_response_loop K mode upd mk step n fuel i ck) Q (Waiting s0 P) s := by
  intro fuel
  induction fuel with
  | zero =>
    intro i ck bs fs s hrun _ hQ
    simp only [read_file_response_loop, wp_pure]
    have := hQ [] [] s (by simpa using hrun) (mids_nil K)
    simpa using this
  | succ fuel ih =>
    intro i ck bs fs s hrun hP hQ
    simp only [read_file_response_loop]
    split
    · simp only [wp_bind, wp_get_starting_frame, wp_get_ending_frame]
      have hP0 : P fs := by simpa using hP [] (mids_nil K)
      refine wp_read hrun hP0 (fun v1 s1 h1 => ?_)
      refine wp_read h1 hP0 (fun v2 s2 h2 => ?_)
      refine wp_AddFrame _ h2 (fun df s3 hdf h3 => ?_)
      have hmid : is_mid K df := by rw [hdf]; exact Or.inr rfl
      have hP1 : ∀ fs1, (∀ m ∈ fs1, is_mid K m) → P ((fs ++ [df]) ++ fs1) := by
        intro fs1 hm
        have := hP (df :: fs1) (mids_cons K df fs1 hmid hm)
        simpa using this
      refine read_file_response_words_wp upd _ _ _ _ _ _ s3 h3 hP1
        (fun k1 bs1 fs1 s4 h4 hm1 => ?_)
      refine ih _ _ _ _ s4 h4 ?_ ?_
      · intro fs2 hm
        have := hP (df :: (fs1 ++ fs2)) (mids_cons K df _ hmid (mids_append K fs1 fs2 hm1 hm))
        simpa using this
      · intro bs2 fs2 s5 h5 hm
        have := hQ ([v1, v2] ++ (bs1 ++ bs2)) (df :: (fs1 ++ fs2)) s5
          (by simpa using h5) (mids_cons K df _ hmid (mids_append K fs1 fs2 hm1 hm))
        simpa [List.foldl_append] using this
    · simp only [wp_pure]
      have := hQ [] [] s (by simpa using hrun) (mids_nil K)
      simpa using this

theorem request_READ_COILS_spec (K : FlagBits) (mode : Mode) (a f : Nat) (frame : Frame)
    (s0 s : Analyzer) (bs : List Nat) (hrun : Run mode s0 bs [] s) :
    wp (request_READ_COILS K mode a f frame)
      (case_post K mode (decide (mode = .ModbusRTUClient ∨ mode = .ModbusRTUBoth)) s0 bs a f frame.mFlags)
      (Waiting s0 (emitted_so_far K frame.mFlags)) s := by
  have hP := emitted_nil K frame.mFlags
  simp only [request_READ_COILS, wp_bind]
  refine wp_read hrun hP (fun v1 s1 h1 => ?_)
  refine wp_read h1 hP (fun v2 s2 h2 => ?_)
  refine wp_read h2 hP (fun v3 s3 h3 => ?_)
  refine wp_read h3 hP (fun v4 s4 h4 => ?_)
  by_cases hc : mode = .ModbusRTUClient ∨ mode = .ModbusRTUBoth
  · simp only [hc, if_true, wp_bind]
    refine single_frame_CRC_wp _ _ h4 hP (fun c0 c1 s9 h9 => ?_)
    simp only [wp_pure]
    refine ⟨[v1, v2, v3, v4], [c0, c1], [], by simpa using h9, by simp, Or.inl ⟨rfl, ?_⟩⟩
    simp [received_bad, flag_if, flagged]
  · simp only [hc, if_false, wp_bind]
    refine single_frame_LRC_wp _ _ h4 hP (fun c0 s9 h9 => ?_)
    simp only [wp_pure]
    refine ⟨[v1, v2, v3, v4], [c0], [], by simpa using h9, by simp, Or.inl ⟨rfl, ?_⟩⟩
    simp [received_bad, flag_if, flagged]

theorem request_READ_EXCEPTION_STATUS_spec (K : FlagBits) (mode : Mode) (a f : Nat) (frame : Frame)
    (s0 s : Analyzer) (bs : List Nat) (hrun : Run mode s0 bs [] s) :
    wp (request_READ_EXCEPTION_STATUS K mode a f frame)
      (case_post K mode (decide (mode = .ModbusRTUClient ∨ mode = .ModbusRTUBoth)) s0 bs a f frame.mFlags)
      (Waiting s0 (emitted_so_far K frame.mFlags)) s := by
  have hP := emitted_nil K frame.mFlags
  simp only [request_READ_EXCEPTION_STATUS, wp_bind]
  by_cases hc : mode = .ModbusRTUClient ∨ mode = .ModbusRTUBoth
  · simp only [hc, if_true, wp_bind]
    refine single_frame_CRC_wp _ _ hrun hP (fun c0 c1 s9 h9 => ?_)
    simp only [wp_pure]
    refine ⟨[], [c0, c1], [], by simpa using h9, by simp, Or.inl ⟨rfl, ?_⟩⟩
    simp [received_bad, flag_if, flagged]
  · simp only [hc, if_false, wp_bind]
    refine single_frame_LRC_wp _ _ hrun hP (fun c0 s9 h9 => ?_)
    simp only [wp_pure]
    refine ⟨[], [c0], [], by simpa using h9, by simp, Or.inl ⟨rfl, ?_⟩⟩
    simp [received_bad, flag_if, flagged]

theorem request_WRITE_MULTIPLE_COILS_spec (K : FlagBits) (mode : Mode) (a f : Nat) (frame : Frame)
    (s0 s : Analyzer) (bs : List Nat) (hrun : Run mode s0 bs [] s) :
    wp (request_WRITE_MULTIPLE_COILS K mode a f frame)
      (case_post K mode (decide (mode = .ModbusRTUClient ∨ mode = .ModbusRTUBoth)) s0 bs a f frame.mFlags)
      (Waiting s0 (emitted_so_far K frame.mFlags)) s := by
  have hP := emitted_nil K frame.mFlags
  simp only [request_WRITE_MULTIPLE_COILS, wp_bind]
  refine wp_read hrun hP (fun v1 s1 h1 => ?_)
  refine wp_read h1 hP (fun v2 s2 h2 => ?_)
  refine wp_read h2 hP (fun v3 s3 h3 => ?_)
  refine wp_read h3 hP (fun v4 s4 h4 => ?_)
  refine wp_read h4 hP (fun v5 s5 h5 => ?_)
  by_cases hc : mode = .ModbusRTUClient ∨ mode = .ModbusRTUBoth
  · simp only [hc, if_true, wp_bind]
    refine emit_header_wp _ _ h5 (fun s6 hdr h6 hh _ => ?_)
    have hP1 : ∀ fs1, (∀ m ∈ fs1, is_mid K m) →
        emitted_so_far K frame.mFlags (([] ++ [hdr]) ++ fs1) := fun fs1 hm =>
      emitted_append K _ hdr [] fs1 hh (mids_nil K) hm
    refine data_bytes_wp update_CRC _ _ _ _ s6 h6 hP1 (fun bs1 fs1 s7 h7 hm => ?_)
    refine end_frame_CRC_wp _ _ h7 (hP1 fs1 hm) (fun c0 c1 s8 fr h8 hfr => ?_)
    refine ⟨[v1, v2, v3, v4, v5] ++ bs1, [c0, c1], hdr :: fs1, by simpa using h8, by simp,
      Or.inr ⟨hdr, fs1, rfl, hh, hm, ?_⟩⟩
    rw [hfr]
    simp [received_bad, CRC, List.foldl_append]
  · simp only [hc, if_false, wp_bind]
    refine emit_header_wp _ _ h5 (fun s6 hdr h6 hh _ => ?_)
    have hP1 : ∀ fs1, (∀ m ∈ fs1, is_mid K m) →
        emitted_so_far K frame.mFlags (([] ++ [hdr]) ++ fs1) := fun fs1 hm =>
      emitted_append K _ hdr [] fs1 hh (mids_nil K) hm
    refine data_bytes_wp LRC_add _ _ _ _ s6 h6 hP1 (fun bs1 fs1 s7 h7 hm => ?_)
    refine end_frame_LRC_wp _ _ h7 (hP1 fs1 hm) (fun c0 s8 fr h8 hfr => ?_)
    refine ⟨[v1, v2, v3, v4, v5] ++ bs1, [c0], hdr :: fs1, by simpa using h8, by simp,
      Or.inr ⟨hdr, fs1, rfl, hh, hm, ?_⟩⟩
    rw [hfr]
    simp [received_bad, LRC, List.foldl_append]

theorem request_WRITE_MULTIPLE_REGISTERS_spec (K : FlagBits) (mode : Mode) (a f : Nat) (frame : Frame)
    (s0 s : Analyzer) (bs : List Nat) (hrun : Run mode s0 bs [] s) :
    wp (request_WRITE_MULTIPLE_REGISTERS K mode a f frame)
      (case_post K mode (decide (mode = .ModbusRTUClient ∨ mode = .ModbusRTUBoth)) s0 bs a f frame.mFlags)
      (Waiting s0 (emitted_so_far K frame.mFlags)) s := by
  have hP := emitted_nil K frame.mFlags
  simp only [request_WRITE_MULTIPLE_REGISTERS, wp_bind]
  refine wp_read hrun hP (fun v1 s1 h1 => ?_)
  refine wp_read h1 hP (fun v2 s2 h2 => ?_)
  refine wp_read h2 hP (fun v3 s3 h3 => ?_)
  refine wp_read h3 hP (fun v4 s4 h4 => ?_)
  refine wp_read h4 hP (fun v5 s5 h5 => ?_)
  by_cases hc : mode = .ModbusRTUClient ∨ mode = .ModbusRTUBoth
  · simp only [hc, if_true, wp_bind]
    refine emit_header_wp _ _ h5 (fun s6 hdr h6 hh _ => ?_)
    have hP1 : ∀ fs1, (∀ m ∈ fs1, is_mid K m) →
        emitted_so_far K frame.mFlags (([] ++ [hdr]) ++ fs1) := fun fs1 hm =>
      emitted_append K _ hdr [] fs1 hh (mids_nil K) hm
    refine data_words_wp update_CRC _ _ _ _ s6 h6 hP1 (fun bs1 fs1 s7 h7 hm => ?_)
    refine end_frame_CRC_wp _ _ h7 (hP1 fs1 hm) (fun c0 c1 s8 fr h8 hfr => ?_)
    refine ⟨[v1, v2, v3, v4, v5] ++ bs1, [c0, c1], hdr :: fs1, by simpa using h8, by simp,
      Or.inr ⟨hdr, fs1, rfl, hh, hm, ?_⟩⟩
    rw [hfr]
    simp [received_bad, CRC, List.foldl_append]
  · simp only [hc, if_false, wp_bind]
    refine emit_header_wp _ _ h5 (fun s6 hdr h6 hh _ => ?_)
    have hP1 : ∀ fs1, (∀ m ∈ fs1, is_mid K m) →
        emitted_so_far K frame.mFlags (([] ++ [hdr]) ++ fs1) := fun fs1 hm =>
      emitted_append K _ hdr [] fs1 hh (mids_nil K) hm
    refine data_words_wp LRC_add _ _ _ _ s6 h6 hP1 (fun bs1 fs1 s7 h7 hm => ?_)
    refine end_frame_LRC_wp _ _ h7 (hP1 fs1 hm) (fun c0 s8 fr h8 hfr => ?_)
    refine ⟨[v1, v2, v3, v4, v5] ++ bs1, [c0], hdr :: fs1, by simpa using h8, by simp,
      Or.inr ⟨hdr, fs1, rfl, hh, hm, ?_⟩⟩
    rw [hfr]
    simp [received_bad, LRC, List.foldl_append]

theorem request_READ_FILE_RECORD_spec (K : FlagBits) (mode : Mode) (a f : Nat) (frame : Frame)
    (s0 s : Analyzer) (bs : List Nat) (hrun : Run mode s0 bs [] s) :
    wp (request_READ_FILE_RECORD K mode a f frame)
      (case_post K mode (decide (mode = .ModbusRTUClient ∨ mode = .ModbusRTUBoth)) s0 bs a f frame.mFlags)
      (Waiting s0 (emitted_so_far K frame.mFlags)) s := by
  have hP := emitted_nil K frame.mFlags
  simp only [request_READ_FILE_RECORD, wp_bind]
  refine wp_read hrun hP (fun v1 s1 h1 => ?_)
  by_cases hc : mode = .ModbusRTUClient ∨ mode = .ModbusRTUBoth
  · simp only [hc, if_true, wp_bind]
    refine emit_header_wp _ _ h1 (fun s6 hdr h6 hh _ => ?_)
    have hP1 : ∀ fs1, (∀ m ∈ fs1, is_mid K m) →
        emitted_so_far K frame.mFlags (([] ++ [hdr]) ++ fs1) := fun fs1 hm =>
      emitted_append K _ hdr [] fs1 hh (mids_nil K) hm
    refine read_file_request_loop_wp update_CRC _ _ _ _ _ _ s6 h6 hP1 (fun bs1 fs1 s7 h7 hm => ?_)
    refine end_frame_CRC_wp _ _ h7 (hP1 fs1 hm) (fun c0 c1 s8 fr h8 hfr => ?_)
    refine ⟨[v1] ++ bs1, [c0, c1], hdr :: fs1, by simpa using h8, by simp,
      Or.inr ⟨hdr, fs1, rfl, hh, hm, ?_⟩⟩
    rw [hfr]
    simp [received_bad, CRC, List.foldl_append]
  · simp only [hc, if_false, wp_bind]
    refine emit_header_wp _ _ h1 (fun s6 hdr h6 hh _ => ?_)
    have hP1 : ∀ fs1, (∀ m ∈ fs1, is_mid K m) →
        emitted_so_far K frame.mFlags (([] ++ [hdr]) ++ fs1) := fun fs1 hm =>
      emitted_append K _ hdr [] fs1 hh (mids_nil K) hm
    refine read_file_request_loop_wp LRC_add _ _ _ _ _ _ s6 h6 hP1 (fun bs1 fs1 s7 h7 hm => ?_)
    refine end_frame_LRC_wp _ _ h7 (hP1 fs1 hm) (fun c0 s8 fr h8 hfr => ?_)
    refine ⟨[v1] ++ bs1, [c0], hdr :: fs1, by simpa using h8, by simp,
      Or.inr ⟨hdr, fs1, rfl, hh, hm, ?_⟩⟩
    rw [hfr]
    simp [received_bad, LRC, List.foldl_append]

theorem request_WRITE_FILE_RECORD_spec (K : FlagBits) (mode : Mode) (a f : Nat) (frame : Frame)
    (s0 s : Analyzer) (bs : List Nat) (hrun : Run mode s0 bs [] s) :
    wp (request_WRITE_FILE_RECORD K mode a f frame)
      (case_post K mode (decide (mode = .ModbusRTUClient ∨ mode = .ModbusRTUBoth)) s0 bs a f frame.mFlags)
      (Waiting s0 (emitted_so_far K frame.mFlags)) s := by
  have hP := emitted_nil K frame.mFlags
  simp only [request_WRITE_FILE_RECORD, wp_bind]
  refine wp_read hrun hP (fun v1 s1 h1 => ?_)
  by_cases hc : mode = .ModbusRTUClient ∨ mode = .ModbusRTUBoth
  · simp only [hc, if_true, wp_bind]
    refine emit_header_wp _ _ h1 (fun s6 hdr h6 hh _ => ?_)
    have hP1 : ∀ fs1, (∀ m ∈ fs1, is_mid K m) →
        emitted_so_far K frame.mFlags (([] ++ [hdr]) ++ fs1) := fun fs1 hm =>
      emitted_append K _ hdr [] fs1 hh (mids_nil K) hm
    refine write_file_loop_wp update_CRC _ _ _ _ _ _ _ s6 h6 hP1 (fun bs1 fs1 s7 h7 hm => ?_)
    refine end_frame_CRC_wp _ _ h7 (hP1 fs1 hm) (fun c0 c1 s8 fr h8 hfr => ?_)
    refine ⟨[v1] ++ bs1, [c0, c1], hdr :: fs1, by simpa using h8, by simp,
      Or.inr ⟨hdr, fs1, rfl, hh, hm, ?_⟩⟩
    rw [hfr]
    simp [received_bad, CRC, List.foldl_append]
  · simp only [hc, if_false, wp_bind]
    refine emit_header_wp _ _ h1 (fun s6 hdr h6 hh _ => ?_)
    have hP1 : ∀ fs1, (∀ m ∈ fs1, is_mid K m) →
        emitted_so_far K frame.mFlags (([] ++ [hdr]) ++ fs1) := fun fs1 hm =>
      emitted_append K _ hdr [] fs1 hh (mids_nil K) hm
    refine write_file_loop_wp LRC_add _ _ _ _ _ _ _ s6 h6 hP1 (fun bs1 fs1 s7 h7 hm => ?_)
    refine end_frame_LRC_wp _ _ h7 (hP1 fs1 hm) (fun c0 s8 fr h8 hfr => ?_)
    refine ⟨[v1] ++ bs1, [c0], hdr :: fs1, by simpa using h8, by simp,
      Or.inr ⟨hdr, fs1, rfl, hh, hm, ?_⟩⟩
    rw [hfr]
    simp [received_bad, LRC, List.foldl_append]

theorem request_MASK_WRITE_REGISTER_spec (K : FlagBits) (mode : Mode) (a f : Nat) (frame : Frame)
    (s0 s : Analyzer) (bs : List Nat) (hrun : Run mode s0 bs [] s) :
    wp (request_MASK_WRITE_REGISTER K mode a f frame)
      (case_post K mode (decide (mode = .ModbusRTUClient ∨ mode = .ModbusRTUBoth)) s0 bs a f frame.mFlags)
      (Waiting s0 (emitted_so_far K frame.mFlags)) s := by
  have hP := emitted_nil K frame.mFlags
  simp only [request_MASK_WRITE_REGISTER, wp_bind]
  refine wp_read hrun hP (fun v1 s1 h1 => ?_)
  refine wp_read h1 hP (fun v2 s2 h2 => ?_)
  refine wp_read h2 hP (fun v3 s3 h3 => ?_)
  refine wp_read h3 hP (fun v4 s4 h4 => ?_)
  refine wp_read h4 hP (fun v5 s5 h5 => ?_)
  refine wp_read h5 hP (fun v6 s6 h6 => ?_)
  by_cases hc : mode = .ModbusRTUClient ∨ mode = .ModbusRTUBoth
  · simp only [hc, if_true, wp_bind]
    refine single_frame_CRC_wp _ _ h6 hP (fun c0 c1 s9 h9 => ?_)
    simp only [wp_pure]
    refine ⟨[v1, v2, v3, v4, v5, v6], [c0, c1], [], by simpa using h9, by simp, Or.inl ⟨rfl, ?_⟩⟩
    simp [received_bad, flag_if, flagged]
  · simp only [hc, if_false, wp_bind]
    refine single_frame_LRC_wp _ _ h6 hP (fun c0 s9 h9 => ?_)
    simp only [wp_pure]
    refine ⟨[v1, v2, v3, v4, v5, v6], [c0], [], by simpa using h9, by simp, Or.inl ⟨rfl, ?_⟩⟩
    simp [received_bad, flag_if, flagged]

theorem request_READWRITE_MULTIPLE_REGISTERS_spec (K : FlagBits) (mode : Mode) (a f : Nat) (frame : Frame)
    (s0 s : Analyzer) (bs : List Nat) (hrun : Run mode s0 bs [] s) :
    wp (request_READWRITE_MULTIPLE_REGISTERS K mode a f frame)
      (case_post K mode (decide (mode = .ModbusRTUClient ∨ mode = .ModbusRTUBoth)) s0 bs a f frame.mFlags)
      (Waiting s0 (emitted_so_far K frame.mFlags)) s := by
  have hP := emitted_nil K frame.mFlags
  simp only [request_READWRITE_MULTIPLE_REGISTERS, wp_bind]
  refine wp_read hrun hP (fun v1 s1 h1 => ?_)
  refine wp_read h1 hP (fun v2 s2 h2 => ?_)
  refine wp_read h2 hP (fun v3 s3 h3 => ?_)
  refine wp_read h3 hP (fun v4 s4 h4 => ?_)
  refine wp_read h4 hP (fun v5 s5 h5 => ?_)
  refine wp_read h5 hP (fun v6 s6 h6 => ?_)
  refine wp_read h6 hP (fun v7 s7 h7 => ?_)
  refine wp_read h7 hP (fun v8 s8 h8 => ?_)
  refine wp_read h8 hP (fun v9 s9 h9 => ?_)
  by_cases hc : mode = .ModbusRTUClient ∨ mode = .ModbusRTUBoth
  · simp only [hc, if_true, wp_bind]
    refine emit_header_wp _ _ h9 (fun s6 hdr h6 hh _ => ?_)
    have hP1 : ∀ fs1, (∀ m ∈ fs1, is_mid K m) →
        emitted_so_far K frame.mFlags (([] ++ [hdr]) ++ fs1) := fun fs1 hm =>
      emitted_append K _ hdr [] fs1 hh (mids_nil K) hm
    refine data_words_wp update_CRC _ _ _ _ s6 h6 hP1 (fun bs1 fs1 s7 h7 hm => ?_)
    refine end_frame_CRC_wp _ _ h7 (hP1 fs1 hm) (fun c0 c1 s8 fr h8 hfr => ?_)
    refine ⟨[v1, v2, v3, v4, v5, v6, v7, v8, v9] ++ bs1, [c0, c1], hdr :: fs1, by simpa using h8, by simp,
      Or.inr ⟨hdr, fs1, rfl, hh, hm, ?_⟩⟩
    rw [hfr]
    simp [received_bad, CRC, List.foldl_append]
  · simp only [hc, if_false, wp_bind]
    refine emit_header_wp _ _ h9 (fun s6 hdr h6 hh _ => ?_)
    have hP1 : ∀ fs1, (∀ m ∈ fs1, is_mid K m) →
        emitted_so_far K frame.mFlags (([] ++ [hdr]) ++ fs1) := fun fs1 hm =>
      emitted_append K _ hdr [] fs1 hh (mids_nil K) hm
    refine data_words_wp LRC_add _ _ _ _ s6 h6 hP1 (fun bs1 fs1 s7 h7 hm => ?_)
    refine end_frame_LRC_wp _ _ h7 (hP1 fs1 hm) (fun c0 s8 fr h8 hfr => ?_)
    refine ⟨[v1, v2, v3, v4, v5, v6, v7, v8, v9] ++ bs1, [c0], hdr :: fs1, by simpa using h8, by simp,
      Or.inr ⟨hdr, fs1, rfl, hh, hm, ?_⟩⟩
    rw [hfr]
    simp [received_bad, LRC, List.foldl_append]

theorem request_READ_FIFO_QUEUE_spec (K : FlagBits) (mode : Mode) (a f : Nat) (frame : Frame)
    (s0 s : Analyzer) (bs : List Nat) (hrun : Run mode s0 bs [] s) :
    wp (request_READ_FIFO_QUEUE K mode a f frame)
      (case_post K mode (decide (mode = .ModbusRTUClient ∨ mode = .ModbusRTUBoth)) s0 bs a f frame.mFlags)
      (Waiting s0 (emitted_so_far K frame.mFlags)) s := by
  have hP := emitted_nil K frame.mFlags
  simp only [request_READ_FIFO_QUEUE, wp_bind]
  refine wp_read hrun hP (fun v1 s1 h1 => ?_)
  refine wp_read h1 hP (fun v2 s2 h2 => ?_)
  by_cases hc : mode = .ModbusRTUClient ∨ mode = .ModbusRTUBoth
  · simp only [hc, if_true, wp_bind]
    refine single_frame_CRC_wp _ _ h2 hP (fun c0 c1 s9 h9 => ?_)
    simp only [wp_pure]
    refine ⟨[v1, v2], [c0, c1], [], by simpa using h9, by simp, Or.inl ⟨rfl, ?_⟩⟩
    simp [received_bad, flag_if, flagged]
  · simp only [hc, if_false, wp_bind]
    refine single_frame_LRC_wp _ _ h2 hP (fun c0 s9 h9 => ?_)
    simp only [wp_pure]
    refine ⟨[v1, v2], [c0], [], by simpa using h9, by simp, Or.inl ⟨rfl, ?_⟩⟩
    simp [received_bad, flag_if, flagged]

theorem response_exception_spec (K : FlagBits) (mode : Mode) (a f : Nat) (frame : Frame)
    (s0 s : Analyzer) (bs : List Nat) (hrun : Run mode s0 bs [] s) :
    wp (response_exception K mode a f frame)
      (case_post K mode (decide (mode = .ModbusRTUServer ∨ mode = .ModbusRTUBoth)) s0 bs a f K.FLAG_EXCEPTION_FRAME)
      (Waiting s0 (emitted_so_far K K.FLAG_EXCEPTION_FRAME)) s := by
  have hP := emitted_nil K K.FLAG_EXCEPTION_FRAME
  simp only [response_exception, wp_bind]
  refine wp_read hrun hP (fun v1 s1 h1 => ?_)
  by_cases hc : mode = .ModbusRTUServer ∨ mode = .ModbusRTUBoth
  · simp only [hc, if_true, wp_bind]
    refine single_frame_CRC_wp _ _ h1 hP (fun c0 c1 s9 h9 => ?_)
    simp only [wp_pure]
    refine ⟨[v1], [c0, c1], [], by simpa using h9, by simp, Or.inl ⟨rfl, ?_⟩⟩
    simp [received_bad, flag_if, flagged]
  · simp only [hc, if_false, wp_bind]
    refine single_frame_LRC_wp _ _ h1 hP (fun c0 s9 h9 => ?_)
    simp only [wp_pure]
    refine ⟨[v1], [c0], [], by simpa using h9, by simp, Or.inl ⟨rfl, ?_⟩⟩
    simp [received_bad, flag_if, flagged]

theorem response_READ_COILS_spec (K : FlagBits) (mode : Mode) (a f : Nat) (frame : Frame)
    (s0 s : Analyzer) (bs : List Nat) (hrun : Run mode s0 bs [] s) :
    wp (response_READ_COILS K mode a f frame)
      (case_post K mode (decide (mode = .ModbusRTUServer ∨ mode = .ModbusRTUBoth)) s0 bs a f frame.mFlags)
      (Waiting s0 (emitted_so_far K frame.mFlags)) s := by
  have hP := emitted_nil K frame.mFlags
  simp only [response_READ_COILS, wp_bind]
  refine wp_read hrun hP (fun v1 s1 h1 => ?_)
  by_cases hc : mode = .ModbusRTUServer ∨ mode = .ModbusRTUBoth
  · simp only [hc, if_true, wp_bind]
    refine emit_header_wp _ _ h1 (fun s6 hdr h6 hh _ => ?_)
    have hP1 : ∀ fs1, (∀ m ∈ fs1, is_mid K m) →
        emitted_so_far K frame.mFlags (([] ++ [hdr]) ++ fs1) := fun fs1 hm =>
      emitted_append K _ hdr [] fs1 hh (mids_nil K) hm
    refine data_bytes_wp update_CRC _ _ _ _ s6 h6 hP1 (fun bs1 fs1 s7 h7 hm => ?_)
    refine end_frame_CRC_wp _ _ h7 (hP1 fs1 hm) (fun c0 c1 s8 fr h8 hfr => ?_)
    refine ⟨[v1] ++ bs1, [c0, c1], hdr :: fs1, by simpa using h8, by simp,
      Or.inr ⟨hdr, fs1, rfl, hh, hm, ?_⟩⟩
    rw [hfr]
    simp [received_bad, CRC, List.foldl_append]
  · simp only [hc, if_false, wp_bind]
    refine emit_header_wp _ _ h1 (fun s6 hdr h6 hh _ => ?_)
    have hP1 : ∀ fs1, (∀ m ∈ fs1, is_mid K m) →
        emitted_so_far K frame.mFlags (([] ++ [hdr]) ++ fs1) := fun fs1 hm =>
      emitted_append K _ hdr [] fs1 hh (mids_nil K) hm
    refine data_bytes_wp LRC_add _ _ _ _ s6 h6 hP1 (fun bs1 fs1 s7 h7 hm => ?_)
    refine end_frame_LRC_wp _ _ h7 (hP1 fs1 hm) (fun c0 s8 fr h8 hfr => ?_)
    refine ⟨[v1] ++ bs1, [c0], hdr :: fs1, by simpa using h8, by simp,
      Or.inr ⟨hdr, fs1, rfl, hh, hm, ?_⟩⟩
    rw [hfr]
    simp [received_bad, LRC, List.foldl_append]

theorem response_READ_HOLDING_REGISTERS_spec (K : FlagBits) (mode : Mode) (a f : Nat) (frame : Frame)
    (s0 s : Analyzer) (bs : List Nat) (hrun : Run mode s0 bs [] s) :
    wp (response_READ_HOLDING_REGISTERS K mode a f frame)
      (case_post K mode (decide (mode = .ModbusRTUServer ∨ mode = .ModbusRTUBoth)) s0 bs a f frame.mFlags)
      (Waiting s0 (emitted_so_far K frame.mFlags)) s := by
  have hP := emitted_nil K frame.mFlags
  simp only [response_READ_HOLDING_REGISTERS, wp_bind]
  refine wp_read hrun hP (fun v1 s1 h1 => ?_)
  by_cases hc : mode = .ModbusRTUServer ∨ mode = .ModbusRTUBoth
  · simp only [hc, if_true, wp_bind]
    refine emit_header_wp _ _ h1 (fun s6 hdr h6 hh _ => ?_)
    have hP1 : ∀ fs1, (∀ m ∈ fs1, is_mid K m) →
        emitted_so_far K frame.mFlags (([] ++ [hdr]) ++ fs1) := fun fs1 hm =>
      emitted_append K _ hdr [] fs1 hh (mids_nil K) hm
    refine data_words_wp update_CRC _ _ _ _ s6 h6 hP1 (fun bs1 fs1 s7 h7 hm => ?_)
    refine end_frame_CRC_wp _ _ h7 (hP1 fs1 hm) (fun c0 c1 s8 fr h8 hfr => ?_)
    refine ⟨[v1] ++ bs1, [c0, c1], hdr :: fs1, by simpa using h8, by simp,
      Or.inr ⟨hdr, fs1, rfl, hh, hm, ?_⟩⟩
    rw [hfr]
    simp [received_bad, CRC, List.foldl_append]
  · simp only [hc, if_false, wp_bind]
    refine emit_header_wp _ _ h1 (fun s6 hdr h6 hh _ => ?_)
    have hP1 : ∀ fs1, (∀ m ∈ fs1, is_mid K m) →
        emitted_so_far K frame.mFlags (([] ++ [hdr]) ++ fs1) := fun fs1 hm =>
      emitted_append K _ hdr [] fs1 hh (mids_nil K) hm
    refine data_words_wp LRC_add _ _ _ _ s6 h6 hP1 (fun bs1 fs1 s7 h7 hm => ?_)
    refine end_frame_LRC_wp _ _ h7 (hP1 fs1 hm) (fun c0 s8 fr h8 hfr => ?_)
    refine ⟨[v1] ++ bs1, [c0], hdr :: fs1, by simpa using h8, by simp,
      Or.inr ⟨hdr, fs1, rfl, hh, hm, ?_⟩⟩
    rw [hfr]
    simp [received_bad, LRC, List.foldl_append]

theorem response_WRITE_SINGLE_COIL_spec (K : FlagBits) (mode : Mode) (a f : Nat) (frame : Frame)
    (s0 s : Analyzer) (bs : List Nat) (hrun : Run mode s0 bs [] s) :
    wp (response_WRITE_SINGLE_COIL K mode a f frame)
      (case_post K mode (decide (mode = .ModbusRTUServer ∨ mode = .ModbusRTUBoth)) s0 bs a f frame.mFlags)
      (Waiting s0 (emitted_so_far K frame.mFlags)) s := by
  have hP := emitted_nil K frame.mFlags
  simp only [response_WRITE_SINGLE_COIL, wp_bind]
  refine wp_read hrun hP (fun v1 s1 h1 => ?_)
  refine wp_read h1 hP (fun v2 s2 h2 => ?_)
  refine wp_read h2 hP (fun v3 s3 h3 => ?_)
  refine wp_read h3 hP (fun v4 s4 h4 => ?_)
  by_cases hc : mode = .ModbusRTUServer ∨ mode = .ModbusRTUBoth
  · simp only [hc, if_true, wp_bind]
    refine single_frame_CRC_wp _ _ h4 hP (fun c0 c1 s9 h9 => ?_)
    simp only [wp_pure]
    refine ⟨[v1, v2, v3, v4], [c0, c1], [], by simpa using h9, by simp, Or.inl ⟨rfl, ?_⟩⟩
    simp [received_bad, flag_if, flagged]
  · simp only [hc, if_false, wp_bind]
    refine single_frame_LRC_wp _ _ h4 hP (fun c0 s9 h9 => ?_)
    simp only [wp_pure]
    refine ⟨[v1, v2, v3, v4], [c0], [], by simpa using h9, by simp, Or.inl ⟨rfl, ?_⟩⟩
    simp [received_bad, flag_if, flagged]

theorem response_READ_EXCEPTION_STATUS_spec (K : FlagBits) (mode : Mode) (a f : Nat) (frame : Frame)
    (s0 s : Analyzer) (bs : List Nat) (hrun : Run mode s0 bs [] s) :
    wp (response_READ_EXCEPTION_STATUS K mode a f frame)
      (case_post K mode (decide (mode = .ModbusRTUServer ∨ mode = .ModbusRTUBoth)) s0 bs a f frame.mFlags)
      (Waiting s0 (emitted_so_far K frame.mFlags)) s := by
  have hP := emitted_nil K frame.mFlags
  simp only [response_READ_EXCEPTION_STATUS, wp_bind]
  refine wp_read hrun hP (fun v1 s1 h1 => ?_)
  by_cases hc : mode = .ModbusRTUServer ∨ mode = .ModbusRTUBoth
  · simp only [hc, if_true, wp_bind]
    refine single_frame_CRC_wp _ _ h1 hP (fun c0 c1 s9 h9 => ?_)
    simp only [wp_pure]
    refine ⟨[v1], [c0, c1], [], by simpa using h9, by simp, Or.inl ⟨rfl, ?_⟩⟩
    simp [received_bad, flag_if, flagged]
  · simp only [hc, if_false, wp_bind]
    refine single_frame_LRC_wp _ _ h1 hP (fun c0 s9 h9 => ?_)
    simp only [wp_pure]
    refine ⟨[v1], [c0], [], by simpa using h9, by simp, Or.inl ⟨rfl, ?_⟩⟩
    simp [received_bad, flag_if, flagged]

theorem response_GET_COM_EVENT_LOG_spec (K : FlagBits) (mode : Mode) (a f : Nat) (frame : Frame)
    (s0 s : Analyzer) (bs : List Nat) (hrun : Run mode s0 bs [] s) :
    wp (response_GET_COM_EVENT_LOG K mode a f frame)
      (case_post K mode (decide (mode = .ModbusRTUServer ∨ mode = .ModbusRTUBoth)) s0 bs a f frame.mFlags)
      (Waiting s0 (emitted_so_far K frame.mFlags)) s := by
  have hP := emitted_nil K frame.mFlags
  simp only [response_GET_COM_EVENT_LOG, wp_bind]
  refine wp_read hrun hP (fun v1 s1 h1 => ?_)
  refine wp_read h1 hP (fun v2 s2 h2 => ?_)
  refine wp_read h2 hP (fun v3 s3 h3 => ?_)
  refine wp_read h3 hP (fun v4 s4 h4 => ?_)
  refine wp_read h4 hP (fun v5 s5 h5 => ?_)
  refine wp_read h5 hP (fun v6 s6 h6 => ?_)
  refine wp_read h6 hP (fun v7 s7 h7 => ?_)
  by_cases hc : mode = .ModbusRTUServer ∨ mode = .ModbusRTUBoth
  · simp only [hc, if_true, wp_bind]
    refine emit_header_wp _ _ h7 (fun s6 hdr h6 hh _ => ?_)
    have hP1 : ∀ fs1, (∀ m ∈ fs1, is_mid K m) →
        emitted_so_far K frame.mFlags (([] ++ [hdr]) ++ fs1) := fun fs1 hm =>
      emitted_append K _ hdr [] fs1 hh (mids_nil K) hm
    refine data_bytes_wp update_CRC _ _ _ _ s6 h6 hP1 (fun bs1 fs1 s7 h7 hm => ?_)
    refine end_frame_CRC_wp _ _ h7 (hP1 fs1 hm) (fun c0 c1 s8 fr h8 hfr => ?_)
    refine ⟨[v1, v2, v3, v4, v5, v6, v7] ++ bs1, [c0, c1], hdr :: fs1, by simpa using h8, by simp,
      Or.inr ⟨hdr, fs1, rfl, hh, hm, ?_⟩⟩
    rw [hfr]
    simp [received_bad, CRC, List.foldl_append]
  · simp only [hc, if_false, wp_bind]
    refine emit_header_wp _ _ h7 (fun s6 hdr h6 hh _ => ?_)
    have hP1 : ∀ fs1, (∀ m ∈ fs1, is_mid K m) →
        emitted_so_far K frame.mFlags (([] ++ [hdr]) ++ fs1) := fun fs1 hm =>
      emitted_append K _ hdr [] fs1 hh (mids_nil K) hm
    refine data_bytes_wp LRC_add _ _ _ _ s6 h6 hP1 (fun bs1 fs1 s7 h7 hm => ?_)
    refine end_frame_LRC_wp _ _ h7 (hP1 fs1 hm) (fun c0 s8 fr h8 hfr => ?_)
    refine ⟨[v1, v2, v3, v4, v5, v6, v7] ++ bs1, [c0], hdr :: fs1, by simpa using h8, by simp,
      Or.inr ⟨hdr, fs1, rfl, hh, hm, ?_⟩⟩
    rw [hfr]
    simp [received_bad, LRC, List.foldl_append]

theorem response_READ_FILE_RECORD_spec (K : FlagBits) (mode : Mode) (a f : Nat) (frame : Frame)
    (s0 s : Analyzer) (bs : List Nat) (hrun : Run mode s0 bs [] s) :
    wp (response_READ_FILE_RECORD K mode a f frame)
      (case_post K mode (decide (mode = .ModbusRTUServer ∨ mode = .ModbusRTUBoth)) s0 bs a f frame.mFlags)
      (Waiting s0 (emitted_so_far K frame.mFlags)) s := by
  have hP := emitted_nil K frame.mFlags
  simp only [response_READ_FILE_RECORD, wp_bind]
  refine wp_read hrun hP (fun v1 s1 h1 => ?_)
  by_cases hc : mode = .ModbusRTUServer ∨ mode = .ModbusRTUBoth
  · simp only [hc, if_true, wp_bind]
    refine emit_header_wp _ _ h1 (fun s6 hdr h6 hh _ => ?_)
    have hP1 : ∀ fs1, (∀ m ∈ fs1, is_mid K m) →
        emitted_so_far K frame.mFlags (([] ++ [hdr]) ++ fs1) := fun fs1 hm =>
      emitted_append K _ hdr [] fs1 hh (mids_nil K) hm
    refine read_file_response_loop_wp update_CRC _ _ _ _ _ _ _ _ s6 h6 hP1 (fun bs1 fs1 s7 h7 hm => ?_)
    refine end_frame_CRC_wp _ _ h7 (hP1 fs1 hm) (fun c0 c1 s8 fr h8 hfr => ?_)
    refine ⟨[v1] ++ bs1, [c0, c1], hdr :: fs1, by simpa using h8, by simp,
      Or.inr ⟨hdr, fs1, rfl, hh, hm, ?_⟩⟩
    rw [hfr]
    simp [received_bad, CRC, List.foldl_append]
  · simp only [hc, if_false, wp_bind]
    refine emit_header_wp _ _ h1 (fun s6 hdr h6 hh _ => ?_)
    have hP1 : ∀ fs1, (∀ m ∈ fs1, is_mid K m) →
        emitted_so_far K frame.mFlags (([] ++ [hdr]) ++ fs1) := fun fs1 hm =>
      emitted_append K _ hdr [] fs1 hh (mids_nil K) hm
    refine read_file_response_loop_wp LRC_add _ _ _ _ _ _ _ _ s6 h6 hP1 (fun bs1 fs1 s7 h7 hm => ?_)
    refine end_frame_LRC_wp _ _ h7 (hP1 fs1 hm) (fun c0 s8 fr h8 hfr => ?_)
    refine ⟨[v1] ++ bs1, [c0], hdr :: fs1, by simpa using h8, by simp,
      Or.inr ⟨hdr, fs1, rfl, hh, hm, ?_⟩⟩
    rw [hfr]
    simp [received_bad, LRC, List.foldl_append]

theorem response_WRITE_FILE_RECORD_spec (K : FlagBits) (mode : Mode) (a f : Nat) (frame : Frame)
    (s0 s : Analyzer) (bs : List Nat) (hrun : Run mode s0 bs [] s) :
    wp (response_WRITE_FILE_RECORD K mode a f frame)
      (case_post K mode (decide (mode = .ModbusRTUServer ∨ mode = .ModbusRTUBoth)) s0 bs a f frame.mFlags)
      (Waiting s0 (emitted_so_far K frame.mFlags)) s := by
  have hP := emitted_nil K frame.mFlags
  simp only [response_WRITE_FILE_RECORD, wp_bind]
  refine wp_read hrun hP (fun v1 s1 h1 => ?_)
  by_cases hc : mode = .ModbusRTUServer ∨ mode = .ModbusRTUBoth
  · simp only [hc, if_true, wp_bind]
    refine emit_header_wp _ _ h1 (fun s6 hdr h6 hh _ => ?_)
    have hP1 : ∀ fs1, (∀ m ∈ fs1, is_mid K m) →
        emitted_so_far K frame.mFlags (([] ++ [hdr]) ++ fs1) := fun fs1 hm =>
      emitted_append K _ hdr [] fs1 hh (mids_nil K) hm
    refine write_file_loop_wp update_CRC _ _ _ _ _ _ _ s6 h6 hP1 (fun bs1 fs1 s7 h7 hm => ?_)
    refine end_frame_CRC_wp _ _ h7 (hP1 fs1 hm) (fun c0 c1 s8 fr h8 hfr => ?_)
    refine ⟨[v1] ++ bs1, [c0, c1], hdr :: fs1, by simpa using h8, by simp,
      Or.inr ⟨hdr, fs1, rfl, hh, hm, ?_⟩⟩
    rw [hfr]
    simp [received_bad, CRC, List.foldl_append]
  · simp only [hc, if_false, wp_bind]
    refine emit_header_wp _ _ h1 (fun s6 hdr h6 hh _ => ?_)
    have hP1 : ∀ fs1, (∀ m ∈ fs1, is_mid K m) →
        emitted_so_far K frame.mFlags (([] ++ [hdr]) ++ fs1) := fun fs1 hm =>
      emitted_append K _ hdr [] fs1 hh (mids_nil K) hm
    refine write_file_loop_wp LRC_add _ _ _ _ _ _ _ s6 h6 hP1 (fun bs1 fs1 s7 h7 hm => ?_)
    refine end_frame_LRC_wp _ _ h7 (hP1 fs1 hm) (fun c0 s8 fr h8 hfr => ?_)
    refine ⟨[v1] ++ bs1, [c0], hdr :: fs1, by simpa using h8, by simp,
      Or.inr ⟨hdr, fs1, rfl, hh, hm, ?_⟩⟩
    rw [hfr]
    simp [received_bad, LRC, List.foldl_append]

theorem response_MASK_WRITE_REGISTER_spec (K : FlagBits) (mode : Mode) (a f : Nat) (frame : Frame)
    (s0 s : Analyzer) (bs : List Nat) (hrun : Run mode s0 bs [] s) :
    wp (response_MASK_WRITE_REGISTER K mode a f frame)
      (case_post K mode (decide (mode = .ModbusRTUServer ∨ mode = .ModbusRTUBoth)) s0 bs a f frame.mFlags)
      (Waiting s0 (emitted_so_far K frame.mFlags)) s := by
  have hP := emitted_nil K frame.mFlags
  simp only [response_MASK_WRITE_REGISTER, wp_bind]
  refine wp_read hrun hP (fun v1 s1 h1 => ?_)
  refine wp_read h1 hP (fun v2 s2 h2 => ?_)
  refine wp_read h2 hP (fun v3 s3 h3 => ?_)
  refine wp_read h3 hP (fun v4 s4 h4 => ?_)
  refine wp_read h4 hP (fun v5 s5 h5 => ?_)
  refine wp_read h5 hP (fun v6 s6 h6 => ?_)
  by_cases hc : mode = .ModbusRTUServer ∨ mode = .ModbusRTUBoth
  · simp only [hc, if_true, wp_bind]
    refine single_frame_CRC_wp _ _ h6 hP (fun c0 c1 s9 h9 => ?_)
    simp only [wp_pure]
    refine ⟨[v1, v2, v3, v4, v5, v6], [c0, c1], [], by simpa using h9, by simp, Or.inl ⟨rfl, ?_⟩⟩
    simp [received_bad, flag_if, flagged]
  · simp only [hc, if_false, wp_bind]
    refine single_frame_LRC_wp _ _ h6 hP (fun c0 s9 h9 => ?_)
    simp only [wp_pure]
    refine ⟨[v1, v2, v3, v4, v5, v6], [c0], [], by simpa using h9, by simp, Or.inl ⟨rfl, ?_⟩⟩
    simp [received_bad, flag_if, flagged]

theorem response_READ_FIFO_QUEUE_spec (K : FlagBits) (mode : Mode) (a f : Nat) (frame : Frame)
    (s0 s : Analyzer) (bs : List Nat) (hrun : Run mode s0 bs [] s) :
    wp (response_READ_FIFO_QUEUE K mode a f frame)
      (case_post K mode (decide (mode = .ModbusRTUServer ∨ mode = .ModbusRTUBoth)) s0 bs a f frame.mFlags)
      (Waiting s0 (emitted_so_far K frame.mFlags)) s := by
  have hP := emitted_nil K frame.mFlags
  simp only [response_READ_FIFO_QUEUE, wp_bind]
  refine wp_read hrun hP (fun v1 s1 h1 => ?_)
  refine wp_read h1 hP (fun v2 s2 h2 => ?_)
  refine wp_read h2 hP (fun v3 s3 h3 => ?_)
  refine wp_read h3 hP (fun v4 s4 h4 => ?_)
  by_cases hc : mode = .ModbusRTUServer ∨ mode = .ModbusRTUBoth
  · simp only [hc, if_true, wp_bind]
    refine emit_header_wp _ _ h4 (fun s6 hdr h6 hh _ => ?_)
    have hP1 : ∀ fs1, (∀ m ∈ fs1, is_mid K m) →
        emitted_so_far K frame.mFlags (([] ++ [hdr]) ++ fs1) := fun fs1 hm =>
      emitted_append K _ hdr [] fs1 hh (mids_nil K) hm
    refine data_words_wp update_CRC _ _ _ _ s6 h6 hP1 (fun bs1 fs1 s7 h7 hm => ?_)
    refine end_frame_CRC_wp _ _ h7 (hP1 fs1 hm) (fun c0 c1 s8 fr h8 hfr => ?_)
    refine ⟨[v1, v2, v3, v4] ++ bs1, [c0, c1], hdr :: fs1, by simpa using h8, by simp,
      Or.inr ⟨hdr, fs1, rfl, hh, hm, ?_⟩⟩
    rw [hfr]
    simp [received_bad, CRC, List.foldl_append]
  · simp only [hc, if_false, wp_bind]
    refine emit_header_wp _ _ h4 (fun s6 hdr h6 hh _ => ?_)
    have hP1 : ∀ fs1, (∀ m ∈ fs1, is_mid K m) →
        emitted_so_far K frame.mFlags (([] ++ [hdr]) ++ fs1) := fun fs1 hm =>
      emitted_append K _ hdr [] fs1 hh (mids_nil K) hm
    refine data_words_wp LRC_add _ _ _ _ s6 h6 hP1 (fun bs1 fs1 s7 h7 hm => ?_)
    refine end_frame_LRC_wp _ _ h7 (hP1 fs1 hm) (fun c0 s8 fr h8 hfr => ?_)
    refine ⟨[v1, v2, v3, v4] ++ bs1, [c0], hdr :: fs1, by simpa using h8, by simp,
      Or.inr ⟨hdr, fs1, rfl, hh, hm, ?_⟩⟩
    rw [hfr]
    simp [received_bad, LRC, List.foldl_append]

theorem request_switch_spec (K : FlagBits) (mode : Mode) (a f : Nat) (frame : Frame)
    (s0 s : Analyzer) (bs : List Nat) (hrun : Run mode s0 bs [] s) :
    wp (request_switch K mode a f frame)
      (switch_post K mode (decide (mode = .ModbusRTUClient ∨ mode = .ModbusRTUBoth)) s0 bs a f frame.mFlags)
      (Waiting s0 (emitted_so_far K frame.mFlags)) s := by
  by_cases hk : f ∈ known_funccodes
  · have hk' := hk
    simp only [known_funccodes, List.mem_cons, List.mem_singleton, List.not_mem_nil,
      or_false] at hk'
    rcases hk' with h | h | h | h | h | h | h | h | h | h | h | h | h | h | h | h | h | h
    · subst h
      have e : request_switch K mode a FUNCCODE_READ_COILS frame = request_READ_COILS K mode a FUNCCODE_READ_COILS frame := by
        simp [request_switch]
      rw [e]
      exact wp_mono _ _ _ _ _ _ (request_READ_COILS_spec K mode a _ frame s0 s bs hrun)
        (fun fr s1 h => Or.inl ⟨hk, h⟩) (fun _ h => h)
    · subst h
      have e : request_switch K mode a FUNCCODE_READ_DISCRETE_INPUTS frame = request_READ_COILS K mode a FUNCCODE_READ_DISCRETE_INPUTS frame := by
        simp [request_switch]
      rw [e]
      exact wp_mono _ _ _ _ _ _ (request_READ_COILS_spec K mode a _ frame s0 s bs hrun)
        (fun fr s1 h => Or.inl ⟨hk, h⟩) (fun _ h => h)
    · subst h
      have e : request_switch K mode a FUNCCODE_READ_HOLDING_REGISTERS frame = request_READ_COILS K mode a FUNCCODE_READ_HOLDING_REGISTERS frame := by
        simp [request_switch]
      rw [e]
      exact wp_mono _ _ _ _ _ _ (request_READ_COILS_spec K mode a _ frame s0 s bs hrun)
        (fun fr s1 h => Or.inl ⟨hk, h⟩) (fun _ h => h)
    · subst h
      have e : request_switch K mode a FUNCCODE_READ_INPUT_REGISTER frame = request_READ_COILS K mode a FUNCCODE_READ_INPUT_REGISTER frame := by
        simp [request_switch]
      rw [e]
      exact wp_mono _ _ _ _ _ _ (request_READ_COILS_spec K mode a _ frame s0 s bs hrun)
        (fun fr s1 h => Or.inl ⟨hk, h⟩) (fun _ h => h)
    · subst h
      have e : request_switch K mode a FUNCCODE_WRITE_SINGLE_COIL frame = request_READ_COILS K mode a FUNCCODE_WRITE_SINGLE_COIL frame := by
        simp [request_switch]
      rw [e]
      exact wp_mono _ _ _ _ _ _ (request_READ_COILS_spec K mode a _ frame s0 s bs hrun)
        (fun fr s1 h => Or.inl ⟨hk, h⟩) (fun _ h => h)
    · subst h
      have e : request_switch K mode a FUNCCODE_WRITE_SINGLE_REGISTER frame = request_READ_COILS K mode a FUNCCODE_WRITE_SINGLE_REGISTER frame := by
        simp [request_switch]
      rw [e]
      exact wp_mono _ _ _ _ _ _ (request_READ_COILS_spec K mode a _ frame s0 s bs hrun)
        (fun fr s1 h => Or.inl ⟨hk, h⟩) (fun _ h => h)
    · subst h
      have e : request_switch K mode a FUNCCODE_READ_EXCEPTION_STATUS frame = request_READ_EXCEPTION_STATUS K mode a FUNCCODE_READ_EXCEPTION_STATUS frame := by
        simp [request_switch]
      rw [e]
      exact wp_mono _ _ _ _ _ _ (request_READ_EXCEPTION_STATUS_spec K mode a _ frame s0 s bs hrun)
        (fun fr s1 h => Or.inl ⟨hk, h⟩) (fun _ h => h)
    · subst h
      have e : request_switch K mode a FUNCCODE_DIAGNOSTIC frame = request_READ_COILS K mode a FUNCCODE_DIAGNOSTIC frame := by
        simp [request_switch]
      rw [e]
      exact wp_mono _ _ _ _ _ _ (request_READ_COILS_spec K mode a _ frame s0 s bs hrun)
        (fun fr s1 h => Or.inl ⟨hk, h⟩) (fun _ h => h)
    · subst h
      have e : request_switch K mode a FUNCCODE_GET_COM_EVENT_COUNTER frame = request_READ_EXCEPTION_STATUS K mode a FUNCCODE_GET_COM_EVENT_COUNTER frame := by
        simp [request_switch]
      rw [e]
      exact wp_mono _ _ _ _ _ _ (request_READ_EXCEPTION_STATUS_spec K mode a _ frame s0 s bs hrun)
        (fun fr s1 h => Or.inl ⟨hk, h⟩) (fun _ h => h)
    · subst h
      have e : request_switch K mode a FUNCCODE_GET_COM_EVENT_LOG frame = request_READ_EXCEPTION_STATUS K mode a FUNCCODE_GET_COM_EVENT_LOG frame := by
        simp [request_switch]
      rw [e]
      exact wp_mono _ _ _ _ _ _ (request_READ_EXCEPTION_STATUS_spec K mode a _ frame s0 s bs hrun)
        (fun fr s1 h => Or.inl ⟨hk, h⟩) (fun _ h => h)
    · subst h
      have e : request_switch K mode a FUNCCODE_WRITE_MULTIPLE_COILS frame = request_WRITE_MULTIPLE_COILS K mode a FUNCCODE_WRITE_MULTIPLE_COILS frame := by
        simp [request_switch]
      rw [e]
      exact wp_mono _ _ _ _ _ _ (request_WRITE_MULTIPLE_COILS_spec K mode a _ frame s0 s bs hrun)
        (fun fr s1 h => Or.inl ⟨hk, h⟩) (fun _ h => h)
    · subst h
      have e : request_switch K mode a FUNCCODE_WRITE_MULTIPLE_REGISTERS frame = request_WRITE_MULTIPLE_REGISTERS K mode a FUNCCODE_WRITE_MULTIPLE_REGISTERS frame := by
        simp [request_switch]
      rw [e]
      exact wp_mono _ _ _ _ _ _ (request_WRITE_MULTIPLE_REGISTERS_spec K mode a _ frame s0 s bs hrun)
        (fun fr s1 h => Or.inl ⟨hk, h⟩) (fun _ h => h)
    · subst h
      have e : request_switch K mode a FUNCCODE_REPORT_SERVER_ID frame = request_READ_EXCEPTION_STATUS K mode a FUNCCODE_REPORT_SERVER_ID frame := by
        simp [request_switch]
      rw [e]
      exact wp_mono _ _ _ _ _ _ (request_READ_EXCEPTION_STATUS_spec K mode a _ frame s0 s bs hrun)
        (fun fr s1 h => Or.inl ⟨hk, h⟩) (fun _ h => h)
    · subst h
      have e : request_switch K mode a FUNCCODE_READ_FILE_RECORD frame = request_READ_FILE_RECORD K mode a FUNCCODE_READ_FILE_RECORD frame := by
        simp [request_switch]
      rw [e]
      exact wp_mono _ _ _ _ _ _ (request_READ_FILE_RECORD_spec K mode a _ frame s0 s bs hrun)
        (fun fr s1 h => Or.inl ⟨hk, h⟩) (fun _ h => h)
    · subst h
      have e : request_switch K mode a FUNCCODE_WRITE_FILE_RECORD frame = request_WRITE_FILE_RECORD K mode a FUNCCODE_WRITE_FILE_RECORD frame := by
        simp [request_switch]
      rw [e]
      exact wp_mono _ _ _ _ _ _ (request_WRITE_FILE_RECORD_spec K mode a _ frame s0 s bs hrun)
        (fun fr s1 h => Or.inl ⟨hk, h⟩) (fun _ h => h)
    · subst h
      have e : request_switch K mode a FUNCCODE_MASK_WRITE_REGISTER frame = request_MASK_WRITE_REGISTER K mode a FUNCCODE_MASK_WRITE_REGISTER frame := by
        simp [request_switch]
      rw [e]
      exact wp_mono _ _ _ _ _ _ (request_MASK_WRITE_REGISTER_spec K mode a _ frame s0 s bs hrun)
        (fun fr s1 h => Or.inl ⟨hk, h⟩) (fun _ h => h)
    · subst h
      have e : request_switch K mode a FUNCCODE_READWRITE_MULTIPLE_REGISTERS frame = request_READWRITE_MULTIPLE_REGISTERS K mode a FUNCCODE_READWRITE_MULTIPLE_REGISTERS frame := by
        simp [request_switch]
      rw [e]
      exact wp_mono _ _ _ _ _ _ (request_READWRITE_MULTIPLE_REGISTERS_spec K mode a _ frame s0 s bs hrun)
        (fun fr s1 h => Or.inl ⟨hk, h⟩) (fun _ h => h)
    · subst h
      have e : request_switch K mode a FUNCCODE_READ_FIFO_QUEUE frame = request_READ_FIFO_QUEUE K mode a FUNCCODE_READ_FIFO_QUEUE frame := by
        simp [request_switch]
      rw [e]
      exact wp_mono _ _ _ _ _ _ (request_READ_FIFO_QUEUE_spec K mode a _ frame s0 s bs hrun)
        (fun fr s1 h => Or.inl ⟨hk, h⟩) (fun _ h => h)
  · rw [request_switch_unknown K mode a f frame hk, wp_pure]
    exact Or.inr ⟨hk, hrun, rfl⟩

theorem response_switch_spec (K : FlagBits) (mode : Mode) (a f : Nat) (frame : Frame)
    (s0 s : Analyzer) (bs : List Nat) (hrun : Run mode s0 bs [] s) :
    wp (response_switch K mode a f frame)
      (switch_post K mode (decide (mode = .ModbusRTUServer ∨ mode = .ModbusRTUBoth)) s0 bs a f frame.mFlags)
      (Waiting s0 (emitted_so_far K frame.mFlags)) s := by
  by_cases hk : f ∈ known_funccodes
  · have hk' := hk
    simp only [known_funccodes, List.mem_cons, List.mem_singleton, List.not_mem_nil,
      or_false] at hk'
    rcases hk' with h | h | h | h | h | h | h | h | h | h | h | h | h | h | h | h | h | h
    · subst h
      have e : response_switch K mode a FUNCCODE_READ_COILS frame = response_READ_COILS K mode a FUNCCODE_READ_COILS frame := by
        simp [response_switch]
      rw [e]
      exact wp_mono _ _ _ _ _ _ (response_READ_COILS_spec K mode a _ frame s0 s bs hrun)
        (fun fr s1 h => Or.inl ⟨hk, h⟩) (fun _ h => h)
    · subst h
      have e : response_switch K mode a FUNCCODE_READ_DISCRETE_INPUTS frame = response_READ_COILS K mode a FUNCCODE_READ_DISCRETE_INPUTS frame := by
        simp [response_switch]
      rw [e]
      exact wp_mono _ _ _ _ _ _ (response_READ_COILS_spec K mode a _ frame s0 s bs hrun)
        (fun fr s1 h => Or.inl ⟨hk, h⟩) (fun _ h => h)
    · subst h
      have e : response_switch K mode a FUNCCODE_READ_HOLDING_REGISTERS frame = response_READ_HOLDING_REGISTERS K mode a FUNCCODE_READ_HOLDING_REGISTERS frame := by
        simp [response_switch]
      rw [e]
      exact wp_mono _ _ _ _ _ _ (response_READ_HOLDING_REGISTERS_spec K mode a _ frame s0 s bs hrun)
        (fun fr s1 h => Or.inl ⟨hk, h⟩) (fun _ h => h)
    · subst h
      have e : response_switch K mode a FUNCCODE_READ_INPUT_REGISTER frame = response_READ_HOLDING_REGISTERS K mode a FUNCCODE_READ_INPUT_REGISTER frame := by
        simp [response_switch]
      rw [e]
      exact wp_mono _ _ _ _ _ _ (response_READ_HOLDING_REGISTERS_spec K mode a _ frame s0 s bs hrun)
        (fun fr s1 h => Or.inl ⟨hk, h⟩) (fun _ h => h)
    · subst h
      have e : response_switch K mode a FUNCCODE_WRITE_SINGLE_COIL frame = response_WRITE_SINGLE_COIL K mode a FUNCCODE_WRITE_SINGLE_COIL frame := by
        simp [response_switch]
      rw [e]
      exact wp_mono _ _ _ _ _ _ (response_WRITE_SINGLE_COIL_spec K mode a _ frame s0 s bs hrun)
        (fun fr s1 h => Or.inl ⟨hk, h⟩) (fun _ h => h)
    · subst h
      have e : response_switch K mode a FUNCCODE_WRITE_SINGLE_REGISTER frame = response_WRITE_SINGLE_COIL K mode a FUNCCODE_WRITE_SINGLE_REGISTER frame := by
        simp [response_switch]
      rw [e]
      exact wp_mono _ _ _ _ _ _ (response_WRITE_SINGLE_COIL_spec K mode a _ frame s0 s bs hrun)
        (fun fr s1 h => Or.inl ⟨hk, h⟩) (fun _ h => h)
    · subst h
      have e : response_switch K mode a FUNCCODE_READ_EXCEPTION_STATUS frame = response_READ_EXCEPTION_STATUS K mode a FUNCCODE_READ_EXCEPTION_STATUS frame := by
        simp [response_switch]
      rw [e]
      exact wp_mono _ _ _ _ _ _ (response_READ_EXCEPTION_STATUS_spec K mode a _ frame s0 s bs hrun)
        (fun fr s1 h => Or.inl ⟨hk, h⟩) (fun _ h => h)
    · subst h
      have e : response_switch K mode a FUNCCODE_DIAGNOSTIC frame = response_WRITE_SINGLE_COIL K mode a FUNCCODE_DIAGNOSTIC frame := by
        simp [response_switch]
      rw [e]
      exact wp_mono _ _ _ _ _ _ (response_WRITE_SINGLE_COIL_spec K mode a _ frame s0 s bs hrun)
        (fun fr s1 h => Or.inl ⟨hk, h⟩) (fun _ h => h)
    · subst h
      have e : response_switch K mode a FUNCCODE_GET_COM_EVENT_COUNTER frame = response_WRITE_SINGLE_COIL K mode a FUNCCODE_GET_COM_EVENT_COUNTER frame := by
        simp [response_switch]
      rw [e]
      exact wp_mono _ _ _ _ _ _ (response_WRITE_SINGLE_COIL_spec K mode a _ frame s0 s bs hrun)
        (fun fr s1 h => Or.inl ⟨hk, h⟩) (fun _ h => h)
    · subst h
      have e : response_switch K mode a FUNCCODE_GET_COM_EVENT_LOG frame = response_GET_COM_EVENT_LOG K mode a FUNCCODE_GET_COM_EVENT_LOG frame := by
        simp [response_switch]
      rw [e]
      exact wp_mono _ _ _ _ _ _ (response_GET_COM_EVENT_LOG_spec K mode a _ frame s0 s bs hrun)
        (fun fr s1 h => Or.inl ⟨hk, h⟩) (fun _ h => h)
    · subst h
      have e : response_switch K mode a FUNCCODE_WRITE_MULTIPLE_COILS frame = response_WRITE_SINGLE_COIL K mode a FUNCCODE_WRITE_MULTIPLE_COILS frame := by
        simp [response_switch]
      rw [e]
      exact wp_mono _ _ _ _ _ _ (response_WRITE_SINGLE_COIL_spec K mode a _ frame s0 s bs hrun)
        (fun fr s1 h => Or.inl ⟨hk, h⟩) (fun _ h => h)
    · subst h
      have e : response_switch K mode a FUNCCODE_WRITE_MULTIPLE_REGISTERS frame = response_WRITE_SINGLE_COIL K mode a FUNCCODE_WRITE_MULTIPLE_REGISTERS frame := by
        simp [response_switch]
      rw [e]
      exact wp_mono _ _ _ _ _ _ (response_WRITE_SINGLE_COIL_spec K mode a _ frame s0 s bs hrun)
        (fun fr s1 h => Or.inl ⟨hk, h⟩) (fun _ h => h)
    · subst h
      have e : response_switch K mode a FUNCCODE_REPORT_SERVER_ID frame = response_READ_COILS K mode a FUNCCODE_REPORT_SERVER_ID frame := by
        simp [response_switch]
      rw [e]
      exact wp_mono _ _ _ _ _ _ (response_READ_COILS_spec K mode a _ frame s0 s bs hrun)
        (fun fr s1 h => Or.inl ⟨hk, h⟩) (fun _ h => h)
    · subst h
      have e : response_switch K mode a FUNCCODE_READ_FILE_RECORD frame = response_READ_FILE_RECORD K mode a FUNCCODE_READ_FILE_RECORD frame := by
        simp [response_switch]
      rw [e]
      exact wp_mono _ _ _ _ _ _ (response_READ_FILE_RECORD_spec K mode a _ frame s0 s bs hrun)
        (fun fr s1 h => Or.inl ⟨hk, h⟩) (fun _ h => h)
    · subst h
      have e : response_switch K mode a FUNCCODE_WRITE_FILE_RECORD frame = response_WRITE_FILE_RECORD K mode a FUNCCODE_WRITE_FILE_RECORD frame := by
        simp [response_switch]
      rw [e]
      exact wp_mono _ _ _ _ _ _ (response_WRITE_FILE_RECORD_spec K mode a _ frame s0 s bs hrun)
        (fun fr s1 h => Or.inl ⟨hk, h⟩) (fun _ h => h)
    · subst h
      have e : response_switch K mode a FUNCCODE_MASK_WRITE_REGISTER frame = response_MASK_WRITE_REGISTER K mode a FUNCCODE_MASK_WRITE_REGISTER frame := by
        simp [response_switch]
      rw [e]
      exact wp_mono _ _ _ _ _ _ (response_MASK_WRITE_REGISTER_spec K mode a _ frame s0 s bs hrun)
        (fun fr s1 h => Or.inl ⟨hk, h⟩) (fun _ h => h)
    · subst h
      have e : response_switch K mode a FUNCCODE_READWRITE_MULTIPLE_REGISTERS frame = response_READ_HOLDING_REGISTERS K mode a FUNCCODE_READWRITE_MULTIPLE_REGISTERS frame := by
        simp [response_switch]
      rw [e]
      exact wp_mono _ _ _ _ _ _ (response_READ_HOLDING_REGISTERS_spec K mode a _ frame s0 s bs hrun)
        (fun fr s1 h => Or.inl ⟨hk, h⟩) (fun _ h => h)
    · subst h
      have e : response_switch K mode a FUNCCODE_READ_FIFO_QUEUE frame = response_READ_FIFO_QUEUE K mode a FUNCCODE_READ_FIFO_QUEUE frame := by
        simp [response_switch]
      rw [e]
      exact wp_mono _ _ _ _ _ _ (response_READ_FIFO_QUEUE_spec K mode a _ frame s0 s bs hrun)
        (fun fr s1 h => Or.inl ⟨hk, h⟩) (fun _ h => h)
  · rw [response_switch_unknown K mode a f frame hk, wp_pure]
    exact Or.inr ⟨hk, hrun, rfl⟩

theorem wp_chars_left (Q : Nat → Analyzer → Prop) (B : Analyzer → Prop) :
    wp chars_left Q B = fun s => Q s.mModbus.length s := by
  funext s
  unfold wp
  rfl

theorem response_exception_single (K : FlagBits) (mode : Mode) (a f : Nat) (frame : Frame)
    (s0 s : Analyzer) (bs : List Nat) (hrun : Run mode s0 bs [] s) :
    wp (response_exception K mode a f frame)
      (fun fr s1 => ∃ v ck, Run mode s0 (bs ++ ([v] ++ ck)) [] s1
        ∧ ck.length = (if mode = .ModbusRTUServer ∨ mode = .ModbusRTUBoth then 2 else 1)
        ∧ fr.mFlags = flagged K K.FLAG_EXCEPTION_FRAME
            (received_bad (decide (mode = .ModbusRTUServer ∨ mode = .ModbusRTUBoth)) [a, f, v] ck))
      (Waiting s0 (fun fs => fs = [])) s := by
  have hP : (fun fs : List Frame => fs = []) [] := rfl
  simp only [response_exception, wp_bind]
  refine wp_read hrun hP (fun v1 s1 h1 => ?_)
  by_cases hc : mode = .ModbusRTUServer ∨ mode = .ModbusRTUBoth
  · simp only [hc, if_true, wp_bind]
    refine single_frame_CRC_wp _ _ h1 hP (fun c0 c1 s9 h9 => ?_)
    simp only [wp_pure]
    refine ⟨v1, [c0, c1], by simpa using h9, by simp, ?_⟩
    simp [received_bad, flag_if, flagged]
  · simp only [hc, if_false, wp_bind]
    refine single_frame_LRC_wp _ _ h1 hP (fun c0 s9 h9 => ?_)
    simp only [wp_pure]
    refine ⟨v1, [c0], by simpa using h9, by simp, ?_⟩
    simp [received_bad, flag_if, flagged]

theorem GetNextByteModbus_consumes (mode : Mode) (s s1 : Analyzer) (v : Nat)
    (h : GetNextByteModbus mode s = .ret v s1) : s1.mModbus.length < s.mModbus.length := by
  obtain ⟨w, sf, ef, res⟩ := s
  by_cases hm : mode = .ModbusRTUClient ∨ mode = .ModbusRTUServer ∨ mode = .ModbusRTUBoth
  · cases w with
    | nil => simp [GetNextByteModbus, nextChar, set_starting_frame, set_ending_frame, hm] at h
    | cons c w =>
      simp [GetNextByteModbus, nextChar, set_starting_frame, set_ending_frame, hm] at h
      obtain ⟨_, rfl⟩ := h
      simp
  · rcases w with _ | ⟨c, _ | ⟨c2, w⟩⟩
    · simp [GetNextByteModbus, nextChar, set_starting_frame, set_ending_frame, hm] at h
    · by_cases hd : c.data = 0x3A ∨ c.data = 0x0A ∨ c.data = 0x0D
      · simp [GetNextByteModbus, nextChar, set_starting_frame, set_ending_frame, hm, hd] at h
        obtain ⟨_, rfl⟩ := h
        simp
      · simp [GetNextByteModbus, nextChar, set_starting_frame, set_ending_frame, hm, hd] at h
    · by_cases hd : c.data = 0x3A ∨ c.data = 0x0A ∨ c.data = 0x0D
      · simp [GetNextByteModbus, nextChar, set_starting_frame, set_ending_frame, hm, hd] at h
        obtain ⟨_, rfl⟩ := h
        simp
      · simp [GetNextByteModbus, nextChar, set_starting_frame, set_ending_frame, hm, hd] at h
        obtain ⟨_, rfl⟩ := h
        simp
        omega

theorem wp_read_len {mode : Mode} {s0 s : Analyzer} {bs : List Nat} {fs : List Frame}
    {P : List Frame → Prop} {Q : Nat → Analyzer → Prop}
    (hrun : Run mode s0 bs fs s) (hP : P fs)
    (hQ : ∀ v s1, Run mode s0 (bs ++ [v]) fs s1 → s1.mModbus.length < s.mModbus.length →
      Q v s1) :
    wp (GetNextByteModbus mode) Q (Waiting s0 P) s := by
  unfold wp
  cases hm : GetNextByteModbus mode s with
  | ret v s1 => exact hQ v s1 (Run.read hrun hm) (GetNextByteModbus_consumes mode s s1 v hm)
  | blocked s1 =>
    exact ⟨⟨fs, by rw [(GetNextByteModbus_results mode s).2 s1 hm, hrun.results], hP⟩,
      GetNextByteModbus_blocked mode s s1 hm⟩

theorem find_start_of_frame_wp {mode : Mode} {s0 : Analyzer} {P : List Frame → Prop}
    {Q : Frame → Analyzer → Prop} :
    ∀ (fuel : Nat) (frame : Frame) (bs : List Nat) (fs : List Frame) (s : Analyzer),
      Run mode s0 bs fs s → P fs → s.mModbus.length < fuel →
      (∀ pre fr s1, Run mode s0 (bs ++ pre) fs s1 → start_of_frame pre → Q fr s1) →
      wp (find_start_of_frame mode fuel frame) Q (Waiting s0 P) s := by
  intro fuel
  induction fuel with
  | zero =>
    intro frame bs fs s _ _ hlen _
    omega
  | succ fuel ih =>
    intro frame bs fs s hrun hP hlen hQ
    simp only [find_start_of_frame, wp_bind]
    refine wp_read_len hrun hP (fun v1 s1 h1 hl => ?_)
    simp only [wp_get_starting_frame]
    split
    · rename_i hne
      refine ih _ _ _ s1 h1 hP (by omega) (fun pre fr s2 h2 hpre => ?_)
      obtain ⟨junk, c, rfl, hc, hj⟩ := hpre
      refine hQ ([v1] ++ (junk ++ [c])) fr s2 (by simpa using h2) ⟨v1 :: junk, c, by simp, hc, ?_⟩
      intro j hjm
      rcases List.mem_cons.mp hjm with rfl | hjm
      · exact hne
      · exact hj j hjm
    · rename_i he
      simp only [wp_pure]
      exact hQ [v1] _ s1 h1 ⟨[], v1, rfl, by simpa using he, by simp⟩

theorem waiting_unfinished {K : FlagBits} {s0 s1 : Analyzer} {h : Nat}
    (hh : h = K.FLAG_REQUEST_FRAME ∨ h = K.FLAG_RESPONSE_FRAME)
    (hw : Waiting s0 (emitted_so_far K h) s1) : Waiting s0 (message_unfinished K) s1 := by
  obtain ⟨⟨fs, hres, he⟩, hw0⟩ := hw
  refine ⟨⟨fs, hres, ?_⟩, hw0⟩
  rcases he with rfl | ⟨hdr, mids, rfl, hf, hm⟩
  · exact Or.inl rfl
  · exact Or.inr ⟨hdr, mids, rfl, by rw [hf]; exact hh, hm⟩

theorem waiting_nil_unfinished {K : FlagBits} {s0 s1 : Analyzer}
    (hw : Waiting s0 (fun fs => fs = []) s1) : Waiting s0 (message_unfinished K) s1 := by
  obtain ⟨⟨fs, hres, he⟩, hw0⟩ := hw
  exact ⟨⟨fs, hres, Or.inl he⟩, hw0⟩

theorem unfinished_of_body {K : FlagBits} {h : Nat} {bad : Bool} {fs : List Frame} {fr : Frame}
    (hc : case_frames K h bad fs fr)
    (hk : h = K.FLAG_REQUEST_FRAME ∨ h = K.FLAG_RESPONSE_FRAME ∨ fs = []) :
    message_unfinished K fs := by
  rcases hc with ⟨rfl, _⟩ | ⟨hdr, mids, rfl, hf, hm, _⟩
  · exact Or.inl rfl
  · refine Or.inr ⟨hdr, mids, rfl, ?_, hm⟩
    rcases hk with h1 | h1 | h1
    · exact Or.inl (hf.trans h1)
    · exact Or.inr (hf.trans h1)
    · cases h1

theorem body_of_request_switch {K : FlagBits} {mode : Mode} {crc : Bool} {s0 s1 : Analyzer}
    {pre : List Nat} {a f : Nat} {fr : Frame}
    (hsw : switch_post K mode crc s0 (pre ++ [a, f]) a f K.FLAG_REQUEST_FRAME fr s1) :
    body_post K mode crc false s0 pre a f fr s1 := by
  rcases hsw with ⟨hk, msg, ck, fs, hrun, hlen, hcf⟩ | ⟨hk, hrun, hfl⟩
  · have hc : checked false f = true := by simp [checked, hk]
    refine ⟨msg, ck, fs, by simpa using hrun, by simpa [hc] using hlen, by simp [hc], ?_,
      Or.inl (by simp [header_kind])⟩
    simpa [hc, header_kind] using hcf
  · have hc : checked false f = false := by simp [checked, hk]
    refine ⟨[], [], [], by simpa using hrun, by simp [hc], fun _ => rfl, ?_,
      Or.inl (by simp [header_kind])⟩
    exact Or.inl ⟨rfl, by simp [hc, header_kind, flagged, hfl]⟩

theorem body_of_response_switch {K : FlagBits} {mode : Mode} {crc : Bool} {s0 s1 : Analyzer}
    {pre : List Nat} {a f : Nat} {fr : Frame} (hf : f &&& 0x80 = 0)
    (hsw : switch_post K mode crc s0 (pre ++ [a, f]) a f K.FLAG_RESPONSE_FRAME fr s1) :
    body_post K mode crc true s0 pre a f fr s1 := by
  rcases hsw with ⟨hk, msg, ck, fs, hrun, hlen, hcf⟩ | ⟨hk, hrun, hfl⟩
  · have hc : checked true f = true := by simp [checked, hk]
    refine ⟨msg, ck, fs, by simpa using hrun, by simpa [hc] using hlen, by simp [hc], ?_,
      Or.inr (Or.inl (by simp [header_kind, hf]))⟩
    simpa [hc, header_kind, hf] using hcf
  · have hc : checked true f = false := by simp [checked, hk, hf]
    refine ⟨[], [], [], by simpa using hrun, by simp [hc], fun _ => rfl, ?_,
      Or.inr (Or.inl (by simp [header_kind, hf]))⟩
    exact Or.inl ⟨rfl, by simp [hc, header_kind, flagged, hfl, hf]⟩

theorem body_of_exception {K : FlagBits} {mode : Mode} (crc : Bool) {s0 s1 : Analyzer}
    {pre : List Nat} {a f : Nat} {fr : Frame} (hf : ¬ f &&& 0x80 = 0)
    (hcrc : crc = decide (mode = .ModbusRTUServer ∨ mode = .ModbusRTUBoth))
    (hex : ∃ v ck, Run mode s0 ((pre ++ [a, f]) ++ ([v] ++ ck)) [] s1
        ∧ ck.length = (if mode = .ModbusRTUServer ∨ mode = .ModbusRTUBoth then 2 else 1)
        ∧ fr.mFlags = flagged K K.FLAG_EXCEPTION_FRAME
            (received_bad (decide (mode = .ModbusRTUServer ∨ mode = .ModbusRTUBoth)) [a, f, v] ck)) :
    body_post K mode crc true s0 pre a f fr s1 := by
  obtain ⟨v, ck, hrun, hlen, hfl⟩ := hex
  have hc : checked true f = true := by simp [checked, hf]
  subst hcrc
  refine ⟨[v], ck, [], by simpa using hrun, ?_, by simp [hc], ?_, Or.inr (Or.inr rfl)⟩
  · rw [hlen]
    simp [hc]
  · exact Or.inl ⟨rfl, by simp [hc, header_kind, hf, hfl]⟩

theorem parse_of_body_rtu {K : FlagBits} {mode : Mode} {resp : Bool} {s0 s1 : Analyzer}
    {a f : Nat} {fr : Frame} (hb : body_post K mode true resp s0 [] a f fr s1) :
    parse_post K mode true resp s0 fr s1 := by
  obtain ⟨msg, ck, fs, hrun, hlen, hm, hcf, hk⟩ := hb
  exact ⟨[], a, f, msg, ck, [], fs, by simpa using hrun, by simp, hlen, hm, hcf, hk⟩

theorem trailer_wp {K : FlagBits} {mode : Mode} {resp : Bool} {s0 s1 : Analyzer}
    {pre : List Nat} {a f : Nat} {fr : Frame} (hpre : start_of_frame pre)
    (hb : body_post K mode false resp s0 pre a f fr s1) :
    wp (GetNextByteModbus mode)
      (fun _ => wp (GetNextByteModbus mode) (fun _ => parse_post K mode false resp s0 fr)
        (Waiting s0 (message_unfinished K)))
      (Waiting s0 (message_unfinished K)) s1 := by
  obtain ⟨msg, ck, fs, hrun, hlen, hm, hcf, hk⟩ := hb
  have hP := unfinished_of_body hcf hk
  refine wp_read hrun hP (fun t0 s2 h2 => ?_)
  refine wp_read h2 hP (fun t1 s3 h3 => ?_)
  exact ⟨pre, a, f, msg, ck, [t0, t1], fs, by simpa using h3, by simp [hpre], hlen, hm, hcf, hk⟩

theorem parse_ModbusRTUClient (K : FlagBits) (pr : Bool) (s : Analyzer) :
    wp (WorkerThread_parse K .ModbusRTUClient pr)
      (parse_post K .ModbusRTUClient true false s)
      (Waiting s (message_unfinished K)) s := by
  have hP0 : message_unfinished K [] := Or.inl rfl
  simp [WorkerThread_parse, request_role, response_role, wp_bind, wp_pure,
    wp_get_starting_frame, wp_chars_left]
  refine wp_read Run.start hP0 (fun a s1 h1 => ?_)
  refine wp_read h1 hP0 (fun f s2 h2 => ?_)
  refine wp_mono _ _ _ _ _ _
    (request_switch_spec K _ a f _ s s2 ([] ++ [a, f]) (by simpa using h2)) ?_ ?_
  · intro fr s3 h3
    have hb := body_of_request_switch h3
    exact parse_of_body_rtu hb
  · intro s3 hw
    exact waiting_unfinished (by simp) hw

theorem parse_ModbusRTUBoth_false (K : FlagBits) (s : Analyzer) :
    wp (WorkerThread_parse K .ModbusRTUBoth false)
      (parse_post K .ModbusRTUBoth true false s)
      (Waiting s (message_unfinished K)) s := by
  have hP0 : message_unfinished K [] := Or.inl rfl
  simp [WorkerThread_parse, request_role, response_role, wp_bind, wp_pure,
    wp_get_starting_frame, wp_chars_left]
  refine wp_read Run.start hP0 (fun a s1 h1 => ?_)
  refine wp_read h1 hP0 (fun f s2 h2 => ?_)
  refine wp_mono _ _ _ _ _ _
    (request_switch_spec K _ a f _ s s2 ([] ++ [a, f]) (by simpa using h2)) ?_ ?_
  · intro fr s3 h3
    have hb := body_of_request_switch h3
    exact parse_of_body_rtu hb
  · intro s3 hw
    exact waiting_unfinished (by simp) hw

theorem parse_ModbusASCIIClient (K : FlagBits) (pr : Bool) (s : Analyzer) :
    wp (WorkerThread_parse K .ModbusASCIIClient pr)
      (parse_post K .ModbusASCIIClient false false s)
      (Waiting s (message_unfinished K)) s := by
  have hP0 : message_unfinished K [] := Or.inl rfl
  simp [WorkerThread_parse, request_role, response_role, wp_bind, wp_pure,
    wp_get_starting_frame, wp_chars_left]
  refine find_start_of_frame_wp _ _ [] [] s Run.start hP0 (by omega)
    (fun pre fr0 s0 h0 hpre => ?_)
  refine wp_read h0 hP0 (fun a s1 h1 => ?_)
  refine wp_read h1 hP0 (fun f s2 h2 => ?_)
  refine wp_mono _ _ _ _ _ _
    (request_switch_spec K _ a f _ s s2 (pre ++ [a, f]) (by simpa using h2)) ?_ ?_
  · intro fr s3 h3
    have hb := body_of_request_switch h3
    exact trailer_wp hpre hb
  · intro s3 hw
    exact waiting_unfinished (by simp) hw

theorem parse_ModbusASCIIBoth_false (K : FlagBits) (s : Analyzer) :
    wp (WorkerThread_parse K .ModbusASCIIBoth false)
      (parse_post K .ModbusASCIIBoth false false s)
      (Waiting s (message_unfinished K)) s := by
  have hP0 : message_unfinished K [] := Or.inl rfl
  simp [WorkerThread_parse, request_role, response_role, wp_bind, wp_pure,
    wp_get_starting_frame, wp_chars_left]
  refine find_start_of_frame_wp _ _ [] [] s Run.start hP0 (by omega)
    (fun pre fr0 s0 h0 hpre => ?_)
  refine wp_read h0 hP0 (fun a s1 h1 => ?_)
  refine wp_read h1 hP0 (fun f s2 h2 => ?_)
  refine wp_mono _ _ _ _ _ _
    (request_switch_spec K _ a f _ s s2 (pre ++ [a, f]) (by simpa using h2)) ?_ ?_
  · intro fr s3 h3
    have hb := body_of_request_switch h3
    exact trailer_wp hpre hb
  · intro s3 hw
    exact waiting_unfinished (by simp) hw

theorem parse_ModbusRTUServer (K : FlagBits) (pr : Bool) (s : Analyzer) :
    wp (WorkerThread_parse K .ModbusRTUServer pr)
      (parse_post K .ModbusRTUServer true true s)
      (Waiting s (message_unfinished K)) s := by
  have hP0 : message_unfinished K [] := Or.inl rfl
  simp [WorkerThread_parse, request_role, response_role, wp_bind, wp_pure,
    wp_get_starting_frame, wp_chars_left]
  refine wp_read Run.start hP0 (fun a s1 h1 => ?_)
  refine wp_read h1 hP0 (fun f s2 h2 => ?_)
  split
  · rename_i hf
    simp only [wp_bind, wp_pure]
    refine wp_mono _ _ _ _ _ _
      (response_switch_spec K _ a f _ s s2 ([] ++ [a, f]) (by simpa using h2)) ?_ ?_
    · intro fr s3 h3
      have hb := body_of_response_switch hf h3
      exact parse_of_body_rtu hb
    · intro s3 hw
      exact waiting_unfinished (by simp) hw
  · rename_i hf
    simp only [wp_bind, wp_pure]
    refine wp_mono _ _ _ _ _ _
      (response_exception_single K _ a f _ s s2 ([] ++ [a, f]) (by simpa using h2)) ?_ ?_
    · intro fr s3 h3
      have hb := body_of_exception true hf (by simp) h3
      exact parse_of_body_rtu hb
    · intro s3 hw
      exact waiting_nil_unfinished hw

theorem parse_ModbusRTUBoth_true (K : FlagBits) (s : Analyzer) :
    wp (WorkerThread_parse K .ModbusRTUBoth true)
      (parse_post K .ModbusRTUBoth true true s)
      (Waiting s (message_unfinished K)) s := by
  have hP0 : message_unfinished K [] := Or.inl rfl
  simp [WorkerThread_parse, request_role, response_role, wp_bind, wp_pure,
    wp_get_starting_frame, wp_chars_left]
  refine wp_read Run.start hP0 (fun a s1 h1 => ?_)
  refine wp_read h1 hP0 (fun f s2 h2 => ?_)
  split
  · rename_i hf
    simp only [wp_bind, wp_pure]
    refine wp_mono _ _ _ _ _ _
      (response_switch_spec K _ a f _ s s2 ([] ++ [a, f]) (by simpa using h2)) ?_ ?_
    · intro fr s3 h3
      have hb := body_of_response_switch hf h3
      exact parse_of_body_rtu hb
    · intro s3 hw
      exact waiting_unfinished (by simp) hw
  · rename_i hf
    simp only [wp_bind, wp_pure]
    refine wp_mono _ _ _ _ _ _
      (response_exception_single K _ a f _ s s2 ([] ++ [a, f]) (by simpa using h2)) ?_ ?_
    · intro fr s3 h3
      have hb := body_of_exception true hf (by simp) h3
      exact parse_of_body_rtu hb
    · intro s3 hw
      exact waiting_nil_unfinished hw

theorem parse_ModbusASCIIServer (K : FlagBits) (pr : Bool) (s : Analyzer) :
    wp (WorkerThread_parse K .ModbusASCIIServer pr)
      (parse_post K .ModbusASCIIServer false true s)
      (Waiting s (message_unfinished K)) s := by
  have hP0 : message_unfinished K [] := Or.inl rfl
  simp [WorkerThread_parse, request_role, response_role, wp_bind, wp_pure,
    wp_get_starting_frame, wp_chars_left]
  refine find_start_of_frame_wp _ _ [] [] s Run.start hP0 (by omega)
    (fun pre fr0 s0 h0 hpre => ?_)
  refine wp_read h0 hP0 (fun a s1 h1 => ?_)
  refine wp_read h1 hP0 (fun f s2 h2 => ?_)
  split
  · rename_i hf
    simp only [wp_bind, wp_pure]
    refine wp_mono _ _ _ _ _ _
      (response_switch_spec K _ a f _ s s2 (pre ++ [a, f]) (by simpa using h2)) ?_ ?_
    · intro fr s3 h3
      have hb := body_of_response_switch hf h3
      exact trailer_wp hpre hb
    · intro s3 hw
      exact waiting_unfinished (by simp) hw
  · rename_i hf
    simp only [wp_bind, wp_pure]
    refine wp_mono _ _ _ _ _ _
      (response_exception_single K _ a f _ s s2 (pre ++ [a, f]) (by simpa using h2)) ?_ ?_
    · intro fr s3 h3
      have hb := body_of_exception false hf (by simp) h3
      exact trailer_wp hpre hb
    · intro s3 hw
      exact waiting_nil_unfinished hw

theorem parse_ModbusASCIIBoth_true (K : FlagBits) (s : Analyzer) :
    wp (WorkerThread_parse K .ModbusASCIIBoth true)
      (parse_post K .ModbusASCIIBoth false true s)
      (Waiting s (message_unfinished K)) s := by
  have hP0 : message_unfinished K [] := Or.inl rfl
  simp [WorkerThread_parse, request_role, response_role, wp_bind, wp_pure,
    wp_get_starting_frame, wp_chars_left]
  refine find_start_of_frame_wp _ _ [] [] s Run.start hP0 (by omega)
    (fun pre fr0 s0 h0 hpre => ?_)
  refine wp_read h0 hP0 (fun a s1 h1 => ?_)
  refine wp_read h1 hP0 (fun f s2 h2 => ?_)
  split
  · rename_i hf
    simp only [wp_bind, wp_pure]
    refine wp_mono _ _ _ _ _ _
      (response_switch_spec K _ a f _ s s2 (pre ++ [a, f]) (by simpa using h2)) ?_ ?_
    · intro fr s3 h3
      have hb := body_of_response_switch hf h3
      exact trailer_wp hpre hb
    · intro s3 hw
      exact waiting_unfinished (by simp) hw
  · rename_i hf
    simp only [wp_bind, wp_pure]
    refine wp_mono _ _ _ _ _ _
      (response_exception_single K _ a f _ s s2 (pre ++ [a, f]) (by simpa using h2)) ?_ ?_
    · intro fr s3 h3
      have hb := body_of_exception false hf (by simp) h3
      exact trailer_wp hpre hb
    · intro s3 hw
      exact waiting_nil_unfinished hw

theorem WorkerThread_parse_spec (K : FlagBits) (mode : Mode) (pr : Bool) (s : Analyzer)
    (hmode : is_modbus mode) :
    wp (WorkerThread_parse K mode pr) (parse_post K mode (is_rtu mode) (is_response mode pr) s)
      (Waiting s (message_unfinished K)) s := by
  rcases hmode with rfl | rfl | rfl | rfl | rfl | rfl
  · exact parse_ModbusRTUClient K pr s
  · exact parse_ModbusRTUServer K pr s
  · cases pr
    · exact parse_ModbusRTUBoth_false K s
    · exact parse_ModbusRTUBoth_true K s
  · exact parse_ModbusASCIIClient K pr s
  · exact parse_ModbusASCIIServer K pr s
  · cases pr
    · exact parse_ModbusASCIIBoth_false K s
    · exact parse_ModbusASCIIBoth_true K s

theorem WorkerThread_message_spec (K : FlagBits) (mode : Mode) (pr : Bool) (s : Analyzer)
    (hmode : is_modbus mode) :
    wp (WorkerThread_message K mode pr)
      (fun b s1 => b = (!pr) ∧ message_post K mode (is_rtu mode) (is_response mode pr) s s1)
      (Waiting s (message_unfinished K)) s := by
  simp only [WorkerThread_message, wp_bind]
  refine wp_mono _ _ _ _ _ _ (WorkerThread_parse_spec K mode pr s hmode) ?_ (fun _ h => h)
  intro fr s1 hp
  obtain ⟨pre, a, f, msg, ck, post, fs, hrun, hpp, hlen, hm, hcf, hk⟩ := hp
  simp only [wp_get_ending_frame, wp_bind]
  refine wp_AddFrame _ hrun (fun df s2 hdf h2 => ?_)
  simp only [wp_pure]
  refine ⟨trivial, pre, a, f, msg, ck, post, fs, df, h2, hpp, hlen, hm, ?_, hk⟩
  subst hdf
  exact hcf

theorem or_and_self_ne (x c : Nat) (hc : c ≠ 0) : (x ||| c) &&& c ≠ 0 := by
  have : (x ||| c) &&& c = c := by
    apply Nat.eq_of_testBit_eq
    intro i
    simp only [Nat.testBit_and, Nat.testBit_or]
    cases x.testBit i <;> cases c.testBit i <;> rfl
  rw [this]
  exact hc

theorem flagged_error (K : FlagBits) (x : Nat) (bad : Bool) (fr : Frame)
    (hc : K.FLAG_CHECKSUM_ERROR ≠ 0) (hx : x &&& K.FLAG_CHECKSUM_ERROR = 0)
    (hf : fr.mFlags = flagged K x bad) : has_checksum_error K fr ↔ bad = true := by
  unfold has_checksum_error
  rw [hf]
  cases bad
  · simp [flagged, hx]
  · simpa [flagged] using or_and_self_ne x _ hc

theorem mid_no_error (K : FlagBits) (hK : checksum_bit_apart K) (m : Frame)
    (hm : is_mid K m) : ¬ has_checksum_error K m := by
  obtain ⟨_, _, _, _, h4, h5, _⟩ := hK
  unfold has_checksum_error
  rcases hm with h | h <;> rw [h] <;> simp [h4, h5]

theorem unfinished_no_error (K : FlagBits) (hK : checksum_bit_apart K) (fs : List Frame)
    (hp : message_unfinished K fs) : ∀ x ∈ fs, ¬ has_checksum_error K x := by
  rcases hp with rfl | ⟨hdr, mids, rfl, hh, hm⟩
  · simp
  · intro x hx
    rcases List.mem_cons.mp hx with rfl | hx
    · obtain ⟨_, h1, h2, _⟩ := hK
      unfold has_checksum_error
      rcases hh with h | h <;> rw [h] <;> simp [h1, h2]
    · exact mid_no_error K hK x (hm x hx)

/-- C16: in each of the six Modbus modes, from any analyzer state (any character
stream) and for either value of `processingResponse`, one pass of the dispatcher
loop that completes hands over either a single frame whose kind is REQUEST,
RESPONSE or EXCEPTION, or one header frame (flags exactly REQUEST or exactly
RESPONSE), then only DATA and FILE_SUBREQ frames, then one END frame; a pass that
runs out of characters has handed over nothing, or such a header followed by DATA
and FILE_SUBREQ frames only. -/
theorem message_frames_shape (K : FlagBits) (mode : Mode) (pr : Bool) (s : Analyzer)
    (hmode : is_modbus mode) :
    match WorkerThread_message K mode pr s with
    | .ret _ s1 => ∃ fs, s1.mResults = s.mResults ++ fs ∧ message_shape K fs
    | .blocked s1 => ∃ fs, s1.mResults = s.mResults ++ fs ∧ message_unfinished K fs := by
  have h := WorkerThread_message_spec K mode pr s hmode
  unfold wp at h
  cases hm : WorkerThread_message K mode pr s with
  | ret b s1 =>
    rw [hm] at h
    obtain ⟨_, pre, a, f, msg, ck, post, fs, last, hrun, _, _, _, hcf, hk⟩ := h
    refine ⟨fs ++ [last], hrun.results, ?_⟩
    rcases hcf with ⟨rfl, hl⟩ | ⟨hdr, mids, rfl, hh, hmid, hl⟩
    · refine Or.inl ⟨last, rfl, ?_⟩
      have hkind : is_kind K (header_kind K (is_response mode pr) f) last := by
        unfold flagged at hl
        split at hl
        · exact Or.inr hl
        · exact Or.inl hl
      unfold header_kind at hkind
      split at hkind
      · split at hkind
        · exact Or.inr (Or.inr hkind)
        · exact Or.inr (Or.inl hkind)
      · exact Or.inl hkind
    · refine Or.inr ⟨hdr, mids, last, rfl, ?_, hmid, ?_⟩
      · rcases hk with h1 | h1 | h1
        · exact Or.inl (hh.trans h1)
        · exact Or.inr (hh.trans h1)
        · cases h1
      · unfold flagged at hl
        split at hl
        · exact Or.inr hl
        · exact Or.inl hl
  | blocked s1 =>
    rw [hm] at h
    exact h.1

theorem message_frames_shape_witness :
    is_modbus .ModbusRTUClient ∧
    (match WorkerThread_message sampleFlags .ModbusRTUClient false
        ⟨sampleWire [0x01, 0x03, 0x00, 0x00, 0x00, 0x01, 0x84, 0x0A], 0, 0, []⟩ with
    | .ret _ s1 => ∃ fs, s1.mResults = [] ++ fs ∧ message_shape sampleFlags fs
    | .blocked s1 => ∃ fs, s1.mResults = [] ++ fs ∧ message_unfinished sampleFlags fs) :=
  ⟨Or.inl rfl, message_frames_shape sampleFlags .ModbusRTUClient false
    ⟨sampleWire [0x01, 0x03, 0x00, 0x00, 0x00, 0x01, 0x84, 0x0A], 0, 0, []⟩ (Or.inl rfl)⟩

/-- C17: in each of the six Modbus modes, from any analyzer state and for either
value of `processingResponse`, when the CHECKSUM_ERROR bit is apart from the kind
bits: a pass of the dispatcher loop that completes has read (after the ASCII
start-of-frame bytes) the address `a`, the function code `f`, message bytes `msg`
and checksum bytes `ck` (two in RTU, one in ASCII, none for a function code the
role has no `case` for), and of the frames it handed over none but the last has
CHECKSUM_ERROR, and the last has it iff the role compares a checksum for `f` and
the received one differs from the CRC (RTU) or LRC (ASCII) of `a, f, msg`; a pass
that runs out of characters has handed over no frame with CHECKSUM_ERROR. -/
theorem checksum_error_on_terminal_frame (K : FlagBits) (mode : Mode) (pr : Bool)
    (s : Analyzer) (hmode : is_modbus mode) (hK : checksum_bit_apart K) :
    match WorkerThread_message K mode pr s with
    | .ret _ s1 => ∃ pre a f msg ck post fs last,
        Run mode s (pre ++ a :: f :: (msg ++ ck) ++ post) (fs ++ [last]) s1
        ∧ s1.mResults = s.mResults ++ (fs ++ [last])
        ∧ (if is_rtu mode then pre = [] ∧ post = [] else start_of_frame pre ∧ post.length = 2)
        ∧ ck.length = (if checked (is_response mode pr) f then (if is_rtu mode then 2 else 1)
            else 0)
        ∧ (checked (is_response mode pr) f = false → msg = [])
        ∧ (∀ x ∈ fs, ¬ has_checksum_error K x)
        ∧ (has_checksum_error K last ↔
            (checked (is_response mode pr) f = true
              ∧ received_bad (is_rtu mode) (a :: f :: msg) ck = true))
    | .blocked s1 => ∃ fs, s1.mResults = s.mResults ++ fs ∧ ∀ x ∈ fs, ¬ has_checksum_error K x := by
  have h := WorkerThread_message_spec K mode pr s hmode
  unfold wp at h
  cases hm : WorkerThread_message K mode pr s with
  | ret b s1 =>
    rw [hm] at h
    obtain ⟨_, pre, a, f, msg, ck, post, fs, last, hrun, hpp, hlen, hmsg, hcf, hk⟩ := h
    refine ⟨pre, a, f, msg, ck, post, fs, last, hrun, hrun.results, hpp, hlen, hmsg, ?_, ?_⟩
    · exact unfinished_no_error K hK fs (unfinished_of_body hcf hk)
    · have hkx : header_kind K (is_response mode pr) f &&& K.FLAG_CHECKSUM_ERROR = 0 := by
        obtain ⟨_, h1, h2, h3, _⟩ := hK
        unfold header_kind
        split
        · split
          · exact h3
          · exact h2
        · exact h1
      rcases hcf with ⟨_, hl⟩ | ⟨hdr, mids, _, _, _, hl⟩
      · rw [flagged_error K _ _ last hK.1 hkx hl]
        simp
      · rw [flagged_error K _ _ last hK.1 hK.2.2.2.2.2.2 hl]
        simp
  | blocked s1 =>
    rw [hm] at h
    obtain ⟨⟨fs, hres, hp⟩, _⟩ := h
    exact ⟨fs, hres, unfinished_no_error K hK fs hp⟩

theorem checksum_error_on_terminal_frame_witness :
    is_modbus .ModbusASCIIServer ∧ checksum_bit_apart sampleFlags ∧
    (match WorkerThread_message sampleFlags .ModbusASCIIServer true
        ⟨sampleWire [0x3A, 0x30, 0x31, 0x38, 0x33, 0x30, 0x32, 0x37, 0x41, 0x0D, 0x0A], 0, 0, []⟩ with
    | .ret _ s1 => ∃ pre a f msg ck post fs last,
        Run .ModbusASCIIServer
          ⟨sampleWire [0x3A, 0x30, 0x31, 0x38, 0x33, 0x30, 0x32, 0x37, 0x41, 0x0D, 0x0A], 0, 0, []⟩
          (pre ++ a :: f :: (msg ++ ck) ++ post) (fs ++ [last]) s1
        ∧ s1.mResults = [] ++ (fs ++ [last])
        ∧ (if is_rtu .ModbusASCIIServer then pre = [] ∧ post = []
            else start_of_frame pre ∧ post.length = 2)
        ∧ ck.length = (if checked (is_response .ModbusASCIIServer true) f
            then (if is_rtu .ModbusASCIIServer then 2 else 1) else 0)
        ∧ (checked (is_response .ModbusASCIIServer true) f = false → msg = [])
        ∧ (∀ x ∈ fs, ¬ has_checksum_error sampleFlags x)
        ∧ (has_checksum_error sampleFlags last ↔
            (checked (is_response .ModbusASCIIServer true) f = true
              ∧ received_bad (is_rtu .ModbusASCIIServer) (a :: f :: msg) ck = true))
    | .blocked s1 => ∃ fs, s1.mResults = [] ++ fs ∧ ∀ x ∈ fs, ¬ has_checksum_error sampleFlags x) :=
  ⟨by simp [is_modbus], by unfold checksum_bit_apart; decide,
    checksum_error_on_terminal_frame sampleFlags .ModbusASCIIServer true
      ⟨sampleWire [0x3A, 0x30, 0x31, 0x38, 0x33, 0x30, 0x32, 0x37, 0x41, 0x0D, 0x0A], 0, 0, []⟩
      (by simp [is_modbus]) (by unfold checksum_bit_apart; decide)⟩

/-! ### Packing of the header word -/

theorem pack8_eq_sum (b7 b6 b5 b4 b3 b2 b1 b0 : Nat) (h7 : b7 < 256) (h6 : b6 < 256)
    (h5 : b5 < 256) (h4 : b4 < 256) (h3 : b3 < 256) (h2 : b2 < 256) (h1 : b1 < 256)
    (h0 : b0 < 256) :
    pack8 b7 b6 b5 b4 b3 b2 b1 b0 =
      b7 * 2 ^ 56 + b6 * 2 ^ 48 + b5 * 2 ^ 40 + b4 * 2 ^ 32 + b3 * 2 ^ 24 + b2 * 2 ^ 16 +
        b1 * 2 ^ 8 + b0 := by
  unfold pack8 U64
  simp only [Nat.shiftLeft_eq]
  omega

theorem byte_field (x k : Nat) : (x >>> k) &&& 0xFF = x / 2 ^ k % 256 := by
  rw [Nat.shiftRight_eq_div_pow]
  exact Nat.and_pow_two_sub_one_eq_mod _ 8

/-- C40: for byte values below 256 the header packing written with additions,
`( a << 56 ) + ( f << 48 ) + ( p1 << 40 ) + ( p2 << 32 ) + ( p3 << 24 ) + ( p4 << 16 ) +
( c1 << 8 ) + c0`, stays below `2 ^ 64` (so the `U64` sum `pack8` is the exact sum),
equals the bitwise OR of the same terms, gives every field back as
`( data1 >> shift ) & 0xFF`, and two packings of bytes are equal iff the eight
bytes are equal. -/
theorem pack8_fields_injective (a f p1 p2 p3 p4 c1 c0 : Nat) (ha : a < 256) (hf : f < 256)
    (h1 : p1 < 256) (h2 : p2 < 256) (h3 : p3 < 256) (h4 : p4 < 256) (hc1 : c1 < 256)
    (hc0 : c0 < 256) :
    (a <<< 56) + (f <<< 48) + (p1 <<< 40) + (p2 <<< 32) + (p3 <<< 24) + (p4 <<< 16) + (c1 <<< 8)
        + c0 < 2 ^ 64
    ∧ pack8 a f p1 p2 p3 p4 c1 c0 =
        (a <<< 56) + (f <<< 48) + (p1 <<< 40) + (p2 <<< 32) + (p3 <<< 24) + (p4 <<< 16)
          + (c1 <<< 8) + c0
    ∧ pack8 a f p1 p2 p3 p4 c1 c0 =
        a <<< 56 ||| f <<< 48 ||| p1 <<< 40 ||| p2 <<< 32 ||| p3 <<< 24 ||| p4 <<< 16 |||
          c1 <<< 8 ||| c0
    ∧ (pack8 a f p1 p2 p3 p4 c1 c0 >>> 56) &&& 0xFF = a
    ∧ (pack8 a f p1 p2 p3 p4 c1 c0 >>> 48) &&& 0xFF = f
    ∧ (pack8 a f p1 p2 p3 p4 c1 c0 >>> 40) &&& 0xFF = p1
    ∧ (pack8 a f p1 p2 p3 p4 c1 c0 >>> 32) &&& 0xFF = p2
    ∧ (pack8 a f p1 p2 p3 p4 c1 c0 >>> 24) &&& 0xFF = p3
    ∧ (pack8 a f p1 p2 p3 p4 c1 c0 >>> 16) &&& 0xFF = p4
    ∧ (pack8 a f p1 p2 p3 p4 c1 c0 >>> 8) &&& 0xFF = c1
    ∧ (pack8 a f p1 p2 p3 p4 c1 c0 >>> 0) &&& 0xFF = c0
    ∧ ∀ a' f' q1 q2 q3 q4 d1 d0 : Nat, a' < 256 → f' < 256 → q1 < 256 → q2 < 256 →
        q3 < 256 → q4 < 256 → d1 < 256 → d0 < 256 →
        (pack8 a f p1 p2 p3 p4 c1 c0 = pack8 a' f' q1 q2 q3 q4 d1 d0 ↔
          (a = a' ∧ f = f' ∧ p1 = q1 ∧ p2 = q2 ∧ p3 = q3 ∧ p4 = q4 ∧ c1 = d1 ∧ c0 = d0)) := by
  have hs := pack8_eq_sum a f p1 p2 p3 p4 c1 c0 ha hf h1 h2 h3 h4 hc1 hc0
  refine ⟨?_, ?_, pack8_eq_or a f p1 p2 p3 p4 c1 c0 ha hf h1 h2 h3 h4 hc1 hc0,
    ?_, ?_, ?_, ?_, ?_, ?_, ?_, ?_, ?_⟩
  · simp only [Nat.shiftLeft_eq]
    omega
  · rw [hs]
    simp only [Nat.shiftLeft_eq]
  all_goals try (rw [byte_field, hs]; omega)
  intro a' f' q1 q2 q3 q4 d1 d0 ha' hf' g1 g2 g3 g4 gd1 gd0
  rw [hs, pack8_eq_sum a' f' q1 q2 q3 q4 d1 d0 ha' hf' g1 g2 g3 g4 gd1 gd0]
  constructor
  · intro h
    omega
  · rintro ⟨rfl, rfl, rfl, rfl, rfl, rfl, rfl, rfl⟩
    rfl

theorem pack8_fields_injective_witness :
    (0x11 <<< 56) + (0x03 <<< 48) + (0x00 <<< 40) + (0x6B <<< 32) + (0x00 <<< 24) + (0x03 <<< 16)
        + (0x87 <<< 8) + 0x76 < 2 ^ 64
    ∧ pack8 0x11 0x03 0x00 0x6B 0x00 0x03 0x87 0x76 =
        (0x11 <<< 56) + (0x03 <<< 48) + (0x00 <<< 40) + (0x6B <<< 32) + (0x00 <<< 24)
          + (0x03 <<< 16) + (0x87 <<< 8) + 0x76
    ∧ pack8 0x11 0x03 0x00 0x6B 0x00 0x03 0x87 0x76 =
        0x11 <<< 56 ||| 0x03 <<< 48 ||| 0x00 <<< 40 ||| 0x6B <<< 32 ||| 0x00 <<< 24 |||
          0x03 <<< 16 ||| 0x87 <<< 8 ||| 0x76
    ∧ (pack8 0x11 0x03 0x00 0x6B 0x00 0x03 0x87 0x76 >>> 56) &&& 0xFF = 0x11
    ∧ (pack8 0x11 0x03 0x00 0x6B 0x00 0x03 0x87 0x76 >>> 48) &&& 0xFF = 0x03
    ∧ (pack8 0x11 0x03 0x00 0x6B 0x00 0x03 0x87 0x76 >>> 40) &&& 0xFF = 0x00
    ∧ (pack8 0x11 0x03 0x00 0x6B 0x00 0x03 0x87 0x76 >>> 32) &&& 0xFF = 0x6B
    ∧ (pack8 0x11 0x03 0x00 0x6B 0x00 0x03 0x87 0x76 >>> 24) &&& 0xFF = 0x00
    ∧ (pack8 0x11 0x03 0x00 0x6B 0x00 0x03 0x87 0x76 >>> 16) &&& 0xFF = 0x03
    ∧ (pack8 0x11 0x03 0x00 0x6B 0x00 0x03 0x87 0x76 >>> 8) &&& 0xFF = 0x87
    ∧ (pack8 0x11 0x03 0x00 0x6B 0x00 0x03 0x87 0x76 >>> 0) &&& 0xFF = 0x76
    ∧ ∀ a' f' q1 q2 q3 q4 d1 d0 : Nat, a' < 256 → f' < 256 → q1 < 256 → q2 < 256 →
        q3 < 256 → q4 < 256 → d1 < 256 → d0 < 256 →
        (pack8 0x11 0x03 0x00 0x6B 0x00 0x03 0x87 0x76 = pack8 a' f' q1 q2 q3 q4 d1 d0 ↔
          (0x11 = a' ∧ 0x03 = f' ∧ 0x00 = q1 ∧ 0x6B = q2 ∧ 0x00 = q3 ∧ 0x03 = q4 ∧ 0x87 = d1
            ∧ 0x76 = d0)) :=
  pack8_fields_injective 0x11 0x03 0x00 0x6B 0x00 0x03 0x87 0x76 (by decide) (by decide)
    (by decide) (by decide) (by decide) (by decide) (by decide) (by decide)

/-! ### Configuration: non-Modbus modes and the settings archive -/

/-- C38 (divergence): loading what `SaveSettings` wrote restores the input channel,
the bit rate and the inverted flag, but `LoadSettings` does not skip the
`mAssumeDataStartsWithResponse` value that `SaveSettings` writes before the mode:
the mode it loads is that flag (0 or 1) and the parity it loads is the `U32` of
the saved mode. -/
theorem load_save_shifts_mode_and_parity (s : ModbusAnalyzerSettings) (cur : LoadedSettings) :
    LoadSettings (SaveSettings s) cur = some
      { mInputChannel := s.mInputChannel
        mBitRate := s.mBitRate
        mInverted := s.mInverted
        mModbusMode := if s.mAssumeDataStartsWithResponse then 1 else 0
        mParity := s.mModbusMode.toU32 } := by
  cases hi : s.mInverted <;> simp [LoadSettings, SaveSettings, SimpleArchive.read, hi]

/-! ### Relations between the bytes read and the frames of a pass -/

theorem find_start_of_frame_rel {mode : Mode} {s0 : Analyzer} {P : List Frame → Prop}
    {Q : Frame → Analyzer → Prop} :
    ∀ (fuel : Nat) (frame : Frame) (bs : List Nat) (fs : List Frame) (s : Analyzer),
      Run mode s0 bs fs s → P fs → s.mModbus.length < fuel →
      (∀ pre fr s1, Run mode s0 (bs ++ pre) fs s1 → start_of_frame pre →
        fr.mData1 = frame.mData1 → fr.mData2 = frame.mData2 → Q fr s1) →
      wp (find_start_of_frame mode fuel frame) Q (Waiting s0 P) s := by
  intro fuel
  induction fuel with
  | zero =>
    intro frame bs fs s _ _ hlen _
    omega
  | succ fuel ih =>
    intro frame bs fs s hrun hP hlen hQ
    simp only [find_start_of_frame, wp_bind]
    refine wp_read_len hrun hP (fun v1 s1 h1 hl => ?_)
    simp only [wp_get_starting_frame]
    split
    · rename_i hne
      refine ih _ _ _ s1 h1 hP (by omega) (fun pre fr s2 h2 hpre hd1 hd2 => ?_)
      obtain ⟨junk, c, rfl, hc, hj⟩ := hpre
      refine hQ ([v1] ++ (junk ++ [c])) fr s2 (by simpa using h2) ⟨v1 :: junk, c, by simp, hc, ?_⟩
        hd1 hd2
      intro j hjm
      rcases List.mem_cons.mp hjm with rfl | hjm
      · exact hne
      · exact hj j hjm
    · rename_i he
      simp only [wp_pure]
      exact hQ [v1] _ s1 h1 ⟨[], v1, rfl, by simpa using he, by simp⟩ rfl rfl

theorem parse_rel_ModbusRTUClient (K : FlagBits) (pr : Bool) (s : Analyzer)
    (R : Bool → Nat → Nat → List Nat → List Frame → Frame → Prop)
    (hR : parser_rel K .ModbusRTUClient s R) :
    wp (WorkerThread_parse K .ModbusRTUClient pr)
      (parse_rel .ModbusRTUClient false s R)
      (Waiting s any_frames) s := by
  have hP0 : any_frames [] := trivial
  obtain ⟨hreq, hresp, hexc⟩ := hR
  simp [WorkerThread_parse, request_role, response_role, wp_bind, wp_pure,
    wp_get_starting_frame, wp_chars_left]
  refine wp_read Run.start hP0 (fun a s1 h1 => ?_)
  refine wp_read h1 hP0 (fun f s2 h2 => ?_)
  refine wp_mono _ _ _ _ _ _
    (hreq [] a f _ s2 (by simpa using h2) rfl rfl rfl) ?_ ?_
  · intro fr s3 h3
    obtain ⟨body, fs, hrun, hRel⟩ := h3
    exact ⟨[], a, f, body, [], fs, by simpa using hrun, by simp [is_rtu], hRel⟩
  · intro s3 hw
    exact hw

theorem parse_rel_ModbusRTUBoth_false (K : FlagBits) (s : Analyzer)
    (R : Bool → Nat → Nat → List Nat → List Frame → Frame → Prop)
    (hR : parser_rel K .ModbusRTUBoth s R) :
    wp (WorkerThread_parse K .ModbusRTUBoth false)
      (parse_rel .ModbusRTUBoth false s R)
      (Waiting s any_frames) s := by
  have hP0 : any_frames [] := trivial
  obtain ⟨hreq, hresp, hexc⟩ := hR
  simp [WorkerThread_parse, request_role, response_role, wp_bind, wp_pure,
    wp_get_starting_frame, wp_chars_left]
  refine wp_read Run.start hP0 (fun a s1 h1 => ?_)
  refine wp_read h1 hP0 (fun f s2 h2 => ?_)
  refine wp_mono _ _ _ _ _ _
    (hreq [] a f _ s2 (by simpa using h2) rfl rfl rfl) ?_ ?_
  · intro fr s3 h3
    obtain ⟨body, fs, hrun, hRel⟩ := h3
    exact ⟨[], a, f, body, [], fs, by simpa using hrun, by simp [is_rtu], hRel⟩
  · intro s3 hw
    exact hw

theorem parse_rel_ModbusASCIIClient (K : FlagBits) (pr : Bool) (s : Analyzer)
    (R : Bool → Nat → Nat → List Nat → List Frame → Frame → Prop)
    (hR : parser_rel K .ModbusASCIIClient s R) :
    wp (WorkerThread_parse K .ModbusASCIIClient pr)
      (parse_rel .ModbusASCIIClient false s R)
      (Waiting s any_frames) s := by
  have hP0 : any_frames [] := trivial
  obtain ⟨hreq, hresp, hexc⟩ := hR
  simp [WorkerThread_parse, request_role, response_role, wp_bind, wp_pure,
    wp_get_starting_frame, wp_chars_left]
  refine find_start_of_frame_rel _ _ [] [] s Run.start hP0 (by omega)
    (fun pre fr0 s0 h0 hpre hd1 hd2 => ?_)
  refine wp_read h0 hP0 (fun a s1 h1 => ?_)
  refine wp_read h1 hP0 (fun f s2 h2 => ?_)
  refine wp_mono _ _ _ _ _ _
    (hreq pre a f _ s2 (by simpa using h2) rfl (by simpa using hd1) (by simpa using hd2)) ?_ ?_
  · intro fr s3 h3
    obtain ⟨body, fs, hrun, hRel⟩ := h3
    refine wp_read hrun trivial (fun t0 s4 h4 => ?_)
    refine wp_read h4 trivial (fun t1 s5 h5 => ?_)
    exact ⟨pre, a, f, body, [t0, t1], fs, by simpa using h5, by simp [is_rtu, hpre], hRel⟩
  · intro s3 hw
    exact hw

theorem parse_rel_ModbusASCIIBoth_false (K : FlagBits) (s : Analyzer)
    (R : Bool → Nat → Nat → List Nat → List Frame → Frame → Prop)
    (hR : parser_rel K .ModbusASCIIBoth s R) :
    wp (WorkerThread_parse K .ModbusASCIIBoth false)
      (parse_rel .ModbusASCIIBoth false s R)
      (Waiting s any_frames) s := by
  have hP0 : any_frames [] := trivial
  obtain ⟨hreq, hresp, hexc⟩ := hR
  simp [WorkerThread_parse, request_role, response_role, wp_bind, wp_pure,
    wp_get_starting_frame, wp_chars_left]
  refine find_start_of_frame_rel _ _ [] [] s Run.start hP0 (by omega)
    (fun pre fr0 s0 h0 hpre hd1 hd2 => ?_)
  refine wp_read h0 hP0 (fun a s1 h1 => ?_)
  refine wp_read h1 hP0 (fun f s2 h2 => ?_)
  refine wp_mono _ _ _ _ _ _
    (hreq pre a f _ s2 (by simpa using h2) rfl (by simpa using hd1) (by simpa using hd2)) ?_ ?_
  · intro fr s3 h3
    obtain ⟨body, fs, hrun, hRel⟩ := h3
    refine wp_read hrun trivial (fun t0 s4 h4 => ?_)
    refine wp_read h4 trivial (fun t1 s5 h5 => ?_)
    exact ⟨pre, a, f, body, [t0, t1], fs, by simpa using h5, by simp [is_rtu, hpre], hRel⟩
  · intro s3 hw
    exact hw

theorem parse_rel_ModbusRTUServer (K : FlagBits) (pr : Bool) (s : Analyzer)
    (R : Bool → Nat → Nat → List Nat → List Frame → Frame → Prop)
    (hR : parser_rel K .ModbusRTUServer s R) :
    wp (WorkerThread_parse K .ModbusRTUServer pr)
      (parse_rel .ModbusRTUServer true s R)
      (Waiting s any_frames) s := by
  have hP0 : any_frames [] := trivial
  obtain ⟨hreq, hresp, hexc⟩ := hR
  simp [WorkerThread_parse, request_role, response_role, wp_bind, wp_pure,
    wp_get_starting_frame, wp_chars_left]
  refine wp_read Run.start hP0 (fun a s1 h1 => ?_)
  refine wp_read h1 hP0 (fun f s2 h2 => ?_)
  split
  · rename_i hf
    simp only [wp_bind, wp_pure]
    refine wp_mono _ _ _ _ _ _
      (hresp [] a f _ s2 (by simpa using h2) hf rfl rfl rfl) ?_ ?_
    · intro fr s3 h3
      obtain ⟨body, fs, hrun, hRel⟩ := h3
      exact ⟨[], a, f, body, [], fs, by simpa using hrun, by simp [is_rtu], hRel⟩
    · intro s3 hw
      exact hw
  · rename_i hf
    simp only [wp_bind, wp_pure]
    refine wp_mono _ _ _ _ _ _
      (hexc [] a f _ s2 (by simpa using h2) hf rfl rfl) ?_ ?_
    · intro fr s3 h3
      obtain ⟨body, fs, hrun, hRel⟩ := h3
      exact ⟨[], a, f, body, [], fs, by simpa using hrun, by simp [is_rtu], hRel⟩
    · intro s3 hw
      exact hw

theorem parse_rel_ModbusRTUBoth_true (K : FlagBits) (s : Analyzer)
    (R : Bool → Nat → Nat → List Nat → List Frame → Frame → Prop)
    (hR : parser_rel K .ModbusRTUBoth s R) :
    wp (WorkerThread_parse K .ModbusRTUBoth true)
      (parse_rel .ModbusRTUBoth true s R)
      (Waiting s any_frames) s := by
  have hP0 : any_frames [] := trivial
  obtain ⟨hreq, hresp, hexc⟩ := hR
  simp [WorkerThread_parse, request_role, response_role, wp_bind, wp_pure,
    wp_get_starting_frame, wp_chars_left]
  refine wp_read Run.start hP0 (fun a s1 h1 => ?_)
  refine wp_read h1 hP0 (fun f s2 h2 => ?_)
  split
  · rename_i hf
    simp only [wp_bind, wp_pure]
    refine wp_mono _ _ _ _ _ _
      (hresp [] a f _ s2 (by simpa using h2) hf rfl rfl rfl) ?_ ?_
    · intro fr s3 h3
      obtain ⟨body, fs, hrun, hRel⟩ := h3
      exact ⟨[], a, f, body, [], fs, by simpa using hrun, by simp [is_rtu], hRel⟩
    · intro s3 hw
      exact hw
  · rename_i hf
    simp only [wp_bind, wp_pure]
    refine wp_mono _ _ _ _ _ _
      (hexc [] a f _ s2 (by simpa using h2) hf rfl rfl) ?_ ?_
    · intro fr s3 h3
      obtain ⟨body, fs, hrun, hRel⟩ := h3
      exact ⟨[], a, f, body, [], fs, by simpa using hrun, by simp [is_rtu], hRel⟩
    · intro s3 hw
      exact hw

theorem parse_rel_ModbusASCIIServer (K : FlagBits) (pr : Bool) (s : Analyzer)
    (R : Bool → Nat → Nat → List Nat → List Frame → Frame → Prop)
    (hR : parser_rel K .ModbusASCIIServer s R) :
    wp (WorkerThread_parse K .ModbusASCIIServer pr)
      (parse_rel .ModbusASCIIServer true s R)
      (Waiting s any_frames) s := by
  have hP0 : any_frames [] := trivial
  obtain ⟨hreq, hresp, hexc⟩ := hR
  simp [WorkerThread_parse, request_role, response_role, wp_bind, wp_pure,
    wp_get_starting_frame, wp_chars_left]
  refine find_start_of_frame_rel _ _ [] [] s Run.start hP0 (by omega)
    (fun pre fr0 s0 h0 hpre hd1 hd2 => ?_)
  refine wp_read h0 hP0 (fun a s1 h1 => ?_)
  refine wp_read h1 hP0 (fun f s2 h2 => ?_)
  split
  · rename_i hf
    simp only [wp_bind, wp_pure]
    refine wp_mono _ _ _ _ _ _
      (hresp pre a f _ s2 (by simpa using h2) hf rfl rfl rfl) ?_ ?_
    · intro fr s3 h3
      obtain ⟨body, fs, hrun, hRel⟩ := h3
      refine wp_read hrun trivial (fun t0 s4 h4 => ?_)
      refine wp_read h4 trivial (fun t1 s5 h5 => ?_)
      exact ⟨pre, a, f, body, [t0, t1], fs, by simpa using h5, by simp [is_rtu, hpre], hRel⟩
    · intro s3 hw
      exact hw
  · rename_i hf
    simp only [wp_bind, wp_pure]
    refine wp_mono _ _ _ _ _ _
      (hexc pre a f _ s2 (by simpa using h2) hf rfl rfl) ?_ ?_
    · intro fr s3 h3
      obtain ⟨body, fs, hrun, hRel⟩ := h3
      refine wp_read hrun trivial (fun t0 s4 h4 => ?_)
      refine wp_read h4 trivial (fun t1 s5 h5 => ?_)
      exact ⟨pre, a, f, body, [t0, t1], fs, by simpa using h5, by simp [is_rtu, hpre], hRel⟩
    · intro s3 hw
      exact hw

theorem parse_rel_ModbusASCIIBoth_true (K : FlagBits) (s : Analyzer)
    (R : Bool → Nat → Nat → List Nat → List Frame → Frame → Prop)
    (hR : parser_rel K .ModbusASCIIBoth s R) :
    wp (WorkerThread_parse K .ModbusASCIIBoth true)
      (parse_rel .ModbusASCIIBoth true s R)
      (Waiting s any_frames) s := by
  have hP0 : any_frames [] := trivial
  obtain ⟨hreq, hresp, hexc⟩ := hR
  simp [WorkerThread_parse, request_role, response_role, wp_bind, wp_pure,
    wp_get_starting_frame, wp_chars_left]
  refine find_start_of_frame_rel _ _ [] [] s Run.start hP0 (by omega)
    (fun pre fr0 s0 h0 hpre hd1 hd2 => ?_)
  refine wp_read h0 hP0 (fun a s1 h1 => ?_)
  refine wp_read h1 hP0 (fun f s2 h2 => ?_)
  split
  · rename_i hf
    simp only [wp_bind, wp_pure]
    refine wp_mono _ _ _ _ _ _
      (hresp pre a f _ s2 (by simpa using h2) hf rfl rfl rfl) ?_ ?_
    · intro fr s3 h3
      obtain ⟨body, fs, hrun, hRel⟩ := h3
      refine wp_read hrun trivial (fun t0 s4 h4 => ?_)
      refine wp_read h4 trivial (fun t1 s5 h5 => ?_)
      exact ⟨pre, a, f, body, [t0, t1], fs, by simpa using h5, by simp [is_rtu, hpre], hRel⟩
    · intro s3 hw
      exact hw
  · rename_i hf
    simp only [wp_bind, wp_pure]
    refine wp_mono _ _ _ _ _ _
      (hexc pre a f _ s2 (by simpa using h2) hf rfl rfl) ?_ ?_
    · intro fr s3 h3
      obtain ⟨body, fs, hrun, hRel⟩ := h3
      refine wp_read hrun trivial (fun t0 s4 h4 => ?_)
      refine wp_read h4 trivial (fun t1 s5 h5 => ?_)
      exact ⟨pre, a, f, body, [t0, t1], fs, by simpa using h5, by simp [is_rtu, hpre], hRel⟩
    · intro s3 hw
      exact hw

theorem WorkerThread_parse_rel (K : FlagBits) (mode : Mode) (pr : Bool) (s : Analyzer)
    (hmode : is_modbus mode) (R : Bool → Nat → Nat → List Nat → List Frame → Frame → Prop)
    (hR : parser_rel K mode s R) :
    wp (WorkerThread_parse K mode pr) (parse_rel mode (is_response mode pr) s R)
      (Waiting s any_frames) s := by
  rcases hmode with rfl | rfl | rfl | rfl | rfl | rfl
  · exact parse_rel_ModbusRTUClient K pr s R hR
  · exact parse_rel_ModbusRTUServer K pr s R hR
  · cases pr
    · exact parse_rel_ModbusRTUBoth_false K s R hR
    · exact parse_rel_ModbusRTUBoth_true K s R hR
  · exact parse_rel_ModbusASCIIClient K pr s R hR
  · exact parse_rel_ModbusASCIIServer K pr s R hR
  · cases pr
    · exact parse_rel_ModbusASCIIBoth_false K s R hR
    · exact parse_rel_ModbusASCIIBoth_true K s R hR

theorem WorkerThread_message_rel (K : FlagBits) (mode : Mode) (pr : Bool) (s : Analyzer)
    (hmode : is_modbus mode) (R : Bool → Nat → Nat → List Nat → List Frame → Frame → Prop)
    (hR : parser_rel K mode s R) :
    wp (WorkerThread_message K mode pr)
      (fun b s1 => b = (!pr) ∧ message_rel mode (is_response mode pr) s R s1)
      (Waiting s any_frames) s := by
  simp only [WorkerThread_message, wp_bind]
  refine wp_mono _ _ _ _ _ _ (WorkerThread_parse_rel K mode pr s hmode R hR) ?_ (fun _ h => h)
  intro fr s1 hp
  obtain ⟨pre, a, f, body, post, fs, hrun, hpp, hRel⟩ := hp
  simp only [wp_get_ending_frame, wp_bind]
  refine wp_AddFrame _ hrun (fun df s2 hdf h2 => ?_)
  simp only [wp_pure]
  subst hdf
  exact ⟨trivial, pre, a, f, body, post, fs, fr, _, h2, rfl, hpp, hRel⟩

theorem waiting_any {s0 s1 : Analyzer} {P : List Frame → Prop} (hw : Waiting s0 P s1) :
    Waiting s0 any_frames s1 := by
  obtain ⟨⟨fs, hres, _⟩, h0⟩ := hw
  exact ⟨⟨fs, hres, trivial⟩, h0⟩

theorem request_switch_any (K : FlagBits) (mode : Mode) (a f : Nat) (frame : Frame)
    (s0 s2 : Analyzer) (pre : List Nat) (hrun : Run mode s0 (pre ++ [a, f]) [] s2) :
    wp (request_switch K mode a f frame)
      (fun _ s3 => ∃ body fs, Run mode s0 (pre ++ a :: f :: body) fs s3)
      (Waiting s0 any_frames) s2 := by
  refine wp_mono _ _ _ _ _ _ (request_switch_spec K mode a f frame s0 s2 _ hrun) ?_
    (fun _ h => waiting_any h)
  intro fr s3 h3
  rcases h3 with ⟨_, msg, ck, fs, hr, _, _⟩ | ⟨_, hr, _⟩
  · exact ⟨msg ++ ck, fs, by simpa using hr⟩
  · exact ⟨[], [], by simpa using hr⟩

theorem response_switch_any (K : FlagBits) (mode : Mode) (a f : Nat) (frame : Frame)
    (s0 s2 : Analyzer) (pre : List Nat) (hrun : Run mode s0 (pre ++ [a, f]) [] s2) :
    wp (response_switch K mode a f frame)
      (fun _ s3 => ∃ body fs, Run mode s0 (pre ++ a :: f :: body) fs s3)
      (Waiting s0 any_frames) s2 := by
  refine wp_mono _ _ _ _ _ _ (response_switch_spec K mode a f frame s0 s2 _ hrun) ?_
    (fun _ h => waiting_any h)
  intro fr s3 h3
  rcases h3 with ⟨_, msg, ck, fs, hr, _, _⟩ | ⟨_, hr, _⟩
  · exact ⟨msg ++ ck, fs, by simpa using hr⟩
  · exact ⟨[], [], by simpa using hr⟩

theorem response_exception_any (K : FlagBits) (mode : Mode) (a f : Nat) (frame : Frame)
    (s0 s2 : Analyzer) (pre : List Nat) (hrun : Run mode s0 (pre ++ [a, f]) [] s2) :
    wp (response_exception K mode a f frame)
      (fun _ s3 => ∃ body fs, Run mode s0 (pre ++ a :: f :: body) fs s3)
      (Waiting s0 any_frames) s2 := by
  refine wp_mono _ _ _ _ _ _ (response_exception_single K mode a f frame s0 s2 _ hrun) ?_
    (fun _ h => waiting_any h)
  intro fr s3 h3
  obtain ⟨v, ck, hr, _, _⟩ := h3
  exact ⟨[v] ++ ck, [], by simpa using hr⟩

theorem parser_rel_code (K : FlagBits) (mode : Mode) (s : Analyzer) (f0 : Nat)
    (hf0 : f0 &&& 0x80 = 0) (Rq Rs : Nat → List Nat → List Frame → Frame → Prop)
    (hq : ∀ (pre : List Nat) (a : Nat) (frame : Frame) (s2 : Analyzer),
      Run mode s (pre ++ [a, f0]) [] s2 → frame.mFlags = K.FLAG_REQUEST_FRAME →
      frame.mData1 = 0 → frame.mData2 = 0 →
      wp (request_switch K mode a f0 frame)
        (fun fr s3 => ∃ body fs, Run mode s (pre ++ a :: f0 :: body) fs s3 ∧ Rq a body fs fr)
        (Waiting s any_frames) s2)
    (hs : ∀ (pre : List Nat) (a : Nat) (frame : Frame) (s2 : Analyzer),
      Run mode s (pre ++ [a, f0]) [] s2 → frame.mFlags = K.FLAG_RESPONSE_FRAME →
      frame.mData1 = 0 → frame.mData2 = 0 →
      wp (response_switch K mode a f0 frame)
        (fun fr s3 => ∃ body fs, Run mode s (pre ++ a :: f0 :: body) fs s3 ∧ Rs a body fs fr)
        (Waiting s any_frames) s2) :
    parser_rel K mode s (code_rel f0 Rq Rs) := by
  refine ⟨?_, ?_, ?_⟩
  · intro pre a f frame s2 hrun hfl hd1 hd2
    by_cases hf : f = f0
    · subst hf
      refine wp_mono _ _ _ _ _ _ (hq pre a frame s2 hrun hfl hd1 hd2) ?_ (fun _ h => h)
      rintro fr s3 ⟨body, fs, hr, hrel⟩
      exact ⟨body, fs, hr, fun _ => by simpa using hrel⟩
    · refine wp_mono _ _ _ _ _ _ (request_switch_any K mode a f frame s s2 pre hrun) ?_
        (fun _ h => h)
      rintro fr s3 ⟨body, fs, hr⟩
      exact ⟨body, fs, hr, fun h => absurd h hf⟩
  · intro pre a f frame s2 hrun _ hfl hd1 hd2
    by_cases hf : f = f0
    · subst hf
      refine wp_mono _ _ _ _ _ _ (hs pre a frame s2 hrun hfl hd1 hd2) ?_ (fun _ h => h)
      rintro fr s3 ⟨body, fs, hr, hrel⟩
      exact ⟨body, fs, hr, fun _ => by simpa using hrel⟩
    · refine wp_mono _ _ _ _ _ _ (response_switch_any K mode a f frame s s2 pre hrun) ?_
        (fun _ h => h)
      rintro fr s3 ⟨body, fs, hr⟩
      exact ⟨body, fs, hr, fun h => absurd h hf⟩
  · intro pre a f frame s2 hrun hbit _ _
    refine wp_mono _ _ _ _ _ _ (response_exception_any K mode a f frame s s2 pre hrun) ?_
      (fun _ h => h)
    rintro fr s3 ⟨body, fs, hr⟩
    exact ⟨body, fs, hr, fun h => absurd (h ▸ hf0) hbit⟩

theorem request_switch_no_rel (K : FlagBits) (mode : Mode) (s : Analyzer) (f0 : Nat)
    (pre : List Nat) (a : Nat) (frame : Frame) (s2 : Analyzer)
    (hrun : Run mode s (pre ++ [a, f0]) [] s2) :
    wp (request_switch K mode a f0 frame)
      (fun fr s3 => ∃ body fs, Run mode s (pre ++ a :: f0 :: body) fs s3 ∧ no_rel a body fs fr)
      (Waiting s any_frames) s2 := by
  refine wp_mono _ _ _ _ _ _ (request_switch_any K mode a f0 frame s s2 pre hrun) ?_
    (fun _ h => h)
  rintro fr s3 ⟨body, fs, hr⟩
  exact ⟨body, fs, hr, trivial⟩

theorem response_switch_no_rel (K : FlagBits) (mode : Mode) (s : Analyzer) (f0 : Nat)
    (pre : List Nat) (a : Nat) (frame : Frame) (s2 : Analyzer)
    (hrun : Run mode s (pre ++ [a, f0]) [] s2) :
    wp (response_switch K mode a f0 frame)
      (fun fr s3 => ∃ body fs, Run mode s (pre ++ a :: f0 :: body) fs s3 ∧ no_rel a body fs fr)
      (Waiting s any_frames) s2 := by
  refine wp_mono _ _ _ _ _ _ (response_switch_any K mode a f0 frame s s2 pre hrun) ?_
    (fun _ h => h)
  rintro fr s3 ⟨body, fs, hr⟩
  exact ⟨body, fs, hr, trivial⟩

theorem request_crc_eq (mode : Mode) (pr : Bool) (hmode : is_modbus mode)
    (hr : is_response mode pr = false) :
    decide (mode = .ModbusRTUClient ∨ mode = .ModbusRTUBoth) = is_rtu mode := by
  rcases hmode with rfl | rfl | rfl | rfl | rfl | rfl <;> simp_all [is_response, is_rtu]

theorem response_crc_eq (mode : Mode) (pr : Bool) (hmode : is_modbus mode)
    (hr : is_response mode pr = true) :
    decide (mode = .ModbusRTUServer ∨ mode = .ModbusRTUBoth) = is_rtu mode := by
  rcases hmode with rfl | rfl | rfl | rfl | rfl | rfl <;> simp_all [is_response, is_rtu]

/-- The outcome of a pass of the dispatcher for a relation its role parser
satisfies, read off the weakest precondition: a pass that returns has read and
handed over what `pass_reads` says, the last frame being the frame `fr` the role
parser returned with its end sample set; a pass that does not return has run out
of characters. -/
theorem pass_outcome (K : FlagBits) (mode : Mode) (pr : Bool) (s : Analyzer)
    (hmode : is_modbus mode) (R : Bool → Nat → Nat → List Nat → List Frame → Frame → Prop)
    (hR : parser_rel K mode s R) :
    match WorkerThread_message K mode pr s with
    | .ret _ s1 => ∃ a f body fs fr last, pass_reads mode s s1 a f body (fs ++ [last])
        ∧ last = { fr with mEndingSampleInclusive := last.mEndingSampleInclusive }
        ∧ R (is_response mode pr) a f body fs fr
    | .blocked s1 => s1.mModbus = [] := by
  have h := WorkerThread_message_rel K mode pr s hmode R hR
  unfold wp at h
  cases hm : WorkerThread_message K mode pr s with
  | ret b s1 =>
    rw [hm] at h
    obtain ⟨_, pre, a, f, body, post, fs, fr, last, hrun, hlast, hpp, hrel⟩ := h
    exact ⟨a, f, body, fs, fr, last, ⟨pre, post, hrun, hrun.results, hpp⟩, hlast, hrel⟩
  | blocked s1 => rw [hm] at h; exact h.2

theorem request_MASK_WRITE_REGISTER_rel (K : FlagBits) (mode : Mode) (a : Nat) (frame : Frame)
    (s0 s : Analyzer) (pre : List Nat) (hrun : Run mode s0 (pre ++ [a, 0x16]) [] s) :
    wp (request_MASK_WRITE_REGISTER K mode a 0x16 frame)
      (fun fr s1 => ∃ body fs, Run mode s0 (pre ++ a :: 0x16 :: body) fs s1
        ∧ mask_write_rel K (decide (mode = .ModbusRTUClient ∨ mode = .ModbusRTUBoth))
            frame.mFlags a body fs fr)
      (Waiting s0 any_frames) s := by
  have hP : any_frames [] := trivial
  simp only [request_MASK_WRITE_REGISTER, wp_bind]
  refine wp_read hrun hP (fun v1 s1 h1 => ?_)
  refine wp_read h1 hP (fun v2 s2 h2 => ?_)
  refine wp_read h2 hP (fun v3 s3 h3 => ?_)
  refine wp_read h3 hP (fun v4 s4 h4 => ?_)
  refine wp_read h4 hP (fun v5 s5 h5 => ?_)
  refine wp_read h5 hP (fun v6 s6 h6 => ?_)
  by_cases hc : mode = .ModbusRTUClient ∨ mode = .ModbusRTUBoth
  · simp only [hc, if_true, wp_bind]
    refine single_frame_CRC_wp _ _ h6 hP (fun c0 c1 s9 h9 => ?_)
    simp only [wp_pure]
    refine ⟨[v1, v2, v3, v4, v5, v6] ++ [c0, c1], [], by simpa using h9,
      v1, v2, v3, v4, v5, v6, [c0, c1], rfl, by simp, rfl, ?_⟩
    simp [received_bad, flag_if, flagged]
  · simp only [hc, if_false, wp_bind]
    refine single_frame_LRC_wp _ _ h6 hP (fun c0 s9 h9 => ?_)
    simp only [wp_pure]
    refine ⟨[v1, v2, v3, v4, v5, v6] ++ [c0], [], by simpa using h9,
      v1, v2, v3, v4, v5, v6, [c0], rfl, by simp, rfl, ?_⟩
    simp [received_bad, flag_if, flagged]

theorem response_MASK_WRITE_REGISTER_rel (K : FlagBits) (mode : Mode) (a : Nat) (frame : Frame)
    (s0 s : Analyzer) (pre : List Nat) (hrun : Run mode s0 (pre ++ [a, 0x16]) [] s) :
    wp (response_MASK_WRITE_REGISTER K mode a 0x16 frame)
      (fun fr s1 => ∃ body fs, Run mode s0 (pre ++ a :: 0x16 :: body) fs s1
        ∧ mask_write_rel K (decide (mode = .ModbusRTUServer ∨ mode = .ModbusRTUBoth))
            frame.mFlags a body fs fr)
      (Waiting s0 any_frames) s := by
  have hP : any_frames [] := trivial
  simp only [response_MASK_WRITE_REGISTER, wp_bind]
  refine wp_read hrun hP (fun v1 s1 h1 => ?_)
  refine wp_read h1 hP (fun v2 s2 h2 => ?_)
  refine wp_read h2 hP (fun v3 s3 h3 => ?_)
  refine wp_read h3 hP (fun v4 s4 h4 => ?_)
  refine wp_read h4 hP (fun v5 s5 h5 => ?_)
  refine wp_read h5 hP (fun v6 s6 h6 => ?_)
  by_cases hc : mode = .ModbusRTUServer ∨ mode = .ModbusRTUBoth
  · simp only [hc, if_true, wp_bind]
    refine single_frame_CRC_wp _ _ h6 hP (fun c0 c1 s9 h9 => ?_)
    simp only [wp_pure]
    refine ⟨[v1, v2, v3, v4, v5, v6] ++ [c0, c1], [], by simpa using h9,
      v1, v2, v3, v4, v5, v6, [c0, c1], rfl, by simp, rfl, ?_⟩
    simp [received_bad, flag_if, flagged]
  · simp only [hc, if_false, wp_bind]
    refine single_frame_LRC_wp _ _ h6 hP (fun c0 s9 h9 => ?_)
    simp only [wp_pure]
    refine ⟨[v1, v2, v3, v4, v5, v6] ++ [c0], [], by simpa using h9,
      v1, v2, v3, v4, v5, v6, [c0], rfl, by simp, rfl, ?_⟩
    simp [received_bad, flag_if, flagged]

theorem mask_write_parser_rel (K : FlagBits) (mode : Mode) (s : Analyzer) :
    parser_rel K mode s (code_rel 0x16
      (mask_write_rel K (decide (mode = .ModbusRTUClient ∨ mode = .ModbusRTUBoth))
        K.FLAG_REQUEST_FRAME)
      (mask_write_rel K (decide (mode = .ModbusRTUServer ∨ mode = .ModbusRTUBoth))
        K.FLAG_RESPONSE_FRAME)) := by
  refine parser_rel_code K mode s 0x16 (by decide) _ _ ?_ ?_
  · intro pre a frame s2 hrun hfl _ _
    have e : request_switch K mode a 0x16 frame = request_MASK_WRITE_REGISTER K mode a 0x16 frame := by
      simp [request_switch]
    rw [e, ← hfl]
    exact request_MASK_WRITE_REGISTER_rel K mode a frame s s2 pre hrun
  · intro pre a frame s2 hrun hfl _ _
    have e : response_switch K mode a 0x16 frame
        = response_MASK_WRITE_REGISTER K mode a 0x16 frame := by
      simp [response_switch]
    rw [e, ← hfl]
    exact response_MASK_WRITE_REGISTER_rel K mode a frame s s2 pre hrun

/-- In each of the six Modbus modes and in either role, a pass of the
dispatcher that returns has read an address `a`, a function code `f` and bytes
`body`, and when `f` is 0x16 (Mask Write Register) `body` is six payload bytes
followed by the checksum bytes `ck` (two in RTU, one in ASCII), the pass hands
over exactly one frame, whose `mData1` is `( a << 56 ) + ( 0x16 << 48 ) +
( p1 << 40 ) + ( p2 << 32 ) + ( p3 << 24 ) + ( p4 << 16 )` plus the checksum
(`( c1 << 8 ) + c0` in RTU, the LRC byte in ASCII), whose `mData2` is
`( p5 << 8 ) + p6`, and whose flags are REQUEST or RESPONSE with CHECKSUM_ERROR
iff the received checksum differs from the CRC (RTU) or LRC (ASCII) of the
address, the function code and the six payload bytes; a pass that does not
return has run out of characters. -/
theorem mask_write_register_pass (K : FlagBits) (mode : Mode) (pr : Bool) (s : Analyzer)
    (hmode : is_modbus mode) :
    match WorkerThread_message K mode pr s with
    | .ret _ s1 => ∃ a f body frames, pass_reads mode s s1 a f body frames
        ∧ (f = 0x16 → ∃ p1 p2 p3 p4 p5 p6 ck last, body = [p1, p2, p3, p4, p5, p6] ++ ck
            ∧ ck.length = (if is_rtu mode then 2 else 1)
            ∧ frames = [last]
            ∧ last.mData1 = pack8 a 0x16 p1 p2 p3 p4 (ck.getD 1 0) (ck.getD 0 0)
            ∧ last.mData2 = U64 ((p5 <<< 8) + p6)
            ∧ last.mFlags = flagged K
                (if is_response mode pr then K.FLAG_RESPONSE_FRAME else K.FLAG_REQUEST_FRAME)
                (received_bad (is_rtu mode) [a, 0x16, p1, p2, p3, p4, p5, p6] ck))
    | .blocked s1 => s1.mModbus = [] := by
  have h := pass_outcome K mode pr s hmode _ (mask_write_parser_rel K mode s)
  cases hm : WorkerThread_message K mode pr s with
  | blocked s1 => rw [hm] at h; exact h
  | ret b s1 =>
    rw [hm] at h
    obtain ⟨a, f, body, fs, fr, last, hpass, hlast, hrel⟩ := h
    refine ⟨a, f, body, fs ++ [last], hpass, ?_⟩
    intro hf
    have hr := hrel hf
    cases hresp : is_response mode pr
    · rw [hresp] at hr
      simp only [Bool.false_eq_true, if_false] at hr
      rw [request_crc_eq mode pr hmode hresp] at hr
      obtain ⟨p1, p2, p3, p4, p5, p6, ck, hb, hl, hfs, hd1, hd2, hfl⟩ := hr
      subst hfs
      refine ⟨p1, p2, p3, p4, p5, p6, ck, last, hb, hl, rfl, ?_, ?_, ?_⟩
      · rw [hlast]; exact hd1
      · rw [hlast]; exact hd2
      · rw [hlast]; simpa using hfl
    · rw [hresp] at hr
      simp only [if_true] at hr
      rw [response_crc_eq mode pr hmode hresp] at hr
      obtain ⟨p1, p2, p3, p4, p5, p6, ck, hb, hl, hfs, hd1, hd2, hfl⟩ := hr
      subst hfs
      refine ⟨p1, p2, p3, p4, p5, p6, ck, last, hb, hl, rfl, ?_, ?_, ?_⟩
      · rw [hlast]; exact hd1
      · rw [hlast]; exact hd2
      · rw [hlast]; simpa using hfl

/-! ### Frames of single function codes -/

theorem emit_header_rel {mode : Mode} {s0 s : Analyzer} {bs : List Nat}
    {fs : List Frame} {B : Analyzer → Prop} {Q : Frame → Analyzer → Prop}
    (frame : Frame) (d : Nat)
    (hrun : Run mode s0 bs fs s)
    (hQ : ∀ s1 hdr, Run mode s0 bs (fs ++ [hdr]) s1 → hdr.mFlags = frame.mFlags →
      hdr.mData1 = d → hdr.mData2 = frame.mData2 → Q hdr s1) :
    wp (emit_header frame d) Q B s := by
  simp only [emit_header, wp_bind, wp_pure, wp_get_ending_frame]
  refine wp_AddFrame _ hrun (fun df s1 hdf h1 => ?_)
  subst hdf
  exact hQ s1 _ h1 rfl rfl rfl

theorem end_frame_CRC_rel {K : FlagBits} {mode : Mode} {s0 s : Analyzer} {bs : List Nat}
    {fs : List Frame} {P : List Frame → Prop} {Q : Frame → Analyzer → Prop}
    (Checksum : Nat) (frame : Frame)
    (hrun : Run mode s0 bs fs s) (hP : P fs)
    (hQ : ∀ c0 c1 s1 fr, Run mode s0 (bs ++ [c0, c1]) fs s1 →
      fr.mFlags = flagged K K.FLAG_END_FRAME (crc_mismatch Checksum c0 c1) →
      fr.mData1 = U64 ((c1 <<< 8) + c0) → fr.mData2 = frame.mData2 → Q fr s1) :
    wp (end_frame_CRC K mode Checksum frame) Q (Waiting s0 P) s := by
  simp only [end_frame_CRC, wp_bind, wp_pure, wp_get_starting_frame]
  refine wp_read hrun hP (fun c0 s1 h1 => ?_)
  refine wp_read h1 hP (fun c1 s2 h2 => ?_)
  rw [List.append_assoc] at h2
  refine hQ c0 c1 s2 _ h2 ?_ rfl rfl
  simp only [flag_if, flagged]

theorem end_frame_LRC_rel {K : FlagBits} {mode : Mode} {s0 s : Analyzer} {bs : List Nat}
    {fs : List Frame} {P : List Frame → Prop} {Q : Frame → Analyzer → Prop}
    (Checksum : Nat) (frame : Frame)
    (hrun : Run mode s0 bs fs s) (hP : P fs)
    (hQ : ∀ c0 s1 fr, Run mode s0 (bs ++ [c0]) fs s1 →
      fr.mFlags = flagged K K.FLAG_END_FRAME (decide (LRC_finish Checksum ≠ c0)) →
      fr.mData1 = U64 ((0 <<< 8) + c0) → fr.mData2 = frame.mData2 → Q fr s1) :
    wp (end_frame_LRC K mode Checksum frame) Q (Waiting s0 P) s := by
  simp only [end_frame_LRC, wp_bind, wp_pure, wp_get_starting_frame]
  refine wp_read hrun hP (fun c0 s1 h1 => ?_)
  refine hQ c0 s1 _ h1 ?_ rfl rfl
  simp only [flag_if, flagged]

theorem data_bytes_rel {K : FlagBits} {mode : Mode} {s0 : Analyzer}
    {Q : Nat → Analyzer → Prop} (upd : Nat → Nat → Nat) :
    ∀ (n ck : Nat) (bs : List Nat) (fs : List Frame) (s : Analyzer),
      Run mode s0 bs fs s →
      (∀ bs1 fs1 s1, Run mode s0 (bs ++ bs1) (fs ++ fs1) s1 → bs1.length = n →
        fs1.map frame_info = bs1.map (byte_info K) → Q (bs1.foldl upd ck) s1) →
      wp (data_bytes K mode upd n ck) Q (Waiting s0 any_frames) s := by
  intro n
  induction n with
  | zero =>
    intro ck bs fs s hrun hQ
    simp only [data_bytes, wp_pure]
    have := hQ [] [] s (by simpa using hrun) rfl rfl
    simpa using this
  | succ n ih =>
    intro ck bs fs s hrun hQ
    simp only [data_bytes, wp_bind, wp_get_starting_frame, wp_get_ending_frame]
    refine wp_read hrun trivial (fun v s1 h1 => ?_)
    refine wp_AddFrame _ h1 (fun df s2 hdf h2 => ?_)
    refine ih _ _ _ s2 h2 ?_
    intro bs1 fs1 s3 h3 hl hm
    have := hQ (v :: bs1) (df :: fs1) s3 (by simpa using h3) (by simp [hl])
      (by rw [hdf]; simp [hm, frame_info, byte_info])
    simpa using this

theorem data_word_rel {K : FlagBits} {mode : Mode} {s0 s : Analyzer}
    {Q : Nat → Analyzer → Prop} (upd : Nat → Nat → Nat) (ck : Nat) {bs : List Nat}
    {fs : List Frame}
    (hrun : Run mode s0 bs fs s)
    (hQ : ∀ v1 v2 df s1, Run mode s0 (bs ++ [v1, v2]) (fs ++ [df]) s1 →
      frame_info df = word_info K (v1, v2) → Q (upd (upd ck v1) v2) s1) :
    wp (data_word K mode upd ck) Q (Waiting s0 any_frames) s := by
  simp only [data_word, wp_bind, wp_pure, wp_get_starting_frame, wp_get_ending_frame]
  refine wp_read hrun trivial (fun v1 s1 h1 => ?_)
  refine wp_read h1 trivial (fun v2 s2 h2 => ?_)
  refine wp_AddFrame _ h2 (fun df s3 hdf h3 => ?_)
  rw [List.append_assoc] at h3
  exact hQ v1 v2 df s3 h3 (by rw [hdf]; rfl)

theorem data_words_rel {K : FlagBits} {mode : Mode} {s0 : Analyzer}
    {Q : Nat → Analyzer → Prop} (upd : Nat → Nat → Nat) :
    ∀ (n ck : Nat) (bs : List Nat) (fs : List Frame) (s : Analyzer),
      Run mode s0 bs fs s →
      (∀ bs1 fs1 s1, Run mode s0 (bs ++ bs1) (fs ++ fs1) s1 → bs1.length = 2 * n →
        fs1.length = n → fs1.map frame_info = (word_pairs bs1).map (word_info K) →
        Q (bs1.foldl upd ck) s1) →
      wp (data_words K mode upd n ck) Q (Waiting s0 any_frames) s := by
  intro n
  induction n with
  | zero =>
    intro ck bs fs s hrun hQ
    simp only [data_words, wp_pure]
    have := hQ [] [] s (by simpa using hrun) rfl rfl rfl
    simpa using this
  | succ n ih =>
    intro ck bs fs s hrun hQ
    simp only [data_words, wp_bind]
    refine data_word_rel upd ck hrun (fun v1 v2 df s1 h1 hdf => ?_)
    refine ih _ _ _ s1 h1 ?_
    intro bs1 fs1 s3 h3 hl hfl hm
    have := hQ (v1 :: v2 :: bs1) (df :: fs1) s3 (by simpa using h3) (by simp [hl]; omega)
      (by simp [hfl]) (by simp [word_pairs, hm, hdf])
    simpa using this

theorem pass_claim_mono {K : FlagBits} {mode : Mode} {pr : Bool} {s : Analyzer}
    {P P' : Nat → Nat → List Nat → List Frame → Prop}
    (h : pass_claim K mode pr s P) (hP : ∀ a f body frames, P a f body frames →
      P' a f body frames) : pass_claim K mode pr s P' := by
  unfold pass_claim at h ⊢
  cases hm : WorkerThread_message K mode pr s with
  | blocked s1 => rw [hm] at h; exact h
  | ret b s1 =>
    rw [hm] at h
    obtain ⟨a, f, body, frames, hpass, hp⟩ := h
    exact ⟨a, f, body, frames, hpass, hP a f body frames hp⟩

theorem parser_rel_codes (K : FlagBits) (mode : Mode) (s : Analyzer) (C : Nat → Prop)
    (hC : ∀ f, C f → f &&& 0x80 = 0)
    (Rq Rs : Nat → Bool → Nat → List Nat → List Frame → Frame → Prop)
    (hq : ∀ (f : Nat), C f → ∀ (pre : List Nat) (a : Nat) (frame : Frame) (s2 : Analyzer),
      Run mode s (pre ++ [a, f]) [] s2 → frame.mFlags = K.FLAG_REQUEST_FRAME →
      frame.mData1 = 0 → frame.mData2 = 0 →
      wp (request_switch K mode a f frame)
        (fun fr s3 => ∃ body fs, Run mode s (pre ++ a :: f :: body) fs s3
          ∧ Rq f (decide (mode = .ModbusRTUClient ∨ mode = .ModbusRTUBoth)) a body fs fr)
        (Waiting s any_frames) s2)
    (hs : ∀ (f : Nat), C f → ∀ (pre : List Nat) (a : Nat) (frame : Frame) (s2 : Analyzer),
      Run mode s (pre ++ [a, f]) [] s2 → frame.mFlags = K.FLAG_RESPONSE_FRAME →
      frame.mData1 = 0 → frame.mData2 = 0 →
      wp (response_switch K mode a f frame)
        (fun fr s3 => ∃ body fs, Run mode s (pre ++ a :: f :: body) fs s3
          ∧ Rs f (decide (mode = .ModbusRTUServer ∨ mode = .ModbusRTUBoth)) a body fs fr)
        (Waiting s any_frames) s2) :
    parser_rel K mode s (codes_rel mode C Rq Rs) := by
  classical
  refine ⟨?_, ?_, ?_⟩
  · intro pre a f frame s2 hrun hfl hd1 hd2
    by_cases hf : C f
    · refine wp_mono _ _ _ _ _ _ (hq f hf pre a frame s2 hrun hfl hd1 hd2) ?_ (fun _ h => h)
      rintro fr s3 ⟨body, fs, hr, hrel⟩
      exact ⟨body, fs, hr, fun _ => by simpa using hrel⟩
    · refine wp_mono _ _ _ _ _ _ (request_switch_any K mode a f frame s s2 pre hrun) ?_
        (fun _ h => h)
      rintro fr s3 ⟨body, fs, hr⟩
      exact ⟨body, fs, hr, fun h => absurd h hf⟩
  · intro pre a f frame s2 hrun _ hfl hd1 hd2
    by_cases hf : C f
    · refine wp_mono _ _ _ _ _ _ (hs f hf pre a frame s2 hrun hfl hd1 hd2) ?_ (fun _ h => h)
      rintro fr s3 ⟨body, fs, hr, hrel⟩
      exact ⟨body, fs, hr, fun _ => by simpa using hrel⟩
    · refine wp_mono _ _ _ _ _ _ (response_switch_any K mode a f frame s s2 pre hrun) ?_
        (fun _ h => h)
      rintro fr s3 ⟨body, fs, hr⟩
      exact ⟨body, fs, hr, fun h => absurd h hf⟩
  · intro pre a f frame s2 hrun hbit _ _
    refine wp_mono _ _ _ _ _ _ (response_exception_any K mode a f frame s s2 pre hrun) ?_
      (fun _ h => h)
    rintro fr s3 ⟨body, fs, hr⟩
    exact ⟨body, fs, hr, fun h => absurd (hC f h) hbit⟩

theorem no_rel_crc_info (f : Nat) (crc : Bool) (a : Nat) (body : List Nat) (fs : List Frame)
    (fr fr' : Frame) (_h : frame_info fr' = frame_info fr)
    (_hr : no_rel_crc f crc a body fs fr) : no_rel_crc f crc a body fs fr' := trivial

/-- The outcome of a pass of the dispatcher for a claim about the function codes
`C`: a pass that returns has read an address `a`, a function code `f` and bytes
`body` and has handed over the frames `frames`, and when `C f` holds the frames
before the last one and the last one satisfy the relation of the role, for the
RTU branch in the RTU modes and the ASCII branch in the ASCII modes; a pass that
does not return has run out of characters. -/
theorem pass_outcome_codes (K : FlagBits) (mode : Mode) (pr : Bool) (s : Analyzer)
    (hmode : is_modbus mode) (C : Nat → Prop) (hC : ∀ f, C f → f &&& 0x80 = 0)
    (Rq Rs : Nat → Bool → Nat → List Nat → List Frame → Frame → Prop)
    (hiq : ∀ f crc a body fs fr fr', frame_info fr' = frame_info fr → Rq f crc a body fs fr →
      Rq f crc a body fs fr')
    (his : ∀ f crc a body fs fr fr', frame_info fr' = frame_info fr → Rs f crc a body fs fr →
      Rs f crc a body fs fr')
    (hq : ∀ (f : Nat), C f → ∀ (pre : List Nat) (a : Nat) (frame : Frame) (s2 : Analyzer),
      Run mode s (pre ++ [a, f]) [] s2 → frame.mFlags = K.FLAG_REQUEST_FRAME →
      frame.mData1 = 0 → frame.mData2 = 0 →
      wp (request_switch K mode a f frame)
        (fun fr s3 => ∃ body fs, Run mode s (pre ++ a :: f :: body) fs s3
          ∧ Rq f (decide (mode = .ModbusRTUClient ∨ mode = .ModbusRTUBoth)) a body fs fr)
        (Waiting s any_frames) s2)
    (hs : ∀ (f : Nat), C f → ∀ (pre : List Nat) (a : Nat) (frame : Frame) (s2 : Analyzer),
      Run mode s (pre ++ [a, f]) [] s2 → frame.mFlags = K.FLAG_RESPONSE_FRAME →
      frame.mData1 = 0 → frame.mData2 = 0 →
      wp (response_switch K mode a f frame)
        (fun fr s3 => ∃ body fs, Run mode s (pre ++ a :: f :: body) fs s3
          ∧ Rs f (decide (mode = .ModbusRTUServer ∨ mode = .ModbusRTUBoth)) a body fs fr)
        (Waiting s any_frames) s2) :
    pass_claim K mode pr s (fun a f body frames =>
      C f → ∃ fs last, frames = fs ++ [last]
        ∧ (if is_response mode pr then Rs f (is_rtu mode) a body fs last
            else Rq f (is_rtu mode) a body fs last)) := by
  unfold pass_claim
  have h := pass_outcome K mode pr s hmode _ (parser_rel_codes K mode s C hC _ _ hq hs)
  cases hm : WorkerThread_message K mode pr s with
  | blocked s1 => rw [hm] at h; exact h
  | ret b s1 =>
    rw [hm] at h
    obtain ⟨a, f, body, fs, fr, last, hpass, hlast, hrel⟩ := h
    refine ⟨a, f, body, fs ++ [last], hpass, fun hf => ⟨fs, last, rfl, ?_⟩⟩
    have hinfo : frame_info last = frame_info fr := by rw [hlast]; rfl
    have hr := hrel hf
    cases hresp : is_response mode pr
    · rw [hresp] at hr
      simp only [Bool.false_eq_true, if_false] at hr ⊢
      rw [request_crc_eq mode pr hmode hresp] at hr
      exact hiq _ _ _ _ _ _ _ hinfo hr
    · rw [hresp] at hr
      simp only [if_true] at hr ⊢
      rw [response_crc_eq mode pr hmode hresp] at hr
      exact his _ _ _ _ _ _ _ hinfo hr

theorem request_switch_no_rel_crc (K : FlagBits) (mode : Mode) (s : Analyzer) (f0 : Nat)
    (pre : List Nat) (a : Nat) (frame : Frame) (s2 : Analyzer)
    (hrun : Run mode s (pre ++ [a, f0]) [] s2) (_h1 : frame.mFlags = K.FLAG_REQUEST_FRAME)
    (_h2 : frame.mData1 = 0) (_h3 : frame.mData2 = 0) :
    wp (request_switch K mode a f0 frame)
      (fun fr s3 => ∃ body fs, Run mode s (pre ++ a :: f0 :: body) fs s3
        ∧ no_rel_crc f0 (decide (mode = .ModbusRTUClient ∨ mode = .ModbusRTUBoth)) a body fs fr)
      (Waiting s any_frames) s2 := by
  refine wp_mono _ _ _ _ _ _ (request_switch_any K mode a f0 frame s s2 pre hrun) ?_
    (fun _ h => h)
  rintro fr s3 ⟨body, fs, hr⟩
  exact ⟨body, fs, hr, trivial⟩

theorem response_switch_no_rel_crc (K : FlagBits) (mode : Mode) (s : Analyzer) (f0 : Nat)
    (pre : List Nat) (a : Nat) (frame : Frame) (s2 : Analyzer)
    (hrun : Run mode s (pre ++ [a, f0]) [] s2) (_h1 : frame.mFlags = K.FLAG_RESPONSE_FRAME)
    (_h2 : frame.mData1 = 0) (_h3 : frame.mData2 = 0) :
    wp (response_switch K mode a f0 frame)
      (fun fr s3 => ∃ body fs, Run mode s (pre ++ a :: f0 :: body) fs s3
        ∧ no_rel_crc f0 (decide (mode = .ModbusRTUServer ∨ mode = .ModbusRTUBoth)) a body fs fr)
      (Waiting s any_frames) s2 := by
  refine wp_mono _ _ _ _ _ _ (response_switch_any K mode a f0 frame s s2 pre hrun) ?_
    (fun _ h => h)
  rintro fr s3 ⟨body, fs, hr⟩
  exact ⟨body, fs, hr, trivial⟩

theorem request_READ_FIFO_QUEUE_rel (K : FlagBits) (mode : Mode) (a : Nat) (frame : Frame)
    (s0 s : Analyzer) (pre : List Nat) (hrun : Run mode s0 (pre ++ [a, 0x18]) [] s)
    (hfl : frame.mFlags = K.FLAG_REQUEST_FRAME) (_hd1 : frame.mData1 = 0)
    (hd2 : frame.mData2 = 0) :
    wp (request_READ_FIFO_QUEUE K mode a 0x18 frame)
      (fun fr s1 => ∃ body fs, Run mode s0 (pre ++ a :: 0x18 :: body) fs s1
        ∧ fifo_request_rel K (decide (mode = .ModbusRTUClient ∨ mode = .ModbusRTUBoth))
            a body fs fr)
      (Waiting s0 any_frames) s := by
  have hP : any_frames [] := trivial
  simp only [request_READ_FIFO_QUEUE, wp_bind]
  refine wp_read hrun hP (fun v1 s1 h1 => ?_)
  refine wp_read h1 hP (fun v2 s2 h2 => ?_)
  by_cases hc : mode = .ModbusRTUClient ∨ mode = .ModbusRTUBoth
  · simp only [hc, if_true, wp_bind]
    refine single_frame_CRC_wp _ _ h2 hP (fun c0 c1 s9 h9 => ?_)
    simp only [wp_pure]
    refine ⟨[v1, v2] ++ [c0, c1], [], by simpa using h9,
      v1, v2, [c0, c1], rfl, by simp, rfl, ?_⟩
    simp [received_bad, flag_if, flagged, hfl, hd2]
  · simp only [hc, if_false, wp_bind]
    refine single_frame_LRC_wp _ _ h2 hP (fun c0 s9 h9 => ?_)
    simp only [wp_pure]
    refine ⟨[v1, v2] ++ [c0], [], by simpa using h9,
      v1, v2, [c0], rfl, by simp, rfl, ?_⟩
    simp [received_bad, flag_if, flagged, hfl, hd2]

theorem request_READWRITE_rel (K : FlagBits) (mode : Mode) (a : Nat) (frame : Frame)
    (s0 s : Analyzer) (pre : List Nat) (hrun : Run mode s0 (pre ++ [a, 0x17]) [] s)
    (hfl : frame.mFlags = K.FLAG_REQUEST_FRAME) (_hd1 : frame.mData1 = 0)
    (_hd2 : frame.mData2 = 0) :
    wp (request_READWRITE_MULTIPLE_REGISTERS K mode a 0x17 frame)
      (fun fr s1 => ∃ body fs, Run mode s0 (pre ++ a :: 0x17 :: body) fs s1
        ∧ readwrite_request_rel K (decide (mode = .ModbusRTUClient ∨ mode = .ModbusRTUBoth))
            a body fs fr)
      (Waiting s0 any_frames) s := by
  have hP : any_frames [] := trivial
  simp only [request_READWRITE_MULTIPLE_REGISTERS, wp_bind]
  refine wp_read hrun hP (fun v1 s1 h1 => ?_)
  refine wp_read h1 hP (fun v2 s2 h2 => ?_)
  refine wp_read h2 hP (fun v3 s3 h3 => ?_)
  refine wp_read h3 hP (fun v4 s4 h4 => ?_)
  refine wp_read h4 hP (fun v5 s5 h5 => ?_)
  refine wp_read h5 hP (fun v6 s6 h6 => ?_)
  refine wp_read h6 hP (fun v7 s7 h7 => ?_)
  refine wp_read h7 hP (fun v8 s8 h8 => ?_)
  refine wp_read h8 hP (fun v9 s9 h9 => ?_)
  by_cases hc : mode = .ModbusRTUClient ∨ mode = .ModbusRTUBoth
  · simp only [hc, if_true, wp_bind]
    refine emit_header_rel _ _ h9 (fun t1 hdr g1 hh hd1 hd2 => ?_)
    refine data_words_rel update_CRC _ _ _ _ t1 g1 (fun bs1 fs1 t2 g2 hl _ hm => ?_)
    refine end_frame_CRC_rel _ _ g2 trivial (fun c0 c1 t3 fr g3 hf hfd1 hfd2 => ?_)
    refine ⟨[v1, v2, v3, v4, v5, v6, v7, v8, v9] ++ bs1 ++ [c0, c1], hdr :: fs1,
      by simpa using g3, v1, v2, v3, v4, v5, v6, v7, v8, v9, bs1, hl,
      [c0, c1], hdr, fs1, rfl, by simp, rfl, ?_, hm, ?_, ?_, ?_⟩
    · simp [frame_info, hh, hd1, hd2, hfl]
    · rw [hf]; simp [received_bad, CRC, List.foldl_append]
    · simpa using hfd1
    · rw [hfd2, hd2]
  · simp only [hc, if_false, wp_bind]
    refine emit_header_rel _ _ h9 (fun t1 hdr g1 hh hd1 hd2 => ?_)
    refine data_words_rel LRC_add _ _ _ _ t1 g1 (fun bs1 fs1 t2 g2 hl _ hm => ?_)
    refine end_frame_LRC_rel _ _ g2 trivial (fun c0 t3 fr g3 hf hfd1 hfd2 => ?_)
    refine ⟨[v1, v2, v3, v4, v5, v6, v7, v8, v9] ++ bs1 ++ [c0], hdr :: fs1,
      by simpa using g3, v1, v2, v3, v4, v5, v6, v7, v8, v9, bs1, hl,
      [c0], hdr, fs1, rfl, by simp, rfl, ?_, hm, ?_, ?_, ?_⟩
    · simp [frame_info, hh, hd1, hd2, hfl]
    · rw [hf]; simp [received_bad, LRC, List.foldl_append]
    · simpa using hfd1
    · rw [hfd2, hd2]

theorem response_READ_COILS_rel (K : FlagBits) (mode : Mode) (a f : Nat) (frame : Frame)
    (s0 s : Analyzer) (pre : List Nat) (hrun : Run mode s0 (pre ++ [a, f]) [] s)
    (hfl : frame.mFlags = K.FLAG_RESPONSE_FRAME) (_hd1 : frame.mData1 = 0)
    (hd20 : frame.mData2 = 0) :
    wp (response_READ_COILS K mode a f frame)
      (fun fr s1 => ∃ body fs, Run mode s0 (pre ++ a :: f :: body) fs s1
        ∧ byte_response_rel K f (decide (mode = .ModbusRTUServer ∨ mode = .ModbusRTUBoth))
            a body fs fr)
      (Waiting s0 any_frames) s := by
  have hP : any_frames [] := trivial
  simp only [response_READ_COILS, wp_bind]
  refine wp_read hrun hP (fun v1 s1 h1 => ?_)
  by_cases hc : mode = .ModbusRTUServer ∨ mode = .ModbusRTUBoth
  · simp only [hc, if_true, wp_bind]
    refine emit_header_rel _ _ h1 (fun t1 hdr g1 hh hd1 hd2 => ?_)
    refine data_bytes_rel update_CRC _ _ _ _ t1 g1 (fun bs1 fs1 t2 g2 hl hm => ?_)
    refine end_frame_CRC_rel _ _ g2 trivial (fun c0 c1 t3 fr g3 hf hfd1 hfd2 => ?_)
    refine ⟨[v1] ++ bs1 ++ [c0, c1], hdr :: fs1, by simpa using g3, v1, bs1, hl,
      [c0, c1], hdr, fs1, rfl, by simp, rfl, ?_, hm, ?_, ?_, ?_⟩
    · simp [frame_info, hh, hd1, hd2, hfl, hd20]
    · rw [hf]; simp [received_bad, CRC, List.foldl_append]
    · simpa using hfd1
    · rw [hfd2, hd2, hd20]
  · simp only [hc, if_false, wp_bind]
    refine emit_header_rel _ _ h1 (fun t1 hdr g1 hh hd1 hd2 => ?_)
    refine data_bytes_rel LRC_add _ _ _ _ t1 g1 (fun bs1 fs1 t2 g2 hl hm => ?_)
    refine end_frame_LRC_rel _ _ g2 trivial (fun c0 t3 fr g3 hf hfd1 hfd2 => ?_)
    refine ⟨[v1] ++ bs1 ++ [c0], hdr :: fs1, by simpa using g3, v1, bs1, hl,
      [c0], hdr, fs1, rfl, by simp, rfl, ?_, hm, ?_, ?_, ?_⟩
    · simp [frame_info, hh, hd1, hd2, hfl, hd20]
    · rw [hf]; simp [received_bad, LRC, List.foldl_append]
    · simpa using hfd1
    · rw [hfd2, hd2, hd20]

theorem response_GET_COM_EVENT_LOG_rel (K : FlagBits) (mode : Mode) (a : Nat) (frame : Frame)
    (s0 s : Analyzer) (pre : List Nat) (hrun : Run mode s0 (pre ++ [a, 0x0C]) [] s)
    (hfl : frame.mFlags = K.FLAG_RESPONSE_FRAME) (_hd1 : frame.mData1 = 0)
    (_hd20 : frame.mData2 = 0) :
    wp (response_GET_COM_EVENT_LOG K mode a 0x0C frame)
      (fun fr s1 => ∃ body fs, Run mode s0 (pre ++ a :: 0x0C :: body) fs s1
        ∧ com_event_log_rel K (decide (mode = .ModbusRTUServer ∨ mode = .ModbusRTUBoth))
            a body fs fr)
      (Waiting s0 any_frames) s := by
  have hP : any_frames [] := trivial
  simp only [response_GET_COM_EVENT_LOG, wp_bind]
  refine wp_read hrun hP (fun v1 s1 h1 => ?_)
  refine wp_read h1 hP (fun v2 s2 h2 => ?_)
  refine wp_read h2 hP (fun v3 s3 h3 => ?_)
  refine wp_read h3 hP (fun v4 s4 h4 => ?_)
  refine wp_read h4 hP (fun v5 s5 h5 => ?_)
  refine wp_read h5 hP (fun v6 s6 h6 => ?_)
  refine wp_read h6 hP (fun v7 s7 h7 => ?_)
  by_cases hc : mode = .ModbusRTUServer ∨ mode = .ModbusRTUBoth
  · simp only [hc, if_true, wp_bind]
    refine emit_header_rel _ _ h7 (fun t1 hdr g1 hh hd1 hd2 => ?_)
    refine data_bytes_rel update_CRC _ _ _ _ t1 g1 (fun bs1 fs1 t2 g2 hl hm => ?_)
    refine end_frame_CRC_rel _ _ g2 trivial (fun c0 c1 t3 fr g3 hf hfd1 hfd2 => ?_)
    refine ⟨[v1, v2, v3, v4, v5, v6, v7] ++ bs1 ++ [c0, c1], hdr :: fs1,
      by simpa using g3, v1, v2, v3, v4, v5, v6, v7, bs1, hl,
      [c0, c1], hdr, fs1, rfl, by simp, rfl, ?_, hm, ?_, ?_, ?_⟩
    · simp [frame_info, hh, hd1, hd2, hfl]
    · rw [hf]; simp [received_bad, CRC, List.foldl_append]
    · simpa using hfd1
    · rw [hfd2, hd2]; simp
  · simp only [hc, if_false, wp_bind]
    refine emit_header_rel _ _ h7 (fun t1 hdr g1 hh hd1 hd2 => ?_)
    refine data_bytes_rel LRC_add _ _ _ _ t1 g1 (fun bs1 fs1 t2 g2 hl hm => ?_)
    refine end_frame_LRC_rel _ _ g2 trivial (fun c0 t3 fr g3 hf hfd1 hfd2 => ?_)
    refine ⟨[v1, v2, v3, v4, v5, v6, v7] ++ bs1 ++ [c0], hdr :: fs1,
      by simpa using g3, v1, v2, v3, v4, v5, v6, v7, bs1, hl,
      [c0], hdr, fs1, rfl, by simp, rfl, ?_, hm, ?_, ?_, ?_⟩
    · simp [frame_info, hh, hd1, hd2, hfl]
    · rw [hf]; simp [received_bad, LRC, List.foldl_append]
    · simpa using hfd1
    · rw [hfd2, hd2]; simp

theorem response_READ_FIFO_QUEUE_rel (K : FlagBits) (mode : Mode) (a : Nat) (frame : Frame)
    (s0 s : Analyzer) (pre : List Nat) (hrun : Run mode s0 (pre ++ [a, 0x18]) [] s)
    (hfl : frame.mFlags = K.FLAG_RESPONSE_FRAME) (_hd1 : frame.mData1 = 0)
    (hd20 : frame.mData2 = 0) :
    wp (response_READ_FIFO_QUEUE K mode a 0x18 frame)
      (fun fr s1 => ∃ body fs, Run mode s0 (pre ++ a :: 0x18 :: body) fs s1
        ∧ fifo_response_rel K (decide (mode = .ModbusRTUServer ∨ mode = .ModbusRTUBoth))
            a body fs fr)
      (Waiting s0 any_frames) s := by
  have hP : any_frames [] := trivial
  simp only [response_READ_FIFO_QUEUE, wp_bind]
  refine wp_read hrun hP (fun v1 s1 h1 => ?_)
  refine wp_read h1 hP (fun v2 s2 h2 => ?_)
  refine wp_read h2 hP (fun v3 s3 h3 => ?_)
  refine wp_read h3 hP (fun v4 s4 h4 => ?_)
  by_cases hc : mode = .ModbusRTUServer ∨ mode = .ModbusRTUBoth
  · simp only [hc, if_true, wp_bind]
    refine emit_header_rel _ _ h4 (fun t1 hdr g1 hh hd1 hd2 => ?_)
    refine data_words_rel update_CRC _ _ _ _ t1 g1 (fun bs1 fs1 t2 g2 hl _ hm => ?_)
    refine end_frame_CRC_rel _ _ g2 trivial (fun c0 c1 t3 fr g3 hf hfd1 hfd2 => ?_)
    refine ⟨[v1, v2, v3, v4] ++ bs1 ++ [c0, c1], hdr :: fs1,
      by simpa using g3, v1, v2, v3, v4, bs1, by simpa using hl,
      [c0, c1], hdr, fs1, rfl, by simp, rfl, ?_, hm, ?_, ?_, ?_⟩
    · simp [frame_info, hh, hd1, hd2, hfl, hd20]
    · rw [hf]; simp [received_bad, CRC, List.foldl_append]
    · simpa using hfd1
    · rw [hfd2, hd2, hd20]
  · simp only [hc, if_false, wp_bind]
    refine emit_header_rel _ _ h4 (fun t1 hdr g1 hh hd1 hd2 => ?_)
    refine data_words_rel LRC_add _ _ _ _ t1 g1 (fun bs1 fs1 t2 g2 hl _ hm => ?_)
    refine end_frame_LRC_rel _ _ g2 trivial (fun c0 t3 fr g3 hf hfd1 hfd2 => ?_)
    refine ⟨[v1, v2, v3, v4] ++ bs1 ++ [c0], hdr :: fs1,
      by simpa using g3, v1, v2, v3, v4, bs1, by simpa using hl,
      [c0], hdr, fs1, rfl, by simp, rfl, ?_, hm, ?_, ?_, ?_⟩
    · simp [frame_info, hh, hd1, hd2, hfl, hd20]
    · rw [hf]; simp [received_bad, LRC, List.foldl_append]
    · simpa using hfd1
    · rw [hfd2, hd2, hd20]

theorem frame_info_eq {fr fr' : Frame} (h : frame_info fr' = frame_info fr) :
    fr'.mFlags = fr.mFlags ∧ fr'.mData1 = fr.mData1 ∧ fr'.mData2 = fr.mData2 := by
  simpa [frame_info, Prod.ext_iff] using h

theorem multi_rel_info {K : FlagBits} {crc : Bool} {h a f : Nat} {hb : List Nat} {d1 d2 : Nat}
    {data : List Nat} {infos : List (Nat × Nat × Nat)} {body : List Nat} {fs : List Frame}
    {fr fr' : Frame} (hi : frame_info fr' = frame_info fr)
    (hm : multi_rel K crc h a f hb d1 d2 data infos body fs fr) :
    multi_rel K crc h a f hb d1 d2 data infos body fs fr' := by
  obtain ⟨e1, e2, e3⟩ := frame_info_eq hi
  obtain ⟨ck, hdr, mids, h1, h2, h3, h4, h5, h6, h7, h8⟩ := hm
  exact ⟨ck, hdr, mids, h1, h2, h3, h4, h5, e1.trans h6, e2.trans h7, e3.trans h8⟩

theorem fifo_request_rel_info (K : FlagBits) (crc : Bool) (a : Nat) (body : List Nat)
    (fs : List Frame) (fr fr' : Frame) (hi : frame_info fr' = frame_info fr)
    (hr : fifo_request_rel K crc a body fs fr) : fifo_request_rel K crc a body fs fr' := by
  obtain ⟨e1, e2, e3⟩ := frame_info_eq hi
  obtain ⟨p1, p2, ck, h1, h2, h3, h4, h5, h6⟩ := hr
  exact ⟨p1, p2, ck, h1, h2, h3, e2.trans h4, e3.trans h5, e1.trans h6⟩

theorem readwrite_request_rel_info (K : FlagBits) (crc : Bool) (a : Nat) (body : List Nat)
    (fs : List Frame) (fr fr' : Frame) (hi : frame_info fr' = frame_info fr)
    (hr : readwrite_request_rel K crc a body fs fr) :
    readwrite_request_rel K crc a body fs fr' := by
  obtain ⟨p1, p2, p3, p4, p5, p6, p7, p8, bc, data, hl, hm⟩ := hr
  exact ⟨p1, p2, p3, p4, p5, p6, p7, p8, bc, data, hl, multi_rel_info hi hm⟩

theorem byte_response_rel_info (K : FlagBits) (f : Nat) (crc : Bool) (a : Nat)
    (body : List Nat) (fs : List Frame) (fr fr' : Frame)
    (hi : frame_info fr' = frame_info fr)
    (hr : byte_response_rel K f crc a body fs fr) : byte_response_rel K f crc a body fs fr' := by
  obtain ⟨bc, data, hl, hm⟩ := hr
  exact ⟨bc, data, hl, multi_rel_info hi hm⟩

/-- In each of the six Modbus modes, a pass of the dispatcher that returns
has read an address `a`, a function code `f` and bytes `body`, and when it is in
the request role and `f` is 0x18 (Read FIFO Queue) `body` is the two payload
bytes `p1`, `p2` followed by the checksum bytes `ck` (two in RTU, so six bytes in
all; one in ASCII), the pass hands over exactly one frame, whose `mData1` is
`( a << 56 ) + ( 0x18 << 48 ) + ( p1 << 40 ) + ( p2 << 32 ) + ( 0 << 24 ) +
( 0 << 16 ) + ( c1 << 8 ) + c0`, whose `mData2` is 0 and whose flags are REQUEST
with CHECKSUM_ERROR iff the received checksum differs from the CRC (RTU) or LRC
(ASCII) of `a, 0x18, p1, p2`; a pass that does not return has run out of
characters. -/
theorem fifo_request_pass (K : FlagBits) (mode : Mode) (pr : Bool) (s : Analyzer)
    (hmode : is_modbus mode) :
    pass_claim K mode pr s (fun a f body frames =>
      f = 0x18 → is_response mode pr = false →
        ∃ last, frames = [last] ∧ fifo_request_rel K (is_rtu mode) a body [] last) := by
  have h := pass_outcome_codes K mode pr s hmode (fun f => f = 0x18)
    (fun f hf => by subst hf; decide)
    (fun _ => fifo_request_rel K) no_rel_crc
    (fun _ => fifo_request_rel_info K) no_rel_crc_info
    (fun f hf pre a frame s2 hrun hfl hd1 hd2 => by
      subst hf
      have e : request_switch K mode a 0x18 frame = request_READ_FIFO_QUEUE K mode a 0x18 frame := by
        simp [request_switch]
      rw [e]
      exact request_READ_FIFO_QUEUE_rel K mode a frame s s2 pre hrun hfl hd1 hd2)
    (fun f _ pre a frame s2 hrun hfl hd1 hd2 =>
      response_switch_no_rel_crc K mode s f pre a frame s2 hrun hfl hd1 hd2)
  refine pass_claim_mono h (fun a f body frames hrel hf hresp => ?_)
  obtain ⟨fs, last, hfr, hr⟩ := hrel hf
  rw [hresp] at hr
  simp only [Bool.false_eq_true, if_false] at hr
  have hfs : fs = [] := by
    obtain ⟨_, _, _, _, _, h3, _⟩ := hr
    exact h3
  subst hfs
  exact ⟨last, by simpa using hfr, hr⟩

/-- In each of the six Modbus modes, a pass of the dispatcher that returns
has read an address `a`, a function code `f` and bytes `body`, and when it is in
the request role and `f` is 0x17 (Read/Write Multiple Registers) `body` is nine
header bytes `p1 .. p8, bc`, then `2 * ( bc / 2 )` data bytes, then the checksum
bytes; the frames handed over are a header with flags exactly REQUEST,
`mData1 = ( a << 56 ) + ( 0x17 << 48 ) + ( p1 << 40 ) + ( p2 << 32 ) + ( p3 << 24 ) +
( p4 << 16 ) + ( 0 << 8 ) + bc` and `mData2 = ( p5 << 24 ) + ( p6 << 16 ) +
( p7 << 8 ) + p8`, then `bc / 2` DATA frames (one per two data bytes,
`mData1 = ( hi << 40 ) + ( lo << 32 )`), then the END frame, with CHECKSUM_ERROR iff
the received checksum differs from the CRC (RTU) or LRC (ASCII) of the address,
the function code, the nine header bytes and the data bytes; a pass that does not
return has run out of characters. -/
theorem readwrite_request_pass (K : FlagBits) (mode : Mode) (pr : Bool) (s : Analyzer)
    (hmode : is_modbus mode) :
    pass_claim K mode pr s (fun a f body frames =>
      f = 0x17 → is_response mode pr = false →
        ∃ fs last, frames = fs ++ [last]
          ∧ readwrite_request_rel K (is_rtu mode) a body fs last) := by
  have h := pass_outcome_codes K mode pr s hmode (fun f => f = 0x17)
    (fun f hf => by subst hf; decide)
    (fun _ => readwrite_request_rel K) no_rel_crc
    (fun _ => readwrite_request_rel_info K) no_rel_crc_info
    (fun f hf pre a frame s2 hrun hfl hd1 hd2 => by
      subst hf
      have e : request_switch K mode a 0x17 frame
          = request_READWRITE_MULTIPLE_REGISTERS K mode a 0x17 frame := by
        simp [request_switch]
      rw [e]
      exact request_READWRITE_rel K mode a frame s s2 pre hrun hfl hd1 hd2)
    (fun f _ pre a frame s2 hrun hfl hd1 hd2 =>
      response_switch_no_rel_crc K mode s f pre a frame s2 hrun hfl hd1 hd2)
  refine pass_claim_mono h (fun a f body frames hrel hf hresp => ?_)
  obtain ⟨fs, last, hfr, hr⟩ := hrel hf
  rw [hresp] at hr
  simp only [Bool.false_eq_true, if_false] at hr
  exact ⟨fs, last, hfr, hr⟩

/-- In each of the six Modbus modes, a pass of the dispatcher that returns
has read an address `a`, a function code `f` and bytes `body`, and when it is in
the response role and `f` is 0x01 (Read Coils), 0x02 (Read Discrete Inputs) or
0x11 (Report Server ID) `body` is the byte count `bc`, then `bc` data bytes, then
the checksum bytes; the frames handed over are a header with flags exactly
RESPONSE and `mData1 = ( a << 56 ) + ( f << 48 ) + bc`, then `bc` DATA frames, the
`i`-th with flags exactly DATA and `mData1 = byte_i << 32`, then the END frame,
with CHECKSUM_ERROR iff the received checksum differs from the CRC (RTU) or LRC
(ASCII) of the address, the function code, the byte count and the data bytes; a
pass that does not return has run out of characters. -/
theorem byte_response_pass (K : FlagBits) (mode : Mode) (pr : Bool) (s : Analyzer)
    (hmode : is_modbus mode) :
    pass_claim K mode pr s (fun a f body frames =>
      f = 0x01 ∨ f = 0x02 ∨ f = 0x11 → is_response mode pr = true →
        ∃ fs last, frames = fs ++ [last]
          ∧ byte_response_rel K f (is_rtu mode) a body fs last) := by
  have h := pass_outcome_codes K mode pr s hmode (fun f => f = 0x01 ∨ f = 0x02 ∨ f = 0x11)
    (fun f hf => by rcases hf with rfl | rfl | rfl <;> decide)
    no_rel_crc (fun f => byte_response_rel K f)
    no_rel_crc_info (fun f => byte_response_rel_info K f)
    (fun f _ pre a frame s2 hrun hfl hd1 hd2 =>
      request_switch_no_rel_crc K mode s f pre a frame s2 hrun hfl hd1 hd2)
    (fun f hf pre a frame s2 hrun hfl hd1 hd2 => by
      have e : response_switch K mode a f frame = response_READ_COILS K mode a f frame := by
        rcases hf with rfl | rfl | rfl <;> simp [response_switch]
      rw [e]
      exact response_READ_COILS_rel K mode a f frame s s2 pre hrun hfl hd1 hd2)
  refine pass_claim_mono h (fun a f body frames hrel hf hresp => ?_)
  obtain ⟨fs, last, hfr, hr⟩ := hrel hf
  rw [hresp] at hr
  simp only [if_true] at hr
  exact ⟨fs, last, hfr, hr⟩

/-! ### Get Com Event Log and Read FIFO Queue responses -/

theorem data_bytes_rtu_exhaust (K : FlagBits) (mode : Mode)
    (hrtu : mode = .ModbusRTUClient ∨ mode = .ModbusRTUServer ∨ mode = .ModbusRTUBoth)
    (cs : List SerialChar) (n : Nat) (hlen : cs.length < n)
    (ck : Nat) (sf ef : Nat) (res : List Frame) :
    data_bytes K mode update_CRC n ck ⟨cs, sf, ef, res⟩
      = .blocked ⟨[], (after_bytes cs (sf, ef)).1, (after_bytes cs (sf, ef)).2,
          res ++ byte_frames K cs⟩ := by
  induction cs generalizing n ck sf ef res with
  | nil =>
    obtain ⟨m, rfl⟩ : ∃ m, n = m + 1 := ⟨n - 1, by simp at hlen; omega⟩
    simp [data_bytes, GetNextByteModbus, hrtu, nextChar, after_bytes, byte_frames,
      Worker.bind_apply]
  | cons c cs ih =>
    obtain ⟨m, rfl⟩ : ∃ m, n = m + 1 := ⟨n - 1, by simp at hlen; omega⟩
    have hlen' : cs.length < m := by simp at hlen; omega
    simp only [data_bytes, Worker.bind_apply, GetNextByteModbus_rtu mode hrtu,
      get_starting_frame, get_ending_frame, AddFrame, Worker.pure_apply, ih m hlen',
      after_bytes, byte_frames, List.append_assoc, List.singleton_append]

theorem response_GET_COM_EVENT_LOG_rtu (K : FlagBits) (mode : Mode)
    (hsrv : mode = .ModbusRTUServer ∨ mode = .ModbusRTUBoth) (a f : Nat) (frame : Frame)
    (b s0 s1 e0 e1 m0 m1 : SerialChar) (tail : List SerialChar) (sf ef : Nat)
    (res : List Frame) (n : Nat) (hn : int_passes (U64 (b.data + 2 ^ 64 - 6)) = n) :
    response_GET_COM_EVENT_LOG K mode a f frame
        ⟨b :: s0 :: s1 :: e0 :: e1 :: m0 :: m1 :: tail, sf, ef, res⟩
      = (data_bytes K mode update_CRC n
            ([a, f, b.data, s0.data, s1.data, e0.data, e1.data, m0.data, m1.data].foldl
              update_CRC 0xFFFF) >>= fun Checksum =>
          end_frame_CRC K mode Checksum
            { frame with
              mData2 := U64 ((e1.data <<< 24) + (e0.data <<< 16) + (m1.data <<< 8) + m0.data)
              mData1 := pack8 a f s0.data s1.data 0 0 0 b.data
              mEndingSampleInclusive := m1.stop })
          ⟨tail, m1.start, m1.stop, res ++ [
            { frame with
              mData2 := U64 ((e1.data <<< 24) + (e0.data <<< 16) + (m1.data <<< 8) + m0.data)
              mData1 := pack8 a f s0.data s1.data 0 0 0 b.data
              mEndingSampleInclusive := m1.stop }]⟩ := by
  have hrtu : mode = .ModbusRTUClient ∨ mode = .ModbusRTUServer ∨ mode = .ModbusRTUBoth := by
    rcases hsrv with h | h <;> simp [h]
  simp only [response_GET_COM_EVENT_LOG, Worker.bind_apply, GetNextByteModbus_rtu mode hrtu,
    hsrv, if_true, emit_header, get_ending_frame, AddFrame, Worker.pure_apply, hn]

theorem com_event_log_rtu_six (K : FlagBits) (mode : Mode) (pr : Bool)
    (hmode : mode = .ModbusRTUServer ∨ (mode = .ModbusRTUBoth ∧ pr = true))
    (a f b s0 s1 e0 e1 m0 m1 c0 c1 : SerialChar) (rest : List SerialChar)
    (sf ef : Nat) (res : List Frame)
    (hf : f.data = 0x0C) (hb : b.data = 6) :
    WorkerThread_message K mode pr
        ⟨a :: f :: b :: s0 :: s1 :: e0 :: e1 :: m0 :: m1 :: c0 :: c1 :: rest, sf, ef, res⟩
      = .ret (!pr) ⟨rest, c1.start, c1.stop, res ++ [
          { mStartingSampleInclusive := a.start
            mEndingSampleInclusive := m1.stop
            mData1 := pack8 a.data f.data s0.data s1.data 0 0 0 b.data
            mData2 := U64 ((e1.data <<< 24) + (e0.data <<< 16) + (m1.data <<< 8) + m0.data)
            mFlags := K.FLAG_RESPONSE_FRAME },
          { mStartingSampleInclusive := c0.start
            mEndingSampleInclusive := c1.stop
            mData1 := U64 ((c1.data <<< 8) + c0.data)
            mData2 := U64 ((e1.data <<< 24) + (e0.data <<< 16) + (m1.data <<< 8) + m0.data)
            mFlags :=
              if crc_mismatch (CRC [a.data, f.data, b.data, s0.data, s1.data,
                  e0.data, e1.data, m0.data, m1.data]) c0.data c1.data
              then K.FLAG_END_FRAME ||| K.FLAG_CHECKSUM_ERROR
              else K.FLAG_END_FRAME }]⟩ := by
  have he : f.data &&& 128 = 0 := by rw [hf]; decide
  have e6 : int_passes (U64 (b.data + 2 ^ 64 - 6)) = 0 := by rw [hb]; simp [U64, int_passes]
  have hsrv : mode = .ModbusRTUServer ∨ mode = .ModbusRTUBoth := by
    rcases hmode with h | ⟨h, _⟩ <;> simp [h]
  have hrtu : mode = .ModbusRTUClient ∨ mode = .ModbusRTUServer ∨ mode = .ModbusRTUBoth := by
    rcases hsrv with h | h <;> simp [h]
  have hz : ∀ ck (s : Analyzer), data_bytes K mode update_CRC 0 ck s = .ret ck s :=
    fun _ _ => rfl
  have hs : ∀ x fr, response_switch K mode x f.data fr
      = response_GET_COM_EVENT_LOG K mode x f.data fr := by
    intro x fr; simp [response_switch, hf]
  have hc : ∀ (g : Frame → Worker Frame) (fr : Frame),
      (response_switch K mode a.data f.data fr >>= g)
        ⟨b :: s0 :: s1 :: e0 :: e1 :: m0 :: m1 :: c0 :: c1 :: rest, f.start, f.stop, res⟩
      = g { fr with
            mFlags := flagged K K.FLAG_END_FRAME (crc_mismatch (CRC [a.data, f.data, b.data,
              s0.data, s1.data, e0.data, e1.data, m0.data, m1.data]) c0.data c1.data)
            mData2 := U64 ((e1.data <<< 24) + (e0.data <<< 16) + (m1.data <<< 8) + m0.data)
            mData1 := U64 ((c1.data <<< 8) + c0.data)
            mStartingSampleInclusive := c0.start
            mEndingSampleInclusive := m1.stop }
          ⟨rest, c1.start, c1.stop, res ++ [
            { fr with
              mData2 := U64 ((e1.data <<< 24) + (e0.data <<< 16) + (m1.data <<< 8) + m0.data)
              mData1 := pack8 a.data f.data s0.data s1.data 0 0 0 b.data
              mEndingSampleInclusive := m1.stop }]⟩ := by
    intro g fr
    rw [Worker.bind_apply, hs, response_GET_COM_EVENT_LOG_rtu K mode hsrv _ _ _ _ _ _ _ _ _ _ _
      _ _ _ 0 e6, Worker.bind_apply, hz]
    simp [end_frame_CRC, GetNextByteModbus_rtu mode hrtu, get_starting_frame, hsrv, CRC,
      flag_if, flagged]
  rcases hmode with h | ⟨h, hpr⟩
  · subst h
    simp only [WorkerThread_message, WorkerThread_parse, Worker.bind_apply, Worker.pure_apply]
    simp [request_role, response_role]
    simp only [GetNextByteModbus_rtu Mode.ModbusRTUServer (Or.inr (Or.inl rfl)),
      get_starting_frame, he, if_true, hc]
    simp [get_ending_frame, AddFrame, flagged]
  · subst h; subst hpr
    simp only [WorkerThread_message, WorkerThread_parse, Worker.bind_apply, Worker.pure_apply]
    simp [request_role, response_role]
    simp only [GetNextByteModbus_rtu Mode.ModbusRTUBoth (Or.inr (Or.inr rfl)),
      get_starting_frame, he, if_true, hc]
    simp [get_ending_frame, AddFrame, flagged]

theorem com_event_log_rtu_exhaust (K : FlagBits) (mode : Mode) (pr : Bool)
    (hmode : mode = .ModbusRTUServer ∨ (mode = .ModbusRTUBoth ∧ pr = true))
    (a f b s0 s1 e0 e1 m0 m1 : SerialChar) (bs : List SerialChar)
    (sf ef : Nat) (res : List Frame)
    (hf : f.data = 0x0C) (hb : b.data = 0) (hlen : bs.length < 4294967290) :
    WorkerThread_message K mode pr
        ⟨a :: f :: b :: s0 :: s1 :: e0 :: e1 :: m0 :: m1 :: bs, sf, ef, res⟩
      = .blocked ⟨[], (after_bytes bs (m1.start, m1.stop)).1,
          (after_bytes bs (m1.start, m1.stop)).2, res ++
          { mStartingSampleInclusive := a.start
            mEndingSampleInclusive := m1.stop
            mData1 := pack8 a.data f.data s0.data s1.data 0 0 0 b.data
            mData2 := U64 ((e1.data <<< 24) + (e0.data <<< 16) + (m1.data <<< 8) + m0.data)
            mFlags := K.FLAG_RESPONSE_FRAME } :: byte_frames K bs⟩ := by
  have hsrv : mode = .ModbusRTUServer ∨ mode = .ModbusRTUBoth := by
    rcases hmode with h | ⟨h, _⟩ <;> simp [h]
  have hrtu : mode = .ModbusRTUClient ∨ mode = .ModbusRTUServer ∨ mode = .ModbusRTUBoth := by
    rcases hsrv with h | h <;> simp [h]
  have he : f.data &&& 128 = 0 := by rw [hf]; decide
  have ew : int_passes (U64 (b.data + 2 ^ 64 - 6)) = 4294967290 := by
    rw [hb]; simp [U64, int_passes]
  have hs : ∀ x fr, response_switch K mode x f.data fr
      = response_GET_COM_EVENT_LOG K mode x f.data fr := by
    intro x fr; simp [response_switch, hf]
  have hc : ∀ (g : Frame → Worker Frame) (fr : Frame),
      (response_switch K mode a.data f.data fr >>= g)
        ⟨b :: s0 :: s1 :: e0 :: e1 :: m0 :: m1 :: bs, f.start, f.stop, res⟩
      = .blocked ⟨[], (after_bytes bs (m1.start, m1.stop)).1,
          (after_bytes bs (m1.start, m1.stop)).2, (res ++ [
            { fr with
              mData2 := U64 ((e1.data <<< 24) + (e0.data <<< 16) + (m1.data <<< 8) + m0.data)
              mData1 := pack8 a.data f.data s0.data s1.data 0 0 0 b.data
              mEndingSampleInclusive := m1.stop }]) ++ byte_frames K bs⟩ := by
    intro g fr
    rw [Worker.bind_apply, hs, response_GET_COM_EVENT_LOG_rtu K mode hsrv _ _ _ _ _ _ _ _ _ _ _
      _ _ _ 4294967290 ew, Worker.bind_apply,
      data_bytes_rtu_exhaust K mode hrtu bs 4294967290 hlen]
  rcases hmode with h | ⟨h, hpr⟩
  · subst h
    simp only [WorkerThread_message, WorkerThread_parse, Worker.bind_apply, Worker.pure_apply]
    simp [request_role, response_role]
    simp only [GetNextByteModbus_rtu Mode.ModbusRTUServer (Or.inr (Or.inl rfl)),
      get_starting_frame, he, if_true, hc]
    simp
  · subst h; subst hpr
    simp only [WorkerThread_message, WorkerThread_parse, Worker.bind_apply, Worker.pure_apply]
    simp [request_role, response_role]
    simp only [GetNextByteModbus_rtu Mode.ModbusRTUBoth (Or.inr (Or.inr rfl)),
      get_starting_frame, he, if_true, hc]
    simp

theorem fifo_response_rtu (K : FlagBits) (mode : Mode) (pr : Bool)
    (hmode : mode = .ModbusRTUServer ∨ (mode = .ModbusRTUBoth ∧ pr = true))
    (a f b0 b1 n0 n1 c0 c1 : SerialChar) (ws rest : List SerialChar)
    (sf ef : Nat) (res : List Frame)
    (hf : f.data = 0x18) (n : Nat) (hn : U64 ((n1.data <<< 8) + n0.data) = n)
    (hlen : ws.length = 2 * n) :
    WorkerThread_message K mode pr
        ⟨a :: f :: b0 :: b1 :: n0 :: n1 :: (ws ++ c0 :: c1 :: rest), sf, ef, res⟩
      = .ret (!pr) ⟨rest, c1.start, c1.stop, res ++
          { mStartingSampleInclusive := a.start
            mEndingSampleInclusive := n1.stop
            mData1 := pack8 a.data f.data 0 0 n1.data n0.data b1.data b0.data
            mData2 := 0
            mFlags := K.FLAG_RESPONSE_FRAME } ::
          (word_frames K ws ++ [
          { mStartingSampleInclusive := c0.start
            mEndingSampleInclusive := c1.stop
            mData1 := U64 ((c1.data <<< 8) + c0.data)
            mData2 := 0
            mFlags :=
              if crc_mismatch (CRC (a.data :: f.data :: b0.data :: b1.data :: n0.data ::
                  n1.data :: ws.map SerialChar.data)) c0.data c1.data
              then K.FLAG_END_FRAME ||| K.FLAG_CHECKSUM_ERROR
              else K.FLAG_END_FRAME }])⟩ := by
  have hrtu : mode = .ModbusRTUClient ∨ mode = .ModbusRTUServer ∨ mode = .ModbusRTUBoth := by
    rcases hmode with h | ⟨h, _⟩ <;> simp [h]
  have hdw := data_words_rtu K mode hrtu n ws hlen
  have e24 : (24 &&& 128 : Nat) = 0 := by decide
  rcases hmode with h | ⟨h, hpr⟩
  · subst h
    simp [WorkerThread_message, WorkerThread_parse, request_role, response_role,
      response_switch, response_READ_FIFO_QUEUE, emit_header, end_frame_CRC,
      GetNextByteModbus_rtu, get_starting_frame, get_ending_frame, AddFrame, hf, CRC,
      flag_if, hn, hdw, e24]
  · subst h; subst hpr
    simp [WorkerThread_message, WorkerThread_parse, request_role, response_role,
      response_switch, response_READ_FIFO_QUEUE, emit_header, end_frame_CRC,
      GetNextByteModbus_rtu, get_starting_frame, get_ending_frame, AddFrame, hf, CRC,
      flag_if, hn, hdw, e24]

theorem com_event_log_rel_info (K : FlagBits) (crc : Bool) (a : Nat)
    (body : List Nat) (fs : List Frame) (fr fr' : Frame)
    (hi : frame_info fr' = frame_info fr)
    (hr : com_event_log_rel K crc a body fs fr) : com_event_log_rel K crc a body fs fr' := by
  obtain ⟨bc, s0, s1, e0, e1, m0, m1, data, hl, hm⟩ := hr
  exact ⟨bc, s0, s1, e0, e1, m0, m1, data, hl, multi_rel_info hi hm⟩

theorem fifo_response_rel_info (K : FlagBits) (crc : Bool) (a : Nat)
    (body : List Nat) (fs : List Frame) (fr fr' : Frame)
    (hi : frame_info fr' = frame_info fr)
    (hr : fifo_response_rel K crc a body fs fr) : fifo_response_rel K crc a body fs fr' := by
  obtain ⟨b0, b1, c0, c1, data, hl, hm⟩ := hr
  exact ⟨b0, b1, c0, c1, data, hl, multi_rel_info hi hm⟩

theorem word_pairs_length (n : Nat) (data : List Nat) (h : data.length = 2 * n) :
    (word_pairs data).length = n := by
  induction n generalizing data with
  | zero =>
    have : data = [] := List.length_eq_zero.mp (by simpa using h)
    subst this; rfl
  | succ n ih =>
    match data, h with
    | x :: y :: t, h =>
      have ht : t.length = 2 * n := by simp at h; omega
      simp [word_pairs, ih t ht]

/-- What a pass in the response role hands over for Get Com Event Log (0x0C), for
every mode: the relation `com_event_log_rel` between the bytes read and the
frames. -/
theorem com_event_log_pass (K : FlagBits) (mode : Mode) (pr : Bool) (s : Analyzer)
    (hmode : is_modbus mode) :
    pass_claim K mode pr s (fun a f body frames =>
      f = 0x0C → is_response mode pr = true →
        ∃ fs last, frames = fs ++ [last]
          ∧ com_event_log_rel K (is_rtu mode) a body fs last) := by
  have h := pass_outcome_codes K mode pr s hmode (fun f => f = 0x0C)
    (fun f hf => by subst hf; decide)
    no_rel_crc (fun _ => com_event_log_rel K)
    no_rel_crc_info (fun _ => com_event_log_rel_info K)
    (fun f _ pre a frame s2 hrun hfl hd1 hd2 =>
      request_switch_no_rel_crc K mode s f pre a frame s2 hrun hfl hd1 hd2)
    (fun f hf pre a frame s2 hrun hfl hd1 hd2 => by
      subst hf
      have e : response_switch K mode a 0x0C frame
          = response_GET_COM_EVENT_LOG K mode a 0x0C frame := by
        simp [response_switch]
      rw [e]
      exact response_GET_COM_EVENT_LOG_rel K mode a frame s s2 pre hrun hfl hd1 hd2)
  refine pass_claim_mono h (fun a f body frames hrel hf hresp => ?_)
  obtain ⟨fs, last, hfr, hr⟩ := hrel hf
  rw [hresp] at hr
  simp only [if_true] at hr
  exact ⟨fs, last, hfr, hr⟩

/-- What a pass in the response role hands over for Read FIFO Queue (0x18), for
every mode: the relation `fifo_response_rel` between the bytes read and the
frames. -/
theorem fifo_response_pass (K : FlagBits) (mode : Mode) (pr : Bool) (s : Analyzer)
    (hmode : is_modbus mode) :
    pass_claim K mode pr s (fun a f body frames =>
      f = 0x18 → is_response mode pr = true →
        ∃ fs last, frames = fs ++ [last]
          ∧ fifo_response_rel K (is_rtu mode) a body fs last) := by
  have h := pass_outcome_codes K mode pr s hmode (fun f => f = 0x18)
    (fun f hf => by subst hf; decide)
    no_rel_crc (fun _ => fifo_response_rel K)
    no_rel_crc_info (fun _ => fifo_response_rel_info K)
    (fun f _ pre a frame s2 hrun hfl hd1 hd2 =>
      request_switch_no_rel_crc K mode s f pre a frame s2 hrun hfl hd1 hd2)
    (fun f hf pre a frame s2 hrun hfl hd1 hd2 => by
      subst hf
      have e : response_switch K mode a 0x18 frame
          = response_READ_FIFO_QUEUE K mode a 0x18 frame := by
        simp [response_switch]
      rw [e]
      exact response_READ_FIFO_QUEUE_rel K mode a frame s s2 pre hrun hfl hd1 hd2)
  refine pass_claim_mono h (fun a f body frames hrel hf hresp => ?_)
  obtain ⟨fs, last, hfr, hr⟩ := hrel hf
  rw [hresp] at hr
  simp only [if_true] at hr
  exact ⟨fs, last, hfr, hr⟩

/-- C24, counterexample: in RTU-Server mode the Get Com Event Log response
`01 0C 06 01 02 03 04 05 06 00 00` (status `01 02`, event count `03 04`, message
count `05 06`) is handed over as a RESPONSE header whose `mData2` is `0x04030605`
(event count and message count, second byte first), not
`0x01020304 = s_hi<<24 | s_lo<<16 | e_hi<<8 | e_lo`. -/
theorem com_event_log_data2_not_status :
    ∃ s1 hdr last,
      WorkerThread_message sampleFlags .ModbusRTUServer false
          ⟨[⟨0x01, 10, 90⟩, ⟨0x0C, 110, 190⟩, ⟨0x06, 210, 290⟩, ⟨0x01, 310, 390⟩,
            ⟨0x02, 410, 490⟩, ⟨0x03, 510, 590⟩, ⟨0x04, 610, 690⟩, ⟨0x05, 710, 790⟩,
            ⟨0x06, 810, 890⟩, ⟨0x00, 910, 990⟩, ⟨0x00, 1010, 1090⟩], 0, 0, []⟩ = .ret true s1
        ∧ s1.mResults = [hdr, last]
        ∧ hdr.mFlags = sampleFlags.FLAG_RESPONSE_FRAME
        ∧ hdr.mData2 = 0x04030605
        ∧ hdr.mData2 ≠ (0x01 <<< 24) ||| (0x02 <<< 16) ||| (0x03 <<< 8) ||| 0x04 := by
  have h := com_event_log_rtu_six sampleFlags .ModbusRTUServer false (Or.inl rfl)
    ⟨0x01, 10, 90⟩ ⟨0x0C, 110, 190⟩ ⟨0x06, 210, 290⟩ ⟨0x01, 310, 390⟩
    ⟨0x02, 410, 490⟩ ⟨0x03, 510, 590⟩ ⟨0x04, 610, 690⟩ ⟨0x05, 710, 790⟩
    ⟨0x06, 810, 890⟩ ⟨0x00, 910, 990⟩ ⟨0x00, 1010, 1090⟩ [] 0 0 [] rfl rfl
  refine ⟨_, _, _, h, rfl, rfl, ?_, ?_⟩
  · show U64 ((4 <<< 24) + (3 <<< 16) + (6 <<< 8) + 5) = 0x04030605
    decide
  · show U64 ((4 <<< 24) + (3 <<< 16) + (6 <<< 8) + 5) ≠ _
    decide

/-- C36: in RTU-Server mode the Get Com Event Log response
`01 0C 00 00 01 02 03 04 05` with byte count 0, followed by the two bytes `5A 5B`
meant as its CRC, does not produce its END frame: the loop bound `0 - 6` wraps
around, the two bytes are read as event bytes and handed over as DATA frames,
and the pass is still reading event bytes when the capture ends. -/
theorem com_event_log_count_wraps :
    ∃ s1,
      WorkerThread_message sampleFlags .ModbusRTUServer false
          ⟨[⟨0x01, 10, 90⟩, ⟨0x0C, 110, 190⟩, ⟨0x00, 210, 290⟩, ⟨0x00, 310, 390⟩,
            ⟨0x01, 410, 490⟩, ⟨0x02, 510, 590⟩, ⟨0x03, 610, 690⟩, ⟨0x04, 710, 790⟩,
            ⟨0x05, 810, 890⟩, ⟨0x5A, 910, 990⟩, ⟨0x5B, 1010, 1090⟩], 0, 0, []⟩ = .blocked s1
        ∧ s1.mModbus = []
        ∧ s1.mResults.map Frame.mFlags
            = [sampleFlags.FLAG_RESPONSE_FRAME, sampleFlags.FLAG_DATA_FRAME,
                sampleFlags.FLAG_DATA_FRAME]
        ∧ s1.mResults.map Frame.mData1
            = [pack8 0x01 0x0C 0x00 0x01 0 0 0 0x00, 0x5A <<< 32, 0x5B <<< 32] := by
  have h := com_event_log_rtu_exhaust sampleFlags .ModbusRTUServer false (Or.inl rfl)
    ⟨0x01, 10, 90⟩ ⟨0x0C, 110, 190⟩ ⟨0x00, 210, 290⟩ ⟨0x00, 310, 390⟩
    ⟨0x01, 410, 490⟩ ⟨0x02, 510, 590⟩ ⟨0x03, 610, 690⟩ ⟨0x04, 710, 790⟩
    ⟨0x05, 810, 890⟩ [⟨0x5A, 910, 990⟩, ⟨0x5B, 1010, 1090⟩] 0 0 [] rfl rfl (by decide)
  refine ⟨_, h, rfl, rfl, ?_⟩
  simp only [List.nil_append, List.map_cons, byte_frames, List.map_nil, List.cons_append]
  refine congrArg₂ _ rfl (congrArg₂ _ ?_ (congrArg₂ _ ?_ rfl)) <;> decide

/-! ### Start-of-frame search and concatenated requests -/

theorem ascii_pair_colon (x y : Nat) (h : toChar (ascii_pair x y) = 0x3A) :
    toChar x = 0x33 ∧ (toChar y = 0x41 ∨ toChar y = 0x61) := by
  rw [ascii_pair_eq] at h
  have hx := ASCII2INT_range (toChar x)
  have hy := ASCII2INT_range (toChar y)
  have hnx : ((nib x : Nat) : Int) = ASCII2INT (toChar x) := by
    unfold nib; exact Int.toNat_of_nonneg hx.1
  have hny : ((nib y : Nat) : Int) = ASCII2INT (toChar y) := by
    unfold nib; exact Int.toNat_of_nonneg hy.1
  have hv : nib x * 16 + nib y = 0x3A := by
    unfold toChar at h
    split at h <;> omega
  have h3 : ASCII2INT (toChar x) = 3 ∧ ASCII2INT (toChar y) = 10 := by omega
  obtain ⟨hx3, hy10⟩ := h3
  constructor
  · unfold ASCII2INT at hx3
    split_ifs at hx3 <;> omega
  · unfold ASCII2INT at hy10
    split_ifs at hy10 <;> omega

/-- The start-of-frame search of the ASCII modes, at character level: when it
returns it has consumed, after characters `junk`, either the single character
`':'` or two characters that are paired to the byte 0x3A (the character `'3'`
followed by `'A'` or `'a'`); otherwise the channel has run out of characters. -/
theorem find_start_of_frame_chars (mode : Mode)
    (hasc : mode = .ModbusASCIIClient ∨ mode = .ModbusASCIIServer ∨ mode = .ModbusASCIIBoth) :
    ∀ (fuel : Nat) (frame : Frame) (s : Analyzer), s.mModbus.length < fuel →
      match find_start_of_frame mode fuel frame s with
      | .ret _ s1 => ∃ junk,
          (∃ c, s.mModbus = junk ++ c :: s1.mModbus ∧ c.data = 0x3A)
          ∨ (∃ c1 c2, s.mModbus = junk ++ c1 :: c2 :: s1.mModbus
              ∧ toChar c1.data = 0x33 ∧ (toChar c2.data = 0x41 ∨ toChar c2.data = 0x61))
      | .blocked s1 => s1.mModbus = [] := by
  have hm : ¬ (mode = .ModbusRTUClient ∨ mode = .ModbusRTUServer ∨ mode = .ModbusRTUBoth) := by
    rcases hasc with h | h | h <;> subst h <;> simp
  intro fuel
  induction fuel with
  | zero => intro frame s h; omega
  | succ fuel ih =>
    intro frame s hlen
    obtain ⟨w, sf, ef, res⟩ := s
    rcases w with _ | ⟨c, w⟩
    · simp [find_start_of_frame, GetNextByteModbus, nextChar, hm]
    · by_cases hd : c.data = 0x3A ∨ c.data = 0x0A ∨ c.data = 0x0D
      · simp only [find_start_of_frame, Worker.bind_apply,
          GetNextByteModbus_ascii_delim mode hasc c w sf ef res hd, get_starting_frame,
          Worker.pure_apply]
        by_cases hc : toChar c.data = 0x3A
        · have hc3 : c.data = 0x3A := by
            rcases hd with h | h | h
            · exact h
            · rw [h] at hc; exact absurd hc (by decide)
            · rw [h] at hc; exact absurd hc (by decide)
          simp only [hc, ne_eq, not_true_eq_false, if_false, Worker.pure_apply]
          exact ⟨[], Or.inl ⟨c, rfl, hc3⟩⟩
        · simp only [hc, ne_eq, not_false_eq_true, if_true]
          have h := ih { frame with mStartingSampleInclusive := c.start } ⟨w, c.start, ef, res⟩
            (by simp at hlen ⊢; omega)
          revert h
          cases find_start_of_frame mode fuel
            { frame with mStartingSampleInclusive := c.start } ⟨w, c.start, ef, res⟩ with
          | blocked s1 => exact id
          | ret fr s1 =>
            rintro ⟨junk, h | h⟩
            · obtain ⟨c', e, hc'⟩ := h
              exact ⟨c :: junk, Or.inl ⟨c', by simp at e ⊢; exact e, hc'⟩⟩
            · obtain ⟨c1, c2, e, hc'⟩ := h
              exact ⟨c :: junk, Or.inr ⟨c1, c2, by simp at e ⊢; exact e, hc'⟩⟩
      · rcases w with _ | ⟨c2, w⟩
        · simp [find_start_of_frame, GetNextByteModbus, nextChar, hm, hd, set_starting_frame]
        · simp only [find_start_of_frame, Worker.bind_apply,
            GetNextByteModbus_ascii_pair mode hasc c c2 w sf ef res hd, get_starting_frame,
            Worker.pure_apply]
          by_cases hc : toChar (ascii_pair c.data c2.data) = 0x3A
          · simp only [hc, ne_eq, not_true_eq_false, if_false, Worker.pure_apply]
            exact ⟨[], Or.inr ⟨c, c2, rfl, ascii_pair_colon _ _ hc⟩⟩
          · simp only [hc, ne_eq, not_false_eq_true, if_true]
            have h := ih { frame with mStartingSampleInclusive := c.start }
              ⟨w, c.start, c2.stop, res⟩ (by simp at hlen ⊢; omega)
            revert h
            cases find_start_of_frame mode fuel
              { frame with mStartingSampleInclusive := c.start } ⟨w, c.start, c2.stop, res⟩ with
            | blocked s1 => exact id
            | ret fr s1 =>
              rintro ⟨junk, h | h⟩
              · obtain ⟨c', e, hc'⟩ := h
                exact ⟨c :: c2 :: junk, Or.inl ⟨c', by simp at e ⊢; exact e, hc'⟩⟩
              · obtain ⟨c1, c2', e, hc'⟩ := h
                exact ⟨c :: c2 :: junk, Or.inr ⟨c1, c2', by simp at e ⊢; exact e, hc'⟩⟩

set_option maxHeartbeats 2000000 in
theorem ascii_paired_start_request (K : FlagBits) (mode : Mode) (pr : Bool)
    (hmode : mode = .ModbusASCIIClient ∨ (mode = .ModbusASCIIBoth ∧ pr = false))
    (p1 p2 a1 a2 f1 f2 l1 l2 : SerialChar)
    (tw : List SerialChar) (sf ef : Nat) (res : List Frame)
    (hp : ¬ (p1.data = 0x3A ∨ p1.data = 0x0A ∨ p1.data = 0x0D))
    (hpv : ascii_pair p1.data p2.data = 0x3A)
    (ha : ¬ (a1.data = 0x3A ∨ a1.data = 0x0A ∨ a1.data = 0x0D))
    (hf : ¬ (f1.data = 0x3A ∨ f1.data = 0x0A ∨ f1.data = 0x0D))
    (hl : ¬ (l1.data = 0x3A ∨ l1.data = 0x0A ∨ l1.data = 0x0D))
    (hfc : ascii_pair f1.data f2.data = 0x07) :
    WorkerThread_message K mode pr
        ⟨p1 :: p2 :: a1 :: a2 :: f1 :: f2 :: l1 :: l2 :: tw, sf, ef, res⟩
      = trailer_commit mode pr
          { mStartingSampleInclusive := a1.start
            mEndingSampleInclusive := 0
            mData1 := pack8 (ascii_pair a1.data a2.data) (ascii_pair f1.data f2.data)
              0 0 0 0 0 (ascii_pair l1.data l2.data)
            mData2 := 0
            mFlags :=
              if LRC [ascii_pair a1.data a2.data, ascii_pair f1.data f2.data]
                  ≠ ascii_pair l1.data l2.data
              then K.FLAG_REQUEST_FRAME ||| K.FLAG_CHECKSUM_ERROR
              else K.FLAG_REQUEST_FRAME }
          ⟨tw, l1.start, l2.stop, res⟩ := by
  have hasc : mode = .ModbusASCIIClient ∨ mode = .ModbusASCIIServer ∨ mode = .ModbusASCIIBoth := by
    rcases hmode with h | ⟨h, _⟩ <;> simp [h]
  have ep := GetNextByteModbus_ascii_pair mode hasc
  unfold trailer_commit
  rcases hmode with h | ⟨h, hpr⟩
  · subst h
    cases h1 : GetNextByteModbus .ModbusASCIIClient ⟨tw, l1.start, l2.stop, res⟩ with
    | blocked s1 =>
      simp [WorkerThread_message, WorkerThread_parse, request_role, response_role, request_switch,
        request_READ_EXCEPTION_STATUS, single_frame_LRC, find_start_of_frame, chars_left,
        get_starting_frame, get_ending_frame, AddFrame, hfc, LRC, flag_if,
        ep, hp, hpv, ha, hf, hl, toChar, h1]
    | ret v1 s1 =>
      obtain ⟨w1, sf1, ef1, r1⟩ := s1
      cases h2 : GetNextByteModbus .ModbusASCIIClient ⟨w1, sf1, ef1, r1⟩ with
      | blocked s2 =>
        simp [WorkerThread_message, WorkerThread_parse, request_role, response_role, request_switch,
        request_READ_EXCEPTION_STATUS, single_frame_LRC, find_start_of_frame, chars_left,
        get_starting_frame, get_ending_frame, AddFrame, hfc, LRC, flag_if,
        ep, hp, hpv, ha, hf, hl, toChar, h1, h2]
      | ret v2 s2 =>
        obtain ⟨w2, sf2, ef2, r2⟩ := s2
        simp [WorkerThread_message, WorkerThread_parse, request_role, response_role, request_switch,
        request_READ_EXCEPTION_STATUS, single_frame_LRC, find_start_of_frame, chars_left,
        get_starting_frame, get_ending_frame, AddFrame, hfc, LRC, flag_if,
        ep, hp, hpv, ha, hf, hl, toChar, h1, h2]
  · subst h; subst hpr
    cases h1 : GetNextByteModbus .ModbusASCIIBoth ⟨tw, l1.start, l2.stop, res⟩ with
    | blocked s1 =>
      simp [WorkerThread_message, WorkerThread_parse, request_role, response_role, request_switch,
        request_READ_EXCEPTION_STATUS, single_frame_LRC, find_start_of_frame, chars_left,
        get_starting_frame, get_ending_frame, AddFrame, hfc, LRC, flag_if,
        ep, hp, hpv, ha, hf, hl, toChar, h1]
    | ret v1 s1 =>
      obtain ⟨w1, sf1, ef1, r1⟩ := s1
      cases h2 : GetNextByteModbus .ModbusASCIIBoth ⟨w1, sf1, ef1, r1⟩ with
      | blocked s2 =>
        simp [WorkerThread_message, WorkerThread_parse, request_role, response_role, request_switch,
        request_READ_EXCEPTION_STATUS, single_frame_LRC, find_start_of_frame, chars_left,
        get_starting_frame, get_ending_frame, AddFrame, hfc, LRC, flag_if,
        ep, hp, hpv, ha, hf, hl, toChar, h1, h2]
      | ret v2 s2 =>
        obtain ⟨w2, sf2, ef2, r2⟩ := s2
        simp [WorkerThread_message, WorkerThread_parse, request_role, response_role, request_switch,
        request_READ_EXCEPTION_STATUS, single_frame_LRC, find_start_of_frame, chars_left,
        get_starting_frame, get_ending_frame, AddFrame, hfc, LRC, flag_if,
        ep, hp, hpv, ha, hf, hl, toChar, h1, h2]

/-- C35, counterexample: in ASCII-Client mode the characters `3A0107F8` followed
by CR LF, none of which is `':'`, are decoded as the request `01 07`: the
start-of-frame search ends on the byte 0x3A paired from the characters `'3'` and
`'A'`, and the address is read right after that pair. -/
theorem paired_colon_ends_search :
    ∃ s1 fr,
      WorkerThread_message sampleFlags .ModbusASCIIClient false
          ⟨[⟨0x33, 10, 90⟩, ⟨0x41, 110, 190⟩, ⟨0x30, 210, 290⟩, ⟨0x31, 310, 390⟩,
            ⟨0x30, 410, 490⟩, ⟨0x37, 510, 590⟩, ⟨0x46, 610, 690⟩, ⟨0x38, 710, 790⟩,
            ⟨0x0D, 810, 890⟩, ⟨0x0A, 910, 990⟩], 0, 0, []⟩ = .ret true s1
        ∧ s1.mModbus = [] ∧ s1.mResults = [fr]
        ∧ fr.mFlags = sampleFlags.FLAG_REQUEST_FRAME
        ∧ fr.mData1 = pack8 0x01 0x07 0 0 0 0 0 0xF8
        ∧ fr.mStartingSampleInclusive = 210
        ∧ ∀ c ∈ ([⟨0x33, 10, 90⟩, ⟨0x41, 110, 190⟩, ⟨0x30, 210, 290⟩, ⟨0x31, 310, 390⟩,
            ⟨0x30, 410, 490⟩, ⟨0x37, 510, 590⟩, ⟨0x46, 610, 690⟩, ⟨0x38, 710, 790⟩,
            ⟨0x0D, 810, 890⟩, ⟨0x0A, 910, 990⟩] : List SerialChar), c.data ≠ 0x3A := by
  have h := ascii_paired_start_request sampleFlags .ModbusASCIIClient false (Or.inl rfl)
    ⟨0x33, 10, 90⟩ ⟨0x41, 110, 190⟩ ⟨0x30, 210, 290⟩ ⟨0x31, 310, 390⟩ ⟨0x30, 410, 490⟩
    ⟨0x37, 510, 590⟩ ⟨0x46, 610, 690⟩ ⟨0x38, 710, 790⟩
    [⟨0x0D, 810, 890⟩, ⟨0x0A, 910, 990⟩] 0 0 [] (by decide) (by decide) (by decide)
    (by decide) (by decide) (by decide)
  obtain ⟨sf2, ef2, h2⟩ := (trailer_commit_spec .ModbusASCIIClient false _ (Or.inl rfl)
    [⟨0x0D, 810, 890⟩, ⟨0x0A, 910, 990⟩] 610 790 []).1 [] (by decide)
  rw [h2] at h
  refine ⟨_, _, h, rfl, rfl, ?_, ?_, rfl, by decide⟩
  · dsimp only
    rw [if_neg (by decide)]
  · show pack8 _ _ 0 0 0 0 0 _ = _
    decide

/-- C35 (amended): in every ASCII mode, when the start-of-frame search of the
dispatcher (the loop that reads logical bytes until one equals `':'`, run on the
characters left in the channel) returns, it has consumed some characters `junk`
and then either the single character `':'` (0x3A) or two characters that the
byte reader pairs to the logical byte 0x3A: `'3'` followed by `'A'` or `'a'`;
the address byte is read from the characters that follow. A search that does
not return has run out of characters. -/
theorem start_of_frame_search_ends (mode : Mode)
    (hasc : mode = .ModbusASCIIClient ∨ mode = .ModbusASCIIServer ∨ mode = .ModbusASCIIBoth)
    (frame : Frame) (s : Analyzer) :
    match find_start_of_frame mode (s.mModbus.length + 1) frame s with
    | .ret _ s1 => ∃ junk,
        (∃ c, s.mModbus = junk ++ c :: s1.mModbus ∧ c.data = 0x3A)
        ∨ (∃ c1 c2, s.mModbus = junk ++ c1 :: c2 :: s1.mModbus
            ∧ toChar c1.data = 0x33 ∧ (toChar c2.data = 0x41 ∨ toChar c2.data = 0x61))
    | .blocked s1 => s1.mModbus = [] :=
  find_start_of_frame_chars mode hasc (s.mModbus.length + 1) frame s (Nat.lt_succ_self _)

theorem start_of_frame_search_ends_witness :
    (Mode.ModbusASCIIClient = .ModbusASCIIClient ∨ Mode.ModbusASCIIClient = .ModbusASCIIServer
        ∨ Mode.ModbusASCIIClient = .ModbusASCIIBoth) ∧
    match find_start_of_frame .ModbusASCIIClient
        ((⟨[⟨0x30, 10, 90⟩, ⟨0x31, 110, 190⟩, ⟨0x33, 210, 290⟩, ⟨0x61, 310, 390⟩,
          ⟨0x30, 410, 490⟩], 0, 0, []⟩ : Analyzer).mModbus.length + 1) {}
        ⟨[⟨0x30, 10, 90⟩, ⟨0x31, 110, 190⟩, ⟨0x33, 210, 290⟩, ⟨0x61, 310, 390⟩,
          ⟨0x30, 410, 490⟩], 0, 0, []⟩ with
    | .ret _ s1 => ∃ junk,
        (∃ c, (⟨[⟨0x30, 10, 90⟩, ⟨0x31, 110, 190⟩, ⟨0x33, 210, 290⟩, ⟨0x61, 310, 390⟩,
            ⟨0x30, 410, 490⟩], 0, 0, []⟩ : Analyzer).mModbus = junk ++ c :: s1.mModbus
          ∧ c.data = 0x3A)
        ∨ (∃ c1 c2, (⟨[⟨0x30, 10, 90⟩, ⟨0x31, 110, 190⟩, ⟨0x33, 210, 290⟩, ⟨0x61, 310, 390⟩,
            ⟨0x30, 410, 490⟩], 0, 0, []⟩ : Analyzer).mModbus = junk ++ c1 :: c2 :: s1.mModbus
            ∧ toChar c1.data = 0x33 ∧ (toChar c2.data = 0x41 ∨ toChar c2.data = 0x61))
    | .blocked s1 => s1.mModbus = [] :=
  ⟨Or.inl rfl, start_of_frame_search_ends .ModbusASCIIClient (Or.inl rfl) {}
    ⟨[⟨0x30, 10, 90⟩, ⟨0x31, 110, 190⟩, ⟨0x33, 210, 290⟩, ⟨0x61, 310, 390⟩,
      ⟨0x30, 410, 490⟩], 0, 0, []⟩⟩

theorem shapeB_rtu_request (K : FlagBits) (mode : Mode) (pr : Bool)
    (hmode : mode = .ModbusRTUClient ∨ (mode = .ModbusRTUBoth ∧ pr = false))
    (a f c0 c1 : SerialChar) (rest : List SerialChar)
    (sf ef : Nat) (res : List Frame)
    (hf : f.data ∈ [0x07, 0x0B, 0x0C, 0x11]) :
    WorkerThread_message K mode pr ⟨a :: f :: c0 :: c1 :: rest, sf, ef, res⟩
      = .ret (!pr) ⟨rest, c1.start, c1.stop, res ++ [
          { mStartingSampleInclusive := a.start
            mEndingSampleInclusive := c1.stop
            mData1 := pack8 a.data f.data 0 0 0 0 c1.data c0.data
            mData2 := 0
            mFlags :=
              if crc_mismatch (CRC [a.data, f.data]) c0.data c1.data
              then K.FLAG_REQUEST_FRAME ||| K.FLAG_CHECKSUM_ERROR
              else K.FLAG_REQUEST_FRAME }]⟩ := by
  have hrtu : mode = .ModbusRTUClient ∨ mode = .ModbusRTUServer ∨ mode = .ModbusRTUBoth := by
    rcases hmode with h | ⟨h, _⟩ <;> simp [h]
  have hf' : f.data = 7 ∨ f.data = 11 ∨ f.data = 12 ∨ f.data = 17 := by simpa using hf
  rcases hmode with h | ⟨h, hpr⟩
  · subst h
    rcases hf' with h' | h' | h' | h' <;>
    simp [WorkerThread_message, WorkerThread_parse, request_role, response_role, request_switch,
      request_READ_EXCEPTION_STATUS, single_frame_CRC,
      GetNextByteModbus_rtu, get_starting_frame, get_ending_frame, AddFrame, h', CRC, flag_if]
  · subst h; subst hpr
    rcases hf' with h' | h' | h' | h' <;>
    simp [WorkerThread_message, WorkerThread_parse, request_role, response_role, request_switch,
      request_READ_EXCEPTION_STATUS, single_frame_CRC,
      GetNextByteModbus_rtu, get_starting_frame, get_ending_frame, AddFrame, h', CRC, flag_if]

theorem rtu_single_request_pass (K : FlagBits) (m : List SerialChar)
    (h : rtu_single_request m) :
    ∃ fr sf1 ef1, fr.mFlags = K.FLAG_REQUEST_FRAME ∧ 2 ≤ m.length ∧
      ∀ (pr : Bool) (rest : List SerialChar) (sf ef : Nat) (res : List Frame),
        WorkerThread_message K .ModbusRTUClient pr ⟨m ++ rest, sf, ef, res⟩
          = .ret (!pr) ⟨rest, sf1, ef1, res ++ [fr]⟩ := by
  rcases h with ⟨a, f, p1, p2, p3, p4, c0, c1, rfl, hf, hc⟩ | ⟨a, f, c0, c1, rfl, hf, hc⟩
  · refine ⟨_, c1.start, c1.stop, ?_, by simp, fun pr rest sf ef res =>
      shapeA_rtu_request K .ModbusRTUClient pr (Or.inl rfl) a f p1 p2 p3 p4 c0 c1 rest sf ef
        res hf⟩
    simp [hc]
  · refine ⟨_, c1.start, c1.stop, ?_, by simp, fun pr rest sf ef res =>
      shapeB_rtu_request K .ModbusRTUClient pr (Or.inl rfl) a f c0 c1 rest sf ef res hf⟩
    simp [hc]

theorem WorkerThread_loop_empty (K : FlagBits) (fuel : Nat) (pr : Bool)
    (sf ef : Nat) (res : List Frame) :
    WorkerThread_loop K .ModbusRTUClient fuel pr ⟨[], sf, ef, res⟩ = ⟨[], sf, ef, res⟩ := by
  cases fuel with
  | zero => rfl
  | succ fuel =>
    have hg : GetNextByteModbus .ModbusRTUClient ⟨[], sf, ef, res⟩
        = .blocked ⟨[], sf, ef, res⟩ := by
      simp [GetNextByteModbus, nextChar]
    have h : WorkerThread_message K .ModbusRTUClient pr ⟨[], sf, ef, res⟩
        = .blocked ⟨[], sf, ef, res⟩ := by
      simp [WorkerThread_message, WorkerThread_parse, hg]
    rw [WorkerThread_loop, h]

theorem rtu_single_request_loop (K : FlagBits) (m : List SerialChar) (fr : Frame)
    (sf1 ef1 : Nat)
    (h : ∀ (pr : Bool) (rest : List SerialChar) (sf ef : Nat) (res : List Frame),
        WorkerThread_message K .ModbusRTUClient pr ⟨m ++ rest, sf, ef, res⟩
          = .ret (!pr) ⟨rest, sf1, ef1, res ++ [fr]⟩)
    (fuel : Nat) (pr : Bool) (rest : List SerialChar) (sf ef : Nat) (res : List Frame) :
    WorkerThread_loop K .ModbusRTUClient (fuel + 1) pr ⟨m ++ rest, sf, ef, res⟩
      = WorkerThread_loop K .ModbusRTUClient fuel (!pr) ⟨rest, sf1, ef1, res ++ [fr]⟩ := by
  rw [WorkerThread_loop, h]

/-- C39: for all RTU requests `m1` and `m2` of the single-frame shapes with a
correct CRC (four payload bytes with function code 0x01..0x06 or 0x08, or no
payload with function code 0x07, 0x0B, 0x0C or 0x11), in RTU-Client mode, once
the initial alignment on an idle line has returned (`aligned` is `true`), and
whatever the initial role: each decoded alone gives exactly one frame (`fr1`,
`fr2`, flags exactly REQUEST); the first pass over `m1 ++ m2` hands over `fr1`
and leaves exactly `m2` on the wire; and the worker on `m1 ++ m2` hands over
exactly `fr1` followed by `fr2`. -/
theorem rtu_requests_concatenate (K : FlagBits) (mSettings : ModbusAnalyzerSettings)
    (m1 m2 : List SerialChar) (hmode : mSettings.mModbusMode = .ModbusRTUClient)
    (h1 : rtu_single_request m1) (h2 : rtu_single_request m2) :
    ∃ fr1 fr2 s1 sa sb sc,
      WorkerThread K mSettings true ⟨m1, 0, 0, []⟩ = some sa ∧ sa.mResults = [fr1]
      ∧ WorkerThread K mSettings true ⟨m2, 0, 0, []⟩ = some sb ∧ sb.mResults = [fr2]
      ∧ fr1.mFlags = K.FLAG_REQUEST_FRAME ∧ fr2.mFlags = K.FLAG_REQUEST_FRAME
      ∧ WorkerThread_message K .ModbusRTUClient mSettings.mAssumeDataStartsWithResponse
          ⟨m1 ++ m2, 0, 0, []⟩ = .ret (!mSettings.mAssumeDataStartsWithResponse) s1
      ∧ s1.mModbus = m2 ∧ s1.mResults = [fr1]
      ∧ WorkerThread K mSettings true ⟨m1 ++ m2, 0, 0, []⟩ = some sc ∧ sc.mResults = [fr1, fr2]
      ∧ sc.mModbus = [] := by
  obtain ⟨fr1, sf1, ef1, hfl1, hl1, hp1⟩ := rtu_single_request_pass K m1 h1
  obtain ⟨fr2, sf2, ef2, hfl2, hl2, hp2⟩ := rtu_single_request_pass K m2 h2
  have hw : ∀ s, WorkerThread K mSettings true s
      = some (WorkerThread_loop K .ModbusRTUClient (s.mModbus.length + 1)
          mSettings.mAssumeDataStartsWithResponse s) := by
    intro s
    simp [WorkerThread, hmode]
  have e1 : WorkerThread_loop K .ModbusRTUClient (m1.length + 1)
      mSettings.mAssumeDataStartsWithResponse ⟨m1, 0, 0, []⟩ = ⟨[], sf1, ef1, [fr1]⟩ := by
    have := rtu_single_request_loop K m1 fr1 sf1 ef1 hp1 m1.length
      mSettings.mAssumeDataStartsWithResponse [] 0 0 []
    rw [List.append_nil] at this
    rw [this, WorkerThread_loop_empty]
    rfl
  have e2 : WorkerThread_loop K .ModbusRTUClient (m2.length + 1)
      mSettings.mAssumeDataStartsWithResponse ⟨m2, 0, 0, []⟩ = ⟨[], sf2, ef2, [fr2]⟩ := by
    have := rtu_single_request_loop K m2 fr2 sf2 ef2 hp2 m2.length
      mSettings.mAssumeDataStartsWithResponse [] 0 0 []
    rw [List.append_nil] at this
    rw [this, WorkerThread_loop_empty]
    rfl
  have e3 : WorkerThread_loop K .ModbusRTUClient ((m1 ++ m2).length + 1)
      mSettings.mAssumeDataStartsWithResponse ⟨m1 ++ m2, 0, 0, []⟩
      = ⟨[], sf2, ef2, [fr1, fr2]⟩ := by
    obtain ⟨n, hn⟩ : ∃ n, (m1 ++ m2).length = n + 1 :=
      ⟨(m1 ++ m2).length - 1, by simp; omega⟩
    rw [hn, rtu_single_request_loop K m1 fr1 sf1 ef1 hp1 (n + 1)
      mSettings.mAssumeDataStartsWithResponse m2 0 0 []]
    have := rtu_single_request_loop K m2 fr2 sf2 ef2 hp2 n
      (!mSettings.mAssumeDataStartsWithResponse) [] sf1 ef1 ([] ++ [fr1])
    rw [List.append_nil] at this
    rw [this, WorkerThread_loop_empty]
    rfl
  refine ⟨fr1, fr2, _, _, _, _, (hw _).trans (congrArg some e1), rfl,
    (hw _).trans (congrArg some e2), rfl, hfl1, hfl2, hp1 _ m2 0 0 [], rfl, rfl,
    (hw _).trans (congrArg some e3), rfl, rfl⟩

set_option maxRecDepth 100000 in
theorem rtu_requests_concatenate_witness :
    (⟨0, 9600, 8, .LsbFirst, .NoneOne, false, false, false, .ModbusRTUClient⟩ :
        ModbusAnalyzerSettings).mModbusMode = .ModbusRTUClient
    ∧ rtu_single_request (sampleWire [0x01, 0x03, 0x00, 0x6B, 0x00, 0x03, 0x74, 0x17])
    ∧ rtu_single_request [⟨0x01, 810, 890⟩, ⟨0x07, 910, 990⟩, ⟨0x41, 1010, 1090⟩,
        ⟨0xE2, 1110, 1190⟩]
    ∧ ∃ fr1 fr2 s1 sa sb sc,
      WorkerThread sampleFlags ⟨0, 9600, 8, .LsbFirst, .NoneOne, false, false, false,
          .ModbusRTUClient⟩ true
          ⟨sampleWire [0x01, 0x03, 0x00, 0x6B, 0x00, 0x03, 0x74, 0x17], 0, 0, []⟩ = some sa
      ∧ sa.mResults = [fr1]
      ∧ WorkerThread sampleFlags ⟨0, 9600, 8, .LsbFirst, .NoneOne, false, false, false,
          .ModbusRTUClient⟩ true
          ⟨[⟨0x01, 810, 890⟩, ⟨0x07, 910, 990⟩, ⟨0x41, 1010, 1090⟩, ⟨0xE2, 1110, 1190⟩],
            0, 0, []⟩ = some sb
      ∧ sb.mResults = [fr2]
      ∧ fr1.mFlags = sampleFlags.FLAG_REQUEST_FRAME ∧ fr2.mFlags = sampleFlags.FLAG_REQUEST_FRAME
      ∧ WorkerThread_message sampleFlags .ModbusRTUClient
          (⟨0, 9600, 8, .LsbFirst, .NoneOne, false, false, false, .ModbusRTUClient⟩ :
            ModbusAnalyzerSettings).mAssumeDataStartsWithResponse
          ⟨sampleWire [0x01, 0x03, 0x00, 0x6B, 0x00, 0x03, 0x74, 0x17] ++
            [⟨0x01, 810, 890⟩, ⟨0x07, 910, 990⟩, ⟨0x41, 1010, 1090⟩, ⟨0xE2, 1110, 1190⟩],
            0, 0, []⟩
          = .ret (!(⟨0, 9600, 8, .LsbFirst, .NoneOne, false, false, false, .ModbusRTUClient⟩ :
            ModbusAnalyzerSettings).mAssumeDataStartsWithResponse) s1
      ∧ s1.mModbus = [⟨0x01, 810, 890⟩, ⟨0x07, 910, 990⟩, ⟨0x41, 1010, 1090⟩,
          ⟨0xE2, 1110, 1190⟩]
      ∧ s1.mResults = [fr1]
      ∧ WorkerThread sampleFlags ⟨0, 9600, 8, .LsbFirst, .NoneOne, false, false, false,
          .ModbusRTUClient⟩ true
          ⟨sampleWire [0x01, 0x03, 0x00, 0x6B, 0x00, 0x03, 0x74, 0x17] ++
            [⟨0x01, 810, 890⟩, ⟨0x07, 910, 990⟩, ⟨0x41, 1010, 1090⟩, ⟨0xE2, 1110, 1190⟩],
            0, 0, []⟩ = some sc
      ∧ sc.mResults = [fr1, fr2] ∧ sc.mModbus = [] :=
  have hA : rtu_single_request (sampleWire [0x01, 0x03, 0x00, 0x6B, 0x00, 0x03, 0x74, 0x17]) :=
    Or.inl ⟨_, _, _, _, _, _, _, _, rfl, by decide, by decide⟩
  have hB : rtu_single_request [⟨0x01, 810, 890⟩, ⟨0x07, 910, 990⟩, ⟨0x41, 1010, 1090⟩,
      ⟨0xE2, 1110, 1190⟩] :=
    Or.inr ⟨_, _, _, _, rfl, by decide, by decide⟩
  ⟨rfl, hA, hB, rtu_requests_concatenate sampleFlags _ _ _ rfl hA hB⟩

/-! ### The character reader at sample level -/

/-- C23: for every decoded data value `data`, with the two levels distinct
(`mBitLow ≠ mBitHigh`, as `WorkerThread` sets them) and `p = 1` when the line is
at `mBitHigh` at the parity-bit sample and `p = 0` otherwise: in `EvenOne` mode
the parity block advances by `mParityBitOffset` and adds at the parity location
the `ErrorDot` marker when `popcount( data ) + p` is odd and the `Square` marker
otherwise; in `OddOne` mode `ErrorDot` when `popcount( data ) + p` is even and
`Square` otherwise; with `NoneOne` the block does nothing; with `NoneTwo` it
makes the first stop-bit probe, which does not depend on the data: it advances
by `mStartOfStopBitOffset` and adds `ErrorDot` only when the line is not at
`mBitHigh`. -/
theorem parity_marker_iff (m : ReaderMembers) (data marker_location : Nat) (s : Sampler)
    (hlev : m.mBitLow ≠ m.mBitHigh) :
    (m.mSettings.mParity = .EvenOne → ∀ c, s.mModbus.Advance m.mParityBitOffset = some c →
      parity_block m data marker_location s = .ret () ⟨c, s.markers ++
        [⟨U64 (marker_location + m.mParityBitOffset),
          if (GetOnesCount data + (if c.GetBitState = m.mBitHigh then 1 else 0)) % 2 = 1
          then .ErrorDot else .Square, m.mSettings.mInputChannel⟩]⟩)
    ∧ (m.mSettings.mParity = .OddOne → ∀ c, s.mModbus.Advance m.mParityBitOffset = some c →
      parity_block m data marker_location s = .ret () ⟨c, s.markers ++
        [⟨U64 (marker_location + m.mParityBitOffset),
          if (GetOnesCount data + (if c.GetBitState = m.mBitHigh then 1 else 0)) % 2 = 0
          then .ErrorDot else .Square, m.mSettings.mInputChannel⟩]⟩)
    ∧ (m.mSettings.mParity = .NoneOne → parity_block m data marker_location s = .ret () s)
    ∧ (m.mSettings.mParity = .NoneTwo →
      parity_block m data marker_location s =
        match s.mModbus.Advance m.mStartOfStopBitOffset with
        | none => .ended s
        | some c => .ret () ⟨c, s.markers ++
            (if c.GetBitState ≠ m.mBitHigh
              then [⟨c.GetSampleNumber, .ErrorDot, m.mSettings.mInputChannel⟩] else [])⟩) := by
  refine ⟨?_, ?_, ?_, ?_⟩
  · intro hp c hc
    simp only [parity_block, hp, hc, parity_error, IsEven]
    have hmod := Nat.mod_two_eq_zero_or_one (GetOnesCount data)
    generalize c.GetBitState = x
    generalize m.mBitLow = lo at hlev
    generalize m.mBitHigh = hi at hlev
    rcases hmod with h | h <;> cases x <;> cases lo <;> cases hi <;>
      simp [h, Nat.add_mod] at hlev ⊢
  · intro hp c hc
    simp only [parity_block, hp, hc, parity_error, IsEven]
    have hmod := Nat.mod_two_eq_zero_or_one (GetOnesCount data)
    generalize c.GetBitState = x
    generalize m.mBitLow = lo at hlev
    generalize m.mBitHigh = hi at hlev
    rcases hmod with h | h <;> cases x <;> cases lo <;> cases hi <;>
      simp [h, Nat.add_mod] at hlev ⊢
  · intro hp
    simp [parity_block, hp]
  · intro hp
    simp only [parity_block, hp]
    cases s.mModbus.Advance m.mStartOfStopBitOffset with
    | none => simp
    | some c => by_cases h : c.GetBitState = m.mBitHigh <;> simp [h]

theorem Advance_eq (samples : List Bool) (pos n : Nat) (h : pos + n < samples.length) :
    ChannelData.Advance ⟨samples, pos⟩ n = some ⟨samples, pos + n⟩ := by
  simp [ChannelData.Advance, h]

theorem sample_bits_ret (m : ReaderMembers) (samples : List Bool) :
    ∀ (k i : Nat) (builder : Nat × Nat) (marker_location pos : Nat) (mk : List Marker),
      pos + offsets_sum m.mSampleOffsets k i < samples.length →
      sample_bits m k i builder marker_location ⟨⟨samples, pos⟩, mk⟩
        = .ret (((data_bit_states m.mSampleOffsets samples k i pos).foldl
              (DataBuilder_AddBit m.mSettings.mShiftOrder) builder).1,
            (data_bit_markers m.mSampleOffsets m.mSettings.mInputChannel k i marker_location).2)
          ⟨⟨samples, pos + offsets_sum m.mSampleOffsets k i⟩,
            mk ++ (data_bit_markers m.mSampleOffsets m.mSettings.mInputChannel k i
              marker_location).1⟩ := by
  intro k
  induction k with
  | zero =>
    intro i builder ml pos mk _
    simp [sample_bits, data_bit_states, data_bit_markers, offsets_sum]
  | succ k ih =>
    intro i builder ml pos mk h
    simp only [offsets_sum] at h
    have h1 : pos + m.mSampleOffsets.getD i 0 < samples.length := by omega
    have h2 : pos + m.mSampleOffsets.getD i 0 + offsets_sum m.mSampleOffsets k (i + 1)
        < samples.length := by omega
    simp only [sample_bits, Advance_eq samples pos _ h1, ih _ _ _ _ _ h2, data_bit_states,
      data_bit_markers, offsets_sum, List.foldl_cons, ChannelData.GetBitState,
      List.append_assoc, List.singleton_append, Nat.add_assoc]

theorem parity_block_ret (m : ReaderMembers) (data marker_location : Nat) (samples : List Bool)
    (pos : Nat) (mk : List Marker)
    (h : pos + (if m.mSettings.mParity ≠ .NoneOne ∧ m.mSettings.mParity ≠ .NoneTwo
        then m.mParityBitOffset
        else if m.mSettings.mParity = .NoneTwo then m.mStartOfStopBitOffset else 0)
      < samples.length) :
    ∃ mk1, parity_block m data marker_location ⟨⟨samples, pos⟩, mk⟩
      = .ret () ⟨⟨samples, pos + (if m.mSettings.mParity ≠ .NoneOne ∧
          m.mSettings.mParity ≠ .NoneTwo then m.mParityBitOffset
          else if m.mSettings.mParity = .NoneTwo then m.mStartOfStopBitOffset else 0)⟩, mk1⟩ := by
  unfold parity_block
  by_cases hp : m.mSettings.mParity ≠ .NoneOne ∧ m.mSettings.mParity ≠ .NoneTwo
  · rw [if_pos hp] at h ⊢
    rw [if_pos hp]
    simp only [Advance_eq samples pos _ h]
    split <;> exact ⟨_, rfl⟩
  · rw [if_neg hp] at h ⊢
    rw [if_neg hp]
    by_cases h2 : m.mSettings.mParity = .NoneTwo
    · rw [if_pos h2] at h ⊢
      rw [if_pos h2]
      simp only [Advance_eq samples pos _ h]
      split <;> exact ⟨_, rfl⟩
    · rw [if_neg h2] at h ⊢
      rw [if_neg h2]
      exact ⟨_, rfl⟩

theorem stop_bit_block_ret (m : ReaderMembers) (samples : List Bool) (pos : Nat)
    (mk : List Marker) (h : pos + m.mStartOfStopBitOffset < samples.length) :
    ∃ mk1, stop_bit_block m ⟨⟨samples, pos⟩, mk⟩
      = .ret () ⟨⟨samples, pos + m.mStartOfStopBitOffset⟩, mk1⟩ := by
  unfold stop_bit_block
  simp only [Advance_eq samples pos _ h]
  split <;> exact ⟨_, rfl⟩

theorem sample_character_ret (m : ReaderMembers) (num_bits bit_mask : Nat)
    (samples : List Bool) (pos e : Nat) (mk : List Marker)
    (hedge : ChannelData.AdvanceToNextEdge ⟨samples, pos⟩ = some ⟨samples, e⟩)
    (hlen : e + character_span m num_bits < samples.length) :
    ∃ mk1, sample_character m num_bits bit_mask ⟨⟨samples, pos⟩, mk⟩
      = .ret (character_data m num_bits bit_mask
            (data_bit_states m.mSampleOffsets samples num_bits 0 e), e)
          ⟨⟨samples, e + character_span m num_bits⟩, mk1⟩ := by
  unfold character_span at hlen
  have h1 : e + offsets_sum m.mSampleOffsets num_bits 0 < samples.length := by omega
  obtain ⟨mk1, hp⟩ := parity_block_ret m
    (character_data m num_bits bit_mask (data_bit_states m.mSampleOffsets samples num_bits 0 e))
    (data_bit_markers m.mSampleOffsets m.mSettings.mInputChannel num_bits 0 e).2 samples
    (e + offsets_sum m.mSampleOffsets num_bits 0)
    (mk ++ (data_bit_markers m.mSampleOffsets m.mSettings.mInputChannel num_bits 0 e).1)
    (by omega)
  obtain ⟨mk2, hs⟩ := stop_bit_block_ret m samples
    (e + offsets_sum m.mSampleOffsets num_bits 0 +
      (if m.mSettings.mParity ≠ .NoneOne ∧ m.mSettings.mParity ≠ .NoneTwo
        then m.mParityBitOffset
        else if m.mSettings.mParity = .NoneTwo then m.mStartOfStopBitOffset else 0)) mk1
    (by omega)
  refine ⟨mk2, ?_⟩
  have hspan : e + character_span m num_bits
      = e + offsets_sum m.mSampleOffsets num_bits 0 +
          (if m.mSettings.mParity ≠ .NoneOne ∧ m.mSettings.mParity ≠ .NoneTwo
            then m.mParityBitOffset
            else if m.mSettings.mParity = .NoneTwo then m.mStartOfStopBitOffset else 0)
          + m.mStartOfStopBitOffset := by
    unfold character_span; omega
  rw [hspan]
  unfold sample_character
  simp only [hedge, ChannelData.GetSampleNumber, sample_bits_ret m samples num_bits 0 _ e e mk h1]
  simp only [character_data] at hp ⊢
  simp only [hp, hs]

/-- C21: in the RTU modes, for any two captures in which the next edge (the
start bit) is at the same sample `e`, which hold the whole character (`e +
character_span` is a sample of both) and which agree at the data-bit sample
points (whatever they hold at the parity-bit and stop-bit sample points, and
whatever markers were reported before): the byte read returns on both, with the
same byte, which is the value built from the data-bit states, the shift order
and the inversion, the same `frame_starting_sample` and the same
`frame_ending_sample`, and leaves both channels at the same sample; only the
markers can differ. -/
theorem rtu_byte_read_depends_on_data_bits (m : ReaderMembers) (num_bits bit_mask : Nat)
    (frame_ending_sample : Nat) (c1 c2 : ChannelData) (mk1 mk2 : List Marker) (e : Nat)
    (hrtu : m.mSettings.mModbusMode = .ModbusRTUClient ∨
      m.mSettings.mModbusMode = .ModbusRTUServer ∨ m.mSettings.mModbusMode = .ModbusRTUBoth)
    (h1 : c1.AdvanceToNextEdge = some ⟨c1.samples, e⟩)
    (h2 : c2.AdvanceToNextEdge = some ⟨c2.samples, e⟩)
    (hl1 : e + character_span m num_bits < c1.samples.length)
    (hl2 : e + character_span m num_bits < c2.samples.length)
    (hbits : data_bit_states m.mSampleOffsets c1.samples num_bits 0 e
      = data_bit_states m.mSampleOffsets c2.samples num_bits 0 e) :
    ∃ r1 r2,
      GetNextByteModbus_samples m num_bits bit_mask frame_ending_sample ⟨c1, mk1⟩
        = .ret (character_data m num_bits bit_mask
            (data_bit_states m.mSampleOffsets c1.samples num_bits 0 e), e,
            e + character_span m num_bits) r1
      ∧ GetNextByteModbus_samples m num_bits bit_mask frame_ending_sample ⟨c2, mk2⟩
        = .ret (character_data m num_bits bit_mask
            (data_bit_states m.mSampleOffsets c1.samples num_bits 0 e), e,
            e + character_span m num_bits) r2
      ∧ r1.mModbus.sample_number = e + character_span m num_bits
      ∧ r2.mModbus.sample_number = e + character_span m num_bits := by
  obtain ⟨s1, p1⟩ := c1
  obtain ⟨s2, p2⟩ := c2
  obtain ⟨k1, e1⟩ := sample_character_ret m num_bits bit_mask s1 p1 e mk1 h1 hl1
  obtain ⟨k2, e2⟩ := sample_character_ret m num_bits bit_mask s2 p2 e mk2 h2 hl2
  simp only at hbits
  rw [← hbits] at e2
  refine ⟨⟨⟨s1, e + character_span m num_bits⟩, k1⟩, ⟨⟨s2, e + character_span m num_bits⟩, k2⟩,
    ?_, ?_, rfl, rfl⟩
  · simp only [GetNextByteModbus_samples, hrtu, if_true, e1, ChannelData.GetSampleNumber]
  · simp only [GetNextByteModbus_samples, hrtu, if_true, e2, ChannelData.GetSampleNumber]

theorem sampleCapture_characters :
    sample_characters (WorkerThread_members (fun _ _ _ => 1) sampleSettings 9600)
        (WorkerThread_num_bits sampleSettings) (WorkerThread_bit_mask sampleSettings)
        sampleCapture.samples.length ⟨sampleCapture, []⟩
      = ([⟨0x01, 2, 11⟩, ⟨0x64, 12, 21⟩],
          (sample_characters (WorkerThread_members (fun _ _ _ => 1) sampleSettings 9600)
            (WorkerThread_num_bits sampleSettings) (WorkerThread_bit_mask sampleSettings)
            sampleCapture.samples.length ⟨sampleCapture, []⟩).2) := by
  decide

theorem parity_marker_iff_witness :
    (sampleMembers .EvenOne).mBitLow ≠ (sampleMembers .EvenOne).mBitHigh
    ∧ (sampleMembers .EvenOne).mSettings.mParity = .EvenOne
    ∧ (⟨sampleCapture, []⟩ : Sampler).mModbus.Advance (sampleMembers .EvenOne).mParityBitOffset
        = some ⟨sampleCapture.samples, 1⟩
    ∧ parity_block (sampleMembers .EvenOne) 0x03 10 ⟨sampleCapture, []⟩
        = .ret () ⟨⟨sampleCapture.samples, 1⟩, (⟨sampleCapture, []⟩ : Sampler).markers ++
          [⟨U64 (10 + (sampleMembers .EvenOne).mParityBitOffset),
            if (GetOnesCount 0x03 +
                (if (⟨sampleCapture.samples, 1⟩ : ChannelData).GetBitState
                    = (sampleMembers .EvenOne).mBitHigh then 1 else 0)) % 2 = 1
            then .ErrorDot else .Square,
            (sampleMembers .EvenOne).mSettings.mInputChannel⟩]⟩ :=
  ⟨by decide, rfl, by decide,
    (parity_marker_iff (sampleMembers .EvenOne) 0x03 10 ⟨sampleCapture, []⟩
      (by decide)).1 rfl ⟨sampleCapture.samples, 1⟩ (by decide)⟩

theorem rtu_byte_read_depends_on_data_bits_witness :
    ((sampleMembers .NoneTwo).mSettings.mModbusMode = .ModbusRTUClient ∨
      (sampleMembers .NoneTwo).mSettings.mModbusMode = .ModbusRTUServer ∨
      (sampleMembers .NoneTwo).mSettings.mModbusMode = .ModbusRTUBoth)
    ∧ sampleCapture.AdvanceToNextEdge = some ⟨sampleCapture.samples, 2⟩
    ∧ sampleCaptureLowStop.AdvanceToNextEdge = some ⟨sampleCaptureLowStop.samples, 2⟩
    ∧ 2 + character_span (sampleMembers .NoneTwo) 8 < sampleCapture.samples.length
    ∧ 2 + character_span (sampleMembers .NoneTwo) 8 < sampleCaptureLowStop.samples.length
    ∧ data_bit_states (sampleMembers .NoneTwo).mSampleOffsets sampleCapture.samples 8 0 2
        = data_bit_states (sampleMembers .NoneTwo).mSampleOffsets sampleCaptureLowStop.samples 8 0 2
    ∧ ∃ r1 r2,
      GetNextByteModbus_samples (sampleMembers .NoneTwo) 8 0xFF 0 ⟨sampleCapture, []⟩
        = .ret (character_data (sampleMembers .NoneTwo) 8 0xFF
            (data_bit_states (sampleMembers .NoneTwo).mSampleOffsets sampleCapture.samples 8 0 2),
            2, 2 + character_span (sampleMembers .NoneTwo) 8) r1
      ∧ GetNextByteModbus_samples (sampleMembers .NoneTwo) 8 0xFF 0 ⟨sampleCaptureLowStop, []⟩
        = .ret (character_data (sampleMembers .NoneTwo) 8 0xFF
            (data_bit_states (sampleMembers .NoneTwo).mSampleOffsets sampleCapture.samples 8 0 2),
            2, 2 + character_span (sampleMembers .NoneTwo) 8) r2
      ∧ r1.mModbus.sample_number = 2 + character_span (sampleMembers .NoneTwo) 8
      ∧ r2.mModbus.sample_number = 2 + character_span (sampleMembers .NoneTwo) 8 :=
  ⟨Or.inl rfl, by decide, by decide, by decide, by decide, by decide,
    rtu_byte_read_depends_on_data_bits (sampleMembers .NoneTwo) 8 0xFF 0 sampleCapture
      sampleCaptureLowStop [] [] 2 (Or.inl rfl) (by decide) (by decide) (by decide) (by decide)
      (by decide)⟩

/-! ### File record requests and responses -/

theorem file_subreq_rel {K : FlagBits} {mode : Mode} {s0 s : Analyzer}
    {Q : Nat × Nat × Nat → Analyzer → Prop} (upd : Nat → Nat → Nat) (ck : Nat)
    {bs : List Nat} {fs : List Frame}
    (hrun : Run mode s0 bs fs s)
    (hQ : ∀ v1 v2 v3 v4 v5 v6 v7 df s1,
      Run mode s0 (bs ++ [v1, v2, v3, v4, v5, v6, v7]) (fs ++ [df]) s1 →
      frame_info df = (K.FLAG_FILE_SUBREQ, pack8 0x00 v1 v2 v3 v4 v5 v6 v7, 0) →
      Q ([v1, v2, v3, v4, v5, v6, v7].foldl upd ck, v6, v7) s1) :
    wp (file_subreq K mode upd ck) Q (Waiting s0 any_frames) s := by
  have hP : any_frames fs := trivial
  simp only [file_subreq, wp_bind, wp_pure, wp_get_starting_frame, wp_get_ending_frame]
  refine wp_read hrun hP (fun v1 s1 h1 => ?_)
  refine wp_read h1 hP (fun v2 s2 h2 => ?_)
  refine wp_read h2 hP (fun v3 s3 h3 => ?_)
  refine wp_read h3 hP (fun v4 s4 h4 => ?_)
  refine wp_read h4 hP (fun v5 s5 h5 => ?_)
  refine wp_read h5 hP (fun v6 s6 h6 => ?_)
  refine wp_read h6 hP (fun v7 s7 h7 => ?_)
  refine wp_AddFrame _ h7 (fun df s8 hdf h8 => ?_)
  simp only [List.append_assoc, List.singleton_append, List.cons_append, List.nil_append] at h8
  exact hQ v1 v2 v3 v4 v5 v6 v7 df s8 h8 (by rw [hdf]; rfl)

theorem read_file_request_loop_rel {K : FlagBits} {mode : Mode} {s0 : Analyzer}
    {Q : Nat → Analyzer → Prop} (upd : Nat → Nat → Nat) (n : Nat) :
    ∀ (fuel i ck : Nat) (bs : List Nat) (fs : List Frame) (s : Analyzer),
      Run mode s0 bs fs s → (n - i + 6) / 7 ≤ fuel →
      (∀ bs1 fs1 s1, Run mode s0 (bs ++ bs1) (fs ++ fs1) s1 →
        bs1.length = 7 * ((n - i + 6) / 7) → fs1.length = (n - i + 6) / 7 →
        fs1.map frame_info = subreq_infos K bs1 → Q (bs1.foldl upd ck) s1) →
      wp (read_file_request_loop K mode upd n fuel i ck) Q (Waiting s0 any_frames) s := by
  intro fuel
  induction fuel with
  | zero =>
    intro i ck bs fs s hrun hfuel hQ
    simp only [read_file_request_loop, wp_pure]
    have h0 : (n - i + 6) / 7 = 0 := by omega
    have := hQ [] [] s (by simpa using hrun) (by simp [h0]) (by simp [h0]) rfl
    simpa using this
  | succ fuel ih =>
    intro i ck bs fs s hrun hfuel hQ
    simp only [read_file_request_loop]
    by_cases hi : i < n
    · simp only [hi, if_true, wp_bind]
      refine file_subreq_rel upd ck hrun (fun v1 v2 v3 v4 v5 v6 v7 df s1 h1 hdf => ?_)
      have hstep : (n - i + 6) / 7 = (n - (i + 7) + 6) / 7 + 1 := by omega
      refine ih (i + 7) _ _ _ s1 h1 (by omega) ?_
      intro bs1 fs1 s2 h2 hl hfl hm
      have := hQ ([v1, v2, v3, v4, v5, v6, v7] ++ bs1) (df :: fs1) s2
        (by simpa using h2) (by simp [hl, hstep]; omega) (by simp [hfl, hstep])
        (by simp [subreq_infos, hm, hdf])
      simpa [List.foldl_append] using this
    · simp only [hi, if_false, wp_pure]
      have h0 : (n - i + 6) / 7 = 0 := by omega
      have := hQ [] [] s (by simpa using hrun) (by simp [h0]) (by simp [h0]) rfl
      simpa using this

theorem request_READ_FILE_RECORD_rel (K : FlagBits) (mode : Mode) (a : Nat) (frame : Frame)
    (s0 s : Analyzer) (pre : List Nat) (hrun : Run mode s0 (pre ++ [a, 0x14]) [] s)
    (hfl : frame.mFlags = K.FLAG_REQUEST_FRAME) (_hd1 : frame.mData1 = 0)
    (hd20 : frame.mData2 = 0) :
    wp (request_READ_FILE_RECORD K mode a 0x14 frame)
      (fun fr s1 => ∃ body fs, Run mode s0 (pre ++ a :: 0x14 :: body) fs s1
        ∧ read_file_request_rel K (decide (mode = .ModbusRTUClient ∨ mode = .ModbusRTUBoth))
            a body fs fr)
      (Waiting s0 any_frames) s := by
  have hP : any_frames [] := trivial
  simp only [request_READ_FILE_RECORD, wp_bind]
  refine wp_read hrun hP (fun v1 s1 h1 => ?_)
  by_cases hc : mode = .ModbusRTUClient ∨ mode = .ModbusRTUBoth
  · simp only [hc, if_true, wp_bind]
    refine emit_header_rel _ _ h1 (fun t1 hdr g1 hh hd1 hd2 => ?_)
    refine read_file_request_loop_rel update_CRC _ _ 0 _ _ _ t1 g1 (by omega)
      (fun bs1 fs1 t2 g2 hl _ hm => ?_)
    refine end_frame_CRC_rel _ _ g2 trivial (fun c0 c1 t3 fr g3 hf hfd1 hfd2 => ?_)
    refine ⟨[v1] ++ bs1 ++ [c0, c1], hdr :: fs1,
      by simpa using g3, v1, bs1, by simpa using hl,
      [c0, c1], hdr, fs1, rfl, by simp, rfl, ?_, hm, ?_, ?_, ?_⟩
    · simp [frame_info, hh, hd1, hd2, hfl, hd20]
    · rw [hf]; simp [received_bad, CRC, List.foldl_append]
    · simpa using hfd1
    · rw [hfd2, hd2, hd20]
  · simp only [hc, if_false, wp_bind]
    refine emit_header_rel _ _ h1 (fun t1 hdr g1 hh hd1 hd2 => ?_)
    refine read_file_request_loop_rel LRC_add _ _ 0 _ _ _ t1 g1 (by omega)
      (fun bs1 fs1 t2 g2 hl _ hm => ?_)
    refine end_frame_LRC_rel _ _ g2 trivial (fun c0 t3 fr g3 hf hfd1 hfd2 => ?_)
    refine ⟨[v1] ++ bs1 ++ [c0], hdr :: fs1,
      by simpa using g3, v1, bs1, by simpa using hl,
      [c0], hdr, fs1, rfl, by simp, rfl, ?_, hm, ?_, ?_, ?_⟩
    · simp [frame_info, hh, hd1, hd2, hfl, hd20]
    · rw [hf]; simp [received_bad, LRC, List.foldl_append]
    · simpa using hfd1
    · rw [hfd2, hd2, hd20]

theorem read_file_request_rel_info (K : FlagBits) (crc : Bool) (a : Nat)
    (body : List Nat) (fs : List Frame) (fr fr' : Frame)
    (hi : frame_info fr' = frame_info fr)
    (hr : read_file_request_rel K crc a body fs fr) :
    read_file_request_rel K crc a body fs fr' := by
  obtain ⟨bc, data, hl, hm⟩ := hr
  exact ⟨bc, data, hl, multi_rel_info hi hm⟩

theorem subreq_infos_length (K : FlagBits) :
    ∀ (k : Nat) (data : List Nat), data.length = 7 * k → (subreq_infos K data).length = k := by
  intro k
  induction k with
  | zero =>
    intro data h
    have : data = [] := List.length_eq_zero.mp (by simpa using h)
    subst this; rfl
  | succ k ih =>
    intro data h
    match data, h with
    | v1 :: v2 :: v3 :: v4 :: v5 :: v6 :: v7 :: t, h =>
      have ht : t.length = 7 * k := by simp at h; omega
      simp [subreq_infos, ih t ht]

/-- In each of the six Modbus modes, a pass of the dispatcher that returns
has read an address `a`, a function code `f` and bytes `body`, and when it is in
the request role and `f` is 0x14 (Read File Record) `body` is the byte count
`bc`, then `ceil( bc / 7 )` sub-requests of seven bytes each, then the checksum
bytes (two in RTU, one in ASCII); the frames handed over are the header (flags
exactly REQUEST, `mData1 = ( a << 56 ) + ( 0x14 << 48 ) + bc`), then one frame
per sub-request, with flags exactly FILE_SUBREQ and `mData1 = ( v1 << 48 ) +
( v2 << 40 ) + ( v3 << 32 ) + ( v4 << 24 ) + ( v5 << 16 ) + ( v6 << 8 ) + v7`
built from its seven bytes in wire order (so no DATA frame), then the END frame,
with CHECKSUM_ERROR iff the received checksum differs from the CRC (RTU) or LRC
(ASCII) of the address, the function code, the byte count and all the
sub-request bytes; a pass that does not return has run out of characters. -/
theorem read_file_request_pass (K : FlagBits) (mode : Mode) (pr : Bool) (s : Analyzer)
    (hmode : is_modbus mode) :
    pass_claim K mode pr s (fun a f body frames =>
      f = 0x14 → is_response mode pr = false →
        ∃ bc data ck hdr mids last,
          body = bc :: data ++ ck ∧ ck.length = (if is_rtu mode then 2 else 1)
          ∧ frames = hdr :: mids ++ [last]
          ∧ frame_info hdr = (K.FLAG_REQUEST_FRAME, pack8 a 0x14 0 0 0 0 0 bc, 0)
          ∧ mids.length = (U64 bc + 6) / 7
          ∧ (bc < 2 ^ 64 → mids.length = (bc + 6) / 7)
          ∧ data.length = 7 * mids.length
          ∧ mids.map frame_info = subreq_infos K data
          ∧ last.mFlags = flagged K K.FLAG_END_FRAME
              (received_bad (is_rtu mode) (a :: 0x14 :: bc :: data) ck)) := by
  have h := pass_outcome_codes K mode pr s hmode (fun f => f = 0x14)
    (fun f hf => by subst hf; decide)
    (fun _ => read_file_request_rel K) no_rel_crc
    (fun _ => read_file_request_rel_info K) no_rel_crc_info
    (fun f hf pre a frame s2 hrun hfl hd1 hd2 => by
      subst hf
      have e : request_switch K mode a 0x14 frame
          = request_READ_FILE_RECORD K mode a 0x14 frame := by
        simp [request_switch]
      rw [e]
      exact request_READ_FILE_RECORD_rel K mode a frame s s2 pre hrun hfl hd1 hd2)
    (fun f _ pre a frame s2 hrun hfl hd1 hd2 =>
      response_switch_no_rel_crc K mode s f pre a frame s2 hrun hfl hd1 hd2)
  refine pass_claim_mono h (fun a f body frames hrel hf hresp => ?_)
  obtain ⟨fs, last, hfr, hr⟩ := hrel hf
  rw [hresp] at hr
  simp only [Bool.false_eq_true, if_false] at hr
  obtain ⟨bc, data, hl, ck, hdr, mids, hb, hck, hfs, hh, hm, hlf, _⟩ := hr
  have hn : U64 ((0 <<< 8) + bc) = U64 bc := by simp
  rw [hn] at hl
  have hlen : mids.length = (U64 bc + 6) / 7 := by
    have := congrArg List.length hm
    simp only [List.length_map] at this
    rw [this]
    exact subreq_infos_length K _ data hl
  refine ⟨bc, data, ck, hdr, mids, last, ?_, hck, ?_, hh, hlen, ?_, ?_, hm, ?_⟩
  · rw [hb]; rfl
  · rw [hfr, hfs]
  · intro hlt
    rw [hlen]; simp only [U64]; rw [Nat.mod_eq_of_lt hlt]
  · rw [hlen]; exact hl
  · rw [hlf]; rfl

theorem write_file_loop_rel {K : FlagBits} {mode : Mode} {s0 : Analyzer}
    {Q : Nat → Analyzer → Prop} (upd : Nat → Nat → Nat) (crc : Bool) (n : Nat) :
    ∀ (fuel i ck : Nat) (bs : List Nat) (fs : List Frame) (s : Analyzer),
      Run mode s0 bs fs s → n - i ≤ fuel →
      (∀ passes fs1 s1, Run mode s0 (bs ++ passes_bytes passes) (fs ++ fs1) s1 →
        write_file_passes crc n i passes →
        fs1.map frame_info = write_file_infos K passes →
        Q ((passes_bytes passes).foldl upd ck) s1) →
      wp (write_file_loop K mode upd (write_file_reclen crc) n fuel i ck) Q
        (Waiting s0 any_frames) s := by
  intro fuel
  induction fuel with
  | zero =>
    intro i ck bs fs s hrun hfuel hQ
    simp only [write_file_loop, wp_pure]
    have := hQ [] [] s (by simpa [passes_bytes] using hrun)
      (by simp only [write_file_passes]; omega) rfl
    simpa [passes_bytes] using this
  | succ fuel ih =>
    intro i ck bs fs s hrun hfuel hQ
    simp only [write_file_loop]
    by_cases hi : i < n
    · simp only [hi, if_true, wp_bind]
      refine file_subreq_rel upd ck hrun (fun v1 v2 v3 v4 v5 v6 v7 df s1 h1 hdf => ?_)
      refine data_words_rel upd _ _ _ _ s1 h1 (fun bs1 fs1 s2 h2 hl _ hm => ?_)
      refine ih _ _ _ _ s2 h2 (by omega) ?_
      intro passes fs2 s3 h3 hp hm2
      have := hQ (([v1, v2, v3, v4, v5, v6, v7], bs1) :: passes) (df :: (fs1 ++ fs2)) s3
        (by simpa [passes_bytes] using h3)
        (by
          simp only [write_file_passes, List.getD_cons_succ, List.getD_cons_zero]
          exact ⟨hi, rfl, hl, hp⟩)
        (by
          simp only [write_file_infos, List.flatMap_cons, subreq_infos, List.map_cons,
            List.map_append, hdf, hm, hm2]
          simp [write_file_infos])
      simpa [passes_bytes, List.foldl_append] using this
    · simp only [hi, if_false, wp_pure]
      have := hQ [] [] s (by simpa [passes_bytes] using hrun)
        (by simp only [write_file_passes]; exact hi) rfl
      simpa [passes_bytes] using this

theorem read_file_response_words_rel {K : FlagBits} {mode : Mode} {s0 : Analyzer}
    {Q : Nat × Nat → Analyzer → Prop} (upd : Nat → Nat → Nat) (m : Nat) :
    ∀ (fuel k ck : Nat) (bs : List Nat) (fs : List Frame) (s : Analyzer),
      Run mode s0 bs fs s → (m - k + 1) / 2 ≤ fuel →
      (∀ bs1 fs1 s1, Run mode s0 (bs ++ bs1) (fs ++ fs1) s1 →
        bs1.length = 2 * ((m - k + 1) / 2) →
        fs1.map frame_info = (word_pairs bs1).map (word_info K) →
        Q (k + 2 * ((m - k + 1) / 2), bs1.foldl upd ck) s1) →
      wp (read_file_response_words K mode upd m fuel k ck) Q (Waiting s0 any_frames) s := by
  intro fuel
  induction fuel with
  | zero =>
    intro k ck bs fs s hrun hfuel hQ
    simp only [read_file_response_words, wp_pure]
    have h0 : (m - k + 1) / 2 = 0 := by omega
    have := hQ [] [] s (by simpa using hrun) (by simp [h0]) rfl
    simpa [h0] using this
  | succ fuel ih =>
    intro k ck bs fs s hrun hfuel hQ
    simp only [read_file_response_words]
    by_cases hk : k < m
    · simp only [hk, if_true, wp_bind]
      refine data_word_rel upd ck hrun (fun v1 v2 df s1 h1 hdf => ?_)
      have hstep : (m - k + 1) / 2 = (m - (k + 2) + 1) / 2 + 1 := by omega
      refine ih _ _ _ _ s1 h1 (by omega) ?_
      intro bs1 fs1 s2 h2 hl hm
      have := hQ (v1 :: v2 :: bs1) (df :: fs1) s2 (by simpa using h2)
        (by simp [hl, hstep]; omega) (by simp [word_pairs, hm, hdf])
      have e : k + 2 + 2 * ((m - (k + 2) + 1) / 2) = k + 2 * ((m - k + 1) / 2) := by omega
      rw [e]
      simpa using this
    · simp only [hk, if_false, wp_pure]
      have h0 : (m - k + 1) / 2 = 0 := by omega
      have := hQ [] [] s (by simpa using hrun) (by simp [h0]) rfl
      simpa [h0] using this

theorem read_file_response_loop_rel {K : FlagBits} {mode : Mode} {s0 : Analyzer}
    {Q : Nat → Analyzer → Prop} (upd : Nat → Nat → Nat) (step n : Nat) (hstep : 0 < step) :
    ∀ (fuel i ck : Nat) (bs : List Nat) (fs : List Frame) (s : Analyzer),
      Run mode s0 bs fs s → n - i ≤ fuel →
      (∀ passes fs1 s1, Run mode s0 (bs ++ passes_bytes passes) (fs ++ fs1) s1 →
        read_file_passes step n i passes →
        fs1.map frame_info = read_file_infos K passes →
        Q ((passes_bytes passes).foldl upd ck) s1) →
      wp (read_file_response_loop K mode upd
          (fun Payload1_0 Payload4_0 => pack8 0x00 Payload1_0 0x00 0x00 0x00 0x00 0x00 Payload4_0)
          step n fuel i ck) Q (Waiting s0 any_frames) s := by
  intro fuel
  induction fuel with
  | zero =>
    intro i ck bs fs s hrun hfuel hQ
    simp only [read_file_response_loop, wp_pure]
    have := hQ [] [] s (by simpa [passes_bytes] using hrun)
      (by simp only [read_file_passes]; omega) rfl
    simpa [passes_bytes] using this
  | succ fuel ih =>
    intro i ck bs fs s hrun hfuel hQ
    simp only [read_file_response_loop]
    by_cases hi : i < n
    · simp only [hi, if_true, wp_bind, wp_get_starting_frame, wp_get_ending_frame]
      refine wp_read hrun trivial (fun v1 s1 h1 => ?_)
      refine wp_read h1 trivial (fun v2 s2 h2 => ?_)
      refine wp_AddFrame _ h2 (fun df s3 hdf h3 => ?_)
      have hm0 : (U64 (v1 + 2 ^ 64 - 1) - 0 + 1) / 2 = read_file_words v1 := by
        unfold read_file_words; rw [Nat.sub_zero]
      refine read_file_response_words_rel upd _ _ 0 _ _ _ s3 h3
        (by
          have : U64 (v1 + 2 ^ 64 - 1) - 0 = U64 (v1 + 2 ^ 64 - 1) := Nat.sub_zero _
          rw [this]
          generalize U64 (v1 + 2 ^ 64 - 1) = m
          omega)
        (fun bs1 fs1 s4 h4 hl hm => ?_)
      rw [hm0] at hl ⊢
      refine ih _ _ _ _ s4 h4 (by omega) ?_
      intro passes fs2 s5 h5 hp hm2
      have := hQ (([v1, v2], bs1) :: passes) (df :: (fs1 ++ fs2)) s5
        (by simpa [passes_bytes] using h5)
        (by
          simp only [read_file_passes, List.getD_cons_zero]
          refine ⟨hi, rfl, hl, ?_⟩
          simpa using hp)
        (by
          simp only [read_file_infos, List.flatMap_cons, List.map_cons,
            List.map_append, hm, hm2, List.getD_cons_succ, List.getD_cons_zero]
          rw [hdf]
          simp [read_file_infos, frame_info])
      simpa [passes_bytes, List.foldl_append] using this
    · simp only [hi, if_false, wp_pure]
      have := hQ [] [] s (by simpa [passes_bytes] using hrun)
        (by simp only [read_file_passes]; exact hi) rfl
      simpa [passes_bytes] using this

theorem write_file_reclen_true :
    (fun Payload4_0 Payload4_1 => U64 ((Payload4_1 <<< 8) + Payload4_0))
      = write_file_reclen true := by
  funext p0 p1
  simp [write_file_reclen]

theorem write_file_reclen_false :
    (fun Payload4_0 Payload4_1 => U64 ((Payload4_0 <<< 8) + Payload4_1))
      = write_file_reclen false := by
  funext p0 p1
  simp [write_file_reclen]

theorem request_WRITE_FILE_RECORD_rel (K : FlagBits) (mode : Mode) (a : Nat) (frame : Frame)
    (s0 s : Analyzer) (pre : List Nat) (hrun : Run mode s0 (pre ++ [a, 0x15]) [] s)
    (hfl : frame.mFlags = K.FLAG_REQUEST_FRAME) (_hd1 : frame.mData1 = 0)
    (hd20 : frame.mData2 = 0) :
    wp (request_WRITE_FILE_RECORD K mode a 0x15 frame)
      (fun fr s1 => ∃ body fs, Run mode s0 (pre ++ a :: 0x15 :: body) fs s1
        ∧ write_file_rel K K.FLAG_REQUEST_FRAME
            (decide (mode = .ModbusRTUClient ∨ mode = .ModbusRTUBoth)) a body fs fr)
      (Waiting s0 any_frames) s := by
  have hP : any_frames [] := trivial
  simp only [request_WRITE_FILE_RECORD, wp_bind]
  refine wp_read hrun hP (fun v1 s1 h1 => ?_)
  by_cases hc : mode = .ModbusRTUClient ∨ mode = .ModbusRTUBoth
  · simp only [hc, if_true, wp_bind, write_file_reclen_true]
    refine emit_header_rel _ _ h1 (fun t1 hdr g1 hh hd1 hd2 => ?_)
    refine write_file_loop_rel update_CRC true _ _ 0 _ _ _ t1 g1 (by omega)
      (fun passes fs1 t2 g2 hp hm => ?_)
    refine end_frame_CRC_rel _ _ g2 trivial (fun c0 c1 t3 fr g3 hf hfd1 hfd2 => ?_)
    refine ⟨[v1] ++ passes_bytes passes ++ [c0, c1], hdr :: fs1,
      by simpa using g3, v1, passes, by simpa using hp,
      [c0, c1], hdr, fs1, rfl, by simp, rfl, ?_, hm, ?_, ?_, ?_⟩
    · simp [frame_info, hh, hd1, hd2, hfl, hd20]
    · rw [hf]; simp [received_bad, CRC, List.foldl_append]
    · simpa using hfd1
    · rw [hfd2, hd2, hd20]
  · simp only [hc, if_false, wp_bind, write_file_reclen_false]
    refine emit_header_rel _ _ h1 (fun t1 hdr g1 hh hd1 hd2 => ?_)
    refine write_file_loop_rel LRC_add false _ _ 0 _ _ _ t1 g1 (by omega)
      (fun passes fs1 t2 g2 hp hm => ?_)
    refine end_frame_LRC_rel _ _ g2 trivial (fun c0 t3 fr g3 hf hfd1 hfd2 => ?_)
    refine ⟨[v1] ++ passes_bytes passes ++ [c0], hdr :: fs1,
      by simpa using g3, v1, passes, by simpa using hp,
      [c0], hdr, fs1, rfl, by simp, rfl, ?_, hm, ?_, ?_, ?_⟩
    · simp [frame_info, hh, hd1, hd2, hfl, hd20]
    · rw [hf]; simp [received_bad, LRC, List.foldl_append]
    · simpa using hfd1
    · rw [hfd2, hd2, hd20]

theorem response_WRITE_FILE_RECORD_rel (K : FlagBits) (mode : Mode) (a : Nat) (frame : Frame)
    (s0 s : Analyzer) (pre : List Nat) (hrun : Run mode s0 (pre ++ [a, 0x15]) [] s)
    (hfl : frame.mFlags = K.FLAG_RESPONSE_FRAME) (_hd1 : frame.mData1 = 0)
    (hd20 : frame.mData2 = 0) :
    wp (response_WRITE_FILE_RECORD K mode a 0x15 frame)
      (fun fr s1 => ∃ body fs, Run mode s0 (pre ++ a :: 0x15 :: body) fs s1
        ∧ write_file_rel K K.FLAG_RESPONSE_FRAME
            (decide (mode = .ModbusRTUServer ∨ mode = .ModbusRTUBoth)) a body fs fr)
      (Waiting s0 any_frames) s := by
  have hP : any_frames [] := trivial
  simp only [response_WRITE_FILE_RECORD, wp_bind]
  refine wp_read hrun hP (fun v1 s1 h1 => ?_)
  by_cases hc : mode = .ModbusRTUServer ∨ mode = .ModbusRTUBoth
  · simp only [hc, if_true, wp_bind, write_file_reclen_true]
    refine emit_header_rel _ _ h1 (fun t1 hdr g1 hh hd1 hd2 => ?_)
    refine write_file_loop_rel update_CRC true _ _ 0 _ _ _ t1 g1 (by omega)
      (fun passes fs1 t2 g2 hp hm => ?_)
    refine end_frame_CRC_rel _ _ g2 trivial (fun c0 c1 t3 fr g3 hf hfd1 hfd2 => ?_)
    refine ⟨[v1] ++ passes_bytes passes ++ [c0, c1], hdr :: fs1,
      by simpa using g3, v1, passes, by simpa using hp,
      [c0, c1], hdr, fs1, rfl, by simp, rfl, ?_, hm, ?_, ?_, ?_⟩
    · simp [frame_info, hh, hd1, hd2, hfl, hd20]
    · rw [hf]; simp [received_bad, CRC, List.foldl_append]
    · simpa using hfd1
    · rw [hfd2, hd2, hd20]
  · simp only [hc, if_false, wp_bind, write_file_reclen_false]
    refine emit_header_rel _ _ h1 (fun t1 hdr g1 hh hd1 hd2 => ?_)
    refine write_file_loop_rel LRC_add false _ _ 0 _ _ _ t1 g1 (by omega)
      (fun passes fs1 t2 g2 hp hm => ?_)
    refine end_frame_LRC_rel _ _ g2 trivial (fun c0 t3 fr g3 hf hfd1 hfd2 => ?_)
    refine ⟨[v1] ++ passes_bytes passes ++ [c0], hdr :: fs1,
      by simpa using g3, v1, passes, by simpa using hp,
      [c0], hdr, fs1, rfl, by simp, rfl, ?_, hm, ?_, ?_, ?_⟩
    · simp [frame_info, hh, hd1, hd2, hfl, hd20]
    · rw [hf]; simp [received_bad, LRC, List.foldl_append]
    · simpa using hfd1
    · rw [hfd2, hd2, hd20]

theorem response_READ_FILE_RECORD_rel (K : FlagBits) (mode : Mode) (a : Nat) (frame : Frame)
    (s0 s : Analyzer) (pre : List Nat) (hrun : Run mode s0 (pre ++ [a, 0x14]) [] s)
    (hfl : frame.mFlags = K.FLAG_RESPONSE_FRAME) (_hd1 : frame.mData1 = 0)
    (hd20 : frame.mData2 = 0) :
    wp (response_READ_FILE_RECORD K mode a 0x14 frame)
      (fun fr s1 => ∃ body fs, Run mode s0 (pre ++ a :: 0x14 :: body) fs s1
        ∧ read_file_response_rel K
            (decide (mode = .ModbusRTUServer ∨ mode = .ModbusRTUBoth)) a body fs fr)
      (Waiting s0 any_frames) s := by
  have hP : any_frames [] := trivial
  simp only [response_READ_FILE_RECORD, wp_bind]
  refine wp_read hrun hP (fun v1 s1 h1 => ?_)
  by_cases hc : mode = .ModbusRTUServer ∨ mode = .ModbusRTUBoth
  · simp only [hc, if_true, wp_bind]
    refine emit_header_rel _ _ h1 (fun t1 hdr g1 hh hd1 hd2 => ?_)
    refine read_file_response_loop_rel update_CRC 4 _ (by decide) _ 0 _ _ _ t1 g1 (by omega)
      (fun passes fs1 t2 g2 hp hm => ?_)
    refine end_frame_CRC_rel _ _ g2 trivial (fun c0 c1 t3 fr g3 hf hfd1 hfd2 => ?_)
    refine ⟨[v1] ++ passes_bytes passes ++ [c0, c1], hdr :: fs1,
      by simpa using g3, v1, passes, by simpa using hp,
      [c0, c1], hdr, fs1, rfl, by simp, rfl, ?_, hm, ?_, ?_, ?_⟩
    · simp [frame_info, hh, hd1, hd2, hfl, hd20]
    · rw [hf]; simp [received_bad, CRC, List.foldl_append]
    · simpa using hfd1
    · rw [hfd2, hd2, hd20]
  · simp only [hc, if_false, wp_bind]
    refine emit_header_rel _ _ h1 (fun t1 hdr g1 hh hd1 hd2 => ?_)
    refine read_file_response_loop_rel LRC_add 2 _ (by decide) _ 0 _ _ _ t1 g1 (by omega)
      (fun passes fs1 t2 g2 hp hm => ?_)
    refine end_frame_LRC_rel _ _ g2 trivial (fun c0 t3 fr g3 hf hfd1 hfd2 => ?_)
    refine ⟨[v1] ++ passes_bytes passes ++ [c0], hdr :: fs1,
      by simpa using g3, v1, passes, by simpa using hp,
      [c0], hdr, fs1, rfl, by simp, rfl, ?_, hm, ?_, ?_, ?_⟩
    · simp [frame_info, hh, hd1, hd2, hfl, hd20]
    · rw [hf]; simp [received_bad, LRC, List.foldl_append]
    · simpa using hfd1
    · rw [hfd2, hd2, hd20]

theorem write_file_rel_info (K : FlagBits) (h : Nat) (crc : Bool) (a : Nat)
    (body : List Nat) (fs : List Frame) (fr fr' : Frame)
    (hi : frame_info fr' = frame_info fr)
    (hr : write_file_rel K h crc a body fs fr) : write_file_rel K h crc a body fs fr' := by
  obtain ⟨bc, passes, hl, hm⟩ := hr
  exact ⟨bc, passes, hl, multi_rel_info hi hm⟩

theorem read_file_response_rel_info (K : FlagBits) (crc : Bool) (a : Nat)
    (body : List Nat) (fs : List Frame) (fr fr' : Frame)
    (hi : frame_info fr' = frame_info fr)
    (hr : read_file_response_rel K crc a body fs fr) :
    read_file_response_rel K crc a body fs fr' := by
  obtain ⟨bc, passes, hl, hm⟩ := hr
  exact ⟨bc, passes, hl, multi_rel_info hi hm⟩

theorem read_file_words_pos (L : Nat) (h1 : 1 ≤ L) (h2 : L < 2 ^ 64) :
    read_file_words L = L / 2 := by
  unfold read_file_words U64
  have e : L + 2 ^ 64 - 1 = (L - 1) + 2 ^ 64 := by omega
  rw [e, Nat.add_mod_right, Nat.mod_eq_of_lt (by omega)]
  omega

theorem read_file_passes_each (step n : Nat) :
    ∀ (passes : List (List Nat × List Nat)) (i : Nat), read_file_passes step n i passes →
      ∀ p ∈ passes, p.1.length = 2 ∧ p.2.length = 2 * read_file_words (p.1.getD 0 0) := by
  intro passes
  induction passes with
  | nil => intro i _ p hp; cases hp
  | cons q rest ih =>
    intro i h p hp
    obtain ⟨_, h1, h2, h3⟩ := h
    rcases List.mem_cons.mp hp with e | e
    · subst e; exact ⟨h1, h2⟩
    · exact ih _ h3 p e

theorem write_file_passes_each (crc : Bool) (n : Nat) :
    ∀ (passes : List (List Nat × List Nat)) (i : Nat), write_file_passes crc n i passes →
      ∀ p ∈ passes, p.1.length = 7
        ∧ p.2.length = 2 * write_file_reclen crc (p.1.getD 5 0) (p.1.getD 6 0) := by
  intro passes
  induction passes with
  | nil => intro i _ p hp; cases hp
  | cons q rest ih =>
    intro i h p hp
    obtain ⟨_, h1, h2, h3⟩ := h
    rcases List.mem_cons.mp hp with e | e
    · subst e; exact ⟨h1, h2⟩
    · exact ih _ h3 p e

/-- What a pass in the response role hands over for Read File Record (0x14), for
every mode: the relation `read_file_response_rel` between the bytes read and the
frames. -/
theorem read_file_response_pass (K : FlagBits) (mode : Mode) (pr : Bool) (s : Analyzer)
    (hmode : is_modbus mode) :
    pass_claim K mode pr s (fun a f body frames =>
      f = 0x14 → is_response mode pr = true →
        ∃ fs last, frames = fs ++ [last]
          ∧ read_file_response_rel K (is_rtu mode) a body fs last) := by
  have h := pass_outcome_codes K mode pr s hmode (fun f => f = 0x14)
    (fun f hf => by subst hf; decide)
    no_rel_crc (fun _ => read_file_response_rel K)
    no_rel_crc_info (fun _ => read_file_response_rel_info K)
    (fun f _ pre a frame s2 hrun hfl hd1 hd2 =>
      request_switch_no_rel_crc K mode s f pre a frame s2 hrun hfl hd1 hd2)
    (fun f hf pre a frame s2 hrun hfl hd1 hd2 => by
      subst hf
      have e : response_switch K mode a 0x14 frame
          = response_READ_FILE_RECORD K mode a 0x14 frame := by
        simp [response_switch]
      rw [e]
      exact response_READ_FILE_RECORD_rel K mode a frame s s2 pre hrun hfl hd1 hd2)
  refine pass_claim_mono h (fun a f body frames hrel hf hresp => ?_)
  obtain ⟨fs, last, hfr, hr⟩ := hrel hf
  rw [hresp] at hr
  simp only [if_true] at hr
  exact ⟨fs, last, hfr, hr⟩

/-- What a pass hands over for Write File Record (0x15), for every mode and both
roles: the relation `write_file_rel` between the bytes read and the frames. -/
theorem write_file_pass (K : FlagBits) (mode : Mode) (pr : Bool) (s : Analyzer)
    (hmode : is_modbus mode) :
    pass_claim K mode pr s (fun a f body frames =>
      f = 0x15 →
        ∃ fs last, frames = fs ++ [last]
          ∧ write_file_rel K
              (if is_response mode pr then K.FLAG_RESPONSE_FRAME else K.FLAG_REQUEST_FRAME)
              (is_rtu mode) a body fs last) := by
  have h := pass_outcome_codes K mode pr s hmode (fun f => f = 0x15)
    (fun f hf => by subst hf; decide)
    (fun _ => write_file_rel K K.FLAG_REQUEST_FRAME)
    (fun _ => write_file_rel K K.FLAG_RESPONSE_FRAME)
    (fun _ => write_file_rel_info K K.FLAG_REQUEST_FRAME)
    (fun _ => write_file_rel_info K K.FLAG_RESPONSE_FRAME)
    (fun f hf pre a frame s2 hrun hfl hd1 hd2 => by
      subst hf
      have e : request_switch K mode a 0x15 frame
          = request_WRITE_FILE_RECORD K mode a 0x15 frame := by
        simp [request_switch]
      rw [e]
      exact request_WRITE_FILE_RECORD_rel K mode a frame s s2 pre hrun hfl hd1 hd2)
    (fun f hf pre a frame s2 hrun hfl hd1 hd2 => by
      subst hf
      have e : response_switch K mode a 0x15 frame
          = response_WRITE_FILE_RECORD K mode a 0x15 frame := by
        simp [response_switch]
      rw [e]
      exact response_WRITE_FILE_RECORD_rel K mode a frame s s2 pre hrun hfl hd1 hd2)
  refine pass_claim_mono h (fun a f body frames hrel hf => ?_)
  obtain ⟨fs, last, hfr, hr⟩ := hrel hf
  refine ⟨fs, last, hfr, ?_⟩
  cases hresp : is_response mode pr
  · rw [hresp] at hr
    simpa using hr
  · rw [hresp] at hr
    simpa using hr

theorem read_file_response_loop_done (K : FlagBits) (mode : Mode) (upd : Nat → Nat → Nat)
    (mk : Nat → Nat → Nat) (step n fuel i ck : Nat) (s : Analyzer) (h : ¬ i < n) :
    read_file_response_loop K mode upd mk step n fuel i ck s = .ret ck s := by
  cases fuel with
  | zero => rfl
  | succ fuel => simp only [read_file_response_loop, h, if_false, Worker.pure_apply]

theorem read_file_response_loop_rtu_one (K : FlagBits) (mode : Mode)
    (hrtu : mode = .ModbusRTUClient ∨ mode = .ModbusRTUServer ∨ mode = .ModbusRTUBoth)
    (mk : Nat → Nat → Nat) (step n fuel i ck : Nat) (l r : SerialChar)
    (tail : List SerialChar) (sf ef : Nat) (res : List Frame)
    (hi : i < n) (hm : U64 (l.data + 2 ^ 64 - 1) = 0) :
    read_file_response_loop K mode update_CRC mk step n (fuel + 1) i ck
        ⟨l :: r :: tail, sf, ef, res⟩
      = read_file_response_loop K mode update_CRC mk step n fuel (i + 0 + step)
          (update_CRC (update_CRC ck l.data) r.data)
          ⟨tail, r.start, r.stop, res ++ [
            { mFlags := K.FLAG_FILE_SUBREQ
              mStartingSampleInclusive := l.start
              mEndingSampleInclusive := r.stop
              mData1 := mk r.data l.data }]⟩ := by
  have hz : ∀ (c : Nat) (s : Analyzer),
      read_file_response_words K mode update_CRC 0 0 0 c s = .ret (0, c) s := fun _ _ => rfl
  simp only [read_file_response_loop, hi, if_true, Worker.bind_apply,
    GetNextByteModbus_rtu mode hrtu, get_starting_frame, get_ending_frame, AddFrame,
    Worker.pure_apply, hm, hz]

theorem response_READ_FILE_RECORD_rtu_one (K : FlagBits) (mode : Mode)
    (hsrv : mode = .ModbusRTUServer ∨ mode = .ModbusRTUBoth) (a f : Nat) (frame : Frame)
    (b l r c0 c1 : SerialChar) (tail : List SerialChar) (sf ef : Nat)
    (res : List Frame) (n : Nat) (hb : b.data = n + 1) (hn : n + 1 ≤ 4)
    (hm : U64 (l.data + 2 ^ 64 - 1) = 0) :
    response_READ_FILE_RECORD K mode a f frame ⟨b :: l :: r :: c0 :: c1 :: tail, sf, ef, res⟩
      = .ret { frame with
            mFlags := flagged K K.FLAG_END_FRAME
              (crc_mismatch (CRC [a, f, n + 1, l.data, r.data]) c0.data c1.data)
            mData1 := U64 ((c1.data <<< 8) + c0.data)
            mStartingSampleInclusive := c0.start
            mEndingSampleInclusive := b.stop }
          ⟨tail, c1.start, c1.stop, res ++ [
            { frame with
              mData1 := pack8 a f 0 0 0 0 0 (n + 1)
              mEndingSampleInclusive := b.stop },
            { mFlags := K.FLAG_FILE_SUBREQ
              mStartingSampleInclusive := l.start
              mEndingSampleInclusive := r.stop
              mData1 := pack8 0x00 r.data 0x00 0x00 0x00 0x00 0x00 l.data }]⟩ := by
  have hrtu : mode = .ModbusRTUClient ∨ mode = .ModbusRTUServer ∨ mode = .ModbusRTUBoth := by
    rcases hsrv with h | h <;> simp [h]
  have h4 : ¬ (0 + 0 + 4 < n + 1) := by omega
  simp only [response_READ_FILE_RECORD, Worker.bind_apply, GetNextByteModbus_rtu mode hrtu,
    hsrv, if_true, emit_header, get_ending_frame, AddFrame, Worker.pure_apply, hb,
    read_file_response_loop_rtu_one K mode hrtu _ 4 (n + 1) n 0 _ l r _ _ _ _
      (Nat.succ_pos n) hm,
    read_file_response_loop_done K mode update_CRC _ 4 (n + 1) n (0 + 0 + 4) _ _ h4]
  simp [end_frame_CRC, GetNextByteModbus_rtu mode hrtu, get_starting_frame, hsrv, CRC,
    flag_if, flagged]

theorem read_file_response_rtu_one (K : FlagBits) (mode : Mode) (pr : Bool)
    (hmode : mode = .ModbusRTUServer ∨ (mode = .ModbusRTUBoth ∧ pr = true))
    (a f b l r c0 c1 : SerialChar) (rest : List SerialChar)
    (sf ef : Nat) (res : List Frame)
    (hf : f.data = 0x14) (n : Nat) (hb : b.data = n + 1) (hn : n + 1 ≤ 4)
    (hl : l.data = 1) :
    WorkerThread_message K mode pr
        ⟨a :: f :: b :: l :: r :: c0 :: c1 :: rest, sf, ef, res⟩
      = .ret (!pr) ⟨rest, c1.start, c1.stop, res ++ [
          { mStartingSampleInclusive := a.start
            mEndingSampleInclusive := b.stop
            mData1 := pack8 a.data f.data 0 0 0 0 0 (n + 1)
            mData2 := 0
            mFlags := K.FLAG_RESPONSE_FRAME },
          { mStartingSampleInclusive := l.start
            mEndingSampleInclusive := r.stop
            mData1 := pack8 0x00 r.data 0x00 0x00 0x00 0x00 0x00 l.data
            mData2 := 0
            mFlags := K.FLAG_FILE_SUBREQ },
          { mStartingSampleInclusive := c0.start
            mEndingSampleInclusive := c1.stop
            mData1 := U64 ((c1.data <<< 8) + c0.data)
            mData2 := 0
            mFlags :=
              if crc_mismatch (CRC [a.data, f.data, n + 1, l.data, r.data]) c0.data c1.data
              then K.FLAG_END_FRAME ||| K.FLAG_CHECKSUM_ERROR
              else K.FLAG_END_FRAME }]⟩ := by
  have he : f.data &&& 128 = 0 := by rw [hf]; decide
  have hm : U64 (l.data + 2 ^ 64 - 1) = 0 := by rw [hl]; simp [U64]
  have hsrv : mode = .ModbusRTUServer ∨ mode = .ModbusRTUBoth := by
    rcases hmode with h | ⟨h, _⟩ <;> simp [h]
  have hs : ∀ x fr, response_switch K mode x f.data fr
      = response_READ_FILE_RECORD K mode x f.data fr := by
    intro x fr; simp [response_switch, hf]
  have hc : ∀ (g : Frame → Worker Frame) (fr : Frame),
      (response_switch K mode a.data f.data fr >>= g)
        ⟨b :: l :: r :: c0 :: c1 :: rest, f.start, f.stop, res⟩
      = g { fr with
            mFlags := flagged K K.FLAG_END_FRAME
              (crc_mismatch (CRC [a.data, f.data, n + 1, l.data, r.data]) c0.data c1.data)
            mData1 := U64 ((c1.data <<< 8) + c0.data)
            mStartingSampleInclusive := c0.start
            mEndingSampleInclusive := b.stop }
          ⟨rest, c1.start, c1.stop, res ++ [
            { fr with
              mData1 := pack8 a.data f.data 0 0 0 0 0 (n + 1)
              mEndingSampleInclusive := b.stop },
            { mFlags := K.FLAG_FILE_SUBREQ
              mStartingSampleInclusive := l.start
              mEndingSampleInclusive := r.stop
              mData1 := pack8 0x00 r.data 0x00 0x00 0x00 0x00 0x00 l.data }]⟩ := by
    intro g fr
    rw [Worker.bind_apply, hs, response_READ_FILE_RECORD_rtu_one K mode hsrv _ _ _ _ _ _ _ _
      _ _ _ _ n hb hn hm]
  rcases hmode with h | ⟨h, hpr⟩
  · subst h
    simp only [WorkerThread_message, WorkerThread_parse, Worker.bind_apply, Worker.pure_apply]
    simp [request_role, response_role]
    simp only [GetNextByteModbus_rtu Mode.ModbusRTUServer (Or.inr (Or.inl rfl)),
      get_starting_frame, he, if_true, hc]
    simp [get_ending_frame, AddFrame, flagged]
  · subst h; subst hpr
    simp only [WorkerThread_message, WorkerThread_parse, Worker.bind_apply, Worker.pure_apply]
    simp [request_role, response_role]
    simp only [GetNextByteModbus_rtu Mode.ModbusRTUBoth (Or.inr (Or.inr rfl)),
      get_starting_frame, he, if_true, hc]
    simp [get_ending_frame, AddFrame, flagged]

/-- C27: in RTU-Server mode the Read File Record response
`01 14 04 01 06 01 06` followed by the checksum bytes `C0 C1` is well formed in
the sense of the claim (two sub-responses, each a length byte `01` and the
reference type `06`, byte count `4 = (1 + 1) + (1 + 1)`), yet the frames handed
over are the header, ONE FILE_SUBREQ frame and the END frame, and the END frame
stores the bytes `01 06` of the second sub-response as the received checksum; the
bytes `C0 C1` are left on the channel. -/
theorem read_file_second_subresponse_skipped :
    ∃ s1 hdr sub last,
      WorkerThread_message sampleFlags .ModbusRTUServer false
          ⟨[⟨0x01, 10, 90⟩, ⟨0x14, 110, 190⟩, ⟨0x04, 210, 290⟩, ⟨0x01, 310, 390⟩,
            ⟨0x06, 410, 490⟩, ⟨0x01, 510, 590⟩, ⟨0x06, 610, 690⟩, ⟨0xC0, 710, 790⟩,
            ⟨0xC1, 810, 890⟩], 0, 0, []⟩ = .ret true s1
        ∧ s1.mModbus = [⟨0xC0, 710, 790⟩, ⟨0xC1, 810, 890⟩]
        ∧ s1.mResults = [hdr, sub, last]
        ∧ hdr.mFlags = sampleFlags.FLAG_RESPONSE_FRAME
        ∧ sub.mFlags = sampleFlags.FLAG_FILE_SUBREQ
        ∧ sub.mData1 = (0x06 <<< 48) ||| 0x01
        ∧ last.mFlags &&& sampleFlags.FLAG_END_FRAME ≠ 0
        ∧ last.mData1 = (0x06 <<< 8) + 0x01 := by
  have h := read_file_response_rtu_one sampleFlags .ModbusRTUServer false (Or.inl rfl)
    ⟨0x01, 10, 90⟩ ⟨0x14, 110, 190⟩ ⟨0x04, 210, 290⟩ ⟨0x01, 310, 390⟩
    ⟨0x06, 410, 490⟩ ⟨0x01, 510, 590⟩ ⟨0x06, 610, 690⟩
    [⟨0xC0, 710, 790⟩, ⟨0xC1, 810, 890⟩] 0 0 [] rfl 3 rfl (by decide) rfl
  refine ⟨_, _, _, _, h, rfl, rfl, rfl, rfl, ?_, ?_, ?_⟩
  · show pack8 0x00 0x06 0x00 0x00 0x00 0x00 0x00 0x01 = _
    decide
  · dsimp only
    split <;> decide
  · show U64 ((0x06 <<< 8) + 0x01) = _
    decide

theorem write_file_loop_done (K : FlagBits) (mode : Mode) (upd : Nat → Nat → Nat)
    (reclen : Nat → Nat → Nat) (n fuel i ck : Nat) (s : Analyzer) (h : ¬ i < n) :
    write_file_loop K mode upd reclen n fuel i ck s = .ret ck s := by
  cases fuel with
  | zero => rfl
  | succ fuel => simp only [write_file_loop, h, if_false, Worker.pure_apply]

theorem file_subreq_rtu (K : FlagBits) (mode : Mode)
    (hrtu : mode = .ModbusRTUClient ∨ mode = .ModbusRTUServer ∨ mode = .ModbusRTUBoth)
    (ck : Nat) (v1 v2 v3 v4 v5 v6 v7 : SerialChar)
    (tail : List SerialChar) (sf ef : Nat) (res : List Frame) :
    file_subreq K mode update_CRC ck
        ⟨v1 :: v2 :: v3 :: v4 :: v5 :: v6 :: v7 :: tail, sf, ef, res⟩
      = .ret ([v1.data, v2.data, v3.data, v4.data, v5.data, v6.data, v7.data].foldl
            update_CRC ck, v6.data, v7.data)
          ⟨tail, v7.start, v7.stop, res ++ [
            { mFlags := K.FLAG_FILE_SUBREQ
              mStartingSampleInclusive := v1.start
              mEndingSampleInclusive := v7.stop
              mData1 := pack8 0x00 v1.data v2.data v3.data v4.data v5.data v6.data
                v7.data }]⟩ := by
  simp only [file_subreq, Worker.bind_apply, GetNextByteModbus_rtu mode hrtu,
    get_starting_frame, get_ending_frame, AddFrame, Worker.pure_apply]

theorem write_file_loop_rtu_pass (K : FlagBits) (mode : Mode)
    (hrtu : mode = .ModbusRTUClient ∨ mode = .ModbusRTUServer ∨ mode = .ModbusRTUBoth)
    (reclen : Nat → Nat → Nat) (n fuel i ck : Nat) (v1 v2 v3 v4 v5 v6 v7 : SerialChar)
    (tail : List SerialChar) (sf ef : Nat) (res : List Frame) (hi : i < n) :
    write_file_loop K mode update_CRC reclen n (fuel + 1) i ck
        ⟨v1 :: v2 :: v3 :: v4 :: v5 :: v6 :: v7 :: tail, sf, ef, res⟩
      = (data_words K mode update_CRC (reclen v6.data v7.data)
            ([v1.data, v2.data, v3.data, v4.data, v5.data, v6.data, v7.data].foldl
              update_CRC ck) >>= fun Checksum =>
          write_file_loop K mode update_CRC reclen n fuel
            (i + reclen v6.data v7.data * 2 + 9) Checksum)
          ⟨tail, v7.start, v7.stop, res ++ [
            { mFlags := K.FLAG_FILE_SUBREQ
              mStartingSampleInclusive := v1.start
              mEndingSampleInclusive := v7.stop
              mData1 := pack8 0x00 v1.data v2.data v3.data v4.data v5.data v6.data
                v7.data }]⟩ := by
  rw [write_file_loop, if_pos hi, Worker.bind_apply, file_subreq_rtu K mode hrtu]

theorem data_words_rtu_short (K : FlagBits) (mode : Mode)
    (hrtu : mode = .ModbusRTUClient ∨ mode = .ModbusRTUServer ∨ mode = .ModbusRTUBoth)
    (m : Nat) (ws : List SerialChar) (hlen : ws.length = 2 * m) (n : Nat) (hmn : m < n)
    (ck : Nat) (sf ef : Nat) (res : List Frame) :
    data_words K mode update_CRC n ck ⟨ws, sf, ef, res⟩
      = .blocked ⟨[], (after_words ws (sf, ef)).1, (after_words ws (sf, ef)).2,
          res ++ word_frames K ws⟩ := by
  induction m generalizing ws n ck sf ef res with
  | zero =>
    have : ws = [] := List.length_eq_zero.mp (by omega)
    subst this
    obtain ⟨k, rfl⟩ : ∃ k, n = k + 1 := ⟨n - 1, by omega⟩
    simp [data_words, data_word, GetNextByteModbus, hrtu, nextChar, after_words,
      word_frames, Worker.bind_apply]
  | succ m ih =>
    match ws, hlen with
    | c1 :: c2 :: ws', hlen =>
      have hlen' : ws'.length = 2 * m := by simp only [List.length_cons] at hlen; omega
      obtain ⟨k, rfl⟩ : ∃ k, n = k + 1 := ⟨n - 1, by omega⟩
      have hk : m < k := by omega
      simp only [data_words, data_word, Worker.bind_apply,
        GetNextByteModbus_rtu mode hrtu, get_starting_frame, get_ending_frame, AddFrame,
        Worker.pure_apply, ih ws' hlen' k hk, after_words,
        word_frames, List.append_assoc, List.singleton_append, List.nil_append]

theorem message_of_request_rtu (K : FlagBits) (a f : SerialChar) (w : List SerialChar)
    (sf ef : Nat) (res : List Frame) (FR : Frame) (S : Analyzer)
    (h : request_switch K .ModbusRTUClient a.data f.data
        { mStartingSampleInclusive := a.start, mEndingSampleInclusive := 0, mData1 := 0,
          mData2 := 0, mFlags := K.FLAG_REQUEST_FRAME }
        ⟨w, f.start, f.stop, res⟩ = .ret FR S) :
    WorkerThread_message K .ModbusRTUClient false ⟨a :: f :: w, sf, ef, res⟩
      = .ret true ⟨S.mModbus, S.starting_frame, S.ending_frame,
          S.mResults ++ [{ FR with mEndingSampleInclusive := S.ending_frame }]⟩ := by
  simp only [WorkerThread_message, WorkerThread_parse, Worker.bind_apply, Worker.pure_apply]
  simp [request_role, response_role]
  simp only [GetNextByteModbus_rtu Mode.ModbusRTUClient (Or.inl rfl),
    get_starting_frame]
  simp [get_ending_frame, AddFrame, h]

theorem message_of_request_rtu_blocked (K : FlagBits) (a f : SerialChar)
    (w : List SerialChar) (sf ef : Nat) (res : List Frame) (S : Analyzer)
    (h : request_switch K .ModbusRTUClient a.data f.data
        { mStartingSampleInclusive := a.start, mEndingSampleInclusive := 0, mData1 := 0,
          mData2 := 0, mFlags := K.FLAG_REQUEST_FRAME }
        ⟨w, f.start, f.stop, res⟩ = .blocked S) :
    WorkerThread_message K .ModbusRTUClient false ⟨a :: f :: w, sf, ef, res⟩
      = .blocked S := by
  simp only [WorkerThread_message, WorkerThread_parse, Worker.bind_apply, Worker.pure_apply]
  simp [request_role, response_role]
  simp only [GetNextByteModbus_rtu Mode.ModbusRTUClient (Or.inl rfl),
    get_starting_frame]
  simp [get_ending_frame, AddFrame, h]

theorem end_frame_CRC_rtu (K : FlagBits) (mode : Mode)
    (hrtu : mode = .ModbusRTUClient ∨ mode = .ModbusRTUServer ∨ mode = .ModbusRTUBoth)
    (ck : Nat) (frame : Frame) (c0 c1 : SerialChar) (rest : List SerialChar)
    (sf ef : Nat) (res : List Frame) :
    end_frame_CRC K mode ck frame ⟨c0 :: c1 :: rest, sf, ef, res⟩
      = .ret { frame with
            mFlags := flagged K K.FLAG_END_FRAME (crc_mismatch ck c0.data c1.data)
            mData1 := U64 ((c1.data <<< 8) + c0.data)
            mStartingSampleInclusive := c0.start }
          ⟨rest, c1.start, c1.stop, res⟩ := by
  simp [end_frame_CRC, GetNextByteModbus_rtu mode hrtu, get_starting_frame, flag_if, flagged]

theorem write_file_loop_rtu_zero (K : FlagBits) (mode : Mode)
    (hrtu : mode = .ModbusRTUClient ∨ mode = .ModbusRTUServer ∨ mode = .ModbusRTUBoth)
    (reclen : Nat → Nat → Nat) (n fuel i ck : Nat) (v1 v2 v3 v4 v5 v6 v7 : SerialChar)
    (tail : List SerialChar) (sf ef : Nat) (res : List Frame) (hfuel : 0 < fuel)
    (hi : i < n) (hk : reclen v6.data v7.data = 0) :
    write_file_loop K mode update_CRC reclen n fuel i ck
        ⟨v1 :: v2 :: v3 :: v4 :: v5 :: v6 :: v7 :: tail, sf, ef, res⟩
      = write_file_loop K mode update_CRC reclen n (fuel - 1) (i + 9)
          ([v1.data, v2.data, v3.data, v4.data, v5.data, v6.data, v7.data].foldl
            update_CRC ck)
          ⟨tail, v7.start, v7.stop, res ++ [
            { mFlags := K.FLAG_FILE_SUBREQ
              mStartingSampleInclusive := v1.start
              mEndingSampleInclusive := v7.stop
              mData1 := pack8 0x00 v1.data v2.data v3.data v4.data v5.data v6.data
                v7.data }]⟩ := by
  obtain ⟨k, rfl⟩ : ∃ k, fuel = k + 1 := ⟨fuel - 1, by omega⟩
  rw [write_file_loop_rtu_pass K mode hrtu reclen n k i ck v1 v2 v3 v4 v5 v6 v7 tail sf ef
    res hi, hk, Worker.bind_apply]
  rfl

theorem write_file_loop_rtu_short (K : FlagBits) (mode : Mode)
    (hrtu : mode = .ModbusRTUClient ∨ mode = .ModbusRTUServer ∨ mode = .ModbusRTUBoth)
    (reclen : Nat → Nat → Nat) (n fuel i ck : Nat) (v1 v2 v3 v4 v5 v6 v7 : SerialChar)
    (ws : List SerialChar) (sf ef : Nat) (res : List Frame) (hfuel : 0 < fuel)
    (hi : i < n) (m : Nat) (hlen : ws.length = 2 * m) (hk : m < reclen v6.data v7.data) :
    write_file_loop K mode update_CRC reclen n fuel i ck
        ⟨v1 :: v2 :: v3 :: v4 :: v5 :: v6 :: v7 :: ws, sf, ef, res⟩
      = .blocked ⟨[], (after_words ws (v7.start, v7.stop)).1,
          (after_words ws (v7.start, v7.stop)).2, res ++
            { mFlags := K.FLAG_FILE_SUBREQ
              mStartingSampleInclusive := v1.start
              mEndingSampleInclusive := v7.stop
              mData1 := pack8 0x00 v1.data v2.data v3.data v4.data v5.data v6.data
                v7.data } :: word_frames K ws⟩ := by
  obtain ⟨k, rfl⟩ : ∃ k, fuel = k + 1 := ⟨fuel - 1, by omega⟩
  rw [write_file_loop_rtu_pass K mode hrtu reclen n k i ck v1 v2 v3 v4 v5 v6 v7 ws sf ef
    res hi, Worker.bind_apply, data_words_rtu_short K mode hrtu m ws hlen _ hk]
  simp only [List.append_assoc, List.singleton_append]

theorem request_WRITE_FILE_RECORD_rtu (K : FlagBits) (mode : Mode)
    (hcli : mode = .ModbusRTUClient ∨ mode = .ModbusRTUBoth) (a f : Nat) (frame : Frame)
    (b : SerialChar) (tail : List SerialChar) (sf ef : Nat) (res : List Frame) :
    request_WRITE_FILE_RECORD K mode a f frame ⟨b :: tail, sf, ef, res⟩
      = (write_file_loop K mode update_CRC (write_file_reclen true) b.data b.data 0
            ([a, f, b.data].foldl update_CRC 0xFFFF) >>= fun Checksum =>
          end_frame_CRC K mode Checksum
            { frame with
              mData1 := pack8 a f 0 0 0 0 0 b.data
              mEndingSampleInclusive := b.stop })
          ⟨tail, b.start, b.stop, res ++ [
            { frame with
              mData1 := pack8 a f 0 0 0 0 0 b.data
              mEndingSampleInclusive := b.stop }]⟩ := by
  have hrtu : mode = .ModbusRTUClient ∨ mode = .ModbusRTUServer ∨ mode = .ModbusRTUBoth := by
    rcases hcli with h | h <;> simp [h]
  simp only [request_WRITE_FILE_RECORD, Worker.bind_apply, GetNextByteModbus_rtu mode hrtu,
    hcli, if_true, emit_header, get_ending_frame, AddFrame, Worker.pure_apply,
    write_file_reclen_true]

theorem write_file_request_rtu_blocked (K : FlagBits)
    (a f b v1 v2 v3 v4 v5 v6 v7 : SerialChar) (ws : List SerialChar)
    (sf ef : Nat) (res : List Frame)
    (hf : f.data = 0x15) (hb : 0 < b.data) (m : Nat) (hlen : ws.length = 2 * m)
    (hk : m < write_file_reclen true v6.data v7.data) :
    WorkerThread_message K .ModbusRTUClient false
        ⟨a :: f :: b :: v1 :: v2 :: v3 :: v4 :: v5 :: v6 :: v7 :: ws, sf, ef, res⟩
      = .blocked ⟨[], (after_words ws (v7.start, v7.stop)).1,
          (after_words ws (v7.start, v7.stop)).2, res ++
            { mStartingSampleInclusive := a.start
              mEndingSampleInclusive := b.stop
              mData1 := pack8 a.data f.data 0 0 0 0 0 b.data
              mData2 := 0
              mFlags := K.FLAG_REQUEST_FRAME } ::
            { mStartingSampleInclusive := v1.start
              mEndingSampleInclusive := v7.stop
              mData1 := pack8 0x00 v1.data v2.data v3.data v4.data v5.data v6.data v7.data
              mData2 := 0
              mFlags := K.FLAG_FILE_SUBREQ } :: word_frames K ws⟩ := by
  have hrtu : Mode.ModbusRTUClient = .ModbusRTUClient ∨ Mode.ModbusRTUClient = .ModbusRTUServer
      ∨ Mode.ModbusRTUClient = .ModbusRTUBoth := Or.inl rfl
  have hs : ∀ x fr, request_switch K .ModbusRTUClient x f.data fr
      = request_WRITE_FILE_RECORD K .ModbusRTUClient x f.data fr := by
    intro x fr; simp [request_switch, hf]
  have h : request_switch K .ModbusRTUClient a.data f.data
        { mStartingSampleInclusive := a.start, mEndingSampleInclusive := 0, mData1 := 0,
          mData2 := 0, mFlags := K.FLAG_REQUEST_FRAME }
        ⟨b :: v1 :: v2 :: v3 :: v4 :: v5 :: v6 :: v7 :: ws, f.start, f.stop, res⟩
          = .blocked ⟨[], (after_words ws (v7.start, v7.stop)).1,
          (after_words ws (v7.start, v7.stop)).2, (res ++
            [{ mStartingSampleInclusive := a.start
               mEndingSampleInclusive := b.stop
               mData1 := pack8 a.data f.data 0 0 0 0 0 b.data
               mData2 := 0
               mFlags := K.FLAG_REQUEST_FRAME }]) ++
            { mStartingSampleInclusive := v1.start
              mEndingSampleInclusive := v7.stop
              mData1 := pack8 0x00 v1.data v2.data v3.data v4.data v5.data v6.data v7.data
              mData2 := 0
              mFlags := K.FLAG_FILE_SUBREQ } :: word_frames K ws⟩ := by
    rw [hs, request_WRITE_FILE_RECORD_rtu K .ModbusRTUClient (Or.inl rfl),
      Worker.bind_apply,
      write_file_loop_rtu_short K .ModbusRTUClient hrtu _ _ _ _ _ v1 v2 v3 v4 v5 v6 v7 ws
        _ _ _ hb hb m hlen hk]
  rw [message_of_request_rtu_blocked K a f _ sf ef res _ h]
  simp only [List.append_assoc, List.singleton_append]

/-- C28: two runs in RTU-Client mode. (1) The Write File Record
request `01 15 23`, five sub-records `06 00 01 00 02 00 00` (record length 0, so
no data word; byte count `0x23 = 35 = 5 * 7`) and the checksum bytes `C0 C1` is
handed over as the header, FOUR FILE_SUBREQ frames and the END frame, whose
received checksum is read from the first two bytes `06 00` of the fifth
sub-record. (2) The request `01 15 09`, one sub-record `06 00 01 00 02 00 01`
whose record length is 1 when read high byte first, the word `AA BB` (byte count
`9 = 7 + 2 * 1`) and the checksum bytes `C0 C1` is handed over as the header, one
FILE_SUBREQ frame and TWO DATA frames (the second made of the checksum bytes),
after which the parser waits for more characters and hands over no END frame. -/
theorem write_file_record_miscounted :
    (∃ s1 hdr r1 r2 r3 r4 last,
      WorkerThread_message sampleFlags .ModbusRTUClient false
          ⟨(
            ⟨0x01, 10, 90⟩ :: ⟨0x15, 110, 190⟩ :: ⟨0x23, 210, 290⟩ :: ⟨0x06, 310, 390⟩ ::
            ⟨0x00, 410, 490⟩ :: ⟨0x01, 510, 590⟩ :: ⟨0x00, 610, 690⟩ :: ⟨0x02, 710, 790⟩ ::
            ⟨0x00, 810, 890⟩ :: ⟨0x00, 910, 990⟩ :: ⟨0x06, 1010, 1090⟩ :: ⟨0x00, 1110, 1190⟩ ::
            ⟨0x01, 1210, 1290⟩ :: ⟨0x00, 1310, 1390⟩ :: ⟨0x02, 1410, 1490⟩ ::
            ⟨0x00, 1510, 1590⟩ :: ⟨0x00, 1610, 1690⟩ :: ⟨0x06, 1710, 1790⟩ ::
            ⟨0x00, 1810, 1890⟩ :: ⟨0x01, 1910, 1990⟩ :: ⟨0x00, 2010, 2090⟩ ::
            ⟨0x02, 2110, 2190⟩ :: ⟨0x00, 2210, 2290⟩ :: ⟨0x00, 2310, 2390⟩ ::
            ⟨0x06, 2410, 2490⟩ :: ⟨0x00, 2510, 2590⟩ :: ⟨0x01, 2610, 2690⟩ ::
            ⟨0x00, 2710, 2790⟩ :: ⟨0x02, 2810, 2890⟩ :: ⟨0x00, 2910, 2990⟩ ::
            ⟨0x00, 3010, 3090⟩ :: ⟨0x06, 3110, 3190⟩ :: ⟨0x00, 3210, 3290⟩ ::
            ⟨0x01, 3310, 3390⟩ :: ⟨0x00, 3410, 3490⟩ :: ⟨0x02, 3510, 3590⟩ ::
            ⟨0x00, 3610, 3690⟩ :: ⟨0x00, 3710, 3790⟩ :: ⟨0xC0, 3810, 3890⟩ ::
            ⟨0xC1, 3910, 3990⟩ :: []), 0, 0, []⟩
        = .ret true s1
      ∧ s1.mModbus.map SerialChar.data = [0x01, 0x00, 0x02, 0x00, 0x00, 0xC0, 0xC1]
      ∧ s1.mResults = [hdr, r1, r2, r3, r4, last]
      ∧ hdr.mFlags = sampleFlags.FLAG_REQUEST_FRAME
      ∧ r1.mFlags = sampleFlags.FLAG_FILE_SUBREQ ∧ r2.mFlags = sampleFlags.FLAG_FILE_SUBREQ
      ∧ r3.mFlags = sampleFlags.FLAG_FILE_SUBREQ ∧ r4.mFlags = sampleFlags.FLAG_FILE_SUBREQ
      ∧ last.mFlags &&& sampleFlags.FLAG_END_FRAME ≠ 0
      ∧ last.mData1 = (0x00 <<< 8) + 0x06)
    ∧ (∃ s1 hdr sub d1 d2,
      WorkerThread_message sampleFlags .ModbusRTUClient false
          ⟨[⟨0x01, 10, 90⟩, ⟨0x15, 110, 190⟩, ⟨0x09, 210, 290⟩, ⟨0x06, 310, 390⟩,
            ⟨0x00, 410, 490⟩, ⟨0x01, 510, 590⟩, ⟨0x00, 610, 690⟩, ⟨0x02, 710, 790⟩,
            ⟨0x00, 810, 890⟩, ⟨0x01, 910, 990⟩, ⟨0xAA, 1010, 1090⟩, ⟨0xBB, 1110, 1190⟩,
            ⟨0xC0, 1210, 1290⟩, ⟨0xC1, 1310, 1390⟩], 0, 0, []⟩
        = .blocked s1
      ∧ s1.mModbus = []
      ∧ s1.mResults = [hdr, sub, d1, d2]
      ∧ hdr.mFlags = sampleFlags.FLAG_REQUEST_FRAME
      ∧ sub.mFlags = sampleFlags.FLAG_FILE_SUBREQ
      ∧ d1.mFlags = sampleFlags.FLAG_DATA_FRAME ∧ d1.mData1 = (0xAA <<< 40) + (0xBB <<< 32)
      ∧ d2.mFlags = sampleFlags.FLAG_DATA_FRAME
      ∧ d2.mData1 = (0xC0 <<< 40) + (0xC1 <<< 32)) := by
  have hrtu : Mode.ModbusRTUClient = .ModbusRTUClient ∨ Mode.ModbusRTUClient = .ModbusRTUServer
      ∨ Mode.ModbusRTUClient = .ModbusRTUBoth := Or.inl rfl
  have hs : ∀ x fr, request_switch sampleFlags .ModbusRTUClient x
        (SerialChar.data ⟨0x15, 110, 190⟩) fr
      = request_WRITE_FILE_RECORD sampleFlags .ModbusRTUClient x
          (SerialChar.data ⟨0x15, 110, 190⟩) fr := by
    intro x fr; simp [request_switch]
  have h : ∃ FR S, request_switch sampleFlags .ModbusRTUClient
        (SerialChar.data ⟨0x01, 10, 90⟩) (SerialChar.data ⟨0x15, 110, 190⟩)
        { mStartingSampleInclusive := (⟨0x01, 10, 90⟩ : SerialChar).start,
          mEndingSampleInclusive := 0, mData1 := 0,
          mData2 := 0, mFlags := sampleFlags.FLAG_REQUEST_FRAME }
        ⟨(
          ⟨0x23, 210, 290⟩ :: ⟨0x06, 310, 390⟩ :: ⟨0x00, 410, 490⟩ :: ⟨0x01, 510, 590⟩ ::
          ⟨0x00, 610, 690⟩ :: ⟨0x02, 710, 790⟩ :: ⟨0x00, 810, 890⟩ :: ⟨0x00, 910, 990⟩ ::
          ⟨0x06, 1010, 1090⟩ :: ⟨0x00, 1110, 1190⟩ :: ⟨0x01, 1210, 1290⟩ ::
          ⟨0x00, 1310, 1390⟩ :: ⟨0x02, 1410, 1490⟩ :: ⟨0x00, 1510, 1590⟩ ::
          ⟨0x00, 1610, 1690⟩ :: ⟨0x06, 1710, 1790⟩ :: ⟨0x00, 1810, 1890⟩ ::
          ⟨0x01, 1910, 1990⟩ :: ⟨0x00, 2010, 2090⟩ :: ⟨0x02, 2110, 2190⟩ ::
          ⟨0x00, 2210, 2290⟩ :: ⟨0x00, 2310, 2390⟩ :: ⟨0x06, 2410, 2490⟩ ::
          ⟨0x00, 2510, 2590⟩ :: ⟨0x01, 2610, 2690⟩ :: ⟨0x00, 2710, 2790⟩ ::
          ⟨0x02, 2810, 2890⟩ :: ⟨0x00, 2910, 2990⟩ :: ⟨0x00, 3010, 3090⟩ ::
          ⟨0x06, 3110, 3190⟩ :: ⟨0x00, 3210, 3290⟩ :: ⟨0x01, 3310, 3390⟩ ::
          ⟨0x00, 3410, 3490⟩ :: ⟨0x02, 3510, 3590⟩ :: ⟨0x00, 3610, 3690⟩ ::
          ⟨0x00, 3710, 3790⟩ :: ⟨0xC0, 3810, 3890⟩ :: ⟨0xC1, 3910, 3990⟩ :: []),
          (⟨0x15, 110, 190⟩ : SerialChar).start, (⟨0x15, 110, 190⟩ : SerialChar).stop, []⟩
          = .ret FR S
        ∧ S.mModbus.map SerialChar.data = [0x01, 0x00, 0x02, 0x00, 0x00, 0xC0, 0xC1]
        ∧ (∃ hdr r1 r2 r3 r4, S.mResults = [hdr, r1, r2, r3, r4]
          ∧ hdr.mFlags = sampleFlags.FLAG_REQUEST_FRAME
          ∧ r1.mFlags = sampleFlags.FLAG_FILE_SUBREQ ∧ r2.mFlags = sampleFlags.FLAG_FILE_SUBREQ
          ∧ r3.mFlags = sampleFlags.FLAG_FILE_SUBREQ ∧ r4.mFlags = sampleFlags.FLAG_FILE_SUBREQ)
        ∧ FR.mFlags &&& sampleFlags.FLAG_END_FRAME ≠ 0
        ∧ FR.mData1 = (0x00 <<< 8) + 0x06 := by
    refine ⟨?FR, ?S, ?h1, ?h2, ?h3, ?h4, ?h5⟩
    case h1 =>
      rw [hs, request_WRITE_FILE_RECORD_rtu sampleFlags .ModbusRTUClient (Or.inl rfl),
        Worker.bind_apply,
      write_file_loop_rtu_zero sampleFlags .ModbusRTUClient hrtu _ _ _ _ _
        ⟨0x06, 310, 390⟩ ⟨0x00, 410, 490⟩ ⟨0x01, 510, 590⟩ ⟨0x00, 610, 690⟩
        ⟨0x02, 710, 790⟩ ⟨0x00, 810, 890⟩ ⟨0x00, 910, 990⟩
        _ _ _ _ (by decide) (by decide) (by decide),
      write_file_loop_rtu_zero sampleFlags .ModbusRTUClient hrtu _ _ _ _ _
        ⟨0x06, 1010, 1090⟩ ⟨0x00, 1110, 1190⟩ ⟨0x01, 1210, 1290⟩ ⟨0x00, 1310, 1390⟩
        ⟨0x02, 1410, 1490⟩ ⟨0x00, 1510, 1590⟩ ⟨0x00, 1610, 1690⟩
        _ _ _ _ (by decide) (by decide) (by decide),
      write_file_loop_rtu_zero sampleFlags .ModbusRTUClient hrtu _ _ _ _ _
        ⟨0x06, 1710, 1790⟩ ⟨0x00, 1810, 1890⟩ ⟨0x01, 1910, 1990⟩ ⟨0x00, 2010, 2090⟩
        ⟨0x02, 2110, 2190⟩ ⟨0x00, 2210, 2290⟩ ⟨0x00, 2310, 2390⟩
        _ _ _ _ (by decide) (by decide) (by decide),
      write_file_loop_rtu_zero sampleFlags .ModbusRTUClient hrtu _ _ _ _ _
        ⟨0x06, 2410, 2490⟩ ⟨0x00, 2510, 2590⟩ ⟨0x01, 2610, 2690⟩ ⟨0x00, 2710, 2790⟩
        ⟨0x02, 2810, 2890⟩ ⟨0x00, 2910, 2990⟩ ⟨0x00, 3010, 3090⟩
        _ _ _ _ (by decide) (by decide) (by decide),
        write_file_loop_done sampleFlags .ModbusRTUClient _ _ _ _ _ _ _ (by decide)]
      dsimp only
      rw [end_frame_CRC_rtu sampleFlags .ModbusRTUClient hrtu]
      exact rfl
    case h2 => rfl
    case h3 => exact ⟨_, _, _, _, _, rfl, rfl, rfl, rfl, rfl, rfl⟩
    case h4 =>
      dsimp only [flagged]
      split <;> decide
    case h5 =>
      show U64 ((0x00 <<< 8) + 0x06) = _
      decide
  obtain ⟨FR, S, h1, h2, ⟨hdr, r1, r2, r3, r4, h3, g0, g1, g2, g3, g4⟩, h4, h5⟩ := h
  have hA := message_of_request_rtu sampleFlags ⟨0x01, 10, 90⟩ ⟨0x15, 110, 190⟩ _ 0 0 [] FR S h1
  have hB := write_file_request_rtu_blocked sampleFlags
    ⟨0x01, 10, 90⟩ ⟨0x15, 110, 190⟩ ⟨0x09, 210, 290⟩ ⟨0x06, 310, 390⟩
    ⟨0x00, 410, 490⟩ ⟨0x01, 510, 590⟩ ⟨0x00, 610, 690⟩ ⟨0x02, 710, 790⟩
    ⟨0x00, 810, 890⟩ ⟨0x01, 910, 990⟩
    [⟨0xAA, 1010, 1090⟩, ⟨0xBB, 1110, 1190⟩, ⟨0xC0, 1210, 1290⟩, ⟨0xC1, 1310, 1390⟩]
    0 0 [] rfl (by decide) 2 rfl (by decide)
  refine ⟨⟨_, hdr, r1, r2, r3, r4, { FR with mEndingSampleInclusive := S.ending_frame },
      hA, h2, ?_, g0, g1, g2, g3, g4, h4, h5⟩,
    ⟨_, _, _, _, _, hB, rfl, rfl, rfl, rfl, rfl, ?_, rfl, ?_⟩⟩
  · show S.mResults ++ _ = _
    rw [h3]; rfl
  · show U64 ((0xAA <<< 40) + (0xBB <<< 32)) = _
    decide
  · show U64 ((0xC0 <<< 40) + (0xC1 <<< 32)) = _
    decide

/-! ### Sample order of the frames -/

theorem chars_ordered_mono : ∀ (w : List SerialChar) (e e' : Nat), e' ≤ e →
    chars_ordered e w → chars_ordered e' w := by
  intro w e e' h hw
  cases w with
  | nil => trivial
  | cons c w => exact ⟨Nat.le_trans h hw.1, hw.2.1, hw.2.2⟩

theorem frames_ordered_append (fs : List Frame) (f : Frame) (h : frames_ordered fs)
    (hf : f.mStartingSampleInclusive ≤ f.mEndingSampleInclusive) :
    frames_ordered (fs ++ [f]) := by
  intro g hg
  rcases List.mem_append.mp hg with h1 | h1
  · exact h g h1
  · rw [List.mem_singleton.mp h1]; exact hf

theorem ord_first_read {mode : Mode}
    (hrtu : mode = .ModbusRTUClient ∨ mode = .ModbusRTUServer ∨ mode = .ModbusRTUBoth)
    {s : Analyzer} {Q : Nat → Analyzer → Prop}
    (hw : chars_ordered 0 s.mModbus) (hr : frames_ordered s.mResults)
    (hQ : ∀ v s1, Later s1.starting_frame s1 → Q v s1) :
    wp (GetNextByteModbus mode) Q Stuck s := by
  obtain ⟨w, sf, ef, res⟩ := s
  unfold wp
  cases w with
  | nil =>
    have e : GetNextByteModbus mode ⟨[], sf, ef, res⟩ = .blocked ⟨[], sf, ef, res⟩ := by
      simp [GetNextByteModbus, hrtu, nextChar, Worker.bind_apply]
    rw [e]
    exact hr
  | cons c w =>
    rw [GetNextByteModbus_rtu mode hrtu]
    exact hQ _ _ ⟨hw.2.1, hw.2.1, hw.2.2, hr⟩

theorem ord_read {mode : Mode}
    (hrtu : mode = .ModbusRTUClient ∨ mode = .ModbusRTUServer ∨ mode = .ModbusRTUBoth)
    {e : Nat} {s : Analyzer} {Q : Nat → Analyzer → Prop} (hs : Later e s)
    (hQ : ∀ v s1, Later e s1 → Later s1.starting_frame s1 → Q v s1) :
    wp (GetNextByteModbus mode) Q Stuck s := by
  obtain ⟨w, sf, ef, res⟩ := s
  obtain ⟨h1, h2, h3, h4⟩ := hs
  unfold wp
  cases w with
  | nil =>
    have e : GetNextByteModbus mode ⟨[], sf, ef, res⟩ = .blocked ⟨[], sf, ef, res⟩ := by
      simp [GetNextByteModbus, hrtu, nextChar, Worker.bind_apply]
    rw [e]
    exact h4
  | cons c w =>
    rw [GetNextByteModbus_rtu mode hrtu]
    have g1 : e ≤ c.stop := Nat.le_trans h1 (Nat.le_trans h3.1 h3.2.1)
    exact hQ _ _ ⟨g1, h3.2.1, h3.2.2, h4⟩ ⟨h3.2.1, h3.2.1, h3.2.2, h4⟩

theorem ord_AddFrame {e : Nat} {s : Analyzer} {Q : Unit → Analyzer → Prop} (f : Frame)
    (hs : Later e s) (hf : f.mStartingSampleInclusive ≤ f.mEndingSampleInclusive)
    (hQ : ∀ s1, Later e s1 → s1.starting_frame = s.starting_frame →
      s1.ending_frame = s.ending_frame → Q () s1) :
    wp (AddFrame f) Q Stuck s := by
  unfold wp
  exact hQ _ ⟨hs.1, hs.2.1, hs.2.2.1, frames_ordered_append _ _ hs.2.2.2 hf⟩ rfl rfl

theorem later_weaken {e e' : Nat} {s : Analyzer} (h : Later e s) (he : e' ≤ e) : Later e' s :=
  ⟨Nat.le_trans he h.1, h.2⟩

theorem ord_read_two {mode : Mode}
    (hrtu : mode = .ModbusRTUClient ∨ mode = .ModbusRTUServer ∨ mode = .ModbusRTUBoth)
    {e x : Nat} {s : Analyzer} {Q : Nat → Analyzer → Prop} (hs : Later e s) (hx : Later x s)
    (hQ : ∀ v s1, Later e s1 → Later x s1 → Q v s1) :
    wp (GetNextByteModbus mode) Q Stuck s := by
  obtain ⟨w, sf, ef, res⟩ := s
  obtain ⟨h1, h2, h3, h4⟩ := hs
  unfold wp
  cases w with
  | nil =>
    have e : GetNextByteModbus mode ⟨[], sf, ef, res⟩ = .blocked ⟨[], sf, ef, res⟩ := by
      simp [GetNextByteModbus, hrtu, nextChar, Worker.bind_apply]
    rw [e]
    exact h4
  | cons c w =>
    rw [GetNextByteModbus_rtu mode hrtu]
    have g0 : ef ≤ c.stop := Nat.le_trans h3.1 h3.2.1
    exact hQ _ _ ⟨Nat.le_trans h1 g0, h3.2.1, h3.2.2, h4⟩
      ⟨Nat.le_trans hx.1 g0, h3.2.1, h3.2.2, h4⟩

theorem single_frame_CRC_ord {K : FlagBits} {mode : Mode}
    (hrtu : mode = .ModbusRTUClient ∨ mode = .ModbusRTUServer ∨ mode = .ModbusRTUBoth)
    {e : Nat} {s : Analyzer} {Q : Nat × Nat × Frame → Analyzer → Prop}
    (covered : List Nat) (frame : Frame) (hs : Later e s)
    (hQ : ∀ c0 c1 fr s1, Later e s1 →
      fr.mStartingSampleInclusive = frame.mStartingSampleInclusive → Q (c0, c1, fr) s1) :
    wp (single_frame_CRC K mode covered frame) Q Stuck s := by
  simp only [single_frame_CRC, wp_bind, wp_pure]
  refine ord_read hrtu hs (fun c0 s1 h1 _ => ?_)
  refine ord_read hrtu h1 (fun c1 s2 h2 _ => ?_)
  exact hQ c0 c1 _ s2 h2 rfl

theorem single_frame_LRC_ord {K : FlagBits} {mode : Mode}
    (hrtu : mode = .ModbusRTUClient ∨ mode = .ModbusRTUServer ∨ mode = .ModbusRTUBoth)
    {e : Nat} {s : Analyzer} {Q : Nat × Nat × Frame → Analyzer → Prop}
    (covered : List Nat) (frame : Frame) (hs : Later e s)
    (hQ : ∀ c0 c1 fr s1, Later e s1 →
      fr.mStartingSampleInclusive = frame.mStartingSampleInclusive → Q (c0, c1, fr) s1) :
    wp (single_frame_LRC K mode covered frame) Q Stuck s := by
  simp only [single_frame_LRC, wp_bind, wp_pure]
  refine ord_read hrtu hs (fun c0 s1 h1 _ => ?_)
  exact hQ c0 _ _ s1 h1 rfl

theorem end_frame_CRC_ord {K : FlagBits} {mode : Mode}
    (hrtu : mode = .ModbusRTUClient ∨ mode = .ModbusRTUServer ∨ mode = .ModbusRTUBoth)
    {e : Nat} {s : Analyzer} {Q : Frame → Analyzer → Prop}
    (Checksum : Nat) (frame : Frame) (hs : Later e s)
    (hQ : ∀ fr s1, Later e s1 → Later fr.mStartingSampleInclusive s1 → Q fr s1) :
    wp (end_frame_CRC K mode Checksum frame) Q Stuck s := by
  simp only [end_frame_CRC, wp_bind, wp_pure, wp_get_starting_frame]
  refine ord_read hrtu hs (fun c0 s1 h1 g1 => ?_)
  refine ord_read_two hrtu h1 g1 (fun c1 s2 h2 g2 => ?_)
  exact hQ _ s2 h2 g2

theorem end_frame_LRC_ord {K : FlagBits} {mode : Mode}
    (hrtu : mode = .ModbusRTUClient ∨ mode = .ModbusRTUServer ∨ mode = .ModbusRTUBoth)
    {e : Nat} {s : Analyzer} {Q : Frame → Analyzer → Prop}
    (Checksum : Nat) (frame : Frame) (hs : Later e s)
    (hQ : ∀ fr s1, Later e s1 → Later fr.mStartingSampleInclusive s1 → Q fr s1) :
    wp (end_frame_LRC K mode Checksum frame) Q Stuck s := by
  simp only [end_frame_LRC, wp_bind, wp_pure, wp_get_starting_frame]
  refine ord_read hrtu hs (fun c0 s1 h1 g1 => ?_)
  exact hQ _ s1 h1 g1

theorem emit_header_ord {e : Nat} {s : Analyzer} {Q : Frame → Analyzer → Prop}
    (frame : Frame) (d : Nat) (hs : Later e s)
    (hf : frame.mStartingSampleInclusive ≤ s.ending_frame)
    (hQ : ∀ hdr s1, Later e s1 → Q hdr s1) :
    wp (emit_header frame d) Q Stuck s := by
  simp only [emit_header, wp_bind, wp_pure, wp_get_ending_frame]
  exact ord_AddFrame _ hs hf (fun s1 h1 _ _ => hQ _ s1 h1)

theorem data_bytes_ord {K : FlagBits} {mode : Mode}
    (hrtu : mode = .ModbusRTUClient ∨ mode = .ModbusRTUServer ∨ mode = .ModbusRTUBoth)
    {e : Nat} {Q : Nat → Analyzer → Prop} (upd : Nat → Nat → Nat) :
    ∀ (n ck : Nat) (s : Analyzer), Later e s → (∀ c s1, Later e s1 → Q c s1) →
      wp (data_bytes K mode upd n ck) Q Stuck s := by
  intro n
  induction n with
  | zero =>
    intro ck s hs hQ
    simp only [data_bytes, wp_pure]
    exact hQ _ s hs
  | succ n ih =>
    intro ck s hs hQ
    simp only [data_bytes, wp_bind, wp_get_starting_frame, wp_get_ending_frame]
    refine ord_read hrtu hs (fun v s1 h1 g1 => ?_)
    refine ord_AddFrame _ h1 g1.1 (fun s2 h2 _ _ => ?_)
    exact ih _ s2 h2 hQ

theorem data_word_ord {K : FlagBits} {mode : Mode}
    (hrtu : mode = .ModbusRTUClient ∨ mode = .ModbusRTUServer ∨ mode = .ModbusRTUBoth)
    {e : Nat} {s : Analyzer} {Q : Nat → Analyzer → Prop} (upd : Nat → Nat → Nat) (ck : Nat)
    (hs : Later e s) (hQ : ∀ c s1, Later e s1 → Q c s1) :
    wp (data_word K mode upd ck) Q Stuck s := by
  simp only [data_word, wp_bind, wp_pure, wp_get_starting_frame, wp_get_ending_frame]
  refine ord_read hrtu hs (fun v1 s1 h1 g1 => ?_)
  refine ord_read_two hrtu h1 g1 (fun v2 s2 h2 g2 => ?_)
  refine ord_AddFrame _ h2 g2.1 (fun s3 h3 _ _ => ?_)
  exact hQ _ s3 h3

theorem data_words_ord {K : FlagBits} {mode : Mode}
    (hrtu : mode = .ModbusRTUClient ∨ mode = .ModbusRTUServer ∨ mode = .ModbusRTUBoth)
    {e : Nat} {Q : Nat → Analyzer → Prop} (upd : Nat → Nat → Nat) :
    ∀ (n ck : Nat) (s : Analyzer), Later e s → (∀ c s1, Later e s1 → Q c s1) →
      wp (data_words K mode upd n ck) Q Stuck s := by
  intro n
  induction n with
  | zero =>
    intro ck s hs hQ
    simp only [data_words, wp_pure]
    exact hQ _ s hs
  | succ n ih =>
    intro ck s hs hQ
    simp only [data_words, wp_bind]
    refine data_word_ord hrtu upd ck hs (fun c s1 h1 => ?_)
    exact ih _ s1 h1 hQ

theorem file_subreq_ord {K : FlagBits} {mode : Mode}
    (hrtu : mode = .ModbusRTUClient ∨ mode = .ModbusRTUServer ∨ mode = .ModbusRTUBoth)
    {e : Nat} {s : Analyzer} {Q : Nat × Nat × Nat → Analyzer → Prop}
    (upd : Nat → Nat → Nat) (ck : Nat)
    (hs : Later e s) (hQ : ∀ r s1, Later e s1 → Q r s1) :
    wp (file_subreq K mode upd ck) Q Stuck s := by
  simp only [file_subreq, wp_bind, wp_pure, wp_get_starting_frame, wp_get_ending_frame]
  refine ord_read hrtu hs (fun v1 s1 h1 g1 => ?_)
  refine ord_read_two hrtu h1 g1 (fun v2 s2 h2 g2 => ?_)
  refine ord_read_two hrtu h2 g2 (fun v3 s3 h3 g3 => ?_)
  refine ord_read_two hrtu h3 g3 (fun v4 s4 h4 g4 => ?_)
  refine ord_read_two hrtu h4 g4 (fun v5 s5 h5 g5 => ?_)
  refine ord_read_two hrtu h5 g5 (fun v6 s6 h6 g6 => ?_)
  refine ord_read_two hrtu h6 g6 (fun v7 s7 h7 g7 => ?_)
  refine ord_AddFrame _ h7 g7.1 (fun s8 h8 _ _ => ?_)
  exact hQ _ s8 h8

theorem read_file_request_loop_ord {K : FlagBits} {mode : Mode}
    (hrtu : mode = .ModbusRTUClient ∨ mode = .ModbusRTUServer ∨ mode = .ModbusRTUBoth)
    {e : Nat} {Q : Nat → Analyzer → Prop} (upd : Nat → Nat → Nat) (n : Nat) :
    ∀ (fuel i ck : Nat) (s : Analyzer), Later e s → (∀ c s1, Later e s1 → Q c s1) →
      wp (read_file_request_loop K mode upd n fuel i ck) Q Stuck s := by
  intro fuel
  induction fuel with
  | zero =>
    intro i ck s hs hQ
    simp only [read_file_request_loop, wp_pure]
    exact hQ _ s hs
  | succ fuel ih =>
    intro i ck s hs hQ
    simp only [read_file_request_loop]
    split
    · simp only [wp_bind]
      refine file_subreq_ord hrtu upd ck hs (fun r s1 h1 => ?_)
      exact ih _ _ s1 h1 hQ
    · simp only [wp_pure]
      exact hQ _ s hs

theorem write_file_loop_ord {K : FlagBits} {mode : Mode}
    (hrtu : mode = .ModbusRTUClient ∨ mode = .ModbusRTUServer ∨ mode = .ModbusRTUBoth)
    {e : Nat} {Q : Nat → Analyzer → Prop} (upd : Nat → Nat → Nat)
    (reclen : Nat → Nat → Nat) (n : Nat) :
    ∀ (fuel i ck : Nat) (s : Analyzer), Later e s → (∀ c s1, Later e s1 → Q c s1) →
      wp (write_file_loop K mode upd reclen n fuel i ck) Q Stuck s := by
  intro fuel
  induction fuel with
  | zero =>
    intro i ck s hs hQ
    simp only [write_file_loop, wp_pure]
    exact hQ _ s hs
  | succ fuel ih =>
    intro i ck s hs hQ
    simp only [write_file_loop]
    split
    · simp only [wp_bind]
      refine file_subreq_ord hrtu upd ck hs (fun r s1 h1 => ?_)
      refine data_words_ord hrtu upd _ _ s1 h1 (fun c s2 h2 => ?_)
      exact ih _ _ s2 h2 hQ
    · simp only [wp_pure]
      exact hQ _ s hs

theorem read_file_response_words_ord {K : FlagBits} {mode : Mode}
    (hrtu : mode = .ModbusRTUClient ∨ mode = .ModbusRTUServer ∨ mode = .ModbusRTUBoth)
    {e : Nat} {Q : Nat × Nat → Analyzer → Prop} (upd : Nat → Nat → Nat) (m : Nat) :
    ∀ (fuel k ck : Nat) (s : Analyzer), Later e s → (∀ r s1, Later e s1 → Q r s1) →
      wp (read_file_response_words K mode upd m fuel k ck) Q Stuck s := by
  intro fuel
  induction fuel with
  | zero =>
    intro k ck s hs hQ
    simp only [read_file_response_words, wp_pure]
    exact hQ _ s hs
  | succ fuel ih =>
    intro k ck s hs hQ
    simp only [read_file_response_words]
    split
    · simp only [wp_bind]
      refine data_word_ord hrtu upd ck hs (fun c s1 h1 => ?_)
      exact ih _ _ s1 h1 hQ
    · simp only [wp_pure]
      exact hQ _ s hs

theorem read_file_response_loop_ord {K : FlagBits} {mode : Mode}
    (hrtu : mode = .ModbusRTUClient ∨ mode = .ModbusRTUServer ∨ mode = .ModbusRTUBoth)
    {e : Nat} {Q : Nat → Analyzer → Prop} (upd : Nat → Nat → Nat)
    (mk : Nat → Nat → Nat) (step n : Nat) :
    ∀ (fuel i ck : Nat) (s : Analyzer), Later e s → (∀ c s1, Later e s1 → Q c s1) →
      wp (read_file_response_loop K mode upd mk step n fuel i ck) Q Stuck s := by
  intro fuel
  induction fuel with
  | zero =>
    intro i ck s hs hQ
    simp only [read_file_response_loop, wp_pure]
    exact hQ _ s hs
  | succ fuel ih =>
    intro i ck s hs hQ
    simp only [read_file_response_loop]
    split
    · simp only [wp_bind, wp_get_starting_frame, wp_get_ending_frame]
      refine ord_read hrtu hs (fun v1 s1 h1 g1 => ?_)
      refine ord_read_two hrtu h1 g1 (fun v2 s2 h2 g2 => ?_)
      refine ord_AddFrame _ h2 g2.1 (fun s3 h3 _ _ => ?_)
      refine read_file_response_words_ord hrtu upd _ _ _ _ s3 h3 (fun r s4 h4 => ?_)
      exact ih _ _ s4 h4 hQ
    · simp only [wp_pure]
      exact hQ _ s hs

theorem request_READ_COILS_ord (K : FlagBits) (mode : Mode)
    (hrtu : mode = .ModbusRTUClient ∨ mode = .ModbusRTUServer ∨ mode = .ModbusRTUBoth)
    (a f : Nat) (frame : Frame) (s : Analyzer)
    (hs : Later frame.mStartingSampleInclusive s) :
    wp (request_READ_COILS K mode a f frame)
      (fun fr s1 => Later fr.mStartingSampleInclusive s1) Stuck s := by
  simp only [request_READ_COILS, wp_bind]
  refine ord_read hrtu hs (fun v1 s1 h1 _ => ?_)
  refine ord_read hrtu h1 (fun v2 s2 h2 _ => ?_)
  refine ord_read hrtu h2 (fun v3 s3 h3 _ => ?_)
  refine ord_read hrtu h3 (fun v4 s4 h4 _ => ?_)
  by_cases hc : mode = .ModbusRTUClient ∨ mode = .ModbusRTUBoth
  · simp only [hc, if_true, wp_bind]
    refine single_frame_CRC_ord hrtu _ _ h4 (fun c0 c1 fr s9 h9 hfr => ?_)
    simp only [wp_pure]
    rw [← hfr] at h9
    exact h9
  · simp only [hc, if_false, wp_bind]
    refine single_frame_LRC_ord hrtu _ _ h4 (fun c0 c1 fr s9 h9 hfr => ?_)
    simp only [wp_pure]
    rw [← hfr] at h9
    exact h9

theorem request_READ_EXCEPTION_STATUS_ord (K : FlagBits) (mode : Mode)
    (hrtu : mode = .ModbusRTUClient ∨ mode = .ModbusRTUServer ∨ mode = .ModbusRTUBoth)
    (a f : Nat) (frame : Frame) (s : Analyzer)
    (hs : Later frame.mStartingSampleInclusive s) :
    wp (request_READ_EXCEPTION_STATUS K mode a f frame)
      (fun fr s1 => Later fr.mStartingSampleInclusive s1) Stuck s := by
  simp only [request_READ_EXCEPTION_STATUS, wp_bind]
  by_cases hc : mode = .ModbusRTUClient ∨ mode = .ModbusRTUBoth
  · simp only [hc, if_true, wp_bind]
    refine single_frame_CRC_ord hrtu _ _ hs (fun c0 c1 fr s9 h9 hfr => ?_)
    simp only [wp_pure]
    rw [← hfr] at h9
    exact h9
  · simp only [hc, if_false, wp_bind]
    refine single_frame_LRC_ord hrtu _ _ hs (fun c0 c1 fr s9 h9 hfr => ?_)
    simp only [wp_pure]
    rw [← hfr] at h9
    exact h9

theorem request_WRITE_MULTIPLE_COILS_ord (K : FlagBits) (mode : Mode)
    (hrtu : mode = .ModbusRTUClient ∨ mode = .ModbusRTUServer ∨ mode = .ModbusRTUBoth)
    (a f : Nat) (frame : Frame) (s : Analyzer)
    (hs : Later frame.mStartingSampleInclusive s) :
    wp (request_WRITE_MULTIPLE_COILS K mode a f frame)
      (fun fr s1 => Later fr.mStartingSampleInclusive s1) Stuck s := by
  simp only [request_WRITE_MULTIPLE_COILS, wp_bind]
  refine ord_read hrtu hs (fun v1 s1 h1 _ => ?_)
  refine ord_read hrtu h1 (fun v2 s2 h2 _ => ?_)
  refine ord_read hrtu h2 (fun v3 s3 h3 _ => ?_)
  refine ord_read hrtu h3 (fun v4 s4 h4 _ => ?_)
  refine ord_read hrtu h4 (fun v5 s5 h5 _ => ?_)
  by_cases hc : mode = .ModbusRTUClient ∨ mode = .ModbusRTUBoth
  · simp only [hc, if_true, wp_bind]
    refine emit_header_ord _ _ h5 h5.1 (fun hdr s6 h6 => ?_)
    refine data_bytes_ord hrtu update_CRC _ _ s6 h6 (fun c s7 h7 => ?_)
    refine end_frame_CRC_ord hrtu _ _ h7 (fun fr s8 _ g8 => ?_)
    exact g8
  · simp only [hc, if_false, wp_bind]
    refine emit_header_ord _ _ h5 h5.1 (fun hdr s6 h6 => ?_)
    refine data_bytes_ord hrtu LRC_add _ _ s6 h6 (fun c s7 h7 => ?_)
    refine end_frame_LRC_ord hrtu _ _ h7 (fun fr s8 _ g8 => ?_)
    exact g8

theorem request_WRITE_MULTIPLE_REGISTERS_ord (K : FlagBits) (mode : Mode)
    (hrtu : mode = .ModbusRTUClient ∨ mode = .ModbusRTUServer ∨ mode = .ModbusRTUBoth)
    (a f : Nat) (frame : Frame) (s : Analyzer)
    (hs : Later frame.mStartingSampleInclusive s) :
    wp (request_WRITE_MULTIPLE_REGISTERS K mode a f frame)
      (fun fr s1 => Later fr.mStartingSampleInclusive s1) Stuck s := by
  simp only [request_WRITE_MULTIPLE_REGISTERS, wp_bind]
  refine ord_read hrtu hs (fun v1 s1 h1 _ => ?_)
  refine ord_read hrtu h1 (fun v2 s2 h2 _ => ?_)
  refine ord_read hrtu h2 (fun v3 s3 h3 _ => ?_)
  refine ord_read hrtu h3 (fun v4 s4 h4 _ => ?_)
  refine ord_read hrtu h4 (fun v5 s5 h5 _ => ?_)
  by_cases hc : mode = .ModbusRTUClient ∨ mode = .ModbusRTUBoth
  · simp only [hc, if_true, wp_bind]
    refine emit_header_ord _ _ h5 h5.1 (fun hdr s6 h6 => ?_)
    refine data_words_ord hrtu update_CRC _ _ s6 h6 (fun c s7 h7 => ?_)
    refine end_frame_CRC_ord hrtu _ _ h7 (fun fr s8 _ g8 => ?_)
    exact g8
  · simp only [hc, if_false, wp_bind]
    refine emit_header_ord _ _ h5 h5.1 (fun hdr s6 h6 => ?_)
    refine data_words_ord hrtu LRC_add _ _ s6 h6 (fun c s7 h7 => ?_)
    refine end_frame_LRC_ord hrtu _ _ h7 (fun fr s8 _ g8 => ?_)
    exact g8

theorem request_READ_FILE_RECORD_ord (K : FlagBits) (mode : Mode)
    (hrtu : mode = .ModbusRTUClient ∨ mode = .ModbusRTUServer ∨ mode = .ModbusRTUBoth)
    (a f : Nat) (frame : Frame) (s : Analyzer)
    (hs : Later frame.mStartingSampleInclusive s) :
    wp (request_READ_FILE_RECORD K mode a f frame)
      (fun fr s1 => Later fr.mStartingSampleInclusive s1) Stuck s := by
  simp only [request_READ_FILE_RECORD, wp_bind]
  refine ord_read hrtu hs (fun v1 s1 h1 _ => ?_)
  by_cases hc : mode = .ModbusRTUClient ∨ mode = .ModbusRTUBoth
  · simp only [hc, if_true, wp_bind]
    refine emit_header_ord _ _ h1 h1.1 (fun hdr s6 h6 => ?_)
    refine read_file_request_loop_ord hrtu update_CRC _ _ _ _ s6 h6 (fun c s7 h7 => ?_)
    refine end_frame_CRC_ord hrtu _ _ h7 (fun fr s8 _ g8 => ?_)
    exact g8
  · simp only [hc, if_false, wp_bind]
    refine emit_header_ord _ _ h1 h1.1 (fun hdr s6 h6 => ?_)
    refine read_file_request_loop_ord hrtu LRC_add _ _ _ _ s6 h6 (fun c s7 h7 => ?_)
    refine end_frame_LRC_ord hrtu _ _ h7 (fun fr s8 _ g8 => ?_)
    exact g8

theorem request_WRITE_FILE_RECORD_ord (K : FlagBits) (mode : Mode)
    (hrtu : mode = .ModbusRTUClient ∨ mode = .ModbusRTUServer ∨ mode = .ModbusRTUBoth)
    (a f : Nat) (frame : Frame) (s : Analyzer)
    (hs : Later frame.mStartingSampleInclusive s) :
    wp (request_WRITE_FILE_RECORD K mode a f frame)
      (fun fr s1 => Later fr.mStartingSampleInclusive s1) Stuck s := by
  simp only [request_WRITE_FILE_RECORD, wp_bind]
  refine ord_read hrtu hs (fun v1 s1 h1 _ => ?_)
  by_cases hc : mode = .ModbusRTUClient ∨ mode = .ModbusRTUBoth
  · simp only [hc, if_true, wp_bind]
    refine emit_header_ord _ _ h1 h1.1 (fun hdr s6 h6 => ?_)
    refine write_file_loop_ord hrtu update_CRC _ _ _ _ _ s6 h6 (fun c s7 h7 => ?_)
    refine end_frame_CRC_ord hrtu _ _ h7 (fun fr s8 _ g8 => ?_)
    exact g8
  · simp only [hc, if_false, wp_bind]
    refine emit_header_ord _ _ h1 h1.1 (fun hdr s6 h6 => ?_)
    refine write_file_loop_ord hrtu LRC_add _ _ _ _ _ s6 h6 (fun c s7 h7 => ?_)
    refine end_frame_LRC_ord hrtu _ _ h7 (fun fr s8 _ g8 => ?_)
    exact g8

theorem request_MASK_WRITE_REGISTER_ord (K : FlagBits) (mode : Mode)
    (hrtu : mode = .ModbusRTUClient ∨ mode = .ModbusRTUServer ∨ mode = .ModbusRTUBoth)
    (a f : Nat) (frame : Frame) (s : Analyzer)
    (hs : Later frame.mStartingSampleInclusive s) :
    wp (request_MASK_WRITE_REGISTER K mode a f frame)
      (fun fr s1 => Later fr.mStartingSampleInclusive s1) Stuck s := by
  simp only [request_MASK_WRITE_REGISTER, wp_bind]
  refine ord_read hrtu hs (fun v1 s1 h1 _ => ?_)
  refine ord_read hrtu h1 (fun v2 s2 h2 _ => ?_)
  refine ord_read hrtu h2 (fun v3 s3 h3 _ => ?_)
  refine ord_read hrtu h3 (fun v4 s4 h4 _ => ?_)
  refine ord_read hrtu h4 (fun v5 s5 h5 _ => ?_)
  refine ord_read hrtu h5 (fun v6 s6 h6 _ => ?_)
  by_cases hc : mode = .ModbusRTUClient ∨ mode = .ModbusRTUBoth
  · simp only [hc, if_true, wp_bind]
    refine single_frame_CRC_ord hrtu _ _ h6 (fun c0 c1 fr s9 h9 hfr => ?_)
    simp only [wp_pure]
    rw [← hfr] at h9
    exact h9
  · simp only [hc, if_false, wp_bind]
    refine single_frame_LRC_ord hrtu _ _ h6 (fun c0 c1 fr s9 h9 hfr => ?_)
    simp only [wp_pure]
    rw [← hfr] at h9
    exact h9

theorem request_READWRITE_MULTIPLE_REGISTERS_ord (K : FlagBits) (mode : Mode)
    (hrtu : mode = .ModbusRTUClient ∨ mode = .ModbusRTUServer ∨ mode = .ModbusRTUBoth)
    (a f : Nat) (frame : Frame) (s : Analyzer)
    (hs : Later frame.mStartingSampleInclusive s) :
    wp (request_READWRITE_MULTIPLE_REGISTERS K mode a f frame)
      (fun fr s1 => Later fr.mStartingSampleInclusive s1) Stuck s := by
  simp only [request_READWRITE_MULTIPLE_REGISTERS, wp_bind]
  refine ord_read hrtu hs (fun v1 s1 h1 _ => ?_)
  refine ord_read hrtu h1 (fun v2 s2 h2 _ => ?_)
  refine ord_read hrtu h2 (fun v3 s3 h3 _ => ?_)
  refine ord_read hrtu h3 (fun v4 s4 h4 _ => ?_)
  refine ord_read hrtu h4 (fun v5 s5 h5 _ => ?_)
  refine ord_read hrtu h5 (fun v6 s6 h6 _ => ?_)
  refine ord_read hrtu h6 (fun v7 s7 h7 _ => ?_)
  refine ord_read hrtu h7 (fun v8 s8 h8 _ => ?_)
  refine ord_read hrtu h8 (fun v9 s9 h9 _ => ?_)
  by_cases hc : mode = .ModbusRTUClient ∨ mode = .ModbusRTUBoth
  · simp only [hc, if_true, wp_bind]
    refine emit_header_ord _ _ h9 h9.1 (fun hdr s6 h6 => ?_)
    refine data_words_ord hrtu update_CRC _ _ s6 h6 (fun c s7 h7 => ?_)
    refine end_frame_CRC_ord hrtu _ _ h7 (fun fr s8 _ g8 => ?_)
    exact g8
  · simp only [hc, if_false, wp_bind]
    refine emit_header_ord _ _ h9 h9.1 (fun hdr s6 h6 => ?_)
    refine data_words_ord hrtu LRC_add _ _ s6 h6 (fun c s7 h7 => ?_)
    refine end_frame_LRC_ord hrtu _ _ h7 (fun fr s8 _ g8 => ?_)
    exact g8

theorem request_READ_FIFO_QUEUE_ord (K : FlagBits) (mode : Mode)
    (hrtu : mode = .ModbusRTUClient ∨ mode = .ModbusRTUServer ∨ mode = .ModbusRTUBoth)
    (a f : Nat) (frame : Frame) (s : Analyzer)
    (hs : Later frame.mStartingSampleInclusive s) :
    wp (request_READ_FIFO_QUEUE K mode a f frame)
      (fun fr s1 => Later fr.mStartingSampleInclusive s1) Stuck s := by
  simp only [request_READ_FIFO_QUEUE, wp_bind]
  refine ord_read hrtu hs (fun v1 s1 h1 _ => ?_)
  refine ord_read hrtu h1 (fun v2 s2 h2 _ => ?_)
  by_cases hc : mode = .ModbusRTUClient ∨ mode = .ModbusRTUBoth
  · simp only [hc, if_true, wp_bind]
    refine single_frame_CRC_ord hrtu _ _ h2 (fun c0 c1 fr s9 h9 hfr => ?_)
    simp only [wp_pure]
    rw [← hfr] at h9
    exact h9
  · simp only [hc, if_false, wp_bind]
    refine single_frame_LRC_ord hrtu _ _ h2 (fun c0 c1 fr s9 h9 hfr => ?_)
    simp only [wp_pure]
    rw [← hfr] at h9
    exact h9

theorem response_exception_ord (K : FlagBits) (mode : Mode)
    (hrtu : mode = .ModbusRTUClient ∨ mode = .ModbusRTUServer ∨ mode = .ModbusRTUBoth)
    (a f : Nat) (frame : Frame) (s : Analyzer)
    (hs : Later frame.mStartingSampleInclusive s) :
    wp (response_exception K mode a f frame)
      (fun fr s1 => Later fr.mStartingSampleInclusive s1) Stuck s := by
  simp only [response_exception, wp_bind]
  refine ord_read hrtu hs (fun v1 s1 h1 _ => ?_)
  by_cases hc : mode = .ModbusRTUServer ∨ mode = .ModbusRTUBoth
  · simp only [hc, if_true, wp_bind]
    refine single_frame_CRC_ord hrtu _ _ h1 (fun c0 c1 fr s9 h9 hfr => ?_)
    simp only [wp_pure]
    rw [← hfr] at h9
    exact h9
  · simp only [hc, if_false, wp_bind]
    refine single_frame_LRC_ord hrtu _ _ h1 (fun c0 c1 fr s9 h9 hfr => ?_)
    simp only [wp_pure]
    rw [← hfr] at h9
    exact h9

theorem response_READ_COILS_ord (K : FlagBits) (mode : Mode)
    (hrtu : mode = .ModbusRTUClient ∨ mode = .ModbusRTUServer ∨ mode = .ModbusRTUBoth)
    (a f : Nat) (frame : Frame) (s : Analyzer)
    (hs : Later frame.mStartingSampleInclusive s) :
    wp (response_READ_COILS K mode a f frame)
      (fun fr s1 => Later fr.mStartingSampleInclusive s1) Stuck s := by
  simp only [response_READ_COILS, wp_bind]
  refine ord_read hrtu hs (fun v1 s1 h1 _ => ?_)
  by_cases hc : mode = .ModbusRTUServer ∨ mode = .ModbusRTUBoth
  · simp only [hc, if_true, wp_bind]
    refine emit_header_ord _ _ h1 h1.1 (fun hdr s6 h6 => ?_)
    refine data_bytes_ord hrtu update_CRC _ _ s6 h6 (fun c s7 h7 => ?_)
    refine end_frame_CRC_ord hrtu _ _ h7 (fun fr s8 _ g8 => ?_)
    exact g8
  · simp only [hc, if_false, wp_bind]
    refine emit_header_ord _ _ h1 h1.1 (fun hdr s6 h6 => ?_)
    refine data_bytes_ord hrtu LRC_add _ _ s6 h6 (fun c s7 h7 => ?_)
    refine end_frame_LRC_ord hrtu _ _ h7 (fun fr s8 _ g8 => ?_)
    exact g8

theorem response_READ_HOLDING_REGISTERS_ord (K : FlagBits) (mode : Mode)
    (hrtu : mode = .ModbusRTUClient ∨ mode = .ModbusRTUServer ∨ mode = .ModbusRTUBoth)
    (a f : Nat) (frame : Frame) (s : Analyzer)
    (hs : Later frame.mStartingSampleInclusive s) :
    wp (response_READ_HOLDING_REGISTERS K mode a f frame)
      (fun fr s1 => Later fr.mStartingSampleInclusive s1) Stuck s := by
  simp only [response_READ_HOLDING_REGISTERS, wp_bind]
  refine ord_read hrtu hs (fun v1 s1 h1 _ => ?_)
  by_cases hc : mode = .ModbusRTUServer ∨ mode = .ModbusRTUBoth
  · simp only [hc, if_true, wp_bind]
    refine emit_header_ord _ _ h1 h1.1 (fun hdr s6 h6 => ?_)
    refine data_words_ord hrtu update_CRC _ _ s6 h6 (fun c s7 h7 => ?_)
    refine end_frame_CRC_ord hrtu _ _ h7 (fun fr s8 _ g8 => ?_)
    exact g8
  · simp only [hc, if_false, wp_bind]
    refine emit_header_ord _ _ h1 h1.1 (fun hdr s6 h6 => ?_)
    refine data_words_ord hrtu LRC_add _ _ s6 h6 (fun c s7 h7 => ?_)
    refine end_frame_LRC_ord hrtu _ _ h7 (fun fr s8 _ g8 => ?_)
    exact g8

theorem response_WRITE_SINGLE_COIL_ord (K : FlagBits) (mode : Mode)
    (hrtu : mode = .ModbusRTUClient ∨ mode = .ModbusRTUServer ∨ mode = .ModbusRTUBoth)
    (a f : Nat) (frame : Frame) (s : Analyzer)
    (hs : Later frame.mStartingSampleInclusive s) :
    wp (response_WRITE_SINGLE_COIL K mode a f frame)
      (fun fr s1 => Later fr.mStartingSampleInclusive s1) Stuck s := by
  simp only [response_WRITE_SINGLE_COIL, wp_bind]
  refine ord_read hrtu hs (fun v1 s1 h1 _ => ?_)
  refine ord_read hrtu h1 (fun v2 s2 h2 _ => ?_)
  refine ord_read hrtu h2 (fun v3 s3 h3 _ => ?_)
  refine ord_read hrtu h3 (fun v4 s4 h4 _ => ?_)
  by_cases hc : mode = .ModbusRTUServer ∨ mode = .ModbusRTUBoth
  · simp only [hc, if_true, wp_bind]
    refine single_frame_CRC_ord hrtu _ _ h4 (fun c0 c1 fr s9 h9 hfr => ?_)
    simp only [wp_pure]
    rw [← hfr] at h9
    exact h9
  · simp only [hc, if_false, wp_bind]
    refine single_frame_LRC_ord hrtu _ _ h4 (fun c0 c1 fr s9 h9 hfr => ?_)
    simp only [wp_pure]
    rw [← hfr] at h9
    exact h9

theorem response_READ_EXCEPTION_STATUS_ord (K : FlagBits) (mode : Mode)
    (hrtu : mode = .ModbusRTUClient ∨ mode = .ModbusRTUServer ∨ mode = .ModbusRTUBoth)
    (a f : Nat) (frame : Frame) (s : Analyzer)
    (hs : Later frame.mStartingSampleInclusive s) :
    wp (response_READ_EXCEPTION_STATUS K mode a f frame)
      (fun fr s1 => Later fr.mStartingSampleInclusive s1) Stuck s := by
  simp only [response_READ_EXCEPTION_STATUS, wp_bind]
  refine ord_read hrtu hs (fun v1 s1 h1 _ => ?_)
  by_cases hc : mode = .ModbusRTUServer ∨ mode = .ModbusRTUBoth
  · simp only [hc, if_true, wp_bind]
    refine single_frame_CRC_ord hrtu _ _ h1 (fun c0 c1 fr s9 h9 hfr => ?_)
    simp only [wp_pure]
    rw [← hfr] at h9
    exact h9
  · simp only [hc, if_false, wp_bind]
    refine single_frame_LRC_ord hrtu _ _ h1 (fun c0 c1 fr s9 h9 hfr => ?_)
    simp only [wp_pure]
    rw [← hfr] at h9
    exact h9

theorem response_GET_COM_EVENT_LOG_ord (K : FlagBits) (mode : Mode)
    (hrtu : mode = .ModbusRTUClient ∨ mode = .ModbusRTUServer ∨ mode = .ModbusRTUBoth)
    (a f : Nat) (frame : Frame) (s : Analyzer)
    (hs : Later frame.mStartingSampleInclusive s) :
    wp (response_GET_COM_EVENT_LOG K mode a f frame)
      (fun fr s1 => Later fr.mStartingSampleInclusive s1) Stuck s := by
  simp only [response_GET_COM_EVENT_LOG, wp_bind]
  refine ord_read hrtu hs (fun v1 s1 h1 _ => ?_)
  refine ord_read hrtu h1 (fun v2 s2 h2 _ => ?_)
  refine ord_read hrtu h2 (fun v3 s3 h3 _ => ?_)
  refine ord_read hrtu h3 (fun v4 s4 h4 _ => ?_)
  refine ord_read hrtu h4 (fun v5 s5 h5 _ => ?_)
  refine ord_read hrtu h5 (fun v6 s6 h6 _ => ?_)
  refine ord_read hrtu h6 (fun v7 s7 h7 _ => ?_)
  by_cases hc : mode = .ModbusRTUServer ∨ mode = .ModbusRTUBoth
  · simp only [hc, if_true, wp_bind]
    refine emit_header_ord _ _ h7 h7.1 (fun hdr s6 h6 => ?_)
    refine data_bytes_ord hrtu update_CRC _ _ s6 h6 (fun c s7 h7 => ?_)
    refine end_frame_CRC_ord hrtu _ _ h7 (fun fr s8 _ g8 => ?_)
    exact g8
  · simp only [hc, if_false, wp_bind]
    refine emit_header_ord _ _ h7 h7.1 (fun hdr s6 h6 => ?_)
    refine data_bytes_ord hrtu LRC_add _ _ s6 h6 (fun c s7 h7 => ?_)
    refine end_frame_LRC_ord hrtu _ _ h7 (fun fr s8 _ g8 => ?_)
    exact g8

theorem response_READ_FILE_RECORD_ord (K : FlagBits) (mode : Mode)
    (hrtu : mode = .ModbusRTUClient ∨ mode = .ModbusRTUServer ∨ mode = .ModbusRTUBoth)
    (a f : Nat) (frame : Frame) (s : Analyzer)
    (hs : Later frame.mStartingSampleInclusive s) :
    wp (response_READ_FILE_RECORD K mode a f frame)
      (fun fr s1 => Later fr.mStartingSampleInclusive s1) Stuck s := by
  simp only [response_READ_FILE_RECORD, wp_bind]
  refine ord_read hrtu hs (fun v1 s1 h1 _ => ?_)
  by_cases hc : mode = .ModbusRTUServer ∨ mode = .ModbusRTUBoth
  · simp only [hc, if_true, wp_bind]
    refine emit_header_ord _ _ h1 h1.1 (fun hdr s6 h6 => ?_)
    refine read_file_response_loop_ord hrtu update_CRC _ _ _ _ _ _ s6 h6 (fun c s7 h7 => ?_)
    refine end_frame_CRC_ord hrtu _ _ h7 (fun fr s8 _ g8 => ?_)
    exact g8
  · simp only [hc, if_false, wp_bind]
    refine emit_header_ord _ _ h1 h1.1 (fun hdr s6 h6 => ?_)
    refine read_file_response_loop_ord hrtu LRC_add _ _ _ _ _ _ s6 h6 (fun c s7 h7 => ?_)
    refine end_frame_LRC_ord hrtu _ _ h7 (fun fr s8 _ g8 => ?_)
    exact g8

theorem response_WRITE_FILE_RECORD_ord (K : FlagBits) (mode : Mode)
    (hrtu : mode = .ModbusRTUClient ∨ mode = .ModbusRTUServer ∨ mode = .ModbusRTUBoth)
    (a f : Nat) (frame : Frame) (s : Analyzer)
    (hs : Later frame.mStartingSampleInclusive s) :
    wp (response_WRITE_FILE_RECORD K mode a f frame)
      (fun fr s1 => Later fr.mStartingSampleInclusive s1) Stuck s := by
  simp only [response_WRITE_FILE_RECORD, wp_bind]
  refine ord_read hrtu hs (fun v1 s1 h1 _ => ?_)
  by_cases hc : mode = .ModbusRTUServer ∨ mode = .ModbusRTUBoth
  · simp only [hc, if_true, wp_bind]
    refine emit_header_ord _ _ h1 h1.1 (fun hdr s6 h6 => ?_)
    refine write_file_loop_ord hrtu update_CRC _ _ _ _ _ s6 h6 (fun c s7 h7 => ?_)
    refine end_frame_CRC_ord hrtu _ _ h7 (fun fr s8 _ g8 => ?_)
    exact g8
  · simp only [hc, if_false, wp_bind]
    refine emit_header_ord _ _ h1 h1.1 (fun hdr s6 h6 => ?_)
    refine write_file_loop_ord hrtu LRC_add _ _ _ _ _ s6 h6 (fun c s7 h7 => ?_)
    refine end_frame_LRC_ord hrtu _ _ h7 (fun fr s8 _ g8 => ?_)
    exact g8

theorem response_MASK_WRITE_REGISTER_ord (K : FlagBits) (mode : Mode)
    (hrtu : mode = .ModbusRTUClient ∨ mode = .ModbusRTUServer ∨ mode = .ModbusRTUBoth)
    (a f : Nat) (frame : Frame) (s : Analyzer)
    (hs : Later frame.mStartingSampleInclusive s) :
    wp (response_MASK_WRITE_REGISTER K mode a f frame)
      (fun fr s1 => Later fr.mStartingSampleInclusive s1) Stuck s := by
  simp only [response_MASK_WRITE_REGISTER, wp_bind]
  refine ord_read hrtu hs (fun v1 s1 h1 _ => ?_)
  refine ord_read hrtu h1 (fun v2 s2 h2 _ => ?_)
  refine ord_read hrtu h2 (fun v3 s3 h3 _ => ?_)
  refine ord_read hrtu h3 (fun v4 s4 h4 _ => ?_)
  refine ord_read hrtu h4 (fun v5 s5 h5 _ => ?_)
  refine ord_read hrtu h5 (fun v6 s6 h6 _ => ?_)
  by_cases hc : mode = .ModbusRTUServer ∨ mode = .ModbusRTUBoth
  · simp only [hc, if_true, wp_bind]
    refine single_frame_CRC_ord hrtu _ _ h6 (fun c0 c1 fr s9 h9 hfr => ?_)
    simp only [wp_pure]
    rw [← hfr] at h9
    exact h9
  · simp only [hc, if_false, wp_bind]
    refine single_frame_LRC_ord hrtu _ _ h6 (fun c0 c1 fr s9 h9 hfr => ?_)
    simp only [wp_pure]
    rw [← hfr] at h9
    exact h9

theorem response_READ_FIFO_QUEUE_ord (K : FlagBits) (mode : Mode)
    (hrtu : mode = .ModbusRTUClient ∨ mode = .ModbusRTUServer ∨ mode = .ModbusRTUBoth)
    (a f : Nat) (frame : Frame) (s : Analyzer)
    (hs : Later frame.mStartingSampleInclusive s) :
    wp (response_READ_FIFO_QUEUE K mode a f frame)
      (fun fr s1 => Later fr.mStartingSampleInclusive s1) Stuck s := by
  simp only [response_READ_FIFO_QUEUE, wp_bind]
  refine ord_read hrtu hs (fun v1 s1 h1 _ => ?_)
  refine ord_read hrtu h1 (fun v2 s2 h2 _ => ?_)
  refine ord_read hrtu h2 (fun v3 s3 h3 _ => ?_)
  refine ord_read hrtu h3 (fun v4 s4 h4 _ => ?_)
  by_cases hc : mode = .ModbusRTUServer ∨ mode = .ModbusRTUBoth
  · simp only [hc, if_true, wp_bind]
    refine emit_header_ord _ _ h4 h4.1 (fun hdr s6 h6 => ?_)
    refine data_words_ord hrtu update_CRC _ _ s6 h6 (fun c s7 h7 => ?_)
    refine end_frame_CRC_ord hrtu _ _ h7 (fun fr s8 _ g8 => ?_)
    exact g8
  · simp only [hc, if_false, wp_bind]
    refine emit_header_ord _ _ h4 h4.1 (fun hdr s6 h6 => ?_)
    refine data_words_ord hrtu LRC_add _ _ s6 h6 (fun c s7 h7 => ?_)
    refine end_frame_LRC_ord hrtu _ _ h7 (fun fr s8 _ g8 => ?_)
    exact g8

theorem request_switch_ord (K : FlagBits) (mode : Mode)
    (hrtu : mode = .ModbusRTUClient ∨ mode = .ModbusRTUServer ∨ mode = .ModbusRTUBoth)
    (a f : Nat) (frame : Frame) (s : Analyzer)
    (hs : Later frame.mStartingSampleInclusive s) :
    wp (request_switch K mode a f frame)
      (fun fr s1 => Later fr.mStartingSampleInclusive s1) Stuck s := by
  by_cases hk : f ∈ known_funccodes
  · have hk' := hk
    simp only [known_funccodes, List.mem_cons, List.mem_singleton, List.not_mem_nil,
      or_false] at hk'
    rcases hk' with h | h | h | h | h | h | h | h | h | h | h | h | h | h | h | h | h | h
    · subst h
      have e : request_switch K mode a FUNCCODE_READ_COILS frame = request_READ_COILS K mode a FUNCCODE_READ_COILS frame := by
        simp [request_switch]
      rw [e]
      exact request_READ_COILS_ord K mode hrtu a _ frame s hs
    · subst h
      have e : request_switch K mode a FUNCCODE_READ_DISCRETE_INPUTS frame = request_READ_COILS K mode a FUNCCODE_READ_DISCRETE_INPUTS frame := by
        simp [request_switch]
      rw [e]
      exact request_READ_COILS_ord K mode hrtu a _ frame s hs
    · subst h
      have e : request_switch K mode a FUNCCODE_READ_HOLDING_REGISTERS frame = request_READ_COILS K mode a FUNCCODE_READ_HOLDING_REGISTERS frame := by
        simp [request_switch]
      rw [e]
      exact request_READ_COILS_ord K mode hrtu a _ frame s hs
    · subst h
      have e : request_switch K mode a FUNCCODE_READ_INPUT_REGISTER frame = request_READ_COILS K mode a FUNCCODE_READ_INPUT_REGISTER frame := by
        simp [request_switch]
      rw [e]
      exact request_READ_COILS_ord K mode hrtu a _ frame s hs
    · subst h
      have e : request_switch K mode a FUNCCODE_WRITE_SINGLE_COIL frame = request_READ_COILS K mode a FUNCCODE_WRITE_SINGLE_COIL frame := by
        simp [request_switch]
      rw [e]
      exact request_READ_COILS_ord K mode hrtu a _ frame s hs
    · subst h
      have e : request_switch K mode a FUNCCODE_WRITE_SINGLE_REGISTER frame = request_READ_COILS K mode a FUNCCODE_WRITE_SINGLE_REGISTER frame := by
        simp [request_switch]
      rw [e]
      exact request_READ_COILS_ord K mode hrtu a _ frame s hs
    · subst h
      have e : request_switch K mode a FUNCCODE_READ_EXCEPTION_STATUS frame = request_READ_EXCEPTION_STATUS K mode a FUNCCODE_READ_EXCEPTION_STATUS frame := by
        simp [request_switch]
      rw [e]
      exact request_READ_EXCEPTION_STATUS_ord K mode hrtu a _ frame s hs
    · subst h
      have e : request_switch K mode a FUNCCODE_DIAGNOSTIC frame = request_READ_COILS K mode a FUNCCODE_DIAGNOSTIC frame := by
        simp [request_switch]
      rw [e]
      exact request_READ_COILS_ord K mode hrtu a _ frame s hs
    · subst h
      have e : request_switch K mode a FUNCCODE_GET_COM_EVENT_COUNTER frame = request_READ_EXCEPTION_STATUS K mode a FUNCCODE_GET_COM_EVENT_COUNTER frame := by
        simp [request_switch]
      rw [e]
      exact request_READ_EXCEPTION_STATUS_ord K mode hrtu a _ frame s hs
    · subst h
      have e : request_switch K mode a FUNCCODE_GET_COM_EVENT_LOG frame = request_READ_EXCEPTION_STATUS K mode a FUNCCODE_GET_COM_EVENT_LOG frame := by
        simp [request_switch]
      rw [e]
      exact request_READ_EXCEPTION_STATUS_ord K mode hrtu a _ frame s hs
    · subst h
      have e : request_switch K mode a FUNCCODE_WRITE_MULTIPLE_COILS frame = request_WRITE_MULTIPLE_COILS K mode a FUNCCODE_WRITE_MULTIPLE_COILS frame := by
        simp [request_switch]
      rw [e]
      exact request_WRITE_MULTIPLE_COILS_ord K mode hrtu a _ frame s hs
    · subst h
      have e : request_switch K mode a FUNCCODE_WRITE_MULTIPLE_REGISTERS frame = request_WRITE_MULTIPLE_REGISTERS K mode a FUNCCODE_WRITE_MULTIPLE_REGISTERS frame := by
        simp [request_switch]
      rw [e]
      exact request_WRITE_MULTIPLE_REGISTERS_ord K mode hrtu a _ frame s hs
    · subst h
      have e : request_switch K mode a FUNCCODE_REPORT_SERVER_ID frame = request_READ_EXCEPTION_STATUS K mode a FUNCCODE_REPORT_SERVER_ID frame := by
        simp [request_switch]
      rw [e]
      exact request_READ_EXCEPTION_STATUS_ord K mode hrtu a _ frame s hs
    · subst h
      have e : request_switch K mode a FUNCCODE_READ_FILE_RECORD frame = request_READ_FILE_RECORD K mode a FUNCCODE_READ_FILE_RECORD frame := by
        simp [request_switch]
      rw [e]
      exact request_READ_FILE_RECORD_ord K mode hrtu a _ frame s hs
    · subst h
      have e : request_switch K mode a FUNCCODE_WRITE_FILE_RECORD frame = request_WRITE_FILE_RECORD K mode a FUNCCODE_WRITE_FILE_RECORD frame := by
        simp [request_switch]
      rw [e]
      exact request_WRITE_FILE_RECORD_ord K mode hrtu a _ frame s hs
    · subst h
      have e : request_switch K mode a FUNCCODE_MASK_WRITE_REGISTER frame = request_MASK_WRITE_REGISTER K mode a FUNCCODE_MASK_WRITE_REGISTER frame := by
        simp [request_switch]
      rw [e]
      exact request_MASK_WRITE_REGISTER_ord K mode hrtu a _ frame s hs
    · subst h
      have e : request_switch K mode a FUNCCODE_READWRITE_MULTIPLE_REGISTERS frame = request_READWRITE_MULTIPLE_REGISTERS K mode a FUNCCODE_READWRITE_MULTIPLE_REGISTERS frame := by
        simp [request_switch]
      rw [e]
      exact request_READWRITE_MULTIPLE_REGISTERS_ord K mode hrtu a _ frame s hs
    · subst h
      have e : request_switch K mode a FUNCCODE_READ_FIFO_QUEUE frame = request_READ_FIFO_QUEUE K mode a FUNCCODE_READ_FIFO_QUEUE frame := by
        simp [request_switch]
      rw [e]
      exact request_READ_FIFO_QUEUE_ord K mode hrtu a _ frame s hs
  · rw [request_switch_unknown K mode a f frame hk, wp_pure]
    exact hs

theorem response_switch_ord (K : FlagBits) (mode : Mode)
    (hrtu : mode = .ModbusRTUClient ∨ mode = .ModbusRTUServer ∨ mode = .ModbusRTUBoth)
    (a f : Nat) (frame : Frame) (s : Analyzer)
    (hs : Later frame.mStartingSampleInclusive s) :
    wp (response_switch K mode a f frame)
      (fun fr s1 => Later fr.mStartingSampleInclusive s1) Stuck s := by
  by_cases hk : f ∈ known_funccodes
  · have hk' := hk
    simp only [known_funccodes, List.mem_cons, List.mem_singleton, List.not_mem_nil,
      or_false] at hk'
    rcases hk' with h | h | h | h | h | h | h | h | h | h | h | h | h | h | h | h | h | h
    · subst h
      have e : response_switch K mode a FUNCCODE_READ_COILS frame = response_READ_COILS K mode a FUNCCODE_READ_COILS frame := by
        simp [response_switch]
      rw [e]
      exact response_READ_COILS_ord K mode hrtu a _ frame s hs
    · subst h
      have e : response_switch K mode a FUNCCODE_READ_DISCRETE_INPUTS frame = response_READ_COILS K mode a FUNCCODE_READ_DISCRETE_INPUTS frame := by
        simp [response_switch]
      rw [e]
      exact response_READ_COILS_ord K mode hrtu a _ frame s hs
    · subst h
      have e : response_switch K mode a FUNCCODE_READ_HOLDING_REGISTERS frame = response_READ_HOLDING_REGISTERS K mode a FUNCCODE_READ_HOLDING_REGISTERS frame := by
        simp [response_switch]
      rw [e]
      exact response_READ_HOLDING_REGISTERS_ord K mode hrtu a _ frame s hs
    · subst h
      have e : response_switch K mode a FUNCCODE_READ_INPUT_REGISTER frame = response_READ_HOLDING_REGISTERS K mode a FUNCCODE_READ_INPUT_REGISTER frame := by
        simp [response_switch]
      rw [e]
      exact response_READ_HOLDING_REGISTERS_ord K mode hrtu a _ frame s hs
    · subst h
      have e : response_switch K mode a FUNCCODE_WRITE_SINGLE_COIL frame = response_WRITE_SINGLE_COIL K mode a FUNCCODE_WRITE_SINGLE_COIL frame := by
        simp [response_switch]
      rw [e]
      exact response_WRITE_SINGLE_COIL_ord K mode hrtu a _ frame s hs
    · subst h
      have e : response_switch K mode a FUNCCODE_WRITE_SINGLE_REGISTER frame = response_WRITE_SINGLE_COIL K mode a FUNCCODE_WRITE_SINGLE_REGISTER frame := by
        simp [response_switch]
      rw [e]
      exact response_WRITE_SINGLE_COIL_ord K mode hrtu a _ frame s hs
    · subst h
      have e : response_switch K mode a FUNCCODE_READ_EXCEPTION_STATUS frame = response_READ_EXCEPTION_STATUS K mode a FUNCCODE_READ_EXCEPTION_STATUS frame := by
        simp [response_switch]
      rw [e]
      exact response_READ_EXCEPTION_STATUS_ord K mode hrtu a _ frame s hs
    · subst h
      have e : response_switch K mode a FUNCCODE_DIAGNOSTIC frame = response_WRITE_SINGLE_COIL K mode a FUNCCODE_DIAGNOSTIC frame := by
        simp [response_switch]
      rw [e]
      exact response_WRITE_SINGLE_COIL_ord K mode hrtu a _ frame s hs
    · subst h
      have e : response_switch K mode a FUNCCODE_GET_COM_EVENT_COUNTER frame = response_WRITE_SINGLE_COIL K mode a FUNCCODE_GET_COM_EVENT_COUNTER frame := by
        simp [response_switch]
      rw [e]
      exact response_WRITE_SINGLE_COIL_ord K mode hrtu a _ frame s hs
    · subst h
      have e : response_switch K mode a FUNCCODE_GET_COM_EVENT_LOG frame = response_GET_COM_EVENT_LOG K mode a FUNCCODE_GET_COM_EVENT_LOG frame := by
        simp [response_switch]
      rw [e]
      exact response_GET_COM_EVENT_LOG_ord K mode hrtu a _ frame s hs
    · subst h
      have e : response_switch K mode a FUNCCODE_WRITE_MULTIPLE_COILS frame = response_WRITE_SINGLE_COIL K mode a FUNCCODE_WRITE_MULTIPLE_COILS frame := by
        simp [response_switch]
      rw [e]
      exact response_WRITE_SINGLE_COIL_ord K mode hrtu a _ frame s hs
    · subst h
      have e : response_switch K mode a FUNCCODE_WRITE_MULTIPLE_REGISTERS frame = response_WRITE_SINGLE_COIL K mode a FUNCCODE_WRITE_MULTIPLE_REGISTERS frame := by
        simp [response_switch]
      rw [e]
      exact response_WRITE_SINGLE_COIL_ord K mode hrtu a _ frame s hs
    · subst h
      have e : response_switch K mode a FUNCCODE_REPORT_SERVER_ID frame = response_READ_COILS K mode a FUNCCODE_REPORT_SERVER_ID frame := by
        simp [response_switch]
      rw [e]
      exact response_READ_COILS_ord K mode hrtu a _ frame s hs
    · subst h
      have e : response_switch K mode a FUNCCODE_READ_FILE_RECORD frame = response_READ_FILE_RECORD K mode a FUNCCODE_READ_FILE_RECORD frame := by
        simp [response_switch]
      rw [e]
      exact response_READ_FILE_RECORD_ord K mode hrtu a _ frame s hs
    · subst h
      have e : response_switch K mode a FUNCCODE_WRITE_FILE_RECORD frame = response_WRITE_FILE_RECORD K mode a FUNCCODE_WRITE_FILE_RECORD frame := by
        simp [response_switch]
      rw [e]
      exact response_WRITE_FILE_RECORD_ord K mode hrtu a _ frame s hs
    · subst h
      have e : response_switch K mode a FUNCCODE_MASK_WRITE_REGISTER frame = response_MASK_WRITE_REGISTER K mode a FUNCCODE_MASK_WRITE_REGISTER frame := by
        simp [response_switch]
      rw [e]
      exact response_MASK_WRITE_REGISTER_ord K mode hrtu a _ frame s hs
    · subst h
      have e : response_switch K mode a FUNCCODE_READWRITE_MULTIPLE_REGISTERS frame = response_READ_HOLDING_REGISTERS K mode a FUNCCODE_READWRITE_MULTIPLE_REGISTERS frame := by
        simp [response_switch]
      rw [e]
      exact response_READ_HOLDING_REGISTERS_ord K mode hrtu a _ frame s hs
    · subst h
      have e : response_switch K mode a FUNCCODE_READ_FIFO_QUEUE frame = response_READ_FIFO_QUEUE K mode a FUNCCODE_READ_FIFO_QUEUE frame := by
        simp [response_switch]
      rw [e]
      exact response_READ_FIFO_QUEUE_ord K mode hrtu a _ frame s hs
  · rw [response_switch_unknown K mode a f frame hk, wp_pure]
    exact hs

theorem parse_ord_ModbusRTUClient (K : FlagBits) (pr : Bool) (s : Analyzer)
    (hw : chars_ordered 0 s.mModbus) (hr : frames_ordered s.mResults) :
    wp (WorkerThread_parse K .ModbusRTUClient pr)
      (fun fr s1 => Later fr.mStartingSampleInclusive s1) Stuck s := by
  have hrtu : Mode.ModbusRTUClient = .ModbusRTUClient ∨ Mode.ModbusRTUClient = .ModbusRTUServer
      ∨ Mode.ModbusRTUClient = .ModbusRTUBoth := Or.inl rfl
  simp [WorkerThread_parse, request_role, response_role, wp_bind, wp_pure,
    wp_get_starting_frame, wp_chars_left]
  refine ord_first_read hrtu hw hr (fun a s1 g1 => ?_)
  refine ord_read hrtu g1 (fun f s2 h2 _ => ?_)
  exact request_switch_ord K _ hrtu a f _ s2 h2

theorem parse_ord_ModbusRTUBoth_false (K : FlagBits) (s : Analyzer)
    (hw : chars_ordered 0 s.mModbus) (hr : frames_ordered s.mResults) :
    wp (WorkerThread_parse K .ModbusRTUBoth false)
      (fun fr s1 => Later fr.mStartingSampleInclusive s1) Stuck s := by
  have hrtu : Mode.ModbusRTUBoth = .ModbusRTUClient ∨ Mode.ModbusRTUBoth = .ModbusRTUServer
      ∨ Mode.ModbusRTUBoth = .ModbusRTUBoth := Or.inr (Or.inr rfl)
  simp [WorkerThread_parse, request_role, response_role, wp_bind, wp_pure,
    wp_get_starting_frame, wp_chars_left]
  refine ord_first_read hrtu hw hr (fun a s1 g1 => ?_)
  refine ord_read hrtu g1 (fun f s2 h2 _ => ?_)
  exact request_switch_ord K _ hrtu a f _ s2 h2

theorem parse_ord_ModbusRTUServer (K : FlagBits) (pr : Bool) (s : Analyzer)
    (hw : chars_ordered 0 s.mModbus) (hr : frames_ordered s.mResults) :
    wp (WorkerThread_parse K .ModbusRTUServer pr)
      (fun fr s1 => Later fr.mStartingSampleInclusive s1) Stuck s := by
  have hrtu : Mode.ModbusRTUServer = .ModbusRTUClient ∨ Mode.ModbusRTUServer = .ModbusRTUServer
      ∨ Mode.ModbusRTUServer = .ModbusRTUBoth := Or.inr (Or.inl rfl)
  simp [WorkerThread_parse, request_role, response_role, wp_bind, wp_pure,
    wp_get_starting_frame, wp_chars_left]
  refine ord_first_read hrtu hw hr (fun a s1 g1 => ?_)
  refine ord_read hrtu g1 (fun f s2 h2 _ => ?_)
  split
  · simp only [wp_bind, wp_pure]
    exact response_switch_ord K _ hrtu a f _ s2 h2
  · simp only [wp_bind, wp_pure]
    exact response_exception_ord K _ hrtu a f _ s2 h2

theorem parse_ord_ModbusRTUBoth_true (K : FlagBits) (s : Analyzer)
    (hw : chars_ordered 0 s.mModbus) (hr : frames_ordered s.mResults) :
    wp (WorkerThread_parse K .ModbusRTUBoth true)
      (fun fr s1 => Later fr.mStartingSampleInclusive s1) Stuck s := by
  have hrtu : Mode.ModbusRTUBoth = .ModbusRTUClient ∨ Mode.ModbusRTUBoth = .ModbusRTUServer
      ∨ Mode.ModbusRTUBoth = .ModbusRTUBoth := Or.inr (Or.inr rfl)
  simp [WorkerThread_parse, request_role, response_role, wp_bind, wp_pure,
    wp_get_starting_frame, wp_chars_left]
  refine ord_first_read hrtu hw hr (fun a s1 g1 => ?_)
  refine ord_read hrtu g1 (fun f s2 h2 _ => ?_)
  split
  · simp only [wp_bind, wp_pure]
    exact response_switch_ord K _ hrtu a f _ s2 h2
  · simp only [wp_bind, wp_pure]
    exact response_exception_ord K _ hrtu a f _ s2 h2

theorem WorkerThread_parse_ord (K : FlagBits) (mode : Mode) (pr : Bool) (s : Analyzer)
    (hrtu : mode = .ModbusRTUClient ∨ mode = .ModbusRTUServer ∨ mode = .ModbusRTUBoth)
    (hw : chars_ordered 0 s.mModbus) (hr : frames_ordered s.mResults) :
    wp (WorkerThread_parse K mode pr)
      (fun fr s1 => Later fr.mStartingSampleInclusive s1) Stuck s := by
  rcases hrtu with rfl | rfl | rfl
  · exact parse_ord_ModbusRTUClient K pr s hw hr
  · exact parse_ord_ModbusRTUServer K pr s hw hr
  · cases pr
    · exact parse_ord_ModbusRTUBoth_false K s hw hr
    · exact parse_ord_ModbusRTUBoth_true K s hw hr

theorem WorkerThread_message_ord (K : FlagBits) (mode : Mode) (pr : Bool) (s : Analyzer)
    (hrtu : mode = .ModbusRTUClient ∨ mode = .ModbusRTUServer ∨ mode = .ModbusRTUBoth)
    (hw : chars_ordered 0 s.mModbus) (hr : frames_ordered s.mResults) :
    wp (WorkerThread_message K mode pr)
      (fun _ s1 => chars_ordered 0 s1.mModbus ∧ frames_ordered s1.mResults) Stuck s := by
  simp only [WorkerThread_message, wp_bind, wp_pure, wp_get_ending_frame]
  refine wp_mono _ _ _ _ _ _ (WorkerThread_parse_ord K mode pr s hrtu hw hr) ?_ (fun _ h => h)
  intro fr s1 h1
  refine ord_AddFrame _ h1 h1.1 (fun s2 h2 _ _ => ?_)
  exact ⟨chars_ordered_mono _ _ _ (Nat.zero_le _) h2.2.2.1, h2.2.2.2⟩

theorem WorkerThread_loop_ord (K : FlagBits) (mode : Mode)
    (hrtu : mode = .ModbusRTUClient ∨ mode = .ModbusRTUServer ∨ mode = .ModbusRTUBoth) :
    ∀ (fuel : Nat) (pr : Bool) (s : Analyzer),
      chars_ordered 0 s.mModbus → frames_ordered s.mResults →
      frames_ordered (WorkerThread_loop K mode fuel pr s).mResults := by
  intro fuel
  induction fuel with
  | zero => intro pr s _ hr; exact hr
  | succ fuel ih =>
    intro pr s hw hr
    have h := WorkerThread_message_ord K mode pr s hrtu hw hr
    unfold wp at h
    rw [WorkerThread_loop]
    cases hm : WorkerThread_message K mode pr s with
    | ret pr1 s1 =>
      rw [hm] at h
      exact ih pr1 s1 h.1 h.2
    | blocked s1 =>
      rw [hm] at h
      exact h

theorem ascii_empty_coils_response (K : FlagBits)
    (c0 a1 a2 f1 f2 b1 b2 x t1 t2 : SerialChar) (tw : List SerialChar) (sf ef : Nat)
    (res : List Frame)
    (h0 : c0.data = 0x3A)
    (ha : ¬ (a1.data = 0x3A ∨ a1.data = 0x0A ∨ a1.data = 0x0D))
    (hf : ¬ (f1.data = 0x3A ∨ f1.data = 0x0A ∨ f1.data = 0x0D))
    (hb : ¬ (b1.data = 0x3A ∨ b1.data = 0x0A ∨ b1.data = 0x0D))
    (hx : x.data = 0x3A ∨ x.data = 0x0A ∨ x.data = 0x0D)
    (ht1 : t1.data = 0x3A ∨ t1.data = 0x0A ∨ t1.data = 0x0D)
    (ht2 : t2.data = 0x3A ∨ t2.data = 0x0A ∨ t2.data = 0x0D)
    (hfc : ascii_pair f1.data f2.data = 0x01) (hbc : ascii_pair b1.data b2.data = 0) :
    ∃ hdr last, WorkerThread_message K .ModbusASCIIServer false
        ⟨c0 :: a1 :: a2 :: f1 :: f2 :: b1 :: b2 :: x :: t1 :: t2 :: tw, sf, ef, res⟩
      = .ret true ⟨tw, t2.start, b2.stop, res ++ [hdr, last]⟩
      ∧ hdr.mStartingSampleInclusive = a1.start ∧ hdr.mEndingSampleInclusive = b2.stop
      ∧ hdr.mFlags = K.FLAG_RESPONSE_FRAME
      ∧ last.mStartingSampleInclusive = x.start ∧ last.mEndingSampleInclusive = b2.stop
      ∧ last.mData1 = U64 ((0 <<< 8) + x.data) := by
  have hasc : Mode.ModbusASCIIServer = .ModbusASCIIClient ∨ Mode.ModbusASCIIServer
      = .ModbusASCIIServer ∨ Mode.ModbusASCIIServer = .ModbusASCIIBoth := Or.inr (Or.inl rfl)
  have e0 := GetNextByteModbus_ascii_delim .ModbusASCIIServer hasc c0
  have ex := GetNextByteModbus_ascii_delim .ModbusASCIIServer hasc x
  have et1 := GetNextByteModbus_ascii_delim .ModbusASCIIServer hasc t1
  have et2 := GetNextByteModbus_ascii_delim .ModbusASCIIServer hasc t2
  have ep := GetNextByteModbus_ascii_pair .ModbusASCIIServer hasc
  have hbit : (1 &&& 128 : Nat) = 0 := by decide
  refine ⟨{ mStartingSampleInclusive := a1.start, mEndingSampleInclusive := b2.stop,
            mData1 := pack8 (ascii_pair a1.data a2.data) 0x01 0 0 0 0 0 0, mData2 := 0,
            mFlags := K.FLAG_RESPONSE_FRAME },
          { mStartingSampleInclusive := x.start, mEndingSampleInclusive := b2.stop,
            mData1 := U64 ((0 <<< 8) + x.data), mData2 := 0,
            mFlags := flagged K K.FLAG_END_FRAME
              (decide (LRC [ascii_pair a1.data a2.data, 0x01, 0] ≠ x.data)) }, ?h1, ?h2⟩
  case h1 =>
    simp [flagged, WorkerThread_message, WorkerThread_parse, request_role, response_role,
        response_switch, response_READ_COILS, emit_header, end_frame_LRC, data_bytes,
        find_start_of_frame, chars_left,
        get_starting_frame, get_ending_frame, AddFrame, LRC, flag_if,
      e0, ex, et1, et2, ep, h0, ha, hf, hb, hx, ht1, ht2, toChar, hfc, hbc, hbit]
  case h2 => simp

/-- C18, counterexample: in ASCII-Server mode, on the characters `:010100` CR LF
CR, sampled in strictly increasing order (the `i`-th from `100 * i + 10` to
`100 * i + 90`), the Read Coils response with byte count 0 is followed by a CR
where the LRC is expected. The byte reader returns a CR at once: it sets the
starting sample to the start of the CR (710) and leaves the ending sample at the
end of the last paired character (690), and the two trailer characters are
returned the same way. The END frame handed to the sink therefore has
`mStartingSampleInclusive = 710` and `mEndingSampleInclusive = 690`. -/
theorem ascii_end_frame_start_after_end :
    chars_ordered 0
        [⟨0x3A, 10, 90⟩, ⟨0x30, 110, 190⟩, ⟨0x31, 210, 290⟩, ⟨0x30, 310, 390⟩,
          ⟨0x31, 410, 490⟩, ⟨0x30, 510, 590⟩, ⟨0x30, 610, 690⟩, ⟨0x0D, 710, 790⟩,
          ⟨0x0A, 810, 890⟩, ⟨0x0D, 910, 990⟩]
    ∧ ∃ s1 hdr last,
      WorkerThread_message sampleFlags .ModbusASCIIServer false
          ⟨[⟨0x3A, 10, 90⟩, ⟨0x30, 110, 190⟩, ⟨0x31, 210, 290⟩, ⟨0x30, 310, 390⟩,
            ⟨0x31, 410, 490⟩, ⟨0x30, 510, 590⟩, ⟨0x30, 610, 690⟩, ⟨0x0D, 710, 790⟩,
            ⟨0x0A, 810, 890⟩, ⟨0x0D, 910, 990⟩], 0, 0, []⟩ = .ret true s1
        ∧ s1.mResults = [hdr, last]
        ∧ hdr.mFlags = sampleFlags.FLAG_RESPONSE_FRAME
        ∧ last.mStartingSampleInclusive = 710
        ∧ last.mEndingSampleInclusive = 690
        ∧ ¬ last.mStartingSampleInclusive ≤ last.mEndingSampleInclusive := by
  obtain ⟨hdr, last, h, _, _, hfl, hs, he, _⟩ := ascii_empty_coils_response sampleFlags
    ⟨0x3A, 10, 90⟩ ⟨0x30, 110, 190⟩ ⟨0x31, 210, 290⟩ ⟨0x30, 310, 390⟩
    ⟨0x31, 410, 490⟩ ⟨0x30, 510, 590⟩ ⟨0x30, 610, 690⟩ ⟨0x0D, 710, 790⟩
    ⟨0x0A, 810, 890⟩ ⟨0x0D, 910, 990⟩ [] 0 0 [] rfl (by decide) (by decide) (by decide)
    (by decide) (by decide) (by decide) (by decide) (by decide)
  refine ⟨by simp [chars_ordered], _, hdr, last, h, rfl, hfl, hs, he, ?_⟩
  rw [hs, he]
  decide

/-- C18 (amended): in the three RTU modes, on every channel whose characters
come in sample order (every character ends no earlier than it starts, and starts
no earlier than the previous one ends: `chars_ordered 0`), from every value of
`processingResponse` and for every number of passes of the dispatcher loop,
every frame handed to the sink has `mStartingSampleInclusive ≤
mEndingSampleInclusive`, the frames of a message that is cut short by the end of
the channel included (given that the frames already in the sink are ordered). -/
theorem rtu_frames_start_before_end (K : FlagBits) (mode : Mode) (fuel : Nat) (pr : Bool)
    (s : Analyzer) (hrtu : is_rtu mode = true)
    (hw : chars_ordered 0 s.mModbus) (hr : frames_ordered s.mResults) :
    ∀ f ∈ (WorkerThread_loop K mode fuel pr s).mResults,
      f.mStartingSampleInclusive ≤ f.mEndingSampleInclusive := by
  have h : mode = .ModbusRTUClient ∨ mode = .ModbusRTUServer ∨ mode = .ModbusRTUBoth := by
    cases mode <;> simp [is_rtu] at hrtu ⊢
  exact WorkerThread_loop_ord K mode h fuel pr s hw hr

theorem rtu_frames_start_before_end_witness :
    is_rtu .ModbusRTUServer = true
    ∧ chars_ordered 0 (sampleWire [0x01, 0x01, 0x02, 0xCD, 0x6B, 0x00, 0x00])
    ∧ frames_ordered ([] : List Frame)
    ∧ ∀ f ∈ (WorkerThread_loop sampleFlags .ModbusRTUServer 8 false
          ⟨sampleWire [0x01, 0x01, 0x02, 0xCD, 0x6B, 0x00, 0x00], 0, 0, []⟩).mResults,
        f.mStartingSampleInclusive ≤ f.mEndingSampleInclusive :=
  ⟨rfl, by simp [chars_ordered, sampleWire, List.enum, List.enumFrom],
    (fun _ h => by cases h),
    rtu_frames_start_before_end sampleFlags .ModbusRTUServer 8 false
      ⟨sampleWire [0x01, 0x01, 0x02, 0xCD, 0x6B, 0x00, 0x00], 0, 0, []⟩ rfl
      (by simp [chars_ordered, sampleWire, List.enum, List.enumFrom])
      (fun _ h => by cases h)⟩

/-! ### RTU and ASCII branches compared -/

theorem ascii_empty_fifo_response (K : FlagBits)
    (c0 a1 a2 f1 f2 p1 p2 q1 q2 r1 r2 u1 u2 l1 l2 t1 t2 : SerialChar)
    (tw : List SerialChar) (sf ef : Nat) (res : List Frame)
    (h0 : c0.data = 0x3A)
    (ha : ¬ (a1.data = 0x3A ∨ a1.data = 0x0A ∨ a1.data = 0x0D))
    (hf : ¬ (f1.data = 0x3A ∨ f1.data = 0x0A ∨ f1.data = 0x0D))
    (hp : ¬ (p1.data = 0x3A ∨ p1.data = 0x0A ∨ p1.data = 0x0D))
    (hq : ¬ (q1.data = 0x3A ∨ q1.data = 0x0A ∨ q1.data = 0x0D))
    (hr : ¬ (r1.data = 0x3A ∨ r1.data = 0x0A ∨ r1.data = 0x0D))
    (hu : ¬ (u1.data = 0x3A ∨ u1.data = 0x0A ∨ u1.data = 0x0D))
    (hl : ¬ (l1.data = 0x3A ∨ l1.data = 0x0A ∨ l1.data = 0x0D))
    (ht1 : t1.data = 0x3A ∨ t1.data = 0x0A ∨ t1.data = 0x0D)
    (ht2 : t2.data = 0x3A ∨ t2.data = 0x0A ∨ t2.data = 0x0D)
    (hfc : ascii_pair f1.data f2.data = 0x18)
    (hcnt : U64 ((ascii_pair r1.data r2.data <<< 8) + ascii_pair u1.data u2.data) = 0) :
    ∃ hdr last, WorkerThread_message K .ModbusASCIIServer false
        ⟨c0 :: a1 :: a2 :: f1 :: f2 :: p1 :: p2 :: q1 :: q2 :: r1 :: r2 :: u1 :: u2 :: l1 ::
          l2 :: t1 :: t2 :: tw, sf, ef, res⟩
      = .ret true ⟨tw, t2.start, l2.stop, res ++ [hdr, last]⟩
      ∧ hdr.mFlags = K.FLAG_RESPONSE_FRAME
      ∧ hdr.mData1 = pack8 (ascii_pair a1.data a2.data) 0x18 0 0
          (ascii_pair r1.data r2.data) (ascii_pair u1.data u2.data)
          (ascii_pair p1.data p2.data) (ascii_pair q1.data q2.data) := by
  have hasc : Mode.ModbusASCIIServer = .ModbusASCIIClient ∨ Mode.ModbusASCIIServer
      = .ModbusASCIIServer ∨ Mode.ModbusASCIIServer = .ModbusASCIIBoth := Or.inr (Or.inl rfl)
  have e0 := GetNextByteModbus_ascii_delim .ModbusASCIIServer hasc c0
  have et1 := GetNextByteModbus_ascii_delim .ModbusASCIIServer hasc t1
  have et2 := GetNextByteModbus_ascii_delim .ModbusASCIIServer hasc t2
  have ep := GetNextByteModbus_ascii_pair .ModbusASCIIServer hasc
  have hbit : (24 &&& 128 : Nat) = 0 := by decide
  refine ⟨{ mStartingSampleInclusive := a1.start, mEndingSampleInclusive := u2.stop,
            mData1 := pack8 (ascii_pair a1.data a2.data) 0x18 0 0
              (ascii_pair r1.data r2.data) (ascii_pair u1.data u2.data)
              (ascii_pair p1.data p2.data) (ascii_pair q1.data q2.data), mData2 := 0,
            mFlags := K.FLAG_RESPONSE_FRAME },
          { mStartingSampleInclusive := l1.start, mEndingSampleInclusive := l2.stop,
            mData1 := U64 ((0 <<< 8) + ascii_pair l1.data l2.data), mData2 := 0,
            mFlags := flagged K K.FLAG_END_FRAME
              (decide (LRC [ascii_pair a1.data a2.data, 0x18, ascii_pair p1.data p2.data,
                ascii_pair q1.data q2.data, ascii_pair r1.data r2.data,
                ascii_pair u1.data u2.data] ≠ ascii_pair l1.data l2.data)) }, ?h1, rfl, rfl⟩
  case h1 =>
    simp [flagged, WorkerThread_message, WorkerThread_parse, request_role, response_role,
        response_switch, response_READ_FIFO_QUEUE, emit_header, end_frame_LRC, data_words,
        find_start_of_frame, chars_left,
        get_starting_frame, get_ending_frame, AddFrame, LRC, flag_if,
        e0, et1, et2, ep, h0, ha, hf, hp, hq, hr, hu, hl, ht1, ht2, toChar, hfc, hcnt, hbit]

/-- C37: the Read FIFO Queue response with the logical bytes
`01 18 00 02 00 00` (byte count bytes `00 02`, FIFO count `00 00`, no data word)
is decoded in RTU-Server mode (followed by two checksum bytes) and in
ASCII-Server mode (characters `:011800020000E5` CR LF). Both hand over a
RESPONSE header and an END frame, but the header `mData1` is
`0x0118000000000200` in RTU mode (second byte-count byte first) and
`0x0118000000000002` in ASCII mode. -/
theorem fifo_header_differs_between_modes :
    (∃ s1 hdr last,
      WorkerThread_message sampleFlags .ModbusRTUServer false
          ⟨[⟨0x01, 10, 90⟩, ⟨0x18, 110, 190⟩, ⟨0x00, 210, 290⟩, ⟨0x02, 310, 390⟩,
            ⟨0x00, 410, 490⟩, ⟨0x00, 510, 590⟩, ⟨0xC0, 610, 690⟩, ⟨0xC1, 710, 790⟩],
            0, 0, []⟩ = .ret true s1
        ∧ s1.mResults = [hdr, last]
        ∧ hdr.mFlags = sampleFlags.FLAG_RESPONSE_FRAME
        ∧ hdr.mData1 = 0x0118000000000200)
    ∧ (∃ s1 hdr last,
      WorkerThread_message sampleFlags .ModbusASCIIServer false
          ⟨[⟨0x3A, 10, 90⟩, ⟨0x30, 110, 190⟩, ⟨0x31, 210, 290⟩, ⟨0x31, 310, 390⟩,
            ⟨0x38, 410, 490⟩, ⟨0x30, 510, 590⟩, ⟨0x30, 610, 690⟩, ⟨0x30, 710, 790⟩,
            ⟨0x32, 810, 890⟩, ⟨0x30, 910, 990⟩, ⟨0x30, 1010, 1090⟩, ⟨0x30, 1110, 1190⟩,
            ⟨0x30, 1210, 1290⟩, ⟨0x45, 1310, 1390⟩, ⟨0x35, 1410, 1490⟩, ⟨0x0D, 1510, 1590⟩,
            ⟨0x0A, 1610, 1690⟩], 0, 0, []⟩ = .ret true s1
        ∧ s1.mResults = [hdr, last]
        ∧ hdr.mFlags = sampleFlags.FLAG_RESPONSE_FRAME
        ∧ hdr.mData1 = 0x0118000000000002) := by
  have hR := fifo_response_rtu sampleFlags .ModbusRTUServer false (Or.inl rfl)
    ⟨0x01, 10, 90⟩ ⟨0x18, 110, 190⟩ ⟨0x00, 210, 290⟩ ⟨0x02, 310, 390⟩
    ⟨0x00, 410, 490⟩ ⟨0x00, 510, 590⟩ ⟨0xC0, 610, 690⟩ ⟨0xC1, 710, 790⟩
    [] [] 0 0 [] rfl 0 (by decide) rfl
  obtain ⟨hdr, last, hA, hfl, hd⟩ := ascii_empty_fifo_response sampleFlags
    ⟨0x3A, 10, 90⟩ ⟨0x30, 110, 190⟩ ⟨0x31, 210, 290⟩ ⟨0x31, 310, 390⟩
    ⟨0x38, 410, 490⟩ ⟨0x30, 510, 590⟩ ⟨0x30, 610, 690⟩ ⟨0x30, 710, 790⟩
    ⟨0x32, 810, 890⟩ ⟨0x30, 910, 990⟩ ⟨0x30, 1010, 1090⟩ ⟨0x30, 1110, 1190⟩
    ⟨0x30, 1210, 1290⟩ ⟨0x45, 1310, 1390⟩ ⟨0x35, 1410, 1490⟩ ⟨0x0D, 1510, 1590⟩
    ⟨0x0A, 1610, 1690⟩ [] 0 0 [] rfl (by decide) (by decide) (by decide) (by decide)
    (by decide) (by decide) (by decide) (by decide) (by decide) (by decide) (by decide)
  refine ⟨⟨_, _, _, hR, rfl, rfl, ?_⟩, ⟨_, hdr, last, hA, rfl, hfl, ?_⟩⟩
  · show pack8 0x01 0x18 0 0 0x00 0x00 0x02 0x00 = _
    decide
  · rw [hd]
    decide

/-! ### Alignment, the mode assertion and the uninitialised locals -/

/-- The closed form `int_passes` is the number of passes of the loop
`for( int i = 0; i < bound; i++ )`: the test holds at every counter value before
pass number `int_passes bound` and fails there. -/
theorem int_passes_first_failure (bound : Nat) (hb : bound < 2 ^ 64) :
    (∀ n, n < int_passes bound → int_to_U64 (int_counter n) < bound)
    ∧ ¬ int_to_U64 (int_counter (int_passes bound)) < bound := by
  unfold int_passes int_to_U64 int_counter
  constructor
  · intro n hn
    split_ifs at hn <;> omega
  · split_ifs <;> omega

theorem not_modbus_iff (mode : Mode) :
    (mode ≠ .ModbusRTUClient ∧ mode ≠ .ModbusRTUServer ∧ mode ≠ .ModbusRTUBoth
      ∧ mode ≠ .ModbusASCIIClient ∧ mode ≠ .ModbusASCIIServer ∧ mode ≠ .ModbusASCIIBoth)
      ↔ ¬ is_modbus mode := by
  unfold is_modbus
  cases mode <;> simp

theorem WorkerThread_samples_waiting (K : FlagBits) (mSettings : ModbusAnalyzerSettings)
    (GetSampleRate : Nat) (clock : Nat → Nat → List Nat → Nat) (locals : Nat → Nat × Nat)
    (mModbus : ChannelData)
    (h : WorkerThread_align (WorkerThread_members clock mSettings GetSampleRate) mModbus = none) :
    WorkerThread_samples K mSettings GetSampleRate clock locals mModbus = some ([], []) := by
  unfold WorkerThread_samples
  simp only [h]

theorem WorkerThread_samples_asserts (K : FlagBits) (mSettings : ModbusAnalyzerSettings)
    (GetSampleRate : Nat) (clock : Nat → Nat → List Nat → Nat) (locals : Nat → Nat × Nat)
    (mModbus c : ChannelData)
    (h : WorkerThread_align (WorkerThread_members clock mSettings GetSampleRate) mModbus
      = some c)
    (hm : ¬ is_modbus mSettings.mModbusMode) :
    WorkerThread_samples K mSettings GetSampleRate clock locals mModbus = none := by
  unfold WorkerThread_samples
  simp only [h]
  rw [if_pos ((not_modbus_iff _).2 hm)]

theorem WorkerThread_samples_decodes (K : FlagBits) (mSettings : ModbusAnalyzerSettings)
    (GetSampleRate : Nat) (clock : Nat → Nat → List Nat → Nat) (locals : Nat → Nat × Nat)
    (mModbus c : ChannelData)
    (h : WorkerThread_align (WorkerThread_members clock mSettings GetSampleRate) mModbus
      = some c)
    (hm : is_modbus mSettings.mModbusMode) :
    WorkerThread_samples K mSettings GetSampleRate clock locals mModbus
      = some (WorkerThread_decode K mSettings
          (WorkerThread_members clock mSettings GetSampleRate)
          (WorkerThread_num_bits mSettings) (WorkerThread_bit_mask mSettings) locals c) := by
  unfold WorkerThread_samples
  simp only [h]
  rw [if_neg (fun hn => (not_modbus_iff _).1 hn hm)]

/-- C33, counterexample: with the mode `Normal` (not a Modbus mode), not
inverted, on a capture that is low at every sample, `WorkerThread` raises no
assertion: it is left waiting in the `AdvanceToNextEdge` that comes before the
mode test, having handed over nothing. -/
theorem non_modbus_mode_waits_for_edge :
    ¬ is_modbus Mode.Normal
    ∧ WorkerThread_samples sampleFlags { sampleSettings with mModbusMode := .Normal } 9600
        (fun _ _ _ => 1) (fun _ => (0, 0)) ⟨[false, false, false, false], 0⟩
        = some ([], [])
    ∧ WorkerThread_samples sampleFlags { sampleSettings with mModbusMode := .Normal } 9600
        (fun _ _ _ => 1) (fun _ => (0, 0)) ⟨[false, false, false, false], 0⟩ ≠ none := by
  have h : WorkerThread_samples sampleFlags { sampleSettings with mModbusMode := .Normal } 9600
        (fun _ _ _ => 1) (fun _ => (0, 0)) ⟨[false, false, false, false], 0⟩
        = some ([], []) :=
    WorkerThread_samples_waiting _ _ _ _ _ _ (by decide)
  refine ⟨by simp [is_modbus], h, ?_⟩
  rw [h]
  exact fun e => nomatch e

/-- C33 (amended): when the configured mode is none of the six Modbus modes,
`WorkerThread` hands no frame to the result sink, and it raises the fatal
assertion "The Modbus analyzer can't be used in a non-modbus mode." (`none`) as
soon as the statement before the mode test, the alignment
`if( GetBitState() == mBitLow ) AdvanceToNextEdge()`, has returned: at once when
the line is not at `mBitLow` at the start, at the first edge otherwise. On a
capture that starts at `mBitLow` and has no edge it is left waiting in that call
and never reaches the assertion. -/
theorem non_modbus_mode_assertion (K : FlagBits) (mSettings : ModbusAnalyzerSettings)
    (GetSampleRate : Nat) (clock : Nat → Nat → List Nat → Nat) (locals : Nat → Nat × Nat)
    (mModbus : ChannelData) (hmode : ¬ is_modbus mSettings.mModbusMode) :
    (WorkerThread_samples K mSettings GetSampleRate clock locals mModbus = none
      ↔ (mModbus.GetBitState ≠ (WorkerThread_members clock mSettings GetSampleRate).mBitLow
          ∨ mModbus.AdvanceToNextEdge ≠ none))
    ∧ (WorkerThread_samples K mSettings GetSampleRate clock locals mModbus ≠ none →
        WorkerThread_samples K mSettings GetSampleRate clock locals mModbus = some ([], [])) := by
  have halign : (WorkerThread_align (WorkerThread_members clock mSettings GetSampleRate) mModbus
        = none)
      ↔ ¬ (mModbus.GetBitState ≠ (WorkerThread_members clock mSettings GetSampleRate).mBitLow
          ∨ mModbus.AdvanceToNextEdge ≠ none) := by
    unfold WorkerThread_align
    by_cases hl : mModbus.GetBitState
        = (WorkerThread_members clock mSettings GetSampleRate).mBitLow
    · rw [if_pos hl]
      simp [hl]
    · rw [if_neg hl]
      simp [hl]
  cases ha : WorkerThread_align (WorkerThread_members clock mSettings GetSampleRate) mModbus with
  | none =>
    have hw := WorkerThread_samples_waiting K mSettings GetSampleRate clock locals mModbus ha
    have hn := halign.1 ha
    refine ⟨⟨fun h => ?_, fun h => absurd h hn⟩, fun _ => hw⟩
    rw [hw] at h
    exact nomatch h
  | some c =>
    have hw := WorkerThread_samples_asserts K mSettings GetSampleRate clock locals mModbus c ha
      hmode
    have hn : mModbus.GetBitState ≠ (WorkerThread_members clock mSettings GetSampleRate).mBitLow
          ∨ mModbus.AdvanceToNextEdge ≠ none := by
      by_contra hcon
      rw [halign.2 hcon] at ha
      exact nomatch ha
    exact ⟨⟨fun _ => hn, fun _ => hw⟩, fun h => absurd hw h⟩

theorem non_modbus_mode_assertion_witness :
    ¬ is_modbus ({ sampleSettings with mModbusMode := .Normal } :
        ModbusAnalyzerSettings).mModbusMode
    ∧ (WorkerThread_samples sampleFlags { sampleSettings with mModbusMode := .Normal } 9600
          (fun _ _ _ => 1) (fun _ => (0, 0)) sampleCapture = none
        ↔ (sampleCapture.GetBitState
              ≠ (WorkerThread_members (fun _ _ _ => 1)
                  { sampleSettings with mModbusMode := .Normal } 9600).mBitLow
            ∨ sampleCapture.AdvanceToNextEdge ≠ none))
    ∧ (WorkerThread_samples sampleFlags { sampleSettings with mModbusMode := .Normal } 9600
          (fun _ _ _ => 1) (fun _ => (0, 0)) sampleCapture ≠ none →
        WorkerThread_samples sampleFlags { sampleSettings with mModbusMode := .Normal } 9600
          (fun _ _ _ => 1) (fun _ => (0, 0)) sampleCapture = some ([], [])) :=
  ⟨by simp [is_modbus],
    non_modbus_mode_assertion sampleFlags { sampleSettings with mModbusMode := .Normal } 9600
      (fun _ _ _ => 1) (fun _ => (0, 0)) sampleCapture (by simp [is_modbus])⟩

theorem WorkerThread_message_empty (K : FlagBits) (mode : Mode) (pr : Bool)
    (sf ef : Nat) (res : List Frame) :
    WorkerThread_message K mode pr ⟨[], sf, ef, res⟩ = .blocked ⟨[], sf, ef, res⟩ := by
  have hg : GetNextByteModbus mode ⟨[], sf, ef, res⟩ = .blocked ⟨[], sf, ef, res⟩ := by
    unfold GetNextByteModbus
    split <;> simp [nextChar, Worker.bind_apply]
  cases mode <;>
    simp [WorkerThread_message, WorkerThread_parse, hg, find_start_of_frame, chars_left,
      Worker.bind_apply]

set_option maxRecDepth 100000 in
/-- C34, counterexample: with a sample rate of 9600 Hz, below the
`4 * 9600 = 38400` Hz that `GetMinimumSampleRateHz` reports, `WorkerThread` in
RTU-Client mode raises no assertion: it reads the two characters of the capture
and hands over a frame. -/
theorem low_sample_rate_decodes :
    9600 < 4 * sampleSettings.mBitRate
    ∧ GetMinimumSampleRateHz sampleSettings = 38400
    ∧ ∃ fr markers,
        WorkerThread_samples sampleFlags sampleSettings 9600 (fun _ _ _ => 1) (fun _ => (0, 0))
            sampleCapture
          = some ([fr], markers)
        ∧ fr.mFlags = sampleFlags.FLAG_REQUEST_FRAME
        ∧ fr.mStartingSampleInclusive = 2 ∧ fr.mEndingSampleInclusive = 21 := by
  have h0 : WorkerThread_samples sampleFlags sampleSettings 9600 (fun _ _ _ => 1)
        (fun _ => (0, 0)) sampleCapture
      = some (WorkerThread_decode sampleFlags sampleSettings
          (WorkerThread_members (fun _ _ _ => 1) sampleSettings 9600)
          (WorkerThread_num_bits sampleSettings) (WorkerThread_bit_mask sampleSettings)
          (fun _ => (0, 0)) sampleCapture) :=
    WorkerThread_samples_decodes _ _ _ _ _ _ _ (by decide) (Or.inl rfl)
  have h1 := unknown_request_rtu sampleFlags .ModbusRTUClient false (Or.inl rfl)
    ⟨0x01, 2, 11⟩ ⟨0x64, 12, 21⟩ [] 0 0 [] (by decide)
  refine ⟨by decide, by decide,
    { mStartingSampleInclusive := 2, mEndingSampleInclusive := 21, mData1 := 0, mData2 := 0,
      mFlags := sampleFlags.FLAG_REQUEST_FRAME },
    (sample_characters (WorkerThread_members (fun _ _ _ => 1) sampleSettings 9600)
      (WorkerThread_num_bits sampleSettings) (WorkerThread_bit_mask sampleSettings)
      sampleCapture.samples.length ⟨sampleCapture, []⟩).2.markers, ?_, rfl, rfl, rfl⟩
  rw [h0]
  unfold WorkerThread_decode
  simp only
  rw [sampleCapture_characters]
  simp only [List.length_cons, List.length_nil]
  show some ((WorkerThread_loop_locals sampleFlags .ModbusRTUClient _ 3 0 false _).mResults, _)
    = _
  rw [WorkerThread_loop_locals]
  simp only
  rw [h1]
  simp only
  rw [WorkerThread_loop_locals]
  simp only [WorkerThread_message_empty]
  rfl

/-- C34 (amended): `WorkerThread` does not compare the sample rate with the bit
rate. Whatever the sample rate (also below four times the bit rate), the offsets
the clock generator yields, the capture and the values of the uninitialised
locals: the only fatal assertion is the one of the mode test, raised exactly when
the mode is not one of the six Modbus modes and the alignment on an idle line
that comes before the test has returned; and in a Modbus mode the worker, once
aligned at the channel position `c`, decodes the capture from `c` with the
offsets computed for that sample rate (`WorkerThread_decode`: the frames of the
dispatcher run on the characters the reader samples, and the markers of the
reader). The value `4 * mBitRate` (as a `U32`) is only what
`GetMinimumSampleRateHz` reports. -/
theorem sample_rate_is_not_checked (K : FlagBits) (mSettings : ModbusAnalyzerSettings)
    (GetSampleRate : Nat) (clock : Nat → Nat → List Nat → Nat) (locals : Nat → Nat × Nat)
    (mModbus : ChannelData) :
    (WorkerThread_samples K mSettings GetSampleRate clock locals mModbus = none
        ↔ (¬ is_modbus mSettings.mModbusMode
            ∧ WorkerThread_align (WorkerThread_members clock mSettings GetSampleRate) mModbus
                ≠ none))
    ∧ (∀ c, is_modbus mSettings.mModbusMode →
        WorkerThread_align (WorkerThread_members clock mSettings GetSampleRate) mModbus = some c →
        WorkerThread_samples K mSettings GetSampleRate clock locals mModbus
          = some (WorkerThread_decode K mSettings
              (WorkerThread_members clock mSettings GetSampleRate)
              (WorkerThread_num_bits mSettings) (WorkerThread_bit_mask mSettings) locals c))
    ∧ (WorkerThread_align (WorkerThread_members clock mSettings GetSampleRate) mModbus = none →
        WorkerThread_samples K mSettings GetSampleRate clock locals mModbus = some ([], []))
    ∧ GetMinimumSampleRateHz mSettings = (mSettings.mBitRate * 4) % 2 ^ 32 := by
  refine ⟨?_, fun c hm ha =>
      WorkerThread_samples_decodes K mSettings GetSampleRate clock locals mModbus c ha hm,
    fun ha => WorkerThread_samples_waiting K mSettings GetSampleRate clock locals mModbus ha,
    rfl⟩
  cases ha : WorkerThread_align (WorkerThread_members clock mSettings GetSampleRate) mModbus with
  | none =>
    rw [WorkerThread_samples_waiting K mSettings GetSampleRate clock locals mModbus ha]
    exact ⟨fun h => (nomatch h), fun h => absurd rfl h.2⟩
  | some c =>
    by_cases hm : is_modbus mSettings.mModbusMode
    · rw [WorkerThread_samples_decodes K mSettings GetSampleRate clock locals mModbus c ha hm]
      exact ⟨fun h => (nomatch h), fun h => absurd hm h.1⟩
    · rw [WorkerThread_samples_asserts K mSettings GetSampleRate clock locals mModbus c ha hm]
      exact ⟨fun _ => ⟨hm, fun h => (nomatch h)⟩, fun _ => rfl⟩

/-! ### Passes on a channel that holds a whole message -/

theorem wire_bytes_nil (mode : Mode) (cs : List SerialChar)
    (h : wire_bytes mode cs = some []) : cs = [] := by
  rcases cs with _ | ⟨c, _ | ⟨c2, w⟩⟩
  · rfl
  · unfold wire_bytes at h
    split_ifs at h <;> cases h
  · unfold wire_bytes at h
    split_ifs at h <;>
    · cases hw : wire_bytes mode _ <;> rw [hw] at h <;> cases h

theorem wire_bytes_cons (mode : Mode) (c : SerialChar) (w : List SerialChar)
    (h : mode = .ModbusRTUClient ∨ mode = .ModbusRTUServer ∨ mode = .ModbusRTUBoth
      ∨ c.data = 0x3A ∨ c.data = 0x0A ∨ c.data = 0x0D) :
    wire_bytes mode (c :: w) = (wire_bytes mode w).map (c.data :: ·) := by
  cases w with
  | nil =>
    unfold wire_bytes
    by_cases hm : mode = .ModbusRTUClient ∨ mode = .ModbusRTUServer ∨ mode = .ModbusRTUBoth
    · rw [if_pos hm]; rfl
    · have hd : c.data = 0x3A ∨ c.data = 0x0A ∨ c.data = 0x0D := by tauto
      rw [if_neg hm, if_pos hd]; rfl
  | cons c2 w =>
    rw [wire_bytes]
    by_cases hm : mode = .ModbusRTUClient ∨ mode = .ModbusRTUServer ∨ mode = .ModbusRTUBoth
    · rw [if_pos hm]
    · have hd : c.data = 0x3A ∨ c.data = 0x0A ∨ c.data = 0x0D := by tauto
      rw [if_neg hm, if_pos hd]

theorem wire_bytes_pair (mode : Mode) (c c2 : SerialChar) (w : List SerialChar)
    (hm : ¬ (mode = .ModbusRTUClient ∨ mode = .ModbusRTUServer ∨ mode = .ModbusRTUBoth))
    (hd : ¬ (c.data = 0x3A ∨ c.data = 0x0A ∨ c.data = 0x0D)) :
    wire_bytes mode (c :: c2 :: w) = (wire_bytes mode w).map
      (toU8 ((toU8 (ASCII2INT (toChar c.data) * 2 ^ 4) : Int) + ASCII2INT (toChar c2.data)) :: ·) := by
  rw [wire_bytes, if_neg hm, if_neg hd]

theorem wire_bytes_single (mode : Mode) (c : SerialChar)
    (hm : ¬ (mode = .ModbusRTUClient ∨ mode = .ModbusRTUServer ∨ mode = .ModbusRTUBoth))
    (hd : ¬ (c.data = 0x3A ∨ c.data = 0x0A ∨ c.data = 0x0D)) :
    wire_bytes mode [c] = none := by
  rw [wire_bytes, if_neg hm, if_neg hd]

/-- A call of `GetNextByteModbus` on a channel that supplies the byte `v` and
then the bytes `bs` returns `v` and leaves a channel that supplies `bs`. -/
theorem read_supplied (mode : Mode) (v : Nat) (bs : List Nat) (rest : List SerialChar)
    (s : Analyzer) (h : Supplies mode (v :: bs) rest s) :
    ∃ s1, GetNextByteModbus mode s = .ret v s1 ∧ Supplies mode bs rest s1
      ∧ s1.mResults = s.mResults := by
  obtain ⟨w, sf, ef, res⟩ := s
  obtain ⟨cs, hw, hb⟩ := h
  simp only at hw
  subst hw
  rcases cs with _ | ⟨c, cs⟩
  · cases hb
  · by_cases h1 : mode = .ModbusRTUClient ∨ mode = .ModbusRTUServer ∨ mode = .ModbusRTUBoth
      ∨ c.data = 0x3A ∨ c.data = 0x0A ∨ c.data = 0x0D
    · rw [wire_bytes_cons mode c cs h1] at hb
      cases hcs : wire_bytes mode cs with
      | none => rw [hcs] at hb; cases hb
      | some b2 =>
        rw [hcs] at hb
        simp only [Option.map_some', Option.some.injEq, List.cons.injEq] at hb
        obtain ⟨hv, hb2⟩ := hb
        subst hv; subst hb2
        by_cases hm : mode = .ModbusRTUClient ∨ mode = .ModbusRTUServer ∨ mode = .ModbusRTUBoth
        · refine ⟨⟨cs ++ rest, c.start, c.stop, res⟩, ?_, ⟨cs, rfl, hcs⟩, rfl⟩
          simp [GetNextByteModbus, nextChar, set_starting_frame, set_ending_frame, hm]
        · have hd : c.data = 0x3A ∨ c.data = 0x0A ∨ c.data = 0x0D := by tauto
          refine ⟨⟨cs ++ rest, c.start, ef, res⟩, ?_, ⟨cs, rfl, hcs⟩, rfl⟩
          simp [GetNextByteModbus, nextChar, set_starting_frame, set_ending_frame, hm, hd]
    · have hm : ¬ (mode = .ModbusRTUClient ∨ mode = .ModbusRTUServer ∨ mode = .ModbusRTUBoth) :=
        fun h => h1 (by tauto)
      have hd : ¬ (c.data = 0x3A ∨ c.data = 0x0A ∨ c.data = 0x0D) := fun h => h1 (by tauto)
      rcases cs with _ | ⟨c2, cs⟩
      · rw [wire_bytes_single mode c hm hd] at hb; cases hb
      · rw [wire_bytes_pair mode c c2 cs hm hd] at hb
        cases hcs : wire_bytes mode cs with
        | none => rw [hcs] at hb; cases hb
        | some b2 =>
          rw [hcs] at hb
          simp only [Option.map_some', Option.some.injEq, List.cons.injEq] at hb
          obtain ⟨hv, hb2⟩ := hb
          subst hv; subst hb2
          refine ⟨⟨cs ++ rest, c.start, c2.stop, res⟩, ?_, ⟨cs, rfl, hcs⟩, rfl⟩
          simp [GetNextByteModbus, nextChar, set_starting_frame, set_ending_frame, hm, hd]

/-- A call of `GetNextByteModbus` that returns `v` has taken from the channel
characters that read as the one byte `v`. -/
theorem read_consumed (mode : Mode) (s s1 : Analyzer) (v : Nat)
    (h : GetNextByteModbus mode s = .ret v s1) :
    ∃ c1, s.mModbus = c1 ++ s1.mModbus ∧ wire_bytes mode c1 = some [v] := by
  obtain ⟨w, sf, ef, res⟩ := s
  by_cases hm : mode = .ModbusRTUClient ∨ mode = .ModbusRTUServer ∨ mode = .ModbusRTUBoth
  · cases w with
    | nil => simp [GetNextByteModbus, nextChar, set_starting_frame, set_ending_frame, hm] at h
    | cons c w =>
      simp [GetNextByteModbus, nextChar, set_starting_frame, set_ending_frame, hm] at h
      obtain ⟨rfl, rfl⟩ := h
      exact ⟨[c], rfl, by rw [wire_bytes_cons mode c [] (by tauto)]; rfl⟩
  · rcases w with _ | ⟨c, _ | ⟨c2, w⟩⟩
    · simp [GetNextByteModbus, nextChar, set_starting_frame, set_ending_frame, hm] at h
    · by_cases hd : c.data = 0x3A ∨ c.data = 0x0A ∨ c.data = 0x0D
      · simp [GetNextByteModbus, nextChar, set_starting_frame, set_ending_frame, hm, hd] at h
        obtain ⟨rfl, rfl⟩ := h
        exact ⟨[c], rfl, by rw [wire_bytes_cons mode c [] (by tauto)]; rfl⟩
      · simp [GetNextByteModbus, nextChar, set_starting_frame, set_ending_frame, hm, hd] at h
    · by_cases hd : c.data = 0x3A ∨ c.data = 0x0A ∨ c.data = 0x0D
      · simp [GetNextByteModbus, nextChar, set_starting_frame, set_ending_frame, hm, hd] at h
        obtain ⟨rfl, rfl⟩ := h
        exact ⟨[c], rfl, by rw [wire_bytes_cons mode c [] (by tauto)]; rfl⟩
      · simp [GetNextByteModbus, nextChar, set_starting_frame, set_ending_frame, hm, hd] at h
        obtain ⟨rfl, rfl⟩ := h
        exact ⟨[c, c2], rfl, by rw [wire_bytes_pair mode c c2 [] hm hd]; rfl⟩

theorem wire_bytes_append (mode : Mode) (cs cs' : List SerialChar) (bs bs' : List Nat)
    (h : wire_bytes mode cs = some bs) (h' : wire_bytes mode cs' = some bs') :
    wire_bytes mode (cs ++ cs') = some (bs ++ bs') := by
  obtain ⟨n, hn⟩ : ∃ n, cs.length = n := ⟨_, rfl⟩
  induction n using Nat.strong_induction_on generalizing cs bs with
  | _ n ih =>
    rcases cs with _ | ⟨c, cs⟩
    · cases h; simpa using h'
    · by_cases h1 : mode = .ModbusRTUClient ∨ mode = .ModbusRTUServer ∨ mode = .ModbusRTUBoth
        ∨ c.data = 0x3A ∨ c.data = 0x0A ∨ c.data = 0x0D
      · rw [wire_bytes_cons mode c cs h1] at h
        rw [List.cons_append, wire_bytes_cons mode c _ h1]
        cases hcs : wire_bytes mode cs with
        | none => rw [hcs] at h; cases h
        | some b2 =>
          rw [hcs] at h
          simp only [Option.map_some', Option.some.injEq] at h
          subst h
          rw [ih cs.length (by simp at hn; omega) cs b2 hcs rfl]
          rfl
      · have hm : ¬ (mode = .ModbusRTUClient ∨ mode = .ModbusRTUServer
            ∨ mode = .ModbusRTUBoth) := fun h => h1 (by tauto)
        have hd : ¬ (c.data = 0x3A ∨ c.data = 0x0A ∨ c.data = 0x0D) := fun h => h1 (by tauto)
        rcases cs with _ | ⟨c2, cs⟩
        · rw [wire_bytes_single mode c hm hd] at h; cases h
        · rw [wire_bytes_pair mode c c2 cs hm hd] at h
          rw [List.cons_append, List.cons_append, wire_bytes_pair mode c c2 _ hm hd]
          cases hcs : wire_bytes mode cs with
          | none => rw [hcs] at h; cases h
          | some b2 =>
            rw [hcs] at h
            simp only [Option.map_some', Option.some.injEq] at h
            subst h
            rw [ih cs.length (by simp at hn; omega) cs b2 hcs rfl]
            rfl

/-- The bytes of a history are what the characters taken from the channel read
as. -/
theorem Run.wire {mode : Mode} {s0 s1 : Analyzer} {bs : List Nat} {fs : List Frame}
    (h : Run mode s0 bs fs s1) :
    ∃ cs, s0.mModbus = cs ++ s1.mModbus ∧ wire_bytes mode cs = some bs := by
  induction h with
  | start => exact ⟨[], rfl, rfl⟩
  | read _ hr ih =>
    obtain ⟨cs, h1, h2⟩ := ih
    obtain ⟨c1, h3, h4⟩ := read_consumed mode _ _ _ hr
    exact ⟨cs ++ c1, by rw [h1, h3, List.append_assoc], wire_bytes_append mode cs c1 _ _ h2 h4⟩
  | emit f _ ih => exact ih

theorem wp_read_supplied {mode : Mode} {v : Nat} {bs : List Nat} {rest : List SerialChar}
    {s : Analyzer} {Q : Nat → Analyzer → Prop} {B : Analyzer → Prop}
    (h : Supplies mode (v :: bs) rest s)
    (hQ : ∀ s1, Supplies mode bs rest s1 → s1.mResults = s.mResults → Q v s1) :
    wp (GetNextByteModbus mode) Q B s := by
  obtain ⟨s1, h1, h2, h3⟩ := read_supplied mode v bs rest s h
  unfold wp
  rw [h1]
  exact hQ s1 h2 h3

theorem wp_returns {α : Type} {m : Worker α} {Q : α → Analyzer → Prop} {s : Analyzer}
    (h : wp m Q Never s) : ∃ a s1, m s = .ret a s1 ∧ Q a s1 := by
  unfold wp at h
  cases hm : m s with
  | ret a s1 => rw [hm] at h; exact ⟨a, s1, rfl, h⟩
  | blocked s1 => rw [hm] at h; exact absurd h (fun x => x)

theorem Supplies.done {mode : Mode} {rest : List SerialChar} {s : Analyzer}
    (h : Supplies mode [] rest s) : s.mModbus = rest := by
  obtain ⟨cs, h1, h2⟩ := h
  rw [h1, wire_bytes_nil mode cs h2]
  rfl

theorem Supplies.emit {mode : Mode} {bs : List Nat} {rest : List SerialChar} {s : Analyzer}
    (h : Supplies mode bs rest s) (fs : List Frame) :
    Supplies mode bs rest { s with mResults := fs } := h

theorem wp_AddFrame_eq (f : Frame) (Q : Unit → Analyzer → Prop) (B : Analyzer → Prop) :
    wp (AddFrame f) Q B = fun s => Q () { s with mResults := s.mResults ++ [f] } := by
  funext s
  unfold wp
  rfl

theorem list_length_two {α : Type} (l : List α) (h : l.length = 2) : ∃ x y, l = [x, y] := by
  match l, h with
  | [x, y], _ => exact ⟨x, y, rfl⟩

theorem list_length_one {α : Type} (l : List α) (h : l.length = 1) : ∃ x, l = [x] := by
  match l, h with
  | [x], _ => exact ⟨x, rfl⟩

theorem single_frame_CRC_sup {K : FlagBits} {mode : Mode} {covered : List Nat} {frame : Frame}
    {c0 c1 : Nat} {bs : List Nat} {rest : List SerialChar} {s : Analyzer}
    {Q : Nat × Nat × Frame → Analyzer → Prop} {B : Analyzer → Prop}
    (h : Supplies mode (c0 :: c1 :: bs) rest s)
    (hQ : ∀ fr s1, Supplies mode bs rest s1 → s1.mResults = s.mResults → Q (c0, c1, fr) s1) :
    wp (single_frame_CRC K mode covered frame) Q B s := by
  simp only [single_frame_CRC, wp_bind, wp_pure]
  refine wp_read_supplied h (fun s1 h1 r1 => ?_)
  refine wp_read_supplied h1 (fun s2 h2 r2 => ?_)
  exact hQ _ s2 h2 (r2.trans r1)

theorem single_frame_LRC_sup {K : FlagBits} {mode : Mode} {covered : List Nat} {frame : Frame}
    {c0 : Nat} {bs : List Nat} {rest : List SerialChar} {s : Analyzer}
    {Q : Nat × Nat × Frame → Analyzer → Prop} {B : Analyzer → Prop}
    (h : Supplies mode (c0 :: bs) rest s)
    (hQ : ∀ fr s1, Supplies mode bs rest s1 → s1.mResults = s.mResults → Q (c0, 0, fr) s1) :
    wp (single_frame_LRC K mode covered frame) Q B s := by
  simp only [single_frame_LRC, wp_bind, wp_pure]
  refine wp_read_supplied h (fun s1 h1 r1 => ?_)
  exact hQ _ s1 h1 r1

theorem end_frame_CRC_sup {K : FlagBits} {mode : Mode} {ck : Nat} {frame : Frame}
    {c0 c1 : Nat} {bs : List Nat} {rest : List SerialChar} {s : Analyzer}
    {Q : Frame → Analyzer → Prop} {B : Analyzer → Prop}
    (h : Supplies mode (c0 :: c1 :: bs) rest s)
    (hQ : ∀ fr s1, Supplies mode bs rest s1 → s1.mResults = s.mResults → Q fr s1) :
    wp (end_frame_CRC K mode ck frame) Q B s := by
  simp only [end_frame_CRC, wp_bind, wp_pure, wp_get_starting_frame]
  refine wp_read_supplied h (fun s1 h1 r1 => ?_)
  refine wp_read_supplied h1 (fun s2 h2 r2 => ?_)
  exact hQ _ s2 h2 (r2.trans r1)

theorem end_frame_LRC_sup {K : FlagBits} {mode : Mode} {ck : Nat} {frame : Frame}
    {c0 : Nat} {bs : List Nat} {rest : List SerialChar} {s : Analyzer}
    {Q : Frame → Analyzer → Prop} {B : Analyzer → Prop}
    (h : Supplies mode (c0 :: bs) rest s)
    (hQ : ∀ fr s1, Supplies mode bs rest s1 → s1.mResults = s.mResults → Q fr s1) :
    wp (end_frame_LRC K mode ck frame) Q B s := by
  simp only [end_frame_LRC, wp_bind, wp_pure, wp_get_starting_frame]
  refine wp_read_supplied h (fun s1 h1 r1 => ?_)
  exact hQ _ s1 h1 r1

theorem emit_header_sup {mode : Mode} {frame : Frame} {d : Nat}
    {bs : List Nat} {rest : List SerialChar} {s : Analyzer}
    {Q : Frame → Analyzer → Prop} {B : Analyzer → Prop}
    (h : Supplies mode bs rest s)
    (hQ : ∀ hdr s1, Supplies mode bs rest s1 →
      s1.mResults = s.mResults ++ [hdr] →
      frame_info hdr = (frame.mFlags, d, frame.mData2) → Q hdr s1) :
    wp (emit_header frame d) Q B s := by
  simp only [emit_header, wp_bind, wp_pure, wp_get_ending_frame, wp_AddFrame_eq]
  exact hQ _ _ h rfl rfl

theorem data_bytes_sup {K : FlagBits} {mode : Mode} (upd : Nat → Nat → Nat)
    {bs : List Nat} {rest : List SerialChar} {B : Analyzer → Prop} (data : List Nat) :
    ∀ (ck : Nat) (s : Analyzer) (Q : Nat → Analyzer → Prop),
      Supplies mode (data ++ bs) rest s →
      (∀ c s1, Supplies mode bs rest s1 → (∃ fs, s1.mResults = s.mResults ++ fs) → Q c s1) →
      wp (data_bytes K mode upd data.length ck) Q B s := by
  induction data with
  | nil =>
    intro ck s Q h hQ
    simp only [List.length_nil, data_bytes, wp_pure]
    exact hQ ck s h ⟨[], by simp⟩
  | cons v data ih =>
    intro ck s Q h hQ
    simp only [List.length_cons, data_bytes, wp_bind, wp_get_starting_frame,
      wp_get_ending_frame, wp_AddFrame_eq]
    refine wp_read_supplied h (fun s1 h1 r1 => ?_)
    refine ih _ _ Q (Supplies.emit h1 _) (fun c s2 h2 r2 => hQ c s2 h2 ?_)
    obtain ⟨fs, hfs⟩ := r2
    simp only [] at hfs
    exact ⟨_, by rw [hfs, r1, List.append_assoc]⟩

theorem data_word_sup {K : FlagBits} {mode : Mode} (upd : Nat → Nat → Nat) {ck : Nat}
    {v1 v2 : Nat} {bs : List Nat} {rest : List SerialChar} {s : Analyzer}
    {Q : Nat → Analyzer → Prop} {B : Analyzer → Prop}
    (h : Supplies mode (v1 :: v2 :: bs) rest s)
    (hQ : ∀ c s1, Supplies mode bs rest s1 → (∃ fs, s1.mResults = s.mResults ++ fs) → Q c s1) :
    wp (data_word K mode upd ck) Q B s := by
  simp only [data_word, wp_bind, wp_pure, wp_get_starting_frame, wp_get_ending_frame,
    wp_AddFrame_eq]
  refine wp_read_supplied h (fun s1 h1 r1 => ?_)
  refine wp_read_supplied h1 (fun s2 h2 r2 => ?_)
  exact hQ _ _ (Supplies.emit h2 _) ⟨_, by rw [r2, r1]⟩

theorem data_words_sup {K : FlagBits} {mode : Mode} (upd : Nat → Nat → Nat)
    {bs : List Nat} {rest : List SerialChar} {B : Analyzer → Prop} (n : Nat) :
    ∀ (data : List Nat) (ck : Nat) (s : Analyzer) (Q : Nat → Analyzer → Prop),
      data.length = 2 * n → Supplies mode (data ++ bs) rest s →
      (∀ c s1, Supplies mode bs rest s1 → (∃ fs, s1.mResults = s.mResults ++ fs) → Q c s1) →
      wp (data_words K mode upd n ck) Q B s := by
  induction n with
  | zero =>
    intro data ck s Q hl h hQ
    have : data = [] := List.length_eq_zero.mp (by simpa using hl)
    subst this
    simp only [data_words, wp_pure]
    exact hQ ck s h ⟨[], by simp⟩
  | succ n ih =>
    intro data ck s Q hl h hQ
    match data, hl with
    | v1 :: v2 :: t, hl =>
      have ht : t.length = 2 * n := by simp only [List.length_cons] at hl; omega
      simp only [data_words, wp_bind]
      refine data_word_sup upd (by simpa using h) (fun c s1 h1 r1 => ?_)
      refine ih t c s1 Q ht h1 (fun c2 s2 h2 r2 => hQ c2 s2 h2 ?_)
      obtain ⟨f1, hf1⟩ := r1
      obtain ⟨f2, hf2⟩ := r2
      exact ⟨f1 ++ f2, by rw [hf2, hf1, List.append_assoc]⟩

theorem file_subreq_sup {K : FlagBits} {mode : Mode} (upd : Nat → Nat → Nat) {ck : Nat}
    {v1 v2 v3 v4 v5 v6 v7 : Nat} {bs : List Nat} {rest : List SerialChar} {s : Analyzer}
    {Q : Nat × Nat × Nat → Analyzer → Prop} {B : Analyzer → Prop}
    (h : Supplies mode (v1 :: v2 :: v3 :: v4 :: v5 :: v6 :: v7 :: bs) rest s)
    (hQ : ∀ c s1, Supplies mode bs rest s1 → (∃ fs, s1.mResults = s.mResults ++ fs) →
      Q (c, v6, v7) s1) :
    wp (file_subreq K mode upd ck) Q B s := by
  simp only [file_subreq, wp_bind, wp_pure, wp_get_starting_frame, wp_get_ending_frame,
    wp_AddFrame_eq]
  refine wp_read_supplied h (fun s1 h1 r1 => ?_)
  refine wp_read_supplied h1 (fun s2 h2 r2 => ?_)
  refine wp_read_supplied h2 (fun s3 h3 r3 => ?_)
  refine wp_read_supplied h3 (fun s4 h4 r4 => ?_)
  refine wp_read_supplied h4 (fun s5 h5 r5 => ?_)
  refine wp_read_supplied h5 (fun s6 h6 r6 => ?_)
  refine wp_read_supplied h6 (fun s7 h7 r7 => ?_)
  exact hQ _ _ (Supplies.emit h7 _) ⟨_, by rw [r7, r6, r5, r4, r3, r2, r1]⟩

theorem read_file_request_loop_sup {K : FlagBits} {mode : Mode} (upd : Nat → Nat → Nat)
    {bs : List Nat} {rest : List SerialChar} {B : Analyzer → Prop} (n : Nat) (fuel : Nat) :
    ∀ (i : Nat) (data : List Nat) (ck : Nat) (s : Analyzer) (Q : Nat → Analyzer → Prop),
      (n - i + 6) / 7 ≤ fuel → data.length = 7 * ((n - i + 6) / 7) →
      Supplies mode (data ++ bs) rest s →
      (∀ c s1, Supplies mode bs rest s1 → (∃ fs, s1.mResults = s.mResults ++ fs) → Q c s1) →
      wp (read_file_request_loop K mode upd n fuel i ck) Q B s := by
  induction fuel with
  | zero =>
    intro i data ck s Q hf hl h hQ
    have h0 : (n - i + 6) / 7 = 0 := by omega
    have : data = [] := List.length_eq_zero.mp (by rw [hl, h0])
    subst this
    simp only [read_file_request_loop, wp_pure]
    exact hQ ck s h ⟨[], by simp⟩
  | succ fuel ih =>
    intro i data ck s Q hf hl h hQ
    by_cases hi : i < n
    · simp only [read_file_request_loop, hi, if_true, wp_bind]
      have hk : (n - i + 6) / 7 = (n - (i + 7) + 6) / 7 + 1 := by omega
      rw [hk] at hl hf
      match data, hl with
      | v1 :: v2 :: v3 :: v4 :: v5 :: v6 :: v7 :: t, hl =>
        have ht : t.length = 7 * ((n - (i + 7) + 6) / 7) := by
          simp only [List.length_cons] at hl; omega
        refine file_subreq_sup upd (by simpa using h) (fun c s1 h1 r1 => ?_)
        refine ih (i + 7) t c s1 Q (by omega) ht h1 (fun c2 s2 h2 r2 => hQ c2 s2 h2 ?_)
        obtain ⟨f1, hf1⟩ := r1
        obtain ⟨f2, hf2⟩ := r2
        exact ⟨f1 ++ f2, by rw [hf2, hf1, List.append_assoc]⟩
    · have h0 : (n - i + 6) / 7 = 0 := by omega
      have : data = [] := List.length_eq_zero.mp (by rw [hl, h0])
      subst this
      simp only [read_file_request_loop, hi, if_false, wp_pure]
      exact hQ ck s h ⟨[], by simp⟩

theorem request_READ_FIFO_QUEUE_sup (K : FlagBits) (mode : Mode) (a f : Nat) (frame : Frame)
    {p1 p2 : Nat} {ck tail : List Nat} {rest : List SerialChar} {s : Analyzer}
    {B : Analyzer → Prop}
    (hck : ck.length = if mode = .ModbusRTUClient ∨ mode = .ModbusRTUBoth then 2 else 1)
    (h : Supplies mode (p1 :: p2 :: (ck ++ tail)) rest s) :
    wp (request_READ_FIFO_QUEUE K mode a f frame) (fun _ s1 => Supplies mode tail rest s1) B
      s := by
  simp only [request_READ_FIFO_QUEUE, wp_bind]
  refine wp_read_supplied h (fun s1 h1 _ => ?_)
  refine wp_read_supplied h1 (fun s2 h2 _ => ?_)
  by_cases hc : mode = .ModbusRTUClient ∨ mode = .ModbusRTUBoth
  · rw [if_pos hc] at hck
    obtain ⟨c0, c1, rfl⟩ := list_length_two ck hck
    simp only [hc, if_true, wp_bind]
    refine single_frame_CRC_sup (by simpa using h2) (fun fr s3 h3 _ => ?_)
    simp only [wp_pure]
    exact h3
  · rw [if_neg hc] at hck
    obtain ⟨c0, rfl⟩ := list_length_one ck hck
    simp only [hc, if_false, wp_bind]
    refine single_frame_LRC_sup (by simpa using h2) (fun fr s3 h3 _ => ?_)
    simp only [wp_pure]
    exact h3

theorem request_MASK_WRITE_REGISTER_sup (K : FlagBits) (mode : Mode) (a f : Nat)
    (frame : Frame) {p1 p2 p3 p4 p5 p6 : Nat} {ck tail : List Nat} {rest : List SerialChar}
    {s : Analyzer} {B : Analyzer → Prop}
    (hck : ck.length = if mode = .ModbusRTUClient ∨ mode = .ModbusRTUBoth then 2 else 1)
    (h : Supplies mode (p1 :: p2 :: p3 :: p4 :: p5 :: p6 :: (ck ++ tail)) rest s) :
    wp (request_MASK_WRITE_REGISTER K mode a f frame) (fun _ s1 => Supplies mode tail rest s1)
      B s := by
  simp only [request_MASK_WRITE_REGISTER, wp_bind]
  refine wp_read_supplied h (fun s1 h1 _ => ?_)
  refine wp_read_supplied h1 (fun s2 h2 _ => ?_)
  refine wp_read_supplied h2 (fun s3 h3 _ => ?_)
  refine wp_read_supplied h3 (fun s4 h4 _ => ?_)
  refine wp_read_supplied h4 (fun s5 h5 _ => ?_)
  refine wp_read_supplied h5 (fun s6 h6 _ => ?_)
  by_cases hc : mode = .ModbusRTUClient ∨ mode = .ModbusRTUBoth
  · rw [if_pos hc] at hck
    obtain ⟨c0, c1, rfl⟩ := list_length_two ck hck
    simp only [hc, if_true, wp_bind]
    refine single_frame_CRC_sup (by simpa using h6) (fun fr s7 h7 _ => ?_)
    simp only [wp_pure]
    exact h7
  · rw [if_neg hc] at hck
    obtain ⟨c0, rfl⟩ := list_length_one ck hck
    simp only [hc, if_false, wp_bind]
    refine single_frame_LRC_sup (by simpa using h6) (fun fr s7 h7 _ => ?_)
    simp only [wp_pure]
    exact h7

theorem response_MASK_WRITE_REGISTER_sup (K : FlagBits) (mode : Mode) (a f : Nat)
    (frame : Frame) {p1 p2 p3 p4 p5 p6 : Nat} {ck tail : List Nat} {rest : List SerialChar}
    {s : Analyzer} {B : Analyzer → Prop}
    (hck : ck.length = if mode = .ModbusRTUServer ∨ mode = .ModbusRTUBoth then 2 else 1)
    (h : Supplies mode (p1 :: p2 :: p3 :: p4 :: p5 :: p6 :: (ck ++ tail)) rest s) :
    wp (response_MASK_WRITE_REGISTER K mode a f frame)
      (fun _ s1 => Supplies mode tail rest s1) B s := by
  simp only [response_MASK_WRITE_REGISTER, wp_bind]
  refine wp_read_supplied h (fun s1 h1 _ => ?_)
  refine wp_read_supplied h1 (fun s2 h2 _ => ?_)
  refine wp_read_supplied h2 (fun s3 h3 _ => ?_)
  refine wp_read_supplied h3 (fun s4 h4 _ => ?_)
  refine wp_read_supplied h4 (fun s5 h5 _ => ?_)
  refine wp_read_supplied h5 (fun s6 h6 _ => ?_)
  by_cases hc : mode = .ModbusRTUServer ∨ mode = .ModbusRTUBoth
  · rw [if_pos hc] at hck
    obtain ⟨c0, c1, rfl⟩ := list_length_two ck hck
    simp only [hc, if_true, wp_bind]
    refine single_frame_CRC_sup (by simpa using h6) (fun fr s7 h7 _ => ?_)
    simp only [wp_pure]
    exact h7
  · rw [if_neg hc] at hck
    obtain ⟨c0, rfl⟩ := list_length_one ck hck
    simp only [hc, if_false, wp_bind]
    refine single_frame_LRC_sup (by simpa using h6) (fun fr s7 h7 _ => ?_)
    simp only [wp_pure]
    exact h7

theorem request_READWRITE_sup (K : FlagBits) (mode : Mode) (a f : Nat)
    (frame : Frame) {p1 p2 p3 p4 p5 p6 p7 p8 bc : Nat} {data ck tail : List Nat}
    {rest : List SerialChar} {s : Analyzer} {B : Analyzer → Prop}
    (hl : data.length = 2 * (bc / 2))
    (hck : ck.length = if mode = .ModbusRTUClient ∨ mode = .ModbusRTUBoth then 2 else 1)
    (h : Supplies mode (p1 :: p2 :: p3 :: p4 :: p5 :: p6 :: p7 :: p8 :: bc ::
      (data ++ (ck ++ tail))) rest s) :
    wp (request_READWRITE_MULTIPLE_REGISTERS K mode a f frame)
      (fun _ s1 => Supplies mode tail rest s1) B s := by
  simp only [request_READWRITE_MULTIPLE_REGISTERS, wp_bind]
  refine wp_read_supplied h (fun s1 h1 _ => ?_)
  refine wp_read_supplied h1 (fun s2 h2 _ => ?_)
  refine wp_read_supplied h2 (fun s3 h3 _ => ?_)
  refine wp_read_supplied h3 (fun s4 h4 _ => ?_)
  refine wp_read_supplied h4 (fun s5 h5 _ => ?_)
  refine wp_read_supplied h5 (fun s6 h6 _ => ?_)
  refine wp_read_supplied h6 (fun s7 h7 _ => ?_)
  refine wp_read_supplied h7 (fun s8 h8 _ => ?_)
  refine wp_read_supplied h8 (fun s9 h9 _ => ?_)
  by_cases hc : mode = .ModbusRTUClient ∨ mode = .ModbusRTUBoth
  · rw [if_pos hc] at hck
    obtain ⟨c0, c1, rfl⟩ := list_length_two ck hck
    simp only [hc, if_true, wp_bind]
    refine emit_header_sup h9 (fun hdr t1 g1 _ _ => ?_)
    refine data_words_sup update_CRC (bc / 2) data _ t1 _ hl g1 (fun c t2 g2 _ => ?_)
    exact end_frame_CRC_sup (by simpa using g2) (fun fr t3 g3 _ => g3)
  · rw [if_neg hc] at hck
    obtain ⟨c0, rfl⟩ := list_length_one ck hck
    simp only [hc, if_false, wp_bind]
    refine emit_header_sup h9 (fun hdr t1 g1 _ _ => ?_)
    refine data_words_sup LRC_add (bc / 2) data _ t1 _ hl g1 (fun c t2 g2 _ => ?_)
    exact end_frame_LRC_sup (by simpa using g2) (fun fr t3 g3 _ => g3)

theorem response_READ_COILS_sup (K : FlagBits) (mode : Mode) (a f : Nat)
    (frame : Frame) {bc : Nat} {data ck tail : List Nat}
    {rest : List SerialChar} {s : Analyzer} {B : Analyzer → Prop}
    (hl : data.length = bc)
    (hck : ck.length = if mode = .ModbusRTUServer ∨ mode = .ModbusRTUBoth then 2 else 1)
    (h : Supplies mode (bc :: (data ++ (ck ++ tail))) rest s) :
    wp (response_READ_COILS K mode a f frame)
      (fun _ s1 => Supplies mode tail rest s1) B s := by
  subst hl
  simp only [response_READ_COILS, wp_bind]
  refine wp_read_supplied h (fun s1 h1 _ => ?_)
  by_cases hc : mode = .ModbusRTUServer ∨ mode = .ModbusRTUBoth
  · rw [if_pos hc] at hck
    obtain ⟨c0, c1, rfl⟩ := list_length_two ck hck
    simp only [hc, if_true, wp_bind]
    refine emit_header_sup h1 (fun hdr t1 g1 _ _ => ?_)
    refine data_bytes_sup update_CRC data _ t1 _ g1 (fun c t2 g2 _ => ?_)
    exact end_frame_CRC_sup (by simpa using g2) (fun fr t3 g3 _ => g3)
  · rw [if_neg hc] at hck
    obtain ⟨c0, rfl⟩ := list_length_one ck hck
    simp only [hc, if_false, wp_bind]
    refine emit_header_sup h1 (fun hdr t1 g1 _ _ => ?_)
    refine data_bytes_sup LRC_add data _ t1 _ g1 (fun c t2 g2 _ => ?_)
    exact end_frame_LRC_sup (by simpa using g2) (fun fr t3 g3 _ => g3)

theorem request_READ_FILE_RECORD_sup (K : FlagBits) (mode : Mode) (a f : Nat)
    (frame : Frame) {bc : Nat} {data ck tail : List Nat}
    {rest : List SerialChar} {s : Analyzer} {B : Analyzer → Prop}
    (hl : data.length = 7 * ((U64 ((0 <<< 8) + bc) + 6) / 7))
    (hck : ck.length = if mode = .ModbusRTUClient ∨ mode = .ModbusRTUBoth then 2 else 1)
    (h : Supplies mode (bc :: (data ++ (ck ++ tail))) rest s) :
    wp (request_READ_FILE_RECORD K mode a f frame)
      (fun _ s1 => Supplies mode tail rest s1) B s := by
  simp only [request_READ_FILE_RECORD, wp_bind]
  refine wp_read_supplied h (fun s1 h1 _ => ?_)
  have hfuel : (U64 ((0 <<< 8) + bc) - 0 + 6) / 7 ≤ U64 ((0 <<< 8) + bc) := by omega
  by_cases hc : mode = .ModbusRTUClient ∨ mode = .ModbusRTUBoth
  · rw [if_pos hc] at hck
    obtain ⟨c0, c1, rfl⟩ := list_length_two ck hck
    simp only [hc, if_true, wp_bind]
    refine emit_header_sup h1 (fun hdr t1 g1 _ _ => ?_)
    refine read_file_request_loop_sup update_CRC _ _ 0 data _ t1 _ hfuel (by simpa using hl) g1
      (fun c t2 g2 _ => ?_)
    exact end_frame_CRC_sup (by simpa using g2) (fun fr t3 g3 _ => g3)
  · rw [if_neg hc] at hck
    obtain ⟨c0, rfl⟩ := list_length_one ck hck
    simp only [hc, if_false, wp_bind]
    refine emit_header_sup h1 (fun hdr t1 g1 _ _ => ?_)
    refine read_file_request_loop_sup LRC_add _ _ 0 data _ t1 _ hfuel (by simpa using hl) g1
      (fun c t2 g2 _ => ?_)
    exact end_frame_LRC_sup (by simpa using g2) (fun fr t3 g3 _ => g3)

theorem wp_ite {α : Type} (c : Prop) [Decidable c] (m1 m2 : Worker α)
    (Q : α → Analyzer → Prop) (B : Analyzer → Prop) (s : Analyzer) :
    wp (if c then m1 else m2) Q B s ↔ if c then wp m1 Q B s else wp m2 Q B s := by
  split <;> rfl

theorem wp_ite_fun {α : Type} (c : Prop) [Decidable c] (m1 m2 : Worker α)
    (Q : α → Analyzer → Prop) (B : Analyzer → Prop) :
    wp (if c then m1 else m2) Q B = if c then wp m1 Q B else wp m2 Q B := by
  split <;> rfl

/-- One pass of the dispatcher is its three pieces in sequence. -/
theorem message_pieces (K : FlagBits) (mode : Mode) (pr : Bool)
    (Q : Bool → Analyzer → Prop) (B : Analyzer → Prop) (s : Analyzer) :
    wp (WorkerThread_message K mode pr) Q B s
      ↔ wp (pass_head mode)
          (fun x => wp (pass_body K mode pr x.1 x.2.1 x.2.2)
            (fun fr => wp (pass_end mode pr fr) Q B) B) B s := by
  cases mode <;> cases pr <;>
    simp [WorkerThread_message, WorkerThread_parse, pass_head, pass_body, pass_end,
      request_role, response_role, wp_bind, wp_pure, wp_get_starting_frame,
      wp_get_ending_frame, wp_chars_left, wp_AddFrame_eq, wp_ite, wp_ite_fun]

theorem wire_bytes_length (mode : Mode) (cs : List SerialChar) (bs : List Nat)
    (h : wire_bytes mode cs = some bs) : bs.length ≤ cs.length := by
  obtain ⟨n, hn⟩ : ∃ n, cs.length = n := ⟨_, rfl⟩
  induction n using Nat.strong_induction_on generalizing cs bs with
  | _ n ih =>
    rcases cs with _ | ⟨c, cs⟩
    · cases h; simp
    · by_cases h1 : mode = .ModbusRTUClient ∨ mode = .ModbusRTUServer ∨ mode = .ModbusRTUBoth
        ∨ c.data = 0x3A ∨ c.data = 0x0A ∨ c.data = 0x0D
      · rw [wire_bytes_cons mode c cs h1] at h
        cases hcs : wire_bytes mode cs with
        | none => rw [hcs] at h; cases h
        | some b2 =>
          rw [hcs] at h
          simp only [Option.map_some', Option.some.injEq] at h
          subst h
          have := ih cs.length (by simp at hn; omega) cs b2 hcs rfl
          simp
          omega
      · have hm : ¬ (mode = .ModbusRTUClient ∨ mode = .ModbusRTUServer ∨ mode = .ModbusRTUBoth) :=
          fun h => h1 (by tauto)
        have hd : ¬ (c.data = 0x3A ∨ c.data = 0x0A ∨ c.data = 0x0D) := fun h => h1 (by tauto)
        rcases cs with _ | ⟨c2, cs⟩
        · rw [wire_bytes_single mode c hm hd] at h; cases h
        · rw [wire_bytes_pair mode c c2 cs hm hd] at h
          cases hcs : wire_bytes mode cs with
          | none => rw [hcs] at h; cases h
          | some b2 =>
            rw [hcs] at h
            simp only [Option.map_some', Option.some.injEq] at h
            subst h
            have := ih cs.length (by simp at hn; omega) cs b2 hcs rfl
            simp
            omega

theorem Supplies.length {mode : Mode} {bs : List Nat} {rest : List SerialChar} {s : Analyzer}
    (h : Supplies mode bs rest s) : bs.length ≤ s.mModbus.length := by
  obtain ⟨cs, h1, h2⟩ := h
  have := wire_bytes_length mode cs bs h2
  rw [h1, List.length_append]
  omega

theorem find_start_of_frame_sup {mode : Mode} {rest : List SerialChar} {c : Nat}
    {tail : List Nat} {Q : Frame → Analyzer → Prop} {B : Analyzer → Prop} (hc : toChar c = 0x3A) :
    ∀ (junk : List Nat) (fuel : Nat) (frame : Frame) (s : Analyzer),
      Supplies mode (junk ++ c :: tail) rest s → (∀ j ∈ junk, toChar j ≠ 0x3A) →
      junk.length < fuel →
      (∀ fr s1, Supplies mode tail rest s1 → s1.mResults = s.mResults → Q fr s1) →
      wp (find_start_of_frame mode fuel frame) Q B s := by
  intro junk
  induction junk with
  | nil =>
    intro fuel frame s h _ hf hQ
    obtain ⟨fuel, rfl⟩ : ∃ k, fuel = k + 1 := ⟨fuel - 1, by simp at hf; omega⟩
    simp only [find_start_of_frame, wp_bind]
    refine wp_read_supplied (by simpa using h) (fun s1 h1 hr => ?_)
    simp only [wp_get_starting_frame]
    rw [if_neg (by simpa using hc)]
    simp only [wp_pure]
    exact hQ _ s1 h1 hr
  | cons j junk ih =>
    intro fuel frame s h hj hf hQ
    obtain ⟨fuel, rfl⟩ : ∃ k, fuel = k + 1 := ⟨fuel - 1, by simp at hf; omega⟩
    simp only [find_start_of_frame, wp_bind]
    refine wp_read_supplied (by simpa using h) (fun s1 h1 hr => ?_)
    simp only [wp_get_starting_frame]
    rw [if_pos (hj j (List.mem_cons_self _ _))]
    refine ih fuel _ s1 h1 (fun x hx => hj x (List.mem_cons_of_mem _ hx))
      (by simp at hf; omega) (fun fr s2 h2 hr2 => hQ fr s2 h2 (hr2.trans hr))

/-- The beginning of a pass on a channel that supplies the start-of-frame bytes
(ASCII), the address and the function code returns the two, and leaves a channel
that supplies what follows. -/
theorem pass_head_sup (mode : Mode) (hmode : is_modbus mode) {pre : List Nat} {a f : Nat}
    {tail : List Nat} {rest : List SerialChar} {s : Analyzer}
    {Q : Nat × Nat × Frame → Analyzer → Prop} {B : Analyzer → Prop}
    (hpre : if is_rtu mode then pre = [] else start_of_frame pre)
    (h : Supplies mode (pre ++ a :: f :: tail) rest s)
    (hQ : ∀ frame s1, Supplies mode tail rest s1 → s1.mResults = s.mResults →
      Q (a, f, frame) s1) :
    wp (pass_head mode) Q B s := by
  have hlen := h.length
  rcases hmode with rfl | rfl | rfl | rfl | rfl | rfl
  all_goals first
    | (simp only [is_rtu, if_true] at hpre
       subst hpre
       simp [pass_head, wp_bind, wp_pure, wp_get_starting_frame, wp_chars_left]
       refine wp_read_supplied (by simpa using h) (fun s1 h1 hr1 => ?_)
       refine wp_read_supplied h1 (fun s2 h2 hr2 => ?_)
       exact hQ _ s2 h2 (hr2.trans hr1))
    | (simp only [is_rtu, Bool.false_eq_true, if_false] at hpre
       obtain ⟨junk, c, rfl, hc, hj⟩ := hpre
       simp [pass_head, wp_bind, wp_pure, wp_get_starting_frame, wp_chars_left]
       refine find_start_of_frame_sup hc junk _ _ s (by simpa using h) hj
         (by simp at hlen; omega) (fun fr s0 h0 hr0 => ?_)
       refine wp_read_supplied h0 (fun s1 h1 hr1 => ?_)
       refine wp_read_supplied h1 (fun s2 h2 hr2 => ?_)
       exact hQ _ s2 h2 (hr2.trans (hr1.trans hr0)))

/-- The end of a pass on a channel that supplies the two trailer bytes (ASCII)
returns the toggled role, with the terminal frame added to the results and the
channel at the characters that follow. -/
theorem pass_end_sup (mode : Mode) (pr : Bool) (hmode : is_modbus mode) (fr : Frame)
    {post : List Nat} {rest : List SerialChar} {s : Analyzer}
    {Q : Bool → Analyzer → Prop} {B : Analyzer → Prop}
    (hpost : if is_rtu mode then post = [] else post.length = 2)
    (h : Supplies mode post rest s)
    (hQ : ∀ last s1, s1.mModbus = rest → s1.mResults = s.mResults ++ [last] →
      frame_info last = frame_info fr → Q (!pr) s1) :
    wp (pass_end mode pr fr) Q B s := by
  rcases hmode with rfl | rfl | rfl | rfl | rfl | rfl
  all_goals first
    | (simp only [is_rtu, if_true] at hpost
       subst hpost
       simp [pass_end, wp_bind, wp_pure, wp_get_ending_frame, wp_AddFrame_eq]
       exact hQ _ _ h.done rfl rfl)
    | (simp only [is_rtu, Bool.false_eq_true, if_false] at hpost
       obtain ⟨t0, t1, rfl⟩ := list_length_two post hpost
       simp [pass_end, wp_bind, wp_pure, wp_get_ending_frame, wp_AddFrame_eq]
       refine wp_read_supplied h (fun s1 h1 hr1 => ?_)
       refine wp_read_supplied h1 (fun s2 h2 hr2 => ?_)
       refine hQ { fr with mEndingSampleInclusive := s2.ending_frame } _ h2.done ?_ rfl
       simp [hr2, hr1])

/-- In the request role the middle of a pass is the request switch on a frame
whose flags are REQUEST. -/
theorem pass_body_request (K : FlagBits) (mode : Mode) (pr : Bool) (hmode : is_modbus mode)
    (hreq : is_response mode pr = false) (a f : Nat) (frame : Frame)
    (Q : Frame → Analyzer → Prop) (B : Analyzer → Prop) (s : Analyzer) :
    wp (pass_body K mode pr a f frame) Q B s
      ↔ wp (request_switch K mode a f { frame with mFlags := K.FLAG_REQUEST_FRAME }) Q B s := by
  rcases hmode with rfl | rfl | rfl | rfl | rfl | rfl <;> cases pr <;>
    simp [is_response] at hreq <;>
    simp [pass_body, request_role, response_role, wp_bind, wp_pure]

/-- In the response role, for a function code with bit 7 clear, the middle of a
pass is the response switch on a frame whose flags are RESPONSE. -/
theorem pass_body_response (K : FlagBits) (mode : Mode) (pr : Bool) (hmode : is_modbus mode)
    (hresp : is_response mode pr = true) (a f : Nat) (hf : f &&& 0x80 = 0) (frame : Frame)
    (Q : Frame → Analyzer → Prop) (B : Analyzer → Prop) (s : Analyzer) :
    wp (pass_body K mode pr a f frame) Q B s
      ↔ wp (response_switch K mode a f
          { frame with mFlags := K.FLAG_RESPONSE_FRAME, mData1 := 0, mData2 := 0 }) Q B s := by
  rcases hmode with rfl | rfl | rfl | rfl | rfl | rfl <;> cases pr <;>
    simp [is_response] at hresp <;>
    simp [pass_body, request_role, response_role, wp_bind, wp_pure, hf]

theorem start_of_frame_unique {pre pre2 x y : List Nat} (h1 : start_of_frame pre)
    (h2 : start_of_frame pre2) (h : pre ++ x = pre2 ++ y) : pre = pre2 := by
  obtain ⟨junk, c, rfl, hc, hj⟩ := h1
  obtain ⟨junk2, c2, rfl, hc2, hj2⟩ := h2
  induction junk generalizing junk2 with
  | nil =>
    cases junk2 with
    | nil => simp at h; simp [h.1]
    | cons j2 junk2 =>
      simp at h
      exact absurd (h.1 ▸ hc) (hj2 j2 (List.mem_cons_self _ _))
  | cons j junk ih =>
    cases junk2 with
    | nil =>
      simp at h
      exact absurd (h.1 ▸ hc2) (hj j (List.mem_cons_self _ _))
    | cons j2 junk2 =>
      simp at h
      have := ih (fun x hx => hj x (List.mem_cons_of_mem _ hx)) junk2
        (by simpa using h.2) (fun x hx => hj2 x (List.mem_cons_of_mem _ hx))
      simp at this
      simp [h.1, this]

/-- A pass on a channel that supplies the whole message returns: the start-of-frame
bytes `pre` (ASCII), the address `a`, the function code `f`, bytes `body` on which
the middle of the pass returns without reading further, and the two trailer bytes
`post` (ASCII). The pass ends at the characters `rest` that follow, and what a
`pass_claim` says of a pass that returns holds of `a`, `f` and `body`. -/
theorem pass_total (K : FlagBits) (mode : Mode) (pr : Bool) (hmode : is_modbus mode)
    (pre body post : List Nat) (a f : Nat) (cs rest : List SerialChar) (sf ef : Nat)
    (res : List Frame) {P : Nat → Nat → List Nat → List Frame → Prop}
    (hcs : wire_bytes mode cs = some (pre ++ a :: f :: (body ++ post)))
    (hpp : if is_rtu mode then pre = [] ∧ post = [] else start_of_frame pre ∧ post.length = 2)
    (hpar : ∀ frame s2, Supplies mode (body ++ post) rest s2 →
      wp (pass_body K mode pr a f frame) (fun _ s3 => Supplies mode post rest s3) Never s2)
    (hclaim : pass_claim K mode pr ⟨cs ++ rest, sf, ef, res⟩ P) :
    ∃ s1 frames, WorkerThread_message K mode pr ⟨cs ++ rest, sf, ef, res⟩ = .ret (!pr) s1
      ∧ s1.mModbus = rest ∧ s1.mResults = res ++ frames ∧ P a f body frames := by
  have hpre : if is_rtu mode then pre = [] else start_of_frame pre := by
    split_ifs at hpp ⊢ <;> exact hpp.1
  have hpost : if is_rtu mode then post = [] else post.length = 2 := by
    split_ifs at hpp ⊢ <;> exact hpp.2
  have hw : wp (WorkerThread_message K mode pr) (fun b s1 => b = (!pr) ∧ s1.mModbus = rest)
      Never ⟨cs ++ rest, sf, ef, res⟩ := by
    rw [message_pieces]
    refine pass_head_sup mode hmode hpre ⟨cs, rfl, hcs⟩ (fun frame s1 h1 _ => ?_)
    refine wp_mono _ _ _ _ _ _ (hpar frame s1 h1) (fun fr s3 h3 => ?_) (fun _ h => h)
    exact pass_end_sup mode pr hmode fr hpost h3 (fun last s4 hm _ _ => ⟨rfl, hm⟩)
  obtain ⟨b, s1, hm, hb, hrest⟩ := wp_returns hw
  subst hb
  unfold pass_claim at hclaim
  rw [hm] at hclaim
  obtain ⟨a2, f2, body2, frames, ⟨pre2, post2, hrun, hres, hpp2⟩, hP⟩ := hclaim
  obtain ⟨cs2, h1, h2⟩ := hrun.wire
  have hcs2 : cs2 = cs := by
    rw [hrest] at h1
    exact (List.append_cancel_right h1).symm
  subst hcs2
  rw [hcs] at h2
  have hl : pre ++ (a :: f :: (body ++ post)) = pre2 ++ (a2 :: f2 :: (body2 ++ post2)) := by
    simpa using h2
  refine ⟨s1, frames, hm, hrest, hres, ?_⟩
  by_cases hr : is_rtu mode = true
  · simp only [hr, if_true] at hpp hpp2
    obtain ⟨rfl, rfl⟩ := hpp
    obtain ⟨rfl, rfl⟩ := hpp2
    simp at hl
    obtain ⟨rfl, rfl, rfl⟩ := hl
    exact hP
  · simp only [hr, if_false] at hpp hpp2
    have e1 := start_of_frame_unique hpp.1 hpp2.1 hl
    subst e1
    simp at hl
    obtain ⟨rfl, rfl, hl⟩ := hl
    have e2 := (List.append_inj' hl (by rw [hpp.2, hpp2.2])).1
    subst e2
    exact hP

theorem request_crc_iff (mode : Mode) (pr : Bool) (hmode : is_modbus mode)
    (hreq : is_response mode pr = false) :
    (mode = .ModbusRTUClient ∨ mode = .ModbusRTUBoth) ↔ is_rtu mode = true := by
  rcases hmode with rfl | rfl | rfl | rfl | rfl | rfl <;> simp [is_response] at hreq <;>
    simp [is_rtu]

theorem response_crc_iff (mode : Mode) (pr : Bool) (hmode : is_modbus mode)
    (hresp : is_response mode pr = true) :
    (mode = .ModbusRTUServer ∨ mode = .ModbusRTUBoth) ↔ is_rtu mode = true := by
  rcases hmode with rfl | rfl | rfl | rfl | rfl | rfl <;> simp [is_response] at hresp <;>
    simp [is_rtu]

theorem request_ck_length (mode : Mode) (pr : Bool) (hmode : is_modbus mode)
    (hreq : is_response mode pr = false) (ck : List Nat)
    (hck : ck.length = if is_rtu mode then 2 else 1) :
    ck.length = if mode = .ModbusRTUClient ∨ mode = .ModbusRTUBoth then 2 else 1 := by
  rw [hck]
  by_cases h : is_rtu mode = true
  · rw [if_pos h, if_pos ((request_crc_iff mode pr hmode hreq).mpr h)]
  · rw [if_neg h, if_neg (fun x => h ((request_crc_iff mode pr hmode hreq).mp x))]

theorem response_ck_length (mode : Mode) (pr : Bool) (hmode : is_modbus mode)
    (hresp : is_response mode pr = true) (ck : List Nat)
    (hck : ck.length = if is_rtu mode then 2 else 1) :
    ck.length = if mode = .ModbusRTUServer ∨ mode = .ModbusRTUBoth then 2 else 1 := by
  rw [hck]
  by_cases h : is_rtu mode = true
  · rw [if_pos h, if_pos ((response_crc_iff mode pr hmode hresp).mpr h)]
  · rw [if_neg h, if_neg (fun x => h ((response_crc_iff mode pr hmode hresp).mp x))]

theorem wire_bytes_rtu_length (mode : Mode) (hr : is_rtu mode = true) :
    ∀ (cs : List SerialChar) (bs : List Nat), wire_bytes mode cs = some bs →
      cs.length = bs.length := by
  have hm : mode = .ModbusRTUClient ∨ mode = .ModbusRTUServer ∨ mode = .ModbusRTUBoth := by
    cases mode <;> simp [is_rtu] at hr <;> simp
  intro cs
  induction cs with
  | nil => intro bs h; cases h; rfl
  | cons c cs ih =>
    intro bs h
    rw [wire_bytes_cons mode c cs (by tauto)] at h
    cases hcs : wire_bytes mode cs with
    | none => rw [hcs] at h; cases h
    | some b2 =>
      rw [hcs] at h
      simp only [Option.map_some', Option.some.injEq] at h
      subst h
      simp [ih b2 hcs]

/-- C32: in each of the six Modbus modes, in the response role, a channel that
holds a whole Read Coils (0x01), Read Discrete Inputs (0x02) or Report Server ID
(0x11) response (the start-of-frame bytes `pre` in ASCII, the address `a`, the
function code `f`, the byte count `bc`, `bc` data bytes `data`, the checksum
bytes `ck`, two in RTU and one in ASCII, and the two trailer bytes `post` in
ASCII) followed by any characters `rest`: the pass returns, has consumed exactly
the message, and has added to the results the header with flags exactly RESPONSE,
`mData1 = ( a << 56 ) + ( f << 48 ) + bc` and `mData2 = 0`, then `bc` frames, the
`i`-th with flags exactly DATA and `mData1 = data[ i ] << 32`, then the END frame,
with CHECKSUM_ERROR iff the received checksum differs from the CRC (RTU) or LRC
(ASCII) of `a`, `f`, `bc` and the data bytes. -/
theorem byte_response_decodes (K : FlagBits) (mode : Mode) (pr : Bool) (a f bc : Nat)
    (pre data ck post : List Nat) (cs rest : List SerialChar) (sf ef : Nat) (res : List Frame)
    (hmode : is_modbus mode) (hresp : is_response mode pr = true)
    (hf : f = 0x01 ∨ f = 0x02 ∨ f = 0x11)
    (hcs : wire_bytes mode cs = some (pre ++ a :: f :: bc :: (data ++ ck ++ post)))
    (hdata : data.length = bc) (hck : ck.length = if is_rtu mode then 2 else 1)
    (hpp : if is_rtu mode then pre = [] ∧ post = [] else start_of_frame pre ∧ post.length = 2) :
    ∃ hdr mids last s1,
      WorkerThread_message K mode pr ⟨cs ++ rest, sf, ef, res⟩ = .ret (!pr) s1
        ∧ s1.mModbus = rest ∧ s1.mResults = res ++ (hdr :: mids ++ [last])
        ∧ frame_info hdr = (K.FLAG_RESPONSE_FRAME, pack8 a f 0 0 0 0 0 bc, 0)
        ∧ mids.length = bc
        ∧ mids.map frame_info = data.map (byte_info K)
        ∧ last.mFlags = flagged K K.FLAG_END_FRAME
            (received_bad (is_rtu mode) (a :: f :: bc :: data) ck)
        ∧ last.mData1 = U64 ((ck.getD 1 0 <<< 8) + ck.getD 0 0) := by
  have hf80 : f &&& 0x80 = 0 := by rcases hf with rfl | rfl | rfl <;> decide
  obtain ⟨s1, frames, hm, hrest, hres, hP⟩ :=
    pass_total K mode pr hmode pre (bc :: (data ++ ck)) post a f cs rest sf ef res
      (by simpa using hcs) hpp
      (fun frame s2 h2 => by
        rw [pass_body_response K mode pr hmode hresp a f hf80]
        have e : response_switch K mode a f
            { frame with mFlags := K.FLAG_RESPONSE_FRAME, mData1 := 0, mData2 := 0 }
            = response_READ_COILS K mode a f
              { frame with mFlags := K.FLAG_RESPONSE_FRAME, mData1 := 0, mData2 := 0 } := by
          rcases hf with rfl | rfl | rfl <;> simp [response_switch]
        rw [e]
        exact response_READ_COILS_sup K mode a f _ hdata
          (response_ck_length mode pr hmode hresp ck hck) (by simpa using h2))
      (byte_response_pass K mode pr _ hmode)
  obtain ⟨fs, last, hfr, bc2, data2, hl2, ck2, hdr, mids, hb, hck2, hfs, hh, hmid, hlf, hl1, _⟩ :=
    hP hf hresp
  simp only [List.singleton_append, List.cons_append, List.cons.injEq, List.nil_append] at hb
  obtain ⟨rfl, hb⟩ := hb
  obtain ⟨rfl, rfl⟩ := List.append_inj hb (by rw [hdata, hl2])
  refine ⟨hdr, mids, last, s1, hm, hrest, ?_, hh, ?_, hmid, hlf, hl1⟩
  · rw [hres, hfr, hfs]
  · have := congrArg List.length hmid
    simpa [hdata] using this

set_option maxRecDepth 100000 in
theorem byte_response_decodes_witness :
    ∃ hdr mids last s1,
      WorkerThread_message sampleFlags .ModbusASCIIServer false
          ⟨sampleWire [0x3A, 0x30, 0x31, 0x30, 0x31, 0x30, 0x32, 0x41, 0x41, 0x42, 0x42, 0x39,
            0x37, 0x0D, 0x0A] ++ [], 0, 0, []⟩ = .ret (!false) s1
        ∧ s1.mModbus = [] ∧ s1.mResults = [] ++ (hdr :: mids ++ [last])
        ∧ frame_info hdr = (sampleFlags.FLAG_RESPONSE_FRAME, pack8 0x01 0x01 0 0 0 0 0 0x02, 0)
        ∧ mids.length = 0x02
        ∧ mids.map frame_info = [0xAA, 0xBB].map (byte_info sampleFlags)
        ∧ last.mFlags = flagged sampleFlags sampleFlags.FLAG_END_FRAME
            (received_bad (is_rtu .ModbusASCIIServer) (0x01 :: 0x01 :: 0x02 :: [0xAA, 0xBB]) [0x97])
        ∧ last.mData1 = U64 (([0x97].getD 1 0 <<< 8) + [0x97].getD 0 0) :=
  byte_response_decodes sampleFlags .ModbusASCIIServer false 0x01 0x01 0x02
    [0x3A] [0xAA, 0xBB] [0x97] [0x0D, 0x0A]
    (sampleWire [0x3A, 0x30, 0x31, 0x30, 0x31, 0x30, 0x32, 0x41, 0x41, 0x42, 0x42, 0x39,
      0x37, 0x0D, 0x0A]) [] 0 0 []
    (by simp [is_modbus]) rfl (Or.inl rfl) (by decide) rfl (by decide)
    (by rw [if_neg (by decide)]; exact ⟨⟨[], 0x3A, rfl, by decide, by simp⟩, rfl⟩)

/-- C26: in each of the six Modbus modes, in the request role (RTU client
included), a channel that holds a whole Read FIFO Queue (0x18) request (the
start-of-frame bytes `pre` in ASCII, the address `a`, the function code 0x18,
two payload bytes `p1`, `p2`, the checksum bytes `ck`, two in RTU and one in
ASCII, and the two trailer bytes `post` in ASCII) followed by any characters
`rest`: the pass returns and has consumed exactly the message (in RTU its six
characters), and has added to the results exactly one frame, with
`mData1 = ( a << 56 ) + ( 0x18 << 48 ) + ( p1 << 40 ) + ( p2 << 32 ) + ( 0 << 24 ) +
( 0 << 16 ) + ( c1 << 8 ) + c0`, `mData2 = 0` and flags REQUEST with CHECKSUM_ERROR
iff the received checksum differs from the CRC (RTU) or LRC (ASCII) of
`a, 0x18, p1, p2`. -/
theorem fifo_request_decodes (K : FlagBits) (mode : Mode) (pr : Bool) (a p1 p2 : Nat)
    (pre ck post : List Nat) (cs rest : List SerialChar) (sf ef : Nat) (res : List Frame)
    (hmode : is_modbus mode) (hreq : is_response mode pr = false)
    (hcs : wire_bytes mode cs = some (pre ++ a :: 0x18 :: p1 :: p2 :: (ck ++ post)))
    (hck : ck.length = if is_rtu mode then 2 else 1)
    (hpp : if is_rtu mode then pre = [] ∧ post = [] else start_of_frame pre ∧ post.length = 2) :
    ∃ last s1,
      WorkerThread_message K mode pr ⟨cs ++ rest, sf, ef, res⟩ = .ret (!pr) s1
        ∧ s1.mModbus = rest ∧ s1.mResults = res ++ [last]
        ∧ (is_rtu mode = true → cs.length = 6)
        ∧ last.mData1 = pack8 a 0x18 p1 p2 0 0 (ck.getD 1 0) (ck.getD 0 0)
        ∧ last.mData2 = 0
        ∧ last.mFlags = flagged K K.FLAG_REQUEST_FRAME
            (received_bad (is_rtu mode) [a, 0x18, p1, p2] ck) := by
  obtain ⟨s1, frames, hm, hrest, hres, hP⟩ :=
    pass_total K mode pr hmode pre (p1 :: p2 :: ck) post a 0x18 cs rest sf ef res
      (by simpa using hcs) hpp
      (fun frame s2 h2 => by
        rw [pass_body_request K mode pr hmode hreq]
        have e : request_switch K mode a 0x18 { frame with mFlags := K.FLAG_REQUEST_FRAME }
            = request_READ_FIFO_QUEUE K mode a 0x18
              { frame with mFlags := K.FLAG_REQUEST_FRAME } := by
          simp [request_switch]
        rw [e]
        exact request_READ_FIFO_QUEUE_sup K mode a 0x18 _
          (request_ck_length mode pr hmode hreq ck hck) (by simpa using h2))
      (fifo_request_pass K mode pr _ hmode)
  obtain ⟨last, hfr, q1, q2, ck2, hb, _, _, h1, h2, h3⟩ := hP rfl hreq
  simp only [List.cons_append, List.cons.injEq, List.nil_append] at hb
  obtain ⟨rfl, rfl, rfl⟩ := hb
  refine ⟨last, s1, hm, hrest, by rw [hres, hfr], ?_, h1, h2, h3⟩
  intro hr
  rw [wire_bytes_rtu_length mode hr cs _ hcs]
  simp only [hr, if_true] at hck hpp
  obtain ⟨rfl, rfl⟩ := hpp
  simp [hck]

theorem fifo_request_decodes_witness :
    ∃ last s1,
      WorkerThread_message sampleFlags .ModbusRTUClient false
          ⟨sampleWire [0x01, 0x18, 0x04, 0xDE, 0x07, 0x87] ++ [], 0, 0, []⟩ = .ret (!false) s1
        ∧ s1.mModbus = [] ∧ s1.mResults = [] ++ [last]
        ∧ (is_rtu .ModbusRTUClient = true
            → (sampleWire [0x01, 0x18, 0x04, 0xDE, 0x07, 0x87]).length = 6)
        ∧ last.mData1 = pack8 0x01 0x18 0x04 0xDE 0 0 ([0x07, 0x87].getD 1 0)
            ([0x07, 0x87].getD 0 0)
        ∧ last.mData2 = 0
        ∧ last.mFlags = flagged sampleFlags sampleFlags.FLAG_REQUEST_FRAME
            (received_bad (is_rtu .ModbusRTUClient) [0x01, 0x18, 0x04, 0xDE] [0x07, 0x87]) :=
  fifo_request_decodes sampleFlags .ModbusRTUClient false 0x01 0x04 0xDE [] [0x07, 0x87] []
    (sampleWire [0x01, 0x18, 0x04, 0xDE, 0x07, 0x87]) [] 0 0 []
    (Or.inl rfl) rfl (by decide) (by decide) (by rw [if_pos (by decide)]; exact ⟨rfl, rfl⟩)

/-- C30: in each of the six Modbus modes and in either role, a channel that
holds a whole Mask Write Register (0x16) message (the start-of-frame bytes `pre`
in ASCII, the address `a`, the function code 0x16, six payload bytes
`p1 .. p6`, the checksum bytes `ck`, two in RTU and one in ASCII, and the two
trailer bytes `post` in ASCII) followed by any characters `rest`: the pass
returns, has consumed exactly the message, and has added to the results exactly
one frame, with `mData1 = ( a << 56 ) + ( 0x16 << 48 ) + ( p1 << 40 ) + ( p2 << 32 ) +
( p3 << 24 ) + ( p4 << 16 ) + ( c1 << 8 ) + c0`, `mData2 = ( p5 << 8 ) + p6` and flags
REQUEST or RESPONSE (by role) with CHECKSUM_ERROR iff the received checksum
differs from the CRC (RTU) or LRC (ASCII) of `a, 0x16, p1 .. p6`. -/
theorem mask_write_register_decodes (K : FlagBits) (mode : Mode) (pr : Bool)
    (a p1 p2 p3 p4 p5 p6 : Nat)
    (pre ck post : List Nat) (cs rest : List SerialChar) (sf ef : Nat) (res : List Frame)
    (hmode : is_modbus mode)
    (hcs : wire_bytes mode cs
      = some (pre ++ a :: 0x16 :: p1 :: p2 :: p3 :: p4 :: p5 :: p6 :: (ck ++ post)))
    (hck : ck.length = if is_rtu mode then 2 else 1)
    (hpp : if is_rtu mode then pre = [] ∧ post = [] else start_of_frame pre ∧ post.length = 2) :
    ∃ last s1,
      WorkerThread_message K mode pr ⟨cs ++ rest, sf, ef, res⟩ = .ret (!pr) s1
        ∧ s1.mModbus = rest ∧ s1.mResults = res ++ [last]
        ∧ last.mData1 = pack8 a 0x16 p1 p2 p3 p4 (ck.getD 1 0) (ck.getD 0 0)
        ∧ last.mData2 = U64 ((p5 <<< 8) + p6)
        ∧ last.mFlags = flagged K
            (if is_response mode pr then K.FLAG_RESPONSE_FRAME else K.FLAG_REQUEST_FRAME)
            (received_bad (is_rtu mode) [a, 0x16, p1, p2, p3, p4, p5, p6] ck) := by
  have hclaim : pass_claim K mode pr ⟨cs ++ rest, sf, ef, res⟩ (fun a f body frames =>
      f = 0x16 → ∃ p1 p2 p3 p4 p5 p6 ck last, body = [p1, p2, p3, p4, p5, p6] ++ ck
        ∧ ck.length = (if is_rtu mode then 2 else 1)
        ∧ frames = [last]
        ∧ last.mData1 = pack8 a 0x16 p1 p2 p3 p4 (ck.getD 1 0) (ck.getD 0 0)
        ∧ last.mData2 = U64 ((p5 <<< 8) + p6)
        ∧ last.mFlags = flagged K
            (if is_response mode pr then K.FLAG_RESPONSE_FRAME else K.FLAG_REQUEST_FRAME)
            (received_bad (is_rtu mode) [a, 0x16, p1, p2, p3, p4, p5, p6] ck)) := by
    unfold pass_claim
    exact mask_write_register_pass K mode pr _ hmode
  obtain ⟨s1, frames, hm, hrest, hres, hP⟩ :=
    pass_total K mode pr hmode pre (p1 :: p2 :: p3 :: p4 :: p5 :: p6 :: ck) post a 0x16
      cs rest sf ef res
      (by simpa using hcs) hpp
      (fun frame s2 h2 => by
        cases hrole : is_response mode pr with
        | false =>
          rw [pass_body_request K mode pr hmode hrole]
          have e : request_switch K mode a 0x16 { frame with mFlags := K.FLAG_REQUEST_FRAME }
              = request_MASK_WRITE_REGISTER K mode a 0x16
                { frame with mFlags := K.FLAG_REQUEST_FRAME } := by
            simp [request_switch]
          rw [e]
          exact request_MASK_WRITE_REGISTER_sup K mode a 0x16 _
            (request_ck_length mode pr hmode hrole ck hck) (by simpa using h2)
        | true =>
          rw [pass_body_response K mode pr hmode hrole a 0x16 (by decide)]
          have e : response_switch K mode a 0x16
              { frame with mFlags := K.FLAG_RESPONSE_FRAME, mData1 := 0, mData2 := 0 }
              = response_MASK_WRITE_REGISTER K mode a 0x16
                { frame with mFlags := K.FLAG_RESPONSE_FRAME, mData1 := 0, mData2 := 0 } := by
            simp [response_switch]
          rw [e]
          exact response_MASK_WRITE_REGISTER_sup K mode a 0x16 _
            (response_ck_length mode pr hmode hrole ck hck) (by simpa using h2))
      hclaim
  obtain ⟨q1, q2, q3, q4, q5, q6, ck2, last, hb, _, hfr, h1, h2, h3⟩ := hP rfl
  simp only [List.cons_append, List.cons.injEq, List.nil_append] at hb
  obtain ⟨rfl, rfl, rfl, rfl, rfl, rfl, rfl⟩ := hb
  exact ⟨last, s1, hm, hrest, by rw [hres, hfr], h1, h2, h3⟩

theorem mask_write_register_decodes_witness :
    ∃ last s1,
      WorkerThread_message sampleFlags .ModbusRTUServer false
          ⟨sampleWire [0x01, 0x16, 0x00, 0x04, 0x00, 0xF2, 0x00, 0x25, 0x00, 0x00] ++ [],
            0, 0, []⟩ = .ret (!false) s1
        ∧ s1.mModbus = [] ∧ s1.mResults = [] ++ [last]
        ∧ last.mData1 = pack8 0x01 0x16 0x00 0x04 0x00 0xF2 ([0x00, 0x00].getD 1 0)
            ([0x00, 0x00].getD 0 0)
        ∧ last.mData2 = U64 ((0x00 <<< 8) + 0x25)
        ∧ last.mFlags = flagged sampleFlags
            (if is_response .ModbusRTUServer false then sampleFlags.FLAG_RESPONSE_FRAME
              else sampleFlags.FLAG_REQUEST_FRAME)
            (received_bad (is_rtu .ModbusRTUServer)
              [0x01, 0x16, 0x00, 0x04, 0x00, 0xF2, 0x00, 0x25] [0x00, 0x00]) :=
  mask_write_register_decodes sampleFlags .ModbusRTUServer false 0x01 0x00 0x04 0x00 0xF2
    0x00 0x25 [] [0x00, 0x00] []
    (sampleWire [0x01, 0x16, 0x00, 0x04, 0x00, 0xF2, 0x00, 0x25, 0x00, 0x00]) [] 0 0 []
    (by simp [is_modbus]) (by decide) (by decide)
    (by rw [if_pos (by decide)]; exact ⟨rfl, rfl⟩)

/-- C31: in each of the six Modbus modes, in the request role, a channel that
holds a whole Read/Write Multiple Registers (0x17) request (the start-of-frame
bytes `pre` in ASCII, the address `a`, the function code 0x17, the nine header
bytes `p1 .. p8, bc`, `2 * ( bc / 2 )` data bytes `data`, the checksum bytes
`ck`, two in RTU and one in ASCII, and the two trailer bytes `post` in ASCII)
followed by any characters `rest`: the pass returns, has consumed exactly the
message, and has added to the results the header with flags exactly REQUEST,
`mData1 = ( a << 56 ) + ( 0x17 << 48 ) + ( p1 << 40 ) + ( p2 << 32 ) + ( p3 << 24 ) +
( p4 << 16 ) + ( 0 << 8 ) + bc` and `mData2 = ( p5 << 24 ) + ( p6 << 16 ) +
( p7 << 8 ) + p8`, then `bc / 2` DATA frames, one per two data bytes
(`mData1 = ( hi << 40 ) + ( lo << 32 )`), then the END frame, with CHECKSUM_ERROR
iff the received checksum differs from the CRC (RTU) or LRC (ASCII) of the
address, the function code, the nine header bytes and the data bytes. -/
theorem readwrite_request_decodes (K : FlagBits) (mode : Mode) (pr : Bool)
    (a p1 p2 p3 p4 p5 p6 p7 p8 bc : Nat)
    (pre data ck post : List Nat) (cs rest : List SerialChar) (sf ef : Nat) (res : List Frame)
    (hmode : is_modbus mode) (hreq : is_response mode pr = false)
    (hcs : wire_bytes mode cs = some (pre ++ a :: 0x17 :: p1 :: p2 :: p3 :: p4 :: p5 :: p6 ::
      p7 :: p8 :: bc :: (data ++ ck ++ post)))
    (hdata : data.length = 2 * (bc / 2)) (hck : ck.length = if is_rtu mode then 2 else 1)
    (hpp : if is_rtu mode then pre = [] ∧ post = [] else start_of_frame pre ∧ post.length = 2) :
    ∃ hdr mids last s1,
      WorkerThread_message K mode pr ⟨cs ++ rest, sf, ef, res⟩ = .ret (!pr) s1
        ∧ s1.mModbus = rest ∧ s1.mResults = res ++ (hdr :: mids ++ [last])
        ∧ frame_info hdr = (K.FLAG_REQUEST_FRAME, pack8 a 0x17 p1 p2 p3 p4 0 bc,
            U64 ((p5 <<< 24) + (p6 <<< 16) + (p7 <<< 8) + p8))
        ∧ mids.length = bc / 2
        ∧ mids.map frame_info = (word_pairs data).map (word_info K)
        ∧ last.mFlags = flagged K K.FLAG_END_FRAME
            (received_bad (is_rtu mode)
              (a :: 0x17 :: p1 :: p2 :: p3 :: p4 :: p5 :: p6 :: p7 :: p8 :: bc :: data) ck)
        ∧ last.mData1 = U64 ((ck.getD 1 0 <<< 8) + ck.getD 0 0) := by
  obtain ⟨s1, frames, hm, hrest, hres, hP⟩ :=
    pass_total K mode pr hmode pre
      (p1 :: p2 :: p3 :: p4 :: p5 :: p6 :: p7 :: p8 :: bc :: (data ++ ck)) post a 0x17
      cs rest sf ef res
      (by simpa using hcs) hpp
      (fun frame s2 h2 => by
        rw [pass_body_request K mode pr hmode hreq]
        have e : request_switch K mode a 0x17 { frame with mFlags := K.FLAG_REQUEST_FRAME }
            = request_READWRITE_MULTIPLE_REGISTERS K mode a 0x17
              { frame with mFlags := K.FLAG_REQUEST_FRAME } := by
          simp [request_switch]
        rw [e]
        exact request_READWRITE_sup K mode a 0x17 _ hdata
          (request_ck_length mode pr hmode hreq ck hck) (by simpa using h2))
      (readwrite_request_pass K mode pr _ hmode)
  obtain ⟨fs, last, hfr, q1, q2, q3, q4, q5, q6, q7, q8, bc2, data2, hl2, ck2, hdr, mids, hb,
    hck2, hfs, hh, hmid, hlf, hl1, _⟩ := hP rfl hreq
  simp only [List.cons_append, List.cons.injEq, List.nil_append] at hb
  obtain ⟨rfl, rfl, rfl, rfl, rfl, rfl, rfl, rfl, rfl, hb⟩ := hb
  obtain ⟨rfl, rfl⟩ := List.append_inj hb (by rw [hdata, hl2])
  refine ⟨hdr, mids, last, s1, hm, hrest, ?_, hh, ?_, hmid, ?_, hl1⟩
  · rw [hres, hfr, hfs]
  · have := congrArg List.length hmid
    simp only [List.length_map] at this
    rw [this]
    exact word_pairs_length _ _ hdata
  · rw [hlf]; rfl

set_option maxRecDepth 100000 in
theorem readwrite_request_decodes_witness :
    ∃ hdr mids last s1,
      WorkerThread_message sampleFlags .ModbusRTUClient false
          ⟨sampleWire [0x01, 0x17, 0x00, 0x03, 0x00, 0x06, 0x00, 0x0E, 0x00, 0x01, 0x02,
            0x00, 0xFF, 0x12, 0x34] ++ [], 0, 0, []⟩ = .ret (!false) s1
        ∧ s1.mModbus = [] ∧ s1.mResults = [] ++ (hdr :: mids ++ [last])
        ∧ frame_info hdr = (sampleFlags.FLAG_REQUEST_FRAME,
            pack8 0x01 0x17 0x00 0x03 0x00 0x06 0 0x02,
            U64 ((0x00 <<< 24) + (0x0E <<< 16) + (0x00 <<< 8) + 0x01))
        ∧ mids.length = 0x02 / 2
        ∧ mids.map frame_info = (word_pairs [0x00, 0xFF]).map (word_info sampleFlags)
        ∧ last.mFlags = flagged sampleFlags sampleFlags.FLAG_END_FRAME
            (received_bad (is_rtu .ModbusRTUClient)
              (0x01 :: 0x17 :: 0x00 :: 0x03 :: 0x00 :: 0x06 :: 0x00 :: 0x0E :: 0x00 :: 0x01 ::
                0x02 :: [0x00, 0xFF]) [0x12, 0x34])
        ∧ last.mData1 = U64 (([0x12, 0x34].getD 1 0 <<< 8) + [0x12, 0x34].getD 0 0) :=
  readwrite_request_decodes sampleFlags .ModbusRTUClient false 0x01 0x00 0x03 0x00 0x06 0x00
    0x0E 0x00 0x01 0x02 [] [0x00, 0xFF] [0x12, 0x34] []
    (sampleWire [0x01, 0x17, 0x00, 0x03, 0x00, 0x06, 0x00, 0x0E, 0x00, 0x01, 0x02,
      0x00, 0xFF, 0x12, 0x34]) [] 0 0 []
    (Or.inl rfl) rfl (by decide) (by decide) (by decide)
    (by rw [if_pos (by decide)]; exact ⟨rfl, rfl⟩)

theorem subreq_infos_flags (K : FlagBits) :
    ∀ (data : List Nat) (x : Nat × Nat × Nat), x ∈ subreq_infos K data →
      x.1 = K.FLAG_FILE_SUBREQ := by
  intro data
  induction data using subreq_infos.induct K with
  | case1 v1 v2 v3 v4 v5 v6 v7 t ih =>
    intro x hx
    simp only [subreq_infos, List.mem_cons] at hx
    rcases hx with rfl | hx
    · rfl
    · exact ih x hx
  | case2 data hne =>
    intro x hx
    rw [subreq_infos] at hx
    · cases hx
    · exact hne

/-- C29: in each of the six Modbus modes, in the request role, a channel that
holds a whole Read File Record (0x14) request (the start-of-frame bytes `pre` in
ASCII, the address `a`, the function code 0x14, the byte count `bc`,
`ceil( bc / 7 )` sub-requests of seven bytes each (`data`), the checksum bytes
`ck`, two in RTU and one in ASCII, and the two trailer bytes `post` in ASCII)
followed by any characters `rest`: the pass returns, has consumed exactly the
message, and has added to the results the header (flags exactly REQUEST,
`mData1 = ( a << 56 ) + ( 0x14 << 48 ) + bc`), then `ceil( bc / 7 )` frames, one
per sub-request, with flags exactly FILE_SUBREQ (so no DATA frame) and
`mData1 = ( v1 << 48 ) + ( v2 << 40 ) + ( v3 << 32 ) + ( v4 << 24 ) + ( v5 << 16 ) +
( v6 << 8 ) + v7` built from its seven bytes in wire order, then the END frame,
with CHECKSUM_ERROR iff the received checksum differs from the CRC (RTU) or LRC
(ASCII) of the address, the function code, the byte count and all the
sub-request bytes. -/
theorem read_file_request_decodes (K : FlagBits) (mode : Mode) (pr : Bool) (a bc : Nat)
    (pre data ck post : List Nat) (cs rest : List SerialChar) (sf ef : Nat) (res : List Frame)
    (hmode : is_modbus mode) (hreq : is_response mode pr = false) (hbc : bc < 256)
    (hcs : wire_bytes mode cs = some (pre ++ a :: 0x14 :: bc :: (data ++ ck ++ post)))
    (hdata : data.length = 7 * ((bc + 6) / 7))
    (hck : ck.length = if is_rtu mode then 2 else 1)
    (hpp : if is_rtu mode then pre = [] ∧ post = [] else start_of_frame pre ∧ post.length = 2) :
    ∃ hdr mids last s1,
      WorkerThread_message K mode pr ⟨cs ++ rest, sf, ef, res⟩ = .ret (!pr) s1
        ∧ s1.mModbus = rest ∧ s1.mResults = res ++ (hdr :: mids ++ [last])
        ∧ frame_info hdr = (K.FLAG_REQUEST_FRAME, pack8 a 0x14 0 0 0 0 0 bc, 0)
        ∧ mids.length = (bc + 6) / 7
        ∧ (∀ m ∈ mids, m.mFlags = K.FLAG_FILE_SUBREQ)
        ∧ mids.map frame_info = subreq_infos K data
        ∧ last.mFlags = flagged K K.FLAG_END_FRAME
            (received_bad (is_rtu mode) (a :: 0x14 :: bc :: data) ck) := by
  have hu : U64 bc = bc := by simp only [U64]; omega
  have hu2 : U64 ((0 <<< 8) + bc) = bc := by simp only [Nat.zero_shiftLeft, Nat.zero_add, hu]
  obtain ⟨s1, frames, hm, hrest, hres, hP⟩ :=
    pass_total K mode pr hmode pre (bc :: (data ++ ck)) post a 0x14 cs rest sf ef res
      (by simpa using hcs) hpp
      (fun frame s2 h2 => by
        rw [pass_body_request K mode pr hmode hreq]
        have e : request_switch K mode a 0x14 { frame with mFlags := K.FLAG_REQUEST_FRAME }
            = request_READ_FILE_RECORD K mode a 0x14
              { frame with mFlags := K.FLAG_REQUEST_FRAME } := by
          simp [request_switch]
        rw [e]
        exact request_READ_FILE_RECORD_sup K mode a 0x14 _ (by rw [hu2]; exact hdata)
          (request_ck_length mode pr hmode hreq ck hck) (by simpa using h2))
      (read_file_request_pass K mode pr _ hmode)
  obtain ⟨bc2, data2, ck2, hdr, mids, last, hb, hck2, hfr, hh, hlen, _, hl2, hmid, hlf⟩ :=
    hP rfl hreq
  simp only [List.cons_append, List.cons.injEq] at hb
  obtain ⟨rfl, hb⟩ := hb
  rw [hu] at hlen
  obtain ⟨rfl, rfl⟩ := List.append_inj hb (by rw [hdata, hl2, hlen])
  refine ⟨hdr, mids, last, s1, hm, hrest, by rw [hres, hfr], hh, hlen, ?_, hmid, hlf⟩
  intro m hmem
  have h1 : frame_info m ∈ mids.map frame_info := List.mem_map_of_mem _ hmem
  rw [hmid] at h1
  have h2 := subreq_infos_flags K data _ h1
  simpa [frame_info] using h2

set_option maxRecDepth 100000 in
theorem read_file_request_decodes_witness :
    ∃ hdr mids last s1,
      WorkerThread_message sampleFlags .ModbusRTUClient false
          ⟨sampleWire [0x01, 0x14, 0x07, 0x06, 0x00, 0x04, 0x00, 0x01, 0x00, 0x02, 0x00, 0x00]
            ++ [], 0, 0, []⟩ = .ret (!false) s1
        ∧ s1.mModbus = [] ∧ s1.mResults = [] ++ (hdr :: mids ++ [last])
        ∧ frame_info hdr = (sampleFlags.FLAG_REQUEST_FRAME, pack8 0x01 0x14 0 0 0 0 0 0x07, 0)
        ∧ mids.length = (0x07 + 6) / 7
        ∧ (∀ m ∈ mids, m.mFlags = sampleFlags.FLAG_FILE_SUBREQ)
        ∧ mids.map frame_info
            = subreq_infos sampleFlags [0x06, 0x00, 0x04, 0x00, 0x01, 0x00, 0x02]
        ∧ last.mFlags = flagged sampleFlags sampleFlags.FLAG_END_FRAME
            (received_bad (is_rtu .ModbusRTUClient)
              (0x01 :: 0x14 :: 0x07 :: [0x06, 0x00, 0x04, 0x00, 0x01, 0x00, 0x02])
              [0x00, 0x00]) :=
  read_file_request_decodes sampleFlags .ModbusRTUClient false 0x01 0x07 []
    [0x06, 0x00, 0x04, 0x00, 0x01, 0x00, 0x02] [0x00, 0x00] []
    (sampleWire [0x01, 0x14, 0x07, 0x06, 0x00, 0x04, 0x00, 0x01, 0x00, 0x02, 0x00, 0x00])
    [] 0 0 []
    (Or.inl rfl) rfl (by decide) (by decide) (by decide) (by decide)
    (by rw [if_pos (by decide)]; exact ⟨rfl, rfl⟩)

theorem wp_state {α : Type} {m : Worker α} {H : Analyzer → Prop} {s : Analyzer}
    (h : wp m (fun _ => H) H s) : H (m s).state := by
  unfold wp at h
  cases hm : m s with
  | ret a s1 => rw [hm] at h; exact h
  | blocked s1 => rw [hm] at h; exact h

theorem wp_read_kept {mode : Mode} {H : Analyzer → Prop} {s : Analyzer}
    {Q : Nat → Analyzer → Prop}
    (hH : ∀ s s1 fs, H s → s1.mResults = s.mResults ++ fs → H s1) (h : H s)
    (hQ : ∀ v s1, H s1 → Q v s1) :
    wp (GetNextByteModbus mode) Q H s := by
  unfold wp
  cases hm : GetNextByteModbus mode s with
  | ret v s1 =>
    exact hQ v s1 (hH s s1 [] h (by rw [(GetNextByteModbus_results mode s).1 v s1 hm]; simp))
  | blocked s1 =>
    exact hH s s1 [] h (by rw [(GetNextByteModbus_results mode s).2 s1 hm]; simp)

theorem data_bytes_kept {K : FlagBits} {mode : Mode} (upd : Nat → Nat → Nat)
    {H : Analyzer → Prop} {Q : Nat → Analyzer → Prop}
    (hH : ∀ s s1 fs, H s → s1.mResults = s.mResults ++ fs → H s1) :
    ∀ (n ck : Nat) (s : Analyzer), H s → (∀ c s1, H s1 → Q c s1) →
      wp (data_bytes K mode upd n ck) Q H s := by
  intro n
  induction n with
  | zero =>
    intro ck s h hQ
    simp only [data_bytes, wp_pure]
    exact hQ _ _ h
  | succ n ih =>
    intro ck s h hQ
    simp only [data_bytes, wp_bind, wp_get_starting_frame, wp_get_ending_frame, wp_AddFrame_eq]
    refine wp_read_kept hH h (fun v s1 h1 => ?_)
    exact ih _ _ (hH s1 _ _ h1 rfl) hQ

theorem end_frame_CRC_kept {K : FlagBits} {mode : Mode} {H : Analyzer → Prop} {ck : Nat}
    {frame : Frame} {s : Analyzer} {Q : Frame → Analyzer → Prop}
    (hH : ∀ s s1 fs, H s → s1.mResults = s.mResults ++ fs → H s1) (h : H s)
    (hQ : ∀ fr s1, H s1 → Q fr s1) :
    wp (end_frame_CRC K mode ck frame) Q H s := by
  simp only [end_frame_CRC, wp_bind, wp_pure, wp_get_starting_frame]
  refine wp_read_kept hH h (fun v s1 h1 => ?_)
  refine wp_read_kept hH h1 (fun v2 s2 h2 => ?_)
  exact hQ _ _ h2

theorem end_frame_LRC_kept {K : FlagBits} {mode : Mode} {H : Analyzer → Prop} {ck : Nat}
    {frame : Frame} {s : Analyzer} {Q : Frame → Analyzer → Prop}
    (hH : ∀ s s1 fs, H s → s1.mResults = s.mResults ++ fs → H s1) (h : H s)
    (hQ : ∀ fr s1, H s1 → Q fr s1) :
    wp (end_frame_LRC K mode ck frame) Q H s := by
  simp only [end_frame_LRC, wp_bind, wp_pure, wp_get_starting_frame]
  refine wp_read_kept hH h (fun v s1 h1 => ?_)
  exact hQ _ _ h1

theorem pass_end_kept (mode : Mode) (pr : Bool) (fr : Frame) {H : Analyzer → Prop}
    {s : Analyzer} (hH : ∀ s s1 fs, H s → s1.mResults = s.mResults ++ fs → H s1) (h : H s) :
    wp (pass_end mode pr fr) (fun _ => H) H s := by
  by_cases hc : mode = .ModbusASCIIClient ∨ mode = .ModbusASCIIServer ∨ mode = .ModbusASCIIBoth
  · simp only [pass_end, hc, if_true, wp_bind, wp_pure, wp_get_ending_frame, wp_AddFrame_eq]
    refine wp_read_kept hH h (fun v s1 h1 => ?_)
    refine wp_read_kept hH h1 (fun v2 s2 h2 => ?_)
    exact hH s2 _ _ h2 rfl
  · simp only [pass_end, hc, if_false, wp_bind, wp_pure, wp_get_ending_frame, wp_AddFrame_eq]
    exact hH s _ _ h rfl

/-- C24 (amended): in each of the six Modbus modes, in the response role, on a
channel that holds the beginning of a Get Com Event Log (0x0C) response (the
start-of-frame bytes `pre` in ASCII, the address `a`, the function code 0x0C, the
byte count `bc`, the status bytes `s0 s1`, the event-count bytes `e0 e1` and the
message-count bytes `m0 m1`, in wire order) followed by any characters `rest`
(the rest of the message, whole or cut short): whether the pass returns or is
left waiting for a character, the results then hold, right after the frames
`res` that were there before, the header, with flags exactly RESPONSE, the status
bytes in `mData1 = ( a << 56 ) + ( 0x0C << 48 ) + ( s0 << 40 ) + ( s1 << 32 ) + bc`,
and `mData2 = ( e1 << 24 ) + ( e0 << 16 ) + ( m1 << 8 ) + m0` in the RTU modes and
`mData2 = ( e0 << 24 ) + ( e1 << 16 ) + ( m0 << 8 ) + m1` in the ASCII modes. -/
theorem com_event_log_header_committed (K : FlagBits) (mode : Mode) (pr : Bool)
    (a bc s0 s1 e0 e1 m0 m1 : Nat) (pre : List Nat) (cs rest : List SerialChar)
    (sf ef : Nat) (res : List Frame)
    (hmode : is_modbus mode) (hresp : is_response mode pr = true)
    (hcs : wire_bytes mode cs = some (pre ++ [a, 0x0C, bc, s0, s1, e0, e1, m0, m1]))
    (hpre : if is_rtu mode then pre = [] else start_of_frame pre) :
    ∃ hdr tl,
      (WorkerThread_message K mode pr ⟨cs ++ rest, sf, ef, res⟩).state.mResults
          = res ++ hdr :: tl
        ∧ hdr.mFlags = K.FLAG_RESPONSE_FRAME
        ∧ hdr.mData1 = pack8 a 0x0C s0 s1 0 0 0 bc
        ∧ hdr.mData2 =
            (if is_rtu mode then U64 ((e1 <<< 24) + (e0 <<< 16) + (m1 <<< 8) + m0)
              else U64 ((e0 <<< 24) + (e1 <<< 16) + (m0 <<< 8) + m1)) := by
  let H : Analyzer → Prop := fun s => ∃ hdr tl, s.mResults = res ++ hdr :: tl
    ∧ hdr.mFlags = K.FLAG_RESPONSE_FRAME
    ∧ hdr.mData1 = pack8 a 0x0C s0 s1 0 0 0 bc
    ∧ hdr.mData2 =
        (if is_rtu mode then U64 ((e1 <<< 24) + (e0 <<< 16) + (m1 <<< 8) + m0)
          else U64 ((e0 <<< 24) + (e1 <<< 16) + (m0 <<< 8) + m1))
  have hH : ∀ s t fs, H s → t.mResults = s.mResults ++ fs → H t := by
    intro s t fs ⟨hdr, tl, h1, h2⟩ ht
    exact ⟨hdr, tl ++ fs, by rw [ht, h1]; simp, h2⟩
  have hw : wp (WorkerThread_message K mode pr) (fun _ => H) H ⟨cs ++ rest, sf, ef, res⟩ := by
    rw [message_pieces]
    have hsup : Supplies mode (pre ++ a :: 0x0C :: [bc, s0, s1, e0, e1, m0, m1]) rest
        ⟨cs ++ rest, sf, ef, res⟩ := ⟨cs, rfl, by simpa using hcs⟩
    refine pass_head_sup mode hmode hpre hsup (fun frame t0 h0 r0 => ?_)
    simp only
    rw [pass_body_response K mode pr hmode hresp a 0x0C (by decide)]
    have e : response_switch K mode a 0x0C
        { frame with mFlags := K.FLAG_RESPONSE_FRAME, mData1 := 0, mData2 := 0 }
        = response_GET_COM_EVENT_LOG K mode a 0x0C
          { frame with mFlags := K.FLAG_RESPONSE_FRAME, mData1 := 0, mData2 := 0 } := by
      simp [response_switch]
    rw [e]
    simp only [response_GET_COM_EVENT_LOG, wp_bind]
    refine wp_read_supplied h0 (fun t1 h1 r1 => ?_)
    refine wp_read_supplied h1 (fun t2 h2 r2 => ?_)
    refine wp_read_supplied h2 (fun t3 h3 r3 => ?_)
    refine wp_read_supplied h3 (fun t4 h4 r4 => ?_)
    refine wp_read_supplied h4 (fun t5 h5 r5 => ?_)
    refine wp_read_supplied h5 (fun t6 h6 r6 => ?_)
    refine wp_read_supplied h6 (fun t7 h7 r7 => ?_)
    have hres7 : t7.mResults = res := by
      rw [r7, r6, r5, r4, r3, r2, r1, r0]
    by_cases hc : mode = .ModbusRTUServer ∨ mode = .ModbusRTUBoth
    · have hr : is_rtu mode = true := (response_crc_iff mode pr hmode hresp).mp hc
      simp only [hc, if_true, wp_bind]
      refine emit_header_sup h7 (fun hdr t8 _ r8 hi => ?_)
      simp only [frame_info, Prod.mk.injEq] at hi
      have h8 : H t8 := ⟨hdr, [], by rw [r8, hres7], hi.1, hi.2.1, by rw [hi.2.2, if_pos hr]⟩
      refine data_bytes_kept update_CRC hH _ _ t8 h8 (fun c t9 h9 => ?_)
      refine end_frame_CRC_kept hH h9 (fun fr t10 h10 => ?_)
      exact pass_end_kept mode pr fr hH h10
    · have hr : ¬ is_rtu mode = true :=
        fun x => hc ((response_crc_iff mode pr hmode hresp).mpr x)
      simp only [hc, if_false, wp_bind]
      refine emit_header_sup h7 (fun hdr t8 _ r8 hi => ?_)
      simp only [frame_info, Prod.mk.injEq] at hi
      have h8 : H t8 := ⟨hdr, [], by rw [r8, hres7], hi.1, hi.2.1, by rw [hi.2.2, if_neg hr]⟩
      refine data_bytes_kept LRC_add hH _ _ t8 h8 (fun c t9 h9 => ?_)
      refine end_frame_LRC_kept hH h9 (fun fr t10 h10 => ?_)
      exact pass_end_kept mode pr fr hH h10
  exact wp_state hw

theorem com_event_log_header_committed_witness :
    ∃ hdr tl,
      (WorkerThread_message sampleFlags .ModbusRTUServer false
          ⟨sampleWire [0x01, 0x0C, 0x06, 0x01, 0x02, 0x03, 0x04, 0x05, 0x06] ++ [],
            0, 0, []⟩).state.mResults = [] ++ hdr :: tl
        ∧ hdr.mFlags = sampleFlags.FLAG_RESPONSE_FRAME
        ∧ hdr.mData1 = pack8 0x01 0x0C 0x01 0x02 0 0 0 0x06
        ∧ hdr.mData2 =
            (if is_rtu .ModbusRTUServer
              then U64 ((0x04 <<< 24) + (0x03 <<< 16) + (0x06 <<< 8) + 0x05)
              else U64 ((0x03 <<< 24) + (0x04 <<< 16) + (0x05 <<< 8) + 0x06)) :=
  com_event_log_header_committed sampleFlags .ModbusRTUServer false 0x01 0x06 0x01 0x02 0x03
    0x04 0x05 0x06 [] (sampleWire [0x01, 0x0C, 0x06, 0x01, 0x02, 0x03, 0x04, 0x05, 0x06]) []
    0 0 [] (by simp [is_modbus]) rfl (by decide) (by rw [if_pos (by decide)])

theorem fifo_response_rtu_short (K : FlagBits) (mode : Mode) (pr : Bool)
    (hmode : mode = .ModbusRTUServer ∨ (mode = .ModbusRTUBoth ∧ pr = true))
    (a f b0 b1 n0 n1 : SerialChar) (ws : List SerialChar)
    (sf ef : Nat) (res : List Frame)
    (hf : f.data = 0x18) (n : Nat) (hn : U64 ((n1.data <<< 8) + n0.data) = n)
    (m : Nat) (hlen : ws.length = 2 * m) (hmn : m < n) :
    WorkerThread_message K mode pr
        ⟨a :: f :: b0 :: b1 :: n0 :: n1 :: ws, sf, ef, res⟩
      = .blocked ⟨[], (after_words ws (n1.start, n1.stop)).1,
          (after_words ws (n1.start, n1.stop)).2, res ++
          { mStartingSampleInclusive := a.start
            mEndingSampleInclusive := n1.stop
            mData1 := pack8 a.data f.data 0 0 n1.data n0.data b1.data b0.data
            mData2 := 0
            mFlags := K.FLAG_RESPONSE_FRAME } :: word_frames K ws⟩ := by
  have hrtu : mode = .ModbusRTUClient ∨ mode = .ModbusRTUServer ∨ mode = .ModbusRTUBoth := by
    rcases hmode with h | ⟨h, _⟩ <;> simp [h]
  have hdw := data_words_rtu_short K mode hrtu m ws hlen n hmn
  have e24 : (24 &&& 128 : Nat) = 0 := by decide
  rcases hmode with h | ⟨h, hpr⟩
  · subst h
    simp [WorkerThread_message, WorkerThread_parse, request_role, response_role,
      response_switch, response_READ_FIFO_QUEUE, emit_header, end_frame_CRC,
      GetNextByteModbus_rtu, get_starting_frame, get_ending_frame, AddFrame, hf, CRC,
      flag_if, hn, hdw, e24]
  · subst h; subst hpr
    simp [WorkerThread_message, WorkerThread_parse, request_role, response_role,
      response_switch, response_READ_FIFO_QUEUE, emit_header, end_frame_CRC,
      GetNextByteModbus_rtu, get_starting_frame, get_ending_frame, AddFrame, hf, CRC,
      flag_if, hn, hdw, e24]

/-- C25: the code at two Read FIFO Queue responses in RTU-Server mode. (1) The
well-formed response `01 18 00 04 00 01 AA BB` with its CRC bytes `87 15`
(byte count 4, FIFO count `00 01`, that is one word, `AA BB`): the RTU branch
computes the loop bound `( Payload2[ 1 ] << 8 ) + Payload2[ 0 ] = 256`, hands the
word and then the two CRC bytes over as DATA frames, and is left waiting for
more words; no END frame is handed over. (2) The response
`01 18 00 04 01 00 AA BB` followed by two checksum bytes, whose FIFO-count bytes
are `01` then `00` on the wire: the header, exactly one DATA frame (the word
`AA BB`) and the END frame, one DATA frame and not `0x01 * 256 + 0x00 = 256`. -/
theorem fifo_count_bytes_swapped :
    (∃ s1,
      WorkerThread_message sampleFlags .ModbusRTUServer false
          ⟨[⟨0x01, 10, 90⟩, ⟨0x18, 110, 190⟩, ⟨0x00, 210, 290⟩, ⟨0x04, 310, 390⟩,
            ⟨0x00, 410, 490⟩, ⟨0x01, 510, 590⟩, ⟨0xAA, 610, 690⟩, ⟨0xBB, 710, 790⟩,
            ⟨0x87, 810, 890⟩, ⟨0x15, 910, 990⟩], 0, 0, []⟩ = .blocked s1
        ∧ CRC [0x01, 0x18, 0x00, 0x04, 0x00, 0x01, 0xAA, 0xBB] = 0x15 * 256 + 0x87
        ∧ s1.mModbus = []
        ∧ s1.mResults.map Frame.mFlags
            = [sampleFlags.FLAG_RESPONSE_FRAME, sampleFlags.FLAG_DATA_FRAME,
                sampleFlags.FLAG_DATA_FRAME]
        ∧ s1.mResults.map Frame.mData1
            = [0x0118000001000400, (0xAA <<< 40) + (0xBB <<< 32),
                (0x87 <<< 40) + (0x15 <<< 32)])
    ∧ (∃ s1 hdr d last,
      WorkerThread_message sampleFlags .ModbusRTUServer false
          ⟨[⟨0x01, 10, 90⟩, ⟨0x18, 110, 190⟩, ⟨0x00, 210, 290⟩, ⟨0x04, 310, 390⟩,
            ⟨0x01, 410, 490⟩, ⟨0x00, 510, 590⟩, ⟨0xAA, 610, 690⟩, ⟨0xBB, 710, 790⟩,
            ⟨0x00, 810, 890⟩, ⟨0x00, 910, 990⟩], 0, 0, []⟩ = .ret true s1
        ∧ s1.mModbus = []
        ∧ s1.mResults = [hdr, d, last]
        ∧ hdr.mFlags = sampleFlags.FLAG_RESPONSE_FRAME
        ∧ d.mFlags = sampleFlags.FLAG_DATA_FRAME
        ∧ d.mData1 = (0xAA <<< 40) + (0xBB <<< 32)
        ∧ last.mFlags &&& sampleFlags.FLAG_END_FRAME ≠ 0
        ∧ [d].length ≠ 0x01 * 256 + 0x00) := by
  constructor
  · have h := fifo_response_rtu_short sampleFlags .ModbusRTUServer false (Or.inl rfl)
      ⟨0x01, 10, 90⟩ ⟨0x18, 110, 190⟩ ⟨0x00, 210, 290⟩ ⟨0x04, 310, 390⟩
      ⟨0x00, 410, 490⟩ ⟨0x01, 510, 590⟩
      [⟨0xAA, 610, 690⟩, ⟨0xBB, 710, 790⟩, ⟨0x87, 810, 890⟩, ⟨0x15, 910, 990⟩]
      0 0 [] rfl 256 (by decide) 2 rfl (by decide)
    refine ⟨_, h, by decide, rfl, rfl, ?_⟩
    simp only [List.nil_append, List.map_cons, word_frames, List.map_nil]
    refine congrArg₂ _ ?_ (congrArg₂ _ ?_ (congrArg₂ _ ?_ rfl)) <;> decide
  · have h := fifo_response_rtu sampleFlags .ModbusRTUServer false (Or.inl rfl)
      ⟨0x01, 10, 90⟩ ⟨0x18, 110, 190⟩ ⟨0x00, 210, 290⟩ ⟨0x04, 310, 390⟩
      ⟨0x01, 410, 490⟩ ⟨0x00, 510, 590⟩ ⟨0x00, 810, 890⟩ ⟨0x00, 910, 990⟩
      [⟨0xAA, 610, 690⟩, ⟨0xBB, 710, 790⟩] [] 0 0 [] rfl 1 (by decide) rfl
    refine ⟨_, _, _, _, h, rfl, rfl, rfl, rfl, ?_, ?_, by decide⟩
    · show U64 ((0xAA <<< 40) + (0xBB <<< 32)) = _
      decide
    · dsimp only
      split <;> decide

end ModbusAnalyzer
